import Mathlib

/-!
ChatRoomNix: a shallow embedding of the chat room server.

The C sources embedded here are `cr_users.c`, `cr_rooms.c`, `cr_chats.c`,
`cr_msg.c`, `cr_session_manager.c`, `h_table.c`, `cll.c`, `queue.c`,
`algorithms.c`, and the start-up checks of `cr_main.c`, `cr_shared.c`,
`cr_listener.c` and `t_pool.c`.

Conventions of the embedding.

* A byte is a `Nat` below 256; a `char` buffer is a `List Nat`, and reading
  past the end of a list yields `0` (every buffer of the server is
  zero-initialised by `calloc`, `memset` or an initialiser).
* A pointer to a `user_t` or `room_t` is the index of the object in the
  server's object store (`user_mem`, `room_mem`); `calloc` appends a fresh
  object; a nullable pointer is an `Option Nat`.
* Inside the server a circular list (`cll_t`) is represented by the sequence
  of its elements from head to tail. The pointer structure of `cll.c` and of
  `queue.c` is embedded separately, on a heap of nodes, and related to that
  sequence.
* Transport writes can fail (`env_t.ssl_ok`); memory allocation, mutex and
  file-system calls are taken to succeed.
* `rand()` is an input: `env_t.rand v k` is the `k`-th draw made while
  `is_prime` tests `v`.
* Machine integers are `Nat` with an explicit `% 2 ^ w` where the source
  can wrap.
-/

set_option autoImplicit false

namespace ChatRoom

/-! ## Return codes and protocol constants (`cr_shared.h`, `cr_msg.h`) -/

@[simp] abbrev SUCCESS : Nat := 0
@[simp] abbrev FAILURE : Nat := 1
@[simp] abbrev CONNECTION_FAILURE : Nat := 2
@[simp] abbrev THREAD_SHUTDOWN : Nat := 3
@[simp] abbrev BAD_CHAR : Nat := 4
@[simp] abbrev NO_MATCH : Nat := 5
@[simp] abbrev DONT_SEND : Nat := 0
@[simp] abbrev SEND_IT : Nat := 1
@[simp] abbrev CONTINUE : Nat := 1
@[simp] abbrev STOP : Nat := 0
@[simp] abbrev BUFF_SIZE : Nat := 1024
@[simp] abbrev KEY_LENGTH : Nat := 10

@[simp] abbrev MAX_USERNAME_LENGTH : Nat := 30
@[simp] abbrev MIN_USERNAME_LENGTH : Nat := 1
@[simp] abbrev MAX_ROOM_NAME_LENGTH : Nat := 30
@[simp] abbrev MIN_ROOM_NAME_LENGTH : Nat := 5
@[simp] abbrev ROOM_ADDED_CHARS : Nat := 12
@[simp] abbrev MAX_PASSWORD_LENGTH : Nat := 30
@[simp] abbrev MIN_PASSWORD_LENGTH : Nat := 5
@[simp] abbrev MAX_CHAT_LEN : Nat := 150
@[simp] abbrev MAX_TOTAL_USERS : Nat := 100
@[simp] abbrev MAX_CHAT_FILE_SIZE : Nat := 1024

@[simp] abbrev NOT_LOGGED_IN : Nat := 0
@[simp] abbrev LOGGED_IN : Nat := 1
@[simp] abbrev NOT_ADMIN : Nat := 0
@[simp] abbrev ADMIN : Nat := 1
@[simp] abbrev NOT_CHATTING : Nat := 0
@[simp] abbrev CHATTING : Nat := 1

@[simp] abbrev UTF_LOWER_LETTER_MIN : Nat := 97
@[simp] abbrev UTF_LOWER_LETTER_MAX : Nat := 122
@[simp] abbrev UTF_UP_LETTER_MIN : Nat := 65
@[simp] abbrev UTF_UP_LETTER_MAX : Nat := 90
@[simp] abbrev UTF_COLON : Nat := 58
@[simp] abbrev UTF_NUM_MIN : Nat := 48
@[simp] abbrev UTF_NUM_MAX : Nat := 57
@[simp] abbrev UTF_SPEC_CHAR_R1_MIN : Nat := 33
@[simp] abbrev UTF_SPEC_CHAR_R1_MAX : Nat := 47
@[simp] abbrev UTF_SPEC_CHAR_R2_MIN : Nat := 59
@[simp] abbrev UTF_SPEC_CHAR_R2_MAX : Nat := 64
@[simp] abbrev UTF_SPEC_CHAR_R3_MIN : Nat := 123
@[simp] abbrev UTF_SPEC_CHAR_R3_MAX : Nat := 126

@[simp] abbrev ROOMS_TYPE : Nat := 0
@[simp] abbrev ACCOUNT_TYPE : Nat := 1
@[simp] abbrev CHAT_TYPE : Nat := 2
@[simp] abbrev SESSION_TYPE : Nat := 3
@[simp] abbrev FAIL_TYPE : Nat := 255

@[simp] abbrev JOIN_STYPE : Nat := 0
@[simp] abbrev LIST_STYPE : Nat := 1
@[simp] abbrev CREATE_STYPE : Nat := 2
@[simp] abbrev REGISTER_STYPE : Nat := 3
@[simp] abbrev LOGIN_STYPE : Nat := 4
@[simp] abbrev ADMIN_STYPE : Nat := 5
@[simp] abbrev CHAT_STYPE : Nat := 6
@[simp] abbrev FAIL_STYPE : Nat := 7
@[simp] abbrev DEL_STYPE : Nat := 8
@[simp] abbrev ADMIN_REMOVE_STYPE : Nat := 9
@[simp] abbrev LEAVE_STYPE : Nat := 10
@[simp] abbrev LOGOUT_STYPE : Nat := 11
@[simp] abbrev QUIT_STYPE : Nat := 12

@[simp] abbrev REQUEST : Nat := 0
@[simp] abbrev RESPONSE : Nat := 1
@[simp] abbrev REJECT : Nat := 2
@[simp] abbrev ACKNOWLEDGE : Nat := 3
@[simp] abbrev UPDATE : Nat := 4

@[simp] abbrev SRV_BUSY_RCODE : Nat := 0
@[simp] abbrev SRV_ERR_RCODE : Nat := 1
@[simp] abbrev INVALID_PACKET_RCODE : Nat := 2
@[simp] abbrev USER_NAME_LEN : Nat := 3
@[simp] abbrev USER_NAME_CHAR : Nat := 4
@[simp] abbrev PASS_LEN : Nat := 5
@[simp] abbrev PASS_CHAR : Nat := 6
@[simp] abbrev USER_DOES_NOT_EXIST : Nat := 7
@[simp] abbrev INCORRECT_PASS : Nat := 8
@[simp] abbrev ADMIN_PRIV : Nat := 9
@[simp] abbrev USER_EXISTS : Nat := 10
@[simp] abbrev ROOM_EXISTS : Nat := 11
@[simp] abbrev USER_LOGGED_IN : Nat := 12
@[simp] abbrev ADMIN_SELF : Nat := 13
@[simp] abbrev MAX_USERS : Nat := 14
@[simp] abbrev MAX_CLIENTS : Nat := 15
@[simp] abbrev MAX_ROOMS : Nat := 16
@[simp] abbrev NO_ROOMS : Nat := 17
@[simp] abbrev ROOM_LEN : Nat := 18
@[simp] abbrev ROOM_CHARS : Nat := 19
@[simp] abbrev ROOM_DOES_NOT_EXIST : Nat := 21
@[simp] abbrev ROOM_IN_USE : Nat := 22

/-! ## The C string functions the server uses -/

/-- The byte at index `i` of a buffer; zero past its end. -/
def c_byte (s : List Nat) (i : Nat) : Nat := s.getD i 0

/-- The characters of the NUL-terminated string that starts the buffer. -/
def c_str (s : List Nat) : List Nat := s.takeWhile (fun b => b != 0)

/-- C `strlen`. -/
def c_strlen (s : List Nat) : Nat := (c_str s).length

/-- C `strnlen`. -/
def c_strnlen (s : List Nat) (n : Nat) : Nat := c_strlen (s.take n)

/-- C `strncmp(a, b, n) == 0`: the first `n` bytes agree up to and including
the first NUL. -/
def c_strncmp_eq : List Nat → List Nat → Nat → Bool
  | _, _, 0 => true
  | a, b, n + 1 =>
    if a.headD 0 != b.headD 0 then false
    else if a.headD 0 == 0 then true
    else c_strncmp_eq a.tail b.tail n

/-- C `strncpy(dst, src, n)`: the first `n` bytes of `dst` become the string
of `src` (cut at `n` bytes) padded with NULs; the rest of `dst` is kept. -/
def c_strncpy (dst src : List Nat) (n : Nat) : List Nat :=
  let s := c_str (src.take n)
  s ++ List.replicate (n - s.length) 0 ++ dst.drop n

/-- The assignment `buf[i] = 0`. -/
def c_set_nul (buf : List Nat) (i : Nat) : List Nat := buf.set i 0

/-- A zero-initialised buffer of `n` bytes. -/
def c_zeros (n : Nat) : List Nat := List.replicate n 0

/-- The `len` bytes at offset `off` of a received buffer (a packed struct
field read through `memcpy`); bytes past the end of the buffer are zero. -/
def c_field (buf : List Nat) (off len : Nat) : List Nat :=
  let f := (buf.drop off).take len
  f ++ List.replicate (len - f.length) 0

/-! ## Validation of user names and passwords (`cr_users.c`) -/

/-- The character test in the loop of `cr_users_chk_str_chars`. -/
def cr_users_char_ok (c : Nat) : Bool :=
  if UTF_LOWER_LETTER_MIN ≤ c ∧ UTF_LOWER_LETTER_MAX ≥ c then true
  else if UTF_UP_LETTER_MIN ≤ c ∧ UTF_UP_LETTER_MAX ≥ c then true
  else if UTF_NUM_MIN ≤ c ∧ UTF_NUM_MAX ≥ c then true
  else if (UTF_SPEC_CHAR_R1_MIN ≤ c ∧ UTF_SPEC_CHAR_R1_MAX ≥ c) ∨
          (UTF_SPEC_CHAR_R2_MIN ≤ c ∧ UTF_SPEC_CHAR_R2_MAX ≥ c) ∨
          (UTF_SPEC_CHAR_R3_MIN ≤ c ∧ UTF_SPEC_CHAR_R3_MAX ≥ c) then true
  else false

/-- The loop of `cr_users_chk_str_chars` over the bytes still to be read. -/
def cr_users_chk_str_chars_loop : List Nat → Nat
  | [] => SUCCESS
  | c :: rest => if cr_users_char_ok c then cr_users_chk_str_chars_loop rest else BAD_CHAR

/-- `cr_users_chk_str_chars`: looks at the first `strnlen(p_string, 30)`
bytes. -/
def cr_users_chk_str_chars (p_string : List Nat) : Nat :=
  let str_len := c_strnlen p_string MAX_USERNAME_LENGTH
  cr_users_chk_str_chars_loop (p_string.take str_len)

/-- `cr_users_chk_usr_and_pass`. Both buffers get a NUL at index 30 first. -/
def cr_users_chk_usr_and_pass (p_username p_password : List Nat) (user_count : Nat) : Nat :=
  let p_username := c_set_nul p_username MAX_USERNAME_LENGTH
  let p_password := c_set_nul p_password MAX_PASSWORD_LENGTH
  if c_strlen p_username < MIN_USERNAME_LENGTH then USER_NAME_LEN
  else if c_strlen p_password < MIN_PASSWORD_LENGTH then PASS_LEN
  else if cr_users_chk_str_chars p_username = BAD_CHAR then USER_NAME_CHAR
  else if cr_users_chk_str_chars p_password = BAD_CHAR then PASS_CHAR
  else if user_count ≥ MAX_TOTAL_USERS then MAX_USERS
  else SUCCESS

/-! ## Primes for the hash table capacity (`algorithms.c`) -/

/-- The loop of `modular_pow`; the first argument bounds the number of
iterations (the exponent halves every time, so the exponent itself is
enough). -/
def modular_pow_loop : Nat → Nat → Nat → Nat → Nat → Nat
  | 0, result, _, _, _ => result
  | fuel + 1, result, base, exponent, modulus =>
    if exponent > 0 then
      let result := if exponent % 2 = 1 then (result * base) % modulus else result
      let base := (base * base) % modulus
      modular_pow_loop fuel result base (exponent / 2) modulus
    else result

/-- `modular_pow`. The products are formed in `int`; they are exact for a
modulus below 46341. -/
def modular_pow (base exponent modulus : Nat) : Nat :=
  modular_pow_loop exponent 1 (base % modulus) exponent modulus

/-- The loop of `is_prime` that factors the powers of two out of
`value - 1`; returns `(odd_int, power_of_two)`. -/
def is_prime_factor : Nat → Nat → Nat → Nat × Nat
  | 0, odd_int, power_of_two => (odd_int, power_of_two)
  | fuel + 1, odd_int, power_of_two =>
    if odd_int % 2 = 0 then is_prime_factor fuel (odd_int / 2) (power_of_two + 1)
    else (odd_int, power_of_two)

/-- The inner `counter2` loop of `is_prime`: `none` when it returns `false`,
otherwise the final `calculation_2`. -/
def is_prime_inner : Nat → Nat → Nat → Nat → Option Nat
  | 0, _, calculation_2, _ => some calculation_2
  | n + 1, calculation_1, _, value =>
    let calculation_2 := modular_pow calculation_1 2 value
    if calculation_2 = 1 ∧ calculation_1 ≠ 1 ∧ calculation_1 ≠ value - 1 then none
    else is_prime_inner n calculation_2 calculation_2 value

/-- One round of the `counter1` loop of `is_prime` with the draw `r`:
`true` when the round does not return `false`. -/
def is_prime_round (r value odd_int power_of_two : Nat) : Bool :=
  let max_number := value - 2
  let minimum_number := 2
  let prime_base := (r % (max_number + 1 - minimum_number) + minimum_number) % 65536
  let calculation_1 := modular_pow prime_base odd_int value
  if calculation_1 = 1 ∨ calculation_1 = value - 1 then true
  else
    match is_prime_inner power_of_two calculation_1 0 value with
    | none => false
    | some calculation_2 => calculation_2 = 1

/-- `is_prime` (Miller-Rabin, `ROUND_COUNT` = 5 rounds); `rand k` is the
`k`-th value returned by `rand()`. -/
def is_prime (rand : Nat → Nat) (value : Nat) : Bool :=
  if value ≤ 1 then false
  else if value ≤ 3 then true
  else
    let f := is_prime_factor value (value - 1) 0
    (List.range 5).all (fun k => is_prime_round (rand k) value f.1 f.2)

/-- The `for` loop of `next_prime`: `value` advances by two while it is
below `double_value_holder`. -/
def next_prime_loop (rand : Nat → Nat → Nat) : Nat → Nat → Nat → Nat
  | 0, _, _ => FAILURE
  | fuel + 1, value, double_value_holder =>
    if value < double_value_holder then
      if is_prime (rand value) value then value
      else next_prime_loop rand fuel ((value + 2) % 65536) double_value_holder
    else FAILURE

/-- `next_prime` on a `uint16_t`. -/
def next_prime (rand : Nat → Nat → Nat) (value : Nat) : Nat :=
  if value ≤ 1 then 2
  else if value = 2 then 3
  else
    let value := if value % 2 = 0 then (value + 1) % 65536 else (value + 2) % 65536
    let double_value_holder := (value * 2) % 65536
    next_prime_loop rand (double_value_holder + 1) value double_value_holder

/-! ## The hash table (`h_table.c`) -/

/-- An `entry_t`: the bytes `p_key` points to and the data pointer. -/
structure entry_t where
  p_key : List Nat
  p_data : Nat
deriving DecidableEq, Repr

/-- An `h_table_t`; a `NULL` slot of `pp_array` is `none`, a list slot holds
the entries of its `cll_t` from head to tail. -/
structure h_table_t where
  size : Nat
  capacity : Nat
  pp_array : List (Option (List entry_t))
deriving DecidableEq, Repr

/-- The value `hash ^= data[counter]` xors in: `char` is signed on the
target, so a byte of 128 or more is sign-extended to 32 bits. -/
def c_char_to_u32 (b : Nat) : Nat := if b < 128 then b else b + 4294967040

/-- The loop of `h_table_hash_function` over `counter` = `i`, ... -/
def h_table_hash_loop (data : List Nat) : Nat → Nat → Nat → Nat
  | 0, _, hash => hash
  | n + 1, i, hash =>
    let hash := (hash * 16777619) % 4294967296
    let hash := hash ^^^ c_char_to_u32 (c_byte data i)
    h_table_hash_loop data n (i + 1) hash

/-- `h_table_hash_function`: FNV-1 over the first `KEY_LENGTH` bytes of the
key, whatever they hold. -/
def h_table_hash_function (p_key : List Nat) : Nat :=
  h_table_hash_loop p_key KEY_LENGTH 0 2166136261

/-- `h_table_init` with the default hash function. -/
def h_table_init (capacity : Nat) : h_table_t :=
  { size := 0, capacity := capacity, pp_array := List.replicate capacity none }

/-- `h_table_duplicate_data_check`: `FAILURE` when an entry of the list has
a key that `strncmp` finds equal on `KEY_LENGTH` bytes. -/
def h_table_duplicate_data_check : List entry_t → List Nat → Nat
  | [], _ => SUCCESS
  | e :: rest, p_key =>
    if c_strncmp_eq p_key e.p_key KEY_LENGTH then FAILURE
    else h_table_duplicate_data_check rest p_key

/-- The slot index `hash % capacity`. -/
def h_table_index (t : h_table_t) (p_key : List Nat) : Nat :=
  h_table_hash_function p_key % t.capacity

/-- `h_table_new_entry_add`. -/
def h_table_new_entry_add (t : h_table_t) (p_new_entry : entry_t) : Nat × h_table_t :=
  let entry_index := h_table_index t p_new_entry.p_key
  match t.pp_array.getD entry_index none with
  | none =>
    (SUCCESS, { t with pp_array := t.pp_array.set entry_index (some [p_new_entry]),
                       size := (t.size + 1) % 65536 })
  | some p_temp_cll =>
    if h_table_duplicate_data_check p_temp_cll p_new_entry.p_key = FAILURE then (FAILURE, t)
    else
      (SUCCESS, { t with pp_array := t.pp_array.set entry_index (some (p_temp_cll ++ [p_new_entry])),
                         size := (t.size + 1) % 65536 })

/-- `h_table_list`: every entry of the table, slot by slot. -/
def h_table_list (t : h_table_t) : List entry_t :=
  (t.pp_array.map (fun slot => slot.getD [])).flatten

/-- `h_table_list_to_table`: stops at the first entry that cannot be
added. -/
def h_table_list_to_table : h_table_t → List entry_t → Nat × h_table_t
  | t, [] => (SUCCESS, t)
  | t, e :: rest =>
    let r := h_table_new_entry_add t e
    if r.1 = FAILURE then (FAILURE, r.2) else h_table_list_to_table r.2 rest

/-- `h_table_re_hash`. The load factor `size / capacity` is compared with
`0.75` and `1` exactly. -/
def h_table_re_hash (rand : Nat → Nat → Nat) (t : h_table_t) : Nat × h_table_t :=
  if t.capacity = 0 then (FAILURE, t)
  else if t.size > t.capacity then (FAILURE, t)
  else if 4 * t.size < 3 * t.capacity then (SUCCESS, t)
  else
    let p_temp_cll := h_table_list t
    let capacity_holder := t.capacity
    let capacity := next_prime rand capacity_holder
    let t1 : h_table_t :=
      { size := 0, capacity := capacity, pp_array := t.pp_array.map (fun _ => none) }
    if capacity = FAILURE then (FAILURE, t1)
    else if capacity < capacity_holder then (FAILURE, t1)
    else
      let t2 : h_table_t := { t1 with pp_array := List.replicate capacity none }
      h_table_list_to_table t2 p_temp_cll

/-- `h_table_new_entry`. -/
def h_table_new_entry (rand : Nat → Nat → Nat) (t : h_table_t) (p_data : Nat)
    (p_key : List Nat) : Nat × h_table_t :=
  let r := h_table_re_hash rand t
  if r.1 = FAILURE then (FAILURE, r.2)
  else h_table_new_entry_add r.2 { p_key := p_key, p_data := p_data }

/-- The scan of a slot in `h_table_return_entry`. -/
def h_table_find : List entry_t → List Nat → Option Nat
  | [], _ => none
  | e :: rest, p_key =>
    if c_strncmp_eq p_key e.p_key KEY_LENGTH then some e.p_data
    else h_table_find rest p_key

/-- `h_table_return_entry`. -/
def h_table_return_entry (t : h_table_t) (p_key : List Nat) : Option Nat :=
  match t.pp_array.getD (h_table_index t p_key) none with
  | none => none
  | some p_temp_cll => h_table_find p_temp_cll p_key

/-- The scan of a slot in `h_table_destroy_entry`: the list without the
first entry whose key matches. -/
def h_table_remove : List entry_t → List Nat → List entry_t
  | [], _ => []
  | e :: rest, p_key =>
    if c_strncmp_eq p_key e.p_key KEY_LENGTH then rest
    else e :: h_table_remove rest p_key

/-- `h_table_destroy_entry`: the data pointer of the removed entry, or
`none`; a slot that becomes empty is reset to `NULL`. -/
def h_table_destroy_entry (t : h_table_t) (p_key : List Nat) : Option Nat × h_table_t :=
  let entry_index := h_table_index t p_key
  match t.pp_array.getD entry_index none with
  | none => (none, t)
  | some p_temp_cll =>
    match h_table_find p_temp_cll p_key with
    | none => (none, t)
    | some p_data_holder =>
      let l := h_table_remove p_temp_cll p_key
      (some p_data_holder,
        { t with pp_array := t.pp_array.set entry_index (if l.length = 0 then none else some l),
                 size := (t.size + 65535) % 65536 })

/-! ## Server data (`cr_shared.h`) -/

/-- A `user_t`; `p_ssl_holder` names the transport of the owning session. -/
structure user_t where
  p_username : List Nat
  p_password : List Nat
  p_chat_room : List Nat
  login_status : Nat
  admin_status : Nat
  p_ssl_holder : Nat
deriving DecidableEq, Repr

/-- A `room_t`; `p_users` is the membership list of user pointers. -/
structure room_t where
  p_room_name : List Nat
  p_room_location : List Nat
  p_users : List Nat
deriving DecidableEq, Repr

/-- A `users_t`. The three counters are `uint8_t`. -/
structure users_t where
  p_users_table : h_table_t
  user_count : Nat
  client_count : Nat
  max_client : Nat
deriving DecidableEq, Repr

/-- A `rooms_t`. The counters are `uint8_t`. -/
structure rooms_t where
  p_rooms_table : h_table_t
  room_count : Nat
  max_rooms : Nat
deriving DecidableEq, Repr

/-- What the sessions share: the two directories, the objects they point
to, the files of the working directory and the shutdown flag. -/
structure server_t where
  users : users_t
  rooms : rooms_t
  user_mem : List user_t
  room_mem : List room_t
  users_txt : List Nat
  room_names_log : List Nat
  room_logs : List (List Nat × List Nat)
  server_interrupt : Nat
deriving DecidableEq, Repr

/-- The per-connection variables of `cr_sm_session_manager`. -/
structure session_t where
  p_ssl_holder : Nat
  logged_in : Nat
  chatting : Nat
  pp_user : Option Nat
deriving DecidableEq, Repr

/-- One successful `SSL_write`: the transport and the bytes. -/
structure write_t where
  dest : Nat
  data : List Nat
deriving DecidableEq, Repr

/-- What the environment decides during one step: whether writes to a
transport succeed, and the values `rand()` returns. -/
structure env_t where
  ssl_ok : Nat → Bool
  rand : Nat → Nat → Nat

/-- The result of a handler: return code, shared state, frames written. -/
structure res_t where
  rc : Nat
  srv : server_t
  out : List write_t
deriving DecidableEq, Repr

/-- The result of a handler that also updates the session variables. -/
structure sres_t where
  rc : Nat
  srv : server_t
  sess : session_t
  out : List write_t
deriving DecidableEq, Repr

/-- A zero-filled `user_t`, as `calloc` returns it. -/
def user_calloc : user_t :=
  { p_username := c_zeros (MAX_USERNAME_LENGTH + 1), p_password := c_zeros (MAX_PASSWORD_LENGTH + 1),
    p_chat_room := c_zeros (MAX_ROOM_NAME_LENGTH + 1), login_status := 0, admin_status := 0,
    p_ssl_holder := 0 }

/-- A zero-filled `room_t` with an initialised, empty member list. -/
def room_calloc : room_t :=
  { p_room_name := c_zeros (MAX_ROOM_NAME_LENGTH + 1),
    p_room_location := c_zeros (MAX_ROOM_NAME_LENGTH + ROOM_ADDED_CHARS), p_users := [] }

/-- The `user_t` a pointer refers to. -/
def user_at (srv : server_t) (p : Nat) : user_t := srv.user_mem.getD p user_calloc

/-- A store through a `user_t` pointer. -/
def user_put (srv : server_t) (p : Nat) (u : user_t) : server_t :=
  { srv with user_mem := srv.user_mem.set p u }

/-- The `room_t` a pointer refers to. -/
def room_at (srv : server_t) (p : Nat) : room_t := srv.room_mem.getD p room_calloc

/-- A store through a `room_t` pointer. -/
def room_put (srv : server_t) (p : Nat) (r : room_t) : server_t :=
  { srv with room_mem := srv.room_mem.set p r }

/-- The contents of the file at a path, if it exists. -/
def file_read (fs : List (List Nat × List Nat)) (path : List Nat) : Option (List Nat) :=
  (fs.find? (fun f => f.1 == path)).map (fun f => f.2)

/-- The file system after the file at a path is removed. -/
def file_remove (fs : List (List Nat × List Nat)) (path : List Nat) : List (List Nat × List Nat) :=
  fs.filter (fun f => !(f.1 == path))

/-- The file system after the file at a path is created or replaced. -/
def file_write (fs : List (List Nat × List Nat)) (path content : List Nat) :
    List (List Nat × List Nat) :=
  (path, content) :: file_remove fs path

/-- C `fgets(buf, k + 1, fp)`: at most `k` bytes, stopping after a newline;
returns the bytes read and the rest of the file. -/
def c_fgets : Nat → List Nat → List Nat × List Nat
  | 0, s => ([], s)
  | _, [] => ([], [])
  | k + 1, c :: s =>
    if c = 10 then ([c], s)
    else let r := c_fgets k s; (c :: r.1, r.2)

/-- The successive results of `fgets(buf, k + 1, fp)` until end of file; the
first argument bounds the number of calls (every call consumes a byte). -/
def c_fgets_all (k : Nat) : Nat → List Nat → List (List Nat)
  | 0, _ => []
  | fuel + 1, s =>
    if s = [] then []
    else let r := c_fgets k s; r.1 :: c_fgets_all k fuel r.2

/-! ## Frames (`cr_msg.c`) -/

/-- `cr_msg_send_rej`: `SSL_write` of a 4-byte `rejection_t`. -/
def cr_msg_send_rej (env : env_t) (p_ssl type sub_type reject_code : Nat) : Nat × List write_t :=
  if env.ssl_ok p_ssl then
    (SUCCESS, [{ dest := p_ssl, data := [type, sub_type, REJECT, reject_code] }])
  else (CONNECTION_FAILURE, [])

/-- `cr_msg_send_ack`: `SSL_write` of a 3-byte `acknowledge_t`. -/
def cr_msg_send_ack (env : env_t) (p_ssl type sub_type : Nat) : Nat × List write_t :=
  if env.ssl_ok p_ssl then
    (SUCCESS, [{ dest := p_ssl, data := [type, sub_type, ACKNOWLEDGE] }])
  else (CONNECTION_FAILURE, [])

/-- `cr_msg_create_update`: the 185 bytes of a `chat_t`. -/
def cr_msg_create_update (p_username p_chat : List Nat) : List Nat :=
  let b0 := c_zeros (MAX_USERNAME_LENGTH + MAX_CHAT_LEN + 2)
  let b1 := c_strncpy b0 p_username MAX_USERNAME_LENGTH
  let b2 := b1.take MAX_USERNAME_LENGTH ++ c_strncpy (b1.drop MAX_USERNAME_LENGTH) [62] 1
  let b3 := b2.take (MAX_USERNAME_LENGTH + 1) ++
    c_strncpy (b2.drop (MAX_USERNAME_LENGTH + 1)) p_chat MAX_CHAT_LEN
  [CHAT_TYPE, CHAT_STYPE, ACKNOWLEDGE] ++ b3

/-- `cr_msg_send_update`. -/
def cr_msg_send_update (env : env_t) (p_ssl : Nat) (p_username p_chat : List Nat) :
    Nat × List write_t :=
  if env.ssl_ok p_ssl then
    (SUCCESS, [{ dest := p_ssl, data := cr_msg_create_update p_username p_chat }])
  else (CONNECTION_FAILURE, [])

/-- `cr_msg_send_file_ack`: the acknowledge header, then the bytes of the
file in a second write; `FAILURE` when the file cannot be opened. -/
def cr_msg_send_file_ack (env : env_t) (p_ssl type sub_type : Nat) (file : Option (List Nat)) :
    Nat × List write_t :=
  let a := cr_msg_send_ack env p_ssl type sub_type
  if a.1 = FAILURE ∨ a.1 = CONNECTION_FAILURE then a
  else
    match file with
    | none => (FAILURE, a.2)
    | some content => (SUCCESS, a.2 ++ [{ dest := p_ssl, data := content }])

/-! ## The user directory (`cr_users.c`) -/

/-- The `p_username` field of a request struct copied from the receive
buffer, with the terminator forced at index 30. -/
def req_p_username (p_buffer : List Nat) : List Nat :=
  c_set_nul (c_field p_buffer 3 (MAX_USERNAME_LENGTH + 1)) MAX_USERNAME_LENGTH

/-- The `p_password` field of a register or login request, with the
terminator forced at index 30. -/
def req_p_password (p_buffer : List Nat) : List Nat :=
  c_set_nul (c_field p_buffer (3 + (MAX_USERNAME_LENGTH + 1)) (MAX_PASSWORD_LENGTH + 1))
    MAX_PASSWORD_LENGTH

/-- The string that `strlen` and `fputs` read at `p_user->p_username`: the
three `char` arrays of a `user_t` are adjacent, so a user name that fills all
31 bytes runs on into `p_password`. -/
def user_name_str (u : user_t) : List Nat := c_str (u.p_username ++ u.p_password ++ u.p_chat_room)

/-- The loop of `cr_users_from_buf` over the characters still to read;
`to_password` tells which field `copy_to` points at and `counter` equals
`index - offset`. The character test is that of `cr_users_chk_str_chars`. -/
def cr_users_from_buf_loop : List Nat → user_t → Bool → Nat → Option user_t
  | [], u, _, _ => some u
  | c :: rest, u, to_password, counter =>
    if MAX_USERNAME_LENGTH < counter then none
    else if cr_users_char_ok c then
      let u1 : user_t :=
        if to_password then { u with p_password := u.p_password.set counter c }
        else { u with p_username := u.p_username.set counter c }
      cr_users_from_buf_loop rest u1 to_password (counter + 1)
    else if c = UTF_COLON then cr_users_from_buf_loop rest u true 0
    else if c = 10 then some u
    else none

/-- `cr_users_from_buf`: `none` stands for `FAILURE`. -/
def cr_users_from_buf (p_user : user_t) (p_buffer : List Nat) : Option user_t :=
  cr_users_from_buf_loop (c_str p_buffer) p_user false 0

/-- The text `admin`. -/
def admin_text : List Nat := [97, 100, 109, 105, 110]

@[simp] abbrev USERS_FULL : Nat := 2
@[simp] abbrev USER_PRESENT : Nat := 3

/-- `cr_users_add_file_user`. -/
def cr_users_add_file_user (rand : Nat → Nat → Nat) (srv : server_t) (p_buffer : List Nat) :
    Nat × server_t :=
  if srv.users.user_count = MAX_TOTAL_USERS then (USERS_FULL, srv)
  else
    match cr_users_from_buf user_calloc p_buffer with
    | none => (FAILURE, srv)
    | some u =>
      if h_table_return_entry srv.users.p_users_table u.p_username ≠ none then (USER_PRESENT, srv)
      else
        let name := user_name_str u
        let u1 : user_t :=
          { u with admin_status :=
              if c_strncmp_eq name admin_text name.length then ADMIN else NOT_ADMIN }
        let p_user := srv.user_mem.length
        let r := h_table_new_entry rand srv.users.p_users_table p_user u1.p_username
        let srv1 : server_t :=
          { srv with user_mem := srv.user_mem ++ [u1],
                     users := { srv.users with p_users_table := r.2 } }
        if r.1 = FAILURE then (FAILURE, srv1)
        else
          (SUCCESS, { srv1 with users :=
            { srv1.users with user_count := (srv1.users.user_count + 1) % 256 } })

/-- The `while` loop of `cr_users_start` over the pieces `fgets` returns;
`none` stands for `FAILURE`. -/
def cr_users_start_loop (rand : Nat → Nat → Nat) : server_t → List (List Nat) → Option server_t
  | srv, [] => some srv
  | srv, p_buffer :: rest =>
    let r := cr_users_add_file_user rand srv p_buffer
    if r.1 = USERS_FULL then some r.2
    else if r.1 = FAILURE then none
    else cr_users_start_loop rand r.2 rest

/-- `cr_users_start`: `users.txt` is read with `fgets(p_buffer, BUFF_SIZE)`. -/
def cr_users_start (rand : Nat → Nat → Nat) (srv : server_t) : Option server_t :=
  cr_users_start_loop rand srv (c_fgets_all (BUFF_SIZE - 1) srv.users_txt.length srv.users_txt)

/-- The shared state `cr_listener` builds for a configuration and a
`users.txt` before it starts to accept connections: two empty tables of
prime capacity (held in a `uint8_t`), the users loaded by `cr_users_start`,
and the empty `rooms/room_names.log` of `cr_rooms_start`; `none` when the
start fails. -/
def cr_listener_init (rand : Nat → Nat → Nat) (max_rooms max_client : Nat)
    (users_txt : List Nat) : Option server_t :=
  cr_users_start rand
    { users := { p_users_table := h_table_init (next_prime rand max_client % 256),
                 user_count := 0, client_count := 0, max_client := max_client },
      rooms := { p_rooms_table := h_table_init (next_prime rand max_rooms % 256),
                 room_count := 0, max_rooms := max_rooms },
      user_mem := [], room_mem := [], users_txt := users_txt, room_names_log := [],
      room_logs := [], server_interrupt := CONTINUE }

/-- `cr_users_add_user_file`: appends a newline and then `user:pass`. -/
def cr_users_add_user_file (srv : server_t) (p_userpass : List Nat) : server_t :=
  { srv with users_txt := srv.users_txt ++ [10] ++ c_str p_userpass }

/-- The `user_t` that `cr_users_add_user_table` allocates: zeroed by `calloc`,
then the two `strncpy` calls of `strlen` bytes each. -/
def cr_users_new_user (p_username p_password : List Nat) : user_t :=
  { user_calloc with
    p_username := c_strncpy user_calloc.p_username p_username (c_strlen p_username),
    p_password := c_strncpy user_calloc.p_password p_password (c_strlen p_password) }

/-- `cr_users_add_user_table`: a fresh zeroed `user_t` receives the two
strings and is entered in the table under its own `p_username`. -/
def cr_users_add_user_table (env : env_t) (srv : server_t) (p_username p_password : List Nat) :
    Nat × server_t :=
  let p_user := srv.user_mem.length
  let u := cr_users_new_user p_username p_password
  let r := h_table_new_entry env.rand srv.users.p_users_table p_user u.p_username
  let srv1 : server_t :=
    { srv with user_mem := srv.user_mem ++ [u], users := { srv.users with p_users_table := r.2 } }
  if r.1 = FAILURE then (FAILURE, srv1) else (SUCCESS, srv1)

/-- `cr_users_reg_helper`. -/
def cr_users_reg_helper (env : env_t) (srv : server_t) (p_ssl : Nat)
    (p_username p_password : List Nat) : res_t :=
  let p_userpass := (c_str p_username ++ [UTF_COLON] ++ c_str p_password).take
    (MAX_USERNAME_LENGTH + MAX_PASSWORD_LENGTH + 2)
  let add_1 := cr_users_add_user_table env srv p_username p_password
  let srv2 := cr_users_add_user_file add_1.2 p_userpass
  if add_1.1 = FAILURE then { rc := FAILURE, srv := srv2, out := [] }
  else
    let a := cr_msg_send_ack env p_ssl ACCOUNT_TYPE REGISTER_STYPE
    if a.1 = FAILURE ∨ a.1 = CONNECTION_FAILURE then { rc := a.1, srv := srv2, out := a.2 }
    else { rc := SUCCESS, srv := srv2, out := a.2 }

/-- `cr_users_register`. -/
def cr_users_register (env : env_t) (srv : server_t) (p_ssl : Nat) (p_buffer : List Nat) : res_t :=
  let p_username := req_p_username p_buffer
  let p_password := req_p_password p_buffer
  let p_user := h_table_return_entry srv.users.p_users_table p_username
  let user_count := srv.users.user_count
  if p_user ≠ none then
    let w := cr_msg_send_rej env p_ssl ACCOUNT_TYPE REGISTER_STYPE USER_EXISTS
    { rc := w.1, srv := srv, out := w.2 }
  else
    let return_val := cr_users_chk_usr_and_pass p_username p_password user_count
    if return_val = FAILURE then { rc := FAILURE, srv := srv, out := [] }
    else if return_val ≠ SUCCESS then
      let w := cr_msg_send_rej env p_ssl ACCOUNT_TYPE REGISTER_STYPE return_val
      { rc := w.1, srv := srv, out := w.2 }
    else cr_users_reg_helper env srv p_ssl p_username p_password

/-- `cr_users_login_helper`. -/
def cr_users_login_helper (env : env_t) (srv : server_t) (sess : session_t)
    (p_username p_password : List Nat) : sres_t :=
  let p_ssl := sess.p_ssl_holder
  let p_user := h_table_return_entry srv.users.p_users_table p_username
  if srv.users.client_count ≥ srv.users.max_client then
    let w := cr_msg_send_rej env p_ssl ACCOUNT_TYPE LOGIN_STYPE MAX_CLIENTS
    { rc := w.1, srv := srv, sess := sess, out := w.2 }
  else
    match p_user with
    | none =>
      let w := cr_msg_send_rej env p_ssl ACCOUNT_TYPE LOGIN_STYPE USER_DOES_NOT_EXIST
      { rc := w.1, srv := srv, sess := sess, out := w.2 }
    | some p =>
      let u := user_at srv p
      if u.login_status = LOGGED_IN then
        let w := cr_msg_send_rej env p_ssl ACCOUNT_TYPE LOGIN_STYPE USER_LOGGED_IN
        { rc := w.1, srv := srv, sess := sess, out := w.2 }
      else
        let p_password := c_set_nul p_password MAX_PASSWORD_LENGTH
        let p_user_password_len := c_strnlen u.p_password MAX_PASSWORD_LENGTH
        let login_req_password_len := c_strnlen p_password MAX_PASSWORD_LENGTH
        if p_user_password_len ≠ login_req_password_len ∨
            c_strncmp_eq p_password u.p_password p_user_password_len = false then
          let w := cr_msg_send_rej env p_ssl ACCOUNT_TYPE LOGIN_STYPE INCORRECT_PASS
          { rc := w.1, srv := srv, sess := sess, out := w.2 }
        else
          let a := cr_msg_send_ack env p_ssl ACCOUNT_TYPE LOGIN_STYPE
          if a.1 = FAILURE ∨ a.1 = CONNECTION_FAILURE then
            { rc := a.1, srv := srv, sess := sess, out := a.2 }
          else
            let srv1 := user_put srv p
              { u with p_ssl_holder := sess.p_ssl_holder, login_status := LOGGED_IN }
            let srv2 : server_t :=
              { srv1 with users :=
                  { srv1.users with client_count := (srv1.users.client_count + 1) % 256 } }
            { rc := SUCCESS, srv := srv2,
              sess := { sess with pp_user := some p, logged_in := LOGGED_IN }, out := a.2 }

/-- `cr_users_login`. -/
def cr_users_login (env : env_t) (srv : server_t) (sess : session_t) (p_buffer : List Nat) :
    sres_t :=
  let r := cr_users_login_helper env srv sess (req_p_username p_buffer) (req_p_password p_buffer)
  if r.rc = FAILURE ∨ r.rc = CONNECTION_FAILURE then r else { r with rc := SUCCESS }

/-- `cr_users_admin_helper_2`. -/
def cr_users_admin_helper_2 (srv : server_t) (p_username : List Nat) (admin_set_to : Nat) :
    Nat × server_t :=
  match h_table_return_entry srv.users.p_users_table p_username with
  | none => (USER_DOES_NOT_EXIST, srv)
  | some p =>
    let u := user_at srv p
    if u.login_status = LOGGED_IN then (USER_LOGGED_IN, srv)
    else (SUCCESS, user_put srv p { u with admin_status := admin_set_to })

/-- `cr_users_admin_helper_1`. -/
def cr_users_admin_helper_1 (env : env_t) (srv : server_t) (p_username : List Nat)
    (p_ssl admin_set_to sub_type : Nat) : res_t :=
  let h := cr_users_admin_helper_2 srv p_username admin_set_to
  if h.1 = FAILURE then { rc := FAILURE, srv := h.2, out := [] }
  else if h.1 ≠ SUCCESS then
    let w := cr_msg_send_rej env p_ssl ACCOUNT_TYPE sub_type h.1
    { rc := w.1, srv := h.2, out := w.2 }
  else
    let a := cr_msg_send_ack env p_ssl ACCOUNT_TYPE sub_type
    { rc := a.1, srv := h.2, out := a.2 }

/-- `cr_users_admin`; `p_user` is the requester. -/
def cr_users_admin (env : env_t) (srv : server_t) (p_ssl : Nat) (p_buffer : List Nat)
    (p_user admin_set_to : Nat) : res_t :=
  let sub_type := if admin_set_to = ADMIN then ADMIN_STYPE else ADMIN_REMOVE_STYPE
  let p_username := req_p_username p_buffer
  if c_strncmp_eq (user_at srv p_user).p_username p_username MAX_USERNAME_LENGTH then
    let w := cr_msg_send_rej env p_ssl ACCOUNT_TYPE sub_type ADMIN_SELF
    { rc := w.1, srv := srv, out := w.2 }
  else if (user_at srv p_user).admin_status = NOT_ADMIN then
    let w := cr_msg_send_rej env p_ssl ACCOUNT_TYPE sub_type ADMIN_PRIV
    { rc := w.1, srv := srv, out := w.2 }
  else cr_users_admin_helper_1 env srv p_username p_ssl admin_set_to sub_type

/-- `cr_users_logout`; the caller has checked that `p_user` is not `NULL`. -/
def cr_users_logout (env : env_t) (srv : server_t) (sess : session_t) (p_user send_message : Nat) :
    sres_t :=
  let a := if send_message = SEND_IT
    then cr_msg_send_ack env sess.p_ssl_holder ACCOUNT_TYPE LOGOUT_STYPE else (SUCCESS, [])
  if a.1 = FAILURE ∨ a.1 = CONNECTION_FAILURE then
    { rc := a.1, srv := srv, sess := sess, out := a.2 }
  else
    let srv1 := user_put srv p_user { user_at srv p_user with login_status := NOT_LOGGED_IN }
    let srv2 : server_t :=
      { srv1 with users :=
          { srv1.users with client_count := (srv1.users.client_count + 255) % 256 } }
    { rc := SUCCESS, srv := srv2, sess := { sess with logged_in := NOT_LOGGED_IN }, out := a.2 }

/-- `cr_users_remove_table`. -/
def cr_users_remove_table (env : env_t) (srv : server_t) (p_ssl : Nat) (p_username : List Nat) :
    res_t :=
  match h_table_return_entry srv.users.p_users_table p_username with
  | none =>
    let w := cr_msg_send_rej env p_ssl ACCOUNT_TYPE DEL_STYPE USER_DOES_NOT_EXIST
    { rc := w.1, srv := srv, out := w.2 }
  | some p =>
    if (user_at srv p).login_status = LOGGED_IN then
      let w := cr_msg_send_rej env p_ssl ACCOUNT_TYPE DEL_STYPE USER_LOGGED_IN
      { rc := w.1, srv := srv, out := w.2 }
    else
      let d := h_table_destroy_entry srv.users.p_users_table p_username
      let srv1 : server_t := { srv with users := { srv.users with p_users_table := d.2 } }
      if d.1 = none then { rc := FAILURE, srv := srv1, out := [] }
      else
        let a := cr_msg_send_ack env p_ssl ACCOUNT_TYPE DEL_STYPE
        { rc := a.1, srv := srv1, out := a.2 }

/-- The body of the `fgets` loop of `cr_users_remove_file` and of
`cr_rooms_delete_h_file`: a line is copied unless `strncmp` finds the name at
its start. -/
def cr_remove_line_filter (p_name : List Nat) : List (List Nat) → List Nat
  | [] => []
  | line :: rest =>
    (if c_strncmp_eq line p_name (c_strlen p_name) then [] else c_str line) ++
      cr_remove_line_filter p_name rest

/-- `cr_users_remove_file`: `users.txt` is read in pieces of at most 60
bytes (`fgets` with `sizeof(line_buffer) - 1` = 61) and replaced by the
pieces kept. -/
def cr_users_remove_file (srv : server_t) (p_username : List Nat) : server_t :=
  let lines := c_fgets_all (MAX_USERNAME_LENGTH + MAX_PASSWORD_LENGTH) srv.users_txt.length
    srv.users_txt
  { srv with users_txt := cr_remove_line_filter p_username lines }

/-- `cr_users_remove_user`; `p_user` is the requester. -/
def cr_users_remove_user (env : env_t) (srv : server_t) (p_ssl : Nat) (p_buffer : List Nat)
    (p_user : Nat) : res_t :=
  if (user_at srv p_user).admin_status = NOT_ADMIN then
    let w := cr_msg_send_rej env p_ssl ACCOUNT_TYPE DEL_STYPE ADMIN_PRIV
    { rc := w.1, srv := srv, out := w.2 }
  else
    let p_username := req_p_username p_buffer
    if c_strncmp_eq (user_at srv p_user).p_username p_username MAX_USERNAME_LENGTH then
      let w := cr_msg_send_rej env p_ssl ACCOUNT_TYPE DEL_STYPE ADMIN_SELF
      { rc := w.1, srv := srv, out := w.2 }
    else
      let r := cr_users_remove_table env srv p_ssl p_username
      let srv2 := cr_users_remove_file r.srv p_username
      if r.rc = FAILURE then { rc := FAILURE, srv := srv2, out := r.out }
      else if r.rc = CONNECTION_FAILURE then { rc := CONNECTION_FAILURE, srv := srv2, out := r.out }
      else { rc := SUCCESS, srv := srv2, out := r.out }

/-! ## Chat broadcast and room logs (`cr_chats.c`) -/

/-- The loop of `cr_chats_chat_send` over the members still to visit: every
member other than the sender is sent the update; the first failed send ends
the loop with its code. -/
def cr_chats_chat_send_loop (env : env_t) (srv : server_t) (p_user : Nat) (p_chat : List Nat) :
    List Nat → Nat × List write_t
  | [] => (SUCCESS, [])
  | p_temp_user :: rest =>
    if p_user ≠ p_temp_user then
      let w := cr_msg_send_update env (user_at srv p_temp_user).p_ssl_holder
        (user_at srv p_user).p_username p_chat
      if w.1 = FAILURE ∨ w.1 = CONNECTION_FAILURE then w
      else
        let r := cr_chats_chat_send_loop env srv p_user p_chat rest
        (r.1, w.2 ++ r.2)
    else cr_chats_chat_send_loop env srv p_user p_chat rest

/-- `cr_chats_chat_send`. -/
def cr_chats_chat_send (env : env_t) (srv : server_t) (p_room p_user : Nat) (p_chat : List Nat) :
    Nat × List write_t :=
  cr_chats_chat_send_loop env srv p_user p_chat (room_at srv p_room).p_users

/-- The `fgets` loop of `cr_chats_rotate_file`: a piece is copied when the
bytes counted before it exceed `MAX_CHAT_FILE_SIZE / 2`. -/
def cr_chats_rotate_loop : List (List Nat) → Nat → List Nat
  | [], _ => []
  | line :: rest, size_tracker =>
    (if size_tracker > MAX_CHAT_FILE_SIZE / 2 then c_str line else []) ++
      cr_chats_rotate_loop rest (size_tracker + c_strlen line)

/-- `cr_chats_rotate_file` on the contents of the log: pieces of at most
180 bytes (`fgets` with `sizeof(line_buffer) - 1` = 181). -/
def cr_chats_rotate_file (content : List Nat) : List Nat :=
  cr_chats_rotate_loop (c_fgets_all (MAX_USERNAME_LENGTH + MAX_CHAT_LEN) content.length content) 0

/-- `cr_chats_chat_file` on the contents of the log. -/
def cr_chats_chat_file (content p_username p_chat : List Nat) : List Nat :=
  let content := content ++ c_str p_username ++ [62] ++ c_str p_chat ++ [10]
  if content.length > MAX_CHAT_FILE_SIZE then cr_chats_rotate_file content else content

/-- The `p_chat` field of a chat request, with the terminator forced at
index 150. -/
def req_p_chat (p_buffer : List Nat) : List Nat :=
  c_set_nul (c_field p_buffer 3 (MAX_USERNAME_LENGTH + MAX_CHAT_LEN + 2)) MAX_CHAT_LEN

/-- `cr_chats_chat`. -/
def cr_chats_chat (env : env_t) (srv : server_t) (p_user : Nat) (p_buffer : List Nat) : res_t :=
  let p_chat := req_p_chat p_buffer
  match h_table_return_entry srv.rooms.p_rooms_table (user_at srv p_user).p_chat_room with
  | none => { rc := FAILURE, srv := srv, out := [] }
  | some p_room =>
    let path := c_str (room_at srv p_room).p_room_location
    let content := cr_chats_chat_file ((file_read srv.room_logs path).getD [])
      (user_name_str (user_at srv p_user)) p_chat
    let srv1 : server_t := { srv with room_logs := file_write srv.room_logs path content }
    let w := cr_chats_chat_send env srv1 p_room p_user p_chat
    { rc := w.1, srv := srv1, out := w.2 }

/-- `cr_chats_find_user`: the position of the first node that holds the
user. -/
def cr_chats_find_user : List Nat → Nat → Option Nat
  | [], _ => none
  | p_temp_user :: rest, p_user =>
    if p_user = p_temp_user then some 0
    else (cr_chats_find_user rest p_user).map (fun n => n + 1)

/-- `cll_remove_element` without a free function, for a position inside
the list; `FAILURE` on an empty list or a position past the end. -/
def cll_remove_element (l : List Nat) (position : Nat) : Nat × List Nat :=
  if position < l.length then (SUCCESS, l.eraseIdx position) else (FAILURE, l)

/-- `cr_chats_leave_helper`. -/
def cr_chats_leave_helper (srv : server_t) (p_room p_user : Nat) : Nat × server_t :=
  match cr_chats_find_user (room_at srv p_room).p_users p_user with
  | none => (FAILURE, srv)
  | some position =>
    let r := cll_remove_element (room_at srv p_room).p_users position
    if r.1 = FAILURE then (FAILURE, srv)
    else (SUCCESS, room_put srv p_room { room_at srv p_room with p_users := r.2 })

/-- The text `User has left the room`. -/
def left_message : List Nat :=
  [85, 115, 101, 114, 32, 104, 97, 115, 32, 108, 101, 102, 116, 32, 116, 104, 101, 32, 114, 111,
   111, 109]

/-- The text `User has joined the room`. -/
def p_joined_message : List Nat :=
  [85, 115, 101, 114, 32, 104, 97, 115, 32, 106, 111, 105, 110, 101, 100, 32, 116, 104, 101, 32,
   114, 111, 111, 109]

/-- `cr_chats_leave`; the caller has checked that `p_user` is not `NULL`. -/
def cr_chats_leave (env : env_t) (srv : server_t) (sess : session_t) (p_user send_message : Nat) :
    sres_t :=
  match h_table_return_entry srv.rooms.p_rooms_table (user_at srv p_user).p_chat_room with
  | none => { rc := FAILURE, srv := srv, sess := sess, out := [] }
  | some p_room =>
    let h := cr_chats_leave_helper srv p_room p_user
    let w := cr_chats_chat_send env h.2 p_room p_user left_message
    if h.1 = FAILURE then { rc := FAILURE, srv := h.2, sess := sess, out := w.2 }
    else
      let a := if send_message = SEND_IT
        then cr_msg_send_ack env sess.p_ssl_holder CHAT_TYPE LEAVE_STYPE else (SUCCESS, [])
      let srv1 := user_put h.2 p_user
        { user_at h.2 p_user with p_chat_room := c_zeros (MAX_ROOM_NAME_LENGTH + 1) }
      { rc := a.1, srv := srv1, sess := { sess with chatting := NOT_CHATTING }, out := w.2 ++ a.2 }

/-! ## The room directory (`cr_rooms.c`) -/

/-- The `p_room_name` field of a room request, with the terminator forced at
index 30. -/
def req_p_room_name (p_buffer : List Nat) : List Nat :=
  c_set_nul (c_field p_buffer 3 (MAX_ROOM_NAME_LENGTH + 1)) MAX_ROOM_NAME_LENGTH

/-- `cr_rooms_list` with its helper. -/
def cr_rooms_list (env : env_t) (srv : server_t) (p_ssl : Nat) : res_t :=
  if srv.rooms.room_count = 0 then
    let w := cr_msg_send_rej env p_ssl ROOMS_TYPE LIST_STYPE NO_ROOMS
    { rc := w.1, srv := srv, out := w.2 }
  else
    let w := cr_msg_send_file_ack env p_ssl ROOMS_TYPE LIST_STYPE (some srv.room_names_log)
    { rc := w.1, srv := srv, out := w.2 }

/-- `cr_rooms_join_helper`. The results of the two sends are only logged;
the return value is that of the list insertion. -/
def cr_rooms_join_helper (env : env_t) (srv : server_t) (sess : session_t) (p_user : Nat)
    (p_room_name : List Nat) : sres_t :=
  match h_table_return_entry srv.rooms.p_rooms_table p_room_name with
  | none =>
    let w := cr_msg_send_rej env sess.p_ssl_holder ROOMS_TYPE JOIN_STYPE ROOM_DOES_NOT_EXIST
    { rc := w.1, srv := srv, sess := sess, out := w.2 }
  | some p_room =>
    let room := room_at srv p_room
    let srv1 := room_put srv p_room { room with p_users := room.p_users ++ [p_user] }
    let u := user_at srv1 p_user
    let srv2 := user_put srv1 p_user
      { u with p_chat_room := c_strncpy u.p_chat_room p_room_name (c_strlen p_room_name) }
    let w2 := cr_msg_send_file_ack env sess.p_ssl_holder ROOMS_TYPE JOIN_STYPE
      (file_read srv2.room_logs (c_str room.p_room_location))
    let w3 := cr_chats_chat_send env srv2 p_room p_user p_joined_message
    { rc := SUCCESS, srv := srv2, sess := { sess with chatting := CHATTING }, out := w2.2 ++ w3.2 }

/-- `cr_rooms_join`. -/
def cr_rooms_join (env : env_t) (srv : server_t) (sess : session_t) (p_user : Nat)
    (p_buffer : List Nat) : sres_t :=
  cr_rooms_join_helper env srv sess p_user (req_p_room_name p_buffer)

/-- The character test in the loop of `cr_rooms_chk_str_chars`. -/
def cr_rooms_char_ok (c : Nat) : Bool :=
  if UTF_LOWER_LETTER_MIN ≤ c ∧ UTF_LOWER_LETTER_MAX ≥ c then true
  else if UTF_UP_LETTER_MIN ≤ c ∧ UTF_UP_LETTER_MAX ≥ c then true
  else if UTF_NUM_MIN ≤ c ∧ UTF_NUM_MAX ≥ c then true
  else false

/-- The loop of `cr_rooms_chk_str_chars` over the bytes still to be read. -/
def cr_rooms_chk_str_chars_loop : List Nat → Nat
  | [] => SUCCESS
  | c :: rest => if cr_rooms_char_ok c then cr_rooms_chk_str_chars_loop rest else BAD_CHAR

/-- `cr_rooms_chk_str_chars`. -/
def cr_rooms_chk_str_chars (p_string : List Nat) : Nat :=
  let str_len := c_strnlen p_string MAX_USERNAME_LENGTH
  cr_rooms_chk_str_chars_loop (p_string.take str_len)

/-- The file name `rooms/<name>.log` that `snprintf` writes into the
42-byte `p_filename`. -/
def cr_rooms_filename (p_room_name : List Nat) : List Nat :=
  ([114, 111, 111, 109, 115, 47] ++ c_str p_room_name ++ [46, 108, 111, 103]).take
    (MAX_ROOM_NAME_LENGTH + ROOM_ADDED_CHARS - 1)

/-- `cr_rooms_create_name_to_file`. -/
def cr_rooms_create_name_to_file (srv : server_t) (p_room_name : List Nat) : server_t :=
  { srv with room_names_log := srv.room_names_log ++ c_str p_room_name ++ [10] }

/-- `cr_rooms_create_helper_2`. -/
def cr_rooms_create_helper_2 (env : env_t) (srv : server_t) (p_ssl : Nat) (p_room_name : List Nat) :
    res_t :=
  let p_filename := cr_rooms_filename p_room_name
  let p_room := srv.room_mem.length
  let room : room_t :=
    { room_calloc with
      p_room_location := c_strncpy room_calloc.p_room_location p_filename (c_strlen p_filename),
      p_room_name := c_strncpy room_calloc.p_room_name p_room_name (c_strlen p_room_name),
      p_users := [] }
  let r := h_table_new_entry env.rand srv.rooms.p_rooms_table p_room room.p_room_name
  let srv1 : server_t :=
    { srv with room_logs := file_write srv.room_logs p_filename [],
               room_mem := srv.room_mem ++ [room],
               rooms := { srv.rooms with p_rooms_table := r.2 } }
  if r.1 = FAILURE then { rc := FAILURE, srv := srv1, out := [] }
  else
    let srv2 := cr_rooms_create_name_to_file srv1 p_room_name
    let srv3 : server_t :=
      { srv2 with rooms := { srv2.rooms with room_count := (srv2.rooms.room_count + 1) % 256 } }
    let a := cr_msg_send_ack env p_ssl ROOMS_TYPE CREATE_STYPE
    { rc := a.1, srv := srv3, out := a.2 }

/-- `cr_rooms_create_helper`. -/
def cr_rooms_create_helper (env : env_t) (srv : server_t) (p_ssl : Nat) (p_room_name : List Nat) :
    res_t :=
  if srv.rooms.room_count ≥ srv.rooms.max_rooms then
    let w := cr_msg_send_rej env p_ssl ROOMS_TYPE CREATE_STYPE MAX_ROOMS
    { rc := w.1, srv := srv, out := w.2 }
  else if h_table_return_entry srv.rooms.p_rooms_table p_room_name ≠ none then
    let w := cr_msg_send_rej env p_ssl ROOMS_TYPE CREATE_STYPE ROOM_EXISTS
    { rc := w.1, srv := srv, out := w.2 }
  else cr_rooms_create_helper_2 env srv p_ssl p_room_name

/-- `cr_rooms_create`; `p_user` is the requester. -/
def cr_rooms_create (env : env_t) (srv : server_t) (p_ssl p_user : Nat) (p_buffer : List Nat) :
    res_t :=
  let p_room_name := req_p_room_name p_buffer
  if (user_at srv p_user).admin_status ≠ ADMIN then
    let w := cr_msg_send_rej env p_ssl ROOMS_TYPE CREATE_STYPE ADMIN_PRIV
    { rc := w.1, srv := srv, out := w.2 }
  else if cr_rooms_chk_str_chars p_room_name = BAD_CHAR then
    let w := cr_msg_send_rej env p_ssl ROOMS_TYPE CREATE_STYPE ROOM_CHARS
    { rc := w.1, srv := srv, out := w.2 }
  else if MIN_ROOM_NAME_LENGTH > c_strlen p_room_name then
    let w := cr_msg_send_rej env p_ssl ROOMS_TYPE CREATE_STYPE ROOM_LEN
    { rc := w.1, srv := srv, out := w.2 }
  else cr_rooms_create_helper env srv p_ssl p_room_name

/-- `cr_rooms_delete_h_file`: `room_names.log` is read in pieces of at most
29 bytes (`fgets` with `sizeof(line_buffer) - 1` = 30). -/
def cr_rooms_delete_h_file (srv : server_t) (p_room_name : List Nat) : server_t :=
  let lines := c_fgets_all (MAX_ROOM_NAME_LENGTH - 1) srv.room_names_log.length srv.room_names_log
  { srv with room_names_log := cr_remove_line_filter p_room_name lines }

/-- `cr_rooms_delete_helper`; `cr_users_free_room` fails when the log file
of the room cannot be removed. -/
def cr_rooms_delete_helper (env : env_t) (srv : server_t) (p_ssl : Nat) (p_room_name : List Nat) :
    res_t :=
  match h_table_return_entry srv.rooms.p_rooms_table p_room_name with
  | none =>
    let w := cr_msg_send_rej env p_ssl ROOMS_TYPE DEL_STYPE ROOM_DOES_NOT_EXIST
    { rc := w.1, srv := srv, out := w.2 }
  | some p_room =>
    if (room_at srv p_room).p_users.length ≠ 0 then
      let w := cr_msg_send_rej env p_ssl ROOMS_TYPE DEL_STYPE ROOM_IN_USE
      { rc := w.1, srv := srv, out := w.2 }
    else
      let d := h_table_destroy_entry srv.rooms.p_rooms_table p_room_name
      let srv1 : server_t := { srv with rooms := { srv.rooms with p_rooms_table := d.2 } }
      if d.1 = none then { rc := FAILURE, srv := srv1, out := [] }
      else
        let path := c_str (room_at srv p_room).p_room_location
        if file_read srv1.room_logs path = none then { rc := FAILURE, srv := srv1, out := [] }
        else
          let srv2 : server_t := { srv1 with room_logs := file_remove srv1.room_logs path }
          let srv3 := cr_rooms_delete_h_file srv2 p_room_name
          let srv4 : server_t :=
            { srv3 with rooms :=
                { srv3.rooms with room_count := (srv3.rooms.room_count + 255) % 256 } }
          let a := cr_msg_send_ack env p_ssl ROOMS_TYPE DEL_STYPE
          { rc := a.1, srv := srv4, out := a.2 }

/-- `cr_rooms_delete`; `p_user` is the requester. -/
def cr_rooms_delete (env : env_t) (srv : server_t) (p_ssl p_user : Nat) (p_buffer : List Nat) :
    res_t :=
  if (user_at srv p_user).admin_status ≠ ADMIN then
    let w := cr_msg_send_rej env p_ssl ROOMS_TYPE DEL_STYPE ADMIN_PRIV
    { rc := w.1, srv := srv, out := w.2 }
  else cr_rooms_delete_helper env srv p_ssl (req_p_room_name p_buffer)

/-! ## The session state machine (`cr_session_manager.c`) -/

/-- The reply of all three state handlers to a frame they do not accept. -/
def cr_sm_invalid_packet (env : env_t) (srv : server_t) (sess : session_t) : sres_t :=
  let w := cr_msg_send_rej env sess.p_ssl_holder FAIL_TYPE FAIL_STYPE INVALID_PACKET_RCODE
  { rc := w.1, srv := srv, sess := sess, out := w.2 }

/-- A handler result that leaves the session variables as they are. -/
def res_t.with_sess (r : res_t) (sess : session_t) : sres_t :=
  { rc := r.rc, srv := r.srv, sess := sess, out := r.out }

/-- `cr_sm_chat_state`. -/
def cr_sm_chat_state (env : env_t) (srv : server_t) (sess : session_t) (p_buffer : List Nat) :
    sres_t :=
  match sess.pp_user with
  | none => { rc := FAILURE, srv := srv, sess := sess, out := [] }
  | some p_user =>
    let type := c_byte p_buffer 0
    let s_type := c_byte p_buffer 1
    let opcode := c_byte p_buffer 2
    if type = CHAT_TYPE ∧ opcode = REQUEST then
      if s_type = CHAT_STYPE then (cr_chats_chat env srv p_user p_buffer).with_sess sess
      else if s_type = LEAVE_STYPE then cr_chats_leave env srv sess p_user SEND_IT
      else cr_sm_invalid_packet env srv sess
    else if type = SESSION_TYPE ∧ opcode = REQUEST then
      if s_type = QUIT_STYPE then
        let l := cr_chats_leave env srv sess p_user DONT_SEND
        if l.rc = FAILURE then { l with rc := FAILURE }
        else
          let o := cr_users_logout env l.srv l.sess p_user DONT_SEND
          if o.rc = FAILURE then { o with rc := FAILURE, out := l.out ++ o.out }
          else
            let a := cr_msg_send_ack env sess.p_ssl_holder SESSION_TYPE QUIT_STYPE
            if a.1 = FAILURE ∨ a.1 = CONNECTION_FAILURE then
              { rc := a.1, srv := o.srv, sess := o.sess, out := l.out ++ o.out ++ a.2 }
            else { rc := THREAD_SHUTDOWN, srv := o.srv, sess := o.sess, out := l.out ++ o.out ++ a.2 }
      else cr_sm_invalid_packet env srv sess
    else cr_sm_invalid_packet env srv sess

/-- `cr_sm_ls_rooms`. -/
def cr_sm_ls_rooms (env : env_t) (srv : server_t) (sess : session_t) (p_user : Nat)
    (p_buffer : List Nat) (s_type : Nat) : sres_t :=
  if s_type = LIST_STYPE then (cr_rooms_list env srv sess.p_ssl_holder).with_sess sess
  else if s_type = JOIN_STYPE then cr_rooms_join env srv sess p_user p_buffer
  else if s_type = CREATE_STYPE then
    (cr_rooms_create env srv sess.p_ssl_holder p_user p_buffer).with_sess sess
  else if s_type = DEL_STYPE then
    (cr_rooms_delete env srv sess.p_ssl_holder p_user p_buffer).with_sess sess
  else { rc := NO_MATCH, srv := srv, sess := sess, out := [] }

/-- `cr_sm_ls_account`. -/
def cr_sm_ls_account (env : env_t) (srv : server_t) (sess : session_t) (p_user : Nat)
    (p_buffer : List Nat) (s_type : Nat) : sres_t :=
  if s_type = ADMIN_STYPE then
    (cr_users_admin env srv sess.p_ssl_holder p_buffer p_user ADMIN).with_sess sess
  else if s_type = ADMIN_REMOVE_STYPE then
    (cr_users_admin env srv sess.p_ssl_holder p_buffer p_user NOT_ADMIN).with_sess sess
  else if s_type = DEL_STYPE then
    (cr_users_remove_user env srv sess.p_ssl_holder p_buffer p_user).with_sess sess
  else if s_type = LOGOUT_STYPE then cr_users_logout env srv sess p_user SEND_IT
  else { rc := NO_MATCH, srv := srv, sess := sess, out := [] }

/-- `cr_sm_logged_state`. -/
def cr_sm_logged_state (env : env_t) (srv : server_t) (sess : session_t) (p_buffer : List Nat) :
    sres_t :=
  match sess.pp_user with
  | none => { rc := FAILURE, srv := srv, sess := sess, out := [] }
  | some p_user =>
    let type := c_byte p_buffer 0
    let s_type := c_byte p_buffer 1
    let opcode := c_byte p_buffer 2
    if type = ACCOUNT_TYPE ∧ opcode = REQUEST then
      let r := cr_sm_ls_account env srv sess p_user p_buffer s_type
      if r.rc ≠ NO_MATCH then r else cr_sm_invalid_packet env srv sess
    else if type = ROOMS_TYPE ∧ opcode = REQUEST then
      let r := cr_sm_ls_rooms env srv sess p_user p_buffer s_type
      if r.rc ≠ NO_MATCH then r else cr_sm_invalid_packet env srv sess
    else if type = SESSION_TYPE ∧ opcode = REQUEST then
      if s_type = QUIT_STYPE then
        let o := cr_users_logout env srv sess p_user DONT_SEND
        if o.rc = FAILURE then { o with rc := SUCCESS }
        else
          let a := cr_msg_send_ack env sess.p_ssl_holder SESSION_TYPE QUIT_STYPE
          if a.1 = FAILURE ∨ a.1 = CONNECTION_FAILURE then
            { rc := a.1, srv := o.srv, sess := o.sess, out := o.out ++ a.2 }
          else { rc := THREAD_SHUTDOWN, srv := o.srv, sess := o.sess, out := o.out ++ a.2 }
      else cr_sm_invalid_packet env srv sess
    else cr_sm_invalid_packet env srv sess

/-- `cr_sm_connected_state`. -/
def cr_sm_connected_state (env : env_t) (srv : server_t) (sess : session_t) (p_buffer : List Nat) :
    sres_t :=
  let type := c_byte p_buffer 0
  let s_type := c_byte p_buffer 1
  let opcode := c_byte p_buffer 2
  if type = ACCOUNT_TYPE ∧ opcode = REQUEST then
    if s_type = LOGIN_STYPE then cr_users_login env srv sess p_buffer
    else if s_type = REGISTER_STYPE then
      (cr_users_register env srv sess.p_ssl_holder p_buffer).with_sess sess
    else cr_sm_invalid_packet env srv sess
  else if type = SESSION_TYPE ∧ opcode = REQUEST then
    if s_type = QUIT_STYPE then
      let a := cr_msg_send_ack env sess.p_ssl_holder SESSION_TYPE QUIT_STYPE
      if a.1 = FAILURE ∨ a.1 = CONNECTION_FAILURE then
        { rc := a.1, srv := srv, sess := sess, out := a.2 }
      else { rc := THREAD_SHUTDOWN, srv := srv, sess := sess, out := a.2 }
    else cr_sm_invalid_packet env srv sess
  else cr_sm_invalid_packet env srv sess

/-- The state determination of `cr_sm_session_manager` followed by the call
of the state handler: the handling of one received frame. -/
def cr_sm_handle (env : env_t) (srv : server_t) (sess : session_t) (p_buffer : List Nat) : sres_t :=
  if sess.logged_in = NOT_LOGGED_IN then cr_sm_connected_state env srv sess p_buffer
  else if sess.chatting = NOT_CHATTING then cr_sm_logged_state env srv sess p_buffer
  else cr_sm_chat_state env srv sess p_buffer

/-- `cr_sm_session_clean`: leave when chatting, then log out when logged
in; a failed leave skips the logout. -/
def cr_sm_session_clean (env : env_t) (srv : server_t) (sess : session_t) : sres_t :=
  let l : sres_t :=
    if sess.chatting = CHATTING then
      match sess.pp_user with
      | none => { rc := FAILURE, srv := srv, sess := sess, out := [] }
      | some p_user => cr_chats_leave env srv sess p_user DONT_SEND
    else { rc := SUCCESS, srv := srv, sess := sess, out := [] }
  if sess.chatting = CHATTING ∧ l.rc = FAILURE then l
  else if l.sess.logged_in = LOGGED_IN then
    match l.sess.pp_user with
    | none => { rc := FAILURE, srv := l.srv, sess := l.sess, out := l.out }
    | some p_user =>
      let o := cr_users_logout env l.srv l.sess p_user DONT_SEND
      { o with out := l.out ++ o.out }
  else { l with rc := SUCCESS }

/-- `signal_handler(SIGINT)`. -/
def signal_handler (srv : server_t) : server_t := { srv with server_interrupt := STOP }

/-- What `SSL_read` delivers in one iteration of the session loop: the
bytes of a frame, a timeout (the loop continues) or an error, which
includes the orderly close by the client. -/
inductive read_t where
  | data (bytes : List Nat)
  | timeout
  | error
deriving DecidableEq, Repr

/-- The outcome of one iteration of the loop of `cr_sm_session_manager`;
`running = false` means the session has ended and has been cleaned up. -/
structure iter_t where
  running : Bool
  rc : Nat
  srv : server_t
  sess : session_t
  out : List write_t
deriving DecidableEq, Repr

/-- The receive buffer after `SSL_read`: `BUFF_SIZE + 1` bytes, zero where
nothing was received. -/
def recv_buffer (bytes : List Nat) : List Nat :=
  let b := bytes.take BUFF_SIZE
  b ++ c_zeros (BUFF_SIZE + 1 - b.length)

/-- The session with `cr_sm_session_clean` run on it, as a finished
iteration. -/
def cr_sm_exit (env : env_t) (srv : server_t) (sess : session_t) (out : List write_t) : iter_t :=
  let c := cr_sm_session_clean env srv sess
  { running := false, rc := c.rc, srv := c.srv, sess := c.sess, out := out ++ c.out }

/-- One iteration of the `while` loop of `cr_sm_session_manager`, with the
cleanup that follows the loop when the iteration leaves it. -/
def cr_sm_session_manager_iter (env : env_t) (srv : server_t) (sess : session_t) (rd : read_t) :
    iter_t :=
  if srv.server_interrupt ≠ CONTINUE then cr_sm_exit env srv sess []
  else
    match rd with
    | read_t.timeout => { running := true, rc := SUCCESS, srv := srv, sess := sess, out := [] }
    | read_t.error => { cr_sm_exit env srv sess [] with rc := SUCCESS }
    | read_t.data bytes =>
      if bytes.length = 0 then { cr_sm_exit env srv sess [] with rc := SUCCESS }
      else
        let r := cr_sm_handle env srv sess (recv_buffer bytes)
        if r.rc = FAILURE then cr_sm_exit env (signal_handler r.srv) r.sess r.out
        else if r.rc = CONNECTION_FAILURE then cr_sm_exit env r.srv r.sess r.out
        else if r.rc = THREAD_SHUTDOWN then cr_sm_exit env r.srv r.sess r.out
        else { running := true, rc := SUCCESS, srv := r.srv, sess := r.sess, out := r.out }

/-! ## Reference predicates used to state the properties -/

/-- The character set the specification gives for user names and
passwords: the ASCII ranges 33-47, 48-57, 59-64, 65-90, 97-122, 123-126. -/
def charset_allowed (c : Nat) : Bool :=
  (33 ≤ c && c ≤ 47) || (48 ≤ c && c ≤ 57) || (59 ≤ c && c ≤ 64) || (65 ≤ c && c ≤ 90) ||
    (97 ≤ c && c ≤ 122) || (123 ≤ c && c ≤ 126)

/-- The frames the specification lists as admissible in each session state,
all with opcode `REQUEST`: CONNECTED (not logged in) = ACCOUNT/REGISTER,
ACCOUNT/LOGIN, SESSION/QUIT; LOGGED_IN (logged in, not chatting) =
ACCOUNT/{ADMIN, ADMIN_REMOVE, DEL, LOGOUT}, ROOMS/{LIST, JOIN, CREATE, DEL},
SESSION/QUIT; CHATTING = CHAT/CHAT, CHAT/LEAVE, SESSION/QUIT. -/
def admissible (sess : session_t) (type s_type opcode : Nat) : Bool :=
  opcode == REQUEST &&
    (if sess.logged_in = NOT_LOGGED_IN then
      (type == ACCOUNT_TYPE && (s_type == REGISTER_STYPE || s_type == LOGIN_STYPE)) ||
        (type == SESSION_TYPE && s_type == QUIT_STYPE)
    else if sess.chatting = NOT_CHATTING then
      (type == ACCOUNT_TYPE && (s_type == ADMIN_STYPE || s_type == ADMIN_REMOVE_STYPE ||
        s_type == DEL_STYPE || s_type == LOGOUT_STYPE)) ||
      (type == ROOMS_TYPE && (s_type == LIST_STYPE || s_type == JOIN_STYPE ||
        s_type == CREATE_STYPE || s_type == DEL_STYPE)) ||
      (type == SESSION_TYPE && s_type == QUIT_STYPE)
    else
      (type == CHAT_TYPE && (s_type == CHAT_STYPE || s_type == LEAVE_STYPE)) ||
        (type == SESSION_TYPE && s_type == QUIT_STYPE))

/-- The reject frame `FAIL/FAIL/REJECT/INVALID_PACKET` written to a
transport. -/
def invalid_packet_frame (p_ssl : Nat) : write_t :=
  { dest := p_ssl, data := [FAIL_TYPE, FAIL_STYPE, REJECT, INVALID_PACKET_RCODE] }

/-- The slots of a table are as many as its capacity, and there is at least
one. -/
def h_table_sized (t : h_table_t) : Prop := t.pp_array.length = t.capacity ∧ 0 < t.capacity

/-- The entries of slot `i` of a table, from head to tail. -/
def h_table_slot (t : h_table_t) (i : Nat) : List entry_t := (t.pp_array.getD i none).getD []

/-- Within the `KEY_LENGTH` bytes that the hash function reads, every byte
after the terminator of the key is zero. -/
def key_canonical (k : List Nat) : Prop :=
  ∀ i, i < KEY_LENGTH → c_strlen (k.take KEY_LENGTH) ≤ i → c_byte k i = 0

instance (k : List Nat) : Decidable (key_canonical k) := by
  unfold key_canonical; infer_instance

/-- A well-formed table: as many slots as its capacity, a capacity for which
`next_prime` computes without overflow, a load factor of at most one, every
entry in the slot of its hash, no two entries with keys that `strncmp`
finds equal on `KEY_LENGTH` bytes, and zero-padded keys. -/
def h_table_wf (t : h_table_t) : Prop :=
  h_table_sized t ∧ t.capacity < 23170 ∧ t.size ≤ t.capacity ∧
  (∀ i, i < t.pp_array.length → ∀ e ∈ h_table_slot t i, h_table_index t e.p_key = i) ∧
  (h_table_list t).Pairwise (fun a b => c_strncmp_eq a.p_key b.p_key KEY_LENGTH = false) ∧
  (∀ e ∈ h_table_list t, key_canonical e.p_key)

instance (t : h_table_t) : Decidable (h_table_sized t) := by
  unfold h_table_sized; infer_instance

instance (t : h_table_t) : Decidable (h_table_wf t) := by
  unfold h_table_wf; infer_instance

/-- The bytes of a field after the terminator of its string are all zero. -/
def c_zero_filled (f : List Nat) : Bool := (f.drop (c_strlen f)).all (fun b => b == 0)

/-! ## Concrete states used to instantiate the properties -/

/-- An environment in which every write succeeds. -/
def env_ok : env_t := { ssl_ok := fun _ => true, rand := fun _ k => k + 2 }

/-- A new session on transport `p_ssl_holder`, in the CONNECTED state. -/
def session_init (p_ssl_holder : Nat) : session_t :=
  { p_ssl_holder := p_ssl_holder, logged_in := NOT_LOGGED_IN, chatting := NOT_CHATTING,
    pp_user := none }

/-- A frame with a header and one 31-byte string field. -/
def frame_1 (type s_type opcode : Nat) (name : List Nat) : List Nat :=
  [type, s_type, opcode] ++ c_field name 0 31

/-- A frame with a header and two 31-byte string fields. -/
def frame_2 (type s_type opcode : Nat) (name password : List Nat) : List Nat :=
  [type, s_type, opcode] ++ c_field name 0 31 ++ c_field password 0 31

/-- The text `admin:secret`. -/
def users_txt_0 : List Nat := [97, 100, 109, 105, 110, 58, 115, 101, 99, 114, 101, 116]

/-- The server started with `max_rooms` = 5, `max_client` = 3 and a
`users.txt` that holds the line `admin:secret`. -/
def srv_0 : server_t := (cr_listener_init env_ok.rand 5 3 users_txt_0).getD
  { users := { p_users_table := h_table_init 0, user_count := 0, client_count := 0,
               max_client := 0 },
    rooms := { p_rooms_table := h_table_init 0, room_count := 0, max_rooms := 0 },
    user_mem := [], room_mem := [], users_txt := [], room_names_log := [], room_logs := [],
    server_interrupt := STOP }

/-- The name `alice`. -/
def name_alice : List Nat := [97, 108, 105, 99, 101]

/-- The password `hunter22`. -/
def pass_hunter22 : List Nat := [104, 117, 110, 116, 101, 114, 50, 50]

/-- The text `secret`. -/
def pass_secret : List Nat := [115, 101, 99, 114, 101, 116]

/-- The frame REGISTER `alice` / `hunter22`, as received. -/
def register_alice : List Nat :=
  recv_buffer (frame_2 ACCOUNT_TYPE REGISTER_STYPE REQUEST name_alice pass_hunter22)

/-- The frame LOGIN `alice` / `hunter22`, as received. -/
def login_alice : List Nat :=
  recv_buffer (frame_2 ACCOUNT_TYPE LOGIN_STYPE REQUEST name_alice pass_hunter22)

/-- The frame LOGIN `admin` / `secret`, as received. -/
def login_admin : List Nat :=
  recv_buffer (frame_2 ACCOUNT_TYPE LOGIN_STYPE REQUEST admin_text pass_secret)

/-- `srv_0` after a first session has registered `alice`. -/
def srv_alice : server_t := (cr_sm_handle env_ok srv_0 (session_init 1) register_alice).srv

/-- `srv_alice` after `admin` has logged in on transport 1. -/
def step_admin_in : sres_t := cr_sm_handle env_ok srv_alice (session_init 1) login_admin

/-- Then `alice` has logged in on transport 2. -/
def step_alice_in : sres_t := cr_sm_handle env_ok step_admin_in.srv (session_init 2) login_alice

/-- The frame ADMIN `alice`, as received. -/
def admin_alice : List Nat := recv_buffer (frame_1 ACCOUNT_TYPE ADMIN_STYPE REQUEST name_alice)

/-- The frame DELETE `alice`, as received. -/
def delete_alice : List Nat := recv_buffer (frame_1 ACCOUNT_TYPE DEL_STYPE REQUEST name_alice)

/-- The frame DELETE with an empty user name, as received. -/
def delete_empty : List Nat := recv_buffer (frame_1 ACCOUNT_TYPE DEL_STYPE REQUEST [])

/-- The bytes of a REGISTER frame whose user name field holds `alice`, the
terminator, and then the letter `A`. -/
def register_alice_padded : List Nat :=
  frame_2 ACCOUNT_TYPE REGISTER_STYPE REQUEST (name_alice ++ [0, 65]) pass_hunter22


/-- The parts of the shared state that the cleanup of a session reads are
the same in both states. -/
def srv_kept (srv srv1 : server_t) : Prop :=
  srv1.users.client_count = srv.users.client_count ∧
  srv1.user_mem.length = srv.user_mem.length ∧
  ∀ i, (room_at srv1 i).p_users = (room_at srv i).p_users


/-- What is required of the shared state `srv1`, the session variables
`sess1` and the frames `out` written while a session ends, for a session
that was in the state `sess` over the shared state `srv`, as the user `q`
when logged in, and in the room `p_room` when chatting. -/
def session_exit_post (env : env_t) (srv : server_t) (sess : session_t) (q p_room : Nat)
    (srv1 : server_t) (sess1 : session_t) (out : List write_t) : Prop :=
  sess1.logged_in = NOT_LOGGED_IN ∧ sess1.chatting = NOT_CHATTING ∧
  (sess.logged_in = NOT_LOGGED_IN → srv1.users.client_count = srv.users.client_count) ∧
  (sess.logged_in = LOGGED_IN →
    (user_at srv1 q).login_status = NOT_LOGGED_IN ∧
    (∀ i, q ∉ (room_at srv1 i).p_users) ∧
    srv1.users.client_count + 1 = srv.users.client_count) ∧
  (sess.chatting = CHATTING →
    (∀ m ∈ (room_at srv p_room).p_users, m ≠ q →
      env.ssl_ok (user_at srv m).p_ssl_holder = true) →
    ∀ m ∈ (room_at srv p_room).p_users, m ≠ q →
      ({ dest := (user_at srv m).p_ssl_holder,
         data := cr_msg_create_update (user_at srv q).p_username left_message } : write_t) ∈ out) ∧
  (∀ w ∈ out, w.data ≠ [CHAT_TYPE, LEAVE_STYPE, ACKNOWLEDGE] ∧
    w.data ≠ [ACCOUNT_TYPE, LOGOUT_STYPE, ACKNOWLEDGE])

/-- The shared state after the user `q` has been taken out of the room
`p_room` and the user's `p_chat_room` has been cleared. -/
def srv_left (srv : server_t) (q p_room : Nat) : server_t :=
  { srv with
    room_mem := srv.room_mem.set p_room
      { room_at srv p_room with p_users := (room_at srv p_room).p_users.erase q },
    user_mem := srv.user_mem.set q
      { user_at srv q with p_chat_room := c_zeros (MAX_ROOM_NAME_LENGTH + 1) } }

/-- The shared state after the user `q` has been logged out. -/
def srv_logged_out (srv : server_t) (q : Nat) : server_t :=
  { srv with
    user_mem := srv.user_mem.set q { user_at srv q with login_status := NOT_LOGGED_IN },
    users := { srv.users with client_count := (srv.users.client_count + 255) % 256 } }

/-- Two shared states agree on the user store, the room store, the room
table and `client_count`. -/
def srv_agree (a b : server_t) : Prop :=
  b.user_mem = a.user_mem ∧ b.room_mem = a.room_mem ∧
  b.rooms.p_rooms_table = a.rooms.p_rooms_table ∧
  b.users.client_count = a.users.client_count

/-- The room name `lobby`. -/
def name_lobby : List Nat := [108, 111, 98, 98, 121]

/-- The frame ROOMS/CREATE `lobby`, as received. -/
def create_lobby : List Nat := recv_buffer (frame_1 ROOMS_TYPE CREATE_STYPE REQUEST name_lobby)

/-- The frame ROOMS/JOIN `lobby`, as received. -/
def join_lobby : List Nat := recv_buffer (frame_1 ROOMS_TYPE JOIN_STYPE REQUEST name_lobby)

/-- With `admin` and `alice` logged in, `admin` has created the room `lobby`. -/
def step_room : sres_t := cr_sm_handle env_ok step_alice_in.srv step_admin_in.sess create_lobby

/-- Then `alice` has joined `lobby`. -/
def step_alice_joined : sres_t := cr_sm_handle env_ok step_room.srv step_alice_in.sess join_lobby

/-- Then `admin` has joined `lobby`. -/
def step_admin_joined : sres_t :=
  cr_sm_handle env_ok step_alice_joined.srv step_admin_in.sess join_lobby

/-- The name `bob`. -/
def name_bob : List Nat := [98, 111, 98]

/-- The frame REGISTER `bob` / `hunter22`, as received. -/
def register_bob : List Nat :=
  recv_buffer (frame_2 ACCOUNT_TYPE REGISTER_STYPE REQUEST name_bob pass_hunter22)

/-- The frame LOGIN `bob` / `hunter22`, as received. -/
def login_bob : List Nat :=
  recv_buffer (frame_2 ACCOUNT_TYPE LOGIN_STYPE REQUEST name_bob pass_hunter22)

/-- Then a third session, on transport 3, has registered `bob`. -/
def step_bob_registered : sres_t :=
  cr_sm_handle env_ok step_admin_joined.srv (session_init 3) register_bob

/-- Then `bob` has logged in on transport 3. -/
def step_bob_in : sres_t := cr_sm_handle env_ok step_bob_registered.srv (session_init 3) login_bob

/-- Then `bob` has joined `lobby`, whose members are now `alice`, `admin`
and `bob`, in this order. -/
def step_bob_joined : sres_t := cr_sm_handle env_ok step_bob_in.srv step_bob_in.sess join_lobby

/-- An environment in which the writes to transport 1 fail and all other
writes succeed. -/
def env_admin_down : env_t := { ssl_ok := fun p => p != 1, rand := fun _ k => k + 2 }

/-- The name `bobby`. -/
def name_bobby : List Nat := [98, 111, 98, 98, 121]

/-- The frame REGISTER `bobby` / `hunter22`, as received. -/
def register_bobby : List Nat :=
  recv_buffer (frame_2 ACCOUNT_TYPE REGISTER_STYPE REQUEST name_bobby pass_hunter22)

/-- The frame DELETE `bob`, as received. -/
def delete_bob : List Nat := recv_buffer (frame_1 ACCOUNT_TYPE DEL_STYPE REQUEST name_bob)

/-- With `admin` logged in on transport 1, a session on transport 2 has
registered `bobby`. -/
def step_bobby_registered : sres_t :=
  cr_sm_handle env_ok step_admin_in.srv (session_init 2) register_bobby

/-- Then the same session has registered `bob`. -/
def step_bobby_bob : sres_t :=
  cr_sm_handle env_ok step_bobby_registered.srv (session_init 2) register_bob

/-- The frame ROOMS/CREATE whose name field holds `lobby`, the terminator and
then the letter `B`, as received. -/
def create_lobby_padded : List Nat :=
  recv_buffer (frame_1 ROOMS_TYPE CREATE_STYPE REQUEST (name_lobby ++ [0, 66]))

/-- The room name `lobby2`. -/
def name_lobby2 : List Nat := [108, 111, 98, 98, 121, 50]

/-- The frame ROOMS/CREATE `lobby2`, as received. -/
def create_lobby2 : List Nat := recv_buffer (frame_1 ROOMS_TYPE CREATE_STYPE REQUEST name_lobby2)

/-- The frame ROOMS/DEL `lobby`, as received. -/
def delete_lobby : List Nat := recv_buffer (frame_1 ROOMS_TYPE DEL_STYPE REQUEST name_lobby)

/-- The frame ROOMS/LIST, as received. -/
def list_rooms : List Nat := recv_buffer [ROOMS_TYPE, LIST_STYPE, REQUEST]

/-- With the room `lobby` created and empty, `admin` has created `lobby2`. -/
def step_room2 : sres_t := cr_sm_handle env_ok step_room.srv step_admin_in.sess create_lobby2

/-- Then `admin` has deleted `lobby`. -/
def step_room_deleted : sres_t :=
  cr_sm_handle env_ok step_room2.srv step_admin_in.sess delete_lobby

/-- The frame REGISTER whose user name field holds 31 letters `a`, with the
password `hunter22`, as received. -/
def register_name_31 : List Nat :=
  recv_buffer (frame_2 ACCOUNT_TYPE REGISTER_STYPE REQUEST (List.replicate 31 97) pass_hunter22)

/-- The frame REGISTER `bob` whose password field holds 31 letters `a`, as
received. -/
def register_pass_31 : List Nat :=
  recv_buffer (frame_2 ACCOUNT_TYPE REGISTER_STYPE REQUEST name_bob (List.replicate 31 97))

/-- An environment in which the writes to transport 2 fail and all other
writes succeed. -/
def env_alice_down : env_t := { ssl_ok := fun p => p != 2, rand := fun _ k => k + 2 }

/-- The frame CHAT/LEAVE, as received. -/
def leave_frame : List Nat := recv_buffer [CHAT_TYPE, LEAVE_STYPE, REQUEST]

/-- The text `hi`. -/
def text_hi : List Nat := [104, 105]

/-- The frame CHAT `hi`, as received. -/
def chat_hi : List Nat := recv_buffer ([CHAT_TYPE, CHAT_STYPE, REQUEST] ++ text_hi)

/-! ## Configuration and start-up checks (`cr_main.c`, `cr_shared.c`, `t_pool.c`, `cr_listener.c`) -/

@[simp] abbrev MAX_TOTAL_CLIENTS : Int := 50
@[simp] abbrev MIN_TOTAL_CLIENTS : Int := 2
@[simp] abbrev MAX_TOTAL_ROOMS : Int := 20
@[simp] abbrev MIN_TOTAL_ROOMS : Int := 1
@[simp] abbrev MAX_THREADS : Nat := 50

/-- `port_range_check` on the `long` that `p_port` points to. -/
def port_range_check (port : Int) : Nat :=
  if 0 = port ∨ 65535 < port then FAILURE else SUCCESS

/-- `isspace` in the C locale. -/
def c_isspace (c : Nat) : Bool := c == 32 || (9 ≤ c && c ≤ 13)

/-- `strtol(s, &end, 10)`: white space, an optional sign, then decimal
digits; the value is clamped to the range of a 64-bit `long`, and the flag
tells that `errno` was set to `ERANGE`. -/
def c_strtol (s : List Nat) : Int × Bool :=
  let s1 := (c_str s).dropWhile c_isspace
  let negative := s1.head? = some 45
  let s2 := if s1.head? = some 45 ∨ s1.head? = some 43 then s1.drop 1 else s1
  let digits := s2.takeWhile (fun c => 48 ≤ c && c ≤ 57)
  let n : Nat := digits.foldl (fun a c => 10 * a + (c - 48)) 0
  if negative then
    if 9223372036854775808 < n then (-9223372036854775808, true) else (-(n : Int), false)
  else
    if 9223372036854775807 < n then (9223372036854775807, true) else ((n : Int), false)

/-- The members of `config_info_t` that `set_config_members` sets from a
number: `port` is the value printed into `p_port`. -/
structure config_info_t where
  port : Int
  max_rooms : Nat
  max_client : Nat
deriving DecidableEq, Repr

/-- `set_config_members` for the target indices 1 (port), 2 (`max_rooms`)
and 3 (`max_client`); `none` stands for `FAILURE`. The values stored in the
`uint8_t` members are reduced modulo 256. -/
def set_config_members (p_config_info : config_info_t) (p_buffer : List Nat)
    (target_index : Nat) : Option config_info_t :=
  let value_holder := (c_strtol p_buffer).1
  let erange := (c_strtol p_buffer).2
  if target_index = 1 then
    if port_range_check value_holder = FAILURE then none
    else if erange then none
    else some { p_config_info with port := value_holder }
  else if target_index = 2 then
    if MIN_TOTAL_ROOMS > value_holder ∨ MAX_TOTAL_ROOMS < value_holder then none
    else if erange then none
    else some { p_config_info with max_rooms := (value_holder % 256).toNat }
  else if target_index = 3 then
    if MIN_TOTAL_CLIENTS > value_holder ∨ MAX_TOTAL_CLIENTS < value_holder then none
    else if erange then none
    else some { p_config_info with max_client := (value_holder % 256).toNat }
  else some p_config_info

/-- `t_pool_input_check` on the `uint8_t` that `num_threads` points to. -/
def t_pool_input_check (num_threads : Nat) : Nat :=
  if 0 ≥ num_threads ∨ MAX_THREADS < num_threads then FAILURE else SUCCESS

/-- The thread count `cr_listener` passes to `t_pool_init`:
`uint8_t num_threads = p_config_info->max_client + 1`. -/
def cr_listener_num_threads (p_config_info : config_info_t) : Nat :=
  (p_config_info.max_client + 1) % 256

/-- The first step of `cr_listener`, `t_pool_init` with that thread count:
the number of workers created, or `none` when `t_pool_init` returns `NULL`
and `cr_listener` returns `FAILURE`. -/
def cr_listener_t_pool (p_config_info : config_info_t) : Option Nat :=
  if t_pool_input_check (cr_listener_num_threads p_config_info) = FAILURE then none
  else some (cr_listener_num_threads p_config_info)

/-- A configuration before its numbers are read. -/
def config_calloc : config_info_t := { port := 0, max_rooms := 0, max_client := 0 }

/-- The user name `user` followed by the two decimal digits of `i`. -/
def name_user (i : Nat) : List Nat := [117, 115, 101, 114, 48 + i / 10 % 10, 48 + i % 10]

/-- The frame REGISTER `userNN` / `hunter22` for the number `i`, as
received. -/
def register_user (i : Nat) : List Nat :=
  recv_buffer (frame_2 ACCOUNT_TYPE REGISTER_STYPE REQUEST (name_user i) pass_hunter22)

/-- The server after the users of the numbers 1 to `n` have registered, one
after the other, on `srv_0`. -/
def srv_registered : Nat → server_t
  | 0 => srv_0
  | n + 1 =>
    (cr_sm_handle env_ok (srv_registered n) (session_init 1) (register_user (n + 1))).srv

/-- A `users.txt` with the line `adm:hunter22` before the line of `admin`. -/
def users_txt_adm : List Nat := [97, 100, 109, 58] ++ pass_hunter22 ++ [10] ++ users_txt_0

/-- A `users.txt` whose only line has an empty user name: `:hunter22`. -/
def users_txt_noname : List Nat := [58] ++ pass_hunter22

/-- A `users.txt` with the line of `admin`, a blank line and the line
`bob:abc`, whose password has three characters. -/
def users_txt_blank : List Nat := users_txt_0 ++ [10, 10] ++ name_bob ++ [58, 97, 98, 99]

/-- A `users.txt` with the line of `admin` and the line `bob`, without a
colon. -/
def users_txt_nocolon : List Nat := users_txt_0 ++ [10] ++ name_bob

/-- A `users.txt` with the line of `admin` and a line whose password starts
with a blank. -/
def users_txt_bad_char : List Nat :=
  users_txt_0 ++ [10] ++ name_bob ++ [58, 32, 97, 98, 99, 100, 101]

/-- A `users.txt` that ends, without a newline, in the line of `bob` with a
password of 31 letters. -/
def users_txt_pass_31 : List Nat := users_txt_0 ++ [10] ++ name_bob ++ [58] ++ List.replicate 31 97

/-- The names, passwords and admin flags of the users loaded at start-up
from a `users.txt`, in the order of their addresses; `none` when
`cr_users_start` fails. The password is read as `cr_users_login_helper`
reads it, from the 31 bytes of `p_password`. -/
def loaded_users (users_txt : List Nat) : Option (List (List Nat × List Nat × Nat)) :=
  (cr_listener_init env_ok.rand 5 3 users_txt).map (fun s =>
    s.user_mem.map (fun u => (user_name_str u, c_str u.p_password, u.admin_status)))

/-! ## The circular list on the heap (`cll.c`)

The pointer structure of `cll.c`: a node pointer is the index of the node in
`mem`, `calloc` appends a fresh node, `free` turns the cell into `none`, and
`NULL` is `none`. A function returns `none` when the C code would read or
write through `NULL` or a freed pointer, or overflow an `int`. -/

namespace Cll

/-- A `node_t`. -/
structure node_t where
  p_data : Option Nat
  p_next : Option Nat
deriving DecidableEq, Repr

/-- A `cll_t`. -/
structure cll_t where
  p_head : Option Nat
  p_tail : Option Nat
  size : Int
deriving DecidableEq, Repr

/-- The heap of nodes together with the list context. -/
structure state_t where
  mem : List (Option node_t)
  cll : cll_t
deriving DecidableEq, Repr

/-- How a loop ends: by undefined behaviour, by `return FAILURE`, or by
falling through with the values of its variables. -/
inductive loop_t (α : Type) where
  | crash : loop_t α
  | fail : loop_t α
  | done : α → loop_t α
deriving DecidableEq, Repr

/-- The node a pointer refers to, if it is allocated. -/
def node_get (mem : List (Option node_t)) (p : Nat) : Option node_t := mem.getD p none

/-- The assignment `p->p_next = v`. -/
def set_next (mem : List (Option node_t)) (p : Nat) (v : Option Nat) :
    Option (List (Option node_t)) :=
  match node_get mem p with
  | none => none
  | some n => some (mem.set p (some { n with p_next := v }))

/-- C `free(p)` of a node. -/
def node_free (mem : List (Option node_t)) (p : Nat) : Option (List (Option node_t)) :=
  match node_get mem p with
  | none => none
  | some _ => some (mem.set p none)

/-- The statement `size++` on an `int`. -/
def int_incr (x : Int) : Option Int := if x < 2147483647 then some (x + 1) else none

/-- The statement `size--` on an `int`. -/
def int_decr (x : Int) : Option Int := if -2147483648 < x then some (x - 1) else none

/-- `cll_init`. -/
def cll_init : state_t := { mem := [], cll := { p_head := none, p_tail := none, size := 0 } }

/-- `cll_size`. -/
def cll_size (st : state_t) : Int := st.cll.size

/-- `cll_empty_list_add`. -/
def cll_empty_list_add (st : state_t) (p_newnode : Nat) : Option (Nat × state_t) :=
  match st.cll.p_head with
  | none =>
    match set_next st.mem p_newnode (some p_newnode) with
    | none => none
    | some mem =>
      some (SUCCESS, { mem := mem,
                       cll := { p_head := some p_newnode, p_tail := some p_newnode, size := 1 } })
  | some _ => some (FAILURE, st)

/-- The two statements `p_newnode = calloc(1, sizeof(node_t))` and
`p_newnode->p_data = data`: the new pointer and the heap. -/
def node_calloc (mem : List (Option node_t)) (data : Option Nat) : Nat × List (Option node_t) :=
  (mem.length, mem ++ [some { p_data := data, p_next := none }])

/-- `cll_insert_element_begin`. -/
def cll_insert_element_begin (st : state_t) (data : Option Nat) : Option (Nat × state_t) :=
  let p_newnode := (node_calloc st.mem data).1
  let st1 : state_t := { st with mem := (node_calloc st.mem data).2 }
  match cll_empty_list_add st1 p_newnode with
  | none => none
  | some (checker, st2) =>
    if checker = SUCCESS then some (checker, st2)
    else
      match st2.cll.p_tail with
      | none => (node_free st2.mem p_newnode).map (fun mem => (FAILURE, { st2 with mem := mem }))
      | some p_tail =>
        match set_next st2.mem p_newnode st2.cll.p_head with
        | none => none
        | some mem1 =>
          match set_next mem1 p_tail (some p_newnode) with
          | none => none
          | some mem2 =>
            match int_incr st2.cll.size with
            | none => none
            | some size =>
              some (SUCCESS, { mem := mem2,
                               cll := { p_head := some p_newnode, p_tail := some p_tail,
                                        size := size } })

/-- `cll_insert_element_end`. -/
def cll_insert_element_end (st : state_t) (data : Option Nat) : Option (Nat × state_t) :=
  let p_newnode := (node_calloc st.mem data).1
  let st1 : state_t := { st with mem := (node_calloc st.mem data).2 }
  match cll_empty_list_add st1 p_newnode with
  | none => none
  | some (checker, st2) =>
    if checker = SUCCESS then some (SUCCESS, st2)
    else
      match st2.cll.p_tail with
      | none => (node_free st2.mem p_newnode).map (fun mem => (FAILURE, { st2 with mem := mem }))
      | some p_tail =>
        match set_next st2.mem p_tail (some p_newnode) with
        | none => none
        | some mem1 =>
          match set_next mem1 p_newnode st2.cll.p_head with
          | none => none
          | some mem2 =>
            match int_incr st2.cll.size with
            | none => none
            | some size =>
              some (SUCCESS, { mem := mem2,
                               cll := { p_head := st2.cll.p_head, p_tail := some p_newnode,
                                        size := size } })

/-- `cll_position_checker`. -/
def cll_position_checker (st : state_t) (position : Int) : Nat :=
  if position < 0 ∨ position > st.cll.size then FAILURE else SUCCESS

/-- The `while (counter < position)` loop of `cll_insert_element`, with the
number of iterations still to run and `p_temp`. -/
def cll_insert_walk (mem : List (Option node_t)) : Nat → Option Nat → loop_t (Option Nat)
  | 0, p_temp => loop_t.done p_temp
  | k + 1, p_temp =>
    match p_temp with
    | none => loop_t.fail
    | some p =>
      match node_get mem p with
      | none => loop_t.crash
      | some n => cll_insert_walk mem k n.p_next

/-- The part of `cll_insert_element` from the `calloc` on. -/
def cll_insert_element_node (st : state_t) (data : Option Nat) (position : Int) :
    Option (Nat × state_t) :=
  let p_newnode := (node_calloc st.mem data).1
  let st1 : state_t := { st with mem := (node_calloc st.mem data).2 }
  match cll_empty_list_add st1 p_newnode with
  | none => none
  | some (checker, st2) =>
    if checker = SUCCESS then some (checker, st2)
    else
      match cll_insert_walk st2.mem (position - 1).toNat st2.cll.p_head with
      | loop_t.crash => none
      | loop_t.fail =>
        (node_free st2.mem p_newnode).map (fun mem => (FAILURE, { st2 with mem := mem }))
      | loop_t.done none => none
      | loop_t.done (some p_temp) =>
        match node_get st2.mem p_temp with
        | none => none
        | some n =>
          match set_next st2.mem p_newnode n.p_next with
          | none => none
          | some mem1 =>
            match set_next mem1 p_temp (some p_newnode) with
            | none => none
            | some mem2 =>
              match int_incr st2.cll.size with
              | none => none
              | some size => some (SUCCESS, { mem := mem2, cll := { st2.cll with size := size } })

/-- `cll_insert_element`. -/
def cll_insert_element (st : state_t) (data : Option Nat) (position : Int) :
    Option (Nat × state_t) :=
  if 0 ≠ st.cll.size then
    if cll_position_checker st position = FAILURE then some (FAILURE, st)
    else if 0 = position then cll_insert_element_begin st data
    else if st.cll.size = position then cll_insert_element_end st data
    else cll_insert_element_node st data position
  else cll_insert_element_node st data position

/-- `cll_remove_element_begin` without a free function. -/
def cll_remove_element_begin (st : state_t) : Option (Nat × state_t) :=
  match st.cll.p_head with
  | none => some (FAILURE, st)
  | some p_head =>
    match st.cll.p_tail with
    | none => some (FAILURE, st)
    | some p_tail =>
      if 1 = st.cll.size then
        (node_free st.mem p_head).map (fun mem =>
          (SUCCESS, { mem := mem, cll := { p_head := none, p_tail := none, size := 0 } }))
      else
        match node_get st.mem p_head with
        | none => none
        | some n =>
          match n.p_next with
          | none => some (FAILURE, st)
          | some p_next =>
            match node_free st.mem p_head with
            | none => none
            | some mem1 =>
              match set_next mem1 p_tail (some p_next) with
              | none => none
              | some mem2 =>
                match int_decr st.cll.size with
                | none => none
                | some size =>
                  some (SUCCESS, { mem := mem2,
                                   cll := { p_head := some p_next, p_tail := some p_tail,
                                            size := size } })

/-- The `while (counter < (position - 1))` loop of `cll_remove_element`,
with the number of iterations still to run, `p_temp1` and `p_temp2`. -/
def cll_remove_walk (mem : List (Option node_t)) : Nat → Nat → Nat → loop_t (Nat × Nat)
  | 0, p_temp1, p_temp2 => loop_t.done (p_temp1, p_temp2)
  | k + 1, _, p_temp2 =>
    match node_get mem p_temp2 with
    | none => loop_t.crash
    | some n =>
      match n.p_next with
      | none => loop_t.fail
      | some p_next => cll_remove_walk mem k p_temp2 p_next

/-- The part of `cll_remove_element` after the position check. -/
def cll_remove_element_node (st : state_t) (position : Int) : Option (Nat × state_t) :=
  match st.cll.p_head with
  | none => some (FAILURE, st)
  | some p_head =>
    if 1 = st.cll.size then
      (node_free st.mem p_head).map (fun mem =>
        (SUCCESS, { mem := mem, cll := { p_head := none, p_tail := none, size := 0 } }))
    else
      match node_get st.mem p_head with
      | none => none
      | some n =>
        match n.p_next with
        | none => some (FAILURE, st)
        | some p_next =>
          match cll_remove_walk st.mem (position - 1).toNat p_head p_next with
          | loop_t.crash => none
          | loop_t.fail => some (FAILURE, st)
          | loop_t.done (p_temp1, p_temp2) =>
            match node_get st.mem p_temp2 with
            | none => none
            | some n2 =>
              match set_next st.mem p_temp1 n2.p_next with
              | none => none
              | some mem1 =>
                match node_free mem1 p_temp2 with
                | none => none
                | some mem2 =>
                  match int_decr st.cll.size with
                  | none => none
                  | some size =>
                    some (SUCCESS,
                      { mem := mem2,
                        cll := { p_head := st.cll.p_head,
                                 p_tail := if position = st.cll.size - 1 then some p_temp1
                                           else st.cll.p_tail,
                                 size := size } })

/-- `cll_remove_element` without a free function; `position - 1` is not
computed for the least `int`. -/
def cll_remove_element (st : state_t) (position : Int) : Option (Nat × state_t) :=
  if position = -2147483648 then none
  else
    let position_holder := if 0 = position then 0 else position - 1
    if 0 ≠ st.cll.size then
      if cll_position_checker st position_holder = FAILURE then some (FAILURE, st)
      else if 0 = position then cll_remove_element_begin st
      else cll_remove_element_node st position
    else cll_remove_element_node st position

/-- `cll_remove_element_end` without a free function. -/
def cll_remove_element_end (st : state_t) : Option (Nat × state_t) :=
  if st.cll.size = -2147483648 then none else cll_remove_element st (st.cll.size - 1)

/-- The `while (counter != position)` loop of `cll_return_element`, with the
number of iterations still to run and `p_temp`; `fail` stands for
`return NULL`. -/
def cll_return_walk (mem : List (Option node_t)) : Nat → Option Nat → loop_t (Option Nat)
  | 0, p_temp => loop_t.done p_temp
  | k + 1, p_temp =>
    match p_temp with
    | none => loop_t.fail
    | some p =>
      match node_get mem p with
      | none => loop_t.crash
      | some n => cll_return_walk mem k n.p_next

/-- `cll_return_element`: the data pointer returned (`none` inside is
`NULL`). -/
def cll_return_element (st : state_t) (position : Int) : Option (Option Nat) :=
  if position = -2147483648 then none
  else
    let position_holder := if 0 = position then 0 else position - 1
    if 0 ≠ st.cll.size then
      if cll_position_checker st position_holder = FAILURE then some none
      else
        match st.cll.p_head with
        | none => some none
        | some _ =>
          match cll_return_walk st.mem position.toNat st.cll.p_head with
          | loop_t.crash => none
          | loop_t.fail => some none
          | loop_t.done none => none
          | loop_t.done (some p_temp) => (node_get st.mem p_temp).map (fun n => n.p_data)
    else some none

/-- A chain of nodes: the nodes at the addresses `addrs` hold the data of
`l` in this order, each points to the next address of the chain, and the
last one points to `nxt`. -/
def cll_seg (mem : List (Option node_t)) : List Nat → List (Option Nat) → Nat → Prop
  | [], [], _ => True
  | a :: as, d :: ds, nxt =>
    node_get mem a = some { p_data := d, p_next := some (as.headD nxt) } ∧ cll_seg mem as ds nxt
  | _ :: _, [], _ => False
  | [], _ :: _, _ => False

instance cll_seg_decidable (mem : List (Option node_t)) :
    ∀ (addrs : List Nat) (l : List (Option Nat)) (nxt : Nat), Decidable (cll_seg mem addrs l nxt)
  | [], [], _ => isTrue trivial
  | a :: as, d :: ds, nxt =>
    match cll_seg_decidable mem as ds nxt with
    | isTrue h =>
      if h1 : node_get mem a = some { p_data := d, p_next := some (as.headD nxt) } then
        isTrue ⟨h1, h⟩
      else isFalse (fun h2 => h1 h2.1)
    | isFalse h => isFalse (fun h2 => h h2.2)
  | _ :: _, [], _ => isFalse (fun h => h)
  | [], _ :: _, _ => isFalse (fun h => h)

/-- The list holds the elements `l`, from head to tail, in the nodes at the
addresses `addrs`: the addresses are distinct, the chain closes at the head,
`p_head` and `p_tail` are the first and the last address (`NULL` for the
empty list) and `size` is the number of elements. -/
def cll_repr (st : state_t) (addrs : List Nat) (l : List (Option Nat)) : Prop :=
  st.cll.size = l.length ∧ addrs.Nodup ∧ st.cll.p_head = addrs.head? ∧
  st.cll.p_tail = addrs.getLast? ∧ cll_seg st.mem addrs l (addrs.headD 0)

instance (st : state_t) (addrs : List Nat) (l : List (Option Nat)) :
    Decidable (cll_repr st addrs l) := by
  unfold cll_repr; infer_instance

end Cll

/-- The list that `cll_insert_element_end` builds from the empty list with
the data pointers 1, 2 and 3. -/
def cll_three : Cll.state_t :=
  (((Cll.cll_insert_element_end Cll.cll_init (some 1)).bind
    (fun r => Cll.cll_insert_element_end r.2 (some 2))).bind
    (fun r => Cll.cll_insert_element_end r.2 (some 3))).elim Cll.cll_init (fun r => r.2)

/-! ## The task queue on the heap (`queue.c`)

The doubly linked list of `queue.c`, embedded like the circular list: a node
pointer is an index into `mem`, `free` turns the cell into `none`, and a
function returns `none` when the C code would read or write through `NULL`
or a freed pointer, or overflow an `int`. -/

/-- A `queue_node_t`. -/
structure queue_node_t where
  p_data : Option Nat
  p_next : Option Nat
  p_prev : Option Nat
deriving DecidableEq, Repr

/-- A `queue_t`. -/
structure queue_t where
  p_head : Option Nat
  p_tail : Option Nat
  size : Int
deriving DecidableEq, Repr

/-- The heap of queue nodes together with the queue context. -/
structure queue_state_t where
  mem : List (Option queue_node_t)
  queue : queue_t
deriving DecidableEq, Repr

/-- The node a pointer refers to, if it is allocated. -/
def queue_node_get (mem : List (Option queue_node_t)) (p : Nat) : Option queue_node_t :=
  mem.getD p none

/-- `queue_init`. -/
def queue_init : queue_state_t :=
  { mem := [], queue := { p_head := none, p_tail := none, size := 0 } }

/-- `queue_isempty`. -/
def queue_isempty (st : queue_state_t) : Bool := 0 == st.queue.size

/-- `queue_size`. -/
def queue_size (st : queue_state_t) : Int := st.queue.size

/-- `queue_peek`: the data pointer returned (`none` inside is `NULL`). -/
def queue_peek (st : queue_state_t) : Option (Option Nat) :=
  if 0 = st.queue.size then some none
  else
    match st.queue.p_tail with
    | none => some none
    | some p_tail => (queue_node_get st.mem p_tail).map (fun n => n.p_data)

/-- `queue_enqueue`. -/
def queue_enqueue (st : queue_state_t) (p_data : Option Nat) : Option (Nat × queue_state_t) :=
  let p_queue_node := st.mem.length
  let mem1 := st.mem ++ [some { p_data := p_data, p_next := none, p_prev := none }]
  if 0 = st.queue.size then
    some (SUCCESS,
      { mem := mem1,
        queue := { p_head := some p_queue_node, p_tail := some p_queue_node, size := 1 } })
  else
    match st.queue.p_head with
    | none => some (FAILURE, { st with mem := mem1.set p_queue_node none })
    | some p_head =>
      match queue_node_get mem1 p_head with
      | none => none
      | some h =>
        let mem2 := mem1.set p_head (some { h with p_prev := some p_queue_node })
        let mem3 := mem2.set p_queue_node
          (some { p_data := p_data, p_next := some p_head, p_prev := none })
        if st.queue.size < 2147483647 then
          some (SUCCESS,
            { mem := mem3,
              queue := { p_head := some p_queue_node, p_tail := st.queue.p_tail,
                         size := st.queue.size + 1 } })
        else none

/-- `queue_dequeue` without a free function: the data pointer returned and
the state. -/
def queue_dequeue (st : queue_state_t) : Option (Option Nat × queue_state_t) :=
  if 0 = st.queue.size then some (none, st)
  else
    match st.queue.p_tail with
    | none => some (none, st)
    | some p_temp_node =>
      match queue_node_get st.mem p_temp_node with
      | none => none
      | some t =>
        let data_holder := t.p_data
        if 1 = st.queue.size then
          some (data_holder,
            { mem := st.mem.set p_temp_node none,
              queue := { p_head := none, p_tail := none, size := 0 } })
        else
          match t.p_prev with
          | none => none
          | some p_tail =>
            match queue_node_get st.mem p_tail with
            | none => none
            | some n =>
              let mem1 := st.mem.set p_tail (some { n with p_next := none })
              if -2147483648 < st.queue.size then
                some (data_holder,
                  { mem := mem1.set p_temp_node none,
                    queue := { p_head := st.queue.p_head, p_tail := some p_tail,
                               size := st.queue.size - 1 } })
              else none

/-- A call of the queue interface. -/
inductive queue_op where
  | enqueue : Option Nat → queue_op
  | dequeue : queue_op
deriving DecidableEq, Repr

/-- What a call returns: the code of `queue_enqueue` or the data pointer of
`queue_dequeue`. -/
inductive queue_out where
  | rc : Nat → queue_out
  | data : Option Nat → queue_out
deriving DecidableEq, Repr

/-- A sequence of calls on a queue: the final state and what the calls
returned. -/
def queue_run : queue_state_t → List queue_op → Option (queue_state_t × List queue_out)
  | st, [] => some (st, [])
  | st, queue_op.enqueue d :: ops =>
    match queue_enqueue st d with
    | none => none
    | some r => (queue_run r.2 ops).map (fun q => (q.1, queue_out.rc r.1 :: q.2))
  | st, queue_op.dequeue :: ops =>
    match queue_dequeue st with
    | none => none
    | some r => (queue_run r.2 ops).map (fun q => (q.1, queue_out.data r.1 :: q.2))

/-- The first-in first-out queue of the specification, oldest item first: one
call. A dequeue on the empty queue returns `NULL` and changes nothing. -/
def fifo_step (items : List (Option Nat)) : queue_op → List (Option Nat) × queue_out
  | queue_op.enqueue d => (items ++ [d], queue_out.rc SUCCESS)
  | queue_op.dequeue =>
    match items with
    | [] => ([], queue_out.data none)
    | x :: rest => (rest, queue_out.data x)

/-- The first-in first-out queue of the specification: a sequence of calls. -/
def fifo_run : List (Option Nat) → List queue_op → List (Option Nat) × List queue_out
  | items, [] => (items, [])
  | items, op :: ops =>
    ((fifo_run (fifo_step items op).1 ops).1,
      (fifo_step items op).2 :: (fifo_run (fifo_step items op).1 ops).2)

/-- The number of enqueue calls of a sequence. -/
def fifo_enqueues (ops : List queue_op) : Nat := ops.countP (fun op => op != queue_op.dequeue)

/-- The number of dequeue calls of a sequence that find the queue of the
specification non-empty. -/
def fifo_dequeues : List (Option Nat) → List queue_op → Nat
  | _, [] => 0
  | items, op :: ops =>
    (if op = queue_op.dequeue ∧ items ≠ [] then 1 else 0) + fifo_dequeues (fifo_step items op).1 ops

/-- The address after the first one of a chain, or `prv` when the chain has
no more. -/
def queue_link (addrs : List Nat) (prv : Option Nat) : Option Nat :=
  match addrs with
  | [] => prv
  | b :: _ => some b

/-- A chain of queue nodes from the tail to the head: the nodes at `addrs`
hold the data `items`, oldest first, the `p_prev` of each is the next address
of the chain (`prv` for the last), and the `p_next` of each is the address
before it (`nxt` for the first). -/
def queue_chain (mem : List (Option queue_node_t)) :
    Option Nat → List Nat → List (Option Nat) → Option Nat → Prop
  | _, [], [], _ => True
  | nxt, a :: as, d :: ds, prv =>
    queue_node_get mem a = some { p_data := d, p_next := nxt, p_prev := queue_link as prv } ∧
    queue_chain mem (some a) as ds prv
  | _, _ :: _, [], _ => False
  | _, [], _ :: _, _ => False

instance queue_chain_decidable (mem : List (Option queue_node_t)) :
    ∀ (nxt : Option Nat) (addrs : List Nat) (items : List (Option Nat)) (prv : Option Nat),
      Decidable (queue_chain mem nxt addrs items prv)
  | _, [], [], _ => isTrue trivial
  | nxt, a :: as, d :: ds, prv =>
    match queue_chain_decidable mem (some a) as ds prv with
    | isTrue h =>
      if h1 : queue_node_get mem a =
          some { p_data := d, p_next := nxt, p_prev := queue_link as prv } then
        isTrue ⟨h1, h⟩
      else isFalse (fun h2 => h1 h2.1)
    | isFalse h => isFalse (fun h2 => h h2.2)
  | _, _ :: _, [], _ => isFalse (fun h => h)
  | _, [], _ :: _, _ => isFalse (fun h => h)

/-- The queue holds the items `items`, oldest first, in the nodes at the
addresses `addrs`: `p_tail` is the first address and `p_head` the last
(`NULL` for the empty queue), the addresses are distinct and `size` is the
number of items. -/
def queue_repr (st : queue_state_t) (addrs : List Nat) (items : List (Option Nat)) : Prop :=
  st.queue.size = items.length ∧ addrs.Nodup ∧ st.queue.p_tail = addrs.head? ∧
  st.queue.p_head = addrs.getLast? ∧ queue_chain st.mem none addrs items none

instance (st : queue_state_t) (addrs : List Nat) (items : List (Option Nat)) :
    Decidable (queue_repr st addrs items) := by
  unfold queue_repr; infer_instance

/-- The calls enqueue 1, enqueue 2, dequeue, enqueue 3 and three times
dequeue. -/
def queue_calls : List queue_op :=
  [queue_op.enqueue (some 1), queue_op.enqueue (some 2), queue_op.dequeue,
    queue_op.enqueue (some 3), queue_op.dequeue, queue_op.dequeue, queue_op.dequeue]

/-! ## The finite map that the hash table refines -/

/-- A call of the hash table interface: `h_table_new_entry` with a data
pointer and a key, `h_table_return_entry` or `h_table_destroy_entry` with a
key. -/
inductive h_table_op where
  | new_entry : Nat → List Nat → h_table_op
  | return_entry : List Nat → h_table_op
  | destroy_entry : List Nat → h_table_op
deriving DecidableEq, Repr

/-- What a call returns: the code of `h_table_new_entry`, or the data pointer
of the two other functions (`none` is `NULL`). -/
inductive h_table_out where
  | rc : Nat → h_table_out
  | data : Option Nat → h_table_out
deriving DecidableEq, Repr

/-- The key of a call. -/
def h_table_op_key : h_table_op → List Nat
  | h_table_op.new_entry _ p_key => p_key
  | h_table_op.return_entry p_key => p_key
  | h_table_op.destroy_entry p_key => p_key

/-- One call on a table: the table afterwards and what the call returned. -/
def h_table_step (rand : Nat → Nat → Nat) (t : h_table_t) : h_table_op → h_table_t × h_table_out
  | h_table_op.new_entry p_data p_key =>
    ((h_table_new_entry rand t p_data p_key).2,
      h_table_out.rc (h_table_new_entry rand t p_data p_key).1)
  | h_table_op.return_entry p_key => (t, h_table_out.data (h_table_return_entry t p_key))
  | h_table_op.destroy_entry p_key =>
    ((h_table_destroy_entry t p_key).2, h_table_out.data (h_table_destroy_entry t p_key).1)

/-- A sequence of calls on a table. -/
def h_table_run (rand : Nat → Nat → Nat) : h_table_t → List h_table_op →
    h_table_t × List h_table_out
  | t, [] => (t, [])
  | t, op :: ops =>
    ((h_table_run rand (h_table_step rand t op).1 ops).1,
      (h_table_step rand t op).2 :: (h_table_run rand (h_table_step rand t op).1 ops).2)

/-- The first `KEY_LENGTH` characters of a key. -/
def key_chars (p_key : List Nat) : List Nat := c_str (p_key.take KEY_LENGTH)

/-- The finite map of the specification, as a list of pairs of key
characters and data: the data mapped to a key. -/
def fmap_lookup (m : List (List Nat × Nat)) (p_key : List Nat) : Option Nat :=
  (m.find? (fun e => e.1 == key_chars p_key)).map (fun e => e.2)

/-- The finite map of the specification: one call. `new_entry` fails and
changes nothing when the key is present and otherwise adds the mapping;
`destroy_entry` returns the data mapped to the key and removes the key. -/
def fmap_step (m : List (List Nat × Nat)) : h_table_op → List (List Nat × Nat) × h_table_out
  | h_table_op.new_entry p_data p_key =>
    if fmap_lookup m p_key = none then ((key_chars p_key, p_data) :: m, h_table_out.rc SUCCESS)
    else (m, h_table_out.rc FAILURE)
  | h_table_op.return_entry p_key => (m, h_table_out.data (fmap_lookup m p_key))
  | h_table_op.destroy_entry p_key =>
    (m.filter (fun e => e.1 != key_chars p_key), h_table_out.data (fmap_lookup m p_key))

/-- The finite map of the specification: a sequence of calls. -/
def fmap_run : List (List Nat × Nat) → List h_table_op →
    List (List Nat × Nat) × List h_table_out
  | m, [] => (m, [])
  | m, op :: ops =>
    ((fmap_run (fmap_step m op).1 ops).1,
      (fmap_step m op).2 :: (fmap_run (fmap_step m op).1 ops).2)

/-- A table whose entries are consistent: as many slots as its capacity,
every entry in the slot of its hash, no two entries with keys that `strncmp`
finds equal on `KEY_LENGTH` bytes, zero-padded keys, and a `size` that counts
the entries. -/
def h_table_ok (t : h_table_t) : Prop :=
  h_table_sized t ∧
  (∀ i, i < t.pp_array.length → ∀ e ∈ h_table_slot t i, h_table_index t e.p_key = i) ∧
  (h_table_list t).Pairwise (fun a b => c_strncmp_eq a.p_key b.p_key KEY_LENGTH = false) ∧
  (∀ e ∈ h_table_list t, key_canonical e.p_key) ∧
  t.size = (h_table_list t).length

/-- The table answers every lookup of a zero-padded key as the finite map
does. -/
def h_table_refines (t : h_table_t) (m : List (List Nat × Nat)) : Prop :=
  ∀ k, key_canonical k → h_table_return_entry t k = fmap_lookup m k

/-- A test key: the five decimal digits of `n`, zero-padded to eleven
bytes. -/
def h_table_test_key (n : Nat) : List Nat :=
  [48 + n / 10000 % 10, 48 + n / 1000 % 10, 48 + n / 100 % 10, 48 + n / 10 % 10, 48 + n % 10,
    0, 0, 0, 0, 0, 0]

/-- The calls that enter the first `n` test keys, key `i` with the data
pointer `i + 1`. -/
def h_table_fill_calls (n : Nat) : List h_table_op :=
  (List.range n).map (fun i => h_table_op.new_entry (i + 1) (h_table_test_key i))

/-- Calls on a table of capacity 2: three test keys are entered, one of
them twice, the table growing on the way, then lookups and a removal. -/
def h_table_calls : List h_table_op :=
  [h_table_op.new_entry 1 (h_table_test_key 0), h_table_op.new_entry 2 (h_table_test_key 1),
    h_table_op.new_entry 9 (h_table_test_key 1), h_table_op.new_entry 3 (h_table_test_key 2),
    h_table_op.return_entry (h_table_test_key 0), h_table_op.destroy_entry (h_table_test_key 0),
    h_table_op.return_entry (h_table_test_key 0), h_table_op.return_entry (h_table_test_key 2)]

/-- The name `abcdefghijk`, of eleven characters. -/
def name_eleven : List Nat := [97, 98, 99, 100, 101, 102, 103, 104, 105, 106, 107]

/-- The name `abcdefghijX`, which differs from `abcdefghijk` in its eleventh
character. -/
def name_eleven_other : List Nat := [97, 98, 99, 100, 101, 102, 103, 104, 105, 106, 88]

/-- The frame REGISTER `abcdefghijk` / `hunter22`, as received. -/
def register_eleven : List Nat :=
  recv_buffer (frame_2 ACCOUNT_TYPE REGISTER_STYPE REQUEST name_eleven pass_hunter22)

/-- The frame LOGIN `abcdefghijX` / `hunter22`, as received. -/
def login_eleven_other : List Nat :=
  recv_buffer (frame_2 ACCOUNT_TYPE LOGIN_STYPE REQUEST name_eleven_other pass_hunter22)

/-- The frame REGISTER `abcdefghijX` / `hunter22`, as received. -/
def register_eleven_other : List Nat :=
  recv_buffer (frame_2 ACCOUNT_TYPE REGISTER_STYPE REQUEST name_eleven_other pass_hunter22)

/-- The server after `abcdefghijk` has registered on `srv_0`. -/
def srv_eleven : server_t := (cr_sm_handle env_ok srv_0 (session_init 1) register_eleven).srv

/-- The frame LOGIN `alice` / `hunter22` with the letter `A` after the
terminator of the name, as received. -/
def login_alice_padded : List Nat :=
  recv_buffer (frame_2 ACCOUNT_TYPE LOGIN_STYPE REQUEST (name_alice ++ [0, 65]) pass_hunter22)

/-- The text `admin:secret` followed by a newline. -/
def users_txt_newline : List Nat := users_txt_0 ++ [10]

/-- The server started on the `users.txt` that holds the line `admin:secret`
and ends with a newline. -/
def srv_newline : server_t := (cr_listener_init env_ok.rand 5 3 users_txt_newline).getD srv_0

/-- Every file of `rooms/` that holds a log has at most
`MAX_CHAT_FILE_SIZE` bytes. -/
def room_logs_bounded (srv : server_t) : Prop :=
  ∀ f ∈ srv.room_logs, f.2.length ≤ MAX_CHAT_FILE_SIZE

instance (srv : server_t) : Decidable (room_logs_bounded srv) := by
  unfold room_logs_bounded; infer_instance

/-! ## The mutex operations of the handlers -/

/-- The mutexes of the server: `p_users_mutex`, `p_rooms_mutex` and the
`room_mutex` of the `room_t` at an address. -/
inductive lock_t where
  | users_mutex
  | rooms_mutex
  | room_mutex (p_room : Nat)
deriving DecidableEq, Repr

/-- A successful call of `pthread_mutex_lock` or `pthread_mutex_unlock`. -/
inductive lock_op_t where
  | pthread_mutex_lock (m : lock_t)
  | pthread_mutex_unlock (m : lock_t)
deriving DecidableEq, Repr

/-- The mutex operations of `cr_users_reg_helper`: the two additions run
inside one critical section. -/
def cr_users_reg_helper_locks : List lock_op_t :=
  [lock_op_t.pthread_mutex_lock lock_t.users_mutex,
   lock_op_t.pthread_mutex_unlock lock_t.users_mutex]

/-- The mutex operations of `cr_users_register`: one critical section for
the lookup, and the one of the helper when the request is accepted. -/
def cr_users_register_locks (srv : server_t) (p_buffer : List Nat) : List lock_op_t :=
  let p_username := req_p_username p_buffer
  let p_password := req_p_password p_buffer
  let p_user := h_table_return_entry srv.users.p_users_table p_username
  let user_count := srv.users.user_count
  [lock_op_t.pthread_mutex_lock lock_t.users_mutex,
   lock_op_t.pthread_mutex_unlock lock_t.users_mutex] ++
  (if p_user ≠ none then []
   else
     let return_val := cr_users_chk_usr_and_pass p_username p_password user_count
     if return_val = FAILURE then []
     else if return_val ≠ SUCCESS then []
     else cr_users_reg_helper_locks)

/-- The mutex operations of `cr_users_login`: the helper runs inside one
critical section. -/
def cr_users_login_locks : List lock_op_t :=
  [lock_op_t.pthread_mutex_lock lock_t.users_mutex,
   lock_op_t.pthread_mutex_unlock lock_t.users_mutex]

/-- The mutex operations of `cr_users_admin_helper_1`. -/
def cr_users_admin_helper_1_locks : List lock_op_t :=
  [lock_op_t.pthread_mutex_lock lock_t.users_mutex,
   lock_op_t.pthread_mutex_unlock lock_t.users_mutex]

/-- The mutex operations of `cr_users_admin`: none when the request is
rejected before the helper is called. -/
def cr_users_admin_locks (srv : server_t) (p_buffer : List Nat) (p_user : Nat) : List lock_op_t :=
  let p_username := req_p_username p_buffer
  if c_strncmp_eq (user_at srv p_user).p_username p_username MAX_USERNAME_LENGTH then []
  else if (user_at srv p_user).admin_status = NOT_ADMIN then []
  else cr_users_admin_helper_1_locks

/-- The mutex operations of `cr_users_logout`: none when the acknowledge
cannot be sent. -/
def cr_users_logout_locks (env : env_t) (sess : session_t) (send_message : Nat) : List lock_op_t :=
  let a := if send_message = SEND_IT
    then cr_msg_send_ack env sess.p_ssl_holder ACCOUNT_TYPE LOGOUT_STYPE else (SUCCESS, [])
  if a.1 = FAILURE ∨ a.1 = CONNECTION_FAILURE then []
  else
    [lock_op_t.pthread_mutex_lock lock_t.users_mutex,
     lock_op_t.pthread_mutex_unlock lock_t.users_mutex]

/-- The mutex operations of `cr_users_remove_user`. -/
def cr_users_remove_user_locks (srv : server_t) (p_buffer : List Nat) (p_user : Nat) :
    List lock_op_t :=
  if (user_at srv p_user).admin_status = NOT_ADMIN then []
  else
    let p_username := req_p_username p_buffer
    if c_strncmp_eq (user_at srv p_user).p_username p_username MAX_USERNAME_LENGTH then []
    else
      [lock_op_t.pthread_mutex_lock lock_t.users_mutex,
       lock_op_t.pthread_mutex_unlock lock_t.users_mutex]

/-- The mutex operations of `cr_chats_chat`: `p_rooms_mutex` is released
after the lookup, before the `room_mutex` of the room found is taken. -/
def cr_chats_chat_locks (srv : server_t) (p_user : Nat) : List lock_op_t :=
  [lock_op_t.pthread_mutex_lock lock_t.rooms_mutex,
   lock_op_t.pthread_mutex_unlock lock_t.rooms_mutex] ++
  (match h_table_return_entry srv.rooms.p_rooms_table (user_at srv p_user).p_chat_room with
   | none => []
   | some p_room =>
     [lock_op_t.pthread_mutex_lock (lock_t.room_mutex p_room),
      lock_op_t.pthread_mutex_unlock (lock_t.room_mutex p_room)])

/-- The mutex operations of `cr_chats_leave`, in the same order as those of
`cr_chats_chat`. -/
def cr_chats_leave_locks (srv : server_t) (p_user : Nat) : List lock_op_t :=
  [lock_op_t.pthread_mutex_lock lock_t.rooms_mutex,
   lock_op_t.pthread_mutex_unlock lock_t.rooms_mutex] ++
  (match h_table_return_entry srv.rooms.p_rooms_table (user_at srv p_user).p_chat_room with
   | none => []
   | some p_room =>
     [lock_op_t.pthread_mutex_lock (lock_t.room_mutex p_room),
      lock_op_t.pthread_mutex_unlock (lock_t.room_mutex p_room)])

/-- The mutex operations of `cr_rooms_list`. -/
def cr_rooms_list_locks : List lock_op_t :=
  [lock_op_t.pthread_mutex_lock lock_t.rooms_mutex,
   lock_op_t.pthread_mutex_unlock lock_t.rooms_mutex]

/-- The mutex operations of `cr_rooms_join_helper`: the `room_mutex` of the
room found, none when the room does not exist. -/
def cr_rooms_join_helper_locks (srv : server_t) (p_room_name : List Nat) : List lock_op_t :=
  match h_table_return_entry srv.rooms.p_rooms_table p_room_name with
  | none => []
  | some p_room =>
    [lock_op_t.pthread_mutex_lock (lock_t.room_mutex p_room),
     lock_op_t.pthread_mutex_unlock (lock_t.room_mutex p_room)]

/-- The mutex operations of `cr_rooms_join`: the helper runs while
`p_rooms_mutex` is held. -/
def cr_rooms_join_locks (srv : server_t) (p_buffer : List Nat) : List lock_op_t :=
  [lock_op_t.pthread_mutex_lock lock_t.rooms_mutex] ++
    cr_rooms_join_helper_locks srv (req_p_room_name p_buffer) ++
    [lock_op_t.pthread_mutex_unlock lock_t.rooms_mutex]

/-- The mutex operations of `cr_rooms_create`. -/
def cr_rooms_create_locks (srv : server_t) (p_user : Nat) (p_buffer : List Nat) : List lock_op_t :=
  let p_room_name := req_p_room_name p_buffer
  if (user_at srv p_user).admin_status ≠ ADMIN then []
  else if cr_rooms_chk_str_chars p_room_name = BAD_CHAR then []
  else if MIN_ROOM_NAME_LENGTH > c_strlen p_room_name then []
  else
    [lock_op_t.pthread_mutex_lock lock_t.rooms_mutex,
     lock_op_t.pthread_mutex_unlock lock_t.rooms_mutex]

/-- The mutex operations of `cr_rooms_delete`. -/
def cr_rooms_delete_locks (srv : server_t) (p_user : Nat) : List lock_op_t :=
  if (user_at srv p_user).admin_status ≠ ADMIN then []
  else
    [lock_op_t.pthread_mutex_lock lock_t.rooms_mutex,
     lock_op_t.pthread_mutex_unlock lock_t.rooms_mutex]

/-- The mutex operations of `cr_sm_chat_state`. -/
def cr_sm_chat_state_locks (env : env_t) (srv : server_t) (sess : session_t)
    (p_buffer : List Nat) : List lock_op_t :=
  match sess.pp_user with
  | none => []
  | some p_user =>
    let type := c_byte p_buffer 0
    let s_type := c_byte p_buffer 1
    let opcode := c_byte p_buffer 2
    if type = CHAT_TYPE ∧ opcode = REQUEST then
      if s_type = CHAT_STYPE then cr_chats_chat_locks srv p_user
      else if s_type = LEAVE_STYPE then cr_chats_leave_locks srv p_user
      else []
    else if type = SESSION_TYPE ∧ opcode = REQUEST then
      if s_type = QUIT_STYPE then
        let l := cr_chats_leave env srv sess p_user DONT_SEND
        cr_chats_leave_locks srv p_user ++
          (if l.rc = FAILURE then [] else cr_users_logout_locks env l.sess DONT_SEND)
      else []
    else []

/-- The mutex operations of `cr_sm_ls_rooms`. -/
def cr_sm_ls_rooms_locks (srv : server_t) (p_user : Nat) (p_buffer : List Nat) (s_type : Nat) :
    List lock_op_t :=
  if s_type = LIST_STYPE then cr_rooms_list_locks
  else if s_type = JOIN_STYPE then cr_rooms_join_locks srv p_buffer
  else if s_type = CREATE_STYPE then cr_rooms_create_locks srv p_user p_buffer
  else if s_type = DEL_STYPE then cr_rooms_delete_locks srv p_user
  else []

/-- The mutex operations of `cr_sm_ls_account`. -/
def cr_sm_ls_account_locks (env : env_t) (srv : server_t) (sess : session_t) (p_user : Nat)
    (p_buffer : List Nat) (s_type : Nat) : List lock_op_t :=
  if s_type = ADMIN_STYPE then cr_users_admin_locks srv p_buffer p_user
  else if s_type = ADMIN_REMOVE_STYPE then cr_users_admin_locks srv p_buffer p_user
  else if s_type = DEL_STYPE then cr_users_remove_user_locks srv p_buffer p_user
  else if s_type = LOGOUT_STYPE then cr_users_logout_locks env sess SEND_IT
  else []

/-- The mutex operations of `cr_sm_logged_state`. -/
def cr_sm_logged_state_locks (env : env_t) (srv : server_t) (sess : session_t)
    (p_buffer : List Nat) : List lock_op_t :=
  match sess.pp_user with
  | none => []
  | some p_user =>
    let type := c_byte p_buffer 0
    let s_type := c_byte p_buffer 1
    let opcode := c_byte p_buffer 2
    if type = ACCOUNT_TYPE ∧ opcode = REQUEST then
      cr_sm_ls_account_locks env srv sess p_user p_buffer s_type
    else if type = ROOMS_TYPE ∧ opcode = REQUEST then
      cr_sm_ls_rooms_locks srv p_user p_buffer s_type
    else if type = SESSION_TYPE ∧ opcode = REQUEST then
      if s_type = QUIT_STYPE then cr_users_logout_locks env sess DONT_SEND else []
    else []

/-- The mutex operations of `cr_sm_connected_state`. -/
def cr_sm_connected_state_locks (srv : server_t) (p_buffer : List Nat) : List lock_op_t :=
  let type := c_byte p_buffer 0
  let s_type := c_byte p_buffer 1
  let opcode := c_byte p_buffer 2
  if type = ACCOUNT_TYPE ∧ opcode = REQUEST then
    if s_type = LOGIN_STYPE then cr_users_login_locks
    else if s_type = REGISTER_STYPE then cr_users_register_locks srv p_buffer
    else []
  else []

/-- The mutex operations of the handling of one received frame. -/
def cr_sm_handle_locks (env : env_t) (srv : server_t) (sess : session_t) (p_buffer : List Nat) :
    List lock_op_t :=
  if sess.logged_in = NOT_LOGGED_IN then cr_sm_connected_state_locks srv p_buffer
  else if sess.chatting = NOT_CHATTING then cr_sm_logged_state_locks env srv sess p_buffer
  else cr_sm_chat_state_locks env srv sess p_buffer

/-- The mutex operations of `cr_sm_session_clean`. -/
def cr_sm_session_clean_locks (env : env_t) (srv : server_t) (sess : session_t) : List lock_op_t :=
  let l : sres_t :=
    if sess.chatting = CHATTING then
      match sess.pp_user with
      | none => { rc := FAILURE, srv := srv, sess := sess, out := [] }
      | some p_user => cr_chats_leave env srv sess p_user DONT_SEND
    else { rc := SUCCESS, srv := srv, sess := sess, out := [] }
  let leave_locks : List lock_op_t :=
    if sess.chatting = CHATTING then
      match sess.pp_user with
      | none => []
      | some p_user => cr_chats_leave_locks srv p_user
    else []
  if sess.chatting = CHATTING ∧ l.rc = FAILURE then leave_locks
  else if l.sess.logged_in = LOGGED_IN then
    match l.sess.pp_user with
    | none => leave_locks
    | some _ => leave_locks ++ cr_users_logout_locks env l.sess DONT_SEND
  else leave_locks

/-- The mutex operations of one iteration of the loop of
`cr_sm_session_manager`, with those of the cleanup when the iteration leaves
the loop. -/
def cr_sm_session_manager_iter_locks (env : env_t) (srv : server_t) (sess : session_t)
    (rd : read_t) : List lock_op_t :=
  if srv.server_interrupt ≠ CONTINUE then cr_sm_session_clean_locks env srv sess
  else
    match rd with
    | read_t.timeout => []
    | read_t.error => cr_sm_session_clean_locks env srv sess
    | read_t.data bytes =>
      if bytes.length = 0 then cr_sm_session_clean_locks env srv sess
      else
        let r := cr_sm_handle env srv sess (recv_buffer bytes)
        let handle_locks := cr_sm_handle_locks env srv sess (recv_buffer bytes)
        if r.rc = FAILURE then
          handle_locks ++ cr_sm_session_clean_locks env (signal_handler r.srv) r.sess
        else if r.rc = CONNECTION_FAILURE then
          handle_locks ++ cr_sm_session_clean_locks env r.srv r.sess
        else if r.rc = THREAD_SHUTDOWN then
          handle_locks ++ cr_sm_session_clean_locks env r.srv r.sess
        else handle_locks

/-- Whether a mutex is the `room_mutex` of some room. -/
def lock_t.is_room : lock_t → Bool
  | lock_t.room_mutex _ => true
  | _ => false

/-- The lock order: a `room_mutex` may be taken when nothing is held or when
`p_rooms_mutex` alone is held; `p_rooms_mutex` and `p_users_mutex` may be
taken when no `room_mutex` is held. -/
def lock_order_adm (held : List lock_t) (m : lock_t) : Bool :=
  if m.is_room then decide (held = [] ∨ held = [lock_t.rooms_mutex])
  else held.all (fun h => !h.is_room)

/-- The level of a mutex: `p_users_mutex`, then `p_rooms_mutex`, then the
`room_mutex` of every room. -/
def lock_rank : lock_t → Nat
  | lock_t.users_mutex => 0
  | lock_t.rooms_mutex => 1
  | lock_t.room_mutex _ => 2

/-- The levelled order: a mutex may be taken when every mutex held is of a
lower level. -/
def lock_rank_adm (held : List lock_t) (m : lock_t) : Bool :=
  held.all (fun h => decide (lock_rank h < lock_rank m))

/-- The mutexes held after a sequence of operations, from the ones held
before; `none` when a mutex is taken against the order or one not held is
released. The mutex taken last is first in the list. -/
def lock_run (adm : List lock_t → lock_t → Bool) : List lock_t → List lock_op_t →
    Option (List lock_t)
  | held, [] => some held
  | held, lock_op_t.pthread_mutex_lock m :: rest =>
    if adm held m then lock_run adm (m :: held) rest else none
  | held, lock_op_t.pthread_mutex_unlock m :: rest =>
    if m ∈ held then lock_run adm (held.erase m) rest else none

/-- A thread of the server: the mutexes it holds and the operations it has
still to perform. -/
structure thread_t where
  held : List lock_t
  todo : List lock_op_t
deriving DecidableEq, Repr

/-- The mutexes held by the threads. -/
def locks_held (ts : List thread_t) : List lock_t := (ts.map (fun t => t.held)).flatten

/-- The next operation of a thread among the others: `pthread_mutex_lock`
blocks (`none`) while the mutex is held by any thread, the thread itself
included; `pthread_mutex_unlock` never blocks. -/
def thread_step (ts : List thread_t) (t : thread_t) : Option thread_t :=
  match t.todo with
  | [] => none
  | lock_op_t.pthread_mutex_lock m :: rest =>
    if m ∈ locks_held ts then none else some { held := m :: t.held, todo := rest }
  | lock_op_t.pthread_mutex_unlock m :: rest => some { held := t.held.erase m, todo := rest }

/-- One step of the thread at an index; `none` when it is blocked or has
finished. -/
def sys_step (ts : List thread_t) (i : Nat) : Option (List thread_t) :=
  match ts[i]? with
  | none => none
  | some t => (thread_step ts t).map (fun t1 => ts.set i t1)

/-- The configurations reachable by interleaving the steps of the threads. -/
inductive sys_reach (ts0 : List thread_t) : List thread_t → Prop where
  | start : sys_reach ts0 ts0
  | step (ts ts1 : List thread_t) (i : Nat) :
      sys_reach ts0 ts → sys_step ts i = some ts1 → sys_reach ts0 ts1

/-- A deadlock: some thread has operations left and no thread can step. -/
def sys_deadlocked (ts : List thread_t) : Prop :=
  (∃ t ∈ ts, t.todo ≠ []) ∧ ∀ i, sys_step ts i = none

/-- One iteration of a session loop: what the environment decides, the
shared state and session variables it starts from, and what `SSL_read`
delivers. -/
structure iter_call_t where
  env : env_t
  srv : server_t
  sess : session_t
  rd : read_t

/-- The thread of a session that runs the given iterations: it holds
nothing and has the mutex operations of the iterations to perform. -/
def session_thread (calls : List iter_call_t) : thread_t :=
  { held := [],
    todo := (calls.map
      (fun c => cr_sm_session_manager_iter_locks c.env c.srv c.sess c.rd)).flatten }

/-- What the handlers need of an order: each mutex may be taken when nothing
is held, and a `room_mutex` when `p_rooms_mutex` alone is held. -/
def lock_adm_ok (adm : List lock_t → lock_t → Bool) : Prop :=
  adm [] lock_t.users_mutex = true ∧ adm [] lock_t.rooms_mutex = true ∧
    ∀ p, adm [] (lock_t.room_mutex p) = true ∧
      adm [lock_t.rooms_mutex] (lock_t.room_mutex p) = true

/-- Every thread can finish its operations in the levelled order from the
mutexes it holds. -/
def sys_inv (ts : List thread_t) : Prop :=
  ∀ t ∈ ts, lock_run lock_rank_adm t.held t.todo = some []

/-! ## Sorting the circular list (`cll_sort`)

The comparison of `cll_merge` reads the first byte behind a data pointer as
a `char`; `bytes` gives that value for the addresses that can be read. Every
loop and the recursion of `cll_mergesort` take a bound on the number of
steps; running out of it counts as not returning. -/

namespace Cll

/-- How a loop of `cll_merge_helper` ends: by undefined behaviour, by
`return NULL` with the heap as it is then, or by falling through. -/
inductive ret_t (α : Type) where
  | crash : ret_t α
  | null (mem : List (Option node_t)) : ret_t α
  | done (a : α) : ret_t α
deriving DecidableEq, Repr

/-- The expression `*(char *)(p->p_data)`. -/
def node_char (bytes : Nat → Option Int) (mem : List (Option node_t)) (p : Option Nat) :
    Option Int :=
  match p with
  | none => none
  | some a =>
    match node_get mem a with
    | none => none
    | some n =>
      match n.p_data with
      | none => none
      | some d => bytes d

/-- The variables of `cll_merge_helper` that its loops change, with the
heap. -/
structure merge_t where
  mem : List (Option node_t)
  p_temp1 : Option Nat
  p_temp3 : Option Nat
  p_temp4 : Option Nat
  counter1 : Int
  counter2 : Int
deriving DecidableEq, Repr

/-- The branch of the loops of `cll_merge_helper` that appends the node at
`p_temp3`: the `NULL` check, `p_temp1->p_next = p_temp3`,
`p_temp1 = p_temp1->p_next`, `p_temp3 = p_temp3->p_next`, `counter1++`. -/
def cll_merge_first (v : merge_t) : ret_t merge_t :=
  match v.p_temp1, v.p_temp3 with
  | some t1, some t3 =>
    match set_next v.mem t1 (some t3) with
    | none => ret_t.crash
    | some mem1 =>
      match node_get mem1 t3 with
      | none => ret_t.crash
      | some n3 =>
        match int_incr v.counter1 with
        | none => ret_t.crash
        | some c =>
          ret_t.done { v with mem := mem1, p_temp1 := some t3, p_temp3 := n3.p_next, counter1 := c }
  | _, _ => ret_t.null v.mem

/-- The branch of the loops of `cll_merge_helper` that appends the node at
`p_temp4`. -/
def cll_merge_second (v : merge_t) : ret_t merge_t :=
  match v.p_temp1, v.p_temp4 with
  | some t1, some t4 =>
    match set_next v.mem t1 (some t4) with
    | none => ret_t.crash
    | some mem1 =>
      match node_get mem1 t4 with
      | none => ret_t.crash
      | some n4 =>
        match int_incr v.counter2 with
        | none => ret_t.crash
        | some c =>
          ret_t.done { v with mem := mem1, p_temp1 := some t4, p_temp4 := n4.p_next, counter2 := c }
  | _, _ => ret_t.null v.mem

/-- The loop `while ((counter1 != size1) && (counter2 != size2))` of
`cll_merge_helper`; the two bytes are read before the `NULL` checks. -/
def cll_merge_loop1 (bytes : Nat → Option Int) (size1 size2 : Int) : Nat → merge_t → ret_t merge_t
  | 0, _ => ret_t.crash
  | fuel + 1, v =>
    if v.counter1 ≠ size1 ∧ v.counter2 ≠ size2 then
      match node_char bytes v.mem v.p_temp3, node_char bytes v.mem v.p_temp4 with
      | some c3, some c4 =>
        if c3 < c4 then
          match cll_merge_first v with
          | ret_t.done v1 => cll_merge_loop1 bytes size1 size2 fuel v1
          | r => r
        else
          match cll_merge_second v with
          | ret_t.done v1 => cll_merge_loop1 bytes size1 size2 fuel v1
          | r => r
      | _, _ => ret_t.crash
    else ret_t.done v

/-- The loop `while (counter1 != size1)` of `cll_merge_helper`. -/
def cll_merge_loop2 (size1 : Int) : Nat → merge_t → ret_t merge_t
  | 0, _ => ret_t.crash
  | fuel + 1, v =>
    if v.counter1 ≠ size1 then
      match cll_merge_first v with
      | ret_t.done v1 => cll_merge_loop2 size1 fuel v1
      | r => r
    else ret_t.done v

/-- The loop `while (counter2 != size2)` of `cll_merge_helper`. -/
def cll_merge_loop3 (size2 : Int) : Nat → merge_t → ret_t merge_t
  | 0, _ => ret_t.crash
  | fuel + 1, v =>
    if v.counter2 ≠ size2 then
      match cll_merge_second v with
      | ret_t.done v1 => cll_merge_loop3 size2 fuel v1
      | r => r
    else ret_t.done v

/-- `cll_merge_helper`: the heap and the pointer returned (`none` inside is
`NULL`). -/
def cll_merge_helper (bytes : Nat → Option Int) (fuel : Nat) (v : merge_t) (p_temp2 : Option Nat)
    (size1 size2 : Int) : Option (List (Option node_t) × Option Nat) :=
  match cll_merge_loop1 bytes size1 size2 fuel v with
  | ret_t.crash => none
  | ret_t.null mem => some (mem, none)
  | ret_t.done v1 =>
    match cll_merge_loop2 size1 fuel v1 with
    | ret_t.crash => none
    | ret_t.null mem => some (mem, none)
    | ret_t.done v2 =>
      match cll_merge_loop3 size2 fuel v2 with
      | ret_t.crash => none
      | ret_t.null mem => some (mem, none)
      | ret_t.done v3 =>
        match v3.p_temp1 with
        | none => some (v3.mem, none)
        | some t1 => (set_next v3.mem t1 p_temp2).map (fun mem => (mem, p_temp2))

/-- `cll_merge`: the first node of the new list is chosen, then
`cll_merge_helper` attaches the rest. -/
def cll_merge (bytes : Nat → Option Int) (fuel : Nat) (mem : List (Option node_t))
    (p_node1 p_node2 : Option Nat) (size1 size2 : Int) :
    Option (List (Option node_t) × Option Nat) :=
  match node_char bytes mem p_node1, node_char bytes mem p_node2 with
  | some c1, some c2 =>
    if c1 < c2 then
      match p_node1 with
      | none => some (mem, none)
      | some t3 =>
        match node_get mem t3 with
        | none => none
        | some n3 =>
          cll_merge_helper bytes fuel
            { mem := mem, p_temp1 := p_node1, p_temp3 := n3.p_next, p_temp4 := p_node2,
              counter1 := 1, counter2 := 0 } p_node1 size1 size2
    else
      match p_node2 with
      | none => some (mem, none)
      | some t4 =>
        match node_get mem t4 with
        | none => none
        | some n4 =>
          cll_merge_helper bytes fuel
            { mem := mem, p_temp1 := p_node2, p_temp3 := p_node1, p_temp4 := n4.p_next,
              counter1 := 0, counter2 := 1 } p_node2 size1 size2
  | _, _ => none

/-- The loop `while (p_temp1->p_next != p_node)` of `cll_mergesort` that
counts the nodes, with `size` and `p_temp1`. -/
def cll_mergesort_size (mem : List (Option node_t)) (p_node : Nat) :
    Nat → Int → Option Nat → loop_t Int
  | 0, _, _ => loop_t.crash
  | fuel + 1, size, p_temp1 =>
    match p_temp1 with
    | none => loop_t.crash
    | some p =>
      match node_get mem p with
      | none => loop_t.crash
      | some n =>
        if n.p_next ≠ some p_node then
          match int_incr size with
          | none => loop_t.crash
          | some size1 => cll_mergesort_size mem p_node fuel size1 n.p_next
        else loop_t.done size

/-- The `for` loop of `cll_mergesort` that walks to the last node of the
first half, with the number of iterations still to run and `p_temp3`. -/
def cll_mergesort_walk (mem : List (Option node_t)) : Nat → Option Nat → loop_t (Option Nat)
  | 0, p_temp3 => loop_t.done p_temp3
  | k + 1, p_temp3 =>
    match p_temp3 with
    | none => loop_t.fail
    | some p =>
      match node_get mem p with
      | none => loop_t.crash
      | some n => cll_mergesort_walk mem k n.p_next

/-- The loop `while (p_temp3->p_next != p_node)` of `cll_mergesort` that
walks to the last node of the second half, with `p_temp3`. -/
def cll_mergesort_last (mem : List (Option node_t)) (p_node : Nat) :
    Nat → Option Nat → loop_t Nat
  | 0, _ => loop_t.crash
  | fuel + 1, p_temp3 =>
    match p_temp3 with
    | none => loop_t.crash
    | some p =>
      match node_get mem p with
      | none => loop_t.crash
      | some n =>
        if n.p_next ≠ some p_node then cll_mergesort_last mem p_node fuel n.p_next
        else loop_t.done p

/-- `cll_mergesort`: the heap and the pointer returned (`none` inside is
`NULL`). -/
def cll_mergesort (bytes : Nat → Option Int) :
    Nat → List (Option node_t) → Option Nat → Option (List (Option node_t) × Option Nat)
  | 0, _, _ => none
  | fuel + 1, mem, p_node =>
    match p_node with
    | none => some (mem, none)
    | some p =>
      match cll_mergesort_size mem p fuel 1 (some p) with
      | loop_t.crash => none
      | loop_t.fail => some (mem, none)
      | loop_t.done size =>
        if size > 1 then
          let size1 := size / 2
          let size2 := size - size1
          match cll_mergesort_walk mem (size1 - 1).toNat (some p) with
          | loop_t.crash => none
          | loop_t.fail => some (mem, none)
          | loop_t.done none => some (mem, none)
          | loop_t.done (some t3) =>
            match node_get mem t3 with
            | none => none
            | some n3 =>
              match set_next mem t3 (some p) with
              | none => none
              | some mem1 =>
                let p_temp4 := n3.p_next
                match cll_mergesort_last mem1 p fuel p_temp4 with
                | loop_t.crash => none
                | loop_t.fail => none
                | loop_t.done last =>
                  match set_next mem1 last p_temp4 with
                  | none => none
                  | some mem2 =>
                    match cll_mergesort bytes fuel mem2 (some p) with
                    | none => none
                    | some (mem3, p_temp2) =>
                      match cll_mergesort bytes fuel mem3 p_temp4 with
                      | none => none
                      | some (mem4, p_temp4b) =>
                        cll_merge bytes fuel mem4 p_temp2 p_temp4b size1 size2
        else some (mem, some p)

/-- `cll_sort`: `p_head` receives the result of `cll_mergesort`; `p_tail` is
not assigned. -/
def cll_sort (bytes : Nat → Option Int) (fuel : Nat) (st : state_t) : Option (Nat × state_t) :=
  match cll_mergesort bytes fuel st.mem st.cll.p_head with
  | none => none
  | some (mem, p_head) =>
    let st1 : state_t := { mem := mem, cll := { st.cll with p_head := p_head } }
    if p_head = none then some (FAILURE, st1) else some (SUCCESS, st1)

/-- The value the comparison of `cll_merge` reads for a data pointer; 0
stands in where nothing can be read. -/
def cll_key (bytes : Nat → Option Int) (d : Option Nat) : Int := (d.bind bytes).getD 0

/-- A chain of nodes given as pairs of address and data pointer. -/
def cll_nodes (mem : List (Option node_t)) (nodes : List (Nat × Option Nat)) (nxt : Nat) : Prop :=
  cll_seg mem (nodes.map (fun x => x.1)) (nodes.map (fun x => x.2)) nxt

end Cll

namespace Cll

/-- A circular list of nodes: the chain closes at its first address. -/
def cll_circ (mem : List (Option node_t)) (nodes : List (Nat × Option Nat)) : Prop :=
  cll_nodes mem nodes ((nodes.map (fun x => x.1)).headD 0)

/-- Every data pointer of the nodes points to a byte that can be read. -/
def cll_readable (bytes : Nat → Option Int) (nodes : List (Nat × Option Nat)) : Prop :=
  ∀ x ∈ nodes, ∃ p c, x.2 = some p ∧ bytes p = some c

/-- The nodes are in non-decreasing order of the byte their data pointers
point to. -/
def cll_sorted (bytes : Nat → Option Int) (nodes : List (Nat × Option Nat)) : Prop :=
  nodes.Pairwise (fun x y => cll_key bytes x.2 ≤ cll_key bytes y.2)

/-- The state of the loops of `cll_merge_helper` between two iterations:
`acc` is the list built so far, `r1` and `r2` are what is left of the two
lists; together they are the nodes `all`, and the heap differs from `mem0`
only at these nodes. -/
def cll_merge_inv (size1 size2 : Int) (mem0 : List (Option node_t))
    (all : List (Nat × Option Nat)) (p_temp2 : Option Nat) (v : merge_t)
    (acc r1 r2 : List (Nat × Option Nat)) : Prop :=
  (∃ n0, cll_nodes v.mem acc n0) ∧ (∃ n1, cll_nodes v.mem r1 n1) ∧
  (∃ n2, cll_nodes v.mem r2 n2) ∧ (acc ++ r1 ++ r2).Perm all ∧
  v.p_temp1 = acc.getLast?.map (fun x => x.1) ∧ acc.head?.map (fun x => x.1) = p_temp2 ∧
  acc ≠ [] ∧
  (∀ h t, r1 = h :: t → v.p_temp3 = some h.1) ∧ (∀ h t, r2 = h :: t → v.p_temp4 = some h.1) ∧
  v.counter1 + r1.length = size1 ∧ v.counter2 + r2.length = size2 ∧
  (∀ a, a ∉ all.map (fun x => x.1) → node_get v.mem a = node_get mem0 a) ∧
  v.mem.length = mem0.length

/-- The order kept by the loops of `cll_merge_helper`: the three lists are
sorted and nothing left is smaller than what is built. -/
def cll_merge_sorted (bytes : Nat → Option Int) (acc r1 r2 : List (Nat × Option Nat)) : Prop :=
  cll_sorted bytes acc ∧ cll_sorted bytes r1 ∧ cll_sorted bytes r2 ∧
  ∀ a ∈ acc, ∀ b ∈ r1 ++ r2, cll_key bytes a.2 ≤ cll_key bytes b.2

end Cll

/-- Bytes for the data pointers 1, 2 and 3 of `cll_three`: the values 2, 1
and 0, so that the list is in decreasing order. -/
def cll_three_bytes : Nat → Option Int := fun d => if d < 4 then some (3 - (d : Int)) else none

/-! ## The server with its sessions

The sessions run concurrently; a state of the whole server is the shared
state together with the variables of every session that has been accepted
and has not ended. An event is the acceptance of a connection or one
iteration of the loop of `cr_sm_session_manager` of one session, run as a
whole: the handling of one frame, or the end of the session with its
cleanup. -/

/-- The shared state and the variables of the sessions that are running. -/
structure system_t where
  srv : server_t
  sessions : List session_t

/-- An event of the server: a connection is accepted on a transport and its
session starts in the CONNECTED state, or the session at an index runs one
iteration of its loop with what the environment decides and what `SSL_read`
delivers. -/
inductive event_t where
  | accept (p_ssl_holder : Nat)
  | iter (i : Nat) (env : env_t) (rd : read_t)

/-- The effect of an event: an iteration that leaves the loop ends the
session after its cleanup. -/
def system_step (sys : system_t) : event_t → system_t
  | event_t.accept p_ssl_holder =>
    { sys with sessions := sys.sessions ++ [session_init p_ssl_holder] }
  | event_t.iter i env rd =>
    match sys.sessions[i]? with
    | none => sys
    | some sess =>
      let r := cr_sm_session_manager_iter env sys.srv sess rd
      { srv := r.srv,
        sessions := if r.running then sys.sessions.set i r.sess else sys.sessions.eraseIdx i }

/-- The state after a sequence of events. -/
def system_run (sys : system_t) (events : List event_t) : system_t :=
  events.foldl system_step sys

/-- The number of users whose login status is IN. -/
def users_in (srv : server_t) : Nat :=
  srv.user_mem.countP (fun u => u.login_status == LOGGED_IN)

/-- The number of sessions in the LOGGED_IN or CHATTING state. -/
def sessions_in (sessions : List session_t) : Nat :=
  sessions.countP (fun s => s.logged_in != NOT_LOGGED_IN)

/-- The users of the sessions that are logged in. -/
def logged_users (sessions : List session_t) : List Nat :=
  sessions.flatMap (fun s => if s.logged_in = LOGGED_IN then s.pp_user.toList else [])

/-- The users of the sessions that are chatting. -/
def chat_users (sessions : List session_t) : List Nat :=
  sessions.flatMap (fun s => if s.chatting = CHATTING then s.pp_user.toList else [])

/-- The variables of a session are in one of the three states: the flags
hold one of their two values, a chatting session is logged in and a logged-in
session has a user. -/
def sess_ok (s : session_t) : Prop :=
  (s.logged_in = NOT_LOGGED_IN ∨ s.logged_in = LOGGED_IN) ∧
  (s.chatting = NOT_CHATTING ∨ s.chatting = CHATTING) ∧
  (s.chatting = CHATTING → s.logged_in = LOGGED_IN) ∧
  (s.logged_in = LOGGED_IN → s.pp_user ≠ none)

/-- What the invariants read of the shared state: the counters, the two
tables, and of every user the login status and the current room, of every
room the members. -/
structure view_t where
  client_count : Nat
  max_client : Nat
  users_table : h_table_t
  status : List Nat
  chat_room : List (List Nat)
  rooms : rooms_t
  members : List (List Nat)

/-- The login status of the user at an address. -/
def view_t.status_of (v : view_t) (p : Nat) : Nat := v.status.getD p 0

/-- The current room of the user at an address. -/
def view_t.room_of (v : view_t) (p : Nat) : List Nat :=
  v.chat_room.getD p (c_zeros (MAX_ROOM_NAME_LENGTH + 1))

/-- The members of the room at an address. -/
def view_t.members_of (v : view_t) (r : Nat) : List Nat := v.members.getD r []

/-- The view of a shared state. -/
def srv_view (srv : server_t) : view_t :=
  { client_count := srv.users.client_count, max_client := srv.users.max_client,
    users_table := srv.users.p_users_table,
    status := srv.user_mem.map (fun u => u.login_status),
    chat_room := srv.user_mem.map (fun u => u.p_chat_room),
    rooms := srv.rooms,
    members := srv.room_mem.map (fun r => r.p_users) }

/-- The room table is consistent and small: its entries point to rooms that
exist, and it holds no more entries than `room_count`, which is at most
`max_rooms`. -/
def rooms_ok (v : view_t) : Prop :=
  h_table_ok v.rooms.p_rooms_table ∧ v.rooms.p_rooms_table.capacity < 1024 ∧
  v.rooms.p_rooms_table.size ≤ v.rooms.p_rooms_table.capacity ∧
  v.rooms.p_rooms_table.size ≤ v.rooms.room_count ∧ v.rooms.room_count ≤ v.rooms.max_rooms ∧
  v.rooms.max_rooms ≤ 255 ∧
  ∀ e ∈ h_table_list v.rooms.p_rooms_table, e.p_data < v.members.length

/-- The invariant of the shared state for the users `L` of the logged-in
sessions and the users `C` of the chatting sessions. -/
def view_inv (v : view_t) (L C : List Nat) : Prop :=
  v.chat_room.length = v.status.length ∧
  (v.max_client ≤ 255 ∧ v.client_count ≤ v.max_client) ∧
  v.client_count = L.length ∧
  v.status.countP (fun x => x == LOGGED_IN) = v.client_count ∧
  (∀ p ∈ L, p < v.status.length ∧ v.status_of p = LOGGED_IN) ∧
  L.Nodup ∧
  (∀ e ∈ h_table_list v.users_table, e.p_data < v.status.length) ∧
  rooms_ok v ∧
  (∀ p ∈ C, p ∈ L ∧ key_canonical (v.room_of p) ∧
    ∃ r, h_table_return_entry v.rooms.p_rooms_table (v.room_of p) = some r ∧
      p ∈ v.members_of r) ∧
  (∀ r, r < v.members.length → (v.members_of r).Nodup ∧
    ∀ p ∈ v.members_of r, p ∈ C ∧
      h_table_return_entry v.rooms.p_rooms_table (v.room_of p) = some r) ∧
  (∀ p, p < v.status.length → p ∉ C →
    v.room_of p = c_zeros (MAX_ROOM_NAME_LENGTH + 1)) ∧
  C.Nodup

/-- The user of a session that is logged in. -/
def own_logged (s : session_t) : List Nat :=
  if s.logged_in = LOGGED_IN then s.pp_user.toList else []

/-- The user of a session that is chatting. -/
def own_chat (s : session_t) : List Nat :=
  if s.chatting = CHATTING then s.pp_user.toList else []

/-- The invariant seen from one session: `Lr` and `Cr` are the users of the
other sessions that are logged in and chatting. -/
def sess_inv (v : view_t) (s : session_t) (Lr Cr : List Nat) : Prop :=
  sess_ok s ∧ (∀ q ∈ Cr, q ∈ Lr) ∧ view_inv v (own_logged s ++ Lr) (own_chat s ++ Cr)

/-- The invariant of the server with its sessions. -/
def system_inv (sys : system_t) : Prop :=
  (∀ s ∈ sys.sessions, sess_ok s) ∧
  view_inv (srv_view sys.srv) (logged_users sys.sessions) (chat_users sys.sessions)

/-- The server at startup: the shared state and no session. -/
def system_start (srv0 : server_t) : system_t := { srv := srv0, sessions := [] }

/-- A sequence of events: a connection is accepted and logs in as `admin`, a
second connection is accepted, and the first session ends on a read error. -/
def events_admin : List event_t :=
  [event_t.accept 1,
   event_t.iter 0 env_ok
     (read_t.data (frame_2 ACCOUNT_TYPE LOGIN_STYPE REQUEST admin_text pass_secret)),
   event_t.accept 2,
   event_t.iter 0 env_ok read_t.error]

/-- The user name `u` followed by the five decimal digits of `i`. -/
def name_numbered (i : Nat) : List Nat :=
  [117, 48 + i / 10000 % 10, 48 + i / 1000 % 10, 48 + i / 100 % 10, 48 + i / 10 % 10,
    48 + i % 10]

/-- The frame REGISTER `uNNNNN` / `hunter22` for the number `i`. -/
def register_numbered (i : Nat) : List Nat :=
  frame_2 ACCOUNT_TYPE REGISTER_STYPE REQUEST (name_numbered i) pass_hunter22

/-- The server after a session has sent the frames REGISTER `u00001`,
`u00002`, ... up to the number `n`, one after the other, to `srv_0`. -/
def srv_numbered : Nat → server_t
  | 0 => srv_0
  | n + 1 =>
    (cr_sm_handle env_ok (srv_numbered n) (session_init 1)
      (recv_buffer (register_numbered (n + 1)))).srv

/-! ## Properties -/

section CStrings

theorem c_str_set_nul (b : List Nat) (n : Nat) : c_str (c_set_nul b n) = (c_str b).take n := by
  unfold c_str c_set_nul
  induction b generalizing n with
  | nil => simp
  | cons x xs ih =>
    cases n with
    | zero => simp [List.takeWhile]
    | succ n =>
      simp only [List.set_cons_succ, List.takeWhile_cons]
      split
      · simp [ih]
      · simp

theorem c_str_take (b : List Nat) (n : Nat) : c_str (b.take n) = (c_str b).take n := by
  unfold c_str
  induction b generalizing n with
  | nil => simp
  | cons x xs ih =>
    cases n with
    | zero => simp
    | succ n =>
      simp only [List.take_succ_cons, List.takeWhile_cons]
      split
      · simp [ih]
      · simp

theorem take_c_strlen (b : List Nat) : b.take (c_strlen b) = c_str b := by
  unfold c_strlen c_str
  induction b with
  | nil => simp
  | cons x xs ih =>
    simp only [List.takeWhile_cons]
    split
    · simp [ih]
    · simp

theorem c_strncmp_eq_iff (a b : List Nat) (n : Nat) :
    c_strncmp_eq a b n = true ↔ c_str (a.take n) = c_str (b.take n) := by
  induction n generalizing a b with
  | zero => simp [c_strncmp_eq]
  | succ n ih =>
    unfold c_strncmp_eq
    cases a with
    | nil =>
      cases b with
      | nil => simp
      | cons y ys =>
        by_cases hy : y = 0
        · simp [hy, c_str]
        · have hy' : (0 : Nat) ≠ y := fun h => hy h.symm
          simp [hy, hy', c_str]
    | cons x xs =>
      cases b with
      | nil =>
        by_cases hx : x = 0
        · simp [hx, c_str]
        · simp [hx, c_str]
      | cons y ys =>
        by_cases hxy : x = y
        · subst hxy
          by_cases hx : x = 0
          · simp [hx, c_str]
          · have := ih xs ys
            simp only [c_str] at this
            simp [hx, c_str, this]
        · by_cases hx : x = 0
          · have hy : y ≠ 0 := fun h => hxy (hx.trans h.symm)
            have hy' : ¬ (0 : Nat) = y := fun h => hy h.symm
            simp [hxy, hx, hy, hy', c_str]
          · by_cases hy : y = 0
            · simp [hxy, hx, hy, c_str]
            · simp [hxy, hx, hy, c_str, List.takeWhile_cons]

theorem c_str_take_length (a : List Nat) (n : Nat) :
    c_str (a.take (c_str (a.take n)).length) = c_str (a.take n) := by
  rw [c_str_take, c_str_take, List.length_take]
  by_cases h : n ≤ (c_str a).length
  · rw [Nat.min_eq_left h]
  · have h' : (c_str a).length ≤ n := by omega
    rw [Nat.min_eq_right h', List.take_of_length_le h', List.take_of_length_le (le_refl _)]

/-- The password test of `cr_users_login_helper` fails exactly when the two
strings, each cut at 30 characters, differ. -/
theorem password_mismatch_iff (a b : List Nat) (n : Nat) :
    (c_strnlen b n ≠ c_strnlen a n ∨ c_strncmp_eq a b (c_strnlen b n) = false) ↔
      c_str (a.take n) ≠ c_str (b.take n) := by
  unfold c_strnlen c_strlen
  constructor
  · intro h heq
    rcases h with h | h
    · exact h (by rw [heq])
    · have : c_strncmp_eq a b (c_str (b.take n)).length = true := by
        rw [c_strncmp_eq_iff, c_str_take_length b n, ← heq, c_str_take_length a n, heq]
      rw [this] at h
      exact Bool.noConfusion h
  · intro hne
    by_cases hl : (c_str (b.take n)).length = (c_str (a.take n)).length
    · right
      rw [Bool.eq_false_iff]
      intro h
      rw [c_strncmp_eq_iff, c_str_take_length b n] at h
      rw [hl, c_str_take_length a n] at h
      exact hne h
    · left; exact hl

end CStrings

section Primes

theorem modular_pow_loop_eq (fuel r b e m : Nat) (he : 0 < e) (hf : e ≤ fuel) :
    modular_pow_loop fuel r b e m = (r * b ^ e) % m := by
  induction fuel generalizing r b e with
  | zero => omega
  | succ f ih =>
    simp only [modular_pow_loop, he, if_true]
    by_cases h1 : e / 2 = 0
    · have he1 : e = 1 := by omega
      subst he1
      cases f <;> simp [modular_pow_loop]
    · have h2 : 0 < e / 2 := Nat.pos_of_ne_zero h1
      have h3 : e / 2 ≤ f := by omega
      rw [ih _ _ _ h2 h3]
      have hb : (b * b % m) ^ (e / 2) ≡ b ^ (2 * (e / 2)) [MOD m] := by
        rw [pow_mul, pow_two]
        exact (Nat.mod_modEq _ _).pow _
      by_cases hodd : e % 2 = 1
      · simp only [hodd, if_true]
        have he2 : e = 2 * (e / 2) + 1 := by omega
        have : r * b % m * (b * b % m) ^ (e / 2) ≡ r * b ^ e [MOD m] := by
          calc r * b % m * (b * b % m) ^ (e / 2) ≡ r * b * b ^ (2 * (e / 2)) [MOD m] :=
                (Nat.mod_modEq _ _).mul hb
            _ = r * b ^ e := by
                conv_rhs => rw [he2]
                ring
        exact this
      · simp only [hodd, if_false]
        have he2 : e = 2 * (e / 2) := by omega
        have : r * (b * b % m) ^ (e / 2) ≡ r * b ^ e [MOD m] := by
          calc r * (b * b % m) ^ (e / 2) ≡ r * b ^ (2 * (e / 2)) [MOD m] :=
                (Nat.ModEq.refl r).mul hb
            _ = r * b ^ e := by
                conv_rhs => rw [he2]
        exact this

theorem modular_pow_eq (b e m : Nat) (he : 0 < e) : modular_pow b e m = b ^ e % m := by
  unfold modular_pow
  rw [modular_pow_loop_eq _ _ _ _ _ he (le_refl _), one_mul]
  exact (Nat.mod_modEq b m).pow e

theorem is_prime_factor_spec (fuel o p : Nat) :
    (is_prime_factor fuel o p).1 * 2 ^ (is_prime_factor fuel o p).2 = o * 2 ^ p := by
  induction fuel generalizing o p with
  | zero => simp [is_prime_factor]
  | succ f ih =>
    simp only [is_prime_factor]
    split_ifs with h
    · rw [ih]
      have : o = 2 * (o / 2) := by omega
      conv_rhs => rw [this]
      ring
    · rfl

theorem is_prime_factor_mono (fuel o p : Nat) : p ≤ (is_prime_factor fuel o p).2 := by
  induction fuel generalizing o p with
  | zero => simp [is_prime_factor]
  | succ f ih =>
    simp only [is_prime_factor]
    split_ifs with h
    · have := ih (o / 2) (p + 1)
      omega
    · exact le_refl _

theorem is_prime_factor_pos (fuel o : Nat) (hf : 0 < fuel) (ho : o % 2 = 0) :
    1 ≤ (is_prime_factor fuel o 0).2 := by
  cases fuel with
  | zero => omega
  | succ f =>
    simp only [is_prime_factor, ho, if_true]
    exact is_prime_factor_mono f (o / 2) 1

/-- Modulo a prime, a square root of one is one or minus one. -/
theorem sq_mod_prime_eq_one (q c : Nat) (hq : q.Prime) (hc : c < q) (h : c ^ 2 % q = 1) :
    c = 1 ∨ c = q - 1 := by
  have hq2 := hq.two_le
  have hc0 : c ≠ 0 := by
    intro h0; subst h0; simp at h
  have hc1 : 1 ≤ c := Nat.pos_of_ne_zero hc0
  have hdvd : q ∣ c ^ 2 - 1 := by
    have hm : 1 ≡ c ^ 2 [MOD q] := by
      unfold Nat.ModEq
      rw [h, Nat.mod_eq_of_lt (by omega)]
    exact (Nat.modEq_iff_dvd' (Nat.one_le_pow _ _ hc1)).mp hm
  have hfac : c ^ 2 - 1 = (c - 1) * (c + 1) := by
    obtain ⟨k, rfl⟩ : ∃ k, c = k + 1 := ⟨c - 1, by omega⟩
    simp only [Nat.add_sub_cancel]
    have : (k + 1) ^ 2 = k * (k + 1 + 1) + 1 := by ring
    rw [this, Nat.add_sub_cancel]
  rw [hfac] at hdvd
  rcases (Nat.Prime.dvd_mul hq).mp hdvd with h1 | h1
  · left
    have := Nat.eq_zero_of_dvd_of_lt h1 (by omega)
    omega
  · right
    have := Nat.le_of_dvd (by omega) h1
    omega

theorem is_prime_inner_prime (q : Nat) (hq : q.Prime) (n c1 c2 : Nat) (hc : c1 < q) :
    is_prime_inner n c1 c2 q = some (if n = 0 then c2 else c1 ^ (2 ^ n) % q) := by
  induction n generalizing c1 c2 with
  | zero => simp [is_prime_inner]
  | succ n ih =>
    simp only [is_prime_inner, modular_pow_eq _ 2 _ (by decide : 0 < 2)]
    have hno : ¬ (c1 ^ 2 % q = 1 ∧ c1 ≠ 1 ∧ c1 ≠ q - 1) := by
      rintro ⟨h1, h2, h3⟩
      rcases sq_mod_prime_eq_one q c1 hq hc h1 with h | h
      · exact h2 h
      · exact h3 h
    rw [if_neg hno, ih _ _ (Nat.mod_lt _ hq.pos)]
    congr 1
    by_cases hn : n = 0
    · subst hn; simp
    · simp only [hn, if_false, Nat.succ_ne_zero]
      rw [← Nat.pow_mod, ← pow_mul, pow_succ']

theorem is_prime_round_prime (q r d s : Nat) (hq : q.Prime) (hq5 : 5 ≤ q) (hq16 : q < 65536)
    (hs : 1 ≤ s) (hds : d * 2 ^ s = q - 1) (hd : 0 < d) :
    is_prime_round r q d s = true := by
  have hlt : r % (q - 2 + 1 - 2) < q - 2 + 1 - 2 := Nat.mod_lt _ (by omega)
  have hbase : (r % (q - 2 + 1 - 2) + 2) % 65536 = r % (q - 2 + 1 - 2) + 2 :=
    Nat.mod_eq_of_lt (by omega)
  simp only [is_prime_round, hbase, modular_pow_eq _ d _ hd]
  set a := r % (q - 2 + 1 - 2) + 2 with ha
  have ha1 : 0 < a := by omega
  have ha2 : a < q := by omega
  have hcop : a.Coprime q :=
    Nat.Coprime.symm ((Nat.Prime.coprime_iff_not_dvd hq).mpr (Nat.not_dvd_of_pos_of_lt ha1 ha2))
  have hfermat : a ^ (q - 1) % q = 1 := by
    have := Nat.ModEq.pow_totient hcop
    rw [Nat.totient_prime hq] at this
    unfold Nat.ModEq at this
    rw [this, Nat.mod_eq_of_lt (by omega)]
  split_ifs with h1
  · rfl
  · rw [is_prime_inner_prime q hq s _ _ (Nat.mod_lt _ hq.pos)]
    have hs0 : s ≠ 0 := by omega
    simp only [hs0, if_false, decide_eq_true_eq]
    rw [← Nat.pow_mod, ← pow_mul, hds, hfermat]

theorem is_prime_prime (rand : Nat → Nat) (q : Nat) (hq : q.Prime) (hq16 : q < 65536) :
    is_prime rand q = true := by
  unfold is_prime
  have hq2 := hq.two_le
  by_cases h3 : q ≤ 3
  · simp [h3]; omega
  · have hq4 : q ≠ 4 := by
      intro h; subst h; exact absurd hq (by decide)
    have hq5 : 5 ≤ q := by omega
    have hodd : q % 2 = 1 := by
      rcases hq.eq_two_or_odd with h | h
      · omega
      · exact h
    simp only [show ¬ q ≤ 1 by omega, h3, if_false]
    have hspec := is_prime_factor_spec q (q - 1) 0
    have hpos := is_prime_factor_pos q (q - 1) (by omega) (by omega)
    simp only [pow_zero, mul_one] at hspec
    have hd : 0 < (is_prime_factor q (q - 1) 0).1 := by
      rcases Nat.eq_zero_or_pos (is_prime_factor q (q - 1) 0).1 with h | h
      · rw [h] at hspec; omega
      · exact h
    rw [List.all_eq_true]
    intro k _
    exact is_prime_round_prime q (rand k) _ _ hq hq5 hq16 hpos hspec hd

theorem next_prime_loop_bound (rand : Nat → Nat → Nat) (q dbl : Nat) (hq : q.Prime)
    (hq16 : q < 65536) (hqd : q < dbl) (fuel v : Nat) (hv : v ≤ q) (hpar : v % 2 = q % 2)
    (hfuel : q - v < 2 * fuel) :
    v ≤ next_prime_loop rand fuel v dbl ∧ next_prime_loop rand fuel v dbl ≤ q := by
  induction fuel generalizing v with
  | zero => omega
  | succ f ih =>
    simp only [next_prime_loop, show v < dbl by omega, if_true]
    by_cases hp : is_prime (rand v) v = true
    · simp [hp, hv]
    · simp only [hp]
      have hne : v ≠ q := by
        intro h; subst h; exact hp (is_prime_prime _ _ hq hq16)
      have hv2 : v + 2 ≤ q := by omega
      rw [Nat.mod_eq_of_lt (by omega)]
      have := ih (v + 2) hv2 (by omega) (by omega)
      simp only [Bool.false_eq_true, if_false]
      omega

/-- `next_prime` finds a larger capacity for every capacity the server can
reach: the result is above the argument and fits in a `uint16_t`. -/
theorem next_prime_gt (rand : Nat → Nat → Nat) (c : Nat) (hc : c < 23170) :
    c < next_prime rand c ∧ next_prime rand c < 65536 := by
  unfold next_prime
  by_cases h1 : c ≤ 1
  · simp [h1]; omega
  · by_cases h2 : c = 2
    · simp [h2]
    · simp only [h1, h2, if_false]
      obtain ⟨v, hv⟩ : ∃ v, v = (if c % 2 = 0 then (c + 1) % 65536 else (c + 2) % 65536) := ⟨_, rfl⟩
      rw [← hv]
      have hv1 : v = if c % 2 = 0 then c + 1 else c + 2 := by
        rw [hv]; split_ifs <;> exact Nat.mod_eq_of_lt (by omega)
      have hvodd : v % 2 = 1 := by rw [hv1]; split_ifs <;> omega
      have hvc : c < v := by rw [hv1]; split_ifs <;> omega
      have hvle : v ≤ c + 2 := by rw [hv1]; split_ifs <;> omega
      have hdbl : v * 2 % 65536 = v * 2 := Nat.mod_eq_of_lt (by omega)
      rw [hdbl]
      obtain ⟨q, hq, hq1, hq2⟩ := Nat.exists_prime_lt_and_le_two_mul (v - 1) (by omega)
      have hqodd : q % 2 = 1 := by
        rcases hq.eq_two_or_odd with h | h
        · omega
        · exact h
      have := next_prime_loop_bound rand q (v * 2) hq (by omega) (by omega) (v * 2 + 1) v
        (by omega) (by omega) (by omega)
      omega

end Primes

section HashTable

theorem h_table_find_eq_none_iff (l : List entry_t) (k : List Nat) :
    h_table_find l k = none ↔ ∀ e ∈ l, c_strncmp_eq k e.p_key KEY_LENGTH = false := by
  induction l with
  | nil => simp [h_table_find]
  | cons e rest ih =>
    unfold h_table_find
    by_cases h : c_strncmp_eq k e.p_key KEY_LENGTH = true
    · simp [h]
    · simp [h, ih]

theorem h_table_duplicate_data_check_eq (l : List entry_t) (k : List Nat) :
    h_table_duplicate_data_check l k = if h_table_find l k = none then SUCCESS else FAILURE := by
  induction l with
  | nil => simp [h_table_find, h_table_duplicate_data_check]
  | cons e rest ih =>
    unfold h_table_find h_table_duplicate_data_check
    by_cases h : c_strncmp_eq k e.p_key KEY_LENGTH = true
    · simp [h]
    · simp [h, ih]

theorem h_table_find_append_new (l : List entry_t) (k : List Nat) (p : Nat)
    (h : h_table_find l k = none) :
    h_table_find (l ++ [{ p_key := k, p_data := p }]) k = some p := by
  have hrefl : c_strncmp_eq k k KEY_LENGTH = true := by rw [c_strncmp_eq_iff]
  induction l with
  | nil => simp [h_table_find, hrefl]
  | cons e rest ih =>
    unfold h_table_find at h
    by_cases hm : c_strncmp_eq k e.p_key KEY_LENGTH = true
    · simp [hm] at h
    · simp only [hm] at h
      simp only [List.cons_append, h_table_find, hm]
      exact ih h


theorem h_table_index_lt (t : h_table_t) (k : List Nat) (h : h_table_sized t) :
    h_table_index t k < t.pp_array.length := by
  unfold h_table_index
  rw [h.1]
  exact Nat.mod_lt _ h.2

theorem h_table_new_entry_add_cases (t : h_table_t) (e : entry_t) :
    (h_table_find ((t.pp_array.getD (h_table_index t e.p_key) none).getD []) e.p_key = none ∧
      h_table_new_entry_add t e = (SUCCESS,
        { t with pp_array := t.pp_array.set (h_table_index t e.p_key)
                   (some ((t.pp_array.getD (h_table_index t e.p_key) none).getD [] ++ [e])),
                 size := (t.size + 1) % 65536 })) ∨
    (h_table_find ((t.pp_array.getD (h_table_index t e.p_key) none).getD []) e.p_key ≠ none ∧
      h_table_new_entry_add t e = (FAILURE, t)) := by
  simp only [h_table_new_entry_add]
  cases hslot : t.pp_array.getD (h_table_index t e.p_key) none with
  | none => left; simp [h_table_find]
  | some l =>
    simp only [h_table_duplicate_data_check_eq, Option.getD_some]
    by_cases hf : h_table_find l e.p_key = none
    · left; simp [hf]
    · right; simp [hf]

theorem h_table_new_entry_add_sized (t : h_table_t) (e : entry_t) (h : h_table_sized t) :
    h_table_sized (h_table_new_entry_add t e).2 := by
  rcases h_table_new_entry_add_cases t e with ⟨_, h1⟩ | ⟨_, h1⟩
  · rw [h1]; exact ⟨by simp [h.1], h.2⟩
  · rw [h1]; exact h

theorem h_table_new_entry_add_capacity (t : h_table_t) (e : entry_t) :
    (h_table_new_entry_add t e).2.capacity = t.capacity := by
  rcases h_table_new_entry_add_cases t e with ⟨_, h1⟩ | ⟨_, h1⟩ <;> rw [h1]

/-- After a successful `h_table_new_entry_add`, looking the key up returns
the new data pointer. -/
theorem h_table_return_entry_add (t : h_table_t) (k : List Nat) (p : Nat) (h : h_table_sized t)
    (hs : (h_table_new_entry_add t { p_key := k, p_data := p }).1 = SUCCESS) :
    h_table_return_entry (h_table_new_entry_add t { p_key := k, p_data := p }).2 k = some p := by
  have hlt := h_table_index_lt t k h
  rcases h_table_new_entry_add_cases t { p_key := k, p_data := p } with ⟨hf, h1⟩ | ⟨_, h1⟩
  · rw [h1]
    simp only [h_table_return_entry, h_table_index]
    have hlt' : h_table_hash_function k % t.capacity < t.pp_array.length := hlt
    simp only [h_table_index] at hf
    simp [List.getD_eq_getElem?_getD, List.getElem?_set, hlt']
    exact h_table_find_append_new _ k p
      (by simpa [List.getD_eq_getElem?_getD, List.getElem?_eq_getElem hlt'] using hf)
  · rw [h1] at hs
    simp at hs

theorem h_table_list_to_table_sized (l : List entry_t) (t : h_table_t) (h : h_table_sized t) :
    h_table_sized (h_table_list_to_table t l).2 ∧
      (h_table_list_to_table t l).2.capacity = t.capacity := by
  induction l generalizing t with
  | nil => exact ⟨h, rfl⟩
  | cons e rest ih =>
    simp only [h_table_list_to_table]
    split
    · exact ⟨h_table_new_entry_add_sized t e h, h_table_new_entry_add_capacity t e⟩
    · have := ih _ (h_table_new_entry_add_sized t e h)
      exact ⟨this.1, this.2.trans (h_table_new_entry_add_capacity t e)⟩

theorem h_table_re_hash_sized (rand : Nat → Nat → Nat) (t : h_table_t)
    (h : t.pp_array.length = t.capacity) (hs : (h_table_re_hash rand t).1 ≠ FAILURE) :
    h_table_sized (h_table_re_hash rand t).2 := by
  simp only [h_table_re_hash] at hs ⊢
  split_ifs at hs ⊢ with h1 h2 h3 h4 h5
  · simp at hs
  · simp at hs
  · exact ⟨h, Nat.pos_of_ne_zero h1⟩
  · simp at hs
  · simp at hs
  · refine (h_table_list_to_table_sized _ _ ⟨by simp, ?_⟩).1
    show 0 < next_prime rand t.capacity
    have := Nat.pos_of_ne_zero h1
    omega

/-- After a successful `h_table_new_entry`, looking the key up returns the
new data pointer, whether or not the table was re-hashed. -/
theorem h_table_return_entry_new_entry (rand : Nat → Nat → Nat) (t : h_table_t) (p : Nat)
    (k : List Nat) (h : t.pp_array.length = t.capacity)
    (hs : (h_table_new_entry rand t p k).1 = SUCCESS) :
    h_table_return_entry (h_table_new_entry rand t p k).2 k = some p := by
  simp only [h_table_new_entry] at hs ⊢
  by_cases h1 : (h_table_re_hash rand t).1 = FAILURE
  · simp [h1] at hs
  · simp only [h1, if_false] at hs ⊢
    exact h_table_return_entry_add _ k p (h_table_re_hash_sized rand t h h1) hs

end HashTable

section HashTableGrowth

theorem c_strncmp_eq_comm (a b : List Nat) (n : Nat) : c_strncmp_eq a b n = c_strncmp_eq b a n := by
  rw [Bool.eq_iff_iff, c_strncmp_eq_iff, c_strncmp_eq_iff]
  exact eq_comm

theorem mem_h_table_list (t : h_table_t) (e : entry_t) :
    e ∈ h_table_list t ↔ ∃ i, i < t.pp_array.length ∧ e ∈ h_table_slot t i := by
  unfold h_table_list h_table_slot
  simp only [List.mem_flatten, List.mem_map]
  constructor
  · rintro ⟨l, ⟨slot, hslot, rfl⟩, he⟩
    obtain ⟨i, hi, rfl⟩ := List.mem_iff_getElem.mp hslot
    exact ⟨i, hi, by simpa [List.getD_eq_getElem?_getD, List.getElem?_eq_getElem hi] using he⟩
  · rintro ⟨i, hi, he⟩
    refine ⟨_, ⟨t.pp_array[i], List.getElem_mem hi, rfl⟩, ?_⟩
    simpa [List.getD_eq_getElem?_getD, List.getElem?_eq_getElem hi] using he

theorem h_table_slot_set (t : h_table_t) (i j n : Nat) (v : List entry_t)
    (hi : i < t.pp_array.length) :
    h_table_slot { t with pp_array := t.pp_array.set i (some v), size := n } j =
      if j = i then v else h_table_slot t j := by
  unfold h_table_slot
  simp only [List.getD_eq_getElem?_getD, List.getElem?_set]
  by_cases h : i = j
  · subst h; simp [hi]
  · have h' : ¬ j = i := fun h2 => h h2.symm
    simp [h, h']

theorem mem_h_table_list_add (t : h_table_t) (e e2 : entry_t) (h : h_table_sized t)
    (he : e2 ∈ h_table_list (h_table_new_entry_add t e).2) : e2 ∈ h_table_list t ∨ e2 = e := by
  have hlt := h_table_index_lt t e.p_key h
  rcases h_table_new_entry_add_cases t e with ⟨_, h1⟩ | ⟨_, h1⟩
  · rw [h1, mem_h_table_list] at he
    obtain ⟨j, hj, hm⟩ := he
    simp only [List.length_set] at hj
    rw [h_table_slot_set t _ j _ _ hlt] at hm
    split_ifs at hm with hji
    · rw [List.mem_append] at hm
      rcases hm with hm | hm
      · left; rw [mem_h_table_list]; exact ⟨_, hlt, hm⟩
      · right; simpa using hm
    · left; rw [mem_h_table_list]; exact ⟨j, hj, hm⟩
  · rw [h1] at he; exact Or.inl he

theorem h_table_new_entry_add_ok (t : h_table_t) (e : entry_t) (h : h_table_sized t)
    (hx : ∀ e0 ∈ h_table_list t, c_strncmp_eq e.p_key e0.p_key KEY_LENGTH = false) :
    (h_table_new_entry_add t e).1 = SUCCESS := by
  have hlt := h_table_index_lt t e.p_key h
  rcases h_table_new_entry_add_cases t e with ⟨_, h1⟩ | ⟨hf, _⟩
  · rw [h1]
  · exfalso
    apply hf
    rw [h_table_find_eq_none_iff]
    intro e0 he0
    exact hx e0 ((mem_h_table_list t e0).mpr ⟨_, hlt, he0⟩)

theorem h_table_list_to_table_ok (l : List entry_t) (t0 : h_table_t) (h0 : h_table_sized t0)
    (hd : l.Pairwise (fun a b => c_strncmp_eq a.p_key b.p_key KEY_LENGTH = false))
    (hx : ∀ e ∈ l, ∀ e0 ∈ h_table_list t0, c_strncmp_eq e.p_key e0.p_key KEY_LENGTH = false) :
    (h_table_list_to_table t0 l).1 = SUCCESS ∧
      ∀ e2 ∈ h_table_list (h_table_list_to_table t0 l).2, e2 ∈ h_table_list t0 ∨ e2 ∈ l := by
  induction l generalizing t0 with
  | nil => exact ⟨rfl, fun e2 h => Or.inl h⟩
  | cons e rest ih =>
    have hadd := h_table_new_entry_add_ok t0 e h0 (hx e (List.mem_cons_self _ _))
    simp only [h_table_list_to_table, hadd]
    rw [if_neg (by decide)]
    rw [List.pairwise_cons] at hd
    have hx1 : ∀ e1 ∈ rest, ∀ e0 ∈ h_table_list (h_table_new_entry_add t0 e).2,
        c_strncmp_eq e1.p_key e0.p_key KEY_LENGTH = false := by
      intro e1 he1 e0 he0
      rcases mem_h_table_list_add t0 e e0 h0 he0 with h | h
      · exact hx e1 (List.mem_cons_of_mem _ he1) e0 h
      · rw [h, c_strncmp_eq_comm]; exact hd.1 e1 he1
    obtain ⟨hs, hm⟩ := ih _ (h_table_new_entry_add_sized t0 e h0) hd.2 hx1
    refine ⟨hs, ?_⟩
    intro e2 he2
    rcases hm e2 he2 with h | h
    · rcases mem_h_table_list_add t0 e e2 h0 h with h3 | h3
      · exact Or.inl h3
      · exact Or.inr (h3 ▸ List.mem_cons_self _ _)
    · exact Or.inr (List.mem_cons_of_mem _ h)

theorem h_table_list_replicate (n s c : Nat) :
    h_table_list { size := s, capacity := c, pp_array := List.replicate n none } = [] := by
  unfold h_table_list
  induction n with
  | zero => rfl
  | succ n ih => simp [List.replicate_succ]

/-- On a well-formed table `h_table_re_hash` succeeds, and every entry of
the table it leaves was an entry before. -/
theorem h_table_re_hash_ok (rand : Nat → Nat → Nat) (t : h_table_t) (hwf : h_table_wf t) :
    (h_table_re_hash rand t).1 = SUCCESS ∧ h_table_sized (h_table_re_hash rand t).2 ∧
      ∀ e ∈ h_table_list (h_table_re_hash rand t).2, e ∈ h_table_list t := by
  obtain ⟨hsz, hcap, hsize, _, hdist, _⟩ := hwf
  have hnp := next_prime_gt rand t.capacity hcap
  simp only [h_table_re_hash]
  have h1 : ¬ t.capacity = 0 := by have := hsz.2; omega
  have h2 : ¬ t.size > t.capacity := by omega
  simp only [h1, h2, if_false]
  by_cases h3 : 4 * t.size < 3 * t.capacity
  · simp only [h3, if_true]
    exact ⟨trivial, hsz, fun e h => h⟩
  · have h4 : ¬ next_prime rand t.capacity = FAILURE := by
      have := hsz.2
      show ¬ next_prime rand t.capacity = 1
      omega
    have h5 : ¬ next_prime rand t.capacity < t.capacity := by omega
    simp only [h3, h4, h5, if_false]
    have hs2 : h_table_sized (h_table_t.mk 0 (next_prime rand t.capacity)
        (List.replicate (next_prime rand t.capacity) none)) :=
      ⟨by simp, by have := hsz.2; show 0 < next_prime rand t.capacity; omega⟩
    have := h_table_list_to_table_ok (h_table_list t) _ hs2 hdist
      (by intro e _ e0 he0; rw [h_table_list_replicate] at he0; simp at he0)
    refine ⟨this.1, (h_table_list_to_table_sized _ _ hs2).1, ?_⟩
    intro e he
    rcases this.2 e he with h | h
    · rw [h_table_list_replicate] at h; simp at h
    · exact h

theorem h_table_hash_loop_congr (a b : List Nat) (n i hash : Nat)
    (h : ∀ j, i ≤ j → j < i + n → c_byte a j = c_byte b j) :
    h_table_hash_loop a n i hash = h_table_hash_loop b n i hash := by
  induction n generalizing i hash with
  | zero => rfl
  | succ n ih =>
    simp only [h_table_hash_loop]
    rw [h i (le_refl _) (by omega)]
    exact ih _ _ (fun j h1 h2 => h j (by omega) (by omega))

theorem h_table_hash_function_congr (a b : List Nat)
    (h : ∀ j, j < KEY_LENGTH → c_byte a j = c_byte b j) :
    h_table_hash_function a = h_table_hash_function b := by
  unfold h_table_hash_function
  exact h_table_hash_loop_congr a b _ _ _ (fun j _ h2 => h j (by simpa using h2))

theorem c_byte_of_lt_c_strlen_take (a : List Nat) (n i : Nat) (h : i < c_strlen (a.take n)) :
    c_byte a i = (c_str (a.take n)).getD i 0 := by
  have hp : c_str (a.take n) <+: a :=
    (List.takeWhile_prefix _).trans (List.take_prefix _ _)
  obtain ⟨r, hr⟩ := hp
  unfold c_byte
  conv_lhs => rw [← hr]
  unfold c_strlen at h
  simp [List.getD_eq_getElem?_getD, List.getElem?_append_left h]

/-- Two zero-padded keys that `strncmp` finds equal on `KEY_LENGTH` bytes
have the same hash. -/
theorem h_table_hash_eq_of_match (a b : List Nat) (ha : key_canonical a) (hb : key_canonical b)
    (hm : c_strncmp_eq a b KEY_LENGTH = true) :
    h_table_hash_function a = h_table_hash_function b := by
  rw [c_strncmp_eq_iff] at hm
  apply h_table_hash_function_congr
  intro j hj
  by_cases hlt : j < c_strlen (a.take KEY_LENGTH)
  · have hlt' : j < c_strlen (b.take KEY_LENGTH) := by
      unfold c_strlen at hlt ⊢; rw [← hm]; exact hlt
    rw [c_byte_of_lt_c_strlen_take a _ _ hlt, c_byte_of_lt_c_strlen_take b _ _ hlt', hm]
  · have hge : c_strlen (a.take KEY_LENGTH) ≤ j := by omega
    have hge' : c_strlen (b.take KEY_LENGTH) ≤ j := by
      unfold c_strlen at hge ⊢; rw [← hm]; exact hge
    rw [ha j hj hge, hb j hj hge']

theorem h_table_find_slot_of_lookup_none (t : h_table_t) (k : List Nat)
    (hl : h_table_return_entry t k = none) :
    h_table_find (h_table_slot t (h_table_index t k)) k = none := by
  unfold h_table_return_entry at hl
  unfold h_table_slot
  cases hs : t.pp_array.getD (h_table_index t k) none with
  | none => simp [h_table_find]
  | some l =>
    rw [hs] at hl
    simpa using hl

/-- In a well-formed table, a zero-padded key that is not found matches no
entry of any slot. -/
theorem h_table_no_match_of_lookup_none (t : h_table_t) (k : List Nat) (hwf : h_table_wf t)
    (hk : key_canonical k) (hl : h_table_return_entry t k = none) :
    ∀ e ∈ h_table_list t, c_strncmp_eq k e.p_key KEY_LENGTH = false := by
  obtain ⟨hsz, _, _, hslot, _, hcan⟩ := hwf
  intro e he
  obtain ⟨j, hj, hej⟩ := (mem_h_table_list t e).mp he
  by_cases hji : j = h_table_index t k
  · subst hji
    exact (h_table_find_eq_none_iff _ _).mp (h_table_find_slot_of_lookup_none t k hl) e hej
  · rw [Bool.eq_false_iff]
    intro hm
    apply hji
    have := h_table_hash_eq_of_match k e.p_key hk (hcan e he) hm
    rw [← hslot j hj e hej]
    unfold h_table_index
    rw [this]

/-- On a well-formed table, `h_table_new_entry` accepts a zero-padded key
that `h_table_return_entry` does not find. -/
theorem h_table_new_entry_ok (rand : Nat → Nat → Nat) (t : h_table_t) (p : Nat) (k : List Nat)
    (hwf : h_table_wf t) (hk : key_canonical k) (hl : h_table_return_entry t k = none) :
    (h_table_new_entry rand t p k).1 = SUCCESS := by
  obtain ⟨hs, hsz, hmem⟩ := h_table_re_hash_ok rand t hwf
  have hno := h_table_no_match_of_lookup_none t k hwf hk hl
  simp only [h_table_new_entry, hs]
  rw [if_neg (by decide)]
  exact h_table_new_entry_add_ok _ _ hsz (fun e0 he0 => hno e0 (hmem e0 he0))

end HashTableGrowth

section Validation

theorem cr_users_char_ok_eq (c : Nat) : cr_users_char_ok c = charset_allowed c := by
  unfold cr_users_char_ok charset_allowed
  rw [Bool.eq_iff_iff]
  simp only [Bool.or_eq_true, Bool.and_eq_true, decide_eq_true_eq, ge_iff_le,
    UTF_LOWER_LETTER_MIN, UTF_LOWER_LETTER_MAX, UTF_UP_LETTER_MIN, UTF_UP_LETTER_MAX,
    UTF_NUM_MIN, UTF_NUM_MAX, UTF_SPEC_CHAR_R1_MIN, UTF_SPEC_CHAR_R1_MAX, UTF_SPEC_CHAR_R2_MIN,
    UTF_SPEC_CHAR_R2_MAX, UTF_SPEC_CHAR_R3_MIN, UTF_SPEC_CHAR_R3_MAX]
  split_ifs with h1 h2 h3 h4 <;> simp <;> omega

theorem cr_users_chk_str_chars_loop_eq (l : List Nat) :
    cr_users_chk_str_chars_loop l = if l.all charset_allowed then SUCCESS else BAD_CHAR := by
  induction l with
  | nil => simp [cr_users_chk_str_chars_loop]
  | cons c rest ih =>
    simp only [cr_users_chk_str_chars_loop, cr_users_char_ok_eq, List.all_cons]
    by_cases h : charset_allowed c = true
    · simp [h, ih]
    · simp [h]

theorem cr_users_chk_str_chars_eq (b : List Nat) (h : c_strlen b ≤ MAX_USERNAME_LENGTH) :
    cr_users_chk_str_chars b = if (c_str b).all charset_allowed then SUCCESS else BAD_CHAR := by
  have h1 : c_strnlen b MAX_USERNAME_LENGTH = c_strlen b := by
    unfold c_strnlen c_strlen
    rw [c_str_take, List.take_of_length_le h]
  unfold cr_users_chk_str_chars
  simp only [h1, take_c_strlen, cr_users_chk_str_chars_loop_eq]

/-- The result of `cr_users_chk_usr_and_pass` on strings of at most 30
characters, rule by rule. -/
theorem cr_users_chk_usr_and_pass_eq (p_username p_password : List Nat) (user_count : Nat)
    (hu : c_strlen p_username ≤ 30) (hp : c_strlen p_password ≤ 30) :
    cr_users_chk_usr_and_pass p_username p_password user_count =
      if c_str p_username = [] then USER_NAME_LEN
      else if (c_str p_password).length < 5 then PASS_LEN
      else if (c_str p_username).all charset_allowed = false then USER_NAME_CHAR
      else if (c_str p_password).all charset_allowed = false then PASS_CHAR
      else if user_count ≥ 100 then MAX_USERS
      else SUCCESS := by
  have su : c_str (c_set_nul p_username 30) = c_str p_username := by
    rw [c_str_set_nul, List.take_of_length_le hu]
  have sp : c_str (c_set_nul p_password 30) = c_str p_password := by
    rw [c_str_set_nul, List.take_of_length_le hp]
  have lu : c_strlen (c_set_nul p_username 30) = c_strlen p_username := by
    unfold c_strlen; rw [su]
  have lp : c_strlen (c_set_nul p_password 30) = c_strlen p_password := by
    unfold c_strlen; rw [sp]
  unfold cr_users_chk_usr_and_pass
  simp only [MAX_USERNAME_LENGTH, MAX_PASSWORD_LENGTH, MIN_USERNAME_LENGTH, MIN_PASSWORD_LENGTH,
    MAX_TOTAL_USERS]
  rw [cr_users_chk_str_chars_eq _ (by rw [lu]; exact hu),
    cr_users_chk_str_chars_eq _ (by rw [lp]; exact hp), lu, lp, su, sp]
  by_cases h0 : c_str p_username = []
  · simp [h0, c_strlen]
  · have h0' : ¬ c_strlen p_username < 1 := by
      unfold c_strlen
      have := List.length_pos.mpr h0
      omega
    simp only [h0, h0', if_false]
    unfold c_strlen
    by_cases h1 : (c_str p_password).length < 5
    · simp [h1]
    · simp only [h1, if_false]
      cases ha : (c_str p_username).all charset_allowed <;>
        cases hb : (c_str p_password).all charset_allowed <;> simp

/-- C4: for buffers whose strings have at most 30 characters,
`cr_users_chk_usr_and_pass` returns the code of the first rule that applies:
`USER_NAME_LEN` for an empty user name, `PASS_LEN` for a password of fewer
than 5 characters, `USER_NAME_CHAR` / `PASS_CHAR` for a character outside the
allowed ranges in the user name / password, `MAX_USERS` for
`user_count >= 100`, and `SUCCESS` otherwise. -/
theorem C4_chk_usr_and_pass_first_rule (p_username p_password : List Nat) (user_count : Nat)
    (hu : c_strlen p_username ≤ 30) (hp : c_strlen p_password ≤ 30) :
    cr_users_chk_usr_and_pass p_username p_password user_count =
      if c_str p_username = [] then USER_NAME_LEN
      else if (c_str p_password).length < 5 then PASS_LEN
      else if (c_str p_username).all charset_allowed = false then USER_NAME_CHAR
      else if (c_str p_password).all charset_allowed = false then PASS_CHAR
      else if user_count ≥ 100 then MAX_USERS
      else SUCCESS :=
  cr_users_chk_usr_and_pass_eq p_username p_password user_count hu hp

end Validation

section SessionStateMachine

/-- C4 at the user name `a` and the password `hunte`: both are accepted. -/
theorem C4_witness : cr_users_chk_usr_and_pass [97] [104, 117, 110, 116, 101] 0 = SUCCESS :=
  (C4_chk_usr_and_pass_first_rule [97] [104, 117, 110, 116, 101] 0 (by decide) (by decide)).trans
    (by decide)

/-- C1: in every session state, a frame whose (type, subtype, opcode) is not
admissible in that state is answered with exactly one reject frame
FAIL/FAIL/INVALID_PACKET, the handler returns `SUCCESS`, and neither the
session variables nor any part of the shared state (user directory, room
directory, files, counters such as `client_count`) change. -/
theorem C1_inadmissible_frame_rejected (env : env_t) (srv : server_t) (sess : session_t)
    (p_buffer : List Nat)
    (hok : env.ssl_ok sess.p_ssl_holder = true)
    (huser : sess.logged_in ≠ NOT_LOGGED_IN → sess.pp_user ≠ none)
    (hna : admissible sess (c_byte p_buffer 0) (c_byte p_buffer 1) (c_byte p_buffer 2) = false) :
    cr_sm_handle env srv sess p_buffer =
      { rc := SUCCESS, srv := srv, sess := sess, out := [invalid_packet_frame sess.p_ssl_holder] } := by
  have hrej : cr_sm_invalid_packet env srv sess =
      { rc := SUCCESS, srv := srv, sess := sess, out := [invalid_packet_frame sess.p_ssl_holder] } := by
    simp [cr_sm_invalid_packet, cr_msg_send_rej, hok, invalid_packet_frame]
  unfold cr_sm_handle
  unfold admissible at hna
  by_cases h1 : sess.logged_in = NOT_LOGGED_IN
  · simp only [h1, if_true] at hna ⊢
    unfold cr_sm_connected_state
    simp only [hrej]
    split_ifs <;> simp_all
  · have hu := huser h1
    obtain ⟨p_user, hp⟩ := Option.ne_none_iff_exists'.mp hu
    simp only [h1, if_false] at hna ⊢
    by_cases h2 : sess.chatting = NOT_CHATTING
    · simp only [h2, if_true] at hna ⊢
      unfold cr_sm_logged_state
      simp only [hp, hrej, cr_sm_ls_account, cr_sm_ls_rooms]
      split_ifs <;> simp_all
    · simp only [h2, if_false] at hna ⊢
      unfold cr_sm_chat_state
      simp only [hp, hrej]
      split_ifs <;> simp_all

end SessionStateMachine

section Login

theorem c_str_req_p_password (p_buffer : List Nat) :
    c_str ((c_set_nul (req_p_password p_buffer) 30).take 30) =
      c_str (req_p_password p_buffer) := by
  rw [c_str_take, c_str_set_nul]
  unfold req_p_password
  rw [c_str_set_nul]
  simp [List.take_take]

/-- The rules of `cr_users_login_helper` for a LOGIN frame handled in CONNECTED
state, in the order the source tests them. -/
theorem cr_sm_handle_login_rules (env : env_t) (srv : server_t) (sess : session_t)
    (p_buffer : List Nat)
    (hstate : sess.logged_in = NOT_LOGGED_IN)
    (htype : c_byte p_buffer 0 = ACCOUNT_TYPE) (hsub : c_byte p_buffer 1 = LOGIN_STYPE)
    (hop : c_byte p_buffer 2 = REQUEST)
    (hok : env.ssl_ok sess.p_ssl_holder = true)
    (hmax : srv.users.max_client < 256) :
    let r := cr_sm_handle env srv sess p_buffer
    let found := h_table_return_entry srv.users.p_users_table (req_p_username p_buffer)
    let rejected := fun (code : Nat) => r =
      { rc := SUCCESS, srv := srv, sess := sess,
        out := [{ dest := sess.p_ssl_holder, data := [ACCOUNT_TYPE, LOGIN_STYPE, REJECT, code] }] }
    (srv.users.client_count ≥ srv.users.max_client → rejected MAX_CLIENTS) ∧
    (srv.users.client_count < srv.users.max_client →
      (found = none → rejected USER_DOES_NOT_EXIST) ∧
      (∀ p, found = some p →
        ((user_at srv p).login_status = LOGGED_IN → rejected USER_LOGGED_IN) ∧
        ((user_at srv p).login_status ≠ LOGGED_IN →
          (c_str (req_p_password p_buffer) ≠ c_str ((user_at srv p).p_password.take 30) →
            rejected INCORRECT_PASS) ∧
          (c_str (req_p_password p_buffer) = c_str ((user_at srv p).p_password.take 30) →
            r = { rc := SUCCESS,
                  srv := { srv with
                    user_mem := srv.user_mem.set p
                      { user_at srv p with p_ssl_holder := sess.p_ssl_holder,
                                           login_status := LOGGED_IN },
                    users := { srv.users with client_count := srv.users.client_count + 1 } },
                  sess := { sess with pp_user := some p, logged_in := LOGGED_IN },
                  out := [{ dest := sess.p_ssl_holder,
                            data := [ACCOUNT_TYPE, LOGIN_STYPE, ACKNOWLEDGE] }] })))) := by
  intro r found rejected
  have hr : r = cr_users_login env srv sess p_buffer := by
    show cr_sm_handle env srv sess p_buffer = _
    unfold cr_sm_handle cr_sm_connected_state
    simp [hstate, htype, hsub, hop]
  have hmm : ∀ b : List Nat,
      (c_strnlen b 30 ≠ c_strnlen (c_set_nul (req_p_password p_buffer) 30) 30 ∨
        c_strncmp_eq (c_set_nul (req_p_password p_buffer) 30) b (c_strnlen b 30) = false) ↔
      c_str (req_p_password p_buffer) ≠ c_str (b.take 30) := by
    intro b
    rw [password_mismatch_iff, c_str_req_p_password]
  refine ⟨?_, ?_⟩
  · intro hc
    show r = _
    rw [hr]
    unfold cr_users_login cr_users_login_helper
    simp [hc, cr_msg_send_rej, hok]
  · intro hc
    have hc' : ¬ srv.users.client_count ≥ srv.users.max_client := by omega
    refine ⟨?_, ?_⟩
    · intro hf
      show r = _
      rw [hr]
      unfold cr_users_login cr_users_login_helper
      have hf' : h_table_return_entry srv.users.p_users_table (req_p_username p_buffer) = none := hf
      simp [hc', hf', cr_msg_send_rej, hok]
    · intro p hf
      have hf' : h_table_return_entry srv.users.p_users_table (req_p_username p_buffer) = some p := hf
      refine ⟨?_, ?_⟩
      · intro hl
        show r = _
        rw [hr]
        unfold cr_users_login cr_users_login_helper
        simp [hc', hf', hl, cr_msg_send_rej, hok]
      · intro hl
        have hl' : ¬ (user_at srv p).login_status = 1 := hl
        refine ⟨?_, ?_⟩
        · intro hpw
          have hcond := (hmm (user_at srv p).p_password).mpr hpw
          show r = _
          rw [hr]
          unfold cr_users_login cr_users_login_helper
          simp only [hc', hf', if_false]
          simp only [LOGGED_IN, MAX_PASSWORD_LENGTH, hl', if_false, hcond, if_true]
          simp [cr_msg_send_rej, hok]
        · intro hpw
          have hcond : ¬ (c_strnlen (user_at srv p).p_password 30 ≠
              c_strnlen (c_set_nul (req_p_password p_buffer) 30) 30 ∨
              c_strncmp_eq (c_set_nul (req_p_password p_buffer) 30)
                (user_at srv p).p_password
                (c_strnlen (user_at srv p).p_password 30) = false) := by
            rw [hmm (user_at srv p).p_password]
            exact fun h => h hpw
          have hcc : (srv.users.client_count + 1) % 256 = srv.users.client_count + 1 := by
            apply Nat.mod_eq_of_lt; omega
          show r = _
          rw [hr]
          unfold cr_users_login cr_users_login_helper
          simp only [hc', hf', if_false]
          simp only [LOGGED_IN, MAX_PASSWORD_LENGTH, hl', if_false, hcond]
          simp [cr_msg_send_ack, hok, user_put, hcc]

/-- C2: a LOGIN request handled in CONNECTED state is answered by the first
rule that applies: `client_count >= max_client` gives MAX_CLIENTS; no user
found for the user name gives USER_DOES_NOT_EXIST; the user found is logged
in gives USER_LOGGED_IN; the request password differs from the stored one
gives INCORRECT_PASS; otherwise ACK. In the ACK case the user found becomes
logged in on this transport, `client_count` grows by one and the session is
logged in as that user; in every reject case the shared state and the
session are unchanged. -/
theorem C2_login_first_rule (env : env_t) (srv : server_t) (sess : session_t)
    (p_buffer : List Nat)
    (hstate : sess.logged_in = NOT_LOGGED_IN)
    (htype : c_byte p_buffer 0 = ACCOUNT_TYPE) (hsub : c_byte p_buffer 1 = LOGIN_STYPE)
    (hop : c_byte p_buffer 2 = REQUEST)
    (hok : env.ssl_ok sess.p_ssl_holder = true)
    (hmax : srv.users.max_client < 256) :
    let r := cr_sm_handle env srv sess p_buffer
    let found := h_table_return_entry srv.users.p_users_table (req_p_username p_buffer)
    let rejected := fun (code : Nat) => r =
      { rc := SUCCESS, srv := srv, sess := sess,
        out := [{ dest := sess.p_ssl_holder, data := [ACCOUNT_TYPE, LOGIN_STYPE, REJECT, code] }] }
    (srv.users.client_count ≥ srv.users.max_client → rejected MAX_CLIENTS) ∧
    (srv.users.client_count < srv.users.max_client →
      (found = none → rejected USER_DOES_NOT_EXIST) ∧
      (∀ p, found = some p →
        ((user_at srv p).login_status = LOGGED_IN → rejected USER_LOGGED_IN) ∧
        ((user_at srv p).login_status ≠ LOGGED_IN →
          (c_str (req_p_password p_buffer) ≠ c_str ((user_at srv p).p_password.take 30) →
            rejected INCORRECT_PASS) ∧
          (c_str (req_p_password p_buffer) = c_str ((user_at srv p).p_password.take 30) →
            r = { rc := SUCCESS,
                  srv := { srv with
                    user_mem := srv.user_mem.set p
                      { user_at srv p with p_ssl_holder := sess.p_ssl_holder,
                                           login_status := LOGGED_IN },
                    users := { srv.users with client_count := srv.users.client_count + 1 } },
                  sess := { sess with pp_user := some p, logged_in := LOGGED_IN },
                  out := [{ dest := sess.p_ssl_holder,
                            data := [ACCOUNT_TYPE, LOGIN_STYPE, ACKNOWLEDGE] }] })))) :=
  cr_sm_handle_login_rules env srv sess p_buffer hstate htype hsub hop hok hmax

end Login

section RegisterLogin

theorem c_zero_filled_eq (f : List Nat) (h : c_zero_filled f = true) :
    f = c_str f ++ List.replicate (f.length - c_strlen f) 0 := by
  have h1 : f.drop (c_strlen f) = List.replicate (f.length - c_strlen f) 0 := by
    rw [List.eq_replicate_iff]
    refine ⟨by simp, ?_⟩
    intro b hb
    unfold c_zero_filled at h
    rw [List.all_eq_true] at h
    simpa using h b hb
  calc f = f.take (c_strlen f) ++ f.drop (c_strlen f) := (List.take_append_drop _ _).symm
    _ = c_str f ++ List.replicate (f.length - c_strlen f) 0 := by rw [take_c_strlen, h1]

theorem c_strlen_le_length (f : List Nat) : c_strlen f ≤ f.length := by
  unfold c_strlen c_str
  exact (List.takeWhile_sublist _).length_le

theorem req_p_username_length (p_buffer : List Nat) : (req_p_username p_buffer).length = 31 := by
  unfold req_p_username c_set_nul c_field
  simp

theorem c_strlen_req_p_username (p_buffer : List Nat) : c_strlen (req_p_username p_buffer) ≤ 30 := by
  unfold c_strlen req_p_username
  rw [c_str_set_nul]
  simp

theorem c_strlen_req_p_password (p_buffer : List Nat) : c_strlen (req_p_password p_buffer) ≤ 30 := by
  unfold c_strlen req_p_password
  rw [c_str_set_nul]
  simp

/-- The copy `strncpy(dst, src, strlen(src))` into a zeroed buffer. -/
theorem c_strncpy_zeros (src : List Nat) (n : Nat) :
    c_strncpy (c_zeros n) src (c_strlen src) = c_str src ++ List.replicate (n - c_strlen src) 0 := by
  unfold c_strncpy c_zeros
  simp only [take_c_strlen]
  have h1 : c_str (c_str src) = c_str src := by
    unfold c_str
    exact List.takeWhile_idem
  rw [h1]
  simp [c_strlen]

/-- The key under which `cr_users_add_user_table` enters a user equals the
request field when that field is zero-filled after its terminator. -/
theorem new_user_key_eq (p_buffer : List Nat) (hz : c_zero_filled (req_p_username p_buffer) = true) :
    c_strncpy user_calloc.p_username (req_p_username p_buffer)
      (c_strlen (req_p_username p_buffer)) = req_p_username p_buffer := by
  have h := c_zero_filled_eq _ hz
  rw [req_p_username_length] at h
  show c_strncpy (c_zeros (30 + 1)) _ _ = _
  rw [c_strncpy_zeros]
  exact h.symm

theorem h_table_new_entry_add_rc (t : h_table_t) (e : entry_t) :
    (h_table_new_entry_add t e).1 = SUCCESS ∨ (h_table_new_entry_add t e).1 = FAILURE := by
  rcases h_table_new_entry_add_cases t e with ⟨_, h1⟩ | ⟨_, h1⟩ <;> rw [h1] <;> simp

theorem h_table_new_entry_rc (rand : Nat → Nat → Nat) (t : h_table_t) (p : Nat) (k : List Nat) :
    (h_table_new_entry rand t p k).1 = SUCCESS ∨ (h_table_new_entry rand t p k).1 = FAILURE := by
  simp only [h_table_new_entry]
  by_cases h1 : (h_table_re_hash rand t).1 = FAILURE
  · simp [h1]
  · simp only [h1, if_false]
    exact h_table_new_entry_add_rc _ _

/-- What an acknowledged REGISTER has done: the new entry was accepted by
the table, the new `user_t` is the last object of the store and `users.txt`
has grown by a newline and `user:pass`. -/
theorem cr_users_register_acked (env : env_t) (srv : server_t) (p_ssl : Nat) (p_buffer : List Nat)
    (hack : (cr_users_register env srv p_ssl p_buffer).out =
      [{ dest := p_ssl, data := [ACCOUNT_TYPE, REGISTER_STYPE, ACKNOWLEDGE] }]) :
    (h_table_new_entry env.rand srv.users.p_users_table srv.user_mem.length
      (cr_users_new_user (req_p_username p_buffer) (req_p_password p_buffer)).p_username).1
        = SUCCESS ∧
    h_table_return_entry srv.users.p_users_table (req_p_username p_buffer) = none ∧
    cr_users_chk_usr_and_pass (req_p_username p_buffer) (req_p_password p_buffer)
      srv.users.user_count = SUCCESS ∧
    (cr_users_register env srv p_ssl p_buffer).rc = SUCCESS ∧
    (cr_users_register env srv p_ssl p_buffer).srv =
      { srv with
        user_mem := srv.user_mem ++
          [cr_users_new_user (req_p_username p_buffer) (req_p_password p_buffer)],
        users := { srv.users with
          p_users_table := (h_table_new_entry env.rand srv.users.p_users_table srv.user_mem.length
            (cr_users_new_user (req_p_username p_buffer) (req_p_password p_buffer)).p_username).2 },
        users_txt := srv.users_txt ++ [10] ++
          c_str ((c_str (req_p_username p_buffer) ++ [UTF_COLON] ++
            c_str (req_p_password p_buffer)).take 62) } := by
  unfold cr_users_register at hack ⊢
  by_cases hf : h_table_return_entry srv.users.p_users_table (req_p_username p_buffer) = none
  · simp only [hf, ne_eq, not_true_eq_false, if_false] at hack ⊢
    by_cases hv1 : cr_users_chk_usr_and_pass (req_p_username p_buffer) (req_p_password p_buffer)
        srv.users.user_count = FAILURE
    · simp [hv1] at hack
    · simp only [hv1, if_false] at hack ⊢
      by_cases hv : cr_users_chk_usr_and_pass (req_p_username p_buffer) (req_p_password p_buffer)
          srv.users.user_count = SUCCESS
      · simp only [hv, ne_eq, not_true_eq_false, if_false] at hack ⊢
        unfold cr_users_reg_helper cr_users_add_user_table at hack ⊢
        rcases h_table_new_entry_rc env.rand srv.users.p_users_table srv.user_mem.length
          (cr_users_new_user (req_p_username p_buffer) (req_p_password p_buffer)).p_username
          with h1 | h1
        · by_cases hok : env.ssl_ok p_ssl = true
          · simp [h1, cr_msg_send_ack, hok, cr_users_add_user_file]
          · simp [h1, cr_msg_send_ack, hok] at hack
        · simp [h1] at hack
      · simp only [ne_eq, hv, not_false_eq_true, if_true] at hack
        by_cases hok : env.ssl_ok p_ssl = true <;> simp [cr_msg_send_rej, hok] at hack
  · simp only [ne_eq, hf, not_false_eq_true, if_true] at hack
    by_cases hok : env.ssl_ok p_ssl = true <;> simp [cr_msg_send_rej, hok] at hack

/-- The rules of `cr_users_login_helper` in the case that ends with ACK. -/
theorem cr_sm_handle_login_ack (env : env_t) (srv : server_t) (sess : session_t)
    (p_buffer : List Nat) (p : Nat)
    (hstate : sess.logged_in = NOT_LOGGED_IN)
    (htype : c_byte p_buffer 0 = ACCOUNT_TYPE) (hsub : c_byte p_buffer 1 = LOGIN_STYPE)
    (hop : c_byte p_buffer 2 = REQUEST)
    (hok : env.ssl_ok sess.p_ssl_holder = true)
    (hmax : srv.users.max_client < 256)
    (hcc : srv.users.client_count < srv.users.max_client)
    (hf : h_table_return_entry srv.users.p_users_table (req_p_username p_buffer) = some p)
    (hl : (user_at srv p).login_status ≠ LOGGED_IN)
    (hpw : c_str (req_p_password p_buffer) = c_str ((user_at srv p).p_password.take 30)) :
    cr_sm_handle env srv sess p_buffer =
      { rc := SUCCESS,
        srv := { srv with
          user_mem := srv.user_mem.set p
            { user_at srv p with p_ssl_holder := sess.p_ssl_holder, login_status := LOGGED_IN },
          users := { srv.users with client_count := srv.users.client_count + 1 } },
        sess := { sess with pp_user := some p, logged_in := LOGGED_IN },
        out := [{ dest := sess.p_ssl_holder, data := [ACCOUNT_TYPE, LOGIN_STYPE, ACKNOWLEDGE] }] } :=
  ((((cr_sm_handle_login_rules env srv sess p_buffer hstate htype hsub hop hok hmax).2 hcc).2 p
    hf).2 hl).2 hpw

theorem cr_sm_handle_register (env : env_t) (srv : server_t) (sess : session_t)
    (p_buffer : List Nat) (hstate : sess.logged_in = NOT_LOGGED_IN)
    (htype : c_byte p_buffer 0 = ACCOUNT_TYPE) (hsub : c_byte p_buffer 1 = REGISTER_STYPE)
    (hop : c_byte p_buffer 2 = REQUEST) :
    cr_sm_handle env srv sess p_buffer =
      (cr_users_register env srv sess.p_ssl_holder p_buffer).with_sess sess := by
  unfold cr_sm_handle cr_sm_connected_state
  simp [hstate, htype, hsub, hop]

theorem c_str_new_user_password (u pw : List Nat) (h : c_strlen pw ≤ 30) :
    c_str ((cr_users_new_user u pw).p_password.take 30) = c_str pw := by
  show c_str ((c_strncpy (c_zeros (30 + 1)) pw (c_strlen pw)).take 30) = c_str pw
  rw [c_strncpy_zeros, c_str_take]
  have h1 : c_str (c_str pw ++ List.replicate (30 + 1 - c_strlen pw) 0) = c_str pw := by
    unfold c_str
    rw [List.takeWhile_append]
    have : (List.takeWhile (fun b => b != 0) pw).length
        = (List.takeWhile (fun b => b != 0) (List.takeWhile (fun b => b != 0) pw)).length := by
      rw [List.takeWhile_idem]
    rw [if_pos this.symm.symm.symm]
    have h2 : 30 + 1 - c_strlen pw = (30 - c_strlen pw) + 1 := by omega
    rw [h2, List.replicate_succ]
    simp [List.takeWhile_idem]
  rw [h1]
  exact List.take_of_length_le h

/-- REGISTER followed by LOGIN with the same bytes in the name field: if a
REGISTER request whose user name field is zero-filled after its terminator
is acknowledged, and `client_count < max_client`, then a LOGIN request with
the same user name field (all 31 bytes) and the same password, handled next
by any session in CONNECTED state, is acknowledged, and that session becomes
logged in as the user just registered (the last object of the store),
who is then logged in. -/
theorem cr_sm_handle_register_then_login (env1 env2 : env_t) (srv : server_t) (sess1 sess2 : session_t)
    (reg login : List Nat)
    (hsized : srv.users.p_users_table.pp_array.length = srv.users.p_users_table.capacity)
    (hmax : srv.users.max_client < 256)
    (hs1 : sess1.logged_in = NOT_LOGGED_IN)
    (hr0 : c_byte reg 0 = ACCOUNT_TYPE) (hr1 : c_byte reg 1 = REGISTER_STYPE)
    (hr2 : c_byte reg 2 = REQUEST)
    (hz : c_zero_filled (req_p_username reg) = true)
    (hack : (cr_sm_handle env1 srv sess1 reg).out =
      [{ dest := sess1.p_ssl_holder, data := [ACCOUNT_TYPE, REGISTER_STYPE, ACKNOWLEDGE] }])
    (hcc : srv.users.client_count < srv.users.max_client)
    (hs2 : sess2.logged_in = NOT_LOGGED_IN)
    (hl0 : c_byte login 0 = ACCOUNT_TYPE) (hl1 : c_byte login 1 = LOGIN_STYPE)
    (hl2 : c_byte login 2 = REQUEST)
    (hu : req_p_username login = req_p_username reg)
    (hp : c_str (req_p_password login) = c_str (req_p_password reg))
    (hok2 : env2.ssl_ok sess2.p_ssl_holder = true) :
    let srv1 := (cr_sm_handle env1 srv sess1 reg).srv
    let r := cr_sm_handle env2 srv1 sess2 login
    let p := srv.user_mem.length
    r.rc = SUCCESS ∧
    r.out = [{ dest := sess2.p_ssl_holder, data := [ACCOUNT_TYPE, LOGIN_STYPE, ACKNOWLEDGE] }] ∧
    r.sess = { sess2 with pp_user := some p, logged_in := LOGGED_IN } ∧
    (user_at r.srv p).login_status = LOGGED_IN ∧
    (user_at r.srv p).p_username = req_p_username reg ∧
    c_str (user_at r.srv p).p_password = c_str (req_p_password reg) := by
  intro srv1 r p
  have hreg := cr_sm_handle_register env1 srv sess1 reg hs1 hr0 hr1 hr2
  have hack' : (cr_users_register env1 srv sess1.p_ssl_holder reg).out =
      [{ dest := sess1.p_ssl_holder, data := [ACCOUNT_TYPE, REGISTER_STYPE, ACKNOWLEDGE] }] := by
    rw [hreg] at hack; exact hack
  obtain ⟨hnew, _, _, _, hsrv⟩ := cr_users_register_acked env1 srv sess1.p_ssl_holder reg hack'
  have hsrv1 : srv1 = _ := (congrArg sres_t.srv hreg).trans hsrv
  have hkey : (cr_users_new_user (req_p_username reg) (req_p_password reg)).p_username =
      req_p_username reg := new_user_key_eq reg hz
  rw [hkey] at hnew hsrv1
  have hlook := h_table_return_entry_new_entry env1.rand srv.users.p_users_table
    srv.user_mem.length (req_p_username reg) hsized hnew
  have hu1 : user_at srv1 p = cr_users_new_user (req_p_username reg) (req_p_password reg) := by
    rw [hsrv1]; simp [user_at, p, List.getD_eq_getElem?_getD]
  have hf : h_table_return_entry srv1.users.p_users_table (req_p_username login) = some p := by
    rw [hu, hsrv1]; exact hlook
  have hlog : (user_at srv1 p).login_status ≠ LOGGED_IN := by
    rw [hu1]; simp [cr_users_new_user, user_calloc]
  have hpw : c_str (req_p_password login) = c_str ((user_at srv1 p).p_password.take 30) := by
    rw [hu1, hp, c_str_new_user_password _ _ (c_strlen_req_p_password reg)]
  have hmax1 : srv1.users.max_client < 256 := by rw [hsrv1]; exact hmax
  have hcc1 : srv1.users.client_count < srv1.users.max_client := by rw [hsrv1]; exact hcc
  have hres := cr_sm_handle_login_ack env2 srv1 sess2 login p hs2 hl0 hl1 hl2 hok2 hmax1 hcc1 hf
    hlog hpw
  have hplt : p < srv1.user_mem.length := by rw [hsrv1]; simp [p]
  have hr : r = _ := hres
  rw [hr]
  refine ⟨rfl, rfl, rfl, ?_, ?_, ?_⟩
  · simp [user_at, List.getD_eq_getElem?_getD, List.getElem?_set, hplt]
  · simp only [user_at, List.getD_eq_getElem?_getD, List.getElem?_set, hplt]
    simp
    have := hu1
    simp only [user_at, List.getD_eq_getElem?_getD] at this
    rw [this, hkey]
  · simp only [user_at, List.getD_eq_getElem?_getD, List.getElem?_set, hplt]
    simp
    have := hu1
    simp only [user_at, List.getD_eq_getElem?_getD] at this
    rw [this]
    show c_str (c_strncpy (c_zeros (30 + 1)) _ _) = _
    rw [c_strncpy_zeros]
    unfold c_str
    rw [List.takeWhile_append, List.takeWhile_idem]
    simp

end RegisterLogin

section LoginInstances

/-- C1 at a LOGOUT request received in CONNECTED state: `client_count` is
unchanged. -/
theorem C1_witness :
    (cr_sm_handle env_ok srv_0 (session_init 1)
      [ACCOUNT_TYPE, LOGOUT_STYPE, REQUEST]).srv.users.client_count = srv_0.users.client_count :=
  congrArg (fun r => r.srv.users.client_count)
    (C1_inadmissible_frame_rejected env_ok srv_0 (session_init 1)
      [ACCOUNT_TYPE, LOGOUT_STYPE, REQUEST] (by decide) (by decide) (by decide))

/-- C2 at the login of `alice` after her registration: the session becomes
logged in as the user at address 1. -/
theorem C2_witness :
    (cr_sm_handle env_ok srv_alice (session_init 2) login_alice).sess =
      { p_ssl_holder := 2, logged_in := LOGGED_IN, chatting := NOT_CHATTING, pp_user := some 1 } :=
  congrArg (fun r => r.sess)
    (((((C2_login_first_rule env_ok srv_alice (session_init 2) login_alice (by decide) (by decide)
      (by decide) (by decide) (by decide) (by decide)).2 (by decide)).2 1 (by decide)).2
      (by decide)).2 (by decide))

end LoginInstances

section Admin

/-- C8: an ADMIN or ADMIN_REMOVE request handled in LOGGED_IN state is
answered by the first rule that applies: the target name equals the
requester's own name gives ADMIN_SELF; the requester is not ADMIN gives
ADMIN_PRIV; no user found for the target gives USER_DOES_NOT_EXIST; the
target is logged in gives USER_LOGGED_IN; otherwise ACK, and the only change
to the shared state is the `admin_status` of the target (ADMIN for ADMIN,
NOT_ADMIN for ADMIN_REMOVE). A rejected request changes nothing. -/
theorem C8_admin_first_rule (env : env_t) (srv : server_t) (sess : session_t)
    (p_buffer : List Nat) (q : Nat)
    (hlog : sess.logged_in ≠ NOT_LOGGED_IN) (hchat : sess.chatting = NOT_CHATTING)
    (huser : sess.pp_user = some q)
    (htype : c_byte p_buffer 0 = ACCOUNT_TYPE)
    (hsub : c_byte p_buffer 1 = ADMIN_STYPE ∨ c_byte p_buffer 1 = ADMIN_REMOVE_STYPE)
    (hop : c_byte p_buffer 2 = REQUEST)
    (hok : env.ssl_ok sess.p_ssl_holder = true)
    (hadm : (user_at srv q).admin_status = NOT_ADMIN ∨ (user_at srv q).admin_status = ADMIN) :
    let r := cr_sm_handle env srv sess p_buffer
    let s_type := c_byte p_buffer 1
    let found := h_table_return_entry srv.users.p_users_table (req_p_username p_buffer)
    let rejected := fun (code : Nat) => r =
      { rc := SUCCESS, srv := srv, sess := sess,
        out := [{ dest := sess.p_ssl_holder, data := [ACCOUNT_TYPE, s_type, REJECT, code] }] }
    (c_str ((user_at srv q).p_username.take 30) = c_str (req_p_username p_buffer) →
      rejected ADMIN_SELF) ∧
    (c_str ((user_at srv q).p_username.take 30) ≠ c_str (req_p_username p_buffer) →
      ((user_at srv q).admin_status ≠ ADMIN → rejected ADMIN_PRIV) ∧
      ((user_at srv q).admin_status = ADMIN →
        (found = none → rejected USER_DOES_NOT_EXIST) ∧
        (∀ p, found = some p →
          ((user_at srv p).login_status = LOGGED_IN → rejected USER_LOGGED_IN) ∧
          ((user_at srv p).login_status ≠ LOGGED_IN →
            r = { rc := SUCCESS,
                  srv := { srv with
                    user_mem := srv.user_mem.set p
                      { user_at srv p with
                        admin_status := if s_type = ADMIN_STYPE then ADMIN else NOT_ADMIN } },
                  sess := sess,
                  out := [{ dest := sess.p_ssl_holder,
                            data := [ACCOUNT_TYPE, s_type, ACKNOWLEDGE] }] })))) := by
  intro r s_type found rejected
  have hself : c_strncmp_eq (user_at srv q).p_username (req_p_username p_buffer) 30 = true ↔
      c_str ((user_at srv q).p_username.take 30) = c_str (req_p_username p_buffer) := by
    rw [c_strncmp_eq_iff]
    have : c_str ((req_p_username p_buffer).take 30) = c_str (req_p_username p_buffer) := by
      rw [c_str_take]; unfold req_p_username; rw [c_str_set_nul]; simp [List.take_take]
    rw [this]
  have hr : r = (cr_users_admin env srv sess.p_ssl_holder p_buffer q
      (if s_type = ADMIN_STYPE then ADMIN else NOT_ADMIN)).with_sess sess := by
    show cr_sm_handle env srv sess p_buffer = _
    unfold cr_sm_handle cr_sm_logged_state cr_sm_ls_account
    have hl : ¬ sess.logged_in = 0 := hlog
    have hch : sess.chatting = 0 := hchat
    rcases hsub with h | h
    · have h' : s_type = 5 := h
      simp [hl, hch, huser, htype, hop, h, h', res_t.with_sess, cr_users_admin,
        cr_users_admin_helper_1, cr_users_admin_helper_2, cr_msg_send_rej, cr_msg_send_ack, hok]
      split_ifs <;> simp
    · have h' : s_type = 9 := h
      simp [hl, hch, huser, htype, hop, h, h', res_t.with_sess, cr_users_admin,
        cr_users_admin_helper_1, cr_users_admin_helper_2, cr_msg_send_rej, cr_msg_send_ack, hok]
      split_ifs <;> simp
  have hst : (if (if s_type = ADMIN_STYPE then ADMIN else NOT_ADMIN) = ADMIN then ADMIN_STYPE
      else ADMIN_REMOVE_STYPE) = s_type := by
    rcases hsub with h | h
    · have h' : s_type = 5 := h
      simp [h']
    · have h' : s_type = 9 := h
      simp [h']
  refine ⟨?_, ?_⟩
  · intro hs
    show r = _
    rw [hr]
    unfold cr_users_admin
    simp only [hst, MAX_USERNAME_LENGTH, hself.mpr hs, if_true]
    simp [res_t.with_sess, cr_msg_send_rej, hok]
  · intro hs
    have hs' : ¬ c_strncmp_eq (user_at srv q).p_username (req_p_username p_buffer) 30 = true :=
      fun h => hs (hself.mp h)
    refine ⟨?_, ?_⟩
    · intro ha
      have ha' : (user_at srv q).admin_status = 0 := by
        rcases hadm with h | h
        · exact h
        · exact absurd h ha
      show r = _
      rw [hr]
      unfold cr_users_admin
      simp only [hst, MAX_USERNAME_LENGTH, hs', if_false, NOT_ADMIN, ha', if_true]
      simp [res_t.with_sess, cr_msg_send_rej, hok]
    · intro ha
      have ha' : ¬ (user_at srv q).admin_status = 0 := by
        rw [ha]; decide
      have hrr : r = (cr_users_admin_helper_1 env srv (req_p_username p_buffer) sess.p_ssl_holder
          (if s_type = ADMIN_STYPE then ADMIN else NOT_ADMIN) s_type).with_sess sess := by
        rw [hr]
        unfold cr_users_admin
        simp only [hst, MAX_USERNAME_LENGTH, hs', if_false, NOT_ADMIN, ha']
        simp
      refine ⟨?_, ?_⟩
      · intro hf
        have hf' : h_table_return_entry srv.users.p_users_table (req_p_username p_buffer) = none := hf
        show r = _
        rw [hrr]
        unfold cr_users_admin_helper_1 cr_users_admin_helper_2
        simp [hf', res_t.with_sess, cr_msg_send_rej, hok]
      · intro p hf
        have hf' : h_table_return_entry srv.users.p_users_table (req_p_username p_buffer) = some p := hf
        refine ⟨?_, ?_⟩
        · intro hl
          show r = _
          rw [hrr]
          unfold cr_users_admin_helper_1 cr_users_admin_helper_2
          simp [hf', hl, res_t.with_sess, cr_msg_send_rej, hok]
        · intro hl
          have hl' : ¬ (user_at srv p).login_status = 1 := hl
          show r = _
          rw [hrr]
          unfold cr_users_admin_helper_1 cr_users_admin_helper_2
          simp [hf', hl', res_t.with_sess, cr_msg_send_ack, hok, user_put]

end Admin

section Register

theorem c_str_eq_self (l : List Nat) (h : 0 ∉ l) : c_str l = l := by
  unfold c_str
  rw [List.takeWhile_eq_self_iff]
  intro x hx
  have : x ≠ 0 := fun h0 => h (h0 ▸ hx)
  simpa using this

theorem zero_not_mem_c_str (l : List Nat) : 0 ∉ c_str l := by
  unfold c_str
  intro h
  have := List.mem_takeWhile_imp h
  simp at this

theorem key_canonical_of_zero_filled (f : List Nat) (h : c_zero_filled f = true) :
    key_canonical f := by
  intro i hi hle
  have hf := c_zero_filled_eq f h
  have hlen : c_strlen f ≤ i := by
    unfold c_strlen at hle ⊢
    rw [c_str_take, List.length_take] at hle
    have : i < 10 := hi
    omega
  unfold c_byte
  rw [hf]
  unfold c_strlen at hlen
  simp only [List.getD_eq_getElem?_getD]
  rw [List.getElem?_append_right hlen]
  by_cases hb : i - (c_str f).length < f.length - c_strlen f
  · simp [List.getElem?_replicate, hb]
  · simp [List.getElem?_replicate, hb]

theorem cr_users_chk_usr_and_pass_ne_failure (u pw : List Nat) (n : Nat) :
    cr_users_chk_usr_and_pass u pw n ≠ FAILURE := by
  unfold cr_users_chk_usr_and_pass
  simp only []
  split_ifs <;> decide

/-- A validated request holds no newline in either string. -/
theorem newline_not_mem_of_valid (p_buffer : List Nat) (n : Nat)
    (hv : cr_users_chk_usr_and_pass (req_p_username p_buffer) (req_p_password p_buffer) n
      = SUCCESS) :
    10 ∉ c_str (req_p_username p_buffer) ++ [UTF_COLON] ++ c_str (req_p_password p_buffer) := by
  rw [cr_users_chk_usr_and_pass_eq _ _ _ (c_strlen_req_p_username p_buffer)
    (c_strlen_req_p_password p_buffer)] at hv
  split_ifs at hv with h1 h2 h3 h4 h5
  simp only [Bool.not_eq_false, List.all_eq_true] at h3 h4
  intro hmem
  simp only [List.mem_append, List.mem_singleton] at hmem
  rcases hmem with (hm | hm) | hm
  · exact absurd (h3 10 hm) (by decide)
  · exact absurd hm (by decide)
  · exact absurd (h4 10 hm) (by decide)

/-- The state and reply of `cr_users_register` when the name is not found,
the validation passes, the table accepts the entry and the write succeeds. -/
theorem cr_users_register_ok (env : env_t) (srv : server_t) (p_ssl : Nat) (p_buffer : List Nat)
    (hok : env.ssl_ok p_ssl = true)
    (hf : h_table_return_entry srv.users.p_users_table (req_p_username p_buffer) = none)
    (hv : cr_users_chk_usr_and_pass (req_p_username p_buffer) (req_p_password p_buffer)
      srv.users.user_count = SUCCESS)
    (hnew : (h_table_new_entry env.rand srv.users.p_users_table srv.user_mem.length
      (cr_users_new_user (req_p_username p_buffer) (req_p_password p_buffer)).p_username).1
        = SUCCESS) :
    cr_users_register env srv p_ssl p_buffer =
      { rc := SUCCESS,
        srv := { srv with
          user_mem := srv.user_mem ++
            [cr_users_new_user (req_p_username p_buffer) (req_p_password p_buffer)],
          users := { srv.users with
            p_users_table := (h_table_new_entry env.rand srv.users.p_users_table
              srv.user_mem.length
              (cr_users_new_user (req_p_username p_buffer) (req_p_password p_buffer)).p_username).2 },
          users_txt := srv.users_txt ++ [10] ++
            (c_str (req_p_username p_buffer) ++ [UTF_COLON] ++ c_str (req_p_password p_buffer)) },
        out := [{ dest := p_ssl, data := [ACCOUNT_TYPE, REGISTER_STYPE, ACKNOWLEDGE] }] } := by
  have hlen : (c_str (req_p_username p_buffer) ++ [UTF_COLON] ++
      c_str (req_p_password p_buffer)).length ≤ 62 := by
    have h1 := c_strlen_req_p_username p_buffer
    have h2 := c_strlen_req_p_password p_buffer
    unfold c_strlen at h1 h2
    simp only [List.length_append, List.length_singleton]
    omega
  have hz : 0 ∉ c_str (req_p_username p_buffer) ++ [UTF_COLON] ++
      c_str (req_p_password p_buffer) := by
    simp only [List.mem_append, List.mem_singleton, not_or]
    exact ⟨⟨zero_not_mem_c_str _, by decide⟩, zero_not_mem_c_str _⟩
  have htake := List.take_of_length_le hlen
  have hstr := c_str_eq_self _ hz
  simp only [UTF_COLON, List.append_assoc, List.singleton_append] at htake hstr
  unfold cr_users_register
  simp only [hf, ne_eq, not_true_eq_false, if_false, hv]
  unfold cr_users_reg_helper cr_users_add_user_table
  simp [hnew, cr_msg_send_ack, hok, cr_users_add_user_file, htake, hstr]

theorem c_str_new_user_username (u pw : List Nat) :
    c_str (cr_users_new_user u pw).p_username = c_str u := by
  show c_str (c_strncpy (c_zeros (30 + 1)) _ _) = _
  rw [c_strncpy_zeros]
  unfold c_str
  rw [List.takeWhile_append, List.takeWhile_idem]
  simp

theorem c_str_new_user_password_full (u pw : List Nat) :
    c_str (cr_users_new_user u pw).p_password = c_str pw := by
  show c_str (c_strncpy (c_zeros (30 + 1)) _ _) = _
  rw [c_strncpy_zeros]
  unfold c_str
  rw [List.takeWhile_append, List.takeWhile_idem]
  simp

/-- The rules of REGISTER on a server whose users table is well formed, with
a capacity below 23170: a REGISTER request handled in CONNECTED state whose
user name field is zero-filled after its terminator. If a user is found for
the name the reply is REJECT USER_EXISTS, whatever the validation would say;
otherwise, if the
validation fails, the reply is the REJECT that carries the validation code;
in both cases nothing changes. Otherwise the reply is ACK, the store gains
one user with that name and password, logged out and not admin, which the
directory returns for the name, and `users.txt` grows by a newline followed
by `username:password`, which holds no newline (so it is the final line). -/
theorem cr_sm_handle_register_rules (env : env_t) (srv : server_t) (sess : session_t) (p_buffer : List Nat)
    (hstate : sess.logged_in = NOT_LOGGED_IN)
    (htype : c_byte p_buffer 0 = ACCOUNT_TYPE) (hsub : c_byte p_buffer 1 = REGISTER_STYPE)
    (hop : c_byte p_buffer 2 = REQUEST)
    (hok : env.ssl_ok sess.p_ssl_holder = true)
    (hz : c_zero_filled (req_p_username p_buffer) = true)
    (hwf : h_table_wf srv.users.p_users_table) :
    let r := cr_sm_handle env srv sess p_buffer
    let u := req_p_username p_buffer
    let pw := req_p_password p_buffer
    let found := h_table_return_entry srv.users.p_users_table u
    let v := cr_users_chk_usr_and_pass u pw srv.users.user_count
    let rejected := fun (code : Nat) => r =
      { rc := SUCCESS, srv := srv, sess := sess,
        out := [{ dest := sess.p_ssl_holder,
                  data := [ACCOUNT_TYPE, REGISTER_STYPE, REJECT, code] }] }
    (found ≠ none → rejected USER_EXISTS) ∧
    (found = none →
      (v ≠ SUCCESS → rejected v) ∧
      (v = SUCCESS →
        r.rc = SUCCESS ∧ r.sess = sess ∧
        r.out = [{ dest := sess.p_ssl_holder,
                   data := [ACCOUNT_TYPE, REGISTER_STYPE, ACKNOWLEDGE] }] ∧
        r.srv.user_mem = srv.user_mem ++ [cr_users_new_user u pw] ∧
        h_table_return_entry r.srv.users.p_users_table u = some srv.user_mem.length ∧
        c_str (user_at r.srv srv.user_mem.length).p_username = c_str u ∧
        c_str (user_at r.srv srv.user_mem.length).p_password = c_str pw ∧
        (user_at r.srv srv.user_mem.length).login_status = NOT_LOGGED_IN ∧
        (user_at r.srv srv.user_mem.length).admin_status = NOT_ADMIN ∧
        r.srv.users_txt = srv.users_txt ++ [10] ++ (c_str u ++ [UTF_COLON] ++ c_str pw) ∧
        10 ∉ c_str u ++ [UTF_COLON] ++ c_str pw)) := by
  intro r u pw found v rejected
  have hr : r = (cr_users_register env srv sess.p_ssl_holder p_buffer).with_sess sess :=
    cr_sm_handle_register env srv sess p_buffer hstate htype hsub hop
  refine ⟨?_, ?_⟩
  · intro hf
    have hf' : h_table_return_entry srv.users.p_users_table (req_p_username p_buffer) ≠ none := hf
    show r = _
    rw [hr]
    unfold cr_users_register
    simp [hf', res_t.with_sess, cr_msg_send_rej, hok]
  · intro hf
    have hf' : h_table_return_entry srv.users.p_users_table (req_p_username p_buffer) = none := hf
    refine ⟨?_, ?_⟩
    · intro hv
      have hv' : ¬ cr_users_chk_usr_and_pass (req_p_username p_buffer) (req_p_password p_buffer)
          srv.users.user_count = SUCCESS := hv
      have hv1 := cr_users_chk_usr_and_pass_ne_failure (req_p_username p_buffer)
        (req_p_password p_buffer) srv.users.user_count
      show r = _
      rw [hr]
      unfold cr_users_register
      simp only [hf', ne_eq, not_true_eq_false, if_false, hv1, hv', not_false_eq_true, if_true]
      simp [res_t.with_sess, cr_msg_send_rej, hok]
    · intro hv
      have hv' : cr_users_chk_usr_and_pass (req_p_username p_buffer) (req_p_password p_buffer)
          srv.users.user_count = SUCCESS := hv
      have hkey : (cr_users_new_user (req_p_username p_buffer) (req_p_password p_buffer)).p_username
          = req_p_username p_buffer := new_user_key_eq p_buffer hz
      have hnew := h_table_new_entry_ok env.rand srv.users.p_users_table srv.user_mem.length
        (req_p_username p_buffer) hwf (key_canonical_of_zero_filled _ hz) hf'
      have hnew' := hnew
      rw [← hkey] at hnew'
      have hreg := cr_users_register_ok env srv sess.p_ssl_holder p_buffer hok hf' hv' hnew'
      have hlook := h_table_return_entry_new_entry env.rand srv.users.p_users_table
        srv.user_mem.length (req_p_username p_buffer) hwf.1.1 hnew
      rw [hreg] at hr
      have hu : user_at r.srv srv.user_mem.length =
          cr_users_new_user (req_p_username p_buffer) (req_p_password p_buffer) := by
        rw [hr]; simp [res_t.with_sess, user_at, List.getD_eq_getElem?_getD]
      refine ⟨by rw [hr]; rfl, by rw [hr]; rfl, by rw [hr]; rfl, by rw [hr]; rfl, ?_, ?_, ?_, ?_, ?_,
        by rw [hr]; rfl, newline_not_mem_of_valid p_buffer _ hv'⟩
      · rw [hr]
        show h_table_return_entry (h_table_new_entry env.rand srv.users.p_users_table
          srv.user_mem.length _).2 _ = _
        rw [hkey]
        exact hlook
      · rw [hu]; exact c_str_new_user_username _ _
      · rw [hu]; exact c_str_new_user_password_full _ _
      · rw [hu]; rfl
      · rw [hu]; rfl

end Register


section Delete

theorem h_table_return_entry_eq_find (t : h_table_t) (k : List Nat) :
    h_table_return_entry t k = h_table_find (h_table_slot t (h_table_index t k)) k := by
  unfold h_table_return_entry h_table_slot
  cases hs : t.pp_array.getD (h_table_index t k) none with
  | none => simp [h_table_find]
  | some l => simp

theorem h_table_find_remove_self (l : List entry_t) (k : List Nat)
    (hd : l.Pairwise (fun a b => c_strncmp_eq a.p_key b.p_key KEY_LENGTH = false)) :
    h_table_find (h_table_remove l k) k = none := by
  induction l with
  | nil => simp [h_table_remove, h_table_find]
  | cons e rest ih =>
    rw [List.pairwise_cons] at hd
    unfold h_table_remove
    by_cases hm : c_strncmp_eq k e.p_key KEY_LENGTH = true
    · simp only [hm, if_true]
      rw [h_table_find_eq_none_iff]
      intro e2 he2
      rw [Bool.eq_false_iff]
      intro hm2
      have h1 := hd.1 e2 he2
      rw [c_strncmp_eq_iff] at hm hm2
      have h3 : c_strncmp_eq e.p_key e2.p_key KEY_LENGTH = true := by
        rw [c_strncmp_eq_iff, ← hm, hm2]
      rw [h3] at h1
      exact Bool.noConfusion h1
    · simp only [hm, h_table_find]
      exact ih hd.2

theorem h_table_find_remove_other (l : List entry_t) (k k2 : List Nat) (p p2 : Nat)
    (h1 : h_table_find l k = some p) (h2 : h_table_find l k2 = some p2) (hne : p2 ≠ p) :
    h_table_find (h_table_remove l k) k2 = some p2 := by
  induction l with
  | nil => simp [h_table_find] at h1
  | cons e rest ih =>
    unfold h_table_remove
    unfold h_table_find at h1 h2
    by_cases hm : c_strncmp_eq k e.p_key KEY_LENGTH = true
    · simp only [hm, if_true] at h1 ⊢
      by_cases hm2 : c_strncmp_eq k2 e.p_key KEY_LENGTH = true
      · simp only [hm2, if_true] at h2
        exact absurd (Option.some.inj (h2.symm.trans h1)) hne
      · simpa [hm2] using h2
    · simp only [hm] at h1 ⊢
      by_cases hm2 : c_strncmp_eq k2 e.p_key KEY_LENGTH = true
      · simp only [hm2, if_true] at h2
        simp [h_table_find, hm2, h2]
      · simp only [hm2] at h2
        simp only [h_table_find, hm2]
        exact ih h1 h2

theorem pairwise_slot (t : h_table_t) (i : Nat)
    (hd : (h_table_list t).Pairwise (fun a b => c_strncmp_eq a.p_key b.p_key KEY_LENGTH = false)) :
    (h_table_slot t i).Pairwise (fun a b => c_strncmp_eq a.p_key b.p_key KEY_LENGTH = false) := by
  by_cases hi : i < t.pp_array.length
  · apply List.Pairwise.sublist _ hd
    unfold h_table_list h_table_slot
    have : (t.pp_array.getD i none).getD [] ∈ t.pp_array.map (fun slot => slot.getD []) := by
      rw [List.mem_map]
      exact ⟨t.pp_array[i], List.getElem_mem hi,
        by simp [List.getD_eq_getElem?_getD, List.getElem?_eq_getElem hi]⟩
    exact List.sublist_flatten_of_mem this
  · have : h_table_slot t i = [] := by
      unfold h_table_slot
      simp [List.getD_eq_getElem?_getD, List.getElem?_eq_none (by omega : t.pp_array.length ≤ i)]
    rw [this]
    exact List.Pairwise.nil

/-- What `h_table_destroy_entry` does when the key is found with data `p`. -/
theorem h_table_destroy_entry_found (t : h_table_t) (k : List Nat) (p : Nat)
    (hf : h_table_return_entry t k = some p) :
    (h_table_destroy_entry t k).1 = some p ∧
    (h_table_destroy_entry t k).2.capacity = t.capacity ∧
    (h_table_destroy_entry t k).2.pp_array.length = t.pp_array.length ∧
    ∀ j, h_table_slot (h_table_destroy_entry t k).2 j =
      if j = h_table_index t k then h_table_remove (h_table_slot t j) k else h_table_slot t j := by
  unfold h_table_return_entry at hf
  unfold h_table_destroy_entry
  simp only [List.getD_eq_getElem?_getD] at hf ⊢
  cases hs : t.pp_array[h_table_index t k]?.getD none with
  | none => simp [hs] at hf
  | some l =>
    simp only [hs] at hf ⊢
    simp only [hf]
    refine ⟨trivial, trivial, by simp, ?_⟩
    intro j
    have hlt : h_table_index t k < t.pp_array.length := by
      by_contra hge
      simp [List.getElem?_eq_none (by omega :
        t.pp_array.length ≤ h_table_index t k)] at hs
    unfold h_table_slot
    simp only [List.getD_eq_getElem?_getD, List.getElem?_set]
    by_cases hj : h_table_index t k = j
    · subst hj
      simp only [hlt, if_true, hs]
      split_ifs with h0
      · simp [List.length_eq_zero.mp h0]
      · simp
    · have hj' : ¬ j = h_table_index t k := fun h => hj h.symm
      simp [hj, hj']

/-- C9: an account DELETE request handled in LOGGED_IN state is answered by
the first rule that applies, privilege before self: the requester is not ADMIN
gives ADMIN_PRIV; the target name equals the requester's own gives
ADMIN_SELF; no user found for the target gives USER_DOES_NOT_EXIST; the
target is logged in gives USER_LOGGED_IN; otherwise ACK, the target is no
longer found in the directory, every other user is still found and no user
record has changed. A rejection leaves the directory as it was. -/
theorem C9_delete_first_rule (env : env_t) (srv : server_t) (sess : session_t)
    (p_buffer : List Nat) (q : Nat)
    (hlog : sess.logged_in ≠ NOT_LOGGED_IN) (hchat : sess.chatting = NOT_CHATTING)
    (huser : sess.pp_user = some q)
    (htype : c_byte p_buffer 0 = ACCOUNT_TYPE)
    (hsub : c_byte p_buffer 1 = DEL_STYPE)
    (hop : c_byte p_buffer 2 = REQUEST)
    (hok : env.ssl_ok sess.p_ssl_holder = true)
    (hadm : (user_at srv q).admin_status = NOT_ADMIN ∨ (user_at srv q).admin_status = ADMIN)
    (hd : (h_table_list srv.users.p_users_table).Pairwise
      (fun a b => c_strncmp_eq a.p_key b.p_key KEY_LENGTH = false)) :
    let r := cr_sm_handle env srv sess p_buffer
    let found := h_table_return_entry srv.users.p_users_table (req_p_username p_buffer)
    let rejected := fun (code : Nat) =>
      r.rc = SUCCESS ∧ r.sess = sess ∧
      r.out = [{ dest := sess.p_ssl_holder, data := [ACCOUNT_TYPE, DEL_STYPE, REJECT, code] }] ∧
      r.srv.users = srv.users ∧ r.srv.user_mem = srv.user_mem
    ((user_at srv q).admin_status ≠ ADMIN → rejected ADMIN_PRIV) ∧
    ((user_at srv q).admin_status = ADMIN →
      (c_str ((user_at srv q).p_username.take 30) = c_str (req_p_username p_buffer) →
        rejected ADMIN_SELF) ∧
      (c_str ((user_at srv q).p_username.take 30) ≠ c_str (req_p_username p_buffer) →
        (found = none → rejected USER_DOES_NOT_EXIST) ∧
        (∀ p, found = some p →
          ((user_at srv p).login_status = LOGGED_IN → rejected USER_LOGGED_IN) ∧
          ((user_at srv p).login_status ≠ LOGGED_IN →
            r.rc = SUCCESS ∧ r.sess = sess ∧
            r.out = [{ dest := sess.p_ssl_holder,
                       data := [ACCOUNT_TYPE, DEL_STYPE, ACKNOWLEDGE] }] ∧
            r.srv.user_mem = srv.user_mem ∧
            h_table_return_entry r.srv.users.p_users_table (req_p_username p_buffer) = none ∧
            ∀ k p2, h_table_return_entry srv.users.p_users_table k = some p2 → p2 ≠ p →
              h_table_return_entry r.srv.users.p_users_table k = some p2)))) := by
  intro r found rejected
  have hself : c_strncmp_eq (user_at srv q).p_username (req_p_username p_buffer) 30 = true ↔
      c_str ((user_at srv q).p_username.take 30) = c_str (req_p_username p_buffer) := by
    rw [c_strncmp_eq_iff]
    have : c_str ((req_p_username p_buffer).take 30) = c_str (req_p_username p_buffer) := by
      rw [c_str_take]; unfold req_p_username; rw [c_str_set_nul]; simp [List.take_take]
    rw [this]
  have hr : r = (cr_users_remove_user env srv sess.p_ssl_holder p_buffer q).with_sess sess := by
    show cr_sm_handle env srv sess p_buffer = _
    unfold cr_sm_handle cr_sm_logged_state cr_sm_ls_account
    have hl : ¬ sess.logged_in = 0 := hlog
    have hch : sess.chatting = 0 := hchat
    have hsub' : c_byte p_buffer 1 = 8 := hsub
    simp only [hl, hch, huser, htype, hop, hsub', if_false, if_true, ACCOUNT_TYPE, REQUEST,
      NOT_LOGGED_IN, NOT_CHATTING, ADMIN_STYPE, ADMIN_REMOVE_STYPE, DEL_STYPE, and_self]
    simp [res_t.with_sess, cr_users_remove_user, cr_users_remove_table, cr_msg_send_rej,
      cr_msg_send_ack, hok]
    intro h
    exfalso
    revert h
    split_ifs <;> try simp
  refine ⟨?_, ?_⟩
  · intro ha
    have ha' : (user_at srv q).admin_status = 0 := by
      rcases hadm with h | h
      · exact h
      · exact absurd h ha
    show r.rc = _ ∧ r.sess = _ ∧ r.out = _ ∧ r.srv.users = _ ∧ r.srv.user_mem = _
    rw [hr]
    simp [res_t.with_sess, cr_users_remove_user, ha', cr_msg_send_rej, hok]
  · intro ha
    have ha' : ¬ (user_at srv q).admin_status = 0 := by
      rw [ha]; decide
    refine ⟨?_, ?_⟩
    · intro hs
      show r.rc = _ ∧ r.sess = _ ∧ r.out = _ ∧ r.srv.users = _ ∧ r.srv.user_mem = _
      rw [hr]
      simp [res_t.with_sess, cr_users_remove_user, ha', hself.mpr hs, cr_msg_send_rej, hok]
    · intro hs
      have hs' : ¬ c_strncmp_eq (user_at srv q).p_username (req_p_username p_buffer) 30 = true :=
        fun h => hs (hself.mp h)
      refine ⟨?_, ?_⟩
      · intro hf
        have hf' : h_table_return_entry srv.users.p_users_table (req_p_username p_buffer) =
            none := hf
        show r.rc = _ ∧ r.sess = _ ∧ r.out = _ ∧ r.srv.users = _ ∧ r.srv.user_mem = _
        rw [hr]
        simp [res_t.with_sess, cr_users_remove_user, ha', hs', cr_users_remove_table, hf',
          cr_msg_send_rej, hok, cr_users_remove_file]
      · intro p hf
        have hf' : h_table_return_entry srv.users.p_users_table (req_p_username p_buffer) =
            some p := hf
        refine ⟨?_, ?_⟩
        · intro hin
          have hin' : (user_at srv p).login_status = 1 := hin
          show r.rc = _ ∧ r.sess = _ ∧ r.out = _ ∧ r.srv.users = _ ∧ r.srv.user_mem = _
          rw [hr]
          simp [res_t.with_sess, cr_users_remove_user, ha', hs', cr_users_remove_table, hf',
            hin', cr_msg_send_rej, hok, cr_users_remove_file]
        · intro hin
          have hin' : ¬ (user_at srv p).login_status = 1 := hin
          obtain ⟨hd1, hcap, hlen, hslot⟩ :=
            h_table_destroy_entry_found srv.users.p_users_table (req_p_username p_buffer) p hf'
          have hsrv : r.srv.users.p_users_table =
              (h_table_destroy_entry srv.users.p_users_table (req_p_username p_buffer)).2 := by
            rw [hr]
            simp [res_t.with_sess, cr_users_remove_user, ha', hs', cr_users_remove_table, hf',
              hin', hd1, cr_msg_send_ack, hok, cr_users_remove_file]
          have hidx : ∀ k, h_table_index (h_table_destroy_entry srv.users.p_users_table
              (req_p_username p_buffer)).2 k = h_table_index srv.users.p_users_table k := by
            intro k
            unfold h_table_index
            rw [hcap]
          refine ⟨?_, ?_, ?_, ?_, ?_, ?_⟩
          · rw [hr]
            simp [res_t.with_sess, cr_users_remove_user, ha', hs', cr_users_remove_table, hf',
              hin', hd1, cr_msg_send_ack, hok, cr_users_remove_file]
          · rw [hr]
            simp [res_t.with_sess]
          · rw [hr]
            simp [res_t.with_sess, cr_users_remove_user, ha', hs', cr_users_remove_table, hf',
              hin', hd1, cr_msg_send_ack, hok, cr_users_remove_file]
          · rw [hr]
            simp [res_t.with_sess, cr_users_remove_user, ha', hs', cr_users_remove_table, hf',
              hin', hd1, cr_msg_send_ack, hok, cr_users_remove_file]
          · rw [hsrv, h_table_return_entry_eq_find, hslot, hidx, if_pos rfl]
            exact h_table_find_remove_self _ _ (pairwise_slot _ _ hd)
          · intro k p2 hk hne
            rw [hsrv, h_table_return_entry_eq_find, hslot, hidx]
            rw [h_table_return_entry_eq_find] at hk hf'
            by_cases hi : h_table_index srv.users.p_users_table k =
                h_table_index srv.users.p_users_table (req_p_username p_buffer)
            · rw [if_pos hi]
              rw [hi] at hk ⊢
              exact h_table_find_remove_other _ _ _ p p2 hf' hk hne
            · rw [if_neg hi]
              exact hk
end Delete

section DirectoryInstances

/-- The rules of REGISTER at the registration of `alice` on the server that
holds `admin`:
`users.txt` grows by a newline and `alice:hunter22`. -/
theorem cr_sm_handle_register_rules_alice :
    (cr_sm_handle env_ok srv_0 (session_init 1) register_alice).srv.users_txt =
      srv_0.users_txt ++ [10] ++ (c_str (req_p_username register_alice) ++ [UTF_COLON] ++
        c_str (req_p_password register_alice)) :=
  (((cr_sm_handle_register_rules env_ok srv_0 (session_init 1) register_alice (by decide) (by decide)
    (by decide) (by decide) (by decide) (by decide) (by decide)).2 (by decide)).2
    (by decide)).2.2.2.2.2.2.2.2.2.1

/-- The registration of `alice` followed by her login on a second
transport. -/
theorem cr_sm_handle_register_then_login_alice :
    (cr_sm_handle env_ok (cr_sm_handle env_ok srv_0 (session_init 1) register_alice).srv
      (session_init 2) login_alice).rc = SUCCESS :=
  (cr_sm_handle_register_then_login env_ok env_ok srv_0 (session_init 1) (session_init 2) register_alice
    login_alice (by decide) (by decide) (by decide) (by decide) (by decide) (by decide)
    (by decide) (by decide) (by decide) (by decide) (by decide) (by decide) (by decide)
    (by decide) (by decide) (by decide)).1

/-- C8 at the request of `admin`, logged in, to make `alice`, logged out, an
administrator. -/
theorem C8_witness :
    (user_at (cr_sm_handle env_ok step_admin_in.srv step_admin_in.sess admin_alice).srv
      1).admin_status = ADMIN :=
  (congrArg (fun r => (user_at r.srv 1).admin_status)
    (((((C8_admin_first_rule env_ok step_admin_in.srv step_admin_in.sess admin_alice 0
      (by decide) (by decide) (by decide) (by decide) (Or.inl (by decide)) (by decide)
      (by decide) (Or.inr (by decide))).2 (by decide)).2 (by decide)).2 1 (by decide)).2
      (by decide))).trans (by decide)

/-- C9 at the request of `admin`, logged in, to delete `alice`, logged out:
`alice` is no longer found. -/
theorem C9_witness :
    h_table_return_entry
      (cr_sm_handle env_ok step_admin_in.srv step_admin_in.sess delete_alice).srv.users.p_users_table
      (req_p_username delete_alice) = none :=
  (((((C9_delete_first_rule env_ok step_admin_in.srv step_admin_in.sess delete_alice 0
    (by decide) (by decide) (by decide) (by decide) (by decide) (by decide) (by decide)
    (Or.inr (by decide)) (by decide)).2 (by decide)).2 (by decide)).2 1 (by decide)).2
    (by decide)).2.2.2.2.1

end DirectoryInstances
section Defects

/-- C6 fails at a REGISTER whose user name field holds `alice`, the
terminator and one more letter, received on the server reached from startup
by registering `alice`, with every write succeeding: the lookup hashes the
bytes after the terminator and finds nobody, the validation accepts `alice`,
the insertion finds the duplicate, and the handler returns `FAILURE`; the
session manager then sets the shutdown flag of the process and ends the
session without any reply. The rejected registration has also appended a
second line `alice:hunter22` to `users.txt`. -/
theorem C6_register_padded_name_failure :
    (cr_sm_handle env_ok srv_alice (session_init 2) (recv_buffer register_alice_padded)).rc =
      FAILURE ∧
    srv_alice.server_interrupt = CONTINUE ∧
    (cr_sm_session_manager_iter env_ok srv_alice (session_init 2)
      (read_t.data register_alice_padded)).srv.server_interrupt = STOP ∧
    (cr_sm_session_manager_iter env_ok srv_alice (session_init 2)
      (read_t.data register_alice_padded)).running = false ∧
    (cr_sm_session_manager_iter env_ok srv_alice (session_init 2)
      (read_t.data register_alice_padded)).out = [] ∧
    (cr_sm_session_manager_iter env_ok srv_alice (session_init 2)
      (read_t.data register_alice_padded)).srv.users_txt =
      srv_alice.users_txt ++ [10] ++ name_alice ++ [UTF_COLON] ++ pass_hunter22 := by
  decide

/-- C10 fails: with `admin` and `alice` both logged in, the request of
`admin` to delete `alice` is rejected with USER_LOGGED_IN, yet the line of
`alice` is gone from `users.txt` afterwards; and the request of `admin` to
delete the empty name is rejected with USER_DOES_NOT_EXIST, yet `users.txt`
is empty afterwards. -/
theorem C10_rejected_delete_rewrites_users_txt :
    step_alice_in.srv.users_txt =
      users_txt_0 ++ [10] ++ name_alice ++ [UTF_COLON] ++ pass_hunter22 ∧
    (cr_sm_handle env_ok step_alice_in.srv step_admin_in.sess delete_alice).out =
      [{ dest := 1, data := [ACCOUNT_TYPE, DEL_STYPE, REJECT, USER_LOGGED_IN] }] ∧
    (cr_sm_handle env_ok step_alice_in.srv step_admin_in.sess delete_alice).srv.users_txt =
      users_txt_0 ++ [10] ∧
    (cr_sm_handle env_ok step_alice_in.srv step_admin_in.sess delete_empty).out =
      [{ dest := 1, data := [ACCOUNT_TYPE, DEL_STYPE, REJECT, USER_DOES_NOT_EXIST] }] ∧
    (cr_sm_handle env_ok step_alice_in.srv step_admin_in.sess delete_empty).srv.users_txt = [] := by
  decide

end Defects

section SessionExit

theorem cr_chats_find_user_spec (l : List Nat) (q : Nat) (h : q ∈ l) :
    ∃ pos, cr_chats_find_user l q = some pos ∧ pos < l.length ∧ l.eraseIdx pos = l.erase q := by
  induction l with
  | nil => simp at h
  | cons a rest ih =>
    unfold cr_chats_find_user
    by_cases hq : q = a
    · subst hq
      exact ⟨0, by simp, by simp, by simp⟩
    · have hr : q ∈ rest := by
        rcases List.mem_cons.mp h with h1 | h1
        · exact absurd h1 hq
        · exact h1
      obtain ⟨pos, h1, h2, h3⟩ := ih hr
      refine ⟨pos + 1, by simp [hq, h1], by simp [h2], ?_⟩
      have hq' : ¬ a = q := fun e => hq e.symm
      simp [List.eraseIdx_cons_succ, h3, List.erase_cons_tail, hq']

/-- The frames `cr_chats_chat_send` writes when every write to a member
other than the sender succeeds. -/
theorem cr_chats_chat_send_loop_ok (env : env_t) (srv : server_t) (q : Nat) (msg : List Nat)
    (l : List Nat)
    (hok : ∀ m ∈ l, m ≠ q → env.ssl_ok (user_at srv m).p_ssl_holder = true) :
    cr_chats_chat_send_loop env srv q msg l =
      (SUCCESS, (l.filter (fun m => decide (m ≠ q))).map (fun m =>
        { dest := (user_at srv m).p_ssl_holder,
          data := cr_msg_create_update (user_at srv q).p_username msg })) := by
  induction l with
  | nil => simp [cr_chats_chat_send_loop]
  | cons a rest ih =>
    have ih' := ih (fun m hm => hok m (List.mem_cons_of_mem _ hm))
    unfold cr_chats_chat_send_loop
    by_cases hq : q = a
    · subst hq
      simp [ih']
    · have hq' : ¬ a = q := fun e => hq e.symm
      have h1 := hok a (List.mem_cons_self _ _) hq'
      simp [hq, hq', cr_msg_send_update, h1, ih']

/-- Whatever the writes do, `cr_chats_chat_send` writes update frames only
and returns `SUCCESS` or `CONNECTION_FAILURE`. -/
theorem cr_chats_chat_send_loop_out (env : env_t) (srv : server_t) (q : Nat) (msg : List Nat)
    (l : List Nat) :
    ((cr_chats_chat_send_loop env srv q msg l).1 = SUCCESS ∨
      (cr_chats_chat_send_loop env srv q msg l).1 = CONNECTION_FAILURE) ∧
    ∀ w ∈ (cr_chats_chat_send_loop env srv q msg l).2,
      w.data = cr_msg_create_update (user_at srv q).p_username msg := by
  induction l with
  | nil => simp [cr_chats_chat_send_loop]
  | cons a rest ih =>
    unfold cr_chats_chat_send_loop
    by_cases hq : q = a
    · subst hq
      simpa using ih
    · by_cases h1 : env.ssl_ok (user_at srv a).p_ssl_holder = true
      · simp only [hq, ne_eq, not_false_eq_true, if_true, cr_msg_send_update, h1]
        simp only [SUCCESS, FAILURE, CONNECTION_FAILURE] at ih ⊢
        simp
        exact ih
      · simp [hq, cr_msg_send_update, h1]

theorem update_ne_ack (u msg : List Nat) (a b : Nat) (h : ¬ (a = CHAT_TYPE ∧ b = CHAT_STYPE)) :
    cr_msg_create_update u msg ≠ [a, b, ACKNOWLEDGE] := by
  unfold cr_msg_create_update
  intro he
  simp at he
  exact h ⟨he.1.symm, he.2.1.symm⟩



theorem cr_msg_send_rej_cases (env : env_t) (p a b c : Nat) :
    cr_msg_send_rej env p a b c = (SUCCESS, [{ dest := p, data := [a, b, REJECT, c] }]) ∨
    cr_msg_send_rej env p a b c = (CONNECTION_FAILURE, []) := by
  unfold cr_msg_send_rej
  by_cases h : env.ssl_ok p = true <;> simp [h]

theorem cr_msg_send_ack_cases (env : env_t) (p a b : Nat) :
    cr_msg_send_ack env p a b = (SUCCESS, [{ dest := p, data := [a, b, ACKNOWLEDGE] }]) ∨
    cr_msg_send_ack env p a b = (CONNECTION_FAILURE, []) := by
  unfold cr_msg_send_ack
  by_cases h : env.ssl_ok p = true <;> simp [h]

/-- What a registration that does not return `SUCCESS` leaves behind. -/
theorem cr_users_register_end (env : env_t) (srv : server_t) (p : Nat) (p_buffer : List Nat)
    (hrc : (cr_users_register env srv p p_buffer).rc ≠ SUCCESS) :
    (cr_users_register env srv p p_buffer).out = [] ∧
    (cr_users_register env srv p p_buffer).srv.users.client_count = srv.users.client_count := by
  revert hrc
  unfold cr_users_register
  simp only []
  split_ifs with h1 h2 h3
  · rcases cr_msg_send_rej_cases env p ACCOUNT_TYPE REGISTER_STYPE USER_EXISTS with h | h <;>
      simp [h]
  · simp
  · rcases cr_msg_send_rej_cases env p ACCOUNT_TYPE REGISTER_STYPE
      (cr_users_chk_usr_and_pass (req_p_username p_buffer) (req_p_password p_buffer)
        srv.users.user_count) with h | h <;> simp [h]
  · unfold cr_users_reg_helper cr_users_add_user_table cr_users_add_user_file
    simp only []
    rcases cr_msg_send_ack_cases env p ACCOUNT_TYPE REGISTER_STYPE with h | h
    · rw [h]
      split_ifs <;> simp
    · rw [h]
      split_ifs <;> simp

theorem cr_users_login_helper_end (env : env_t) (srv : server_t) (sess : session_t)
    (u pw : List Nat)
    (hrc : (cr_users_login_helper env srv sess u pw).rc ≠ SUCCESS) :
    (cr_users_login_helper env srv sess u pw).out = [] ∧
    (cr_users_login_helper env srv sess u pw).srv = srv ∧
    (cr_users_login_helper env srv sess u pw).sess = sess := by
  revert hrc
  unfold cr_users_login_helper
  by_cases hok : env.ssl_ok sess.p_ssl_holder = true
  · simp only [cr_msg_send_rej, cr_msg_send_ack, hok, if_true]
    by_cases h1 : srv.users.client_count ≥ srv.users.max_client
    · simp [h1]
    · simp only [h1, if_false]
      cases h_table_return_entry srv.users.p_users_table u with
      | none => simp
      | some p =>
        simp only []
        by_cases h2 : (user_at srv p).login_status = LOGGED_IN
        · simp [h2]
        · simp only [h2, if_false]
          split_ifs <;> simp
  · simp only [cr_msg_send_rej, cr_msg_send_ack, hok]
    by_cases h1 : srv.users.client_count ≥ srv.users.max_client
    · simp [h1]
    · simp only [h1, if_false]
      cases h_table_return_entry srv.users.p_users_table u with
      | none => simp
      | some p =>
        simp only []
        by_cases h2 : (user_at srv p).login_status = LOGGED_IN
        · simp [h2]
        · simp only [h2, if_false]
          split_ifs <;> simp

/-- What a login that does not return `SUCCESS` leaves behind. -/
theorem cr_users_login_end (env : env_t) (srv : server_t) (sess : session_t)
    (p_buffer : List Nat)
    (hrc : (cr_users_login env srv sess p_buffer).rc ≠ SUCCESS) :
    (cr_users_login env srv sess p_buffer).out = [] ∧
    (cr_users_login env srv sess p_buffer).srv = srv ∧
    (cr_users_login env srv sess p_buffer).sess = sess := by
  revert hrc
  unfold cr_users_login
  simp only []
  split_ifs with h1
  · intro hrc
    exact cr_users_login_helper_end env srv sess _ _ hrc
  · intro hrc
    exact absurd rfl hrc

/-- What an iteration that ends in the CONNECTED state leaves behind. -/
theorem cr_sm_connected_state_end (env : env_t) (srv : server_t) (sess : session_t)
    (p_buffer : List Nat)
    (hrc : (cr_sm_connected_state env srv sess p_buffer).rc ≠ SUCCESS) :
    (cr_sm_connected_state env srv sess p_buffer).sess = sess ∧
    (cr_sm_connected_state env srv sess p_buffer).srv.users.client_count =
      srv.users.client_count ∧
    ∀ w ∈ (cr_sm_connected_state env srv sess p_buffer).out,
      w.data = [SESSION_TYPE, QUIT_STYPE, ACKNOWLEDGE] := by
  revert hrc
  unfold cr_sm_connected_state cr_sm_invalid_packet
  simp only []
  split_ifs with h1 h2 h3 h4 h5 h6
  · intro hrc
    obtain ⟨ho, hs, hss⟩ := cr_users_login_end env srv sess p_buffer hrc
    rw [ho, hs, hss]
    simp
  · intro hrc
    obtain ⟨ho, hc⟩ := cr_users_register_end env srv sess.p_ssl_holder p_buffer hrc
    simp [res_t.with_sess, ho, hc]
  · rcases cr_msg_send_rej_cases env sess.p_ssl_holder FAIL_TYPE FAIL_STYPE
      INVALID_PACKET_RCODE with h | h <;> simp [h]
  · rcases cr_msg_send_ack_cases env sess.p_ssl_holder SESSION_TYPE QUIT_STYPE
      with h | h <;> simp [h]
  · rcases cr_msg_send_ack_cases env sess.p_ssl_holder SESSION_TYPE QUIT_STYPE
      with h | h <;> simp [h] at h5 ⊢
  · rcases cr_msg_send_rej_cases env sess.p_ssl_holder FAIL_TYPE FAIL_STYPE
      INVALID_PACKET_RCODE with h | h <;> simp [h]
  · rcases cr_msg_send_rej_cases env sess.p_ssl_holder FAIL_TYPE FAIL_STYPE
      INVALID_PACKET_RCODE with h | h <;> simp [h]


theorem srv_kept_refl (srv : server_t) : srv_kept srv srv := ⟨rfl, rfl, fun _ => rfl⟩

theorem cr_users_admin_end (env : env_t) (srv : server_t) (p : Nat) (p_buffer : List Nat)
    (q a : Nat) (hrc : (cr_users_admin env srv p p_buffer q a).rc ≠ SUCCESS) :
    (cr_users_admin env srv p p_buffer q a).out = [] ∧
    srv_kept srv (cr_users_admin env srv p p_buffer q a).srv := by
  revert hrc
  unfold cr_users_admin cr_users_admin_helper_1 cr_users_admin_helper_2 srv_kept
  by_cases hok : env.ssl_ok p = true
  · simp only [cr_msg_send_rej, cr_msg_send_ack, hok, if_true]
    split_ifs <;> simp
    all_goals (split <;> simp [user_put, room_at])
    all_goals (split_ifs <;> simp [user_put, room_at])
  · simp only [cr_msg_send_rej, cr_msg_send_ack, hok]
    split_ifs <;> simp
    all_goals (split <;> simp [user_put, room_at])
    all_goals (split_ifs <;> simp [user_put, room_at])

theorem cr_msg_send_rej_quiet (env : env_t) (p a b c : Nat)
    (h : (cr_msg_send_rej env p a b c).1 ≠ SUCCESS) : (cr_msg_send_rej env p a b c).2 = [] := by
  rcases cr_msg_send_rej_cases env p a b c with h1 | h1
  · rw [h1] at h; exact absurd rfl h
  · rw [h1]

theorem cr_msg_send_ack_quiet (env : env_t) (p a b : Nat)
    (h : (cr_msg_send_ack env p a b).1 ≠ SUCCESS) : (cr_msg_send_ack env p a b).2 = [] := by
  rcases cr_msg_send_ack_cases env p a b with h1 | h1
  · rw [h1] at h; exact absurd rfl h
  · rw [h1]

theorem cr_users_remove_table_end (env : env_t) (srv : server_t) (p : Nat) (n : List Nat) :
    ((cr_users_remove_table env srv p n).rc ≠ SUCCESS →
      (cr_users_remove_table env srv p n).out = []) ∧
    srv_kept srv (cr_users_remove_table env srv p n).srv := by
  unfold cr_users_remove_table
  cases h_table_return_entry srv.users.p_users_table n with
  | none => exact ⟨cr_msg_send_rej_quiet env p _ _ _, srv_kept_refl srv⟩
  | some t =>
    simp only []
    by_cases h1 : (user_at srv t).login_status = LOGGED_IN
    · simp only [h1, if_true]
      exact ⟨cr_msg_send_rej_quiet env p _ _ _, srv_kept_refl srv⟩
    · simp only [h1, if_false]
      by_cases h2 : (h_table_destroy_entry srv.users.p_users_table n).1 = none
      · simp only [h2, if_true]
        exact ⟨fun _ => trivial, rfl, rfl, fun _ => rfl⟩
      · simp only [h2, if_false]
        exact ⟨cr_msg_send_ack_quiet env p _ _, rfl, rfl, fun _ => rfl⟩

theorem cr_users_remove_user_end (env : env_t) (srv : server_t) (p : Nat) (p_buffer : List Nat)
    (q : Nat) (hrc : (cr_users_remove_user env srv p p_buffer q).rc ≠ SUCCESS) :
    (cr_users_remove_user env srv p p_buffer q).out = [] ∧
    srv_kept srv (cr_users_remove_user env srv p p_buffer q).srv := by
  revert hrc
  unfold cr_users_remove_user
  by_cases h1 : (user_at srv q).admin_status = NOT_ADMIN
  · simp only [h1, if_true]
    exact fun h => ⟨cr_msg_send_rej_quiet env p _ _ _ h, srv_kept_refl srv⟩
  · simp only [h1, if_false]
    by_cases h2 : c_strncmp_eq (user_at srv q).p_username (req_p_username p_buffer)
        MAX_USERNAME_LENGTH = true
    · simp only [h2, if_true]
      exact fun h => ⟨cr_msg_send_rej_quiet env p _ _ _ h, srv_kept_refl srv⟩
    · simp only [h2]
      obtain ⟨hq, hk⟩ := cr_users_remove_table_end env srv p (req_p_username p_buffer)
      have hk' : srv_kept srv (cr_users_remove_file
          (cr_users_remove_table env srv p (req_p_username p_buffer)).srv
          (req_p_username p_buffer)) := hk
      by_cases h3 : (cr_users_remove_table env srv p (req_p_username p_buffer)).rc = FAILURE
      · simp only [h3, if_true]
        exact fun _ => ⟨hq (by rw [h3]; decide), hk'⟩
      · by_cases h4 : (cr_users_remove_table env srv p (req_p_username p_buffer)).rc =
            CONNECTION_FAILURE
        · simp only [h3, h4, if_true, if_false]
          exact fun _ => ⟨hq (by rw [h4]; decide), hk'⟩
        · simp only [h3, h4, if_false]
          exact fun h => absurd rfl h

theorem cr_msg_send_file_ack_quiet (env : env_t) (p a b : Nat) (f : List Nat)
    (h : (cr_msg_send_file_ack env p a b (some f)).1 ≠ SUCCESS) :
    (cr_msg_send_file_ack env p a b (some f)).2 = [] := by
  revert h
  unfold cr_msg_send_file_ack
  rcases cr_msg_send_ack_cases env p a b with h1 | h1 <;> simp [h1]

theorem cr_rooms_list_end (env : env_t) (srv : server_t) (p : Nat)
    (hrc : (cr_rooms_list env srv p).rc ≠ SUCCESS) :
    (cr_rooms_list env srv p).out = [] ∧ srv_kept srv (cr_rooms_list env srv p).srv := by
  revert hrc
  unfold cr_rooms_list
  by_cases h1 : srv.rooms.room_count = 0
  · simp only [h1, if_true]
    exact fun h => ⟨cr_msg_send_rej_quiet env p _ _ _ h, srv_kept_refl srv⟩
  · simp only [h1, if_false]
    exact fun h => ⟨cr_msg_send_file_ack_quiet env p _ _ _ h, srv_kept_refl srv⟩

theorem cr_rooms_join_end (env : env_t) (srv : server_t) (sess : session_t) (q : Nat)
    (p_buffer : List Nat) (hrc : (cr_rooms_join env srv sess q p_buffer).rc ≠ SUCCESS) :
    (cr_rooms_join env srv sess q p_buffer).out = [] ∧
    (cr_rooms_join env srv sess q p_buffer).srv = srv ∧
    (cr_rooms_join env srv sess q p_buffer).sess = sess := by
  revert hrc
  unfold cr_rooms_join cr_rooms_join_helper
  cases h_table_return_entry srv.rooms.p_rooms_table (req_p_room_name p_buffer) with
  | none => exact fun h => ⟨cr_msg_send_rej_quiet env _ _ _ _ h, rfl, rfl⟩
  | some t => exact fun h => absurd rfl h

theorem room_at_append_new (srv : server_t) (room : room_t) (hr : room.p_users = []) (i : Nat) :
    ((srv.room_mem ++ [room]).getD i room_calloc).p_users = (room_at srv i).p_users := by
  unfold room_at
  rw [List.getD_eq_getElem?_getD, List.getD_eq_getElem?_getD]
  by_cases h1 : i < srv.room_mem.length
  · rw [List.getElem?_append_left h1]
  · rw [List.getElem?_eq_none (by omega : srv.room_mem.length ≤ i)]
    by_cases h2 : i = srv.room_mem.length
    · subst h2
      simp [hr, room_calloc]
    · rw [List.getElem?_eq_none (by simp; omega)]

theorem cr_rooms_create_helper_2_end (env : env_t) (srv : server_t) (p : Nat) (n : List Nat) :
    ((cr_rooms_create_helper_2 env srv p n).rc ≠ SUCCESS →
      (cr_rooms_create_helper_2 env srv p n).out = []) ∧
    srv_kept srv (cr_rooms_create_helper_2 env srv p n).srv := by
  unfold cr_rooms_create_helper_2
  simp only []
  split_ifs with h1
  · exact ⟨fun _ => rfl, rfl, rfl, fun i => room_at_append_new srv _ rfl i⟩
  · exact ⟨cr_msg_send_ack_quiet env p _ _, rfl, rfl, fun i => room_at_append_new srv _ rfl i⟩

theorem cr_rooms_create_end (env : env_t) (srv : server_t) (p q : Nat) (p_buffer : List Nat)
    (hrc : (cr_rooms_create env srv p q p_buffer).rc ≠ SUCCESS) :
    (cr_rooms_create env srv p q p_buffer).out = [] ∧
    srv_kept srv (cr_rooms_create env srv p q p_buffer).srv := by
  revert hrc
  unfold cr_rooms_create cr_rooms_create_helper
  simp only []
  split_ifs with h1 h2 h3 h4 h5
  · exact fun h => ⟨cr_msg_send_rej_quiet env p _ _ _ h, srv_kept_refl srv⟩
  · exact fun h => ⟨cr_msg_send_rej_quiet env p _ _ _ h, srv_kept_refl srv⟩
  · exact fun h => ⟨cr_msg_send_rej_quiet env p _ _ _ h, srv_kept_refl srv⟩
  · exact fun h => ⟨cr_msg_send_rej_quiet env p _ _ _ h, srv_kept_refl srv⟩
  · exact fun h => ⟨cr_msg_send_rej_quiet env p _ _ _ h, srv_kept_refl srv⟩
  · exact fun h => ⟨(cr_rooms_create_helper_2_end env srv p _).1 h,
      (cr_rooms_create_helper_2_end env srv p _).2⟩

theorem cr_rooms_delete_end (env : env_t) (srv : server_t) (p q : Nat) (p_buffer : List Nat)
    (hrc : (cr_rooms_delete env srv p q p_buffer).rc ≠ SUCCESS) :
    (cr_rooms_delete env srv p q p_buffer).out = [] ∧
    srv_kept srv (cr_rooms_delete env srv p q p_buffer).srv := by
  revert hrc
  unfold cr_rooms_delete cr_rooms_delete_helper cr_rooms_delete_h_file
  by_cases h1 : (user_at srv q).admin_status ≠ ADMIN
  · rw [if_pos h1]
    exact fun h => ⟨cr_msg_send_rej_quiet env p _ _ _ h, srv_kept_refl srv⟩
  · rw [if_neg h1]
    cases h_table_return_entry srv.rooms.p_rooms_table (req_p_room_name p_buffer) with
    | none => exact fun h => ⟨cr_msg_send_rej_quiet env p _ _ _ h, srv_kept_refl srv⟩
    | some t =>
      simp only []
      split_ifs with h2 h3 h4
      · exact fun h => ⟨cr_msg_send_rej_quiet env p _ _ _ h, srv_kept_refl srv⟩
      · exact fun _ => ⟨rfl, rfl, rfl, fun _ => rfl⟩
      · exact fun _ => ⟨rfl, rfl, rfl, fun _ => rfl⟩
      · exact fun h => ⟨cr_msg_send_ack_quiet env p _ _ h, rfl, rfl, fun _ => rfl⟩

theorem cr_users_logout_send_end (env : env_t) (srv : server_t) (sess : session_t) (q : Nat)
    (hrc : (cr_users_logout env srv sess q SEND_IT).rc ≠ SUCCESS) :
    (cr_users_logout env srv sess q SEND_IT).out = [] ∧
    (cr_users_logout env srv sess q SEND_IT).srv = srv ∧
    (cr_users_logout env srv sess q SEND_IT).sess = sess := by
  revert hrc
  unfold cr_users_logout
  rcases cr_msg_send_ack_cases env sess.p_ssl_holder ACCOUNT_TYPE LOGOUT_STYPE with h | h <;>
    simp [h]

theorem cr_users_logout_silent (env : env_t) (srv : server_t) (sess : session_t) (q : Nat) :
    cr_users_logout env srv sess q DONT_SEND =
      { rc := SUCCESS,
        srv := { srv with
          user_mem := srv.user_mem.set q { user_at srv q with login_status := NOT_LOGGED_IN },
          users := { srv.users with client_count := (srv.users.client_count + 255) % 256 } },
        sess := { sess with logged_in := NOT_LOGGED_IN }, out := [] } := by
  unfold cr_users_logout
  simp [user_put]

theorem cr_sm_ls_account_end (env : env_t) (srv : server_t) (sess : session_t) (q : Nat)
    (p_buffer : List Nat) (st : Nat)
    (hrc : (cr_sm_ls_account env srv sess q p_buffer st).rc ≠ SUCCESS) :
    (cr_sm_ls_account env srv sess q p_buffer st).out = [] ∧
    (cr_sm_ls_account env srv sess q p_buffer st).sess = sess ∧
    srv_kept srv (cr_sm_ls_account env srv sess q p_buffer st).srv := by
  revert hrc
  unfold cr_sm_ls_account
  split_ifs with h1 h2 h3 h4
  · intro h
    obtain ⟨a, b⟩ := cr_users_admin_end env srv sess.p_ssl_holder p_buffer q ADMIN h
    exact ⟨a, rfl, b⟩
  · intro h
    obtain ⟨a, b⟩ := cr_users_admin_end env srv sess.p_ssl_holder p_buffer q NOT_ADMIN h
    exact ⟨a, rfl, b⟩
  · intro h
    obtain ⟨a, b⟩ := cr_users_remove_user_end env srv sess.p_ssl_holder p_buffer q h
    exact ⟨a, rfl, b⟩
  · intro h
    obtain ⟨a, b, c⟩ := cr_users_logout_send_end env srv sess q h
    rw [b]
    exact ⟨a, c, srv_kept_refl srv⟩
  · intro _
    exact ⟨rfl, rfl, srv_kept_refl srv⟩

theorem cr_sm_ls_rooms_end (env : env_t) (srv : server_t) (sess : session_t) (q : Nat)
    (p_buffer : List Nat) (st : Nat)
    (hrc : (cr_sm_ls_rooms env srv sess q p_buffer st).rc ≠ SUCCESS) :
    (cr_sm_ls_rooms env srv sess q p_buffer st).out = [] ∧
    (cr_sm_ls_rooms env srv sess q p_buffer st).sess = sess ∧
    srv_kept srv (cr_sm_ls_rooms env srv sess q p_buffer st).srv := by
  revert hrc
  unfold cr_sm_ls_rooms
  split_ifs with h1 h2 h3 h4
  · intro h
    obtain ⟨a, b⟩ := cr_rooms_list_end env srv sess.p_ssl_holder h
    exact ⟨a, rfl, b⟩
  · intro h
    obtain ⟨a, b, c⟩ := cr_rooms_join_end env srv sess q p_buffer h
    rw [b]
    exact ⟨a, c, srv_kept_refl srv⟩
  · intro h
    obtain ⟨a, b⟩ := cr_rooms_create_end env srv sess.p_ssl_holder q p_buffer h
    exact ⟨a, rfl, b⟩
  · intro h
    obtain ⟨a, b⟩ := cr_rooms_delete_end env srv sess.p_ssl_holder q p_buffer h
    exact ⟨a, rfl, b⟩
  · intro _
    exact ⟨rfl, rfl, srv_kept_refl srv⟩

theorem cr_sm_invalid_packet_end (env : env_t) (srv : server_t) (sess : session_t)
    (hrc : (cr_sm_invalid_packet env srv sess).rc ≠ SUCCESS) :
    (cr_sm_invalid_packet env srv sess).out = [] ∧
    (cr_sm_invalid_packet env srv sess).sess = sess ∧
    (cr_sm_invalid_packet env srv sess).srv = srv :=
  ⟨cr_msg_send_rej_quiet env _ _ _ _ hrc, rfl, rfl⟩

/-- What an iteration that ends in the LOGGED_IN state leaves behind: either
the session variables are as before and the handler kept what the cleanup
reads, or the handler was that of QUIT and has logged the user out. -/
theorem cr_sm_logged_state_end (env : env_t) (srv : server_t) (sess : session_t)
    (p_buffer : List Nat) (q : Nat) (hu : sess.pp_user = some q)
    (hrc : (cr_sm_logged_state env srv sess p_buffer).rc ≠ SUCCESS) :
    (∀ w ∈ (cr_sm_logged_state env srv sess p_buffer).out,
      w.data = [SESSION_TYPE, QUIT_STYPE, ACKNOWLEDGE]) ∧
    (((cr_sm_logged_state env srv sess p_buffer).sess = sess ∧
        srv_kept srv (cr_sm_logged_state env srv sess p_buffer).srv) ∨
      ((cr_sm_logged_state env srv sess p_buffer).sess.logged_in = NOT_LOGGED_IN ∧
        (cr_sm_logged_state env srv sess p_buffer).sess.chatting = sess.chatting ∧
        (cr_sm_logged_state env srv sess p_buffer).srv =
          (cr_users_logout env srv sess q DONT_SEND).srv)) := by
  revert hrc
  unfold cr_sm_logged_state
  rw [hu]
  simp only []
  have hinv : (cr_sm_invalid_packet env srv sess).rc ≠ SUCCESS →
      (∀ w ∈ (cr_sm_invalid_packet env srv sess).out,
        w.data = [SESSION_TYPE, QUIT_STYPE, ACKNOWLEDGE]) ∧
      (((cr_sm_invalid_packet env srv sess).sess = sess ∧
          srv_kept srv (cr_sm_invalid_packet env srv sess).srv) ∨
        ((cr_sm_invalid_packet env srv sess).sess.logged_in = NOT_LOGGED_IN ∧
          (cr_sm_invalid_packet env srv sess).sess.chatting = sess.chatting ∧
          (cr_sm_invalid_packet env srv sess).srv =
            (cr_users_logout env srv sess q DONT_SEND).srv)) := by
    intro h
    obtain ⟨a, b, c⟩ := cr_sm_invalid_packet_end env srv sess h
    rw [a]
    exact ⟨by simp, Or.inl ⟨b, by rw [c]; exact srv_kept_refl srv⟩⟩
  split_ifs with h1 h2 h3 h4 h5 h6 h7 h8
  · intro h
    obtain ⟨a, b, c⟩ := cr_sm_ls_account_end env srv sess q p_buffer _ h
    rw [a]
    exact ⟨by simp, Or.inl ⟨b, c⟩⟩
  · exact hinv
  · intro h
    obtain ⟨a, b, c⟩ := cr_sm_ls_rooms_end env srv sess q p_buffer _ h
    rw [a]
    exact ⟨by simp, Or.inl ⟨b, c⟩⟩
  · exact hinv
  · rw [cr_users_logout_silent] at h7
    exact absurd h7 (by simp)
  · intro _
    rw [cr_users_logout_silent]
    rcases cr_msg_send_ack_cases env sess.p_ssl_holder SESSION_TYPE QUIT_STYPE with h | h <;>
      simp [h]
  · intro _
    rw [cr_users_logout_silent]
    rcases cr_msg_send_ack_cases env sess.p_ssl_holder SESSION_TYPE QUIT_STYPE with h | h <;>
      simp [h]
  · exact hinv
  · exact hinv

theorem cr_chats_chat_send_loop_congr (env : env_t) (srv srv1 : server_t) (q : Nat)
    (msg l : List Nat) (h : srv1.user_mem = srv.user_mem) :
    cr_chats_chat_send_loop env srv1 q msg l = cr_chats_chat_send_loop env srv q msg l := by
  induction l with
  | nil => simp [cr_chats_chat_send_loop]
  | cons a rest ih =>
    unfold cr_chats_chat_send_loop
    simp only [user_at, h, ih]

/-- What `cr_chats_leave` does for a user who is a member of the room that
the directory returns for the user's `p_chat_room`. -/
theorem cr_chats_leave_eq (env : env_t) (srv : server_t) (sess : session_t)
    (q sm p_room : Nat)
    (hroom : h_table_return_entry srv.rooms.p_rooms_table (user_at srv q).p_chat_room =
      some p_room)
    (hlt : p_room < srv.room_mem.length)
    (hmem : q ∈ (room_at srv p_room).p_users) :
    cr_chats_leave env srv sess q sm =
      { rc := (if sm = SEND_IT then cr_msg_send_ack env sess.p_ssl_holder CHAT_TYPE LEAVE_STYPE
          else (SUCCESS, [])).1,
        srv := { srv with
          room_mem := srv.room_mem.set p_room
            { room_at srv p_room with p_users := (room_at srv p_room).p_users.erase q },
          user_mem := srv.user_mem.set q
            { user_at srv q with p_chat_room := c_zeros (MAX_ROOM_NAME_LENGTH + 1) } },
        sess := { sess with chatting := NOT_CHATTING },
        out := (cr_chats_chat_send_loop env srv q left_message
            ((room_at srv p_room).p_users.erase q)).2 ++
          (if sm = SEND_IT then cr_msg_send_ack env sess.p_ssl_holder CHAT_TYPE LEAVE_STYPE
            else (SUCCESS, [])).2 } := by
  obtain ⟨pos, h1, h2, h3⟩ := cr_chats_find_user_spec _ q hmem
  unfold cr_chats_leave
  rw [hroom]
  simp only []
  have hh : cr_chats_leave_helper srv p_room q =
      (SUCCESS, room_put srv p_room
        { room_at srv p_room with p_users := (room_at srv p_room).p_users.erase q }) := by
    unfold cr_chats_leave_helper
    rw [h1]
    simp only [cll_remove_element, h2, if_true, h3]
    simp
  rw [hh]
  have hw : cr_chats_chat_send env (room_put srv p_room
      { room_at srv p_room with p_users := (room_at srv p_room).p_users.erase q }) p_room q
      left_message = cr_chats_chat_send_loop env srv q left_message
        ((room_at srv p_room).p_users.erase q) := by
    unfold cr_chats_chat_send
    have hu : (room_at (room_put srv p_room
        { room_at srv p_room with p_users := (room_at srv p_room).p_users.erase q })
        p_room).p_users = (room_at srv p_room).p_users.erase q := by
      simp [room_at, room_put, List.getD_eq_getElem?_getD, hlt]
    rw [hu]
    exact cr_chats_chat_send_loop_congr env srv _ q _ _ rfl
  rw [hw]
  simp [user_put, room_put, user_at]

theorem cr_sm_session_clean_idle (env : env_t) (X : server_t) (s : session_t)
    (h1 : s.logged_in = NOT_LOGGED_IN) (h2 : s.chatting = NOT_CHATTING) :
    cr_sm_session_clean env X s = { rc := SUCCESS, srv := X, sess := s, out := [] } := by
  unfold cr_sm_session_clean
  simp [h1, h2]

theorem cr_sm_session_clean_logged (env : env_t) (X : server_t) (s : session_t) (q : Nat)
    (h1 : s.logged_in = LOGGED_IN) (h2 : s.chatting = NOT_CHATTING) (h3 : s.pp_user = some q) :
    cr_sm_session_clean env X s = cr_users_logout env X s q DONT_SEND := by
  unfold cr_sm_session_clean
  simp [h1, h2, h3]

theorem cr_sm_session_clean_chat (env : env_t) (X : server_t) (s : session_t) (q p_room : Nat)
    (h1 : s.logged_in = LOGGED_IN) (h2 : s.chatting = CHATTING) (h3 : s.pp_user = some q)
    (hroom : h_table_return_entry X.rooms.p_rooms_table (user_at X q).p_chat_room = some p_room)
    (hlt : p_room < X.room_mem.length)
    (hmem : q ∈ (room_at X p_room).p_users) :
    (cr_sm_session_clean env X s).srv =
      (cr_users_logout env (cr_chats_leave env X s q DONT_SEND).srv
        (cr_chats_leave env X s q DONT_SEND).sess q DONT_SEND).srv ∧
    (cr_sm_session_clean env X s).sess.logged_in = NOT_LOGGED_IN ∧
    (cr_sm_session_clean env X s).sess.chatting = NOT_CHATTING ∧
    (cr_sm_session_clean env X s).out =
      (cr_chats_chat_send_loop env X q left_message ((room_at X p_room).p_users.erase q)).2 := by
  unfold cr_sm_session_clean
  rw [h3]
  simp only [h2, if_true]
  rw [cr_chats_leave_eq env X s q DONT_SEND p_room hroom hlt hmem]
  simp [h1, h3, cr_users_logout_silent]


theorem srv_agree_refl (a : server_t) : srv_agree a a := ⟨rfl, rfl, rfl, rfl⟩

theorem srv_agree_signal (a b : server_t) (h : srv_agree a b) :
    srv_agree a (signal_handler b) := h

theorem srv_agree_left (a b : server_t) (q p_room : Nat) (h : srv_agree a b) :
    srv_agree (srv_left a q p_room) (srv_left b q p_room) := by
  obtain ⟨h1, h2, h3, h4⟩ := h
  refine ⟨?_, ?_, h3, h4⟩
  · show b.user_mem.set q _ = a.user_mem.set q _
    simp only [user_at, h1]
  · show b.room_mem.set p_room _ = a.room_mem.set p_room _
    simp only [room_at, h2]

theorem srv_agree_logged_out (a b : server_t) (q : Nat) (h : srv_agree a b) :
    srv_agree (srv_logged_out a q) (srv_logged_out b q) := by
  obtain ⟨h1, h2, h3, h4⟩ := h
  refine ⟨?_, h2, h3, ?_⟩
  · show b.user_mem.set q _ = a.user_mem.set q _
    simp only [user_at, h1]
  · show (b.users.client_count + 255) % 256 = (a.users.client_count + 255) % 256
    rw [h4]

theorem cr_chats_leave_srv (env : env_t) (srv : server_t) (sess : session_t)
    (q sm p_room : Nat)
    (hroom : h_table_return_entry srv.rooms.p_rooms_table (user_at srv q).p_chat_room =
      some p_room)
    (hlt : p_room < srv.room_mem.length)
    (hmem : q ∈ (room_at srv p_room).p_users) :
    (cr_chats_leave env srv sess q sm).srv = srv_left srv q p_room := by
  rw [cr_chats_leave_eq env srv sess q sm p_room hroom hlt hmem]
  rfl

theorem cr_users_logout_srv (env : env_t) (srv : server_t) (sess : session_t) (q : Nat) :
    (cr_users_logout env srv sess q DONT_SEND).srv = srv_logged_out srv q := by
  rw [cr_users_logout_silent]
  rfl

/-- The requirements on the end of a session that was not logged in. -/
theorem session_exit_post_connected (env : env_t) (srv : server_t) (sess : session_t)
    (q p_room : Nat) (F : server_t) (s1 : session_t) (out : List write_t)
    (h1 : sess.logged_in = NOT_LOGGED_IN) (h2 : sess.chatting = NOT_CHATTING)
    (hs1 : s1.logged_in = NOT_LOGGED_IN) (hs2 : s1.chatting = NOT_CHATTING)
    (hF : F.users.client_count = srv.users.client_count)
    (hout : ∀ w ∈ out, w.data = [SESSION_TYPE, QUIT_STYPE, ACKNOWLEDGE]) :
    session_exit_post env srv sess q p_room F s1 out := by
  refine ⟨hs1, hs2, fun _ => hF, ?_, ?_, ?_⟩
  · intro h; rw [h1] at h; exact absurd h (by decide)
  · intro h; rw [h2] at h; exact absurd h (by decide)
  · intro w hw
    rw [hout w hw]
    exact ⟨by decide, by decide⟩

/-- The requirements on the end of a session that was logged in and not
chatting. -/
theorem session_exit_post_logged (env : env_t) (srv : server_t) (sess : session_t)
    (q p_room : Nat) (F : server_t) (s1 : session_t) (out : List write_t)
    (h1 : sess.logged_in = LOGGED_IN) (h2 : sess.chatting = NOT_CHATTING)
    (hcc : 0 < srv.users.client_count ∧ srv.users.client_count < 256)
    (hfree : ∀ r ∈ srv.room_mem, q ∉ r.p_users)
    (hs1 : s1.logged_in = NOT_LOGGED_IN) (hs2 : s1.chatting = NOT_CHATTING)
    (hF1 : (user_at F q).login_status = NOT_LOGGED_IN)
    (hF2 : ∀ i, (room_at F i).p_users = (room_at srv i).p_users)
    (hF3 : F.users.client_count = (srv.users.client_count + 255) % 256)
    (hout : ∀ w ∈ out, w.data = [SESSION_TYPE, QUIT_STYPE, ACKNOWLEDGE]) :
    session_exit_post env srv sess q p_room F s1 out := by
  refine ⟨hs1, hs2, ?_, fun _ => ⟨hF1, ?_, ?_⟩, ?_, ?_⟩
  · intro h; rw [h1] at h; exact absurd h (by decide)
  · intro i
    rw [hF2 i]
    unfold room_at
    rw [List.getD_eq_getElem?_getD]
    by_cases hi : i < srv.room_mem.length
    · rw [List.getElem?_eq_getElem hi]
      exact hfree _ (List.getElem_mem hi)
    · rw [List.getElem?_eq_none (by omega)]
      simp [room_calloc]
  · rw [hF3]; omega
  · intro h; rw [h2] at h; exact absurd h (by decide)
  · intro w hw
    rw [hout w hw]
    exact ⟨by decide, by decide⟩

/-- The requirements on the end of a session that was chatting. -/
theorem session_exit_post_chat (env : env_t) (srv : server_t) (sess : session_t)
    (q p_room : Nat) (F : server_t) (s1 : session_t) (out : List write_t)
    (h1 : sess.logged_in = LOGGED_IN)
    (hq : q < srv.user_mem.length)
    (hcc : 0 < srv.users.client_count ∧ srv.users.client_count < 256)
    (hlt : p_room < srv.room_mem.length)
    (hcount : (room_at srv p_room).p_users.count q = 1)
    (hother : ∀ i < srv.room_mem.length, i ≠ p_room → q ∉ (room_at srv i).p_users)
    (hs1 : s1.logged_in = NOT_LOGGED_IN) (hs2 : s1.chatting = NOT_CHATTING)
    (hF : srv_agree (srv_logged_out (srv_left srv q p_room) q) F)
    (hout : ∀ w ∈ out, w.data ≠ [CHAT_TYPE, LEAVE_STYPE, ACKNOWLEDGE] ∧
      w.data ≠ [ACCOUNT_TYPE, LOGOUT_STYPE, ACKNOWLEDGE])
    (hsub : ∀ w ∈ (cr_chats_chat_send_loop env srv q left_message
      ((room_at srv p_room).p_users.erase q)).2, w ∈ out) :
    session_exit_post env srv sess q p_room F s1 out := by
  obtain ⟨hu, hr, _, hc⟩ := hF
  refine ⟨hs1, hs2, ?_, fun _ => ⟨?_, ?_, ?_⟩, ?_, hout⟩
  · intro h; rw [h1] at h; exact absurd h (by decide)
  · unfold user_at
    rw [hu]
    simp [srv_logged_out, srv_left, List.getD_eq_getElem?_getD, hq]
  · intro i
    unfold room_at
    rw [hr]
    show q ∉ ((srv.room_mem.set p_room _).getD i room_calloc).p_users
    rw [List.getD_eq_getElem?_getD, List.getElem?_set]
    by_cases hi : p_room = i
    · subst hi
      simp only [hlt, if_true, Option.getD_some]
      intro hmem
      have h0 : ((room_at srv p_room).p_users.erase q).count q = 0 := by
        rw [List.count_erase_self, hcount]
      exact (List.count_eq_zero.mp h0) hmem
    · simp only [hi, if_false]
      by_cases hlt2 : i < srv.room_mem.length
      · have := hother i hlt2 (fun e => hi e.symm)
        simpa [room_at, List.getD_eq_getElem?_getD] using this
      · rw [List.getElem?_eq_none (by omega)]
        simp [room_calloc]
  · rw [hc]
    show (srv.users.client_count + 255) % 256 + 1 = srv.users.client_count
    omega
  · intro _ hok m hm hne
    apply hsub
    rw [cr_chats_chat_send_loop_ok env srv q left_message _
      (fun m hm hne => hok m (List.mem_of_mem_erase hm) hne)]
    simp only [List.mem_map, List.mem_filter]
    exact ⟨m, ⟨(List.mem_erase_of_ne hne).mpr hm, by simpa using hne⟩, rfl⟩

theorem cr_chats_chat_send_loop_fine (env : env_t) (srv : server_t) (q : Nat) (msg l : List Nat) :
    ∀ w ∈ (cr_chats_chat_send_loop env srv q msg l).2,
      w.data ≠ [CHAT_TYPE, LEAVE_STYPE, ACKNOWLEDGE] ∧
      w.data ≠ [ACCOUNT_TYPE, LOGOUT_STYPE, ACKNOWLEDGE] := by
  intro w hw
  rw [(cr_chats_chat_send_loop_out env srv q msg l).2 w hw]
  exact ⟨update_ne_ack _ _ _ _ (by decide), update_ne_ack _ _ _ _ (by decide)⟩

/-- What an iteration that ends in the CHATTING state leaves behind: the
handler kept what the cleanup reads, or it was that of LEAVE and the user has
left the room, or it was that of QUIT and the user has left the room and is
logged out. -/
theorem cr_sm_chat_state_end (env : env_t) (srv : server_t) (sess : session_t)
    (p_buffer : List Nat) (q p_room : Nat) (hu : sess.pp_user = some q)
    (hroom : h_table_return_entry srv.rooms.p_rooms_table (user_at srv q).p_chat_room =
      some p_room)
    (hlt : p_room < srv.room_mem.length)
    (hmem : q ∈ (room_at srv p_room).p_users)
    (hrc : (cr_sm_chat_state env srv sess p_buffer).rc ≠ SUCCESS) :
    (∀ w ∈ (cr_sm_chat_state env srv sess p_buffer).out,
      w.data ≠ [CHAT_TYPE, LEAVE_STYPE, ACKNOWLEDGE] ∧
      w.data ≠ [ACCOUNT_TYPE, LOGOUT_STYPE, ACKNOWLEDGE]) ∧
    (((cr_sm_chat_state env srv sess p_buffer).sess = sess ∧
        srv_agree srv (cr_sm_chat_state env srv sess p_buffer).srv) ∨
      ((∀ w ∈ (cr_chats_chat_send_loop env srv q left_message
          ((room_at srv p_room).p_users.erase q)).2,
          w ∈ (cr_sm_chat_state env srv sess p_buffer).out) ∧
        (((cr_sm_chat_state env srv sess p_buffer).sess.logged_in = sess.logged_in ∧
            (cr_sm_chat_state env srv sess p_buffer).sess.chatting = NOT_CHATTING ∧
            (cr_sm_chat_state env srv sess p_buffer).sess.pp_user = some q ∧
            (cr_sm_chat_state env srv sess p_buffer).srv = srv_left srv q p_room) ∨
          ((cr_sm_chat_state env srv sess p_buffer).sess.logged_in = NOT_LOGGED_IN ∧
            (cr_sm_chat_state env srv sess p_buffer).sess.chatting = NOT_CHATTING ∧
            (cr_sm_chat_state env srv sess p_buffer).srv =
              srv_logged_out (srv_left srv q p_room) q)))) := by
  revert hrc
  unfold cr_sm_chat_state
  rw [hu]
  simp only []
  have hinv : (cr_sm_invalid_packet env srv sess).rc ≠ SUCCESS →
      (∀ w ∈ (cr_sm_invalid_packet env srv sess).out,
        w.data ≠ [CHAT_TYPE, LEAVE_STYPE, ACKNOWLEDGE] ∧
        w.data ≠ [ACCOUNT_TYPE, LOGOUT_STYPE, ACKNOWLEDGE]) ∧
      (((cr_sm_invalid_packet env srv sess).sess = sess ∧
          srv_agree srv (cr_sm_invalid_packet env srv sess).srv) ∨
        ((∀ w ∈ (cr_chats_chat_send_loop env srv q left_message
            ((room_at srv p_room).p_users.erase q)).2,
            w ∈ (cr_sm_invalid_packet env srv sess).out) ∧
          (((cr_sm_invalid_packet env srv sess).sess.logged_in = sess.logged_in ∧
              (cr_sm_invalid_packet env srv sess).sess.chatting = NOT_CHATTING ∧
              (cr_sm_invalid_packet env srv sess).sess.pp_user = some q ∧
              (cr_sm_invalid_packet env srv sess).srv = srv_left srv q p_room) ∨
            ((cr_sm_invalid_packet env srv sess).sess.logged_in = NOT_LOGGED_IN ∧
              (cr_sm_invalid_packet env srv sess).sess.chatting = NOT_CHATTING ∧
              (cr_sm_invalid_packet env srv sess).srv =
                srv_logged_out (srv_left srv q p_room) q)))) := by
    intro h
    obtain ⟨a, b, c⟩ := cr_sm_invalid_packet_end env srv sess h
    rw [a]
    exact ⟨by simp, Or.inl ⟨b, by rw [c]; exact srv_agree_refl srv⟩⟩
  have hquit : ¬ (DONT_SEND = SEND_IT) := by decide
  rw [cr_chats_leave_eq env srv sess q SEND_IT p_room hroom hlt hmem,
    cr_chats_leave_eq env srv sess q DONT_SEND p_room hroom hlt hmem, cr_users_logout_silent]
  simp only [if_neg hquit, if_true, List.append_nil]
  by_cases hA : c_byte p_buffer 0 = CHAT_TYPE ∧ c_byte p_buffer 2 = REQUEST
  · rw [if_pos hA]
    by_cases hB : c_byte p_buffer 1 = CHAT_STYPE
    · rw [if_pos hB]
      intro _
      unfold cr_chats_chat
      rw [hroom]
      exact ⟨cr_chats_chat_send_loop_fine _ _ _ _ _, Or.inl ⟨rfl, rfl, rfl, rfl, rfl⟩⟩
    · rw [if_neg hB]
      by_cases hC : c_byte p_buffer 1 = LEAVE_STYPE
      · rw [if_pos hC]
        intro h
        rw [cr_msg_send_ack_quiet env _ _ _ h, List.append_nil]
        exact ⟨cr_chats_chat_send_loop_fine _ _ _ _ _,
          Or.inr ⟨fun w hw => hw, Or.inl ⟨rfl, rfl, hu, rfl⟩⟩⟩
      · rw [if_neg hC]
        exact hinv
  · rw [if_neg hA]
    by_cases hD : c_byte p_buffer 0 = SESSION_TYPE ∧ c_byte p_buffer 2 = REQUEST
    · rw [if_pos hD]
      by_cases hE : c_byte p_buffer 1 = QUIT_STYPE
      · rw [if_pos hE]
        intro _
        rcases cr_msg_send_ack_cases env sess.p_ssl_holder SESSION_TYPE QUIT_STYPE with h | h
        · rw [h]
          rw [if_neg (by simp)]
          refine ⟨?_, Or.inr ⟨fun w hw => List.mem_append_left _ hw, Or.inr ⟨rfl, rfl, rfl⟩⟩⟩
          intro w hw
          rcases List.mem_append.mp hw with hw1 | hw1
          · exact cr_chats_chat_send_loop_fine _ _ _ _ _ w hw1
          · rw [List.mem_singleton.mp hw1]
            exact ⟨by simp, by simp⟩
        · rw [h]
          rw [if_pos (by simp)]
          rw [List.append_nil]
          exact ⟨cr_chats_chat_send_loop_fine _ _ _ _ _,
            Or.inr ⟨fun w hw => hw, Or.inr ⟨rfl, rfl, rfl⟩⟩⟩
      · rw [if_neg hE]
        exact hinv
    · rw [if_neg hD]
      exact hinv

theorem srv_kept_signal (a b : server_t) (h : srv_kept a b) : srv_kept a (signal_handler b) := h

/-- The cleanup of a session that is not logged in. -/
theorem cr_sm_exit_connected (env : env_t) (srv : server_t) (sess : session_t) (q p_room : Nat)
    (X : server_t) (out0 : List write_t)
    (h1 : sess.logged_in = NOT_LOGGED_IN) (h2 : sess.chatting = NOT_CHATTING)
    (hX : X.users.client_count = srv.users.client_count)
    (hout : ∀ w ∈ out0, w.data = [SESSION_TYPE, QUIT_STYPE, ACKNOWLEDGE]) :
    session_exit_post env srv sess q p_room (cr_sm_session_clean env X sess).srv
      (cr_sm_session_clean env X sess).sess (out0 ++ (cr_sm_session_clean env X sess).out) := by
  rw [cr_sm_session_clean_idle env X sess h1 h2]
  simp only [List.append_nil]
  exact session_exit_post_connected env srv sess q p_room X sess out0 h1 h2 h1 h2 hX hout

/-- The cleanup of a session that is logged in and not chatting, after a
handler that kept what the cleanup reads. -/
theorem cr_sm_exit_logged (env : env_t) (srv : server_t) (sess : session_t) (q p_room : Nat)
    (X : server_t) (out0 : List write_t)
    (h1 : sess.logged_in = LOGGED_IN) (h2 : sess.chatting = NOT_CHATTING)
    (hu : sess.pp_user = some q) (hq : q < srv.user_mem.length)
    (hcc : 0 < srv.users.client_count ∧ srv.users.client_count < 256)
    (hfree : ∀ r ∈ srv.room_mem, q ∉ r.p_users)
    (hX : srv_kept srv X)
    (hout : ∀ w ∈ out0, w.data = [SESSION_TYPE, QUIT_STYPE, ACKNOWLEDGE]) :
    session_exit_post env srv sess q p_room (cr_sm_session_clean env X sess).srv
      (cr_sm_session_clean env X sess).sess (out0 ++ (cr_sm_session_clean env X sess).out) := by
  rw [cr_sm_session_clean_logged env X sess q h1 h2 hu, cr_users_logout_silent]
  simp only [List.append_nil]
  obtain ⟨hc, hl, hr⟩ := hX
  refine session_exit_post_logged env srv sess q p_room _ _ out0 h1 h2 hcc hfree rfl h2 ?_ ?_ ?_
    hout
  · simp [user_at, List.getD_eq_getElem?_getD, hl, hq]
  · exact hr
  · show (X.users.client_count + 255) % 256 = _
    rw [hc]

/-- The cleanup of a session whose QUIT handler has logged the user out. -/
theorem cr_sm_exit_logged_quit (env : env_t) (srv : server_t) (sess : session_t)
    (q p_room : Nat) (X : server_t) (s : session_t) (out0 : List write_t)
    (h1 : sess.logged_in = LOGGED_IN) (h2 : sess.chatting = NOT_CHATTING)
    (hq : q < srv.user_mem.length)
    (hcc : 0 < srv.users.client_count ∧ srv.users.client_count < 256)
    (hfree : ∀ r ∈ srv.room_mem, q ∉ r.p_users)
    (hs1 : s.logged_in = NOT_LOGGED_IN) (hs2 : s.chatting = NOT_CHATTING)
    (hX : srv_agree (srv_logged_out srv q) X)
    (hout : ∀ w ∈ out0, w.data = [SESSION_TYPE, QUIT_STYPE, ACKNOWLEDGE]) :
    session_exit_post env srv sess q p_room (cr_sm_session_clean env X s).srv
      (cr_sm_session_clean env X s).sess (out0 ++ (cr_sm_session_clean env X s).out) := by
  rw [cr_sm_session_clean_idle env X s hs1 hs2]
  simp only [List.append_nil]
  obtain ⟨hu, hr, _, hc⟩ := hX
  refine session_exit_post_logged env srv sess q p_room X s out0 h1 h2 hcc hfree hs1 hs2 ?_ ?_ hc
    hout
  · unfold user_at
    rw [hu]
    simp [srv_logged_out, List.getD_eq_getElem?_getD, hq]
  · intro i
    unfold room_at
    rw [hr]
    rfl

/-- The cleanup of a chatting session after a handler that kept what the
cleanup reads. -/
theorem cr_sm_exit_chat (env : env_t) (srv : server_t) (sess : session_t) (q p_room : Nat)
    (X : server_t) (out0 : List write_t)
    (h1 : sess.logged_in = LOGGED_IN) (h2 : sess.chatting = CHATTING)
    (hu : sess.pp_user = some q) (hq : q < srv.user_mem.length)
    (hcc : 0 < srv.users.client_count ∧ srv.users.client_count < 256)
    (hroom : h_table_return_entry srv.rooms.p_rooms_table (user_at srv q).p_chat_room =
      some p_room)
    (hlt : p_room < srv.room_mem.length)
    (hcount : (room_at srv p_room).p_users.count q = 1)
    (hother : ∀ i < srv.room_mem.length, i ≠ p_room → q ∉ (room_at srv i).p_users)
    (hX : srv_agree srv X)
    (hout : ∀ w ∈ out0, w.data ≠ [CHAT_TYPE, LEAVE_STYPE, ACKNOWLEDGE] ∧
      w.data ≠ [ACCOUNT_TYPE, LOGOUT_STYPE, ACKNOWLEDGE]) :
    session_exit_post env srv sess q p_room (cr_sm_session_clean env X sess).srv
      (cr_sm_session_clean env X sess).sess (out0 ++ (cr_sm_session_clean env X sess).out) := by
  have hmem : q ∈ (room_at srv p_room).p_users :=
    List.count_pos_iff.mp (by rw [hcount]; decide)
  obtain ⟨hXu, hXr, hXt, hXc⟩ := hX
  have huX : ∀ m, user_at X m = user_at srv m := fun m => by unfold user_at; rw [hXu]
  have hrX : ∀ i, room_at X i = room_at srv i := fun i => by unfold room_at; rw [hXr]
  have hroomX : h_table_return_entry X.rooms.p_rooms_table (user_at X q).p_chat_room =
      some p_room := by rw [hXt, huX]; exact hroom
  have hltX : p_room < X.room_mem.length := by rw [hXr]; exact hlt
  have hmemX : q ∈ (room_at X p_room).p_users := by rw [hrX]; exact hmem
  obtain ⟨c1, c2, c3, c4⟩ := cr_sm_session_clean_chat env X sess q p_room h1 h2 hu hroomX hltX
    hmemX
  rw [c1, c4, cr_users_logout_srv,
    cr_chats_leave_srv env X sess q DONT_SEND p_room hroomX hltX hmemX, hrX,
    cr_chats_chat_send_loop_congr env srv X q _ _ hXu]
  refine session_exit_post_chat env srv sess q p_room _ _ _ h1 hq hcc hlt hcount hother c2 c3 ?_
    ?_ (fun w hw => List.mem_append_right _ hw)
  · exact srv_agree_logged_out _ _ q (srv_agree_left srv X q p_room ⟨hXu, hXr, hXt, hXc⟩)
  · intro w hw
    rcases List.mem_append.mp hw with hw1 | hw1
    · exact hout w hw1
    · exact cr_chats_chat_send_loop_fine _ _ _ _ _ w hw1

/-- The cleanup of a session whose LEAVE handler has taken the user out of
the room. -/
theorem cr_sm_exit_chat_left (env : env_t) (srv : server_t) (sess : session_t)
    (q p_room : Nat) (X : server_t) (s : session_t) (out0 : List write_t)
    (h1 : sess.logged_in = LOGGED_IN)
    (hq : q < srv.user_mem.length)
    (hcc : 0 < srv.users.client_count ∧ srv.users.client_count < 256)
    (hlt : p_room < srv.room_mem.length)
    (hcount : (room_at srv p_room).p_users.count q = 1)
    (hother : ∀ i < srv.room_mem.length, i ≠ p_room → q ∉ (room_at srv i).p_users)
    (hs1 : s.logged_in = LOGGED_IN) (hs2 : s.chatting = NOT_CHATTING)
    (hs3 : s.pp_user = some q)
    (hX : srv_agree (srv_left srv q p_room) X)
    (hout : ∀ w ∈ out0, w.data ≠ [CHAT_TYPE, LEAVE_STYPE, ACKNOWLEDGE] ∧
      w.data ≠ [ACCOUNT_TYPE, LOGOUT_STYPE, ACKNOWLEDGE])
    (hsub : ∀ w ∈ (cr_chats_chat_send_loop env srv q left_message
      ((room_at srv p_room).p_users.erase q)).2, w ∈ out0) :
    session_exit_post env srv sess q p_room (cr_sm_session_clean env X s).srv
      (cr_sm_session_clean env X s).sess (out0 ++ (cr_sm_session_clean env X s).out) := by
  rw [cr_sm_session_clean_logged env X s q hs1 hs2 hs3]
  have ho : (cr_users_logout env X s q DONT_SEND).out = [] := by
    rw [cr_users_logout_silent]
  have hl : (cr_users_logout env X s q DONT_SEND).sess.logged_in = NOT_LOGGED_IN := by
    rw [cr_users_logout_silent]
  have hc : (cr_users_logout env X s q DONT_SEND).sess.chatting = NOT_CHATTING := by
    rw [cr_users_logout_silent]; exact hs2
  rw [ho, List.append_nil, cr_users_logout_srv]
  exact session_exit_post_chat env srv sess q p_room _ _ out0 h1 hq hcc hlt hcount hother hl hc
    (srv_agree_logged_out _ _ q hX) hout hsub

/-- The cleanup of a session whose QUIT handler has taken the user out of
the room and logged the user out. -/
theorem cr_sm_exit_chat_quit (env : env_t) (srv : server_t) (sess : session_t)
    (q p_room : Nat) (X : server_t) (s : session_t) (out0 : List write_t)
    (h1 : sess.logged_in = LOGGED_IN)
    (hq : q < srv.user_mem.length)
    (hcc : 0 < srv.users.client_count ∧ srv.users.client_count < 256)
    (hlt : p_room < srv.room_mem.length)
    (hcount : (room_at srv p_room).p_users.count q = 1)
    (hother : ∀ i < srv.room_mem.length, i ≠ p_room → q ∉ (room_at srv i).p_users)
    (hs1 : s.logged_in = NOT_LOGGED_IN) (hs2 : s.chatting = NOT_CHATTING)
    (hX : srv_agree (srv_logged_out (srv_left srv q p_room) q) X)
    (hout : ∀ w ∈ out0, w.data ≠ [CHAT_TYPE, LEAVE_STYPE, ACKNOWLEDGE] ∧
      w.data ≠ [ACCOUNT_TYPE, LOGOUT_STYPE, ACKNOWLEDGE])
    (hsub : ∀ w ∈ (cr_chats_chat_send_loop env srv q left_message
      ((room_at srv p_room).p_users.erase q)).2, w ∈ out0) :
    session_exit_post env srv sess q p_room (cr_sm_session_clean env X s).srv
      (cr_sm_session_clean env X s).sess (out0 ++ (cr_sm_session_clean env X s).out) := by
  rw [cr_sm_session_clean_idle env X s hs1 hs2]
  simp only [List.append_nil]
  exact session_exit_post_chat env srv sess q p_room X s out0 h1 hq hcc hlt hcount hother hs1 hs2
    hX hout hsub

/-- The cleanup that follows a handled frame or no frame at all: `X` is the
shared state the handler left, or that state with the shutdown flag set. -/
theorem cr_sm_exit_handled (env : env_t) (srv : server_t) (sess : session_t)
    (p_buffer : List Nat) (q p_room : Nat) (X : server_t)
    (hlog : sess.logged_in = NOT_LOGGED_IN ∨ sess.logged_in = LOGGED_IN)
    (hchat : sess.chatting = NOT_CHATTING ∨ sess.chatting = CHATTING)
    (hcon : sess.logged_in = NOT_LOGGED_IN → sess.chatting = NOT_CHATTING)
    (huser : sess.logged_in = LOGGED_IN →
      sess.pp_user = some q ∧ q < srv.user_mem.length ∧
      0 < srv.users.client_count ∧ srv.users.client_count < 256)
    (hfree : sess.logged_in = LOGGED_IN → sess.chatting = NOT_CHATTING →
      ∀ r ∈ srv.room_mem, q ∉ r.p_users)
    (hroom : sess.chatting = CHATTING →
      h_table_return_entry srv.rooms.p_rooms_table (user_at srv q).p_chat_room = some p_room ∧
      p_room < srv.room_mem.length ∧ (room_at srv p_room).p_users.count q = 1 ∧
      ∀ i < srv.room_mem.length, i ≠ p_room → q ∉ (room_at srv i).p_users)
    (hrc : (cr_sm_handle env srv sess p_buffer).rc ≠ SUCCESS)
    (hX : X = (cr_sm_handle env srv sess p_buffer).srv ∨
      X = signal_handler (cr_sm_handle env srv sess p_buffer).srv) :
    session_exit_post env srv sess q p_room
      (cr_sm_session_clean env X (cr_sm_handle env srv sess p_buffer).sess).srv
      (cr_sm_session_clean env X (cr_sm_handle env srv sess p_buffer).sess).sess
      ((cr_sm_handle env srv sess p_buffer).out ++
        (cr_sm_session_clean env X (cr_sm_handle env srv sess p_buffer).sess).out) := by
  revert hrc hX
  unfold cr_sm_handle
  rcases hlog with h1 | h1
  · have h2 := hcon h1
    rw [if_pos h1]
    intro hrc hX
    obtain ⟨a, b, c⟩ := cr_sm_connected_state_end env srv sess p_buffer hrc
    rw [a]
    refine cr_sm_exit_connected env srv sess q p_room X _ h1 h2 ?_ c
    rcases hX with hX | hX <;> rw [hX] <;> exact b
  · have h1' : ¬ sess.logged_in = NOT_LOGGED_IN := by rw [h1]; decide
    obtain ⟨hu, hq, hc1, hc2⟩ := huser h1
    rw [if_neg h1']
    rcases hchat with h2 | h2
    · rw [if_pos h2]
      intro hrc hX
      obtain ⟨a, b⟩ := cr_sm_logged_state_end env srv sess p_buffer q hu hrc
      rcases b with ⟨b1, b2⟩ | ⟨b1, b2, b3⟩
      · rw [b1]
        refine cr_sm_exit_logged env srv sess q p_room X _ h1 h2 hu hq ⟨hc1, hc2⟩
          (hfree h1 h2) ?_ a
        rcases hX with hX | hX <;> rw [hX]
        · exact b2
        · exact srv_kept_signal _ _ b2
      · refine cr_sm_exit_logged_quit env srv sess q p_room X _ _ h1 h2 hq ⟨hc1, hc2⟩
          (hfree h1 h2) b1 (b2.trans h2) ?_ a
        rw [cr_users_logout_srv] at b3
        rcases hX with hX | hX <;> rw [hX, b3]
        · exact srv_agree_refl _
        · exact srv_agree_signal _ _ (srv_agree_refl _)
    · have h2' : ¬ sess.chatting = NOT_CHATTING := by rw [h2]; decide
      obtain ⟨hr1, hr2, hr3, hr4⟩ := hroom h2
      have hmem : q ∈ (room_at srv p_room).p_users :=
        List.count_pos_iff.mp (by rw [hr3]; decide)
      rw [if_neg h2']
      intro hrc hX
      obtain ⟨a, b⟩ := cr_sm_chat_state_end env srv sess p_buffer q p_room hu hr1 hr2 hmem hrc
      rcases b with ⟨b1, b2⟩ | ⟨bs, ⟨b1, b2, b3, b4⟩ | ⟨b1, b2, b3⟩⟩
      · rw [b1]
        refine cr_sm_exit_chat env srv sess q p_room X _ h1 h2 hu hq ⟨hc1, hc2⟩ hr1 hr2 hr3 hr4
          ?_ a
        rcases hX with hX | hX <;> rw [hX]
        · exact b2
        · exact srv_agree_signal _ _ b2
      · refine cr_sm_exit_chat_left env srv sess q p_room X _ _ h1 hq ⟨hc1, hc2⟩ hr2 hr3 hr4
          (b1.trans h1) b2 b3 ?_ a bs
        rcases hX with hX | hX <;> rw [hX, b4]
        · exact srv_agree_refl _
        · exact srv_agree_signal _ _ (srv_agree_refl _)
      · refine cr_sm_exit_chat_quit env srv sess q p_room X _ _ h1 hq ⟨hc1, hc2⟩ hr2 hr3 hr4
          b1 b2 ?_ a bs
        rcases hX with hX | hX <;> rw [hX, b3]
        · exact srv_agree_refl _
        · exact srv_agree_signal _ _ (srv_agree_refl _)

/-- The cleanup of a session that ends without a frame being handled. -/
theorem cr_sm_exit_direct (env : env_t) (srv : server_t) (sess : session_t) (q p_room : Nat)
    (hlog : sess.logged_in = NOT_LOGGED_IN ∨ sess.logged_in = LOGGED_IN)
    (hchat : sess.chatting = NOT_CHATTING ∨ sess.chatting = CHATTING)
    (hcon : sess.logged_in = NOT_LOGGED_IN → sess.chatting = NOT_CHATTING)
    (huser : sess.logged_in = LOGGED_IN →
      sess.pp_user = some q ∧ q < srv.user_mem.length ∧
      0 < srv.users.client_count ∧ srv.users.client_count < 256)
    (hfree : sess.logged_in = LOGGED_IN → sess.chatting = NOT_CHATTING →
      ∀ r ∈ srv.room_mem, q ∉ r.p_users)
    (hroom : sess.chatting = CHATTING →
      h_table_return_entry srv.rooms.p_rooms_table (user_at srv q).p_chat_room = some p_room ∧
      p_room < srv.room_mem.length ∧ (room_at srv p_room).p_users.count q = 1 ∧
      ∀ i < srv.room_mem.length, i ≠ p_room → q ∉ (room_at srv i).p_users) :
    session_exit_post env srv sess q p_room (cr_sm_session_clean env srv sess).srv
      (cr_sm_session_clean env srv sess).sess ([] ++ (cr_sm_session_clean env srv sess).out) := by
  have hnil : ∀ w ∈ ([] : List write_t), w.data = [SESSION_TYPE, QUIT_STYPE, ACKNOWLEDGE] :=
    fun w hw => absurd hw (List.not_mem_nil w)
  rcases hlog with h1 | h1
  · exact cr_sm_exit_connected env srv sess q p_room srv [] h1 (hcon h1) rfl hnil
  · obtain ⟨hu, hq, hc1, hc2⟩ := huser h1
    rcases hchat with h2 | h2
    · exact cr_sm_exit_logged env srv sess q p_room srv [] h1 h2 hu hq ⟨hc1, hc2⟩ (hfree h1 h2)
        (srv_kept_refl srv) hnil
    · obtain ⟨hr1, hr2, hr3, hr4⟩ := hroom h2
      exact cr_sm_exit_chat env srv sess q p_room srv [] h1 h2 hu hq ⟨hc1, hc2⟩ hr1 hr2 hr3 hr4
        (srv_agree_refl srv) (fun w hw => absurd hw (List.not_mem_nil w))

/-- The cleanup on session exit. An iteration of the session loop that ends
the session (shutdown flag seen, read error or disconnect, or a handler
result `FAILURE`, `CONNECTION_FAILURE` or `THREAD_SHUTDOWN`, the last being
QUIT) from a consistent session state: logged in means `pp_user` is a stored
user `q` and `0 < client_count`; logged in and not chatting means `q` is in
no room; chatting means the directory returns a stored room `p_room` for the
user's `p_chat_room`, `q` is in its member list once and in no other room.
Then afterwards the session variables are NOT_LOGGED_IN and NOT_CHATTING; if
the session was logged in, `q` has login status NOT_LOGGED_IN, is in the
member list of no room, and `client_count` is one less than before
(unchanged if the session was not logged in); if it was chatting and the
writes to all other members succeed, every other member of the room has been
sent the update `User has left the room` under the name of `q`; and no frame
written is a LEAVE or LOGOUT acknowledgement. -/
theorem cr_sm_session_manager_exit_cleanup (env : env_t) (srv : server_t) (sess : session_t) (rd : read_t)
    (q p_room : Nat)
    (hlog : sess.logged_in = NOT_LOGGED_IN ∨ sess.logged_in = LOGGED_IN)
    (hchat : sess.chatting = NOT_CHATTING ∨ sess.chatting = CHATTING)
    (hcon : sess.logged_in = NOT_LOGGED_IN → sess.chatting = NOT_CHATTING)
    (huser : sess.logged_in = LOGGED_IN →
      sess.pp_user = some q ∧ q < srv.user_mem.length ∧
      0 < srv.users.client_count ∧ srv.users.client_count < 256)
    (hfree : sess.logged_in = LOGGED_IN → sess.chatting = NOT_CHATTING →
      ∀ r ∈ srv.room_mem, q ∉ r.p_users)
    (hroom : sess.chatting = CHATTING →
      h_table_return_entry srv.rooms.p_rooms_table (user_at srv q).p_chat_room = some p_room ∧
      p_room < srv.room_mem.length ∧ (room_at srv p_room).p_users.count q = 1 ∧
      ∀ i < srv.room_mem.length, i ≠ p_room → q ∉ (room_at srv i).p_users)
    (hend : (cr_sm_session_manager_iter env srv sess rd).running = false) :
    (cr_sm_session_manager_iter env srv sess rd).sess.logged_in = NOT_LOGGED_IN ∧
    (cr_sm_session_manager_iter env srv sess rd).sess.chatting = NOT_CHATTING ∧
    (sess.logged_in = NOT_LOGGED_IN →
      (cr_sm_session_manager_iter env srv sess rd).srv.users.client_count =
        srv.users.client_count) ∧
    (sess.logged_in = LOGGED_IN →
      (user_at (cr_sm_session_manager_iter env srv sess rd).srv q).login_status =
        NOT_LOGGED_IN ∧
      (∀ i, q ∉ (room_at (cr_sm_session_manager_iter env srv sess rd).srv i).p_users) ∧
      (cr_sm_session_manager_iter env srv sess rd).srv.users.client_count + 1 =
        srv.users.client_count) ∧
    (sess.chatting = CHATTING →
      (∀ m ∈ (room_at srv p_room).p_users, m ≠ q →
        env.ssl_ok (user_at srv m).p_ssl_holder = true) →
      ∀ m ∈ (room_at srv p_room).p_users, m ≠ q →
        ({ dest := (user_at srv m).p_ssl_holder,
           data := cr_msg_create_update (user_at srv q).p_username left_message } : write_t) ∈
          (cr_sm_session_manager_iter env srv sess rd).out) ∧
    (∀ w ∈ (cr_sm_session_manager_iter env srv sess rd).out,
      w.data ≠ [CHAT_TYPE, LEAVE_STYPE, ACKNOWLEDGE] ∧
      w.data ≠ [ACCOUNT_TYPE, LOGOUT_STYPE, ACKNOWLEDGE]) := by
  have hdirect := cr_sm_exit_direct env srv sess q p_room hlog hchat hcon huser hfree hroom
  have hhandled := fun p_buffer X =>
    cr_sm_exit_handled env srv sess p_buffer q p_room X hlog hchat hcon huser hfree hroom
  revert hend
  unfold cr_sm_session_manager_iter
  by_cases hi : srv.server_interrupt ≠ CONTINUE
  · rw [if_pos hi]
    exact fun _ => hdirect
  · rw [if_neg hi]
    cases rd with
    | timeout => intro h; exact absurd h (by simp)
    | error => exact fun _ => hdirect
    | data bytes =>
      simp only []
      by_cases hb : bytes.length = 0
      · rw [if_pos hb]
        exact fun _ => hdirect
      · rw [if_neg hb]
        by_cases h1 : (cr_sm_handle env srv sess (recv_buffer bytes)).rc = FAILURE
        · rw [if_pos h1]
          exact fun _ => hhandled (recv_buffer bytes) _ (by rw [h1]; decide) (Or.inr rfl)
        · rw [if_neg h1]
          by_cases h2 : (cr_sm_handle env srv sess (recv_buffer bytes)).rc = CONNECTION_FAILURE
          · rw [if_pos h2]
            exact fun _ => hhandled (recv_buffer bytes) _ (by rw [h2]; decide) (Or.inl rfl)
          · rw [if_neg h2]
            by_cases h3 : (cr_sm_handle env srv sess (recv_buffer bytes)).rc = THREAD_SHUTDOWN
            · rw [if_pos h3]
              exact fun _ => hhandled (recv_buffer bytes) _ (by rw [h3]; decide) (Or.inl rfl)
            · rw [if_neg h3]
              intro h
              exact absurd h (by simp)

/-- The cleanup at the disconnect of `alice` while she and `admin` are in
the room `lobby`: `admin` is sent the update that she has left. -/
theorem cr_sm_session_manager_exit_cleanup_at_disconnect :
    ({ dest := 1,
       data := cr_msg_create_update (user_at step_admin_joined.srv 1).p_username left_message } :
      write_t) ∈
      (cr_sm_session_manager_iter env_ok step_admin_joined.srv step_alice_joined.sess
        read_t.error).out :=
  (cr_sm_session_manager_exit_cleanup env_ok step_admin_joined.srv step_alice_joined.sess read_t.error 1 0
    (by decide) (by decide) (by decide) (by decide) (by decide) (by decide)
    (by decide)).2.2.2.2.1 (by decide) (by decide) 0 (by decide) (by decide)

/-- C7 fails when a write to another member fails. The room `lobby` holds
`alice`, `admin` and `bob`, in this order, on the transports 2, 1 and 3; the
session of `alice` ends by a read error while the writes to transport 1 fail.
`alice` is taken out of the room and logged out and `client_count` drops
from 3 to 2, but `cr_chats_chat_send` returns at the failed write to `admin`,
so `bob`, whose transport accepts writes, is sent nothing. With every write
succeeding there is one write to each of the transports 1 and 3. -/
theorem C7_leave_update_cut_short :
    (room_at step_bob_joined.srv 0).p_users = [1, 0, 2] ∧
    (user_at step_bob_joined.srv 0).p_ssl_holder = 1 ∧
    (user_at step_bob_joined.srv 2).p_ssl_holder = 3 ∧
    step_bob_joined.srv.users.client_count = 3 ∧
    env_admin_down.ssl_ok 3 = true ∧
    (cr_sm_session_manager_iter env_admin_down step_bob_joined.srv step_alice_joined.sess
      read_t.error).running = false ∧
    (room_at (cr_sm_session_manager_iter env_admin_down step_bob_joined.srv
      step_alice_joined.sess read_t.error).srv 0).p_users = [0, 2] ∧
    (user_at (cr_sm_session_manager_iter env_admin_down step_bob_joined.srv
      step_alice_joined.sess read_t.error).srv 1).login_status = NOT_LOGGED_IN ∧
    (cr_sm_session_manager_iter env_admin_down step_bob_joined.srv step_alice_joined.sess
      read_t.error).srv.users.client_count = 2 ∧
    (cr_sm_session_manager_iter env_admin_down step_bob_joined.srv step_alice_joined.sess
      read_t.error).out = [] ∧
    (cr_sm_session_manager_iter env_ok step_bob_joined.srv step_alice_joined.sess
      read_t.error).out.map (fun w => w.dest) = [1, 3] := by
  decide

end SessionExit

section Defects2

/-- C11 fails: `users.txt` holds the lines of `admin`, `alice`, `bobby` and
`bob`; the request of `admin` to delete `bob`, who is logged out, is
acknowledged and `bob` is no longer found, but the line of `bobby`, whose name
begins with `bob`, is gone from `users.txt` as well, while `bobby` is still
found in the directory. -/
theorem C11_delete_removes_prefixed_lines :
    step_bobby_bob.srv.users_txt =
      users_txt_0 ++ [10] ++ name_alice ++ [UTF_COLON] ++ pass_hunter22 ++
        [10] ++ name_bobby ++ [UTF_COLON] ++ pass_hunter22 ++
        [10] ++ name_bob ++ [UTF_COLON] ++ pass_hunter22 ∧
    (cr_sm_handle env_ok step_bobby_bob.srv step_admin_in.sess delete_bob).out =
      [{ dest := 1, data := [ACCOUNT_TYPE, DEL_STYPE, ACKNOWLEDGE] }] ∧
    (cr_sm_handle env_ok step_bobby_bob.srv step_admin_in.sess delete_bob).srv.users_txt =
      users_txt_0 ++ [10] ++ name_alice ++ [UTF_COLON] ++ pass_hunter22 ++ [10] ∧
    h_table_return_entry
      (cr_sm_handle env_ok step_bobby_bob.srv step_admin_in.sess delete_bob).srv.users.p_users_table
      (req_p_username delete_bob) = none ∧
    h_table_return_entry
      (cr_sm_handle env_ok step_bobby_bob.srv step_admin_in.sess delete_bob).srv.users.p_users_table
      (req_p_username register_bobby) = some 2 := by
  decide

/-- C12 fails at a CREATE whose name field holds `lobby`, the terminator and
one more letter, sent by `admin` while the room `lobby` exists, with every
write succeeding: the lookup hashes the bytes after the terminator and finds
no room, the insertion finds the duplicate, and the handler returns `FAILURE`
without any reply; the session manager then sets the shutdown flag. The
CREATE whose name field holds `lobby` followed by zero bytes only is answered
with ROOM_EXISTS and changes nothing. -/
theorem C12_create_padded_name_failure :
    h_table_return_entry step_room.srv.rooms.p_rooms_table (req_p_room_name create_lobby) =
      some 0 ∧
    (cr_sm_handle env_ok step_room.srv step_admin_in.sess create_lobby).out =
      [{ dest := 1, data := [ROOMS_TYPE, CREATE_STYPE, REJECT, ROOM_EXISTS] }] ∧
    (cr_sm_handle env_ok step_room.srv step_admin_in.sess create_lobby).srv = step_room.srv ∧
    c_str (req_p_room_name create_lobby_padded) = name_lobby ∧
    h_table_return_entry step_room.srv.rooms.p_rooms_table
      (req_p_room_name create_lobby_padded) = none ∧
    (cr_sm_handle env_ok step_room.srv step_admin_in.sess create_lobby_padded).rc = FAILURE ∧
    (cr_sm_handle env_ok step_room.srv step_admin_in.sess create_lobby_padded).out = [] ∧
    (cr_sm_session_manager_iter env_ok step_room.srv step_admin_in.sess
      (read_t.data (frame_1 ROOMS_TYPE CREATE_STYPE REQUEST
        (name_lobby ++ [0, 66])))).srv.server_interrupt = STOP := by
  decide

/-- C16 fails: the room holds `alice`, `admin` and `bob` on the transports
2, 1 and 3, and `alice` is the sender. With the writes to transport 1 failing
`cr_chats_chat_send` returns `CONNECTION_FAILURE` at `admin` and writes
nothing, so `bob`, whose transport accepts writes, is not sent the update;
with every write succeeding it writes to the transports 1 and 3. -/
theorem C16_fan_out_aborted :
    (room_at step_bob_joined.srv 0).p_users = [1, 0, 2] ∧
    (user_at step_bob_joined.srv 0).p_ssl_holder = 1 ∧
    (user_at step_bob_joined.srv 2).p_ssl_holder = 3 ∧
    env_admin_down.ssl_ok 3 = true ∧
    cr_chats_chat_send env_admin_down step_bob_joined.srv 0 1 text_hi =
      (CONNECTION_FAILURE, []) ∧
    (cr_chats_chat_send env_ok step_bob_joined.srv 0 1 text_hi).2.map (fun w => w.dest) =
      [1, 3] := by
  decide

/-- C14 fails when a write to a member fails: the room `lobby` holds `alice`
and `admin` on the transports 2 and 1, and `bob` joins on transport 3 while
the writes to transport 2 fail. `bob` is appended, receives the acknowledge
header and the log and becomes CHATTING, but `cr_chats_chat_send` returns at
the failed write to `alice`, so `admin`, whose transport accepts writes, is
not sent the update. With every write succeeding both are sent it. -/
theorem C14_join_update_cut_short :
    (room_at step_bob_in.srv 0).p_users = [1, 0] ∧
    (user_at step_bob_in.srv 0).p_ssl_holder = 1 ∧
    (user_at step_bob_in.srv 1).p_ssl_holder = 2 ∧
    env_alice_down.ssl_ok 1 = true ∧
    (room_at (cr_sm_handle env_alice_down step_bob_in.srv step_bob_in.sess join_lobby).srv
      0).p_users = [1, 0, 2] ∧
    (cr_sm_handle env_alice_down step_bob_in.srv step_bob_in.sess join_lobby).sess.chatting =
      CHATTING ∧
    (cr_sm_handle env_alice_down step_bob_in.srv step_bob_in.sess join_lobby).out =
      [{ dest := 3, data := [ROOMS_TYPE, JOIN_STYPE, ACKNOWLEDGE] }, { dest := 3, data := [] }] ∧
    (cr_sm_handle env_ok step_bob_in.srv step_bob_in.sess join_lobby).out.map
      (fun w => w.dest) = [3, 3, 2, 1] := by
  decide

/-- C18 fails when a write to a member fails: the room `lobby` holds `alice`,
`admin` and `bob` on the transports 2, 1 and 3, and `alice` sends LEAVE while
the writes to transport 1 fail. `alice` is removed, her session becomes
LOGGED_IN and she is sent the acknowledgement, but `cr_chats_chat_send`
returns at the failed write to `admin`, so `bob`, whose transport accepts
writes, is not sent the update. With every write succeeding both are sent
it. -/
theorem C18_leave_update_cut_short :
    (room_at step_bob_joined.srv 0).p_users = [1, 0, 2] ∧
    (user_at step_bob_joined.srv 0).p_ssl_holder = 1 ∧
    (user_at step_bob_joined.srv 2).p_ssl_holder = 3 ∧
    env_admin_down.ssl_ok 3 = true ∧
    (room_at (cr_sm_handle env_admin_down step_bob_joined.srv step_alice_joined.sess
      leave_frame).srv 0).p_users = [0, 2] ∧
    (cr_sm_handle env_admin_down step_bob_joined.srv step_alice_joined.sess
      leave_frame).sess.chatting = NOT_CHATTING ∧
    (cr_sm_handle env_admin_down step_bob_joined.srv step_alice_joined.sess leave_frame).out =
      [{ dest := 2, data := [CHAT_TYPE, LEAVE_STYPE, ACKNOWLEDGE] }] ∧
    (cr_sm_handle env_ok step_bob_joined.srv step_alice_joined.sess leave_frame).out.map
      (fun w => w.dest) = [1, 3, 2] := by
  decide

/-- C19 fails: `admin` creates the rooms `lobby` and `lobby2` and deletes
`lobby`. The deletion is acknowledged, `lobby2` is still found and
`room_count` is 1, but `room_names.log` is empty, because the line of `lobby2`
begins with `lobby`; the reply to LIST is the acknowledge header followed by
no name. -/
theorem C19_room_names_log_loses_prefixed_names :
    step_room2.srv.room_names_log = name_lobby ++ [10] ++ name_lobby2 ++ [10] ∧
    step_room_deleted.out = [{ dest := 1, data := [ROOMS_TYPE, DEL_STYPE, ACKNOWLEDGE] }] ∧
    h_table_return_entry step_room_deleted.srv.rooms.p_rooms_table
      (req_p_room_name create_lobby2) = some 1 ∧
    step_room_deleted.srv.rooms.room_count = 1 ∧
    step_room_deleted.srv.room_names_log = [] ∧
    (cr_sm_handle env_ok step_room_deleted.srv step_admin_in.sess list_rooms).out =
      [{ dest := 1, data := [ROOMS_TYPE, LIST_STYPE, ACKNOWLEDGE] },
       { dest := 1, data := [] }] := by
  decide

/-- C20 as stated fails: a REGISTER whose user name field holds 31 letters is
acknowledged, and the user is entered under the first 30 letters; a REGISTER
whose password field holds 31 letters is acknowledged likewise. -/
theorem C20_overlong_accepted :
    (cr_sm_handle env_ok srv_0 (session_init 1) register_name_31).out =
      [{ dest := 1, data := [ACCOUNT_TYPE, REGISTER_STYPE, ACKNOWLEDGE] }] ∧
    (cr_sm_handle env_ok srv_0 (session_init 1) register_name_31).srv.users_txt =
      users_txt_0 ++ [10] ++ List.replicate 30 97 ++ [UTF_COLON] ++ pass_hunter22 ∧
    (cr_sm_handle env_ok srv_0 (session_init 1) register_pass_31).out =
      [{ dest := 1, data := [ACCOUNT_TYPE, REGISTER_STYPE, ACKNOWLEDGE] }] ∧
    (cr_sm_handle env_ok srv_0 (session_init 1) register_pass_31).srv.users_txt =
      users_txt_0 ++ [10] ++ name_bob ++ [UTF_COLON] ++ List.replicate 30 97 := by
  decide

end Defects2

section ChatSend

/-- The `n` bytes that `strncpy` writes for a source string. -/
theorem c_strncpy_eq (dst src : List Nat) (n : Nat) :
    c_strncpy dst src n =
      ((c_str src).take n ++ List.replicate (n - ((c_str src).take n).length) 0) ++
        dst.drop n := by
  unfold c_strncpy
  simp only [c_str_take]

theorem c_strncpy_head_length (src : List Nat) (n : Nat) :
    ((c_str src).take n ++ List.replicate (n - ((c_str src).take n).length) 0).length = n := by
  have : ((c_str src).take n).length ≤ n := by rw [List.length_take]; omega
  rw [List.length_append, List.length_replicate]
  omega

/-- The bytes of the update frame: the header, 30 bytes for the name, `>`,
150 bytes for the message and a final zero byte. -/
theorem cr_msg_create_update_eq (p_username p_chat : List Nat) :
    cr_msg_create_update p_username p_chat =
      [CHAT_TYPE, CHAT_STYPE, ACKNOWLEDGE] ++
        (((c_str p_username).take 30 ++
            List.replicate (30 - ((c_str p_username).take 30).length) 0) ++
          ([62] ++
            (((c_str p_chat).take 150 ++
                List.replicate (150 - ((c_str p_chat).take 150).length) 0) ++ [0]))) := by
  unfold cr_msg_create_update
  simp only [MAX_USERNAME_LENGTH, MAX_CHAT_LEN, c_strncpy_eq]
  have hA := c_strncpy_head_length p_username 30
  have hM := c_strncpy_head_length p_chat 150
  generalize (c_str p_username).take 30 ++
    List.replicate (30 - ((c_str p_username).take 30).length) 0 = A at hA ⊢
  generalize (c_str p_chat).take 150 ++
    List.replicate (150 - ((c_str p_chat).take 150).length) 0 = M at hM ⊢
  have hG : (c_str [62]).take 1 ++ List.replicate (1 - ((c_str [62]).take 1).length) 0 = [62] := by
    decide
  rw [hG]
  have hz : List.drop 30 (c_zeros (30 + 150 + 2)) = c_zeros 152 := by
    unfold c_zeros; simp
  rw [hz]
  have h1 : List.take 30 (A ++ c_zeros 152) = A := List.take_left' hA
  have h2 : List.drop 30 (A ++ c_zeros 152) = c_zeros 152 := List.drop_left' hA
  rw [h1, h2]
  have h3 : List.drop 1 (c_zeros 152) = c_zeros 151 := by unfold c_zeros; simp
  rw [h3]
  have hA1 : (A ++ [62]).length = 30 + 1 := by simp [hA]
  have h4 : List.take (30 + 1) (A ++ ([62] ++ c_zeros 151)) = A ++ [62] := by
    rw [← List.append_assoc]; exact List.take_left' hA1
  have h5 : List.drop (30 + 1) (A ++ ([62] ++ c_zeros 151)) = c_zeros 151 := by
    rw [← List.append_assoc]; exact List.drop_left' hA1
  rw [h4, h5]
  have h6 : List.drop 150 (c_zeros 151) = [0] := by unfold c_zeros; simp
  rw [h6]
  simp


/-- C15: when the write to every member other than the sender succeeds,
`cr_chats_chat_send` returns `SUCCESS` and writes exactly one frame for each
entry of the member list that is not the sender, in the order of the list,
to the transport of that member, and none for the sender; each frame is the
CHAT update header followed by the first 30 characters of the sender's name
padded with zero bytes to 30 bytes, the byte `>`, and the first 150
characters of the message padded with zero bytes to 151 bytes. -/
theorem C15_chat_send_every_member (env : env_t) (srv : server_t) (p_room p_user : Nat)
    (p_chat : List Nat)
    (hok : ∀ m ∈ (room_at srv p_room).p_users, m ≠ p_user →
      env.ssl_ok (user_at srv m).p_ssl_holder = true) :
    cr_chats_chat_send env srv p_room p_user p_chat =
      (SUCCESS,
        ((room_at srv p_room).p_users.filter (fun m => decide (m ≠ p_user))).map (fun m =>
          { dest := (user_at srv m).p_ssl_holder,
            data := [CHAT_TYPE, CHAT_STYPE, ACKNOWLEDGE] ++
              (((c_str (user_at srv p_user).p_username).take 30 ++
                  List.replicate
                    (30 - ((c_str (user_at srv p_user).p_username).take 30).length) 0) ++
                ([62] ++
                  (((c_str p_chat).take 150 ++
                      List.replicate (150 - ((c_str p_chat).take 150).length) 0) ++
                    [0]))) })) := by
  unfold cr_chats_chat_send
  rw [cr_chats_chat_send_loop_ok env srv p_user p_chat _ hok, cr_msg_create_update_eq]

/-- C15 at the chat `hi` of `alice` in the room of `alice`, `admin` and `bob`:
one write to the transport of `admin` and then one to that of `bob`. -/
theorem C15_witness :
    (cr_chats_chat_send env_ok step_bob_joined.srv 0 1 text_hi).2.map (fun w => w.dest) =
      [1, 3] :=
  (congrArg (fun r => r.2.map (fun w => w.dest))
    (C15_chat_send_every_member env_ok step_bob_joined.srv 0 1 text_hi
      (fun _ _ _ => rfl))).trans (by decide)

end ChatSend

section RoomDelete

/-- The dispatch of a ROOMS request in LOGGED_IN state to `cr_sm_ls_rooms`. -/
theorem cr_sm_handle_rooms (env : env_t) (srv : server_t) (sess : session_t)
    (p_buffer : List Nat) (q : Nat)
    (hlog : sess.logged_in ≠ NOT_LOGGED_IN) (hchat : sess.chatting = NOT_CHATTING)
    (huser : sess.pp_user = some q)
    (htype : c_byte p_buffer 0 = ROOMS_TYPE) (hop : c_byte p_buffer 2 = REQUEST) :
    cr_sm_handle env srv sess p_buffer =
      if (cr_sm_ls_rooms env srv sess q p_buffer (c_byte p_buffer 1)).rc ≠ NO_MATCH
      then cr_sm_ls_rooms env srv sess q p_buffer (c_byte p_buffer 1)
      else cr_sm_invalid_packet env srv sess := by
  unfold cr_sm_handle cr_sm_logged_state
  rw [if_neg hlog, if_pos hchat, huser]
  simp only [htype, hop]
  rw [if_neg (by decide), if_pos (by decide)]


theorem file_read_remove (fs : List (List Nat × List Nat)) (path : List Nat) :
    file_read (file_remove fs path) path = none := by
  unfold file_read file_remove
  rw [Option.map_eq_none', List.find?_eq_none]
  intro x hx
  rw [List.mem_filter] at hx
  simpa using hx.2

/-- With the write to the requester succeeding, `cr_rooms_delete` returns
`SUCCESS` or `FAILURE`. -/
theorem cr_rooms_delete_rc (env : env_t) (srv : server_t) (p q : Nat) (p_buffer : List Nat)
    (hok : env.ssl_ok p = true) :
    (cr_rooms_delete env srv p q p_buffer).rc = SUCCESS ∨
    (cr_rooms_delete env srv p q p_buffer).rc = FAILURE := by
  unfold cr_rooms_delete cr_rooms_delete_helper
  simp only [cr_msg_send_rej, cr_msg_send_ack, hok, if_true]
  by_cases h1 : (user_at srv q).admin_status ≠ ADMIN
  · rw [if_pos h1]; exact Or.inl rfl
  · rw [if_neg h1]
    cases h_table_return_entry srv.rooms.p_rooms_table (req_p_room_name p_buffer) with
    | none => exact Or.inl rfl
    | some t =>
      simp only []
      by_cases h2 : (room_at srv t).p_users.length ≠ 0
      · rw [if_pos h2]; exact Or.inl rfl
      · rw [if_neg h2]
        by_cases h3 : (h_table_destroy_entry srv.rooms.p_rooms_table
            (req_p_room_name p_buffer)).1 = none
        · rw [if_pos h3]; exact Or.inr rfl
        · rw [if_neg h3]
          by_cases h4 : file_read srv.room_logs (c_str (room_at srv t).p_room_location) = none
          · rw [if_pos h4]; exact Or.inr rfl
          · rw [if_neg h4]; exact Or.inl rfl

/-- The state and reply of `cr_rooms_delete` when the requester is ADMIN, an
empty room is found for the name, its log file is there and the write
succeeds. -/
theorem cr_rooms_delete_ok (env : env_t) (srv : server_t) (p_ssl q p : Nat)
    (p_buffer : List Nat)
    (hok : env.ssl_ok p_ssl = true)
    (ha : (user_at srv q).admin_status = ADMIN)
    (hf : h_table_return_entry srv.rooms.p_rooms_table (req_p_room_name p_buffer) = some p)
    (hin : (room_at srv p).p_users = [])
    (hfile : file_read srv.room_logs (c_str (room_at srv p).p_room_location) ≠ none) :
    cr_rooms_delete env srv p_ssl q p_buffer =
      { rc := SUCCESS,
        srv := { srv with
          rooms := { srv.rooms with
            p_rooms_table := (h_table_destroy_entry srv.rooms.p_rooms_table
              (req_p_room_name p_buffer)).2,
            room_count := (srv.rooms.room_count + 255) % 256 },
          room_logs := file_remove srv.room_logs (c_str (room_at srv p).p_room_location),
          room_names_log := (cr_rooms_delete_h_file srv
            (req_p_room_name p_buffer)).room_names_log },
        out := [{ dest := p_ssl, data := [ROOMS_TYPE, DEL_STYPE, ACKNOWLEDGE] }] } := by
  have ha' : ¬ (user_at srv q).admin_status ≠ ADMIN := fun h => h ha
  have hin' : ¬ (room_at srv p).p_users.length ≠ 0 := by rw [hin]; simp
  have hd1 := (h_table_destroy_entry_found srv.rooms.p_rooms_table (req_p_room_name p_buffer) p
    hf).1
  have hd1' : ¬ (h_table_destroy_entry srv.rooms.p_rooms_table
      (req_p_room_name p_buffer)).1 = none := by rw [hd1]; simp
  unfold cr_rooms_delete cr_rooms_delete_helper
  rw [if_neg ha', hf]
  simp only []
  rw [if_neg hin', if_neg hd1', if_neg hfile]
  simp [cr_msg_send_ack, hok, cr_rooms_delete_h_file]

/-- C13: a room DELETE request handled in LOGGED_IN state is answered by the
first rule that applies: the requester is not ADMIN gives ADMIN_PRIV; no room
found for the name gives ROOM_DOES_NOT_EXIST; the member list of the room is
not empty gives ROOM_IN_USE; a rejection changes nothing at all. Otherwise,
the log file of the room being there to remove and `room_count` being a
positive 8-bit value, the reply is ACK, no room is found for the name any
more, `room_count` is one less, every other room is still found, no member
list has changed and the log file is gone. The write to the requesting
client is taken to succeed and the keys of the room table to be pairwise
different, as `cr_rooms_create` leaves them. -/
theorem C13_room_delete_first_rule (env : env_t) (srv : server_t) (sess : session_t)
    (p_buffer : List Nat) (q : Nat)
    (hlog : sess.logged_in ≠ NOT_LOGGED_IN) (hchat : sess.chatting = NOT_CHATTING)
    (huser : sess.pp_user = some q)
    (htype : c_byte p_buffer 0 = ROOMS_TYPE)
    (hsub : c_byte p_buffer 1 = DEL_STYPE)
    (hop : c_byte p_buffer 2 = REQUEST)
    (hok : env.ssl_ok sess.p_ssl_holder = true)
    (hd : (h_table_list srv.rooms.p_rooms_table).Pairwise
      (fun a b => c_strncmp_eq a.p_key b.p_key KEY_LENGTH = false)) :
    let r := cr_sm_handle env srv sess p_buffer
    let found := h_table_return_entry srv.rooms.p_rooms_table (req_p_room_name p_buffer)
    let rejected := fun (code : Nat) => r =
      { rc := SUCCESS, srv := srv, sess := sess,
        out := [{ dest := sess.p_ssl_holder, data := [ROOMS_TYPE, DEL_STYPE, REJECT, code] }] }
    ((user_at srv q).admin_status ≠ ADMIN → rejected ADMIN_PRIV) ∧
    ((user_at srv q).admin_status = ADMIN →
      (found = none → rejected ROOM_DOES_NOT_EXIST) ∧
      (∀ p, found = some p →
        ((room_at srv p).p_users ≠ [] → rejected ROOM_IN_USE) ∧
        ((room_at srv p).p_users = [] →
          file_read srv.room_logs (c_str (room_at srv p).p_room_location) ≠ none →
          0 < srv.rooms.room_count → srv.rooms.room_count < 256 →
            r.rc = SUCCESS ∧ r.sess = sess ∧
            r.out = [{ dest := sess.p_ssl_holder,
                       data := [ROOMS_TYPE, DEL_STYPE, ACKNOWLEDGE] }] ∧
            h_table_return_entry r.srv.rooms.p_rooms_table (req_p_room_name p_buffer) = none ∧
            r.srv.rooms.room_count + 1 = srv.rooms.room_count ∧
            (∀ k p2, h_table_return_entry srv.rooms.p_rooms_table k = some p2 → p2 ≠ p →
              h_table_return_entry r.srv.rooms.p_rooms_table k = some p2) ∧
            r.srv.room_mem = srv.room_mem ∧
            file_read r.srv.room_logs (c_str (room_at srv p).p_room_location) = none))) := by
  intro r found rejected
  have hr : r = (cr_rooms_delete env srv sess.p_ssl_holder q p_buffer).with_sess sess := by
    show cr_sm_handle env srv sess p_buffer = _
    rw [cr_sm_handle_rooms env srv sess p_buffer q hlog hchat huser htype hop]
    have hls : cr_sm_ls_rooms env srv sess q p_buffer (c_byte p_buffer 1) =
        (cr_rooms_delete env srv sess.p_ssl_holder q p_buffer).with_sess sess := by
      unfold cr_sm_ls_rooms
      rw [hsub]
      rw [if_neg (by decide), if_neg (by decide), if_neg (by decide), if_pos rfl]
    rw [hls]
    have hne : ((cr_rooms_delete env srv sess.p_ssl_holder q p_buffer).with_sess sess).rc ≠
        NO_MATCH := by
      show (cr_rooms_delete env srv sess.p_ssl_holder q p_buffer).rc ≠ NO_MATCH
      rcases cr_rooms_delete_rc env srv sess.p_ssl_holder q p_buffer hok with h | h <;>
        rw [h] <;> decide
    rw [if_pos hne]
  refine ⟨?_, ?_⟩
  · intro ha
    show r = _
    rw [hr]
    unfold cr_rooms_delete
    rw [if_pos ha]
    simp [res_t.with_sess, cr_msg_send_rej, hok]
  · intro ha
    have ha' : ¬ (user_at srv q).admin_status ≠ ADMIN := fun h => h ha
    refine ⟨?_, ?_⟩
    · intro hf
      have hf' : h_table_return_entry srv.rooms.p_rooms_table (req_p_room_name p_buffer) =
          none := hf
      show r = _
      rw [hr]
      unfold cr_rooms_delete cr_rooms_delete_helper
      rw [if_neg ha', hf']
      simp [res_t.with_sess, cr_msg_send_rej, hok]
    · intro p hf
      have hf' : h_table_return_entry srv.rooms.p_rooms_table (req_p_room_name p_buffer) =
          some p := hf
      refine ⟨?_, ?_⟩
      · intro hin
        have hin' : (room_at srv p).p_users.length ≠ 0 := by
          rw [Ne, List.length_eq_zero]; exact hin
        show r = _
        rw [hr]
        unfold cr_rooms_delete cr_rooms_delete_helper
        rw [if_neg ha', hf']
        simp only []
        rw [if_pos hin']
        simp [res_t.with_sess, cr_msg_send_rej, hok]
      · intro hin hfile hc0 hc1
        obtain ⟨_, hcap, hlen, hslot⟩ :=
          h_table_destroy_entry_found srv.rooms.p_rooms_table (req_p_room_name p_buffer) p hf'
        have hreq := cr_rooms_delete_ok env srv sess.p_ssl_holder q p p_buffer hok ha hf' hin
          hfile
        have hidx : ∀ k, h_table_index (h_table_destroy_entry srv.rooms.p_rooms_table
            (req_p_room_name p_buffer)).2 k = h_table_index srv.rooms.p_rooms_table k := by
          intro k
          unfold h_table_index
          rw [hcap]
        rw [hr, hreq]
        refine ⟨rfl, rfl, rfl, ?_, ?_, ?_, rfl, ?_⟩
        · show h_table_return_entry (h_table_destroy_entry srv.rooms.p_rooms_table
            (req_p_room_name p_buffer)).2 (req_p_room_name p_buffer) = none
          rw [h_table_return_entry_eq_find, hslot, hidx, if_pos rfl]
          exact h_table_find_remove_self _ _ (pairwise_slot _ _ hd)
        · show (srv.rooms.room_count + 255) % 256 + 1 = srv.rooms.room_count
          omega
        · intro k p2 hk hne
          show h_table_return_entry (h_table_destroy_entry srv.rooms.p_rooms_table
            (req_p_room_name p_buffer)).2 k = some p2
          rw [h_table_return_entry_eq_find, hslot, hidx]
          rw [h_table_return_entry_eq_find] at hk hf'
          by_cases hi : h_table_index srv.rooms.p_rooms_table k =
              h_table_index srv.rooms.p_rooms_table (req_p_room_name p_buffer)
          · rw [if_pos hi]
            rw [hi] at hk ⊢
            exact h_table_find_remove_other _ _ _ p p2 hf' hk hne
          · rw [if_neg hi]
            exact hk
        · exact file_read_remove _ _

/-- C13 at the request of `admin` to delete the empty room `lobby`: no room
is found for the name afterwards. -/
theorem C13_witness :
    h_table_return_entry
      (cr_sm_handle env_ok step_room.srv step_admin_in.sess delete_lobby).srv.rooms.p_rooms_table
      (req_p_room_name delete_lobby) = none :=
  ((((C13_room_delete_first_rule env_ok step_room.srv step_admin_in.sess delete_lobby 0
    (by decide) (by decide) (by decide) (by decide) (by decide) (by decide) (by decide)
    (by decide)).2 (by decide)).2 0 (by decide)).2 (by decide) (by decide) (by decide)
    (by decide)).2.2.2.1

end RoomDelete

section LogRotation

theorem c_fgets_spec (k : Nat) (s : List Nat) :
    (c_fgets k s).1 ++ (c_fgets k s).2 = s ∧ (c_fgets k s).1.length ≤ k ∧
    (0 < k → s ≠ [] → (c_fgets k s).1 ≠ []) := by
  induction k generalizing s with
  | zero => simp [c_fgets]
  | succ k ih =>
    cases s with
    | nil => simp [c_fgets]
    | cons c s =>
      unfold c_fgets
      by_cases hc : c = 10
      · simp [hc]
      · obtain ⟨h1, h2, _⟩ := ih s
        simp only [hc, if_false]
        refine ⟨by simp [h1], by simp; omega, by simp⟩

theorem file_read_write (fs : List (List Nat × List Nat)) (path content : List Nat) :
    file_read (file_write fs path content) path = some content := by
  unfold file_read file_write
  simp

/-- The pieces that `cr_chats_rotate_file` keeps of a file without zero
bytes form the rest of the file from some offset; when the count starts at
most at 512, the count at that offset exceeds 512 by at most 180 unless the
whole file is dropped. -/
theorem cr_chats_rotate_loop_drop (fuel : Nat) (s : List Nat) (t : Nat)
    (hfuel : s.length ≤ fuel) (hz : 0 ∉ s) :
    ∃ j, j ≤ s.length ∧
      cr_chats_rotate_loop (c_fgets_all 180 fuel s) t = s.drop j ∧
      (512 < t → j = 0) ∧
      (t ≤ 512 → (512 < t + j ∧ t + j ≤ 692) ∨ (j = s.length ∧ t + j ≤ 512)) := by
  induction fuel generalizing s t with
  | zero =>
    have hs : s = [] := List.length_eq_zero.mp (Nat.le_zero.mp hfuel)
    subst hs
    refine ⟨0, le_refl _, by simp [c_fgets_all, cr_chats_rotate_loop], fun _ => rfl, ?_⟩
    intro ht
    exact Or.inr ⟨rfl, by omega⟩
  | succ fuel ih =>
    by_cases hs : s = []
    · subst hs
      refine ⟨0, le_refl _, by simp [c_fgets_all, cr_chats_rotate_loop], fun _ => rfl, ?_⟩
      intro ht
      exact Or.inr ⟨rfl, by omega⟩
    · obtain ⟨h1, h2, h3⟩ := c_fgets_spec 180 s
      have h3' := h3 (by decide) hs
      have hlen1 : 0 < (c_fgets 180 s).1.length := List.length_pos.mpr h3'
      have hsl : s.length = (c_fgets 180 s).1.length + (c_fgets 180 s).2.length := by
        conv_lhs => rw [← h1]
        rw [List.length_append]
      have hz1 : 0 ∉ (c_fgets 180 s).1 := fun h => hz (by rw [← h1]; exact List.mem_append_left _ h)
      have hz2 : 0 ∉ (c_fgets 180 s).2 := fun h => hz (by rw [← h1]; exact List.mem_append_right _ h)
      have hstr : c_str (c_fgets 180 s).1 = (c_fgets 180 s).1 := c_str_eq_self _ hz1
      have hstrlen : c_strlen (c_fgets 180 s).1 = (c_fgets 180 s).1.length := by
        unfold c_strlen; rw [hstr]
      obtain ⟨j, hj1, hj2, hj3, hj4⟩ := ih (c_fgets 180 s).2 (t + (c_fgets 180 s).1.length)
        (by omega) hz2
      have hunf : cr_chats_rotate_loop (c_fgets_all 180 (fuel + 1) s) t =
          (if t > MAX_CHAT_FILE_SIZE / 2 then (c_fgets 180 s).1 else []) ++
            cr_chats_rotate_loop (c_fgets_all 180 fuel (c_fgets 180 s).2)
              (t + (c_fgets 180 s).1.length) := by
        conv_lhs => unfold c_fgets_all
        simp only [hs, if_false]
        rw [cr_chats_rotate_loop, hstr, hstrlen]
      rw [hunf, hj2]
      have hhalf : MAX_CHAT_FILE_SIZE / 2 = 512 := by decide
      rw [hhalf]
      by_cases ht : 512 < t
      · have hj0 : j = 0 := hj3 (by omega)
        subst hj0
        refine ⟨0, Nat.zero_le _, ?_, fun _ => rfl, fun h => absurd ht (by omega)⟩
        rw [if_pos ht]
        simp [h1]
      · rw [if_neg ht]
        refine ⟨(c_fgets 180 s).1.length + j, by omega, ?_, fun h => absurd h ht, ?_⟩
        · have hdrop : List.drop ((c_fgets 180 s).1.length + j)
              ((c_fgets 180 s).1 ++ (c_fgets 180 s).2) = List.drop j (c_fgets 180 s).2 :=
            List.drop_append _
          rw [h1] at hdrop
          rw [List.nil_append]
          exact hdrop.symm
        · intro _
          by_cases ht2 : 512 < t + (c_fgets 180 s).1.length
          · have hj0 : j = 0 := hj3 ht2
            subst hj0
            exact Or.inl ⟨by omega, by omega⟩
          · rcases hj4 (by omega) with ⟨ha, hb⟩ | ⟨ha, hb⟩
            · exact Or.inl ⟨by omega, by omega⟩
            · exact Or.inr ⟨by omega, by omega⟩


theorem c_str_append_of_mem (a b : List Nat) (h : 0 ∈ a) : c_str (a ++ b) = c_str a := by
  unfold c_str
  induction a with
  | nil => simp at h
  | cons x xs ih =>
    by_cases hx : x = 0
    · subst hx; simp
    · have hm : 0 ∈ xs := by
        rcases List.mem_cons.mp h with h1 | h1
        · exact absurd h1.symm hx
        · exact h1
      simp [hx, ih hm]

/-- What `cr_chats_chat_file` leaves in the log: the old content with the new
line appended when that has at most 1024 bytes, and otherwise what is left
after an offset between 513 and 692 is dropped from it. -/
theorem cr_chats_chat_file_eq (content p_username p_chat : List Nat) (hz : 0 ∉ content) :
    (content ++ c_str p_username ++ [62] ++ c_str p_chat ++ [10]).length ≤ 1024 ∧
      cr_chats_chat_file content p_username p_chat =
        content ++ c_str p_username ++ [62] ++ c_str p_chat ++ [10] ∨
    1025 ≤ (content ++ c_str p_username ++ [62] ++ c_str p_chat ++ [10]).length ∧
      ∃ k, 512 < k ∧ k ≤ 692 ∧ cr_chats_chat_file content p_username p_chat =
        (content ++ c_str p_username ++ [62] ++ c_str p_chat ++ [10]).drop k := by
  unfold cr_chats_chat_file
  simp only []
  have hC : 0 ∉ content ++ c_str p_username ++ [62] ++ c_str p_chat ++ [10] := by
    simp only [List.mem_append, List.mem_singleton, not_or]
    exact ⟨⟨⟨⟨hz, zero_not_mem_c_str _⟩, by decide⟩, zero_not_mem_c_str _⟩, by decide⟩
  generalize content ++ c_str p_username ++ [62] ++ c_str p_chat ++ [10] = C at hC ⊢
  by_cases h : C.length > MAX_CHAT_FILE_SIZE
  · rw [if_pos h]
    have h' : 1025 ≤ C.length := h
    refine Or.inr ⟨h', ?_⟩
    obtain ⟨j, hj1, hj2, _, hj4⟩ := cr_chats_rotate_loop_drop C.length C 0 (le_refl _) hC
    unfold cr_chats_rotate_file
    rcases hj4 (by omega) with ⟨ha, hb⟩ | ⟨ha, hb⟩
    · exact ⟨j, by omega, by omega, hj2⟩
    · omega
  · rw [if_neg h]
    have h' : C.length ≤ 1024 := Nat.le_of_not_gt h
    exact Or.inl ⟨h', rfl⟩

/-- C17: a CHAT handled in CHATTING state for a sender `q` whose stored name
is terminated, in a room whose log `L` holds no zero byte. With `u` the name,
`m` the message after the forced terminator (at most 150 characters) and
`C = L ++ u ++ '>' ++ m ++ newline`: if `C` has at most 1024 bytes the log
afterwards is `C`; if `C` has 1025 bytes or more the log afterwards is `C`
without its first `k` bytes for some `k` from 513 to 692, so it is a proper
suffix of `C` that starts after the first 512 bytes and keeps at least the
last 333 bytes of `C`, which hold the whole of the new line (at most 182
bytes). -/
theorem C17_chat_log_rotation (env : env_t) (srv : server_t) (sess : session_t)
    (p_buffer : List Nat) (q p_room : Nat)
    (hlog : sess.logged_in ≠ NOT_LOGGED_IN) (hchat : sess.chatting ≠ NOT_CHATTING)
    (huser : sess.pp_user = some q)
    (htype : c_byte p_buffer 0 = CHAT_TYPE) (hsub : c_byte p_buffer 1 = CHAT_STYPE)
    (hop : c_byte p_buffer 2 = REQUEST)
    (hroom : h_table_return_entry srv.rooms.p_rooms_table (user_at srv q).p_chat_room =
      some p_room)
    (hsize : (user_at srv q).p_username.length = 31)
    (hname : 0 ∈ (user_at srv q).p_username)
    (hL : 0 ∉ (file_read srv.room_logs (c_str (room_at srv p_room).p_room_location)).getD []) :
    let path := c_str (room_at srv p_room).p_room_location
    let L := (file_read srv.room_logs path).getD []
    let u := c_str (user_at srv q).p_username
    let m := c_str (req_p_chat p_buffer)
    let C := L ++ u ++ [62] ++ m ++ [10]
    let r := cr_sm_handle env srv sess p_buffer
    m.length ≤ 150 ∧ u.length + 1 + m.length + 1 ≤ 182 ∧
    (C.length ≤ 1024 → file_read r.srv.room_logs path = some C) ∧
    (1025 ≤ C.length →
      ∃ k, 512 < k ∧ k ≤ 692 ∧ k < C.length ∧
        file_read r.srv.room_logs path = some (C.drop k)) := by
  intro path L u m C r
  have hm : m.length ≤ 150 := by
    show (c_str (req_p_chat p_buffer)).length ≤ 150
    unfold req_p_chat
    rw [c_str_set_nul, List.length_take]
    exact Nat.min_le_left _ _
  have hu : u.length ≤ 30 := by
    show (c_str (user_at srv q).p_username).length ≤ 30
    have h1 := c_strlen_le_length (user_at srv q).p_username
    unfold c_strlen at h1
    by_contra hgt
    have h2 : (c_str (user_at srv q).p_username).length = (user_at srv q).p_username.length := by
      omega
    have h3 : c_str (user_at srv q).p_username = (user_at srv q).p_username :=
      (List.takeWhile_sublist _).eq_of_length h2
    exact zero_not_mem_c_str (user_at srv q).p_username (by rw [h3]; exact hname)
  have hr : file_read r.srv.room_logs path =
      some (cr_chats_chat_file L (user_name_str (user_at srv q)) (req_p_chat p_buffer)) := by
    show file_read (cr_sm_handle env srv sess p_buffer).srv.room_logs path = _
    unfold cr_sm_handle cr_sm_chat_state
    rw [if_neg hlog, if_neg hchat, huser]
    simp only [htype, hsub, hop]
    rw [if_pos (by decide), if_pos (by decide)]
    unfold cr_chats_chat
    rw [hroom]
    exact file_read_write _ _ _
  have hus : c_str (user_name_str (user_at srv q)) = u := by
    unfold user_name_str
    rw [List.append_assoc, c_str_append_of_mem _ _ hname]
    unfold c_str
    rw [List.takeWhile_idem]
    rfl
  have hcases := cr_chats_chat_file_eq L (user_name_str (user_at srv q)) (req_p_chat p_buffer) hL
  rw [hus] at hcases
  refine ⟨hm, by omega, ?_, ?_⟩
  · intro hle
    rw [hr]
    rcases hcases with ⟨_, h2⟩ | ⟨h1, _⟩
    · rw [h2]
    · have h1' : 1025 ≤ C.length := h1
      omega
  · intro hge
    rcases hcases with ⟨h1, _⟩ | ⟨_, k, hk1, hk2, hk3⟩
    · have h1' : C.length ≤ 1024 := h1
      omega
    · exact ⟨k, hk1, hk2, by omega, by rw [hr, hk3]⟩

/-- C17 at the chat `hi` of `alice` in the room `lobby`, whose log is empty:
the log afterwards is the line `alice>hi`. -/
theorem C17_witness :
    file_read (cr_sm_handle env_ok step_bob_joined.srv step_alice_joined.sess chat_hi).srv.room_logs
      (c_str (room_at step_bob_joined.srv 0).p_room_location) =
      some (name_alice ++ [62] ++ text_hi ++ [10]) :=
  ((C17_chat_log_rotation env_ok step_bob_joined.srv step_alice_joined.sess chat_hi 1 0
    (by decide) (by decide) (by decide) (by decide) (by decide) (by decide) (by decide)
    (by decide) (by decide) (by decide)).2.2.1 (by decide)).trans (by decide)

end LogRotation

section Truncation

theorem c_field_length (buf : List Nat) (off len : Nat) : (c_field buf off len).length = len := by
  unfold c_field
  simp

theorem c_field_getElem? (buf : List Nat) (off len i : Nat) :
    (c_field buf off len)[i]? = if i < len then some (c_byte buf (off + i)) else none := by
  unfold c_field c_byte
  simp only []
  by_cases hi : i < len
  · rw [if_pos hi]
    by_cases h2 : off + i < buf.length
    · rw [List.getElem?_append_left (by simp; omega)]
      simp [List.getElem?_take, hi, List.getD_eq_getElem?_getD, List.getElem?_eq_getElem h2]
    · rw [List.getElem?_append_right (by simp; omega)]
      simp [List.getD_eq_getElem?_getD, List.getElem?_eq_none (by omega : buf.length ≤ off + i)]
      rw [List.getElem?_replicate]
      have h3 : i - len ⊓ (buf.length - off) < len - len ⊓ (buf.length - off) := by
        have : len ⊓ (buf.length - off) ≤ i := by
          rw [Nat.min_def]; split_ifs <;> omega
        omega
      rw [if_pos h3]
  · rw [if_neg hi]
    rw [List.getElem?_eq_none]
    simp
    omega


theorem c_byte_set_ne (buf : List Nat) (i j v : Nat) (h : i ≠ j) :
    c_byte (buf.set j v) i = c_byte buf i := by
  unfold c_byte
  rw [List.getD_eq_getElem?_getD, List.getD_eq_getElem?_getD, List.getElem?_set_ne (Ne.symm h)]

/-- A field with its last byte set to zero depends on the bytes before the
last only. -/
theorem c_set_nul_field_congr (b1 b2 : List Nat) (off n : Nat)
    (h : ∀ i, i < n → c_byte b1 (off + i) = c_byte b2 (off + i)) :
    c_set_nul (c_field b1 off (n + 1)) n = c_set_nul (c_field b2 off (n + 1)) n := by
  unfold c_set_nul
  apply List.ext_getElem?
  intro i
  rw [List.getElem?_set, List.getElem?_set, c_field_length, c_field_length,
    c_field_getElem?, c_field_getElem?]
  by_cases hi : n = i
  · simp [hi]
  · simp only [hi, if_false]
    by_cases h2 : i < n + 1
    · rw [if_pos h2, if_pos h2, h i (by omega)]
    · rw [if_neg h2, if_neg h2]

/-- The fields of a REGISTER request do not depend on the bytes 33 and 64,
the last byte of each field. -/
theorem req_fields_truncated (p_buffer : List Nat) :
    req_p_username ((p_buffer.set 33 0).set 64 0) = req_p_username p_buffer ∧
    req_p_password ((p_buffer.set 33 0).set 64 0) = req_p_password p_buffer := by
  unfold req_p_username req_p_password
  simp only [MAX_USERNAME_LENGTH, MAX_PASSWORD_LENGTH]
  constructor
  · apply c_set_nul_field_congr
    intro i hi
    rw [c_byte_set_ne _ _ _ _ (by omega), c_byte_set_ne _ _ _ _ (by omega)]
  · apply c_set_nul_field_congr
    intro i hi
    rw [c_byte_set_ne _ _ _ _ (by omega), c_byte_set_ne _ _ _ _ (by omega)]

/-- A field of 31 bytes that are all different from zero holds, after its
last byte is set to zero, a string of 30 characters. -/
theorem c_str_set_nul_field_full (p_buffer : List Nat) (off : Nat)
    (h : ∀ i, i < 31 → c_byte p_buffer (off + i) ≠ 0) :
    (c_str (c_set_nul (c_field p_buffer off 31) 30)).length = 30 := by
  have hz : 0 ∉ c_field p_buffer off 31 := by
    intro hm
    obtain ⟨i, hi⟩ := List.mem_iff_getElem?.mp hm
    rw [c_field_getElem?] at hi
    by_cases h2 : i < 31
    · rw [if_pos h2] at hi
      exact h i h2 (Option.some.inj hi)
    · rw [if_neg h2] at hi
      exact Option.noConfusion hi
  rw [c_str_set_nul, c_str_eq_self _ hz, List.length_take, c_field_length]
  rfl

/-- The writes of `cr_users_register`: nothing, the rejection USER_EXISTS,
the rejection with the code of the validation, or the acknowledgement. -/
theorem cr_users_register_out (env : env_t) (srv : server_t) (p : Nat) (p_buffer : List Nat) :
    (cr_users_register env srv p p_buffer).out = [] ∨
    (cr_users_register env srv p p_buffer).out =
      [{ dest := p, data := [ACCOUNT_TYPE, REGISTER_STYPE, REJECT, USER_EXISTS] }] ∨
    (cr_users_register env srv p p_buffer).out =
      [{ dest := p, data := [ACCOUNT_TYPE, REGISTER_STYPE, REJECT,
          cr_users_chk_usr_and_pass (req_p_username p_buffer) (req_p_password p_buffer)
            srv.users.user_count] }] ∨
    (cr_users_register env srv p p_buffer).out =
      [{ dest := p, data := [ACCOUNT_TYPE, REGISTER_STYPE, ACKNOWLEDGE] }] := by
  unfold cr_users_register
  simp only []
  by_cases h1 : h_table_return_entry srv.users.p_users_table (req_p_username p_buffer) ≠ none
  · rw [if_pos h1]
    rcases cr_msg_send_rej_cases env p ACCOUNT_TYPE REGISTER_STYPE USER_EXISTS with h | h
    · exact Or.inr (Or.inl (by rw [h]))
    · exact Or.inl (by rw [h])
  · rw [if_neg h1]
    by_cases h2 : cr_users_chk_usr_and_pass (req_p_username p_buffer) (req_p_password p_buffer)
        srv.users.user_count = FAILURE
    · rw [if_pos h2]
      exact Or.inl rfl
    · rw [if_neg h2]
      by_cases h3 : cr_users_chk_usr_and_pass (req_p_username p_buffer)
          (req_p_password p_buffer) srv.users.user_count ≠ SUCCESS
      · rw [if_pos h3]
        rcases cr_msg_send_rej_cases env p ACCOUNT_TYPE REGISTER_STYPE
          (cr_users_chk_usr_and_pass (req_p_username p_buffer) (req_p_password p_buffer)
            srv.users.user_count) with h | h
        · exact Or.inr (Or.inr (Or.inl (by rw [h])))
        · exact Or.inl (by rw [h])
      · rw [if_neg h3]
        unfold cr_users_reg_helper
        simp only []
        split_ifs with h4 h5
        · exact Or.inl rfl
        · rcases cr_msg_send_ack_cases env p ACCOUNT_TYPE REGISTER_STYPE with h | h
          · exact Or.inr (Or.inr (Or.inr (by rw [h])))
          · exact Or.inl (by rw [h])
        · rcases cr_msg_send_ack_cases env p ACCOUNT_TYPE REGISTER_STYPE with h | h
          · exact Or.inr (Or.inr (Or.inr (by rw [h])))
          · exact Or.inl (by rw [h])

theorem cr_users_register_truncated (env : env_t) (srv : server_t) (p : Nat)
    (p_buffer : List Nat) :
    cr_users_register env srv p ((p_buffer.set 33 0).set 64 0) =
      cr_users_register env srv p p_buffer := by
  unfold cr_users_register
  rw [(req_fields_truncated p_buffer).1, (req_fields_truncated p_buffer).2]

theorem write_data_ne (p : Nat) (d1 d2 : List Nat) (h : d1 ≠ d2) :
    [({ dest := p, data := d1 } : write_t)] ≠ [{ dest := p, data := d2 }] := by
  intro e
  injection e with e1 _
  injection e1 with _ e2
  exact h e2

/-- The validation does not answer USER_NAME_LEN for a user name that is not
empty, nor PASS_LEN for a password of five characters or more. -/
theorem cr_users_chk_usr_and_pass_len (p_buffer : List Nat) (user_count : Nat) :
    (c_str (req_p_username p_buffer) ≠ [] →
      cr_users_chk_usr_and_pass (req_p_username p_buffer) (req_p_password p_buffer)
        user_count ≠ USER_NAME_LEN) ∧
    (5 ≤ (c_str (req_p_password p_buffer)).length →
      cr_users_chk_usr_and_pass (req_p_username p_buffer) (req_p_password p_buffer)
        user_count ≠ PASS_LEN) := by
  rw [cr_users_chk_usr_and_pass_eq _ _ _ (c_strlen_req_p_username p_buffer)
    (c_strlen_req_p_password p_buffer)]
  constructor
  · intro h
    rw [if_neg h]
    split_ifs <;> decide
  · intro h
    rw [if_neg (by omega : ¬ (c_str (req_p_password p_buffer)).length < 5)]
    split_ifs <;> decide

/-- C20, amended: a REGISTER request handled for a client that is not logged
in is handled exactly as the request whose bytes 33 and 64, the 31st byte of
the user name field and of the password field, are replaced by the
terminator. The user name and the password that are validated and stored are
the first 30 characters of the fields; a field of 31 bytes that are all
different from zero is cut to 30 characters, and the request is not answered
with USER_NAME_LEN for such a user name field nor with PASS_LEN for such a
password field. -/
theorem C20_overlong_truncated (env : env_t) (srv : server_t) (sess : session_t)
    (p_buffer : List Nat) (hstate : sess.logged_in = NOT_LOGGED_IN)
    (htype : c_byte p_buffer 0 = ACCOUNT_TYPE) (hsub : c_byte p_buffer 1 = REGISTER_STYPE)
    (hop : c_byte p_buffer 2 = REQUEST) :
    cr_sm_handle env srv sess ((p_buffer.set 33 0).set 64 0) =
      cr_sm_handle env srv sess p_buffer ∧
    c_str (req_p_username p_buffer) = (c_str (c_field p_buffer 3 31)).take 30 ∧
    c_str (req_p_password p_buffer) = (c_str (c_field p_buffer 34 31)).take 30 ∧
    ((∀ i, i < 31 → c_byte p_buffer (3 + i) ≠ 0) →
      (c_str (req_p_username p_buffer)).length = 30 ∧
      (cr_sm_handle env srv sess p_buffer).out ≠
        [{ dest := sess.p_ssl_holder,
           data := [ACCOUNT_TYPE, REGISTER_STYPE, REJECT, USER_NAME_LEN] }]) ∧
    ((∀ i, i < 31 → c_byte p_buffer (34 + i) ≠ 0) →
      (c_str (req_p_password p_buffer)).length = 30 ∧
      (cr_sm_handle env srv sess p_buffer).out ≠
        [{ dest := sess.p_ssl_holder,
           data := [ACCOUNT_TYPE, REGISTER_STYPE, REJECT, PASS_LEN] }]) := by
  have hset : ∀ i, i < 3 → c_byte ((p_buffer.set 33 0).set 64 0) i = c_byte p_buffer i := by
    intro i hi
    rw [c_byte_set_ne _ _ _ _ (by omega), c_byte_set_ne _ _ _ _ (by omega)]
  have hout : (cr_sm_handle env srv sess p_buffer).out =
      (cr_users_register env srv sess.p_ssl_holder p_buffer).out := by
    rw [cr_sm_handle_register env srv sess p_buffer hstate htype hsub hop]
    rfl
  refine ⟨?_, ?_, ?_, ?_, ?_⟩
  · rw [cr_sm_handle_register env srv sess p_buffer hstate htype hsub hop,
      cr_sm_handle_register env srv sess _ hstate ((hset 0 (by omega)).trans htype)
        ((hset 1 (by omega)).trans hsub) ((hset 2 (by omega)).trans hop),
      cr_users_register_truncated]
  · unfold req_p_username
    rw [c_str_set_nul]
  · unfold req_p_password
    rw [c_str_set_nul]
    rfl
  · intro hfull
    have hlen : (c_str (req_p_username p_buffer)).length = 30 :=
      c_str_set_nul_field_full p_buffer 3 hfull
    refine ⟨hlen, ?_⟩
    have hne : c_str (req_p_username p_buffer) ≠ [] := by
      intro h0
      rw [h0] at hlen
      exact absurd hlen (by decide)
    have hchk := (cr_users_chk_usr_and_pass_len p_buffer srv.users.user_count).1 hne
    rw [hout]
    rcases cr_users_register_out env srv sess.p_ssl_holder p_buffer with h | h | h | h
    · rw [h]
      exact fun e => List.noConfusion e
    · rw [h]
      exact write_data_ne _ _ _ (by decide)
    · rw [h]
      exact write_data_ne _ _ _ (fun e => hchk (by injection e with _ e; injection e with _ e; injection e with _ e; injection e))
    · rw [h]
      exact write_data_ne _ _ _ (by decide)
  · intro hfull
    have hlen : (c_str (req_p_password p_buffer)).length = 30 :=
      c_str_set_nul_field_full p_buffer 34 hfull
    refine ⟨hlen, ?_⟩
    have hchk := (cr_users_chk_usr_and_pass_len p_buffer srv.users.user_count).2 (by omega)
    rw [hout]
    rcases cr_users_register_out env srv sess.p_ssl_holder p_buffer with h | h | h | h
    · rw [h]
      exact fun e => List.noConfusion e
    · rw [h]
      exact write_data_ne _ _ _ (by decide)
    · rw [h]
      exact write_data_ne _ _ _ (fun e => hchk (by injection e with _ e; injection e with _ e; injection e with _ e; injection e))
    · rw [h]
      exact write_data_ne _ _ _ (by decide)

/-- C20 at the REGISTER request whose user name field holds 31 letters. -/
theorem C20_witness :
    (session_init 1).logged_in = NOT_LOGGED_IN ∧
    c_byte register_name_31 0 = ACCOUNT_TYPE ∧
    c_byte register_name_31 1 = REGISTER_STYPE ∧
    c_byte register_name_31 2 = REQUEST ∧
    (c_str (req_p_username register_name_31)).length = 30 ∧
    (cr_sm_handle env_ok srv_0 (session_init 1) register_name_31).out ≠
      [{ dest := (session_init 1).p_ssl_holder,
         data := [ACCOUNT_TYPE, REGISTER_STYPE, REJECT, USER_NAME_LEN] }] :=
  ⟨by decide, by decide, by decide, by decide,
    (C20_overlong_truncated env_ok srv_0 (session_init 1) register_name_31 (by decide)
      (by decide) (by decide) (by decide)).2.2.2.1 (by decide)⟩

end Truncation

section StartupChecks

/-- The values `port_range_check` accepts: every `long` other than zero that
is at most 65535, the negative ones included. -/
theorem port_range_check_eq (port : Int) :
    port_range_check port = SUCCESS ↔ port ≠ 0 ∧ port ≤ 65535 := by
  unfold port_range_check
  by_cases h : 0 = port ∨ 65535 < port
  · rw [if_pos h]
    constructor
    · intro h1
      exact absurd h1 (by decide)
    · rintro ⟨h1, h2⟩
      rcases h with h | h
      · exact absurd h.symm h1
      · omega
  · rw [if_neg h]
    constructor
    · intro _
      constructor
      · intro h0
        exact h (Or.inl h0.symm)
      · omega
    · intro _
      rfl

/-- C26 fails at a negative port: `port_range_check` returns `SUCCESS` for
`-1`, and `set_config_members` accepts the configuration line `-1` as the
port, while it refuses the lines `0` and `65536`. The check accepts exactly
the values other than zero that are at most 65535. -/
theorem C26_port_range_check_accepts_negative :
    port_range_check (-1) = SUCCESS ∧
    c_strtol [45, 49, 10] = (-1, false) ∧
    set_config_members config_calloc [45, 49, 10] 1 =
      some { port := -1, max_rooms := 0, max_client := 0 } ∧
    set_config_members config_calloc [48, 10] 1 = none ∧
    set_config_members config_calloc [54, 53, 53, 51, 54, 10] 1 = none ∧
    (∀ port : Int, port_range_check port = SUCCESS ↔ port ≠ 0 ∧ port ≤ 65535) :=
  ⟨by decide, by decide, by decide, by decide, by decide, port_range_check_eq⟩

/-- The thread count of `cr_listener` passes the check of `t_pool_init`
exactly for `max_client` below 50. -/
theorem cr_listener_t_pool_eq (port : Int) (max_rooms m : Nat) :
    cr_listener_t_pool { port := port, max_rooms := max_rooms, max_client := m } = some (m + 1) ↔
      m < 50 := by
  unfold cr_listener_t_pool cr_listener_num_threads t_pool_input_check
  simp only [MAX_THREADS, FAILURE, SUCCESS]
  by_cases h : 0 ≥ (m + 1) % 256 ∨ 50 < (m + 1) % 256
  · rw [if_pos h, if_pos rfl]
    constructor
    · intro h1
      exact Option.noConfusion h1
    · intro h1
      rw [Nat.mod_eq_of_lt (by omega)] at h
      omega
  · rw [if_neg h, if_neg (by decide)]
    constructor
    · intro h1
      have h2 : (m + 1) % 256 = m + 1 := Option.some.inj h1
      omega
    · intro h1
      rw [Nat.mod_eq_of_lt (by omega)]

/-- C25 fails at `max_client` = 50: `set_config_members` accepts the
configuration line `50`, `cr_listener` asks `t_pool_init` for 51 threads, and
`t_pool_input_check` refuses every count above `MAX_THREADS` = 50, so the
pool is not created and the start fails. A pool of `max_client + 1` workers
is created exactly for `max_client` below 50. -/
theorem C25_t_pool_refuses_max_client_50 :
    set_config_members config_calloc [53, 48, 10] 3 =
      some { port := 0, max_rooms := 0, max_client := 50 } ∧
    cr_listener_num_threads { port := 0, max_rooms := 0, max_client := 50 } = 51 ∧
    t_pool_input_check 51 = FAILURE ∧
    cr_listener_t_pool { port := 0, max_rooms := 0, max_client := 50 } = none ∧
    set_config_members config_calloc [53, 49, 10] 3 = none ∧
    (∀ (port : Int) (max_rooms m : Nat),
      cr_listener_t_pool { port := port, max_rooms := max_rooms, max_client := m } =
        some (m + 1) ↔ m < 50) :=
  ⟨by decide, by decide, by decide, by decide, by decide, cr_listener_t_pool_eq⟩

end StartupChecks

section UpdateFrame

/-- The parts of a frame made of a header, 30 bytes, `>`, 150 bytes and a
zero byte. -/
theorem update_frame_parts (A M : List Nat) (hA : A.length = 30) (hM : M.length = 150) :
    ([2, 6, 3] ++ (A ++ ([62] ++ (M ++ [0])))).length = 185 ∧
    (([2, 6, 3] ++ (A ++ ([62] ++ (M ++ [0])))).drop 3).length = 182 ∧
    (([2, 6, 3] ++ (A ++ ([62] ++ (M ++ [0])))).drop 3).take 30 = A ∧
    c_byte (([2, 6, 3] ++ (A ++ ([62] ++ (M ++ [0])))).drop 3) 30 = 62 ∧
    ((([2, 6, 3] ++ (A ++ ([62] ++ (M ++ [0])))).drop 3).drop 31).take 150 = M ∧
    c_byte (([2, 6, 3] ++ (A ++ ([62] ++ (M ++ [0])))).drop 3) 181 = 0 := by
  have hd : List.drop 3 ([2, 6, 3] ++ (A ++ ([62] ++ (M ++ [0])))) = A ++ ([62] ++ (M ++ [0])) := rfl
  rw [hd]
  refine ⟨by simp [hA, hM], by simp [hA, hM], List.take_left' hA, ?_, ?_, ?_⟩
  · unfold c_byte
    rw [List.getD_eq_getElem?_getD, List.getElem?_append_right (by omega), hA]
    simp
  · have h31 : (A ++ [62]).length = 31 := by simp [hA]
    rw [← List.append_assoc, List.drop_left' h31]
    exact List.take_left' hM
  · unfold c_byte
    have h31 : (A ++ [62]).length = 31 := by simp [hA]
    rw [List.getD_eq_getElem?_getD, ← List.append_assoc,
      List.getElem?_append_right (by omega), h31,
      List.getElem?_append_right (by omega), hM]
    simp

/-- C24: for a user name of at most 30 characters and a message of at most
150 characters, `cr_msg_create_update` builds a frame of 185 bytes: the
header bytes 2 (CHAT), 6 (CHAT) and 3 (ACKNOWLEDGE), then a payload of 182
bytes that holds the user name padded with zero bytes to 30 bytes, the byte
`>` at payload index 30, the message padded with zero bytes to 150 bytes at
the payload indices 31 to 180, and a zero byte at payload index 181. -/
theorem C24_update_frame_layout (p_username p_chat : List Nat)
    (hu : c_strlen p_username ≤ 30) (hm : c_strlen p_chat ≤ 150) :
    cr_msg_create_update p_username p_chat =
      [CHAT_TYPE, CHAT_STYPE, ACKNOWLEDGE] ++
        (c_str p_username ++ List.replicate (30 - c_strlen p_username) 0 ++ [62] ++
          c_str p_chat ++ List.replicate (150 - c_strlen p_chat) 0 ++ [0]) ∧
    [CHAT_TYPE, CHAT_STYPE, ACKNOWLEDGE] = [2, 6, 3] ∧
    (cr_msg_create_update p_username p_chat).length = 185 ∧
    ((cr_msg_create_update p_username p_chat).drop 3).length = 182 ∧
    ((cr_msg_create_update p_username p_chat).drop 3).take 30 =
      c_str p_username ++ List.replicate (30 - c_strlen p_username) 0 ∧
    c_byte ((cr_msg_create_update p_username p_chat).drop 3) 30 = 62 ∧
    (((cr_msg_create_update p_username p_chat).drop 3).drop 31).take 150 =
      c_str p_chat ++ List.replicate (150 - c_strlen p_chat) 0 ∧
    c_byte ((cr_msg_create_update p_username p_chat).drop 3) 181 = 0 := by
  unfold c_strlen at hu hm ⊢
  have h1 : cr_msg_create_update p_username p_chat =
      [2, 6, 3] ++ ((c_str p_username ++ List.replicate (30 - (c_str p_username).length) 0) ++
        ([62] ++ ((c_str p_chat ++ List.replicate (150 - (c_str p_chat).length) 0) ++ [0]))) := by
    rw [cr_msg_create_update_eq, List.take_of_length_le hu, List.take_of_length_le hm]
  have hA : (c_str p_username ++ List.replicate (30 - (c_str p_username).length) 0).length = 30 := by
    rw [List.length_append, List.length_replicate]; omega
  have hM : (c_str p_chat ++ List.replicate (150 - (c_str p_chat).length) 0).length = 150 := by
    rw [List.length_append, List.length_replicate]; omega
  have hp := update_frame_parts _ _ hA hM
  rw [← h1] at hp
  refine ⟨?_, rfl, hp⟩
  rw [h1]
  simp only [CHAT_TYPE, CHAT_STYPE, ACKNOWLEDGE, List.append_assoc]

/-- C24 at the user name `alice` and the message `hi`: the frame has 185
bytes. -/
theorem C24_witness :
    c_strlen name_alice ≤ 30 ∧ c_strlen text_hi ≤ 150 ∧
    (cr_msg_create_update name_alice text_hi).length = 185 :=
  ⟨by decide, by decide,
    (C24_update_frame_layout name_alice text_hi (by decide) (by decide)).2.2.1⟩

end UpdateFrame

section StartupLoad

/-- The comparison `strncmp(name, "admin", strlen(name))` of
`cr_users_add_file_user` finds equality exactly when the name is a prefix of
`admin`. -/
theorem admin_flag_iff_prefix (x : List Nat) :
    c_strncmp_eq (c_str x) admin_text (c_str x).length = true ↔ c_str x <+: admin_text := by
  rw [c_strncmp_eq_iff, List.take_length]
  have h1 : c_str (c_str x) = c_str x := c_str_eq_self _ (zero_not_mem_c_str x)
  have h2 : c_str (admin_text.take (c_str x).length) = admin_text.take (c_str x).length := by
    apply c_str_eq_self
    intro h
    exact absurd (List.mem_of_mem_take h) (by decide)
  rw [h1, h2]
  exact List.prefix_iff_eq_take.symm

/-- `cr_users_register` never changes `user_count`. -/
theorem cr_users_register_user_count (env : env_t) (srv : server_t) (p : Nat)
    (p_buffer : List Nat) :
    (cr_users_register env srv p p_buffer).srv.users.user_count = srv.users.user_count := by
  unfold cr_users_register
  simp only []
  split_ifs
  · rfl
  · rfl
  · rfl
  · unfold cr_users_reg_helper cr_users_add_user_table cr_users_add_user_file
    simp only []
    split_ifs <;> rfl

/-- C22 fails: on the `users.txt` with the lines `adm:hunter22` and
`admin:secret` both loaded users have the status ADMIN, and the user of the
line `:hunter22`, whose name is empty, has it as well. The status is ADMIN
exactly when the name is a prefix of `admin`. -/
theorem C22_admin_prefix_is_admin :
    loaded_users users_txt_adm =
      some [([97, 100, 109], pass_hunter22, ADMIN), (admin_text, pass_secret, ADMIN)] ∧
    loaded_users users_txt_noname = some [([], pass_hunter22, ADMIN)] ∧
    (∀ x : List Nat,
      c_strncmp_eq (c_str x) admin_text (c_str x).length = true ↔ c_str x <+: admin_text) :=
  ⟨by decide, by decide, admin_flag_iff_prefix⟩

/-- C23 fails: the start-up load succeeds on a `users.txt` that holds a blank
line and the line `bob:abc` (a user with an empty name and an empty password,
who is ADMIN, and a user with a password of three characters), on one that
holds the line `bob` without a colon (a user with an empty password), and on
one that ends in a password of 31 letters. It fails on a line that holds a
blank. -/
theorem C23_load_accepts_malformed_lines :
    loaded_users users_txt_blank =
      some [(admin_text, pass_secret, ADMIN), ([], [], ADMIN), (name_bob, [97, 98, 99], NOT_ADMIN)] ∧
    loaded_users users_txt_nocolon =
      some [(admin_text, pass_secret, ADMIN), (name_bob, [], NOT_ADMIN)] ∧
    loaded_users users_txt_pass_31 =
      some [(admin_text, pass_secret, ADMIN), (name_bob, List.replicate 31 97, NOT_ADMIN)] ∧
    loaded_users users_txt_bad_char = none ∧
    cr_users_chk_usr_and_pass name_bob [97, 98, 99] 1 = PASS_LEN ∧
    cr_users_chk_usr_and_pass [] pass_hunter22 1 = USER_NAME_LEN := by
  refine ⟨?_, ?_, ?_, ?_, ?_, ?_⟩ <;> decide

end StartupLoad

section CllHeap

open Cll hiding cll_remove_element

theorem node_get_lt (mem : List (Option node_t)) (p : Nat) (n : node_t)
    (h : node_get mem p = some n) : p < mem.length := by
  unfold node_get at h
  rw [List.getD_eq_getElem?_getD] at h
  by_contra hlt
  rw [List.getElem?_eq_none (by omega)] at h
  exact Option.noConfusion h

theorem node_get_set (mem : List (Option node_t)) (p q : Nat) (v : Option node_t)
    (hp : p < mem.length) :
    node_get (mem.set p v) q = if q = p then v else node_get mem q := by
  unfold node_get
  rw [List.getD_eq_getElem?_getD, List.getD_eq_getElem?_getD, List.getElem?_set]
  by_cases h : q = p
  · subst h
    simp [hp]
  · have h2 : ¬ p = q := fun e => h e.symm
    simp [h, h2]

theorem node_get_append (mem : List (Option node_t)) (q : Nat) (v : Option node_t) :
    node_get (mem ++ [v]) q = if q = mem.length then v else node_get mem q := by
  unfold node_get
  rw [List.getD_eq_getElem?_getD, List.getD_eq_getElem?_getD]
  by_cases h : q = mem.length
  · subst h
    simp
  · rw [if_neg h]
    by_cases h2 : q < mem.length
    · rw [List.getElem?_append_left h2]
    · rw [List.getElem?_eq_none (by simp; omega), List.getElem?_eq_none (by omega)]

theorem set_next_eq (mem : List (Option node_t)) (p : Nat) (n : node_t) (v : Option Nat)
    (h : node_get mem p = some n) :
    set_next mem p v = some (mem.set p (some (node_t.mk n.p_data v))) := by
  unfold set_next
  rw [h]

theorem node_free_eq (mem : List (Option node_t)) (p : Nat) (n : node_t)
    (h : node_get mem p = some n) : node_free mem p = some (mem.set p none) := by
  unfold node_free
  rw [h]

theorem cll_seg_length (mem : List (Option node_t)) (nxt : Nat) :
    ∀ (addrs : List Nat) (l : List (Option Nat)), cll_seg mem addrs l nxt →
      addrs.length = l.length
  | [], [], _ => rfl
  | a :: as, d :: ds, h => by
    have := cll_seg_length mem nxt as ds h.2
    simp [this]
  | _ :: _, [], h => False.elim h
  | [], _ :: _, h => False.elim h

/-- A chain only depends on the nodes at its addresses. -/
theorem cll_seg_congr (mem mem2 : List (Option node_t)) (nxt : Nat) :
    ∀ (addrs : List Nat) (l : List (Option Nat)), cll_seg mem addrs l nxt →
      (∀ a ∈ addrs, node_get mem2 a = node_get mem a) → cll_seg mem2 addrs l nxt
  | [], [], _, _ => trivial
  | a :: as, d :: ds, h, hm => by
    refine ⟨?_, cll_seg_congr mem mem2 nxt as ds h.2 (fun b hb => hm b (List.mem_cons_of_mem _ hb))⟩
    rw [hm a (List.mem_cons_self _ _)]
    exact h.1
  | _ :: _, [], h, _ => False.elim h
  | [], _ :: _, h, _ => False.elim h

theorem cll_seg_lt (mem : List (Option node_t)) (nxt : Nat) :
    ∀ (addrs : List Nat) (l : List (Option Nat)), cll_seg mem addrs l nxt →
      ∀ a ∈ addrs, a < mem.length
  | [], [], _, a, ha => absurd ha (List.not_mem_nil a)
  | a :: as, d :: ds, h, b, hb => by
    rcases List.mem_cons.mp hb with e | e
    · rw [e]
      exact node_get_lt mem a _ h.1
    · exact cll_seg_lt mem nxt as ds h.2 b e
  | _ :: _, [], h, _, _ => False.elim h
  | [], _ :: _, h, _, _ => False.elim h

/-- A chain splits at every point into two chains. -/
theorem cll_seg_append (mem : List (Option node_t)) (nxt : Nat) (as2 : List Nat)
    (ds2 : List (Option Nat)) :
    ∀ (as1 : List Nat) (ds1 : List (Option Nat)), as1.length = ds1.length →
      (cll_seg mem (as1 ++ as2) (ds1 ++ ds2) nxt ↔
        cll_seg mem as1 ds1 (as2.headD nxt) ∧ cll_seg mem as2 ds2 nxt)
  | [], [], _ => by simp [cll_seg]
  | a :: as, d :: ds, hl => by
    have ih := cll_seg_append mem nxt as2 ds2 as ds (by simpa using hl)
    have hh : (as ++ as2).headD nxt = as.headD (as2.headD nxt) := by
      cases as <;> rfl
    show (node_get mem a = _ ∧ cll_seg mem (as ++ as2) (ds ++ ds2) nxt) ↔
      (node_get mem a = _ ∧ cll_seg mem as ds (as2.headD nxt)) ∧ cll_seg mem as2 ds2 nxt
    rw [ih, and_assoc]
    have hh2 : (as.append as2).headD nxt = as.headD (as2.headD nxt) := hh
    rw [hh2]
  | _ :: _, [], hl => by simp at hl
  | [], _ :: _, hl => by simp at hl

/-- The node at index `i` of a chain. -/
theorem cll_seg_get (mem : List (Option node_t)) (nxt : Nat) :
    ∀ (addrs : List Nat) (l : List (Option Nat)), cll_seg mem addrs l nxt →
      ∀ i, i < addrs.length →
        node_get mem (addrs.getD i 0) =
          some { p_data := l.getD i none, p_next := some ((addrs.drop (i + 1)).headD nxt) }
  | [], [], _, i, hi => absurd hi (Nat.not_lt_zero i)
  | a :: as, d :: ds, h, 0, _ => h.1
  | a :: as, d :: ds, h, i + 1, hi => by
    have := cll_seg_get mem nxt as ds h.2 i (by simpa using hi)
    simpa using this
  | _ :: _, [], h, _, _ => False.elim h
  | [], _ :: _, h, _, _ => False.elim h

/-- Pointing the last node of a chain somewhere else. -/
theorem cll_seg_relink (mem mem2 : List (Option node_t)) (nxt nxt2 z : Nat) :
    ∀ (addrs : List Nat) (l : List (Option Nat)), cll_seg mem (addrs ++ [z]) l nxt →
      (addrs ++ [z]).Nodup →
      (∀ q ∈ addrs ++ [z], node_get mem2 q =
        if q = z then (node_get mem z).map (fun n => node_t.mk n.p_data (some nxt2))
        else node_get mem q) →
      cll_seg mem2 (addrs ++ [z]) l nxt2
  | [], [d], h, _, hm => by
    refine ⟨?_, trivial⟩
    rw [hm z (by simp), if_pos rfl, h.1]
    rfl
  | [], [], h, _, _ => False.elim h
  | [], _ :: _ :: _, h, _, _ => False.elim h.2
  | a :: as, d :: ds, h, hd, hm => by
    have hd2 : (as ++ [z]).Nodup := (List.nodup_cons.mp hd).2
    have ha : a ≠ z := by
      intro e
      have := (List.nodup_cons.mp hd).1
      rw [e] at this
      exact this (by simp)
    refine ⟨?_, cll_seg_relink mem mem2 nxt nxt2 z as ds h.2 hd2
      (fun q hq => hm q (List.mem_cons_of_mem _ hq))⟩
    rw [hm a (by simp), if_neg ha, h.1]
    cases as <;> rfl
  | _ :: _, [], h, _, _ => False.elim h

theorem cll_seg_mem_get (mem : List (Option node_t)) (nxt : Nat) :
    ∀ (addrs : List Nat) (l : List (Option Nat)), cll_seg mem addrs l nxt →
      ∀ a ∈ addrs, ∃ n, node_get mem a = some n
  | [], [], _, a, ha => absurd ha (List.not_mem_nil a)
  | a :: as, d :: ds, h, b, hb => by
    rcases List.mem_cons.mp hb with e | e
    · rw [e]
      exact ⟨_, h.1⟩
    · exact cll_seg_mem_get mem nxt as ds h.2 b e
  | _ :: _, [], h, _, _ => False.elim h
  | [], _ :: _, h, _, _ => False.elim h

/-- The last node of a chain points to `nxt`. -/
theorem cll_seg_last (mem : List (Option node_t)) (nxt z : Nat) :
    ∀ (addrs : List Nat) (l : List (Option Nat)), cll_seg mem (addrs ++ [z]) l nxt →
      ∃ d, node_get mem z = some (node_t.mk d (some nxt))
  | [], [d], h => ⟨d, h.1⟩
  | [], [], h => False.elim h
  | [], _ :: _ :: _, h => False.elim h.2
  | _ :: as, _ :: ds, h => cll_seg_last mem nxt z as ds h.2
  | _ :: _, [], h => False.elim h

/-- Walking `k` nodes on from the node at index `i` of a chain. -/
theorem cll_insert_walk_seg (mem : List (Option node_t)) (nxt : Nat) (addrs : List Nat)
    (l : List (Option Nat)) (h : cll_seg mem addrs l nxt) :
    ∀ k i, i + k < addrs.length →
      cll_insert_walk mem k (some (addrs.getD i 0)) = loop_t.done (some (addrs.getD (i + k) 0))
  | 0, i, _ => rfl
  | k + 1, i, hik => by
    have hg := cll_seg_get mem nxt addrs l h i (by omega)
    have hn : (addrs.drop (i + 1)).headD nxt = addrs.getD (i + 1) 0 := by
      rw [List.getD_eq_getElem?_getD, List.getElem?_eq_getElem (by omega)]
      rw [List.drop_eq_getElem_cons (by omega : i + 1 < addrs.length)]
      rfl
    unfold cll_insert_walk
    simp only [hg, hn]
    rw [cll_insert_walk_seg mem nxt addrs l h k (i + 1) (by omega)]
    congr 3
    omega

theorem cll_return_walk_eq (mem : List (Option node_t)) :
    ∀ k p_temp, cll_return_walk mem k p_temp = cll_insert_walk mem k p_temp
  | 0, _ => rfl
  | k + 1, none => rfl
  | k + 1, some p => by
    unfold cll_return_walk cll_insert_walk
    simp only []
    cases hg : node_get mem p with
    | none => rfl
    | some n => exact cll_return_walk_eq mem k n.p_next

/-- Inserting into the empty list: all three insert functions do the same. -/
theorem cll_insert_empty (st : state_t) (x : Option Nat) (hhead : st.cll.p_head = none) :
    cll_insert_element_end st x = some (SUCCESS,
      { mem := (st.mem ++ [some (node_t.mk x none)]).set st.mem.length
          (some (node_t.mk x (some st.mem.length))),
        cll := { p_head := some st.mem.length, p_tail := some st.mem.length, size := 1 } }) ∧
    cll_insert_element_begin st x = cll_insert_element_end st x ∧
    ∀ position, cll_insert_element_node st x position = cll_insert_element_end st x := by
  have hg : node_get (st.mem ++ [some (node_t.mk x none)]) st.mem.length =
      some (node_t.mk x none) := by
    rw [node_get_append, if_pos rfl]
  have he : cll_empty_list_add
      { st with mem := st.mem ++ [some (node_t.mk x none)] } st.mem.length =
      some (SUCCESS,
        { mem := (st.mem ++ [some (node_t.mk x none)]).set st.mem.length
            (some (node_t.mk x (some st.mem.length))),
          cll := { p_head := some st.mem.length, p_tail := some st.mem.length, size := 1 } }) := by
    unfold cll_empty_list_add
    simp only [hhead]
    rw [set_next_eq _ _ _ _ hg]
  refine ⟨?_, ?_, ?_⟩
  · unfold cll_insert_element_end node_calloc
    simp only [he, if_true]
  · unfold cll_insert_element_begin cll_insert_element_end node_calloc
    simp only [he, if_true]
  · intro position
    unfold cll_insert_element_node cll_insert_element_end node_calloc
    simp only [he, if_true]

/-- The state after `cll_insert_element_end` on a list that is not empty. -/
theorem cll_insert_element_end_eval (st : state_t) (x : Option Nat) (a0 z : Nat) (nz : node_t)
    (hhead : st.cll.p_head = some a0) (htail : st.cll.p_tail = some z)
    (hz : node_get st.mem z = some nz) (hsz : st.cll.size < 2147483647) :
    cll_insert_element_end st x = some (SUCCESS,
      { mem := ((st.mem ++ [some (node_t.mk x none)]).set z
            (some (node_t.mk nz.p_data (some st.mem.length)))).set st.mem.length
          (some (node_t.mk x (some a0))),
        cll := { p_head := some a0, p_tail := some st.mem.length, size := st.cll.size + 1 } }) := by
  have hzl := node_get_lt _ _ _ hz
  have hg1 : node_get (st.mem ++ [some (node_t.mk x none)]) z = some nz := by
    rw [node_get_append, if_neg (by omega), hz]
  have hg2 : node_get ((st.mem ++ [some (node_t.mk x none)]).set z
      (some (node_t.mk nz.p_data (some st.mem.length)))) st.mem.length =
      some (node_t.mk x none) := by
    rw [node_get_set _ _ _ _ (by simp; omega), if_neg (by omega), node_get_append, if_pos rfl]
  unfold cll_insert_element_end cll_empty_list_add node_calloc
  simp only [hhead, htail, if_neg (show ¬ (FAILURE = SUCCESS) by decide)]
  rw [set_next_eq _ _ _ _ hg1]
  simp only []
  rw [set_next_eq _ _ _ _ hg2]
  simp only [int_incr, if_pos hsz]

/-- The state after `cll_insert_element_begin` on a list that is not
empty. -/
theorem cll_insert_element_begin_eval (st : state_t) (x : Option Nat) (a0 z : Nat) (nz : node_t)
    (hhead : st.cll.p_head = some a0) (htail : st.cll.p_tail = some z)
    (hz : node_get st.mem z = some nz) (hsz : st.cll.size < 2147483647) :
    cll_insert_element_begin st x = some (SUCCESS,
      { mem := ((st.mem ++ [some (node_t.mk x none)]).set st.mem.length
            (some (node_t.mk x (some a0)))).set z
          (some (node_t.mk nz.p_data (some st.mem.length))),
        cll := { p_head := some st.mem.length, p_tail := some z, size := st.cll.size + 1 } }) := by
  have hzl := node_get_lt _ _ _ hz
  have hg1 : node_get (st.mem ++ [some (node_t.mk x none)]) st.mem.length =
      some (node_t.mk x none) := by
    rw [node_get_append, if_pos rfl]
  have hg2 : node_get ((st.mem ++ [some (node_t.mk x none)]).set st.mem.length
      (some (node_t.mk x (some a0)))) z = some nz := by
    rw [node_get_set _ _ _ _ (by simp), if_neg (by omega), node_get_append, if_neg (by omega), hz]
  unfold cll_insert_element_begin cll_empty_list_add node_calloc
  simp only [hhead, htail, if_neg (show ¬ (FAILURE = SUCCESS) by decide)]
  rw [set_next_eq _ _ _ _ hg1]
  simp only []
  rw [set_next_eq _ _ _ _ hg2]
  simp only [int_incr, if_pos hsz]

/-- The heap after an allocation and two writes, read at any address. -/
theorem node_get_alloc_set_set (mem : List (Option node_t)) (v v1 v2 : Option node_t)
    (p1 p2 q : Nat) (h1 : p1 ≤ mem.length) (h2 : p2 ≤ mem.length) :
    node_get (((mem ++ [v]).set p1 v1).set p2 v2) q =
      if q = p2 then v2 else if q = p1 then v1
      else if q = mem.length then v else node_get mem q := by
  rw [node_get_set _ _ _ _ (by simp; omega), node_get_set _ _ _ _ (by simp; omega),
    node_get_append]

/-- What a representation says about a list that is not empty. -/
theorem cll_repr_nonempty (st : state_t) (addrs : List Nat) (l : List (Option Nat))
    (h : cll_repr st addrs l) (hne : addrs ≠ []) :
    ∃ a0 z init d, addrs = init ++ [z] ∧ addrs.head? = some a0 ∧ addrs.headD 0 = a0 ∧
      st.cll.p_head = some a0 ∧ st.cll.p_tail = some z ∧
      node_get st.mem z = some (node_t.mk d (some a0)) := by
  obtain ⟨_, _, hhead, htail, hseg⟩ := h
  have hd := (List.dropLast_append_getLast hne).symm
  cases addrs with
  | nil => exact absurd rfl hne
  | cons a0 rest =>
    have hseg2 : cll_seg st.mem ((a0 :: rest).dropLast ++ [(a0 :: rest).getLast hne]) l a0 := by
      rw [← hd]
      exact hseg
    obtain ⟨d, hz⟩ := cll_seg_last _ _ _ _ _ hseg2
    refine ⟨a0, (a0 :: rest).getLast hne, (a0 :: rest).dropLast, d, hd, rfl, rfl, hhead, ?_, hz⟩
    rw [htail, List.getLast?_eq_getLast _ hne]

/-- A representation of the empty list. -/
theorem cll_repr_nil (st : state_t) (l : List (Option Nat)) (h : cll_repr st [] l) :
    l = [] ∧ st.cll.p_head = none ∧ st.cll.p_tail = none ∧ st.cll.size = 0 := by
  obtain ⟨hsize, _, hhead, htail, hseg⟩ := h
  cases l with
  | nil => exact ⟨rfl, hhead, htail, hsize⟩
  | cons d ds => exact False.elim hseg

/-- `cll_insert_element_end` appends the element. -/
theorem cll_insert_element_end_repr (st : state_t) (addrs : List Nat) (l : List (Option Nat))
    (x : Option Nat) (h : cll_repr st addrs l) (hn : (l.length : Int) < 2147483647) :
    ∃ st2, cll_insert_element_end st x = some (SUCCESS, st2) ∧
      cll_repr st2 (addrs ++ [st.mem.length]) (l ++ [x]) := by
  by_cases hne : addrs = []
  · subst hne
    obtain ⟨hl, hhead, _, _⟩ := cll_repr_nil st l h
    subst hl
    refine ⟨_, (cll_insert_empty st x hhead).1, ?_⟩
    refine ⟨rfl, by simp, rfl, rfl, ?_, trivial⟩
    rw [node_get_set _ _ _ _ (by simp), if_pos rfl]
    rfl
  · obtain ⟨a0, z, init, d, hinit, hh, hhd, hhead, htail, hz⟩ := cll_repr_nonempty st addrs l h hne
    obtain ⟨hsize, hnd, _, _, hseg⟩ := h
    have hlt := cll_seg_lt _ _ _ _ hseg
    have hlen := cll_seg_length _ _ _ _ hseg
    have hzl := node_get_lt _ _ _ hz
    refine ⟨_, cll_insert_element_end_eval st x a0 z _ hhead htail hz (by rw [hsize]; exact hn), ?_⟩
    refine ⟨?_, ?_, ?_, ?_, ?_⟩
    · show st.cll.size + 1 = _
      rw [hsize]
      simp
    · rw [List.nodup_append]
      refine ⟨hnd, by simp, ?_⟩
      intro a ha hb
      have := hlt a ha
      simp at hb
      omega
    · show some a0 = _
      cases addrs with
      | nil => exact absurd rfl hne
      | cons b bs =>
        simp at hh
        simp [hh]
    · show some st.mem.length = _
      simp
    · have hhd2 : (addrs ++ [st.mem.length]).headD 0 = a0 := by
        cases addrs with
        | nil => exact absurd rfl hne
        | cons b bs => exact hhd
      rw [hhd2, cll_seg_append _ _ _ _ _ _ hlen]
      rw [hhd] at hseg
      constructor
      · show cll_seg _ addrs l st.mem.length
        rw [hinit] at hseg hnd hlt ⊢
        apply cll_seg_relink _ _ _ _ _ _ _ hseg hnd
        intro q hq
        have hql := hlt q hq
        rw [node_get_alloc_set_set _ _ _ _ _ _ _ (by omega) (by omega), if_neg (by omega)]
        by_cases hqz : q = z
        · rw [if_pos hqz, if_pos hqz, hz]
          rfl
        · rw [if_neg hqz, if_neg hqz, if_neg (by omega)]
      · refine ⟨?_, trivial⟩
        rw [node_get_alloc_set_set _ _ _ _ _ _ _ (by omega) (by omega), if_pos rfl]
        rfl

/-- `cll_insert_element_begin` puts the element in front. -/
theorem cll_insert_element_begin_repr (st : state_t) (addrs : List Nat) (l : List (Option Nat))
    (x : Option Nat) (h : cll_repr st addrs l) (hn : (l.length : Int) < 2147483647) :
    ∃ st2, cll_insert_element_begin st x = some (SUCCESS, st2) ∧
      cll_repr st2 (st.mem.length :: addrs) (x :: l) := by
  by_cases hne : addrs = []
  · subst hne
    obtain ⟨hl, hhead, _, _⟩ := cll_repr_nil st l h
    subst hl
    obtain ⟨st2, h1, h2⟩ := cll_insert_element_end_repr st [] [] x h hn
    exact ⟨st2, by rw [(cll_insert_empty st x hhead).2.1]; exact h1, h2⟩
  · obtain ⟨a0, z, init, d, hinit, hh, hhd, hhead, htail, hz⟩ := cll_repr_nonempty st addrs l h hne
    obtain ⟨hsize, hnd, _, _, hseg⟩ := h
    have hlt := cll_seg_lt _ _ _ _ hseg
    have hzl := node_get_lt _ _ _ hz
    refine ⟨_, cll_insert_element_begin_eval st x a0 z _ hhead htail hz
      (by rw [hsize]; exact hn), ?_⟩
    refine ⟨?_, ?_, rfl, ?_, ?_, ?_⟩
    · show st.cll.size + 1 = _
      rw [hsize]
      simp
    · rw [List.nodup_cons]
      refine ⟨?_, hnd⟩
      intro hm
      have := hlt _ hm
      omega
    · show some z = _
      rw [hinit, show st.mem.length :: (init ++ [z]) = (st.mem.length :: init) ++ [z] from rfl,
        List.getLast?_concat]
    · show node_get _ st.mem.length = _
      rw [node_get_alloc_set_set _ _ _ _ _ _ _ (by omega) (by omega), if_neg (by omega),
        if_pos rfl]
      cases addrs with
      | nil => exact absurd rfl hne
      | cons b bs =>
        simp at hh
        simp [hh]
    · show cll_seg _ addrs l st.mem.length
      rw [hhd] at hseg
      rw [hinit] at hseg hnd hlt ⊢
      apply cll_seg_relink _ _ _ _ _ _ _ hseg hnd
      intro q hq
      have hql := hlt q hq
      rw [node_get_alloc_set_set _ _ _ _ _ _ _ (by omega) (by omega)]
      by_cases hqz : q = z
      · rw [if_pos hqz, if_pos hqz, hz]
        rfl
      · rw [if_neg hqz, if_neg hqz, if_neg (by omega), if_neg (by omega)]

/-- The state after `cll_insert_element_node` when the walk ends at the node
`t`. -/
theorem cll_insert_element_node_eval (st : state_t) (x : Option Nat) (position : Int)
    (a0 t : Nat) (nt : node_t) (hhead : st.cll.p_head = some a0)
    (hw : cll_insert_walk (st.mem ++ [some (node_t.mk x none)]) (position - 1).toNat (some a0) =
      loop_t.done (some t))
    (ht : node_get st.mem t = some nt) (hsz : st.cll.size < 2147483647) :
    cll_insert_element_node st x position = some (SUCCESS,
      { mem := ((st.mem ++ [some (node_t.mk x none)]).set st.mem.length
            (some (node_t.mk x nt.p_next))).set t (some (node_t.mk nt.p_data (some st.mem.length))),
        cll := { p_head := st.cll.p_head, p_tail := st.cll.p_tail, size := st.cll.size + 1 } }) := by
  have htl := node_get_lt _ _ _ ht
  have hg0 : node_get (st.mem ++ [some (node_t.mk x none)]) t = some nt := by
    rw [node_get_append, if_neg (by omega), ht]
  have hg1 : node_get (st.mem ++ [some (node_t.mk x none)]) st.mem.length =
      some (node_t.mk x none) := by
    rw [node_get_append, if_pos rfl]
  have hg2 : node_get ((st.mem ++ [some (node_t.mk x none)]).set st.mem.length
      (some (node_t.mk x nt.p_next))) t = some nt := by
    rw [node_get_set _ _ _ _ (by simp), if_neg (by omega), hg0]
  unfold cll_insert_element_node cll_empty_list_add node_calloc
  simp only [hhead, if_neg (show ¬ (FAILURE = SUCCESS) by decide), hw, hg0]
  rw [set_next_eq _ _ _ _ hg1]
  simp only []
  rw [set_next_eq _ _ _ _ hg2]
  simp only [int_incr, if_pos hsz]

/-- `cll_insert_element_node` between two parts of the list that are not
empty puts the element between them. -/
theorem cll_insert_element_node_repr (st : state_t) (as1 as2 : List Nat)
    (ds1 ds2 : List (Option Nat)) (x : Option Nat)
    (h : cll_repr st (as1 ++ as2) (ds1 ++ ds2)) (hl : as1.length = ds1.length)
    (h1 : as1 ≠ []) (h2 : as2 ≠ []) (hn : ((ds1 ++ ds2).length : Int) < 2147483647) :
    ∃ st2, cll_insert_element_node st x (as1.length : Int) = some (SUCCESS, st2) ∧
      cll_repr st2 (as1 ++ st.mem.length :: as2) (ds1 ++ x :: ds2) := by
  obtain ⟨a0, z, init, d, hinit, hh, hhd, hhead, htail, hz⟩ :=
    cll_repr_nonempty st (as1 ++ as2) (ds1 ++ ds2) h (by simp [h1])
  obtain ⟨hsize, hnd, _, _, hseg⟩ := h
  rw [hhd] at hseg
  have hlt := cll_seg_lt _ _ _ _ hseg
  have hsplit := (cll_seg_append _ _ _ _ _ _ hl).mp hseg
  -- the last address of the first part
  have hd1 := (List.dropLast_append_getLast h1).symm
  generalize as1.getLast h1 = t at hd1
  generalize as1.dropLast = init1 at hd1
  have hseg1 : cll_seg st.mem (init1 ++ [t]) ds1 (as2.headD a0) := by
    rw [← hd1]; exact hsplit.1
  obtain ⟨dt, ht⟩ := cll_seg_last _ _ _ _ _ hseg1
  have htm : t ∈ as1 := by rw [hd1]; simp
  have htl := node_get_lt _ _ _ ht
  -- the walk
  have hsegM : cll_seg (st.mem ++ [some (node_t.mk x none)]) (as1 ++ as2) (ds1 ++ ds2) a0 := by
    apply cll_seg_congr _ _ _ _ _ hseg
    intro a ha
    have := hlt a ha
    rw [node_get_append, if_neg (by omega)]
  have hpos : 0 < as1.length := List.length_pos.mpr h1
  have hw := cll_insert_walk_seg _ _ _ _ hsegM (as1.length - 1) 0
    (by simp; omega)
  have hg0 : (as1 ++ as2).getD 0 0 = a0 := by
    cases as1 with
    | nil => exact absurd rfl h1
    | cons b bs => exact hhd
  have hgt : (as1 ++ as2).getD (0 + (as1.length - 1)) 0 = t := by
    rw [List.getD_eq_getElem?_getD, List.getElem?_append_left (by omega), hd1]
    simp
  rw [hg0, hgt] at hw
  have hw2 : cll_insert_walk (st.mem ++ [some (node_t.mk x none)])
      ((as1.length : Int) - 1).toNat (some a0) = loop_t.done (some t) := by
    have : ((as1.length : Int) - 1).toNat = as1.length - 1 := by omega
    rw [this]
    exact hw
  refine ⟨_, cll_insert_element_node_eval st x _ a0 t _ hhead hw2 ht
    (by rw [hsize]; exact hn), ?_⟩
  have hnd1 : as1.Nodup := (List.nodup_append.mp hnd).1
  have hdisj : ∀ a, a ∈ as1 → a ∈ as2 → False := fun a ha hb =>
    (List.nodup_append.mp hnd).2.2 ha hb
  have hmem : ∀ q, node_get (((st.mem ++ [some (node_t.mk x none)]).set st.mem.length
      (some (node_t.mk x (some (as2.headD a0))))).set t
        (some (node_t.mk dt (some st.mem.length)))) q =
      if q = t then some (node_t.mk dt (some st.mem.length))
      else if q = st.mem.length then some (node_t.mk x (some (as2.headD a0)))
      else node_get st.mem q := by
    intro q
    rw [node_get_alloc_set_set _ _ _ _ _ _ _ (by omega) (by omega)]
    by_cases hq1 : q = t
    · rw [if_pos hq1, if_pos hq1]
    · rw [if_neg hq1, if_neg hq1]
      by_cases hq2 : q = st.mem.length
      · rw [if_pos hq2, if_pos hq2]
      · rw [if_neg hq2, if_neg hq2, if_neg hq2]
  refine ⟨?_, ?_, ?_, ?_, ?_⟩
  · show st.cll.size + 1 = _
    rw [hsize]
    simp
    omega
  · have hnew : ∀ a, a ∈ as1 ++ as2 → a ≠ st.mem.length := by
      intro a ha e
      have := hlt a ha
      omega
    rw [List.nodup_append] at hnd ⊢
    refine ⟨hnd.1, ?_, ?_⟩
    · rw [List.nodup_cons]
      exact ⟨fun hm => hnew _ (List.mem_append_right _ hm) rfl, hnd.2.1⟩
    · intro a ha hb
      rcases List.mem_cons.mp hb with e | e
      · exact hnew a (List.mem_append_left _ ha) e
      · exact hnd.2.2 ha e
  · show st.cll.p_head = _
    rw [hhead]
    cases as1 with
    | nil => exact absurd rfl h1
    | cons b bs =>
      simp at hh
      simp [hh]
  · show st.cll.p_tail = _
    rw [htail]
    have e1 : (as1 ++ as2).getLast? = as2.getLast? := by
      rw [List.getLast?_append]
      cases hl2 : as2.getLast? with
      | none => exact absurd (List.getLast?_eq_none_iff.mp hl2) h2
      | some v => rfl
    have e2 : (as1 ++ st.mem.length :: as2).getLast? = as2.getLast? := by
      rw [List.getLast?_append]
      cases as2 with
      | nil => exact absurd rfl h2
      | cons b bs =>
        rw [List.getLast?_cons_cons]
        cases hl2 : (b :: bs).getLast? with
        | none => exact absurd (List.getLast?_eq_none_iff.mp hl2) (by simp)
        | some v => rfl
    rw [e2, ← e1]
    rw [hinit, List.getLast?_concat] at *
  · have hhd2 : (as1 ++ st.mem.length :: as2).headD 0 = a0 := by
      cases as1 with
      | nil => exact absurd rfl h1
      | cons b bs => exact hhd
    rw [hhd2, cll_seg_append _ _ _ _ _ _ hl]
    refine ⟨?_, ?_, ?_⟩
    · show cll_seg _ as1 ds1 st.mem.length
      rw [hd1] at hnd1 ⊢
      apply cll_seg_relink _ _ _ _ _ _ _ hseg1 hnd1
      intro q hq
      have hq' : q ∈ as1 := by rw [hd1]; exact hq
      have hql := hlt q (List.mem_append_left _ hq')
      rw [ht]
      show node_get (((st.mem ++ [some (node_t.mk x none)]).set st.mem.length
        (some (node_t.mk x (some (as2.headD a0))))).set t
          (some (node_t.mk dt (some st.mem.length)))) q = _
      rw [hmem q]
      by_cases hq1 : q = t
      · rw [if_pos hq1, if_pos hq1]
        rfl
      · rw [if_neg hq1, if_neg hq1, if_neg (by omega)]
    · show node_get (((st.mem ++ [some (node_t.mk x none)]).set st.mem.length
        (some (node_t.mk x (some (as2.headD a0))))).set t
          (some (node_t.mk dt (some st.mem.length)))) st.mem.length = _
      rw [hmem, if_neg (by omega), if_pos rfl]
    · apply cll_seg_congr _ _ _ _ _ hsplit.2
      intro q hq
      have hql := hlt q (List.mem_append_right _ hq)
      show node_get (((st.mem ++ [some (node_t.mk x none)]).set st.mem.length
        (some (node_t.mk x (some (as2.headD a0))))).set t
          (some (node_t.mk dt (some st.mem.length)))) q = _
      rw [hmem, if_neg (fun (e : q = t) => hdisj t htm (e ▸ hq)), if_neg (by omega)]

/-- Reading an element inside the list returns it. -/
theorem cll_return_element_repr (st : state_t) (addrs : List Nat) (l : List (Option Nat))
    (h : cll_repr st addrs l) (i : Nat) (hi : i < l.length) :
    cll_return_element st (i : Int) = some (l.getD i none) := by
  have hne : addrs ≠ [] := by
    intro e
    subst e
    have := (cll_repr_nil st l h).1
    rw [this] at hi
    exact absurd hi (by simp)
  obtain ⟨a0, z, init, d, hinit, hh, hhd, hhead, htail, hz⟩ := cll_repr_nonempty st addrs l h hne
  obtain ⟨hsize, hnd, _, _, hseg⟩ := h
  have hlen := cll_seg_length _ _ _ _ hseg
  have hw := cll_insert_walk_seg _ _ _ _ hseg i 0 (by omega)
  have hg0 : addrs.getD 0 0 = a0 := by
    cases addrs with
    | nil => exact absurd rfl hne
    | cons b bs => exact hhd
  rw [hg0, Nat.zero_add] at hw
  have hg := cll_seg_get _ _ _ _ hseg i (by omega)
  unfold cll_return_element cll_position_checker
  rw [if_neg (by omega), if_pos (by omega)]
  have hc : ¬ ((if 0 = (i : Int) then 0 else (i : Int) - 1) < 0 ∨
      (if 0 = (i : Int) then 0 else (i : Int) - 1) > st.cll.size) := by
    rw [hsize]
    split_ifs <;> omega
  rw [if_neg hc, if_neg (by decide)]
  simp only [hhead, Int.toNat_ofNat, cll_return_walk_eq, hw, hg, Option.map_some']

/-- `cll_insert_element` at a position from 0 to the size of the list: the
element is put at that position; position 0 is `cll_insert_element_begin`
and the position that equals the size is `cll_insert_element_end`. -/
theorem cll_insert_element_repr (st : state_t) (addrs : List Nat) (l : List (Option Nat))
    (x : Option Nat) (p : Nat) (h : cll_repr st addrs l) (hp : p ≤ l.length)
    (hn : (l.length : Int) < 2147483647) :
    ∃ st2, cll_insert_element st x (p : Int) = some (SUCCESS, st2) ∧
      cll_repr st2 (addrs.take p ++ st.mem.length :: addrs.drop p) (l.take p ++ x :: l.drop p) ∧
      (p = 0 → cll_insert_element_begin st x = some (SUCCESS, st2)) ∧
      (p = l.length → cll_insert_element_end st x = some (SUCCESS, st2)) := by
  have hlen := cll_seg_length _ _ _ _ h.2.2.2.2
  have hsize := h.1
  by_cases hne : addrs = []
  · subst hne
    obtain ⟨hl, hhead, _, hs0⟩ := cll_repr_nil st l h
    subst hl
    have hp0 : p = 0 := by simpa using hp
    subst hp0
    obtain ⟨st2, h1, h2⟩ := cll_insert_element_end_repr st [] [] x h hn
    have he := cll_insert_empty st x hhead
    refine ⟨st2, ?_, h2, fun _ => by rw [he.2.1]; exact h1, fun _ => h1⟩
    unfold cll_insert_element
    rw [if_neg (by rw [hs0]; simp), he.2.2]
    exact h1
  · have hlpos : 0 < l.length := by
      rw [← hlen]
      exact List.length_pos.mpr hne
    have hs : (0 : Int) ≠ st.cll.size := by rw [hsize]; omega
    have hc : cll_position_checker st (p : Int) ≠ FAILURE := by
      unfold cll_position_checker
      rw [if_neg (by rw [hsize]; omega)]
      decide
    by_cases hp0 : p = 0
    · subst hp0
      obtain ⟨st2, h1, h2⟩ := cll_insert_element_begin_repr st addrs l x h hn
      refine ⟨st2, ?_, by simpa using h2, fun _ => h1, fun e => absurd e.symm (by omega)⟩
      unfold cll_insert_element
      rw [if_pos hs, if_neg hc, if_pos (by simp)]
      exact h1
    · by_cases hpn : p = l.length
      · subst hpn
        obtain ⟨st2, h1, h2⟩ := cll_insert_element_end_repr st addrs l x h hn
        refine ⟨st2, ?_, ?_, fun e => absurd e hp0, fun _ => h1⟩
        · unfold cll_insert_element
          rw [if_pos hs, if_neg hc, if_neg (by omega), if_pos hsize]
          exact h1
        · rw [List.take_of_length_le (by omega), List.drop_of_length_le (by omega),
            List.take_of_length_le (by omega), List.drop_of_length_le (by omega)]
          exact h2
      · have hsplit : cll_repr st (addrs.take p ++ addrs.drop p) (l.take p ++ l.drop p) := by
          rw [List.take_append_drop, List.take_append_drop]
          exact h
        have hl1 : (addrs.take p).length = (l.take p).length := by
          rw [List.length_take, List.length_take]
          omega
        have hlp : (addrs.take p).length = p := by
          rw [List.length_take]
          omega
        obtain ⟨st2, h1, h2⟩ := cll_insert_element_node_repr st (addrs.take p) (addrs.drop p)
          (l.take p) (l.drop p) x hsplit hl1
          (by intro e; rw [e] at hlp; simp at hlp; omega)
          (by intro e; have := congrArg List.length e; simp at this; omega)
          (by rw [List.take_append_drop]; exact hn)
        rw [hlp] at h1
        refine ⟨st2, ?_, h2, fun e => absurd e hp0, fun e => absurd e hpn⟩
        unfold cll_insert_element
        rw [if_pos hs, if_neg hc, if_neg (by omega), if_neg (by rw [hsize]; omega)]
        exact h1

/-- The walk of `cll_remove_element` along a chain. -/
theorem cll_remove_walk_seg (mem : List (Option node_t)) (nxt : Nat) (addrs : List Nat)
    (l : List (Option Nat)) (h : cll_seg mem addrs l nxt) :
    ∀ k i, i + 1 + k < addrs.length →
      cll_remove_walk mem k (addrs.getD i 0) (addrs.getD (i + 1) 0) =
        loop_t.done (addrs.getD (i + k) 0, addrs.getD (i + 1 + k) 0)
  | 0, i, _ => rfl
  | k + 1, i, hik => by
    have hg := cll_seg_get mem nxt addrs l h (i + 1) (by omega)
    have hn : (addrs.drop (i + 1 + 1)).headD nxt = addrs.getD (i + 1 + 1) 0 := by
      rw [List.getD_eq_getElem?_getD, List.getElem?_eq_getElem (by omega)]
      rw [List.drop_eq_getElem_cons (by omega : i + 1 + 1 < addrs.length)]
      rfl
    unfold cll_remove_walk
    simp only [hg, hn]
    rw [cll_remove_walk_seg mem nxt addrs l h k (i + 1) (by omega)]
    congr 3 <;> omega

/-- The heap after two writes, read at any address. -/
theorem node_get_set_set (mem : List (Option node_t)) (v1 v2 : Option node_t)
    (p1 p2 q : Nat) (h1 : p1 < mem.length) (h2 : p2 < mem.length) :
    node_get ((mem.set p1 v1).set p2 v2) q =
      if q = p2 then v2 else if q = p1 then v1 else node_get mem q := by
  rw [node_get_set _ _ _ _ (by simp; omega), node_get_set _ _ _ _ h1]

/-- `cll_remove_element_begin` removes the first element. -/
theorem cll_remove_element_begin_repr (st : state_t) (a0 : Nat) (rest : List Nat)
    (d0 : Option Nat) (ds : List (Option Nat)) (h : cll_repr st (a0 :: rest) (d0 :: ds)) :
    ∃ st2, cll_remove_element_begin st = some (SUCCESS, st2) ∧ cll_repr st2 rest ds := by
  obtain ⟨a0', z, init, d, hinit, hh, hhd, hhead, htail, hz⟩ :=
    cll_repr_nonempty st (a0 :: rest) (d0 :: ds) h (by simp)
  have ha : a0' = a0 := hhd.symm
  subst ha
  obtain ⟨hsize, hnd, _, _, hseg⟩ := h
  have h0 : node_get st.mem a0' = some (node_t.mk d0 (some (rest.headD a0'))) := hseg.1
  have hseg2 : cll_seg st.mem rest ds a0' := hseg.2
  have hlen := cll_seg_length _ _ _ _ hseg2
  have hlt := cll_seg_lt _ _ _ _ hseg2
  have h0l := node_get_lt _ _ _ h0
  cases rest with
  | nil =>
    have hds : ds = [] := by
      cases ds with
      | nil => rfl
      | cons e es => exact False.elim hseg2
    subst hds
    refine ⟨state_t.mk (st.mem.set a0' none) (cll_t.mk none none 0), ?_, ?_⟩
    · unfold cll_remove_element_begin
      simp only [hhead, htail]
      rw [if_pos (by rw [hsize]; rfl), node_free_eq _ _ _ h0]
      rfl
    · exact ⟨rfl, List.nodup_nil, rfl, rfl, trivial⟩
  | cons a1 rest2 =>
    have hzlast : (a1 :: rest2).getLast (List.cons_ne_nil a1 rest2) = z := by
      have h2 : (a0' :: a1 :: rest2).getLast? = some z := by
        rw [hinit, List.getLast?_concat]
      rw [List.getLast?_cons_cons, List.getLast?_eq_getLast _ (List.cons_ne_nil a1 rest2)] at h2
      exact Option.some.inj h2
    have hzr : z ∈ a1 :: rest2 := by
      rw [← hzlast]
      exact List.getLast_mem _
    have hza : z ≠ a0' := by
      intro e
      rw [e] at hzr
      exact (List.nodup_cons.mp hnd).1 hzr
    have hzl := hlt z hzr
    have hs1 : ¬ (1 = st.cll.size) := by
      rw [hsize]
      have := hlen
      simp only [List.length_cons] at this ⊢
      omega
    have hgz : node_get (st.mem.set a0' none) z = some (node_t.mk d (some a0')) := by
      rw [node_get_set _ _ _ _ h0l, if_neg hza, hz]
    refine ⟨state_t.mk ((st.mem.set a0' none).set z (some (node_t.mk d (some a1))))
      (cll_t.mk (some a1) (some z) (st.cll.size - 1)), ?_, ?_⟩
    · unfold cll_remove_element_begin
      simp only [hhead, htail, if_neg hs1, h0, List.headD_cons]
      rw [node_free_eq _ _ _ h0]
      simp only []
      rw [set_next_eq _ _ _ _ hgz]
      simp only [int_decr]
      rw [if_pos (by rw [hsize]; omega)]
    · refine ⟨?_, (List.nodup_cons.mp hnd).2, rfl, ?_, ?_⟩
      · show st.cll.size - 1 = _
        rw [hsize]
        simp
      · show some z = _
        have h2 : (a0' :: a1 :: rest2).getLast? = some z := by rw [hinit, List.getLast?_concat]
        rw [List.getLast?_cons_cons] at h2
        exact h2.symm
      · show cll_seg _ (a1 :: rest2) ds a1
        have hd1 := (List.dropLast_append_getLast (List.cons_ne_nil a1 rest2)).symm
        rw [hzlast] at hd1
        have hnd2 := (List.nodup_cons.mp hnd).2
        rw [hd1] at hseg2 hnd2 hlt ⊢
        apply cll_seg_relink _ _ _ _ _ _ _ hseg2 hnd2
        intro q hq
        have hql := hlt q hq
        have hqa : q ≠ a0' := by
          intro e
          rw [e, ← hd1] at hq
          exact (List.nodup_cons.mp hnd).1 hq
        rw [node_get_set_set _ _ _ _ _ _ h0l hzl]
        by_cases hqz : q = z
        · rw [if_pos hqz, if_pos hqz, hz]
          rfl
        · rw [if_neg hqz, if_neg hqz, if_neg hqa]

/-- The state after `cll_remove_element_node` when the walk ends at the
nodes `t1` and `t2`. -/
theorem cll_remove_element_node_eval (st : state_t) (position : Int) (a0 a1 t1 t2 : Nat)
    (n0 n1 n2 : node_t) (hhead : st.cll.p_head = some a0) (hs1 : ¬ (1 = st.cll.size))
    (h0 : node_get st.mem a0 = some n0) (hn0 : n0.p_next = some a1)
    (hw : cll_remove_walk st.mem (position - 1).toNat a0 a1 = loop_t.done (t1, t2))
    (ht1 : node_get st.mem t1 = some n1) (ht2 : node_get st.mem t2 = some n2)
    (hne : t2 ≠ t1) (hsz : -2147483648 < st.cll.size) :
    cll_remove_element_node st position = some (SUCCESS,
      state_t.mk ((st.mem.set t1 (some (node_t.mk n1.p_data n2.p_next))).set t2 none)
        (cll_t.mk st.cll.p_head
          (if position = st.cll.size - 1 then some t1 else st.cll.p_tail) (st.cll.size - 1))) := by
  have hg : node_get (st.mem.set t1 (some (node_t.mk n1.p_data n2.p_next))) t2 = some n2 := by
    rw [node_get_set _ _ _ _ (node_get_lt _ _ _ ht1), if_neg hne, ht2]
  unfold cll_remove_element_node
  simp only [hhead, if_neg hs1, h0, hn0, hw, ht2]
  rw [set_next_eq _ _ _ _ ht1]
  simp only []
  rw [node_free_eq _ _ _ hg]
  simp only [int_decr, if_pos hsz]

/-- `cll_remove_element_node` at an element that is not the first removes
it. -/
theorem cll_remove_element_node_repr (st : state_t) (as1 as3 : List Nat) (t2 : Nat)
    (ds1 ds3 : List (Option Nat)) (d2 : Option Nat)
    (h : cll_repr st (as1 ++ t2 :: as3) (ds1 ++ d2 :: ds3)) (hl : as1.length = ds1.length)
    (h1 : as1 ≠ []) :
    ∃ st2, cll_remove_element_node st (as1.length : Int) = some (SUCCESS, st2) ∧
      cll_repr st2 (as1 ++ as3) (ds1 ++ ds3) := by
  obtain ⟨a0, z, init, d, hinit, hh, hhd, hhead, htail, hz⟩ :=
    cll_repr_nonempty st (as1 ++ t2 :: as3) (ds1 ++ d2 :: ds3) h (by simp)
  obtain ⟨hsize, hnd, _, _, hseg⟩ := h
  rw [hhd] at hseg
  have hlt := cll_seg_lt _ _ _ _ hseg
  have hlen := cll_seg_length _ _ _ _ hseg
  have hsplit := (cll_seg_append _ _ _ _ _ _ hl).mp hseg
  have hseg3 : cll_seg st.mem as3 ds3 a0 := hsplit.2.2
  have hg2 : node_get st.mem t2 = some (node_t.mk d2 (some (as3.headD a0))) := hsplit.2.1
  have hd1 := (List.dropLast_append_getLast h1).symm
  generalize as1.getLast h1 = t1 at hd1
  generalize as1.dropLast = init1 at hd1
  have hseg1 : cll_seg st.mem (init1 ++ [t1]) ds1 t2 := by
    rw [← hd1]; exact hsplit.1
  obtain ⟨dt, ht1⟩ := cll_seg_last _ _ _ _ _ hseg1
  have htm : t1 ∈ as1 := by rw [hd1]; simp
  have hpos : 0 < as1.length := List.length_pos.mpr h1
  have hnd1 : as1.Nodup := (List.nodup_append.mp hnd).1
  have hnd23 : (t2 :: as3).Nodup := (List.nodup_append.mp hnd).2.1
  have hdisj : ∀ a, a ∈ as1 → a ∈ t2 :: as3 → False := fun a ha hb =>
    (List.nodup_append.mp hnd).2.2 ha hb
  have hne : t2 ≠ t1 := fun e => hdisj t1 htm (by rw [← e]; simp)
  -- the head and its successor
  have hg0 : (as1 ++ t2 :: as3).getD 0 0 = a0 := by
    cases as1 with
    | nil => exact absurd rfl h1
    | cons b bs => exact hhd
  have hn0 := cll_seg_get _ _ _ _ hseg 0 (by simp)
  have hn1 : ((as1 ++ t2 :: as3).drop (0 + 1)).headD a0 = (as1 ++ t2 :: as3).getD 1 0 := by
    rw [List.getD_eq_getElem?_getD, List.getElem?_eq_getElem (by simp; omega)]
    rw [List.drop_eq_getElem_cons (by simp; omega : 0 + 1 < (as1 ++ t2 :: as3).length)]
    rfl
  rw [hg0, hn1] at hn0
  have hw := cll_remove_walk_seg _ _ _ _ hseg (as1.length - 1) 0 (by simp; omega)
  have hgt1 : (as1 ++ t2 :: as3).getD (0 + (as1.length - 1)) 0 = t1 := by
    rw [List.getD_eq_getElem?_getD, List.getElem?_append_left (by omega), hd1]
    simp
  have hgt2 : (as1 ++ t2 :: as3).getD (0 + 1 + (as1.length - 1)) 0 = t2 := by
    rw [List.getD_eq_getElem?_getD, List.getElem?_append_right (by omega)]
    have : 0 + 1 + (as1.length - 1) - as1.length = 0 := by omega
    rw [this]
    simp
  rw [hg0, hgt1, hgt2] at hw
  have hw2 : cll_remove_walk st.mem ((as1.length : Int) - 1).toNat a0
      ((as1 ++ t2 :: as3).getD 1 0) = loop_t.done (t1, t2) := by
    have : ((as1.length : Int) - 1).toNat = as1.length - 1 := by omega
    rw [this]
    exact hw
  have hs1 : ¬ (1 = st.cll.size) := by
    rw [hsize]
    simp only [List.length_append, List.length_cons]
    omega
  have hsz : -2147483648 < st.cll.size := by
    rw [hsize]
    omega
  refine ⟨_, cll_remove_element_node_eval st _ a0 _ t1 t2 _ _ _ hhead hs1 hn0 rfl hw2 ht1 hg2
    hne hsz, ?_⟩
  have ht1l := node_get_lt _ _ _ ht1
  have ht2l := node_get_lt _ _ _ hg2
  have hmem : ∀ q, node_get ((st.mem.set t1
      (some (node_t.mk dt (some (as3.headD a0))))).set t2 none) q =
      if q = t2 then none else if q = t1 then some (node_t.mk dt (some (as3.headD a0)))
      else node_get st.mem q := fun q => node_get_set_set _ _ _ _ _ _ ht1l ht2l
  refine ⟨?_, ?_, ?_, ?_, ?_⟩
  · show st.cll.size - 1 = _
    rw [hsize]
    simp only [List.length_append, List.length_cons]
    omega
  · rw [List.nodup_append] at hnd ⊢
    refine ⟨hnd.1, (List.nodup_cons.mp hnd.2.1).2, ?_⟩
    intro a ha hb
    exact hnd.2.2 ha (List.mem_cons_of_mem _ hb)
  · show st.cll.p_head = _
    rw [hhead]
    cases as1 with
    | nil => exact absurd rfl h1
    | cons b bs =>
      simp at hh
      simp [hh]
  · show (if (as1.length : Int) = st.cll.size - 1 then some t1 else st.cll.p_tail) = _
    rw [hsize]
    have hlen3 := cll_seg_length _ _ _ _ hseg3
    cases as3 with
    | nil =>
      rw [if_pos (by
        simp only [List.length_append, List.length_cons, List.length_nil] at hlen3 ⊢
        omega), List.append_nil, hd1, List.getLast?_concat]
    | cons b bs =>
      rw [if_neg (by
        simp only [List.length_append, List.length_cons] at hlen3 ⊢
        omega), htail]
      have e1 : (as1 ++ t2 :: b :: bs).getLast? = some z := by
        rw [hinit, List.getLast?_concat]
      rw [List.getLast?_append, List.getLast?_cons_cons] at e1
      rw [List.getLast?_append]
      cases hl2 : (b :: bs).getLast? with
      | none => exact absurd (List.getLast?_eq_none_iff.mp hl2) (by simp)
      | some v =>
        rw [hl2] at e1
        exact e1.symm
  · have hhd2 : (as1 ++ as3).headD 0 = a0 := by
      cases as1 with
      | nil => exact absurd rfl h1
      | cons b bs => exact hhd
    rw [hhd2, cll_seg_append _ _ _ _ _ _ hl]
    constructor
    · show cll_seg _ as1 ds1 (as3.headD a0)
      rw [hd1] at hnd1 ⊢
      apply cll_seg_relink _ _ _ _ _ _ _ hseg1 hnd1
      intro q hq
      have hq' : q ∈ as1 := by rw [hd1]; exact hq
      rw [ht1]
      show node_get ((st.mem.set t1
        (some (node_t.mk dt (some (as3.headD a0))))).set t2 none) q = _
      rw [hmem q, if_neg (fun (e : q = t2) => hdisj q hq' (by rw [e]; simp))]
      by_cases hq1 : q = t1
      · rw [if_pos hq1, if_pos hq1]
        rfl
      · rw [if_neg hq1, if_neg hq1]
    · apply cll_seg_congr _ _ _ _ _ hseg3
      intro q hq
      show node_get ((st.mem.set t1
        (some (node_t.mk dt (some (as3.headD a0))))).set t2 none) q = _
      rw [hmem q, if_neg (fun (e : q = t2) => (List.nodup_cons.mp hnd23).1 (e ▸ hq)),
        if_neg (fun (e : q = t1) => hdisj t1 htm (List.mem_cons_of_mem _ (e ▸ hq)))]

/-- `cll_remove_element` at a position inside the list removes the element
at that position; position 0 is `cll_remove_element_begin` and the last
position is `cll_remove_element_end`. -/
theorem cll_remove_element_repr (st : state_t) (addrs : List Nat) (l : List (Option Nat))
    (p : Nat) (h : cll_repr st addrs l) (hp : p < l.length) :
    ∃ st2, Cll.cll_remove_element st (p : Int) = some (SUCCESS, st2) ∧
      cll_repr st2 (addrs.eraseIdx p) (l.eraseIdx p) ∧
      (p = 0 → cll_remove_element_begin st = some (SUCCESS, st2)) ∧
      (p + 1 = l.length → cll_remove_element_end st = some (SUCCESS, st2)) := by
  have hlen := cll_seg_length _ _ _ _ h.2.2.2.2
  have hsize := h.1
  have hs : (0 : Int) ≠ st.cll.size := by rw [hsize]; omega
  have hc : cll_position_checker st (if 0 = (p : Int) then 0 else (p : Int) - 1) ≠ FAILURE := by
    unfold cll_position_checker
    rw [if_neg (by rw [hsize]; split_ifs <;> omega)]
    decide
  have hend : p + 1 = l.length → cll_remove_element_end st = Cll.cll_remove_element st (p : Int) := by
    intro e
    unfold cll_remove_element_end
    rw [if_neg (by rw [hsize]; omega)]
    congr 1
    rw [hsize]
    omega
  by_cases hp0 : p = 0
  · subst hp0
    cases addrs with
    | nil => simp at hlen; omega
    | cons a0 rest =>
      cases l with
      | nil => simp at hp
      | cons d0 ds =>
        obtain ⟨st2, h1, h2⟩ := cll_remove_element_begin_repr st a0 rest d0 ds h
        have he : Cll.cll_remove_element st ((0 : Nat) : Int) = some (SUCCESS, st2) := by
          unfold Cll.cll_remove_element
          rw [if_neg (by decide)]
          simp only []
          rw [if_pos hs, if_neg hc, if_pos (by simp)]
          exact h1
        exact ⟨st2, he, h2, fun _ => h1, fun e => by rw [hend e]; exact he⟩
  · have hpa : p < addrs.length := by omega
    have ha : addrs = addrs.take p ++ addrs[p] :: addrs.drop (p + 1) := by
      rw [← List.drop_eq_getElem_cons hpa, List.take_append_drop]
    have hd : l = l.take p ++ l[p] :: l.drop (p + 1) := by
      rw [← List.drop_eq_getElem_cons hp, List.take_append_drop]
    have hsplit : cll_repr st (addrs.take p ++ addrs[p] :: addrs.drop (p + 1))
        (l.take p ++ l[p] :: l.drop (p + 1)) := by
      rw [← ha, ← hd]
      exact h
    have hl1 : (addrs.take p).length = (l.take p).length := by
      rw [List.length_take, List.length_take]
      omega
    have hlp : (addrs.take p).length = p := by
      rw [List.length_take]
      omega
    obtain ⟨st2, h1, h2⟩ := cll_remove_element_node_repr st (addrs.take p) (addrs.drop (p + 1))
      addrs[p] (l.take p) (l.drop (p + 1)) l[p] hsplit hl1
      (by intro e; rw [e] at hlp; simp at hlp; omega)
    rw [hlp] at h1
    have he : Cll.cll_remove_element st (p : Int) = some (SUCCESS, st2) := by
      unfold Cll.cll_remove_element
      rw [if_neg (by omega)]
      simp only []
      rw [if_pos hs, if_neg hc, if_neg (by omega)]
      exact h1
    refine ⟨st2, he, ?_, fun e => absurd e hp0, fun e => by rw [hend e]; exact he⟩
    rw [List.eraseIdx_eq_take_drop_succ, List.eraseIdx_eq_take_drop_succ]
    exact h2

theorem getD_insert (l : List (Option Nat)) (x : Option Nat) (p : Nat) (hp : p ≤ l.length) :
    (l.take p ++ x :: l.drop p).getD p none = x ∧
    (∀ i, i < p → (l.take p ++ x :: l.drop p).getD i none = l.getD i none) ∧
    (∀ i, p ≤ i → (l.take p ++ x :: l.drop p).getD (i + 1) none = l.getD i none) := by
  have hlt : (l.take p).length = p := by rw [List.length_take]; omega
  refine ⟨?_, ?_, ?_⟩
  · rw [List.getD_eq_getElem?_getD, List.getElem?_append_right (by omega), hlt]
    simp
  · intro i hi
    rw [List.getD_eq_getElem?_getD, List.getD_eq_getElem?_getD,
      List.getElem?_append_left (by omega), List.getElem?_take_of_lt hi]
  · intro i hi
    rw [List.getD_eq_getElem?_getD, List.getD_eq_getElem?_getD,
      List.getElem?_append_right (by omega), hlt]
    have : i + 1 - p = (i - p) + 1 := by omega
    rw [this, List.getElem?_cons_succ, List.getElem?_drop]
    congr 2
    omega

theorem getD_eraseIdx (l : List (Option Nat)) (p : Nat) :
    (∀ i, i < p → (l.eraseIdx p).getD i none = l.getD i none) ∧
    (∀ i, p ≤ i → (l.eraseIdx p).getD i none = l.getD (i + 1) none) := by
  refine ⟨?_, ?_⟩
  · intro i hi
    rw [List.getD_eq_getElem?_getD, List.getD_eq_getElem?_getD, List.getElem?_eraseIdx,
      if_pos hi]
  · intro i hi
    rw [List.getD_eq_getElem?_getD, List.getD_eq_getElem?_getD, List.getElem?_eraseIdx,
      if_neg (by omega)]

end CllHeap

section CllClaims

/-- C29: on a list that holds the elements `l` (fewer than the largest
`int`), `cll_insert_element` at a position `p` from 0 to the number of
elements returns `SUCCESS`, and the list then holds the elements of `l` before
`p`, the new element, and the elements of `l` from `p` on: the size is one
more, reading position `p` returns the new element, the positions before `p`
read as before and every former position from `p` on reads one higher. For
`p` = 0 the result is that of `cll_insert_element_begin` and for `p` equal to
the size that of `cll_insert_element_end`. The state that results represents
the new sequence, which is what every later read, insertion and removal
starts from. -/
theorem C29_cll_insert_element (st : Cll.state_t) (addrs : List Nat) (l : List (Option Nat))
    (x : Option Nat) (p : Nat) (h : Cll.cll_repr st addrs l) (hp : p ≤ l.length)
    (hn : (l.length : Int) < 2147483647) :
    ∃ st2 addrs2, Cll.cll_insert_element st x (p : Int) = some (SUCCESS, st2) ∧
      Cll.cll_repr st2 addrs2 (l.take p ++ x :: l.drop p) ∧
      Cll.cll_size st2 = (l.length : Int) + 1 ∧
      Cll.cll_return_element st2 (p : Int) = some x ∧
      (∀ i : Nat, i < p → Cll.cll_return_element st2 (i : Int) = some (l.getD i none)) ∧
      (∀ i : Nat, p ≤ i → i < l.length →
        Cll.cll_return_element st2 ((i + 1 : Nat) : Int) = some (l.getD i none)) ∧
      (p = 0 → Cll.cll_insert_element_begin st x = some (SUCCESS, st2)) ∧
      (p = l.length → Cll.cll_insert_element_end st x = some (SUCCESS, st2)) := by
  obtain ⟨st2, h1, h2, h3, h4⟩ := cll_insert_element_repr st addrs l x p h hp hn
  have hg := getD_insert l x p hp
  have hl2 : (l.take p ++ x :: l.drop p).length = l.length + 1 := by
    simp only [List.length_append, List.length_take, List.length_cons, List.length_drop]
    omega
  refine ⟨st2, _, h1, h2, ?_, ?_, ?_, ?_, h3, h4⟩
  · show st2.cll.size = _
    rw [h2.1, hl2]
    simp
  · rw [cll_return_element_repr st2 _ _ h2 p (by omega), hg.1]
  · intro i hi
    rw [cll_return_element_repr st2 _ _ h2 i (by omega), hg.2.1 i hi]
  · intro i hi hin
    rw [cll_return_element_repr st2 _ _ h2 (i + 1) (by omega), hg.2.2 i hi]

/-- C29 on the list of the data pointers 1, 2 and 3: inserting 9 at
position 1 gives 1, 9, 2, 3. -/
theorem C29_witness :
    Cll.cll_repr cll_three [0, 1, 2] [some 1, some 2, some 3] ∧
    ∃ st2 addrs2, Cll.cll_insert_element cll_three (some 9) 1 = some (SUCCESS, st2) ∧
      Cll.cll_repr st2 addrs2 [some 1, some 9, some 2, some 3] :=
  ⟨by decide,
    match C29_cll_insert_element cll_three [0, 1, 2] [some 1, some 2, some 3] (some 9) 1
      (by decide) (by decide) (by decide) with
    | ⟨st2, addrs2, h1, h2, _⟩ => ⟨st2, addrs2, h1, h2⟩⟩

/-- C30: on a list that holds the elements `l`, `cll_remove_element` without
a free function at a position `p` inside the list returns `SUCCESS`, and the
list then holds the elements of `l` without the one at `p`, in the same
order: the size is one less, the positions before `p` read as before and
every position from `p` on reads what was one higher. For `p` = 0 the result
is that of `cll_remove_element_begin` and for the last position that of
`cll_remove_element_end`. The state that results represents the new sequence,
which is what every later read, insertion and removal starts from. -/
theorem C30_cll_remove_element (st : Cll.state_t) (addrs : List Nat) (l : List (Option Nat))
    (p : Nat) (h : Cll.cll_repr st addrs l) (hp : p < l.length) :
    ∃ st2 addrs2, Cll.cll_remove_element st (p : Int) = some (SUCCESS, st2) ∧
      Cll.cll_repr st2 addrs2 (l.eraseIdx p) ∧
      Cll.cll_size st2 = (l.length : Int) - 1 ∧
      (∀ i : Nat, i < p → Cll.cll_return_element st2 (i : Int) = some (l.getD i none)) ∧
      (∀ i : Nat, p ≤ i → i + 1 < l.length →
        Cll.cll_return_element st2 (i : Int) = some (l.getD (i + 1) none)) ∧
      (p = 0 → Cll.cll_remove_element_begin st = some (SUCCESS, st2)) ∧
      (p + 1 = l.length → Cll.cll_remove_element_end st = some (SUCCESS, st2)) := by
  obtain ⟨st2, h1, h2, h3, h4⟩ := cll_remove_element_repr st addrs l p h hp
  have hg := getD_eraseIdx l p
  have hl2 : (l.eraseIdx p).length = l.length - 1 := List.length_eraseIdx_of_lt hp
  refine ⟨st2, _, h1, h2, ?_, ?_, ?_, h3, h4⟩
  · show st2.cll.size = _
    rw [h2.1, hl2]
    omega
  · intro i hi
    rw [cll_return_element_repr st2 _ _ h2 i (by omega), hg.1 i hi]
  · intro i hi hin
    rw [cll_return_element_repr st2 _ _ h2 i (by omega), hg.2 i hi]

/-- C30 on the list of the data pointers 1, 2 and 3: removing position 1
leaves 1, 3. -/
theorem C30_witness :
    Cll.cll_repr cll_three [0, 1, 2] [some 1, some 2, some 3] ∧
    ∃ st2 addrs2, Cll.cll_remove_element cll_three 1 = some (SUCCESS, st2) ∧
      Cll.cll_repr st2 addrs2 [some 1, some 3] :=
  ⟨by decide,
    match C30_cll_remove_element cll_three [0, 1, 2] [some 1, some 2, some 3] 1
      (by decide) (by decide) with
    | ⟨st2, addrs2, h1, h2, _⟩ => ⟨st2, addrs2, h1, h2⟩⟩

/-- The list-level `cll_remove_element` that the server model uses is what
the heap-level function does to the sequence of elements. -/
theorem cll_remove_element_refines (st : Cll.state_t) (addrs : List Nat) (l : List Nat)
    (p : Nat) (h : Cll.cll_repr st addrs (l.map some)) (hp : p < l.length) :
    ∃ st2 addrs2, Cll.cll_remove_element st (p : Int) = some ((cll_remove_element l p).1, st2) ∧
      Cll.cll_repr st2 addrs2 ((cll_remove_element l p).2.map some) := by
  obtain ⟨st2, h1, h2, _⟩ := cll_remove_element_repr st addrs (l.map some) p h (by simpa using hp)
  have he : cll_remove_element l p = (SUCCESS, l.eraseIdx p) := by
    unfold cll_remove_element
    rw [if_pos hp]
  refine ⟨st2, addrs.eraseIdx p, ?_, ?_⟩
  · rw [he]
    exact h1
  · rw [he]
    show Cll.cll_repr st2 _ ((l.eraseIdx p).map some)
    have hm : (l.map some).eraseIdx p = (l.eraseIdx p).map some := by
      rw [List.eraseIdx_eq_take_drop_succ, List.eraseIdx_eq_take_drop_succ, List.map_append,
        List.map_take, List.map_drop]
    rw [← hm]
    exact h2

end CllClaims

section QueueHeap

theorem queue_node_get_lt (mem : List (Option queue_node_t)) (p : Nat) (n : queue_node_t)
    (h : queue_node_get mem p = some n) : p < mem.length := by
  unfold queue_node_get at h
  rw [List.getD_eq_getElem?_getD] at h
  by_contra hlt
  rw [List.getElem?_eq_none (by omega)] at h
  exact Option.noConfusion h

theorem queue_node_get_set (mem : List (Option queue_node_t)) (p q : Nat)
    (v : Option queue_node_t) (hp : p < mem.length) :
    queue_node_get (mem.set p v) q = if q = p then v else queue_node_get mem q := by
  unfold queue_node_get
  rw [List.getD_eq_getElem?_getD, List.getD_eq_getElem?_getD, List.getElem?_set]
  by_cases h : q = p
  · subst h
    simp [hp]
  · have h2 : ¬ p = q := fun e => h e.symm
    simp [h, h2]

theorem queue_node_get_append (mem : List (Option queue_node_t)) (q : Nat)
    (v : Option queue_node_t) :
    queue_node_get (mem ++ [v]) q = if q = mem.length then v else queue_node_get mem q := by
  unfold queue_node_get
  rw [List.getD_eq_getElem?_getD, List.getD_eq_getElem?_getD]
  by_cases h : q = mem.length
  · subst h
    simp
  · rw [if_neg h]
    by_cases h2 : q < mem.length
    · rw [List.getElem?_append_left h2]
    · rw [List.getElem?_eq_none (by simp; omega), List.getElem?_eq_none (by omega)]

theorem queue_chain_length (mem : List (Option queue_node_t)) (prv : Option Nat) :
    ∀ (nxt : Option Nat) (addrs : List Nat) (items : List (Option Nat)),
      queue_chain mem nxt addrs items prv → addrs.length = items.length
  | _, [], [], _ => rfl
  | _, a :: as, d :: ds, h => by
    have := queue_chain_length mem prv (some a) as ds h.2
    simp [this]
  | _, _ :: _, [], h => False.elim h
  | _, [], _ :: _, h => False.elim h

theorem queue_chain_lt (mem : List (Option queue_node_t)) (prv : Option Nat) :
    ∀ (nxt : Option Nat) (addrs : List Nat) (items : List (Option Nat)),
      queue_chain mem nxt addrs items prv → ∀ a ∈ addrs, a < mem.length
  | _, [], [], _, a, ha => absurd ha (List.not_mem_nil a)
  | _, a :: as, d :: ds, h, b, hb => by
    rcases List.mem_cons.mp hb with e | e
    · rw [e]
      exact queue_node_get_lt mem a _ h.1
    · exact queue_chain_lt mem prv (some a) as ds h.2 b e
  | _, _ :: _, [], h, _, _ => False.elim h
  | _, [], _ :: _, h, _, _ => False.elim h

/-- A chain only depends on the nodes at its addresses. -/
theorem queue_chain_congr (mem mem2 : List (Option queue_node_t)) (prv : Option Nat) :
    ∀ (nxt : Option Nat) (addrs : List Nat) (items : List (Option Nat)),
      queue_chain mem nxt addrs items prv →
      (∀ a ∈ addrs, queue_node_get mem2 a = queue_node_get mem a) →
      queue_chain mem2 nxt addrs items prv
  | _, [], [], _, _ => trivial
  | _, a :: as, d :: ds, h, hm => by
    refine ⟨?_, queue_chain_congr mem mem2 prv (some a) as ds h.2
      (fun b hb => hm b (List.mem_cons_of_mem _ hb))⟩
    rw [hm a (List.mem_cons_self _ _)]
    exact h.1
  | _, _ :: _, [], h, _ => False.elim h
  | _, [], _ :: _, h, _ => False.elim h

/-- Changing the `p_prev` of the last node of a chain. -/
theorem queue_chain_relink (mem mem2 : List (Option queue_node_t)) (prv prv2 : Option Nat)
    (z : Nat) :
    ∀ (nxt : Option Nat) (addrs : List Nat) (items : List (Option Nat)),
      queue_chain mem nxt (addrs ++ [z]) items prv → (addrs ++ [z]).Nodup →
      (∀ q ∈ addrs ++ [z], queue_node_get mem2 q =
        if q = z then
          (queue_node_get mem z).map (fun n => queue_node_t.mk n.p_data n.p_next prv2)
        else queue_node_get mem q) →
      queue_chain mem2 nxt (addrs ++ [z]) items prv2
  | _, [], [d], h, _, hm => by
    refine ⟨?_, trivial⟩
    rw [hm z (by simp), if_pos rfl, h.1]
    rfl
  | _, [], [], h, _, _ => False.elim h
  | _, [], _ :: _ :: _, h, _, _ => False.elim h.2
  | _, a :: as, d :: ds, h, hd, hm => by
    have hd2 : (as ++ [z]).Nodup := (List.nodup_cons.mp hd).2
    have ha : a ≠ z := by
      intro e
      have := (List.nodup_cons.mp hd).1
      rw [e] at this
      exact this (by simp)
    refine ⟨?_, queue_chain_relink mem mem2 prv prv2 z (some a) as ds h.2 hd2
      (fun q hq => hm q (List.mem_cons_of_mem _ hq))⟩
    rw [hm a (by simp), if_neg ha, h.1]
    cases as <;> rfl
  | _, _ :: _, [], h, _, _ => False.elim h

/-- The last node of a chain. -/
theorem queue_chain_last (mem : List (Option queue_node_t)) (prv : Option Nat) (z : Nat) :
    ∀ (nxt : Option Nat) (addrs : List Nat) (items : List (Option Nat)),
      queue_chain mem nxt (addrs ++ [z]) items prv →
      ∃ d, queue_node_get mem z =
        some (queue_node_t.mk d (match addrs.getLast? with | some y => some y | none => nxt) prv)
  | _, [], [d], h => ⟨d, h.1⟩
  | _, [], [], h => False.elim h
  | _, [], _ :: _ :: _, h => False.elim h.2
  | _, a :: as, _ :: ds, h => by
    obtain ⟨d, hd⟩ := queue_chain_last mem prv z (some a) as ds h.2
    refine ⟨d, ?_⟩
    rw [hd]
    cases as with
    | nil => rfl
    | cons b bs =>
      rw [List.getLast?_cons_cons]
      cases hl : (b :: bs).getLast? with
      | none => exact absurd (List.getLast?_eq_none_iff.mp hl) (by simp)
      | some y => rfl
  | _, _ :: _, [], h => False.elim h

/-- Adding a node at the end of a chain. -/
theorem queue_chain_snoc (mem : List (Option queue_node_t)) (prv : Option Nat) (b : Nat)
    (x : Option Nat) :
    ∀ (nxt : Option Nat) (addrs : List Nat) (items : List (Option Nat)),
      queue_chain mem nxt addrs items (some b) →
      queue_node_get mem b =
        some (queue_node_t.mk x (match addrs.getLast? with | some y => some y | none => nxt)
          prv) →
      queue_chain mem nxt (addrs ++ [b]) (items ++ [x]) prv
  | _, [], [], _, hb => ⟨hb, trivial⟩
  | nxt, a :: as, d :: ds, h, hb => by
    refine ⟨?_, queue_chain_snoc mem prv b x (some a) as ds h.2 ?_⟩
    · rw [h.1]
      cases as <;> rfl
    · rw [hb]
      cases as with
      | nil => rfl
      | cons c cs =>
        rw [List.getLast?_cons_cons]
        cases hl : (c :: cs).getLast? with
        | none => exact absurd (List.getLast?_eq_none_iff.mp hl) (by simp)
        | some y => rfl
  | _, _ :: _, [], h, _ => False.elim h
  | _, [], _ :: _, h, _ => False.elim h

/-- A representation of the empty queue. -/
theorem queue_repr_nil (st : queue_state_t) (items : List (Option Nat))
    (h : queue_repr st [] items) :
    items = [] ∧ st.queue.p_head = none ∧ st.queue.p_tail = none ∧ st.queue.size = 0 := by
  obtain ⟨hsize, _, htail, hhead, hc⟩ := h
  cases items with
  | nil => exact ⟨rfl, hhead, htail, hsize⟩
  | cons d ds => exact False.elim hc

/-- `queue_enqueue` puts the item behind the items of the queue. -/
theorem queue_enqueue_repr (st : queue_state_t) (addrs : List Nat) (items : List (Option Nat))
    (x : Option Nat) (h : queue_repr st addrs items) (hn : (items.length : Int) < 2147483647) :
    ∃ st2, queue_enqueue st x = some (SUCCESS, st2) ∧
      queue_repr st2 (addrs ++ [st.mem.length]) (items ++ [x]) := by
  by_cases hne : addrs = []
  · subst hne
    obtain ⟨hi, _, _, hs0⟩ := queue_repr_nil st items h
    subst hi
    refine ⟨queue_state_t.mk (st.mem ++ [some (queue_node_t.mk x none none)])
      (queue_t.mk (some st.mem.length) (some st.mem.length) 1), ?_, ?_⟩
    · unfold queue_enqueue
      simp only [hs0, if_true]
    · refine ⟨rfl, by simp, rfl, rfl, ?_, trivial⟩
      rw [queue_node_get_append, if_pos rfl]
      rfl
  · obtain ⟨hsize, hnd, htail, hhead, hc⟩ := h
    have hd := (List.dropLast_append_getLast hne).symm
    generalize addrs.getLast hne = hd0 at hd
    generalize addrs.dropLast = init at hd
    have hc2 : queue_chain st.mem none (init ++ [hd0]) items none := by rw [← hd]; exact hc
    obtain ⟨d, hh⟩ := queue_chain_last _ _ _ _ _ _ hc2
    have hlt := queue_chain_lt _ _ _ _ _ hc
    have hlen := queue_chain_length _ _ _ _ _ hc
    have hhl := queue_node_get_lt _ _ _ hh
    have hhead2 : st.queue.p_head = some hd0 := by rw [hhead, hd, List.getLast?_concat]
    have hpos : 0 < items.length := by
      rw [← hlen]
      exact List.length_pos.mpr hne
    have hs : ¬ ((0 : Int) = st.queue.size) := by rw [hsize]; omega
    have hg1 : queue_node_get (st.mem ++ [some (queue_node_t.mk x none none)]) hd0 =
        some (queue_node_t.mk d (match init.getLast? with | some y => some y | none => none)
          none) := by
      rw [queue_node_get_append, if_neg (by omega), hh]
    refine ⟨queue_state_t.mk
      (((st.mem ++ [some (queue_node_t.mk x none none)]).set hd0
        (some (queue_node_t.mk d (match init.getLast? with | some y => some y | none => none)
          (some st.mem.length)))).set st.mem.length
        (some (queue_node_t.mk x (some hd0) none)))
      (queue_t.mk (some st.mem.length) st.queue.p_tail (st.queue.size + 1)), ?_, ?_⟩
    · unfold queue_enqueue
      simp only [if_neg hs, hhead2, hg1]
      rw [if_pos (by rw [hsize]; exact hn)]
    · have hmem : ∀ q, queue_node_get
          (((st.mem ++ [some (queue_node_t.mk x none none)]).set hd0
            (some (queue_node_t.mk d
              (match init.getLast? with | some y => some y | none => none)
              (some st.mem.length)))).set st.mem.length
            (some (queue_node_t.mk x (some hd0) none))) q =
          if q = st.mem.length then some (queue_node_t.mk x (some hd0) none)
          else if q = hd0 then
            some (queue_node_t.mk d (match init.getLast? with | some y => some y | none => none)
              (some st.mem.length))
          else queue_node_get st.mem q := by
        intro q
        rw [queue_node_get_set _ _ _ _ (by simp), queue_node_get_set _ _ _ _ (by simp; omega),
          queue_node_get_append]
        by_cases hq1 : q = st.mem.length
        · rw [if_pos hq1, if_pos hq1]
        · rw [if_neg hq1, if_neg hq1, if_neg hq1]
      refine ⟨?_, ?_, ?_, ?_, ?_⟩
      · show st.queue.size + 1 = _
        rw [hsize]
        simp
      · rw [List.nodup_append]
        refine ⟨hnd, by simp, ?_⟩
        intro a ha hb
        have := hlt a ha
        simp at hb
        omega
      · show st.queue.p_tail = _
        rw [htail]
        cases addrs with
        | nil => exact absurd rfl hne
        | cons b bs => rfl
      · show some st.mem.length = _
        rw [List.getLast?_concat]
      · apply queue_chain_snoc
        · rw [hd] at hnd hlt ⊢
          apply queue_chain_relink _ _ _ _ _ _ _ _ hc2 hnd
          intro q hq
          have hql := hlt q hq
          rw [hmem q, if_neg (by omega), hh]
          rfl
        · rw [hmem, if_pos rfl, hd, List.getLast?_concat]

/-- `queue_dequeue` on a queue that is not empty returns the oldest item and
removes it. -/
theorem queue_dequeue_repr (st : queue_state_t) (z : Nat) (rest : List Nat) (d : Option Nat)
    (ds : List (Option Nat)) (h : queue_repr st (z :: rest) (d :: ds)) :
    ∃ st2, queue_dequeue st = some (d, st2) ∧ queue_repr st2 rest ds := by
  obtain ⟨hsize, hnd, htail, hhead, hc⟩ := h
  have hz : queue_node_get st.mem z = some (queue_node_t.mk d none (queue_link rest none)) := hc.1
  have hc2 : queue_chain st.mem (some z) rest ds none := hc.2
  have hlen := queue_chain_length _ _ _ _ _ hc2
  have hlt := queue_chain_lt _ _ _ _ _ hc2
  have hzl := queue_node_get_lt _ _ _ hz
  have hs : ¬ ((0 : Int) = st.queue.size) := by
    rw [hsize]
    simp only [List.length_cons]
    omega
  have htail2 : st.queue.p_tail = some z := htail
  cases rest with
  | nil =>
    have hds : ds = [] := by
      cases ds with
      | nil => rfl
      | cons e es => exact False.elim hc2
    subst hds
    refine ⟨queue_state_t.mk (st.mem.set z none) (queue_t.mk none none 0), ?_, ?_⟩
    · unfold queue_dequeue
      simp only [if_neg hs, htail2, hz]
      rw [if_pos (by rw [hsize]; rfl)]
    · exact ⟨rfl, List.nodup_nil, rfl, rfl, trivial⟩
  | cons y rest2 =>
    cases ds with
    | nil => exact False.elim hc2
    | cons dy ds2 =>
      have hy : queue_node_get st.mem y =
          some (queue_node_t.mk dy (some z) (queue_link rest2 none)) := hc2.1
      have hc3 : queue_chain st.mem (some y) rest2 ds2 none := hc2.2
      have hyl := queue_node_get_lt _ _ _ hy
      have hs1 : ¬ ((1 : Int) = st.queue.size) := by
        rw [hsize]
        simp only [List.length_cons]
        omega
      have hzy : z ≠ y := by
        intro e
        have := (List.nodup_cons.mp hnd).1
        rw [e] at this
        exact this (by simp)
      refine ⟨queue_state_t.mk ((st.mem.set y
        (some (queue_node_t.mk dy none (queue_link rest2 none)))).set z none)
        (queue_t.mk st.queue.p_head (some y) (st.queue.size - 1)), ?_, ?_⟩
      · unfold queue_dequeue
        simp only [if_neg hs, htail2, hz, if_neg hs1]
        show (match some y with
          | none => none
          | some p_tail => _) = _
        simp only [hy]
        rw [if_pos (by rw [hsize]; omega)]
      · have hmem : ∀ q, queue_node_get ((st.mem.set y
            (some (queue_node_t.mk dy none (queue_link rest2 none)))).set z none) q =
            if q = z then none
            else if q = y then some (queue_node_t.mk dy none (queue_link rest2 none))
            else queue_node_get st.mem q := by
          intro q
          rw [queue_node_get_set _ _ _ _ (by simp; omega), queue_node_get_set _ _ _ _ hyl]
        refine ⟨?_, (List.nodup_cons.mp hnd).2, rfl, ?_, ?_, ?_⟩
        · show st.queue.size - 1 = _
          rw [hsize]
          simp
        · show st.queue.p_head = _
          rw [hhead, List.getLast?_cons_cons]
        · show queue_node_get _ y = _
          rw [hmem, if_neg (fun e => hzy e.symm), if_pos rfl]
        · apply queue_chain_congr _ _ _ _ _ _ hc3
          intro q hq
          have hnd2 := (List.nodup_cons.mp hnd).2
          have hqy : q ≠ y := fun e => (List.nodup_cons.mp hnd2).1 (e ▸ hq)
          have hqz : q ≠ z := fun e =>
            (List.nodup_cons.mp hnd).1 (List.mem_cons_of_mem _ (e ▸ hq))
          rw [hmem, if_neg hqz, if_neg hqy]

/-- `queue_dequeue` on the empty queue returns `NULL` and changes nothing. -/
theorem queue_dequeue_empty (st : queue_state_t) (h : queue_repr st [] []) :
    queue_dequeue st = some (none, st) := by
  unfold queue_dequeue
  rw [if_pos (by rw [h.1]; rfl)]

/-- `queue_peek` returns the oldest item, or `NULL` on the empty queue. -/
theorem queue_peek_repr (st : queue_state_t) (addrs : List Nat) (items : List (Option Nat))
    (h : queue_repr st addrs items) : queue_peek st = some (items.headD none) := by
  obtain ⟨hsize, hnd, htail, hhead, hc⟩ := h
  cases addrs with
  | nil =>
    cases items with
    | nil =>
      unfold queue_peek
      rw [if_pos (by rw [hsize]; rfl)]
      rfl
    | cons d ds => exact False.elim hc
  | cons z rest =>
    cases items with
    | nil => exact False.elim hc
    | cons d ds =>
      unfold queue_peek
      rw [if_neg (by rw [hsize]; simp only [List.length_cons]; omega)]
      have htail2 : st.queue.p_tail = some z := htail
      simp only [htail2, hc.1]
      rfl

/-- A sequence of calls on a queue that holds `items` returns what the
first-in first-out queue of the specification returns, and leaves the items
that queue holds. -/
theorem queue_run_repr :
    ∀ (ops : List queue_op) (st : queue_state_t) (addrs : List Nat)
      (items : List (Option Nat)), queue_repr st addrs items →
      ((items.length + ops.length : Nat) : Int) < 2147483647 →
      ∃ st2 addrs2, queue_run st ops = some (st2, (fifo_run items ops).2) ∧
        queue_repr st2 addrs2 (fifo_run items ops).1
  | [], st, addrs, items, h, _ => ⟨st, addrs, rfl, h⟩
  | queue_op.enqueue x :: ops, st, addrs, items, h, hn => by
    obtain ⟨st1, h1, h2⟩ := queue_enqueue_repr st addrs items x h
      (by simp only [List.length_cons] at hn; omega)
    obtain ⟨st2, addrs2, h3, h4⟩ := queue_run_repr ops st1 _ (items ++ [x]) h2
      (by simp only [List.length_cons, List.length_append, List.length_nil] at hn ⊢; omega)
    refine ⟨st2, addrs2, ?_, h4⟩
    simp only [queue_run, h1, h3, Option.map_some', fifo_run, fifo_step]
  | queue_op.dequeue :: ops, st, addrs, items, h, hn => by
    cases addrs with
    | nil =>
      obtain ⟨hi, _⟩ := queue_repr_nil st items h
      subst hi
      obtain ⟨st2, addrs2, h3, h4⟩ := queue_run_repr ops st [] [] h
        (by simp only [List.length_cons] at hn ⊢; omega)
      refine ⟨st2, addrs2, ?_, h4⟩
      simp only [queue_run, queue_dequeue_empty st h, h3, Option.map_some', fifo_run, fifo_step]
    | cons z rest =>
      cases items with
      | nil => exact False.elim h.2.2.2.2
      | cons d ds =>
        obtain ⟨st1, h1, h2⟩ := queue_dequeue_repr st z rest d ds h
        obtain ⟨st2, addrs2, h3, h4⟩ := queue_run_repr ops st1 rest ds h2
          (by simp only [List.length_cons] at hn ⊢; omega)
        refine ⟨st2, addrs2, ?_, h4⟩
        simp only [queue_run, h1, h3, Option.map_some', fifo_run, fifo_step]

/-- In the queue of the specification, the items held after a sequence of
calls are as many as the items held before plus the enqueue calls minus the
dequeue calls that found an item. -/
theorem fifo_run_length :
    ∀ (ops : List queue_op) (items : List (Option Nat)),
      (fifo_run items ops).1.length + fifo_dequeues items ops = items.length + fifo_enqueues ops
  | [], items => rfl
  | queue_op.enqueue x :: ops, items => by
    have ih := fifo_run_length ops (items ++ [x])
    show (fifo_run (items ++ [x]) ops).1.length +
      ((if queue_op.enqueue x = queue_op.dequeue ∧ items ≠ [] then 1 else 0) +
        fifo_dequeues (items ++ [x]) ops) = _
    rw [if_neg (fun h => queue_op.noConfusion h.1)]
    have he : fifo_enqueues (queue_op.enqueue x :: ops) = fifo_enqueues ops + 1 := by
      unfold fifo_enqueues
      rw [List.countP_cons_of_pos]
      exact bne_iff_ne.mpr (fun h => queue_op.noConfusion h)
    rw [he]
    simp only [List.length_append, List.length_cons, List.length_nil] at ih
    omega
  | queue_op.dequeue :: ops, [] => by
    have ih := fifo_run_length ops []
    show (fifo_run [] ops).1.length +
      ((if queue_op.dequeue = queue_op.dequeue ∧ ([] : List (Option Nat)) ≠ [] then 1 else 0) +
        fifo_dequeues [] ops) = _
    rw [if_neg (fun h => h.2 rfl)]
    have he : fifo_enqueues (queue_op.dequeue :: ops) = fifo_enqueues ops := by
      unfold fifo_enqueues
      rw [List.countP_cons_of_neg]
      decide
    rw [he]
    omega
  | queue_op.dequeue :: ops, d :: ds => by
    have ih := fifo_run_length ops ds
    show (fifo_run ds ops).1.length +
      ((if queue_op.dequeue = queue_op.dequeue ∧ d :: ds ≠ [] then 1 else 0) +
        fifo_dequeues ds ops) = _
    rw [if_pos ⟨rfl, by simp⟩]
    have he : fifo_enqueues (queue_op.dequeue :: ops) = fifo_enqueues ops := by
      unfold fifo_enqueues
      rw [List.countP_cons_of_neg]
      decide
    rw [he]
    simp only [List.length_cons]
    omega

end QueueHeap

section QueueClaims

/-- C27: for every sequence of fewer than 2147483647 calls of `queue_enqueue`
and `queue_dequeue` (without a free function) on the empty queue, every call
returns what the first-in first-out queue of the specification returns: an
enqueue returns `SUCCESS` and a dequeue returns the oldest item not yet
dequeued, or `NULL` when there is none. Afterwards `queue_peek` returns the
item the next dequeue returns, `queue_size` is the number of enqueue calls
minus the number of dequeue calls that found an item, and when no item is
left a dequeue returns `NULL` and leaves the state as it is. -/
theorem C27_queue_fifo (ops : List queue_op) (hn : (ops.length : Int) < 2147483647) :
    ∃ st addrs, queue_run queue_init ops = some (st, (fifo_run [] ops).2) ∧
      queue_repr st addrs (fifo_run [] ops).1 ∧
      queue_peek st = some ((fifo_run [] ops).1.headD none) ∧
      (queue_dequeue st).map (fun r => r.1) = queue_peek st ∧
      queue_size st + (fifo_dequeues [] ops : Int) = (fifo_enqueues ops : Int) ∧
      ((fifo_run [] ops).1 = [] → queue_dequeue st = some (none, st)) := by
  have h0 : queue_repr queue_init [] [] := by decide
  obtain ⟨st, addrs, h1, h2⟩ := queue_run_repr ops queue_init [] [] h0 (by simpa using hn)
  have hp := queue_peek_repr st addrs _ h2
  refine ⟨st, addrs, h1, h2, hp, ?_, ?_, ?_⟩
  · rw [hp]
    generalize (fifo_run [] ops).1 = items at h2
    cases addrs with
    | nil =>
      obtain ⟨hi, _⟩ := queue_repr_nil st items h2
      subst hi
      rw [queue_dequeue_empty st h2]
      rfl
    | cons z rest =>
      cases items with
      | nil => exact False.elim h2.2.2.2.2
      | cons d ds =>
        obtain ⟨st1, h3, _⟩ := queue_dequeue_repr st z rest d ds h2
        rw [h3]
        rfl
  · have hl := fifo_run_length ops []
    show st.queue.size + _ = _
    rw [h2.1]
    simp only [List.length_nil, Nat.zero_add] at hl
    omega
  · intro he
    rw [he] at h2
    have hl := queue_chain_length _ _ _ _ _ h2.2.2.2.2
    cases addrs with
    | nil => exact queue_dequeue_empty st h2
    | cons z rest => simp at hl

/-- C27 at the calls enqueue 1, enqueue 2, dequeue, enqueue 3, dequeue,
dequeue, dequeue: the dequeues return 1, 2, 3 and `NULL`. -/
theorem C27_witness :
    (queue_run queue_init queue_calls).map (fun r => r.2) =
      some [queue_out.rc SUCCESS, queue_out.rc SUCCESS, queue_out.data (some 1),
        queue_out.rc SUCCESS, queue_out.data (some 2), queue_out.data (some 3),
        queue_out.data none] :=
  match C27_queue_fifo queue_calls (by decide) with
  | ⟨_, _, h1, _⟩ =>
    (congrArg (Option.map (fun r => r.2)) h1).trans
      (congrArg some (show (fifo_run [] queue_calls).2 = _ by decide))

end QueueClaims

section HashTableMap

/-- The entries of a table whose slot `i` is replaced. -/
theorem h_table_list_set (t : h_table_t) (i n : Nat) (v : Option (List entry_t))
    (hi : i < t.pp_array.length) :
    h_table_list { t with pp_array := t.pp_array.set i v, size := n } =
      ((t.pp_array.take i).map (fun slot => slot.getD [])).flatten ++ v.getD [] ++
        ((t.pp_array.drop (i + 1)).map (fun slot => slot.getD [])).flatten ∧
    h_table_list t =
      ((t.pp_array.take i).map (fun slot => slot.getD [])).flatten ++ h_table_slot t i ++
        ((t.pp_array.drop (i + 1)).map (fun slot => slot.getD [])).flatten := by
  unfold h_table_list h_table_slot
  constructor
  · show ((t.pp_array.set i v).map (fun slot => slot.getD [])).flatten = _
    rw [List.set_eq_take_append_cons_drop, if_pos hi]
    simp only [List.map_append, List.map_cons, List.flatten_append, List.flatten_cons,
      List.append_assoc]
  · conv_lhs => rw [← List.take_append_drop i t.pp_array, List.drop_eq_getElem_cons hi]
    simp only [List.map_append, List.map_cons, List.flatten_append, List.flatten_cons,
      List.append_assoc, List.getD_eq_getElem?_getD, List.getElem?_eq_getElem hi,
      Option.getD_some]

/-- A data pointer found in a list of entries belongs to an entry whose key
matches. -/
theorem h_table_find_some (l : List entry_t) (k : List Nat) (p : Nat)
    (h : h_table_find l k = some p) :
    ∃ e ∈ l, c_strncmp_eq k e.p_key KEY_LENGTH = true ∧ e.p_data = p := by
  induction l with
  | nil => simp [h_table_find] at h
  | cons a rest ih =>
    unfold h_table_find at h
    by_cases hm : c_strncmp_eq k a.p_key KEY_LENGTH = true
    · rw [if_pos hm] at h
      exact ⟨a, List.mem_cons_self _ _, hm, Option.some.inj h⟩
    · rw [if_neg hm] at h
      obtain ⟨e, he, h1, h2⟩ := ih h
      exact ⟨e, List.mem_cons_of_mem _ he, h1, h2⟩

/-- Two keys that match a third one match each other. -/
theorem c_strncmp_eq_trans (a b c : List Nat) (n : Nat) (h1 : c_strncmp_eq a b n = true)
    (h2 : c_strncmp_eq a c n = true) : c_strncmp_eq b c n = true := by
  rw [c_strncmp_eq_iff] at *
  rw [← h1, h2]

/-- In a list without two matching keys, the scan finds the data of the
entry whose key matches. -/
theorem h_table_find_of_mem (l : List entry_t) (k : List Nat) (e : entry_t)
    (hd : l.Pairwise (fun a b => c_strncmp_eq a.p_key b.p_key KEY_LENGTH = false))
    (he : e ∈ l) (hm : c_strncmp_eq k e.p_key KEY_LENGTH = true) :
    h_table_find l k = some e.p_data := by
  induction l with
  | nil => simp at he
  | cons a rest ih =>
    rw [List.pairwise_cons] at hd
    unfold h_table_find
    by_cases hma : c_strncmp_eq k a.p_key KEY_LENGTH = true
    · rw [if_pos hma]
      rcases List.mem_cons.mp he with h | h
      · rw [h]
      · have h1 := hd.1 e h
        rw [c_strncmp_eq_trans k a.p_key e.p_key KEY_LENGTH hma hm] at h1
        exact absurd h1 (by simp)
    · rw [if_neg hma]
      rcases List.mem_cons.mp he with h | h
      · rw [h] at hm; exact absurd hm hma
      · exact ih hd.2 h

/-- In a consistent table, a lookup returns the data of the one entry whose
key matches. -/
theorem h_table_lookup_iff (t : h_table_t) (k : List Nat) (p : Nat) (hok : h_table_ok t)
    (hk : key_canonical k) :
    h_table_return_entry t k = some p ↔
      ∃ e ∈ h_table_list t, c_strncmp_eq k e.p_key KEY_LENGTH = true ∧ e.p_data = p := by
  obtain ⟨hs, hidx, hpw, hcan, _⟩ := hok
  rw [h_table_return_entry_eq_find]
  constructor
  · intro h
    obtain ⟨e, he, h1, h2⟩ := h_table_find_some _ _ _ h
    exact ⟨e, (mem_h_table_list t e).mpr ⟨_, h_table_index_lt t k hs, he⟩, h1, h2⟩
  · rintro ⟨e, he, h1, h2⟩
    obtain ⟨j, hj, hej⟩ := (mem_h_table_list t e).mp he
    have hi := hidx j hj e hej
    have hh := h_table_hash_eq_of_match k e.p_key hk (hcan e he) h1
    have hjk : h_table_index t k = j := by
      rw [← hi]; unfold h_table_index; rw [hh]
    rw [hjk, ← h2]
    exact h_table_find_of_mem _ k e (pairwise_slot t j hpw) hej h1

/-- In a consistent table, a lookup returns `NULL` exactly when no entry has
a matching key. -/
theorem h_table_lookup_none_iff (t : h_table_t) (k : List Nat) (hok : h_table_ok t)
    (hk : key_canonical k) :
    h_table_return_entry t k = none ↔
      ∀ e ∈ h_table_list t, c_strncmp_eq k e.p_key KEY_LENGTH = false := by
  constructor
  · intro h e he
    by_contra hm
    have hm2 : c_strncmp_eq k e.p_key KEY_LENGTH = true := by simpa using hm
    have := (h_table_lookup_iff t k e.p_data hok hk).mpr ⟨e, he, hm2, rfl⟩
    rw [h] at this; exact absurd this (by simp)
  · intro h
    cases hr : h_table_return_entry t k with
    | none => rfl
    | some p =>
      obtain ⟨e, he, h1, _⟩ := (h_table_lookup_iff t k p hok hk).mp hr
      rw [h e he] at h1; exact absurd h1 (by simp)

/-- Two consistent tables with the same entries answer every lookup alike. -/
theorem h_table_lookup_congr (t t2 : h_table_t) (k : List Nat) (hok : h_table_ok t)
    (hok2 : h_table_ok t2) (hk : key_canonical k)
    (hm : ∀ x, x ∈ h_table_list t2 ↔ x ∈ h_table_list t) :
    h_table_return_entry t2 k = h_table_return_entry t k := by
  cases hr : h_table_return_entry t k with
  | none =>
    rw [h_table_lookup_none_iff t2 k hok2 hk]
    intro e he
    exact (h_table_lookup_none_iff t k hok hk).mp hr e ((hm e).mp he)
  | some p =>
    rw [h_table_lookup_iff t2 k p hok2 hk]
    obtain ⟨e, he, h1, h2⟩ := (h_table_lookup_iff t k p hok hk).mp hr
    exact ⟨e, (hm e).mpr he, h1, h2⟩

/-- The slot index of a key does not change when a slot or the size of the
table is replaced. -/
theorem h_table_index_set (t : h_table_t) (i n : Nat) (v : Option (List entry_t))
    (k : List Nat) :
    h_table_index { t with pp_array := t.pp_array.set i v, size := n } k = h_table_index t k :=
  rfl

/-- Adding an entry whose key matches no entry of a consistent table:
the table stays consistent and holds one entry more. -/
theorem h_table_new_entry_add_spec (t : h_table_t) (e : entry_t) (hok : h_table_ok t)
    (hk : key_canonical e.p_key)
    (hx : ∀ e0 ∈ h_table_list t, c_strncmp_eq e.p_key e0.p_key KEY_LENGTH = false)
    (hsz : t.size + 1 < 65536) :
    (h_table_new_entry_add t e).1 = SUCCESS ∧ h_table_ok (h_table_new_entry_add t e).2 ∧
    (h_table_new_entry_add t e).2.capacity = t.capacity ∧
    (h_table_new_entry_add t e).2.size = t.size + 1 ∧
    ∀ x, x ∈ h_table_list (h_table_new_entry_add t e).2 ↔ x = e ∨ x ∈ h_table_list t := by
  obtain ⟨hs, hidx, hpw, hcan, hcount⟩ := hok
  have hi := h_table_index_lt t e.p_key hs
  have hnone : h_table_find (h_table_slot t (h_table_index t e.p_key)) e.p_key = none := by
    rw [h_table_find_eq_none_iff]
    intro e0 he0
    exact hx e0 ((mem_h_table_list t e0).mpr ⟨_, hi, he0⟩)
  rcases h_table_new_entry_add_cases t e with ⟨_, heq⟩ | ⟨hne, _⟩
  swap
  · exact absurd hnone hne
  rw [heq]
  obtain ⟨hl1, hl2⟩ := h_table_list_set t (h_table_index t e.p_key) ((t.size + 1) % 65536)
    (some ((t.pp_array.getD (h_table_index t e.p_key) none).getD [] ++ [e])) hi
  have hperm : (h_table_list { t with
      pp_array := t.pp_array.set (h_table_index t e.p_key)
        (some ((t.pp_array.getD (h_table_index t e.p_key) none).getD [] ++ [e])),
      size := (t.size + 1) % 65536 }).Perm (e :: h_table_list t) := by
    rw [hl1, hl2]
    simp only [Option.getD_some, h_table_slot, List.append_assoc, List.singleton_append]
    exact (List.Perm.append_left _ List.perm_middle).trans List.perm_middle
  have hmem : ∀ x, x ∈ h_table_list { t with
      pp_array := t.pp_array.set (h_table_index t e.p_key)
        (some ((t.pp_array.getD (h_table_index t e.p_key) none).getD [] ++ [e])),
      size := (t.size + 1) % 65536 } ↔ x = e ∨ x ∈ h_table_list t := by
    intro x
    rw [hperm.mem_iff, List.mem_cons]
  refine ⟨rfl, ⟨?_, ?_, ?_, ?_, ?_⟩, rfl, ?_, hmem⟩
  · exact ⟨by simpa using hs.1, hs.2⟩
  · intro j hj x hxj
    simp only [List.length_set] at hj
    rw [h_table_index_set]
    rw [h_table_slot_set t _ j _ _ hi] at hxj
    by_cases hji : j = h_table_index t e.p_key
    · rw [if_pos hji] at hxj
      rcases List.mem_append.mp hxj with h | h
      · rw [hji]
        exact hidx _ hi x h
      · rw [List.mem_singleton.mp h, hji]
    · rw [if_neg hji] at hxj
      exact hidx j hj x hxj
  · refine (hperm.pairwise_iff ?_).mpr (List.pairwise_cons.mpr ⟨hx, hpw⟩)
    intro a b hab
    rw [c_strncmp_eq_comm]; exact hab
  · intro x hxm
    rcases (hmem x).mp hxm with h | h
    · rw [h]; exact hk
    · exact hcan x h
  · show (t.size + 1) % 65536 = _
    rw [hperm.length_eq, List.length_cons, ← hcount, Nat.mod_eq_of_lt hsz]
  · show (t.size + 1) % 65536 = _
    exact Nat.mod_eq_of_lt hsz

/-- An empty table is consistent. -/
theorem h_table_ok_empty (c : Nat) (hc : 0 < c) :
    h_table_ok { size := 0, capacity := c, pp_array := List.replicate c none } := by
  have hl := h_table_list_replicate c 0 c
  refine ⟨⟨by simp, hc⟩, ?_, ?_, ?_, ?_⟩
  · intro i hi e he
    have : e ∈ h_table_list { size := 0, capacity := c, pp_array := List.replicate c none } :=
      (mem_h_table_list _ e).mpr ⟨i, hi, he⟩
    rw [hl] at this; exact absurd this (by simp)
  · rw [hl]; exact List.Pairwise.nil
  · intro e he; rw [hl] at he; exact absurd he (by simp)
  · rw [hl]; rfl

/-- Moving a list of entries with pairwise different keys, none of them in
the table, into a consistent table: every entry arrives. -/
theorem h_table_list_to_table_spec (l : List entry_t) (t : h_table_t) (hok : h_table_ok t)
    (hd : l.Pairwise (fun a b => c_strncmp_eq a.p_key b.p_key KEY_LENGTH = false))
    (hcan : ∀ e ∈ l, key_canonical e.p_key)
    (hx : ∀ e ∈ l, ∀ e0 ∈ h_table_list t, c_strncmp_eq e.p_key e0.p_key KEY_LENGTH = false)
    (hsz : t.size + l.length < 65536) :
    (h_table_list_to_table t l).1 = SUCCESS ∧ h_table_ok (h_table_list_to_table t l).2 ∧
    (h_table_list_to_table t l).2.capacity = t.capacity ∧
    (h_table_list_to_table t l).2.size = t.size + l.length ∧
    ∀ x, x ∈ h_table_list (h_table_list_to_table t l).2 ↔ x ∈ l ∨ x ∈ h_table_list t := by
  induction l generalizing t with
  | nil =>
    refine ⟨rfl, hok, rfl, rfl, ?_⟩
    intro x; simp [h_table_list_to_table]
  | cons a rest ih =>
    rw [List.pairwise_cons] at hd
    simp only [List.length_cons] at hsz
    obtain ⟨h1, h2, h3, h4, h5⟩ := h_table_new_entry_add_spec t a hok
      (hcan a (List.mem_cons_self _ _)) (hx a (List.mem_cons_self _ _)) (by omega)
    have hstep : h_table_list_to_table t (a :: rest) =
        h_table_list_to_table (h_table_new_entry_add t a).2 rest := by
      show (if (h_table_new_entry_add t a).1 = FAILURE then _ else _) = _
      rw [h1, if_neg (by decide)]
    rw [hstep]
    obtain ⟨g1, g2, g3, g4, g5⟩ := ih (h_table_new_entry_add t a).2 h2 hd.2
      (fun e he => hcan e (List.mem_cons_of_mem _ he))
      (by
        intro e he e0 he0
        rcases (h5 e0).mp he0 with h | h
        · rw [h, c_strncmp_eq_comm]; exact hd.1 e he
        · exact hx e (List.mem_cons_of_mem _ he) e0 h)
      (by rw [h4]; omega)
    refine ⟨g1, g2, by rw [g3, h3], by rw [g4, h4, List.length_cons]; omega, ?_⟩
    intro x
    rw [g5, h5, List.mem_cons]
    tauto

/-- Growth check of a consistent table whose capacity is below 23170 and at
least its size: it succeeds, keeps every entry, leaves room for one more
entry, and the capacity grows when the load factor has reached 0.75. -/
theorem h_table_re_hash_spec (rand : Nat → Nat → Nat) (t : h_table_t) (hok : h_table_ok t)
    (hcap : t.capacity < 23170) (hsz : t.size ≤ t.capacity) :
    (h_table_re_hash rand t).1 = SUCCESS ∧ h_table_ok (h_table_re_hash rand t).2 ∧
    (h_table_re_hash rand t).2.size = t.size ∧
    (h_table_re_hash rand t).2.size + 1 ≤ (h_table_re_hash rand t).2.capacity ∧
    (h_table_re_hash rand t).2.capacity < 65536 ∧
    t.capacity ≤ (h_table_re_hash rand t).2.capacity ∧
    (3 * t.capacity ≤ 4 * t.size → t.capacity < (h_table_re_hash rand t).2.capacity) ∧
    ∀ x, x ∈ h_table_list (h_table_re_hash rand t).2 ↔ x ∈ h_table_list t := by
  have hok0 := hok
  obtain ⟨hs, hidx, hpw, hcan, hcount⟩ := hok
  have hc0 : ¬ t.capacity = 0 := by have := hs.2; omega
  unfold h_table_re_hash
  rw [if_neg hc0, if_neg (by omega)]
  by_cases hload : 4 * t.size < 3 * t.capacity
  · rw [if_pos hload]
    refine ⟨rfl, hok0, rfl, ?_, ?_, le_refl _, ?_, fun x => Iff.rfl⟩
    · show t.size + 1 ≤ t.capacity
      omega
    · show t.capacity < 65536
      omega
    · intro h; omega
  · rw [if_neg hload]
    obtain ⟨hgt, hlt⟩ := next_prime_gt rand t.capacity hcap
    have hnf : ¬ next_prime rand t.capacity = FAILURE := by
      have : FAILURE = 1 := rfl
      rw [this]; omega
    simp only [if_neg hnf, if_neg (show ¬ next_prime rand t.capacity < t.capacity by omega)]
    have hemp := h_table_ok_empty (next_prime rand t.capacity) (by omega)
    have hl := h_table_list_replicate (next_prime rand t.capacity) 0 (next_prime rand t.capacity)
    obtain ⟨g1, g2, g3, g4, g5⟩ := h_table_list_to_table_spec (h_table_list t)
      { size := 0, capacity := next_prime rand t.capacity,
        pp_array := List.replicate (next_prime rand t.capacity) none } hemp hpw hcan
      (by intro e _ e0 he0; rw [hl] at he0; exact absurd he0 (by simp))
      (by show 0 + (h_table_list t).length < 65536; rw [← hcount]; omega)
    refine ⟨g1, g2, ?_, ?_, ?_, ?_, ?_, ?_⟩
    · rw [g4, ← hcount]; simp
    · rw [g4, g3, ← hcount]; show 0 + t.size + 1 ≤ next_prime rand t.capacity; omega
    · rw [g3]; exact hlt
    · rw [g3]; show t.capacity ≤ next_prime rand t.capacity; omega
    · intro _; rw [g3]; exact hgt
    · intro x; rw [g5, hl]; simp

/-- The growth check of a table whose load factor is below 0.75 changes
nothing. -/
theorem h_table_re_hash_no_growth (rand : Nat → Nat → Nat) (t : h_table_t)
    (hc : 0 < t.capacity) (hload : 4 * t.size < 3 * t.capacity) :
    h_table_re_hash rand t = (SUCCESS, t) := by
  unfold h_table_re_hash
  rw [if_neg (by omega), if_neg (by omega), if_pos hload]

/-- A call of `h_table_new_entry` whose growth check succeeds and keeps the
entries: with an absent key the entry is added, with a present key the call
fails and the entries stay. -/
theorem h_table_new_entry_spec (rand : Nat → Nat → Nat) (t : h_table_t) (p : Nat)
    (k : List Nat) (hok : h_table_ok t) (hk : key_canonical k)
    (h1 : (h_table_re_hash rand t).1 = SUCCESS) (h2 : h_table_ok (h_table_re_hash rand t).2)
    (h3 : (h_table_re_hash rand t).2.size + 1 ≤ (h_table_re_hash rand t).2.capacity)
    (h4 : (h_table_re_hash rand t).2.capacity < 65536)
    (h5 : ∀ x, x ∈ h_table_list (h_table_re_hash rand t).2 ↔ x ∈ h_table_list t) :
    h_table_ok (h_table_new_entry rand t p k).2 ∧
    (h_table_new_entry rand t p k).2.size ≤ (h_table_new_entry rand t p k).2.capacity ∧
    (h_table_new_entry rand t p k).2.capacity = (h_table_re_hash rand t).2.capacity ∧
    (h_table_return_entry t k = none →
      (h_table_new_entry rand t p k).1 = SUCCESS ∧
      (h_table_new_entry rand t p k).2.size = (h_table_re_hash rand t).2.size + 1 ∧
      ∀ x, x ∈ h_table_list (h_table_new_entry rand t p k).2 ↔
        x = { p_key := k, p_data := p } ∨ x ∈ h_table_list t) ∧
    (h_table_return_entry t k ≠ none →
      (h_table_new_entry rand t p k).1 = FAILURE ∧
      (h_table_new_entry rand t p k).2.size = (h_table_re_hash rand t).2.size ∧
      ∀ x, x ∈ h_table_list (h_table_new_entry rand t p k).2 ↔ x ∈ h_table_list t) := by
  have hnew : h_table_new_entry rand t p k =
      h_table_new_entry_add (h_table_re_hash rand t).2 { p_key := k, p_data := p } := by
    unfold h_table_new_entry
    simp only [h1, if_neg (show ¬ SUCCESS = FAILURE by decide)]
  have hlk := h_table_lookup_congr t (h_table_re_hash rand t).2 k hok h2 hk h5
  rw [hnew]
  cases hr : h_table_return_entry t k with
  | none =>
    rw [hr] at hlk
    obtain ⟨g1, g2, g3, g4, g5⟩ := h_table_new_entry_add_spec (h_table_re_hash rand t).2
      { p_key := k, p_data := p } h2 hk
      ((h_table_lookup_none_iff _ k h2 hk).mp hlk) (by omega)
    refine ⟨g2, by rw [g3, g4]; exact h3, g3, fun _ => ⟨g1, g4, ?_⟩, fun h => absurd rfl h⟩
    intro x; rw [g5, h5]
  | some q =>
    rw [hr, h_table_return_entry_eq_find] at hlk
    rcases h_table_new_entry_add_cases (h_table_re_hash rand t).2 { p_key := k, p_data := p }
      with ⟨hn, _⟩ | ⟨_, heq⟩
    · have hn2 : h_table_find (h_table_slot (h_table_re_hash rand t).2
          (h_table_index (h_table_re_hash rand t).2 k)) k = none := hn
      rw [hlk] at hn2; exact absurd hn2 (by simp)
    · rw [heq]
      exact ⟨h2, by show (h_table_re_hash rand t).2.size ≤ (h_table_re_hash rand t).2.capacity; omega, rfl,
        fun h => absurd h (by simp), fun _ => ⟨rfl, rfl, h5⟩⟩

/-- What `h_table_remove` leaves of a list without two matching keys: the
entries whose key does not match. -/
theorem mem_h_table_remove (l : List entry_t) (k : List Nat) (x : entry_t)
    (hd : l.Pairwise (fun a b => c_strncmp_eq a.p_key b.p_key KEY_LENGTH = false)) :
    x ∈ h_table_remove l k ↔ x ∈ l ∧ c_strncmp_eq k x.p_key KEY_LENGTH = false := by
  induction l with
  | nil => simp [h_table_remove]
  | cons a rest ih =>
    rw [List.pairwise_cons] at hd
    unfold h_table_remove
    by_cases hm : c_strncmp_eq k a.p_key KEY_LENGTH = true
    · rw [if_pos hm]
      constructor
      · intro hx
        refine ⟨List.mem_cons_of_mem _ hx, ?_⟩
        by_contra hmx
        have hmx2 : c_strncmp_eq k x.p_key KEY_LENGTH = true := by simpa using hmx
        have := hd.1 x hx
        rw [c_strncmp_eq_trans k a.p_key x.p_key KEY_LENGTH hm hmx2] at this
        exact absurd this (by simp)
      · rintro ⟨hx, hmx⟩
        rcases List.mem_cons.mp hx with h | h
        · rw [h, hm] at hmx; exact absurd hmx (by simp)
        · exact h
    · rw [if_neg hm, List.mem_cons, List.mem_cons, ih hd.2]
      constructor
      · rintro (h | ⟨h, h2⟩)
        · exact ⟨Or.inl h, by rw [h]; simpa using hm⟩
        · exact ⟨Or.inr h, h2⟩
      · rintro ⟨h | h, h2⟩
        · exact Or.inl h
        · exact Or.inr ⟨h, h2⟩

/-- The list after `h_table_remove` is a sublist. -/
theorem h_table_remove_sublist (l : List entry_t) (k : List Nat) :
    (h_table_remove l k).Sublist l := by
  induction l with
  | nil => exact List.Sublist.refl _
  | cons a rest ih =>
    unfold h_table_remove
    split_ifs
    · exact List.sublist_cons_self _ _
    · exact ih.cons₂ _

/-- When the scan finds a key, `h_table_remove` takes one entry out. -/
theorem h_table_remove_length (l : List entry_t) (k : List Nat) (p : Nat)
    (h : h_table_find l k = some p) : (h_table_remove l k).length + 1 = l.length := by
  induction l with
  | nil => simp [h_table_find] at h
  | cons a rest ih =>
    unfold h_table_find at h
    unfold h_table_remove
    by_cases hm : c_strncmp_eq k a.p_key KEY_LENGTH = true
    · rw [if_pos hm, List.length_cons]
    · rw [if_neg hm] at h
      rw [if_neg hm, List.length_cons, List.length_cons, ih h]

/-- A call of `h_table_destroy_entry` on a key that the lookup does not
find changes nothing. -/
theorem h_table_destroy_entry_absent (t : h_table_t) (k : List Nat)
    (hr : h_table_return_entry t k = none) : h_table_destroy_entry t k = (none, t) := by
  unfold h_table_return_entry at hr
  unfold h_table_destroy_entry
  dsimp only
  cases hg : t.pp_array.getD (h_table_index t k) none with
  | none => rfl
  | some l =>
    rw [hg] at hr
    dsimp only at hr ⊢
    rw [hr]

/-- A call of `h_table_destroy_entry` on a key that the lookup finds: the
slot of the key loses the entry and the size goes down by one. -/
theorem h_table_destroy_entry_present (t : h_table_t) (k : List Nat) (p : Nat)
    (hr : h_table_return_entry t k = some p) :
    h_table_destroy_entry t k = (some p,
      { t with pp_array := t.pp_array.set (h_table_index t k)
                 (if (h_table_remove (h_table_slot t (h_table_index t k)) k).length = 0 then none
                  else some (h_table_remove (h_table_slot t (h_table_index t k)) k)),
               size := (t.size + 65535) % 65536 }) ∧
    h_table_find (h_table_slot t (h_table_index t k)) k = some p := by
  unfold h_table_return_entry at hr
  unfold h_table_destroy_entry h_table_slot
  dsimp only
  cases hg : t.pp_array.getD (h_table_index t k) none with
  | none => rw [hg] at hr; exact absurd hr (by simp)
  | some l =>
    rw [hg] at hr
    dsimp only at hr ⊢
    rw [hr]
    exact ⟨rfl, hr⟩

/-- A call of `h_table_destroy_entry` on a consistent table: it returns what
the lookup returns, the table stays consistent with the same capacity, and
exactly the entries whose key does not match remain. -/
theorem h_table_destroy_entry_spec (t : h_table_t) (k : List Nat) (hok : h_table_ok t)
    (hk : key_canonical k) (hsz : t.size < 65536) :
    (h_table_destroy_entry t k).1 = h_table_return_entry t k ∧
    h_table_ok (h_table_destroy_entry t k).2 ∧
    (h_table_destroy_entry t k).2.capacity = t.capacity ∧
    (h_table_destroy_entry t k).2.size ≤ t.size ∧
    ∀ x, x ∈ h_table_list (h_table_destroy_entry t k).2 ↔
      x ∈ h_table_list t ∧ c_strncmp_eq k x.p_key KEY_LENGTH = false := by
  cases hr : h_table_return_entry t k with
  | none =>
    rw [h_table_destroy_entry_absent t k hr]
    refine ⟨rfl, hok, rfl, le_refl _, ?_⟩
    intro x
    exact ⟨fun h => ⟨h, (h_table_lookup_none_iff t k hok hk).mp hr x h⟩, fun h => h.1⟩
  | some p =>
    obtain ⟨hs, hidx, hpw, hcan, hcount⟩ := hok
    have hi := h_table_index_lt t k hs
    obtain ⟨_, _, _, hslot⟩ := h_table_destroy_entry_found t k p hr
    obtain ⟨heq, hfind⟩ := h_table_destroy_entry_present t k p hr
    rw [heq] at hslot
    rw [heq]
    obtain ⟨hl1, hl2⟩ := h_table_list_set t (h_table_index t k) ((t.size + 65535) % 65536)
      (if (h_table_remove (h_table_slot t (h_table_index t k)) k).length = 0 then none
       else some (h_table_remove (h_table_slot t (h_table_index t k)) k)) hi
    have hv : (if (h_table_remove (h_table_slot t (h_table_index t k)) k).length = 0 then none
        else some (h_table_remove (h_table_slot t (h_table_index t k)) k)).getD [] =
        h_table_remove (h_table_slot t (h_table_index t k)) k := by
      split_ifs with h0
      · rw [List.length_eq_zero.mp h0]; rfl
      · rfl
    rw [hv] at hl1
    have hsub : (h_table_list { t with
        pp_array := t.pp_array.set (h_table_index t k)
          (if (h_table_remove (h_table_slot t (h_table_index t k)) k).length = 0 then none
           else some (h_table_remove (h_table_slot t (h_table_index t k)) k)),
        size := (t.size + 65535) % 65536 }).Sublist (h_table_list t) := by
      rw [hl1, hl2]
      exact ((List.Sublist.refl _).append (h_table_remove_sublist _ k)).append
        (List.Sublist.refl _)
    have hlen : (h_table_list { t with
        pp_array := t.pp_array.set (h_table_index t k)
          (if (h_table_remove (h_table_slot t (h_table_index t k)) k).length = 0 then none
           else some (h_table_remove (h_table_slot t (h_table_index t k)) k)),
        size := (t.size + 65535) % 65536 }).length + 1 = (h_table_list t).length := by
      rw [hl1, hl2]
      have := h_table_remove_length _ k p hfind
      simp only [List.length_append]
      omega
    have hsize : (t.size + 65535) % 65536 + 1 = t.size := by
      have : 1 ≤ t.size := by rw [hcount]; omega
      omega
    refine ⟨rfl, ⟨?_, ?_, ?_, ?_, ?_⟩, rfl, ?_, ?_⟩
    · exact ⟨by simpa using hs.1, hs.2⟩
    · intro j hj x hxj
      simp only [List.length_set] at hj
      rw [h_table_index_set]
      rw [hslot j] at hxj
      by_cases hji : j = h_table_index t k
      · rw [if_pos hji] at hxj
        exact hidx j hj x ((h_table_remove_sublist _ k).subset hxj)
      · rw [if_neg hji] at hxj
        exact hidx j hj x hxj
    · exact hpw.sublist hsub
    · intro x hx
      exact hcan x (hsub.subset hx)
    · dsimp only
      omega
    · show (t.size + 65535) % 65536 ≤ t.size
      omega
    · intro x
      rw [mem_h_table_list, mem_h_table_list]
      simp only [List.length_set]
      constructor
      · rintro ⟨j, hj, hxj⟩
        rw [hslot j] at hxj
        by_cases hji : j = h_table_index t k
        · rw [if_pos hji] at hxj
          obtain ⟨g1, g2⟩ := (mem_h_table_remove _ k x (pairwise_slot t j hpw)).mp hxj
          exact ⟨⟨j, hj, g1⟩, g2⟩
        · rw [if_neg hji] at hxj
          refine ⟨⟨j, hj, hxj⟩, ?_⟩
          by_contra hm
          have hm2 : c_strncmp_eq k x.p_key KEY_LENGTH = true := by simpa using hm
          have hx : x ∈ h_table_list t := (mem_h_table_list t x).mpr ⟨j, hj, hxj⟩
          have hh := h_table_hash_eq_of_match k x.p_key hk (hcan x hx) hm2
          have := hidx j hj x hxj
          apply hji
          rw [← this]; unfold h_table_index; rw [hh]
      · rintro ⟨⟨j, hj, hxj⟩, hm⟩
        refine ⟨j, hj, ?_⟩
        rw [hslot j]
        by_cases hji : j = h_table_index t k
        · rw [if_pos hji]
          exact (mem_h_table_remove _ k x (pairwise_slot t j hpw)).mpr ⟨hxj, hm⟩
        · rw [if_neg hji]; exact hxj

/-- Two keys match on `KEY_LENGTH` bytes when their first `KEY_LENGTH`
characters are the same. -/
theorem key_match_iff (a b : List Nat) :
    c_strncmp_eq a b KEY_LENGTH = true ↔ key_chars a = key_chars b :=
  c_strncmp_eq_iff a b KEY_LENGTH

/-- Looking a key up after a mapping was put in front of the map. -/
theorem fmap_lookup_cons (m : List (List Nat × Nat)) (kc k : List Nat) (p : Nat) :
    fmap_lookup ((kc, p) :: m) k = if kc = key_chars k then some p else fmap_lookup m k := by
  unfold fmap_lookup
  by_cases h : kc = key_chars k
  · simp [List.find?_cons, h]
  · simp [List.find?_cons, h]

/-- Looking a key up after a key was removed from the map. -/
theorem fmap_lookup_filter (m : List (List Nat × Nat)) (kc k : List Nat) :
    fmap_lookup (m.filter (fun e => e.1 != kc)) k =
      if key_chars k = kc then none else fmap_lookup m k := by
  unfold fmap_lookup
  induction m with
  | nil => simp
  | cons a rest ih =>
    by_cases h : key_chars k = kc
    · rw [if_pos h] at ih ⊢
      by_cases ha : a.1 = kc
      · simpa [List.filter_cons, ha] using ih
      · simp only [List.filter_cons, bne_iff_ne, ne_eq, ha, not_false_eq_true, decide_True,
          if_true, List.find?_cons]
        have : (a.1 == key_chars k) = false := by rw [h]; simpa using ha
        rw [this]; exact ih
    · rw [if_neg h] at ih ⊢
      by_cases ha : a.1 = kc
      · have hne : (a.1 == key_chars k) = false := by
          rw [ha]; simpa using fun e => h e.symm
        simp only [List.filter_cons, ha, bne_self_eq_false, Bool.false_eq_true, if_false,
          List.find?_cons, hne]
        have hne2 : (kc == key_chars k) = false := by rw [← ha]; exact hne
        simpa [hne2] using ih
      · simp only [List.filter_cons, bne_iff_ne, ne_eq, ha, not_false_eq_true, decide_True,
          if_true, List.find?_cons]
        cases hb : (a.1 == key_chars k) with
        | true => rfl
        | false => exact ih

/-- The lookups of a consistent table that holds one entry more than
another. -/
theorem h_table_lookup_after_add (t t2 : h_table_t) (k k2 : List Nat) (p : Nat)
    (hok : h_table_ok t) (hok2 : h_table_ok t2) (hk2 : key_canonical k2)
    (hm : ∀ x, x ∈ h_table_list t2 ↔ x = { p_key := k, p_data := p } ∨ x ∈ h_table_list t) :
    h_table_return_entry t2 k2 =
      if key_chars k = key_chars k2 then some p else h_table_return_entry t k2 := by
  by_cases h : key_chars k = key_chars k2
  · rw [if_pos h, h_table_lookup_iff t2 k2 p hok2 hk2]
    exact ⟨{ p_key := k, p_data := p }, (hm _).mpr (Or.inl rfl),
      (key_match_iff k2 k).mpr h.symm, rfl⟩
  · rw [if_neg h]
    cases hr : h_table_return_entry t k2 with
    | none =>
      rw [h_table_lookup_none_iff t2 k2 hok2 hk2]
      intro e he
      rcases (hm e).mp he with h1 | h1
      · rw [h1]
        cases hb : c_strncmp_eq k2 k KEY_LENGTH with
        | false => rfl
        | true => exact absurd ((key_match_iff k2 k).mp hb).symm h
      · exact (h_table_lookup_none_iff t k2 hok hk2).mp hr e h1
    | some q =>
      rw [h_table_lookup_iff t2 k2 q hok2 hk2]
      obtain ⟨e, he, h1, h2⟩ := (h_table_lookup_iff t k2 q hok hk2).mp hr
      exact ⟨e, (hm e).mpr (Or.inr he), h1, h2⟩

/-- The lookups of a consistent table that holds the entries of another
whose key does not match a given key. -/
theorem h_table_lookup_after_remove (t t2 : h_table_t) (k k2 : List Nat)
    (hok : h_table_ok t) (hok2 : h_table_ok t2) (hk2 : key_canonical k2)
    (hm : ∀ x, x ∈ h_table_list t2 ↔
      x ∈ h_table_list t ∧ c_strncmp_eq k x.p_key KEY_LENGTH = false) :
    h_table_return_entry t2 k2 =
      if key_chars k2 = key_chars k then none else h_table_return_entry t k2 := by
  by_cases h : key_chars k2 = key_chars k
  · rw [if_pos h, h_table_lookup_none_iff t2 k2 hok2 hk2]
    intro e he
    obtain ⟨_, h2⟩ := (hm e).mp he
    cases hb : c_strncmp_eq k2 e.p_key KEY_LENGTH with
    | false => rfl
    | true =>
      have := (key_match_iff k2 e.p_key).mp hb
      rw [h] at this
      rw [(key_match_iff k e.p_key).mpr this] at h2
      exact absurd h2 (by simp)
  · rw [if_neg h]
    cases hr : h_table_return_entry t k2 with
    | none =>
      rw [h_table_lookup_none_iff t2 k2 hok2 hk2]
      intro e he
      exact (h_table_lookup_none_iff t k2 hok hk2).mp hr e ((hm e).mp he).1
    | some q =>
      rw [h_table_lookup_iff t2 k2 q hok2 hk2]
      obtain ⟨e, he, h1, h2⟩ := (h_table_lookup_iff t k2 q hok hk2).mp hr
      refine ⟨e, (hm e).mpr ⟨he, ?_⟩, h1, h2⟩
      cases hb : c_strncmp_eq k e.p_key KEY_LENGTH with
      | false => rfl
      | true =>
        have e1 := (key_match_iff k e.p_key).mp hb
        have e2 := (key_match_iff k2 e.p_key).mp h1
        exact absurd (e2.trans e1.symm) h

/-- A call of `h_table_new_entry` on a consistent table that refines a map,
with a capacity below 23170 or a load factor below 0.75: the call answers as
the map does and the table refines the map afterwards. -/
theorem h_table_new_entry_refines (rand : Nat → Nat → Nat) (t : h_table_t)
    (m : List (List Nat × Nat)) (p : Nat) (k : List Nat) (hok : h_table_ok t)
    (hsz : t.size ≤ t.capacity)
    (hgrow : t.capacity < 23170 ∨ (4 * t.size < 3 * t.capacity ∧ t.capacity < 65536))
    (hrel : h_table_refines t m) (hk : key_canonical k) :
    h_table_ok (h_table_new_entry rand t p k).2 ∧
    (h_table_new_entry rand t p k).2.size ≤ (h_table_new_entry rand t p k).2.capacity ∧
    (4 * t.size < 3 * t.capacity → (h_table_new_entry rand t p k).2.capacity = t.capacity) ∧
    (3 * t.capacity ≤ 4 * t.size → t.capacity < (h_table_new_entry rand t p k).2.capacity) ∧
    (fmap_lookup m k = none →
      (h_table_new_entry rand t p k).1 = SUCCESS ∧
      (h_table_new_entry rand t p k).2.size = t.size + 1 ∧
      h_table_refines (h_table_new_entry rand t p k).2 ((key_chars k, p) :: m)) ∧
    (fmap_lookup m k ≠ none →
      (h_table_new_entry rand t p k).1 = FAILURE ∧
      h_table_refines (h_table_new_entry rand t p k).2 m) := by
  have hre : (h_table_re_hash rand t).1 = SUCCESS ∧ h_table_ok (h_table_re_hash rand t).2 ∧
      (h_table_re_hash rand t).2.size = t.size ∧
      (h_table_re_hash rand t).2.size + 1 ≤ (h_table_re_hash rand t).2.capacity ∧
      (h_table_re_hash rand t).2.capacity < 65536 ∧
      (4 * t.size < 3 * t.capacity → (h_table_re_hash rand t).2.capacity = t.capacity) ∧
      (3 * t.capacity ≤ 4 * t.size → t.capacity < (h_table_re_hash rand t).2.capacity) ∧
      ∀ x, x ∈ h_table_list (h_table_re_hash rand t).2 ↔ x ∈ h_table_list t := by
    have hc := hok.1.2
    rcases hgrow with hcap | ⟨hload, hcap⟩
    · obtain ⟨g1, g2, g3, g4, g5, _, g7, g8⟩ := h_table_re_hash_spec rand t hok hcap hsz
      refine ⟨g1, g2, g3, g4, g5, ?_, g7, g8⟩
      intro hload
      rw [h_table_re_hash_no_growth rand t hc hload]
    · rw [h_table_re_hash_no_growth rand t hc hload]
      exact ⟨rfl, hok, rfl, by show t.size + 1 ≤ t.capacity; omega, hcap, fun _ => rfl,
        fun h => by omega, fun x => Iff.rfl⟩
  obtain ⟨g1, g2, g3, g4, g5, g6, g7, g8⟩ := hre
  obtain ⟨n1, n2, n3, n4, n5⟩ := h_table_new_entry_spec rand t p k hok hk g1 g2 g4 g5 g8
  refine ⟨n1, n2, fun h => by rw [n3]; exact g6 h, fun h => by rw [n3]; exact g7 h, ?_, ?_⟩
  · intro hl
    have hl2 : h_table_return_entry t k = none := by rw [hrel k hk]; exact hl
    obtain ⟨a1, a2, a3⟩ := n4 hl2
    refine ⟨a1, by rw [a2, g3], ?_⟩
    intro k2 hk2
    rw [h_table_lookup_after_add t _ k k2 p hok n1 hk2 a3, fmap_lookup_cons, hrel k2 hk2]
  · intro hl
    have hl2 : h_table_return_entry t k ≠ none := by rw [hrel k hk]; exact hl
    obtain ⟨a1, _, a3⟩ := n5 hl2
    refine ⟨a1, ?_⟩
    intro k2 hk2
    rw [h_table_lookup_congr t _ k2 hok n1 hk2 a3, hrel k2 hk2]

/-- A call of `h_table_destroy_entry` on a consistent table that refines a
map: the call answers as the map does and the table refines the map without
the key afterwards. -/
theorem h_table_destroy_entry_refines (t : h_table_t) (m : List (List Nat × Nat))
    (k : List Nat) (hok : h_table_ok t) (hsz : t.size ≤ t.capacity) (hcap : t.capacity < 65536)
    (hrel : h_table_refines t m) (hk : key_canonical k) :
    (h_table_destroy_entry t k).1 = fmap_lookup m k ∧
    h_table_ok (h_table_destroy_entry t k).2 ∧
    (h_table_destroy_entry t k).2.size ≤ (h_table_destroy_entry t k).2.capacity ∧
    (h_table_destroy_entry t k).2.capacity = t.capacity ∧
    h_table_refines (h_table_destroy_entry t k).2 (m.filter (fun e => e.1 != key_chars k)) := by
  obtain ⟨g1, g2, g3, g4, g5⟩ := h_table_destroy_entry_spec t k hok hk (by omega)
  refine ⟨by rw [g1, hrel k hk], g2, by rw [g3]; omega, g3, ?_⟩
  intro k2 hk2
  rw [h_table_lookup_after_remove t _ k k2 hok g2 hk2 g5, fmap_lookup_filter, hrel k2 hk2]

/-- One call on a consistent table that refines a map. -/
theorem h_table_step_refines (rand : Nat → Nat → Nat) (t : h_table_t)
    (m : List (List Nat × Nat)) (op : h_table_op) (hok : h_table_ok t)
    (hsz : t.size ≤ t.capacity) (hcap : t.capacity < 23170)
    (hrel : h_table_refines t m) (hk : key_canonical (h_table_op_key op)) :
    (h_table_step rand t op).2 = (fmap_step m op).2 ∧
    h_table_ok (h_table_step rand t op).1 ∧
    (h_table_step rand t op).1.size ≤ (h_table_step rand t op).1.capacity ∧
    h_table_refines (h_table_step rand t op).1 (fmap_step m op).1 := by
  cases op with
  | new_entry p k =>
    obtain ⟨g1, g2, _, _, g5, g6⟩ :=
      h_table_new_entry_refines rand t m p k hok hsz (Or.inl hcap) hrel hk
    simp only [h_table_step, fmap_step]
    by_cases hl : fmap_lookup m k = none
    · obtain ⟨a1, _, a3⟩ := g5 hl
      rw [if_pos hl]
      exact ⟨by rw [a1], g1, g2, a3⟩
    · obtain ⟨a1, a3⟩ := g6 hl
      rw [if_neg hl]
      exact ⟨by rw [a1], g1, g2, a3⟩
  | return_entry k =>
    simp only [h_table_step, fmap_step]
    exact ⟨by rw [hrel k hk], hok, hsz, hrel⟩
  | destroy_entry k =>
    obtain ⟨g1, g2, g3, _, g5⟩ :=
      h_table_destroy_entry_refines t m k hok hsz (by omega) hrel hk
    simp only [h_table_step, fmap_step]
    exact ⟨by rw [g1], g2, g3, g5⟩

/-- A sequence of calls followed by one more call. -/
theorem h_table_run_append (rand : Nat → Nat → Nat) (ops : List h_table_op) (t : h_table_t)
    (op : h_table_op) :
    h_table_run rand t (ops ++ [op]) =
      ((h_table_step rand (h_table_run rand t ops).1 op).1,
        (h_table_run rand t ops).2 ++ [(h_table_step rand (h_table_run rand t ops).1 op).2]) := by
  induction ops generalizing t with
  | nil => rfl
  | cons a rest ih =>
    show ((h_table_run rand (h_table_step rand t a).1 (rest ++ [op])).1,
      (h_table_step rand t a).2 :: (h_table_run rand (h_table_step rand t a).1 (rest ++ [op])).2)
      = _
    rw [ih]
    rfl

/-- A sequence of calls on the map followed by one more call. -/
theorem fmap_run_append (ops : List h_table_op) (m : List (List Nat × Nat))
    (op : h_table_op) :
    fmap_run m (ops ++ [op]) =
      ((fmap_step (fmap_run m ops).1 op).1,
        (fmap_run m ops).2 ++ [(fmap_step (fmap_run m ops).1 op).2]) := by
  induction ops generalizing m with
  | nil => rfl
  | cons a rest ih =>
    show ((fmap_run (fmap_step m a).1 (rest ++ [op])).1,
      (fmap_step m a).2 :: (fmap_run (fmap_step m a).1 (rest ++ [op])).2) = _
    rw [ih]
    rfl

/-- A sequence of calls on a consistent table that refines a map, the
capacity staying below 23170: the calls answer as the map does. -/
theorem h_table_run_refines (rand : Nat → Nat → Nat) (ops : List h_table_op) (t : h_table_t)
    (m : List (List Nat × Nat)) (hok : h_table_ok t) (hsz : t.size ≤ t.capacity)
    (hrel : h_table_refines t m)
    (hkeys : ∀ op ∈ ops, key_canonical (h_table_op_key op))
    (hcap : ∀ n, n ≤ ops.length → (h_table_run rand t (ops.take n)).1.capacity < 23170) :
    (h_table_run rand t ops).2 = (fmap_run m ops).2 ∧
    h_table_ok (h_table_run rand t ops).1 ∧
    (h_table_run rand t ops).1.size ≤ (h_table_run rand t ops).1.capacity ∧
    h_table_refines (h_table_run rand t ops).1 (fmap_run m ops).1 := by
  induction ops generalizing t m with
  | nil => exact ⟨rfl, hok, hsz, hrel⟩
  | cons a rest ih =>
    have hc0 : t.capacity < 23170 := hcap 0 (Nat.zero_le _)
    obtain ⟨g1, g2, g3, g4⟩ := h_table_step_refines rand t m a hok hsz hc0 hrel
      (hkeys a (List.mem_cons_self _ _))
    obtain ⟨i1, i2, i3, i4⟩ := ih (h_table_step rand t a).1 (fmap_step m a).1 g2 g3 g4
      (fun op hop => hkeys op (List.mem_cons_of_mem _ hop))
      (fun n hn => hcap (n + 1) (by simp only [List.length_cons]; omega))
    refine ⟨?_, i2, i3, i4⟩
    show (h_table_step rand t a).2 :: (h_table_run rand (h_table_step rand t a).1 rest).2 =
      (fmap_step m a).2 :: (fmap_run (fmap_step m a).1 rest).2
    rw [g1, i1]

/-- The table that `h_table_init` makes is consistent and refines the empty
map. -/
theorem h_table_init_refines (c : Nat) (hc : 0 < c) :
    h_table_ok (h_table_init c) ∧ (h_table_init c).size ≤ (h_table_init c).capacity ∧
    h_table_refines (h_table_init c) [] := by
  have hok := h_table_ok_empty c hc
  refine ⟨hok, Nat.zero_le _, ?_⟩
  intro k hk
  show h_table_return_entry { size := 0, capacity := c, pp_array := List.replicate c none } k =
    none
  rw [h_table_lookup_none_iff _ k hok hk, h_table_list_replicate]
  intro e he; exact absurd he (by simp)

/-- What `h_table_calls` returns on a table of capacity 2, which has grown
to capacity 3 by the end. -/
theorem h_table_calls_eval :
    (h_table_run env_ok.rand (h_table_init 2) h_table_calls).2 =
      [h_table_out.rc SUCCESS, h_table_out.rc SUCCESS, h_table_out.rc FAILURE,
        h_table_out.rc SUCCESS, h_table_out.data (some 1), h_table_out.data (some 1),
        h_table_out.data none, h_table_out.data (some 3)] ∧
    (h_table_run env_ok.rand (h_table_init 2) h_table_calls).1.capacity = 3 ∧
    (h_table_run env_ok.rand (h_table_init 2) h_table_calls).1.size = 2 := by
  decide

/-- The characters of a test key are its five digits. -/
theorem h_table_test_key_chars (n : Nat) :
    key_chars (h_table_test_key n) =
      [48 + n / 10000 % 10, 48 + n / 1000 % 10, 48 + n / 100 % 10, 48 + n / 10 % 10,
        48 + n % 10] := by
  simp [key_chars, h_table_test_key, c_str, KEY_LENGTH, List.takeWhile_cons]

/-- A test key is zero-padded. -/
theorem h_table_test_key_canonical (n : Nat) : key_canonical (h_table_test_key n) := by
  intro i hi hlen
  have h5 : c_strlen ((h_table_test_key n).take KEY_LENGTH) = 5 := by
    have := h_table_test_key_chars n
    unfold key_chars at this
    unfold c_strlen
    rw [this]; rfl
  rw [h5] at hlen
  have hi2 : i < 10 := hi
  interval_cases i <;> rfl

/-- Test keys of different numbers below 100000 have different
characters. -/
theorem h_table_test_key_inj (n j : Nat) (hn : n < 100000) (hj : j < 100000)
    (h : key_chars (h_table_test_key n) = key_chars (h_table_test_key j)) : n = j := by
  rw [h_table_test_key_chars, h_table_test_key_chars] at h
  simp only [List.cons.injEq, and_true] at h
  omega

/-- One more call in `h_table_fill_calls`. -/
theorem h_table_fill_calls_succ (n : Nat) :
    h_table_fill_calls (n + 1) =
      h_table_fill_calls n ++ [h_table_op.new_entry (n + 1) (h_table_test_key n)] := by
  unfold h_table_fill_calls
  rw [List.range_succ, List.map_append]
  rfl

/-- Up to 24576 test keys entered into a table of capacity 32767: every call
succeeds, the table does not grow and refines the map of the keys entered. -/
theorem h_table_fill_refines (rand : Nat → Nat → Nat) (n : Nat) (hn : n ≤ 24576) :
    h_table_ok (h_table_run rand (h_table_init 32767) (h_table_fill_calls n)).1 ∧
    (h_table_run rand (h_table_init 32767) (h_table_fill_calls n)).1.capacity = 32767 ∧
    (h_table_run rand (h_table_init 32767) (h_table_fill_calls n)).1.size = n ∧
    h_table_refines (h_table_run rand (h_table_init 32767) (h_table_fill_calls n)).1
      (fmap_run [] (h_table_fill_calls n)).1 ∧
    (h_table_run rand (h_table_init 32767) (h_table_fill_calls n)).2 =
      List.replicate n (h_table_out.rc SUCCESS) ∧
    (fmap_run [] (h_table_fill_calls n)).2 = List.replicate n (h_table_out.rc SUCCESS) ∧
    ∀ j, j < 100000 →
      fmap_lookup (fmap_run [] (h_table_fill_calls n)).1 (h_table_test_key j) =
        if j < n then some (j + 1) else none := by
  induction n with
  | zero =>
    obtain ⟨i1, _, i3⟩ := h_table_init_refines 32767 (by decide)
    exact ⟨i1, rfl, rfl, i3, rfl, rfl, fun j _ => rfl⟩
  | succ n ih =>
    obtain ⟨g1, g2, g3, g4, g5, g6, g7⟩ := ih (by omega)
    have hnone : fmap_lookup (fmap_run [] (h_table_fill_calls n)).1 (h_table_test_key n) =
        none := by
      rw [g7 n (by omega), if_neg (lt_irrefl n)]
    obtain ⟨n1, _, n3, _, n5, _⟩ := h_table_new_entry_refines rand _ _ (n + 1)
      (h_table_test_key n) g1 (by rw [g2, g3]; omega)
      (Or.inr ⟨by rw [g2, g3]; omega, by rw [g2]; decide⟩) g4 (h_table_test_key_canonical n)
    obtain ⟨a1, a2, a3⟩ := n5 hnone
    rw [h_table_fill_calls_succ, h_table_run_append, fmap_run_append]
    simp only [h_table_step, fmap_step, if_pos hnone]
    refine ⟨n1, ?_, ?_, a3, ?_, ?_, ?_⟩
    · rw [n3 (by rw [g2, g3]; omega), g2]
    · rw [a2, g3]
    · rw [a1, g5, List.replicate_succ']
    · rw [g6, List.replicate_succ']
    · intro j hj
      rw [fmap_lookup_cons, g7 j hj]
      by_cases hjn : j = n
      · rw [hjn, if_pos rfl, if_pos (Nat.lt_succ_self n)]
      · rw [if_neg (fun e => hjn (h_table_test_key_inj n j (by omega) hj e).symm)]
        by_cases hlt : j < n
        · rw [if_pos hlt, if_pos (by omega)]
        · rw [if_neg hlt, if_neg (by omega)]

/-- For a capacity of 32767 or more the doubled start value of `next_prime`
wraps around and `next_prime` returns `FAILURE`. -/
theorem next_prime_wraps (rand : Nat → Nat → Nat) (c : Nat) (h1 : 32767 ≤ c) (h2 : c < 65536) :
    next_prime rand c = FAILURE := by
  unfold next_prime
  rw [if_neg (by omega), if_neg (by omega)]
  by_cases hlast : c = 65535
  · subst hlast
    simp [next_prime_loop, is_prime]
  · have hv : ∀ v, 32768 ≤ v → v < 65536 →
        next_prime_loop rand (v * 2 % 65536 + 1) v (v * 2 % 65536) = FAILURE := by
      intro v hv1 hv2
      unfold next_prime_loop
      rw [if_neg (by omega)]
    by_cases hpar : c % 2 = 0
    · simp only [if_pos hpar]
      rw [Nat.mod_eq_of_lt (show c + 1 < 65536 by omega)]
      exact hv _ (by omega) (by omega)
    · simp only [if_neg hpar]
      rw [Nat.mod_eq_of_lt (show c + 2 < 65536 by omega)]
      exact hv _ (by omega) (by omega)

/-- A call of `h_table_new_entry` at a load factor of 0.75 or more on a table
whose capacity is 32767 or more fails and leaves an empty table. -/
theorem h_table_new_entry_wraps (rand : Nat → Nat → Nat) (t : h_table_t) (p : Nat)
    (k : List Nat) (h1 : 32767 ≤ t.capacity) (h2 : t.capacity < 65536)
    (hsz : t.size ≤ t.capacity) (hload : 3 * t.capacity ≤ 4 * t.size) :
    h_table_new_entry rand t p k =
      (FAILURE, { size := 0, capacity := FAILURE, pp_array := t.pp_array.map (fun _ => none) }) := by
  have hre : h_table_re_hash rand t =
      (FAILURE, { size := 0, capacity := FAILURE, pp_array := t.pp_array.map (fun _ => none) }) := by
    unfold h_table_re_hash
    rw [if_neg (show ¬ t.capacity = 0 by omega), if_neg (show ¬ t.size > t.capacity by omega),
      if_neg (show ¬ 4 * t.size < 3 * t.capacity by omega)]
    simp only [next_prime_wraps rand t.capacity h1 h2, if_true]
  unfold h_table_new_entry
  rw [hre]
  rfl

/-- A table whose slots are all `NULL` answers every lookup with `NULL`. -/
theorem h_table_return_entry_cleared (s c : Nat) (a : List (Option (List entry_t)))
    (k : List Nat) :
    h_table_return_entry { size := s, capacity := c, pp_array := a.map (fun _ => none) } k =
      none := by
  unfold h_table_return_entry
  have : (a.map (fun _ => (none : Option (List entry_t)))).getD
      (h_table_index { size := s, capacity := c, pp_array := a.map (fun _ => none) } k) none =
      none := by
    rw [List.getD_eq_getElem?_getD, List.getElem?_map]
    cases a[h_table_index { size := s, capacity := c, pp_array := a.map (fun _ => none) } k]? <;>
      rfl
  rw [this]

/-- A `new_entry` call as a step. -/
theorem h_table_step_new_entry (rand : Nat → Nat → Nat) (t : h_table_t) (p : Nat)
    (k : List Nat) :
    h_table_step rand t (h_table_op.new_entry p k) =
      ((h_table_new_entry rand t p k).2, h_table_out.rc (h_table_new_entry rand t p k).1) :=
  rfl

/-- A `new_entry` call of an absent key on the map. -/
theorem fmap_step_new_entry (m : List (List Nat × Nat)) (p : Nat) (k : List Nat)
    (h : fmap_lookup m k = none) :
    fmap_step m (h_table_op.new_entry p k) =
      ((key_chars k, p) :: m, h_table_out.rc SUCCESS) := by
  simp only [fmap_step, if_pos h]

end HashTableMap

section HashTableClaims

/-- Claim C28 fails on a table of capacity 32767 that holds 24576 entries:
the next `h_table_new_entry`, of an absent key, returns `FAILURE` where the
finite map adds the mapping, and the table no longer finds the key entered
first, which the map still holds. -/
theorem C28_growth_fails_at_capacity_32767 :
    (h_table_run env_ok.rand (h_table_init 32767) (h_table_fill_calls 24577)).2 =
      List.replicate 24576 (h_table_out.rc SUCCESS) ++ [h_table_out.rc FAILURE] ∧
    (fmap_run [] (h_table_fill_calls 24577)).2 =
      List.replicate 24576 (h_table_out.rc SUCCESS) ++ [h_table_out.rc SUCCESS] ∧
    h_table_return_entry
        (h_table_run env_ok.rand (h_table_init 32767) (h_table_fill_calls 24576)).1
        (h_table_test_key 0) = some 1 ∧
    h_table_return_entry
        (h_table_run env_ok.rand (h_table_init 32767) (h_table_fill_calls 24577)).1
        (h_table_test_key 0) = none ∧
    fmap_lookup (fmap_run [] (h_table_fill_calls 24577)).1 (h_table_test_key 0) = some 1 ∧
    (h_table_run env_ok.rand (h_table_init 32767) (h_table_fill_calls 24577)).2 ≠
      (fmap_run [] (h_table_fill_calls 24577)).2 := by
  obtain ⟨_, g2, g3, g4, g5, g6, g7⟩ := h_table_fill_refines env_ok.rand 24576 (le_refl _)
  have hfill : h_table_fill_calls 24577 =
      h_table_fill_calls 24576 ++ [h_table_op.new_entry 24577 (h_table_test_key 24576)] :=
    h_table_fill_calls_succ 24576
  have hw := h_table_new_entry_wraps env_ok.rand
    (h_table_run env_ok.rand (h_table_init 32767) (h_table_fill_calls 24576)).1 24577
    (h_table_test_key 24576) (by rw [g2]) (by rw [g2]; decide) (by rw [g2, g3]; decide)
    (by rw [g2, g3]; decide)
  have hnone : fmap_lookup (fmap_run [] (h_table_fill_calls 24576)).1
      (h_table_test_key 24576) = none := by
    rw [g7 24576 (by decide), if_neg (lt_irrefl _)]
  have h0 : fmap_lookup (fmap_run [] (h_table_fill_calls 24576)).1 (h_table_test_key 0) =
      some 1 := by
    rw [g7 0 (by decide), if_pos (by decide)]
  have hrun : h_table_run env_ok.rand (h_table_init 32767) (h_table_fill_calls 24577) =
      ({ size := 0, capacity := FAILURE,
         pp_array := (h_table_run env_ok.rand (h_table_init 32767)
           (h_table_fill_calls 24576)).1.pp_array.map (fun _ => none) },
       List.replicate 24576 (h_table_out.rc SUCCESS) ++ [h_table_out.rc FAILURE]) := by
    rw [hfill, h_table_run_append, h_table_step_new_entry, hw, g5]
  have hmap : fmap_run [] (h_table_fill_calls 24577) =
      ((key_chars (h_table_test_key 24576), 24577) :: (fmap_run [] (h_table_fill_calls 24576)).1,
       List.replicate 24576 (h_table_out.rc SUCCESS) ++ [h_table_out.rc SUCCESS]) := by
    rw [hfill, fmap_run_append, fmap_step_new_entry _ _ _ hnone, g6]
  rw [hrun, hmap]
  refine ⟨rfl, rfl, ?_, ?_, ?_, ?_⟩
  · rw [g4 _ (h_table_test_key_canonical 0), h0]
  · exact h_table_return_entry_cleared _ _ _ _
  · show fmap_lookup ((key_chars (h_table_test_key 24576), 24577) ::
      (fmap_run [] (h_table_fill_calls 24576)).1) (h_table_test_key 0) = some 1
    rw [fmap_lookup_cons,
      if_neg (fun e => absurd (h_table_test_key_inj 24576 0 (by decide) (by decide) e)
        (by decide)), h0]
  · intro h
    have := List.append_cancel_left h
    exact absurd this (by decide)

/-- With the default hash function and zero-padded keys, the hash table
refines a finite map keyed by the first 10 characters of the key as long as
its capacity stays below 23170. Starting from an
empty table of capacity at least 1, every sequence of `h_table_new_entry`,
`h_table_return_entry` and `h_table_destroy_entry` calls returns what the
map returns (`new_entry` fails and changes nothing on a present key and
otherwise succeeds and adds the mapping, `return_entry` returns the mapped
data or `NULL`, `destroy_entry` returns the mapped data and removes only
that key), the table afterwards answers every lookup as the map does, and a
further `new_entry` at a load factor of 0.75 or more enlarges the table and
keeps the data of every other key. -/
theorem h_table_refines_map_small (rand : Nat → Nat → Nat) (c : Nat) (ops : List h_table_op)
    (hc : 1 ≤ c) (hkeys : ∀ op ∈ ops, key_canonical (h_table_op_key op))
    (hcap : ∀ n, n ≤ ops.length →
      (h_table_run rand (h_table_init c) (ops.take n)).1.capacity < 23170) :
    (h_table_run rand (h_table_init c) ops).2 = (fmap_run [] ops).2 ∧
    (∀ k, key_canonical k →
      h_table_return_entry (h_table_run rand (h_table_init c) ops).1 k =
        fmap_lookup (fmap_run [] ops).1 k) ∧
    (∀ p k, key_canonical k →
      3 * (h_table_run rand (h_table_init c) ops).1.capacity ≤
        4 * (h_table_run rand (h_table_init c) ops).1.size →
      (h_table_run rand (h_table_init c) ops).1.capacity <
        (h_table_new_entry rand (h_table_run rand (h_table_init c) ops).1 p k).2.capacity ∧
      ∀ k2, key_canonical k2 → key_chars k2 ≠ key_chars k →
        h_table_return_entry
            (h_table_new_entry rand (h_table_run rand (h_table_init c) ops).1 p k).2 k2 =
          h_table_return_entry (h_table_run rand (h_table_init c) ops).1 k2) := by
  obtain ⟨i1, i2, i3⟩ := h_table_init_refines c hc
  obtain ⟨g1, g2, g3, g4⟩ := h_table_run_refines rand ops (h_table_init c) [] i1 i2 i3 hkeys hcap
  refine ⟨g1, g4, ?_⟩
  intro p k hk hload
  have hcl := hcap ops.length (le_refl _)
  rw [List.take_length] at hcl
  obtain ⟨n1, _, _, n4, n5, n6⟩ := h_table_new_entry_refines rand _ _ p k g2 g3 (Or.inl hcl) g4 hk
  refine ⟨n4 hload, ?_⟩
  intro k2 hk2 hne
  by_cases hl : fmap_lookup (fmap_run [] ops).1 k = none
  · obtain ⟨_, _, a3⟩ := n5 hl
    rw [a3 k2 hk2, fmap_lookup_cons, if_neg (fun e => hne e.symm), g4 k2 hk2]
  · obtain ⟨_, a3⟩ := n6 hl
    rw [a3 k2 hk2, g4 k2 hk2]

/-- The refinement on `h_table_calls` and a table of capacity 2. -/
theorem h_table_refines_map_small_calls :
    (h_table_run env_ok.rand (h_table_init 2) h_table_calls).2 = (fmap_run [] h_table_calls).2 ∧
    (∀ k, key_canonical k →
      h_table_return_entry (h_table_run env_ok.rand (h_table_init 2) h_table_calls).1 k =
        fmap_lookup (fmap_run [] h_table_calls).1 k) ∧
    (∀ p k, key_canonical k →
      3 * (h_table_run env_ok.rand (h_table_init 2) h_table_calls).1.capacity ≤
        4 * (h_table_run env_ok.rand (h_table_init 2) h_table_calls).1.size →
      (h_table_run env_ok.rand (h_table_init 2) h_table_calls).1.capacity <
        (h_table_new_entry env_ok.rand
          (h_table_run env_ok.rand (h_table_init 2) h_table_calls).1 p k).2.capacity ∧
      ∀ k2, key_canonical k2 → key_chars k2 ≠ key_chars k →
        h_table_return_entry
            (h_table_new_entry env_ok.rand
              (h_table_run env_ok.rand (h_table_init 2) h_table_calls).1 p k).2 k2 =
          h_table_return_entry (h_table_run env_ok.rand (h_table_init 2) h_table_calls).1 k2) :=
  h_table_refines_map_small env_ok.rand 2 h_table_calls (by decide) (by decide) (by decide)

end HashTableClaims

section RegisterMany


/-- The fields and the header of the frame REGISTER `userNN`. -/
theorem register_user_fields (i : Nat) :
    req_p_username (register_user i) = name_user i ++ List.replicate 25 0 ∧
    req_p_password (register_user i) = pass_hunter22 ++ List.replicate 23 0 ∧
    c_byte (register_user i) 0 = ACCOUNT_TYPE ∧ c_byte (register_user i) 1 = REGISTER_STYPE ∧
    c_byte (register_user i) 2 = REQUEST :=
  ⟨rfl, rfl, rfl, rfl, rfl⟩

/-- A name `userNN` with the password `hunter22` passes the validation while
`user_count` is 1; the name field is zero-padded and its key characters are
the name. -/
theorem name_user_valid (i : Nat) :
    cr_users_chk_usr_and_pass (name_user i ++ List.replicate 25 0)
      (pass_hunter22 ++ List.replicate 23 0) 1 = SUCCESS ∧
    c_zero_filled (name_user i ++ List.replicate 25 0) = true ∧
    key_chars (name_user i ++ List.replicate 25 0) = name_user i := by
  have h : ∀ a, a < 10 → ∀ b, b < 10 →
      cr_users_chk_usr_and_pass ([117, 115, 101, 114, 48 + a, 48 + b] ++ List.replicate 25 0)
        (pass_hunter22 ++ List.replicate 23 0) 1 = SUCCESS ∧
      c_zero_filled ([117, 115, 101, 114, 48 + a, 48 + b] ++ List.replicate 25 0) = true ∧
      key_chars ([117, 115, 101, 114, 48 + a, 48 + b] ++ List.replicate 25 0) =
        [117, 115, 101, 114, 48 + a, 48 + b] := by
    decide
  exact h (i / 10 % 10) (Nat.mod_lt _ (by decide)) (i % 10) (Nat.mod_lt _ (by decide))

/-- The names `userNN` of different numbers from 1 to 100 differ, and none
is `admin` or `alice`. -/
theorem name_user_inj (i j : Nat) (hi : 1 ≤ i) (hi2 : i ≤ 100) (hj : 1 ≤ j) (hj2 : j ≤ 100)
    (h : name_user i = name_user j) : i = j := by
  unfold name_user at h
  simp only [List.cons.injEq, and_true, true_and] at h
  omega

/-- The value that the loop of `next_prime` returns is `FAILURE` or below
the doubled start value. -/
theorem next_prime_loop_lt (rand : Nat → Nat → Nat) (fuel v d : Nat) :
    next_prime_loop rand fuel v d = FAILURE ∨ next_prime_loop rand fuel v d < d := by
  induction fuel generalizing v with
  | zero => exact Or.inl rfl
  | succ n ih =>
    unfold next_prime_loop
    by_cases h1 : v < d
    · rw [if_pos h1]
      by_cases h2 : is_prime (rand v) v = true
      · rw [if_pos h2]; exact Or.inr h1
      · rw [if_neg h2]; exact ih _
    · rw [if_neg h1]; exact Or.inl rfl

/-- The value of `next_prime` is below twice its argument plus four. -/
theorem next_prime_lt_double (rand : Nat → Nat → Nat) (c : Nat) :
    next_prime rand c < 2 * c + 4 := by
  unfold next_prime
  by_cases h1 : c ≤ 1
  · rw [if_pos h1]; omega
  · rw [if_neg h1]
    by_cases h2 : c = 2
    · rw [if_pos h2]; omega
    · rw [if_neg h2]
      have hF : FAILURE = 1 := rfl
      by_cases hpar : c % 2 = 0
      · simp only [if_pos hpar]
        rcases next_prime_loop_lt rand ((c + 1) % 65536 * 2 % 65536 + 1) ((c + 1) % 65536)
          ((c + 1) % 65536 * 2 % 65536) with h | h
        · rw [h, hF]; omega
        · have h3 : (c + 1) % 65536 ≤ c + 1 := Nat.mod_le _ _
          have h4 : (c + 1) % 65536 * 2 % 65536 ≤ (c + 1) % 65536 * 2 := Nat.mod_le _ _
          omega
      · simp only [if_neg hpar]
        rcases next_prime_loop_lt rand ((c + 2) % 65536 * 2 % 65536 + 1) ((c + 2) % 65536)
          ((c + 2) % 65536 * 2 % 65536) with h | h
        · rw [h, hF]; omega
        · have h3 : (c + 2) % 65536 ≤ c + 2 := Nat.mod_le _ _
          have h4 : (c + 2) % 65536 * 2 % 65536 ≤ (c + 2) % 65536 * 2 := Nat.mod_le _ _
          omega

/-- The capacity after the growth check: unchanged below a load factor of
0.75, and otherwise the value of `next_prime`. -/
theorem h_table_re_hash_capacity (rand : Nat → Nat → Nat) (t : h_table_t) (hok : h_table_ok t)
    (hcap : t.capacity < 23170) (hsz : t.size ≤ t.capacity) :
    (h_table_re_hash rand t).2.capacity =
      if 4 * t.size < 3 * t.capacity then t.capacity else next_prime rand t.capacity := by
  obtain ⟨hs, _, hpw, hcan, hcount⟩ := hok
  have hpos : 0 < t.capacity := hs.2
  by_cases hload : 4 * t.size < 3 * t.capacity
  · rw [h_table_re_hash_no_growth rand t hs.2 hload, if_pos hload]
  · rw [if_neg hload]
    unfold h_table_re_hash
    rw [if_neg (show ¬ t.capacity = 0 by have := hs.2; omega),
      if_neg (show ¬ t.size > t.capacity by omega), if_neg hload]
    obtain ⟨hgt, hlt⟩ := next_prime_gt rand t.capacity hcap
    have hnf : ¬ next_prime rand t.capacity = FAILURE := by
      have : FAILURE = 1 := rfl
      rw [this]; omega
    simp only [if_neg hnf, if_neg (show ¬ next_prime rand t.capacity < t.capacity by omega)]
    have hemp := h_table_ok_empty (next_prime rand t.capacity) (by omega)
    have hl := h_table_list_replicate (next_prime rand t.capacity) 0 (next_prime rand t.capacity)
    obtain ⟨_, _, g3, _, _⟩ := h_table_list_to_table_spec (h_table_list t)
      { size := 0, capacity := next_prime rand t.capacity,
        pp_array := List.replicate (next_prime rand t.capacity) none } hemp hpw hcan
      (by intro e _ e0 he0; rw [hl] at he0; exact absurd he0 (by simp))
      (by show 0 + (h_table_list t).length < 65536; rw [← hcount]; omega)
    rw [g3]


/-- A REGISTER request with a valid new zero-padded name, sent to a server
whose user table is consistent with a capacity below 23170: the request is
acknowledged, `user_count` keeps its value, the table holds one entry more,
under the name, and answers every other lookup as before. -/
theorem cr_sm_handle_register_fresh (env : env_t) (srv : server_t) (sess : session_t)
    (p_buffer : List Nat) (hstate : sess.logged_in = NOT_LOGGED_IN)
    (htype : c_byte p_buffer 0 = ACCOUNT_TYPE) (hsub : c_byte p_buffer 1 = REGISTER_STYPE)
    (hop : c_byte p_buffer 2 = REQUEST) (hssl : env.ssl_ok sess.p_ssl_holder = true)
    (hok : h_table_ok srv.users.p_users_table)
    (hsz : srv.users.p_users_table.size ≤ srv.users.p_users_table.capacity)
    (hcap : srv.users.p_users_table.capacity < 23170)
    (hz : c_zero_filled (req_p_username p_buffer) = true)
    (hv : cr_users_chk_usr_and_pass (req_p_username p_buffer) (req_p_password p_buffer)
      srv.users.user_count = SUCCESS)
    (hf : h_table_return_entry srv.users.p_users_table (req_p_username p_buffer) = none) :
    (cr_sm_handle env srv sess p_buffer).out =
      [{ dest := sess.p_ssl_holder, data := [ACCOUNT_TYPE, REGISTER_STYPE, ACKNOWLEDGE] }] ∧
    (cr_sm_handle env srv sess p_buffer).srv.users.user_count = srv.users.user_count ∧
    (cr_sm_handle env srv sess p_buffer).srv.user_mem.length = srv.user_mem.length + 1 ∧
    h_table_ok (cr_sm_handle env srv sess p_buffer).srv.users.p_users_table ∧
    (cr_sm_handle env srv sess p_buffer).srv.users.p_users_table.size ≤
      (cr_sm_handle env srv sess p_buffer).srv.users.p_users_table.capacity ∧
    (cr_sm_handle env srv sess p_buffer).srv.users.p_users_table.size =
      srv.users.p_users_table.size + 1 ∧
    (cr_sm_handle env srv sess p_buffer).srv.users.p_users_table.capacity =
      (if 4 * srv.users.p_users_table.size < 3 * srv.users.p_users_table.capacity then
        srv.users.p_users_table.capacity
       else next_prime env.rand srv.users.p_users_table.capacity) ∧
    ∀ k, key_canonical k →
      h_table_return_entry (cr_sm_handle env srv sess p_buffer).srv.users.p_users_table k =
        if key_chars (req_p_username p_buffer) = key_chars k then some srv.user_mem.length
        else h_table_return_entry srv.users.p_users_table k := by
  have hk := key_canonical_of_zero_filled _ hz
  have hkey : (cr_users_new_user (req_p_username p_buffer) (req_p_password p_buffer)).p_username =
      req_p_username p_buffer := new_user_key_eq p_buffer hz
  obtain ⟨g1, g2, g3, g4, g5, _, _, g8⟩ :=
    h_table_re_hash_spec env.rand srv.users.p_users_table hok hcap hsz
  have gc := h_table_re_hash_capacity env.rand srv.users.p_users_table hok hcap hsz
  obtain ⟨n1, n2, n3, n4, _⟩ := h_table_new_entry_spec env.rand srv.users.p_users_table
    srv.user_mem.length (req_p_username p_buffer) hok hk g1 g2 g4 g5 g8
  obtain ⟨a1, a2, a3⟩ := n4 hf
  have hreg := cr_users_register_ok env srv sess.p_ssl_holder p_buffer hssl hf hv
    (by rw [hkey]; exact a1)
  rw [hkey] at hreg
  rw [cr_sm_handle_register env srv sess p_buffer hstate htype hsub hop, hreg]
  refine ⟨rfl, rfl, ?_, n1, n2, ?_, ?_, ?_⟩
  · show (srv.user_mem ++ [_]).length = _
    rw [List.length_append]; rfl
  · show (h_table_new_entry env.rand srv.users.p_users_table srv.user_mem.length
      (req_p_username p_buffer)).2.size = _
    rw [a2, g3]
  · show (h_table_new_entry env.rand srv.users.p_users_table srv.user_mem.length
      (req_p_username p_buffer)).2.capacity = _
    rw [n3, gc]
  · intro k hk2
    exact h_table_lookup_after_add srv.users.p_users_table _ (req_p_username p_buffer) k
      srv.user_mem.length hok n1 hk2 a3

/-- A table that finds only `admin` and the names of the numbers 1 to `n`
does not find the name of the number `n + 1`. -/
theorem register_user_absent (t : h_table_t) (n : Nat) (hn : n + 1 ≤ 100)
    (h7 : ∀ k, key_canonical k → h_table_return_entry t k ≠ none →
      key_chars k = admin_text ∨ ∃ i, 1 ≤ i ∧ i ≤ n ∧ key_chars k = name_user i) :
    h_table_return_entry t (req_p_username (register_user (n + 1))) = none := by
  obtain ⟨f1, _⟩ := register_user_fields (n + 1)
  obtain ⟨_, v2, v3⟩ := name_user_valid (n + 1)
  by_contra hne
  rw [f1] at hne
  rcases h7 _ (key_canonical_of_zero_filled _ v2) hne with h | ⟨i, hi1, hi2, h⟩
  · rw [v3] at h
    exact absurd h (by unfold name_user admin_text; simp)
  · rw [v3] at h
    have := name_user_inj (n + 1) i (by omega) hn hi1 (by omega) h
    omega

/-- The state after the users of the numbers 1 to `n`, at most 100, have
registered on `srv_0`: the user table is consistent and holds `n + 1`
entries in at most 300 slots, `user_count` is still 1, and a lookup finds
only `admin` and the names registered. -/
theorem srv_registered_inv (n : Nat) (hn : n ≤ 100) :
    h_table_ok (srv_registered n).users.p_users_table ∧
    (srv_registered n).users.p_users_table.size ≤
      (srv_registered n).users.p_users_table.capacity ∧
    (srv_registered n).users.p_users_table.capacity ≤ 300 ∧
    (srv_registered n).users.p_users_table.size = n + 1 ∧
    (srv_registered n).users.user_count = 1 ∧
    (srv_registered n).user_mem.length = n + 1 ∧
    ∀ k, key_canonical k →
      h_table_return_entry (srv_registered n).users.p_users_table k ≠ none →
      key_chars k = admin_text ∨ ∃ i, 1 ≤ i ∧ i ≤ n ∧ key_chars k = name_user i := by
  induction n with
  | zero =>
    have hok : h_table_ok srv_0.users.p_users_table := by
      unfold h_table_ok h_table_sized
      decide
    refine ⟨hok, by decide, by decide, by decide, by decide, by decide, ?_⟩
    intro k hk hne
    left
    cases hr : h_table_return_entry srv_0.users.p_users_table k with
    | none => exact absurd hr hne
    | some p =>
      obtain ⟨e, he, hm, _⟩ := (h_table_lookup_iff _ k p hok hk).mp hr
      have hl : h_table_list srv_0.users.p_users_table =
          [{ p_key := admin_text ++ List.replicate 26 0, p_data := 0 }] := by decide
      rw [hl, List.mem_singleton] at he
      rw [he] at hm
      exact (key_match_iff _ _).mp hm
  | succ n ih =>
    obtain ⟨i1, i2, i3, i4, i5, i6, i7⟩ := ih (by omega)
    obtain ⟨f1, f2, f3, f4, f5⟩ := register_user_fields (n + 1)
    obtain ⟨v1, v2, v3⟩ := name_user_valid (n + 1)
    have hf := register_user_absent (srv_registered n).users.p_users_table n hn i7
    obtain ⟨s1, s2, s3, s4, s5, s6, s7, s8⟩ := cr_sm_handle_register_fresh env_ok
      (srv_registered n) (session_init 1) (register_user (n + 1)) rfl f3 f4 f5 rfl i1 i2
      (by omega) (by rw [f1]; exact v2) (by rw [f1, f2, i5]; exact v1) hf
    have hstep : srv_registered (n + 1) =
        (cr_sm_handle env_ok (srv_registered n) (session_init 1) (register_user (n + 1))).srv :=
      rfl
    rw [hstep]
    refine ⟨s4, s5, ?_, by rw [s6, i4], by rw [s2, i5], by rw [s3, i6], ?_⟩
    · rw [s7]
      by_cases hload : 4 * (srv_registered n).users.p_users_table.size <
          3 * (srv_registered n).users.p_users_table.capacity
      · rw [if_pos hload]; exact i3
      · rw [if_neg hload]
        have := next_prime_lt_double env_ok.rand (srv_registered n).users.p_users_table.capacity
        omega
    · intro k hk hne
      rw [s8 k hk] at hne
      by_cases hkk : key_chars (req_p_username (register_user (n + 1))) = key_chars k
      · right
        refine ⟨n + 1, by omega, le_refl _, ?_⟩
        rw [← hkk, f1, v3]
      · rw [if_neg hkk] at hne
        rcases i7 k hk hne with h | ⟨i, hi1, hi2, h⟩
        · exact Or.inl h
        · exact Or.inr ⟨i, hi1, by omega, h⟩

/-- Every REGISTER of the names of the numbers 1 to 100, sent in this order
to `srv_0`, is acknowledged. -/
theorem srv_registered_acked (n : Nat) (hn : n < 100) :
    (cr_sm_handle env_ok (srv_registered n) (session_init 1) (register_user (n + 1))).out =
      [{ dest := 1, data := [ACCOUNT_TYPE, REGISTER_STYPE, ACKNOWLEDGE] }] := by
  obtain ⟨i1, i2, i3, _, i5, _, i7⟩ := srv_registered_inv n (by omega)
  obtain ⟨f1, f2, f3, f4, f5⟩ := register_user_fields (n + 1)
  obtain ⟨v1, v2, _⟩ := name_user_valid (n + 1)
  exact (cr_sm_handle_register_fresh env_ok (srv_registered n) (session_init 1)
    (register_user (n + 1)) rfl f3 f4 f5 rfl i1 i2 (by omega) (by rw [f1]; exact v2)
    (by rw [f1, f2, i5]; exact v1)
    (register_user_absent (srv_registered n).users.p_users_table n (by omega) i7)).1

end RegisterMany

section RegisterClaims

/-- C21 fails: the server starts on a `users.txt` that holds `admin` alone,
so that `user_count` is 1, and the users `user01` to `user99` register one
after the other. Every request is acknowledged, the directory then holds 100
users and `user_count` is still 1. The REGISTER of `alice` that follows is
acknowledged as well: the directory holds 101 users and finds `alice` at the
address 100. `cr_users_register` never changes `user_count`. -/
theorem C21_register_past_max_users :
    srv_0.users.user_count = 1 ∧
    (∀ n, n < 99 →
      (cr_sm_handle env_ok (srv_registered n) (session_init 1) (register_user (n + 1))).out =
        [{ dest := 1, data := [ACCOUNT_TYPE, REGISTER_STYPE, ACKNOWLEDGE] }]) ∧
    (h_table_list (srv_registered 99).users.p_users_table).length = 100 ∧
    (srv_registered 99).user_mem.length = 100 ∧
    (srv_registered 99).users.user_count = 1 ∧
    h_table_return_entry (srv_registered 99).users.p_users_table
      (req_p_username register_alice) = none ∧
    (cr_sm_handle env_ok (srv_registered 99) (session_init 1) register_alice).out =
      [{ dest := 1, data := [ACCOUNT_TYPE, REGISTER_STYPE, ACKNOWLEDGE] }] ∧
    (h_table_list (cr_sm_handle env_ok (srv_registered 99) (session_init 1)
      register_alice).srv.users.p_users_table).length = 101 ∧
    (cr_sm_handle env_ok (srv_registered 99) (session_init 1)
      register_alice).srv.users.user_count = 1 ∧
    h_table_return_entry (cr_sm_handle env_ok (srv_registered 99) (session_init 1)
      register_alice).srv.users.p_users_table (req_p_username register_alice) = some 100 ∧
    (∀ (env : env_t) (srv : server_t) (p : Nat) (p_buffer : List Nat),
      (cr_users_register env srv p p_buffer).srv.users.user_count = srv.users.user_count) := by
  obtain ⟨i1, i2, i3, i4, i5, i6, i7⟩ := srv_registered_inv 99 (by decide)
  have hz : c_zero_filled (req_p_username register_alice) = true := by decide
  have hk := key_canonical_of_zero_filled _ hz
  have hkc : key_chars (req_p_username register_alice) = name_alice := by decide
  have hf : h_table_return_entry (srv_registered 99).users.p_users_table
      (req_p_username register_alice) = none := by
    by_contra hne
    rcases i7 _ hk hne with h | ⟨i, _, _, h⟩
    · rw [hkc] at h; exact absurd h (by decide)
    · rw [hkc] at h
      exact absurd h (by unfold name_user name_alice; simp)
  obtain ⟨s1, s2, _, s4, _, s6, _, s8⟩ := cr_sm_handle_register_fresh env_ok
    (srv_registered 99) (session_init 1) register_alice rfl (by decide) (by decide) (by decide)
    rfl i1 i2 (by omega) hz (by rw [i5]; decide) hf
  refine ⟨by decide, fun n hn => srv_registered_acked n (by omega), ?_, i6, i5, hf, s1, ?_,
    by rw [s2, i5], ?_, cr_users_register_user_count⟩
  · rw [← i1.2.2.2.2, i4]
  · rw [← s4.2.2.2.2, s6, i4]
  · rw [s8 _ hk, if_pos rfl, i6]

end RegisterClaims

section CllReturn

open Cll

/-- One more step of the walk of `cll_return_element`. -/
theorem cll_return_walk_succ (mem : List (Option node_t)) :
    ∀ (k : Nat) (p_temp : Option Nat) (q : Nat) (nd : node_t),
      cll_return_walk mem k p_temp = loop_t.done (some q) → node_get mem q = some nd →
      cll_return_walk mem (k + 1) p_temp = loop_t.done nd.p_next
  | 0, p_temp, q, nd, h, hq => by
    have hp : p_temp = some q := by
      unfold cll_return_walk at h
      exact loop_t.done.inj h
    rw [hp]
    unfold cll_return_walk
    simp only [hq]
    rfl
  | k + 1, none, q, nd, h, hq => by
    unfold cll_return_walk at h
    exact absurd h (by simp)
  | k + 1, some p, q, nd, h, hq => by
    unfold cll_return_walk at h ⊢
    simp only [] at h ⊢
    cases hg : node_get mem p with
    | none => rw [hg] at h; exact absurd h (by simp)
    | some n =>
      rw [hg] at h
      simp only [] at h ⊢
      exact cll_return_walk_succ mem k n.p_next q nd h hq

/-- Reading at the position that equals the size of a list that is not
empty walks once around the circle and returns the first element. -/
theorem cll_return_element_size (st : state_t) (addrs : List Nat) (l : List (Option Nat))
    (h : cll_repr st addrs l) (hne : l ≠ []) :
    cll_return_element st (l.length : Int) = some (l.getD 0 none) := by
  have hlen0 := cll_seg_length _ _ _ _ h.2.2.2.2
  have hane : addrs ≠ [] := by
    intro e
    rw [e] at hlen0
    exact hne (List.length_eq_zero.mp hlen0.symm)
  have hpos : 0 < l.length := List.length_pos.mpr hne
  obtain ⟨a0, z, init, d, hinit, hh, hhd, hhead, htail, hz⟩ := cll_repr_nonempty st addrs l h hane
  obtain ⟨hsize, hnd, _, _, hseg⟩ := h
  have hg0 : addrs.getD 0 0 = a0 := by
    cases addrs with
    | nil => exact absurd rfl hane
    | cons b bs => exact hhd
  have hw := cll_insert_walk_seg _ _ _ _ hseg (l.length - 1) 0 (by omega)
  rw [hg0, Nat.zero_add, ← cll_return_walk_eq] at hw
  have hlast : addrs.getD (l.length - 1) 0 = z := by
    rw [hinit] at hlen0 ⊢
    simp only [List.length_append, List.length_singleton] at hlen0
    rw [List.getD_eq_getElem?_getD, List.getElem?_append_right (by omega)]
    have : l.length - 1 - init.length = 0 := by omega
    rw [this]; rfl
  rw [hlast] at hw
  have hw2 := cll_return_walk_succ st.mem (l.length - 1) (some a0) z _ hw hz
  rw [show l.length - 1 + 1 = l.length by omega] at hw2
  have hg := cll_seg_get _ _ _ _ hseg 0 (by omega)
  rw [hg0] at hg
  unfold cll_return_element cll_position_checker
  rw [if_neg (by omega), if_pos (by omega)]
  have hc : ¬ ((if 0 = (l.length : Int) then 0 else (l.length : Int) - 1) < 0 ∨
      (if 0 = (l.length : Int) then 0 else (l.length : Int) - 1) > st.cll.size) := by
    rw [hsize]
    split_ifs <;> omega
  rw [if_neg hc, if_neg (by decide)]
  simp only [hhead, Int.toNat_ofNat, hw2, hg, Option.map_some']

/-- Reading at a negative position, or at a position more than one beyond the
size, returns `NULL`. -/
theorem cll_return_element_null (st : state_t) (position : Int)
    (hmin : position ≠ -2147483648)
    (hp : position < 0 ∨ st.cll.size + 1 < position) :
    cll_return_element st position = some none := by
  unfold cll_return_element cll_position_checker
  rw [if_neg hmin]
  by_cases hs : 0 ≠ st.cll.size
  · rw [if_pos hs]
    have hc : (if 0 = position then 0 else position - 1) < 0 ∨
        (if 0 = position then 0 else position - 1) > st.cll.size := by
      split_ifs <;> omega
    simp only [if_pos hc, if_true]
  · rw [if_neg hs]

end CllReturn

section CllReturnClaims

/-- C31 fails at the position that equals the size: on the list `cll_three`,
which holds the three data pointers 1, 2 and 3, `cll_return_element` returns
the first element for position 3 and the second for position 4, and `NULL`
only from position 5 on and for negative positions. For every list that is
not empty, the position that equals the size reads the first element. -/
theorem C31_cll_return_element_wraps :
    Cll.cll_repr cll_three [0, 1, 2] [some 1, some 2, some 3] ∧
    Cll.cll_return_element cll_three 0 = some (some 1) ∧
    Cll.cll_return_element cll_three 2 = some (some 3) ∧
    Cll.cll_return_element cll_three 3 = some (some 1) ∧
    Cll.cll_return_element cll_three 4 = some (some 2) ∧
    Cll.cll_return_element cll_three 5 = some none ∧
    Cll.cll_return_element cll_three (-1) = some none ∧
    (∀ (st : Cll.state_t) (addrs : List Nat) (l : List (Option Nat)),
      Cll.cll_repr st addrs l → l ≠ [] →
      Cll.cll_return_element st (l.length : Int) = some (l.getD 0 none)) ∧
    (∀ (st : Cll.state_t) (position : Int), position ≠ -2147483648 →
      position < 0 ∨ st.cll.size + 1 < position →
      Cll.cll_return_element st position = some none) := by
  refine ⟨by decide, by decide, by decide, by decide, by decide, by decide, by decide,
    cll_return_element_size, cll_return_element_null⟩

end CllReturnClaims

section Defects3

/-- C37 fails: after `abcdefghijk` has registered, the LOGIN of
`abcdefghijX` with the same password is acknowledged and binds the session
to the user `abcdefghijk`, and the REGISTER of `abcdefghijX` is rejected with
USER_EXISTS, although the directory holds no user of that name: the lookup
compares the first ten characters only. -/
theorem C37_names_match_on_ten_characters :
    (srv_eleven.user_mem.map user_name_str) = [admin_text, name_eleven] ∧
    c_str (req_p_username login_eleven_other) = name_eleven_other ∧
    (cr_sm_handle env_ok srv_eleven (session_init 2) login_eleven_other).out =
      [{ dest := 2, data := [ACCOUNT_TYPE, LOGIN_STYPE, ACKNOWLEDGE] }] ∧
    (cr_sm_handle env_ok srv_eleven (session_init 2) login_eleven_other).sess.pp_user =
      some 1 ∧
    user_name_str (user_at
      (cr_sm_handle env_ok srv_eleven (session_init 2) login_eleven_other).srv 1) =
      name_eleven ∧
    (user_at (cr_sm_handle env_ok srv_eleven (session_init 2) login_eleven_other).srv
      1).login_status = LOGGED_IN ∧
    (cr_sm_handle env_ok srv_eleven (session_init 2) register_eleven_other).out =
      [{ dest := 2, data := [ACCOUNT_TYPE, REGISTER_STYPE, REJECT, USER_EXISTS] }] := by
  decide

/-- C38 fails at a LOGIN: on the server where `alice` has registered, the
LOGIN of `alice` is acknowledged and logs her in, while the LOGIN whose name
field holds `alice`, the terminator and one more letter, so the same string,
with the same password, is rejected with USER_DOES_NOT_EXIST and changes
nothing. -/
theorem C38_login_depends_on_bytes_after_terminator :
    c_str (req_p_username login_alice_padded) = c_str (req_p_username login_alice) ∧
    c_str (req_p_password login_alice_padded) = c_str (req_p_password login_alice) ∧
    (cr_sm_handle env_ok srv_alice (session_init 2) login_alice).out =
      [{ dest := 2, data := [ACCOUNT_TYPE, LOGIN_STYPE, ACKNOWLEDGE] }] ∧
    (cr_sm_handle env_ok srv_alice (session_init 2) login_alice).sess.logged_in = LOGGED_IN ∧
    (cr_sm_handle env_ok srv_alice (session_init 2) login_alice_padded).out =
      [{ dest := 2, data := [ACCOUNT_TYPE, LOGIN_STYPE, REJECT, USER_DOES_NOT_EXIST] }] ∧
    (cr_sm_handle env_ok srv_alice (session_init 2) login_alice_padded).sess =
      session_init 2 ∧
    (cr_sm_handle env_ok srv_alice (session_init 2) login_alice_padded).srv = srv_alice := by
  decide

/-- C39 fails on a `users.txt` that ends with a newline: the file
`admin:secret` plus newline loads into the directory of `admin` alone; after
the acknowledged REGISTER of `alice` the file holds an empty line between the
two records, and it loads into three users: `admin`, a user with an empty
name and an empty password, who is ADMIN, and `alice`. -/
theorem C39_register_after_final_newline :
    loaded_users users_txt_newline = some [(admin_text, pass_secret, ADMIN)] ∧
    (cr_sm_handle env_ok srv_newline (session_init 1) register_alice).out =
      [{ dest := 1, data := [ACCOUNT_TYPE, REGISTER_STYPE, ACKNOWLEDGE] }] ∧
    (cr_sm_handle env_ok srv_newline (session_init 1) register_alice).srv.users_txt =
      users_txt_0 ++ [10, 10] ++ name_alice ++ [UTF_COLON] ++ pass_hunter22 ∧
    loaded_users (cr_sm_handle env_ok srv_newline (session_init 1) register_alice).srv.users_txt =
      some [(admin_text, pass_secret, ADMIN), ([], [], ADMIN),
        (name_alice, pass_hunter22, NOT_ADMIN)] := by
  decide

end Defects3

section PrimeClaims

/-- C40: for every prime `p` below 46341 and every sequence of values that
`rand()` returns, `is_prime p` returns true. -/
theorem C40_is_prime_no_false_negative (rand : Nat → Nat) (p : Nat) (hp : p.Prime)
    (hlt : p < 46341) : is_prime rand p = true :=
  is_prime_prime rand p hp (by omega)

/-- C40 at the prime 5 with the draws 2, 3, 4, ... -/
theorem C40_witness : Nat.Prime 5 ∧ 5 < 46341 ∧ is_prime (fun k => k + 2) 5 = true :=
  ⟨Nat.prime_five, by decide, C40_is_prime_no_false_negative (fun k => k + 2) 5 Nat.prime_five
    (by decide)⟩

end PrimeClaims
section LogBound

/-- The pieces that the `fgets` loop reads hold, up to their terminators, at
most as many bytes as the file. -/
theorem c_fgets_all_strlen_sum (k : Nat) :
    ∀ (fuel : Nat) (s : List Nat), ((c_fgets_all k fuel s).map c_strlen).sum ≤ s.length
  | 0, s => by simp [c_fgets_all]
  | fuel + 1, s => by
    unfold c_fgets_all
    by_cases hs : s = []
    · simp [hs]
    · rw [if_neg hs]
      simp only [List.map_cons, List.sum_cons]
      obtain ⟨h1, _, _⟩ := c_fgets_spec k s
      have h2 := c_fgets_all_strlen_sum k fuel (c_fgets k s).2
      have h3 := c_strlen_le_length (c_fgets k s).1
      have h4 : (c_fgets k s).1.length + (c_fgets k s).2.length = s.length := by
        rw [← List.length_append, h1]
      omega

/-- What `cr_chats_rotate_file` keeps is no longer than the pieces up to
their terminators, and more than 512 bytes shorter than them when the count
starts at most at 512, unless nothing is kept. -/
theorem cr_chats_rotate_loop_length :
    ∀ (pieces : List (List Nat)) (t : Nat),
      (cr_chats_rotate_loop pieces t).length ≤ (pieces.map c_strlen).sum ∧
      (t ≤ 512 → (cr_chats_rotate_loop pieces t).length + 513 ≤ (pieces.map c_strlen).sum + t ∨
        (cr_chats_rotate_loop pieces t).length = 0)
  | [], t => by simp [cr_chats_rotate_loop]
  | line :: rest, t => by
    obtain ⟨ih1, ih2⟩ := cr_chats_rotate_loop_length rest (t + c_strlen line)
    have hhalf : MAX_CHAT_FILE_SIZE / 2 = 512 := by decide
    unfold cr_chats_rotate_loop
    rw [hhalf]
    simp only [List.map_cons, List.sum_cons, List.length_append]
    by_cases ht : t > 512
    · rw [if_pos ht]
      have : (c_str line).length = c_strlen line := rfl
      exact ⟨by omega, fun h => absurd h (by omega)⟩
    · rw [if_neg ht]
      simp only [List.length_nil, Nat.zero_add]
      refine ⟨by omega, fun _ => ?_⟩
      by_cases ht2 : t + c_strlen line ≤ 512
      · rcases ih2 ht2 with h | h
        · exact Or.inl (by omega)
        · exact Or.inr h
      · exact Or.inl (by omega)

/-- A log of at most 1024 bytes has at most 1024 bytes after
`cr_chats_chat_file` has added a line of a name of at most 30 and a message
of at most 150 characters. -/
theorem cr_chats_chat_file_length (content p_username p_chat : List Nat)
    (hc : content.length ≤ 1024) (hu : (c_str p_username).length ≤ 30)
    (hm : (c_str p_chat).length ≤ 150) :
    (cr_chats_chat_file content p_username p_chat).length ≤ 1024 := by
  unfold cr_chats_chat_file
  simp only []
  by_cases h : (content ++ c_str p_username ++ [62] ++ c_str p_chat ++ [10]).length >
      MAX_CHAT_FILE_SIZE
  · rw [if_pos h]
    unfold cr_chats_rotate_file
    have h1 := c_fgets_all_strlen_sum (MAX_USERNAME_LENGTH + MAX_CHAT_LEN)
      (content ++ c_str p_username ++ [62] ++ c_str p_chat ++ [10]).length
      (content ++ c_str p_username ++ [62] ++ c_str p_chat ++ [10])
    obtain ⟨_, h2⟩ := cr_chats_rotate_loop_length
      (c_fgets_all (MAX_USERNAME_LENGTH + MAX_CHAT_LEN)
        (content ++ c_str p_username ++ [62] ++ c_str p_chat ++ [10]).length
        (content ++ c_str p_username ++ [62] ++ c_str p_chat ++ [10])) 0
    have h3 : (content ++ c_str p_username ++ [62] ++ c_str p_chat ++ [10]).length =
        content.length + (c_str p_username).length + 1 + (c_str p_chat).length + 1 := by
      simp only [List.length_append, List.length_singleton]
    rcases h2 (by omega) with h4 | h4
    · omega
    · omega
  · rw [if_neg h]
    have : MAX_CHAT_FILE_SIZE = 1024 := rfl
    omega

/-- The files after one file has been written. -/
theorem mem_file_write (fs : List (List Nat × List Nat)) (path content : List Nat)
    (f : List Nat × List Nat) (hf : f ∈ file_write fs path content) :
    f = (path, content) ∨ f ∈ fs := by
  unfold file_write file_remove at hf
  rcases List.mem_cons.mp hf with h | h
  · exact Or.inl h
  · exact Or.inr (List.mem_filter.mp h).1

/-- A file that is read is one of the files. -/
theorem mem_of_file_read (fs : List (List Nat × List Nat)) (path content : List Nat)
    (h : file_read fs path = some content) : ∃ f ∈ fs, f.2 = content := by
  unfold file_read at h
  cases hfind : fs.find? (fun f => f.1 == path) with
  | none => rw [hfind] at h; exact absurd h (by simp)
  | some f =>
    rw [hfind] at h
    exact ⟨f, List.mem_of_find?_eq_some hfind, Option.some.inj h⟩

/-- The message of a chat request has at most 150 characters. -/
theorem c_str_req_p_chat_length (p_buffer : List Nat) :
    (c_str (req_p_chat p_buffer)).length ≤ 150 := by
  unfold req_p_chat
  rw [c_str_set_nul, List.length_take]
  exact Nat.min_le_left _ _

/-- `cr_chats_chat` keeps the logs within the bound when the name of the
sender has at most 30 characters. -/
theorem cr_chats_chat_logs_bounded (env : env_t) (srv : server_t) (q : Nat)
    (p_buffer : List Nat) (hname : (user_name_str (user_at srv q)).length ≤ 30)
    (hlogs : room_logs_bounded srv) :
    room_logs_bounded (cr_chats_chat env srv q p_buffer).srv := by
  unfold cr_chats_chat
  cases hroom : h_table_return_entry srv.rooms.p_rooms_table (user_at srv q).p_chat_room with
  | none => exact hlogs
  | some p_room =>
    intro f hf
    rcases mem_file_write _ _ _ f hf with h | h
    · rw [h]
      apply cr_chats_chat_file_length
      · cases hr : file_read srv.room_logs (c_str (room_at srv p_room).p_room_location) with
        | none => simp
        | some content =>
          obtain ⟨g, hg, hg2⟩ := mem_of_file_read _ _ _ hr
          rw [Option.getD_some, ← hg2]
          exact hlogs g hg
      · have : (c_str (user_name_str (user_at srv q))).length ≤
            (user_name_str (user_at srv q)).length :=
          c_strlen_le_length _
        omega
      · exact c_str_req_p_chat_length p_buffer
    · exact hlogs f h

/-- An update frame has 185 bytes. -/
theorem cr_msg_create_update_length (p_username p_chat : List Nat) :
    (cr_msg_create_update p_username p_chat).length = 185 := by
  rw [cr_msg_create_update_eq, List.length_append, List.length_append, c_strncpy_head_length,
    List.length_append, List.length_append, c_strncpy_head_length]
  rfl

/-- The frames of `cr_msg_send_file_ack`: the acknowledge header and the
bytes of the file. -/
theorem cr_msg_send_file_ack_out (env : env_t) (p type sub_type : Nat)
    (file : Option (List Nat)) :
    ∀ w ∈ (cr_msg_send_file_ack env p type sub_type file).2,
      w.data = [type, sub_type, ACKNOWLEDGE] ∨ file = some w.data := by
  intro w hw
  unfold cr_msg_send_file_ack cr_msg_send_ack at hw
  simp only [] at hw
  by_cases hok : env.ssl_ok p = true
  · simp only [hok, if_true] at hw
    rw [if_neg (by decide)] at hw
    cases file with
    | none =>
      simp only [] at hw
      rw [List.mem_singleton.mp hw]; exact Or.inl rfl
    | some content =>
      simp only [] at hw
      rcases List.mem_append.mp hw with h2 | h2
      · rw [List.mem_singleton.mp h2]; exact Or.inl rfl
      · rw [List.mem_singleton.mp h2]; exact Or.inr rfl
  · have hb : env.ssl_ok p = false := by simpa using hok
    rw [hb] at hw
    simp at hw

/-- Every frame that `cr_rooms_join` writes has at most 1024 bytes when the
logs are within the bound. -/
theorem cr_rooms_join_out_length (env : env_t) (srv : server_t) (sess : session_t) (q : Nat)
    (p_buffer : List Nat) (hlogs : room_logs_bounded srv) :
    ∀ w ∈ (cr_rooms_join env srv sess q p_buffer).out, w.data.length ≤ 1024 := by
  unfold cr_rooms_join cr_rooms_join_helper
  cases hroom : h_table_return_entry srv.rooms.p_rooms_table (req_p_room_name p_buffer) with
  | none =>
    intro w hw
    simp only [cr_msg_send_rej] at hw
    split_ifs at hw with h
    · rw [List.mem_singleton.mp hw]; simp
    · exact absurd hw (List.not_mem_nil w)
  | some p_room =>
    intro w hw
    simp only [] at hw
    rcases List.mem_append.mp hw with h | h
    · rcases cr_msg_send_file_ack_out env _ _ _ _ w h with h2 | h2
      · rw [h2]; simp
      · have h3 : file_read srv.room_logs (c_str (room_at srv p_room).p_room_location) =
            some w.data := h2
        obtain ⟨g, hg, hg2⟩ := mem_of_file_read _ _ _ h3
        rw [← hg2]
        exact hlogs g hg
    · have := (cr_chats_chat_send_loop_out env _ q p_joined_message _).2 w h
      rw [this, cr_msg_create_update_length]
      decide

end LogBound
section LogBoundClaims

/-- Reading a file after another file has been written. -/
theorem file_read_write_ne (fs : List (List Nat × List Nat)) (path path2 content : List Nat)
    (hne : path2 ≠ path) : file_read (file_write fs path content) path2 = file_read fs path2 := by
  have hfilter : ∀ l : List (List Nat × List Nat),
      (l.filter (fun f => !(f.1 == path))).find? (fun f => f.1 == path2) =
        l.find? (fun f => f.1 == path2) := by
    intro l
    induction l with
    | nil => rfl
    | cons a rest ih =>
      by_cases ha : a.1 = path
      · have h2 : (a.1 == path2) = false := by rw [ha]; simpa using fun e => hne e.symm
        have h3 : (!(a.1 == path)) = false := by simp [ha]
        rw [List.filter_cons, h3, List.find?_cons, h2]
        exact ih
      · have h3 : (!(a.1 == path)) = true := by simpa using ha
        rw [List.filter_cons, h3]
        simp only [if_true, List.find?_cons]
        cases hb : (a.1 == path2) with
        | true => rfl
        | false => exact ih
  have h1 : ((path, content).1 == path2) = false := by
    simpa using fun e => hne e.symm
  unfold file_read file_write file_remove
  rw [List.find?_cons, h1, hfilter]

/-- C35: a CHAT handled in CHATTING state for a sender whose name has at most
30 characters. Every log that has at most 1024 bytes before the request has
at most 1024 bytes after it, whether the log was rotated or not; and when
all logs are within this bound, they all are afterwards, and every frame
written in reply to a JOIN that is handled next, the log of the room
included, has at most 1024 bytes. -/
theorem C35_room_log_bound (env : env_t) (srv : server_t) (sess : session_t)
    (p_buffer : List Nat) (q : Nat)
    (hlog : sess.logged_in ≠ NOT_LOGGED_IN) (hchat : sess.chatting ≠ NOT_CHATTING)
    (huser : sess.pp_user = some q)
    (htype : c_byte p_buffer 0 = CHAT_TYPE) (hsub : c_byte p_buffer 1 = CHAT_STYPE)
    (hop : c_byte p_buffer 2 = REQUEST)
    (hname : (user_name_str (user_at srv q)).length ≤ 30) :
    (∀ path,
      (∀ content, file_read srv.room_logs path = some content → content.length ≤ 1024) →
      ∀ content, file_read (cr_sm_handle env srv sess p_buffer).srv.room_logs path =
        some content → content.length ≤ 1024) ∧
    (room_logs_bounded srv →
      room_logs_bounded (cr_sm_handle env srv sess p_buffer).srv ∧
      ∀ (sess2 : session_t) (q2 : Nat) (p_buffer2 : List Nat),
        sess2.logged_in ≠ NOT_LOGGED_IN → sess2.chatting = NOT_CHATTING →
        sess2.pp_user = some q2 → c_byte p_buffer2 0 = ROOMS_TYPE →
        c_byte p_buffer2 1 = JOIN_STYPE → c_byte p_buffer2 2 = REQUEST →
        ∀ w ∈ (cr_sm_handle env (cr_sm_handle env srv sess p_buffer).srv sess2 p_buffer2).out,
          w.data.length ≤ 1024) := by
  have hh : (cr_sm_handle env srv sess p_buffer).srv = (cr_chats_chat env srv q p_buffer).srv := by
    unfold cr_sm_handle cr_sm_chat_state
    rw [if_neg hlog, if_neg hchat, huser]
    simp only [htype, hsub, hop]
    rw [if_pos (by decide), if_pos (by decide)]
    rfl
  rw [hh]
  constructor
  · intro path hbefore content hafter
    unfold cr_chats_chat at hafter
    cases hroom : h_table_return_entry srv.rooms.p_rooms_table (user_at srv q).p_chat_room with
    | none =>
      rw [hroom] at hafter
      exact hbefore content hafter
    | some p_room =>
      rw [hroom] at hafter
      simp only [] at hafter
      by_cases hp : path = c_str (room_at srv p_room).p_room_location
      · rw [hp, file_read_write] at hafter
        rw [← Option.some.inj hafter]
        apply cr_chats_chat_file_length
        · cases hr : file_read srv.room_logs (c_str (room_at srv p_room).p_room_location) with
          | none => simp
          | some c0 =>
            rw [Option.getD_some]
            exact hbefore c0 (by rw [hp]; exact hr)
        · have : (c_str (user_name_str (user_at srv q))).length ≤
              (user_name_str (user_at srv q)).length :=
            c_strlen_le_length _
          omega
        · exact c_str_req_p_chat_length p_buffer
      · rw [file_read_write_ne _ _ _ _ hp] at hafter
        exact hbefore content hafter
  · intro hlogs
    have hb := cr_chats_chat_logs_bounded env srv q p_buffer hname hlogs
    refine ⟨hb, ?_⟩
    intro sess2 q2 p_buffer2 hl2 hc2 hu2 ht2 hs2 ho2 w hw
    rw [cr_sm_handle_rooms env _ sess2 p_buffer2 q2 hl2 hc2 hu2 ht2 ho2] at hw
    have hj : cr_sm_ls_rooms env (cr_chats_chat env srv q p_buffer).srv sess2 q2 p_buffer2
        (c_byte p_buffer2 1) =
        cr_rooms_join env (cr_chats_chat env srv q p_buffer).srv sess2 q2 p_buffer2 := by
      unfold cr_sm_ls_rooms
      rw [hs2, if_neg (by decide), if_pos rfl]
    rw [hj] at hw
    by_cases hrc : (cr_rooms_join env (cr_chats_chat env srv q p_buffer).srv sess2 q2
        p_buffer2).rc ≠ NO_MATCH
    · rw [if_pos hrc] at hw
      exact cr_rooms_join_out_length env _ sess2 q2 p_buffer2 hb w hw
    · rw [if_neg hrc] at hw
      unfold cr_sm_invalid_packet cr_msg_send_rej at hw
      simp only [] at hw
      split_ifs at hw with h
      · rw [List.mem_singleton.mp hw]; simp
      · exact absurd hw (List.not_mem_nil w)

/-- C35 at the chat `hi` of `alice` in the room `lobby`. -/
theorem C35_witness :
    (user_name_str (user_at step_bob_joined.srv 1)).length ≤ 30 ∧
    room_logs_bounded step_bob_joined.srv ∧
    room_logs_bounded
      (cr_sm_handle env_ok step_bob_joined.srv step_alice_joined.sess chat_hi).srv :=
  ⟨by decide, by decide,
    ((C35_room_log_bound env_ok step_bob_joined.srv step_alice_joined.sess chat_hi 1
      (by decide) (by decide) (by decide) (by decide) (by decide) (by decide)
      (by decide)).2 (by decide)).1⟩

end LogBoundClaims

section LockOrder

theorem lock_run_append (adm : List lock_t → lock_t → Bool) (a b : List lock_op_t) :
    ∀ held, lock_run adm held (a ++ b) = (lock_run adm held a).bind (fun h => lock_run adm h b) := by
  induction a with
  | nil => intro held; rfl
  | cons op rest ih =>
    intro held
    cases op with
    | pthread_mutex_lock m =>
      simp only [List.cons_append, lock_run]
      split
      · exact ih _
      · rfl
    | pthread_mutex_unlock m =>
      simp only [List.cons_append, lock_run]
      split
      · exact ih _
      · rfl

/-- Two sequences that each start and end with nothing held do so when run
one after the other. -/
theorem lock_run_append_nil (adm : List lock_t → lock_t → Bool) (a b : List lock_op_t)
    (ha : lock_run adm [] a = some []) (hb : lock_run adm [] b = some []) :
    lock_run adm [] (a ++ b) = some [] := by
  rw [lock_run_append, ha]; exact hb

theorem lock_run_flatten (adm : List lock_t → lock_t → Bool) (parts : List (List lock_op_t))
    (h : ∀ p ∈ parts, lock_run adm [] p = some []) : lock_run adm [] parts.flatten = some [] := by
  induction parts with
  | nil => rfl
  | cons p rest ih =>
    rw [List.flatten_cons]
    exact lock_run_append_nil adm p _ (h p (List.mem_cons_self _ _))
      (ih (fun q hq => h q (List.mem_cons_of_mem _ hq)))

theorem lock_order_adm_ok : lock_adm_ok lock_order_adm :=
  ⟨rfl, rfl, fun _ => ⟨rfl, rfl⟩⟩

theorem lock_rank_adm_ok : lock_adm_ok lock_rank_adm :=
  ⟨rfl, rfl, fun _ => ⟨rfl, rfl⟩⟩

theorem lock_run_ite (adm : List lock_t → lock_t → Bool) (c : Prop) [Decidable c]
    (a b : List lock_op_t) (ha : lock_run adm [] a = some []) (hb : lock_run adm [] b = some []) :
    lock_run adm [] (if c then a else b) = some [] := by
  split
  · exact ha
  · exact hb

theorem lock_run_users_pair {adm : List lock_t → lock_t → Bool} (hadm : lock_adm_ok adm) :
    lock_run adm [] [lock_op_t.pthread_mutex_lock lock_t.users_mutex,
      lock_op_t.pthread_mutex_unlock lock_t.users_mutex] = some [] := by
  simp [lock_run, hadm.1]

theorem lock_run_rooms_pair {adm : List lock_t → lock_t → Bool} (hadm : lock_adm_ok adm) :
    lock_run adm [] [lock_op_t.pthread_mutex_lock lock_t.rooms_mutex,
      lock_op_t.pthread_mutex_unlock lock_t.rooms_mutex] = some [] := by
  simp [lock_run, hadm.2.1]

theorem lock_run_room_pair {adm : List lock_t → lock_t → Bool} (hadm : lock_adm_ok adm) (p : Nat) :
    lock_run adm [] [lock_op_t.pthread_mutex_lock (lock_t.room_mutex p),
      lock_op_t.pthread_mutex_unlock (lock_t.room_mutex p)] = some [] := by
  simp [lock_run, (hadm.2.2 p).1]

theorem cr_users_register_locks_run {adm : List lock_t → lock_t → Bool} (hadm : lock_adm_ok adm)
    (srv : server_t) (p_buffer : List Nat) :
    lock_run adm [] (cr_users_register_locks srv p_buffer) = some [] := by
  unfold cr_users_register_locks
  dsimp only
  apply lock_run_append_nil _ _ _ (lock_run_users_pair hadm)
  split
  · rfl
  · split
    · rfl
    · split
      · rfl
      · exact lock_run_users_pair hadm

theorem cr_users_admin_locks_run {adm : List lock_t → lock_t → Bool} (hadm : lock_adm_ok adm)
    (srv : server_t) (p_buffer : List Nat) (p_user : Nat) :
    lock_run adm [] (cr_users_admin_locks srv p_buffer p_user) = some [] := by
  unfold cr_users_admin_locks
  dsimp only
  split
  · rfl
  · split
    · rfl
    · exact lock_run_users_pair hadm

theorem cr_users_logout_locks_run {adm : List lock_t → lock_t → Bool} (hadm : lock_adm_ok adm)
    (env : env_t) (sess : session_t) (send_message : Nat) :
    lock_run adm [] (cr_users_logout_locks env sess send_message) = some [] := by
  unfold cr_users_logout_locks
  dsimp only
  exact lock_run_ite adm _ _ _ rfl (lock_run_users_pair hadm)

theorem cr_users_remove_user_locks_run {adm : List lock_t → lock_t → Bool} (hadm : lock_adm_ok adm)
    (srv : server_t) (p_buffer : List Nat) (p_user : Nat) :
    lock_run adm [] (cr_users_remove_user_locks srv p_buffer p_user) = some [] := by
  unfold cr_users_remove_user_locks
  dsimp only
  split
  · rfl
  · split
    · rfl
    · exact lock_run_users_pair hadm

theorem cr_chats_chat_locks_run {adm : List lock_t → lock_t → Bool} (hadm : lock_adm_ok adm)
    (srv : server_t) (p_user : Nat) :
    lock_run adm [] (cr_chats_chat_locks srv p_user) = some [] := by
  unfold cr_chats_chat_locks
  apply lock_run_append_nil _ _ _ (lock_run_rooms_pair hadm)
  split
  · rfl
  · exact lock_run_room_pair hadm _

theorem cr_chats_leave_locks_run {adm : List lock_t → lock_t → Bool} (hadm : lock_adm_ok adm)
    (srv : server_t) (p_user : Nat) :
    lock_run adm [] (cr_chats_leave_locks srv p_user) = some [] := by
  unfold cr_chats_leave_locks
  apply lock_run_append_nil _ _ _ (lock_run_rooms_pair hadm)
  split
  · rfl
  · exact lock_run_room_pair hadm _

theorem cr_rooms_join_locks_run {adm : List lock_t → lock_t → Bool} (hadm : lock_adm_ok adm)
    (srv : server_t) (p_buffer : List Nat) :
    lock_run adm [] (cr_rooms_join_locks srv p_buffer) = some [] := by
  unfold cr_rooms_join_locks cr_rooms_join_helper_locks
  split
  · simp [lock_run, hadm.2.1]
  · simp [lock_run, hadm.2.1, (hadm.2.2 _).2]

theorem cr_rooms_create_locks_run {adm : List lock_t → lock_t → Bool} (hadm : lock_adm_ok adm)
    (srv : server_t) (p_user : Nat) (p_buffer : List Nat) :
    lock_run adm [] (cr_rooms_create_locks srv p_user p_buffer) = some [] := by
  unfold cr_rooms_create_locks
  dsimp only
  split
  · rfl
  · split
    · rfl
    · split
      · rfl
      · exact lock_run_rooms_pair hadm

theorem cr_rooms_delete_locks_run {adm : List lock_t → lock_t → Bool} (hadm : lock_adm_ok adm)
    (srv : server_t) (p_user : Nat) :
    lock_run adm [] (cr_rooms_delete_locks srv p_user) = some [] := by
  unfold cr_rooms_delete_locks
  split
  · rfl
  · exact lock_run_rooms_pair hadm

theorem cr_sm_chat_state_locks_run {adm : List lock_t → lock_t → Bool} (hadm : lock_adm_ok adm)
    (env : env_t) (srv : server_t) (sess : session_t)
    (p_buffer : List Nat) :
    lock_run adm [] (cr_sm_chat_state_locks env srv sess p_buffer) = some [] := by
  unfold cr_sm_chat_state_locks
  split
  · rfl
  · dsimp only
    split
    · split
      · exact cr_chats_chat_locks_run hadm _ _
      · split
        · exact cr_chats_leave_locks_run hadm _ _
        · rfl
    · split
      · split
        · apply lock_run_append_nil _ _ _ (cr_chats_leave_locks_run hadm _ _)
          split
          · rfl
          · exact cr_users_logout_locks_run hadm _ _ _
        · rfl
      · rfl

theorem cr_sm_ls_rooms_locks_run {adm : List lock_t → lock_t → Bool} (hadm : lock_adm_ok adm)
    (srv : server_t) (p_user : Nat) (p_buffer : List Nat)
    (s_type : Nat) : lock_run adm [] (cr_sm_ls_rooms_locks srv p_user p_buffer s_type) = some [] := by
  unfold cr_sm_ls_rooms_locks
  split
  · exact lock_run_rooms_pair hadm
  · split
    · exact cr_rooms_join_locks_run hadm _ _
    · split
      · exact cr_rooms_create_locks_run hadm _ _ _
      · split
        · exact cr_rooms_delete_locks_run hadm _ _
        · rfl

theorem cr_sm_ls_account_locks_run {adm : List lock_t → lock_t → Bool} (hadm : lock_adm_ok adm)
    (env : env_t) (srv : server_t) (sess : session_t)
    (p_user : Nat) (p_buffer : List Nat) (s_type : Nat) :
    lock_run adm [] (cr_sm_ls_account_locks env srv sess p_user p_buffer s_type) = some [] := by
  unfold cr_sm_ls_account_locks
  split
  · exact cr_users_admin_locks_run hadm _ _ _
  · split
    · exact cr_users_admin_locks_run hadm _ _ _
    · split
      · exact cr_users_remove_user_locks_run hadm _ _ _
      · split
        · exact cr_users_logout_locks_run hadm _ _ _
        · rfl

theorem cr_sm_logged_state_locks_run {adm : List lock_t → lock_t → Bool} (hadm : lock_adm_ok adm)
    (env : env_t) (srv : server_t) (sess : session_t)
    (p_buffer : List Nat) :
    lock_run adm [] (cr_sm_logged_state_locks env srv sess p_buffer) = some [] := by
  unfold cr_sm_logged_state_locks
  split
  · rfl
  · dsimp only
    split
    · exact cr_sm_ls_account_locks_run hadm _ _ _ _ _ _
    · split
      · exact cr_sm_ls_rooms_locks_run hadm _ _ _ _
      · split
        · split
          · exact cr_users_logout_locks_run hadm _ _ _
          · rfl
        · rfl

theorem cr_sm_connected_state_locks_run {adm : List lock_t → lock_t → Bool} (hadm : lock_adm_ok adm)
    (srv : server_t) (p_buffer : List Nat) :
    lock_run adm [] (cr_sm_connected_state_locks srv p_buffer) = some [] := by
  unfold cr_sm_connected_state_locks
  dsimp only
  split
  · split
    · exact lock_run_users_pair hadm
    · split
      · exact cr_users_register_locks_run hadm _ _
      · rfl
  · rfl

theorem cr_sm_handle_locks_run {adm : List lock_t → lock_t → Bool} (hadm : lock_adm_ok adm)
    (env : env_t) (srv : server_t) (sess : session_t)
    (p_buffer : List Nat) :
    lock_run adm [] (cr_sm_handle_locks env srv sess p_buffer) = some [] := by
  unfold cr_sm_handle_locks
  split
  · exact cr_sm_connected_state_locks_run hadm _ _
  · split
    · exact cr_sm_logged_state_locks_run hadm _ _ _ _
    · exact cr_sm_chat_state_locks_run hadm _ _ _ _

theorem cr_sm_session_clean_locks_run {adm : List lock_t → lock_t → Bool} (hadm : lock_adm_ok adm)
    (env : env_t) (srv : server_t) (sess : session_t) :
    lock_run adm [] (cr_sm_session_clean_locks env srv sess) = some [] := by
  have hleave : lock_run adm []
      (if sess.chatting = CHATTING then
        match sess.pp_user with
        | none => []
        | some p_user => cr_chats_leave_locks srv p_user
      else []) = some [] := by
    apply lock_run_ite
    · split
      · rfl
      · exact cr_chats_leave_locks_run hadm _ _
    · rfl
  unfold cr_sm_session_clean_locks
  dsimp only
  apply lock_run_ite _ _ _ _ hleave
  apply lock_run_ite _ _ _ _ _ hleave
  split
  · exact hleave
  · exact lock_run_append_nil _ _ _ hleave (cr_users_logout_locks_run hadm _ _ _)

theorem cr_sm_session_manager_iter_locks_run {adm : List lock_t → lock_t → Bool} (hadm : lock_adm_ok adm)
    (env : env_t) (srv : server_t) (sess : session_t)
    (rd : read_t) :
    lock_run adm [] (cr_sm_session_manager_iter_locks env srv sess rd) = some [] := by
  unfold cr_sm_session_manager_iter_locks
  split
  · exact cr_sm_session_clean_locks_run hadm _ _ _
  · split
    · rfl
    · exact cr_sm_session_clean_locks_run hadm _ _ _
    · split
      · exact cr_sm_session_clean_locks_run hadm _ _ _
      · dsimp only
        split
        · exact lock_run_append_nil _ _ _ (cr_sm_handle_locks_run hadm _ _ _ _)
            (cr_sm_session_clean_locks_run hadm _ _ _)
        · split
          · exact lock_run_append_nil _ _ _ (cr_sm_handle_locks_run hadm _ _ _ _)
              (cr_sm_session_clean_locks_run hadm _ _ _)
          · split
            · exact lock_run_append_nil _ _ _ (cr_sm_handle_locks_run hadm _ _ _ _)
                (cr_sm_session_clean_locks_run hadm _ _ _)
            · exact cr_sm_handle_locks_run hadm _ _ _ _

theorem session_thread_run (calls : List iter_call_t) :
    lock_run lock_rank_adm (session_thread calls).held (session_thread calls).todo = some [] := by
  unfold session_thread
  apply lock_run_flatten
  intro p hp
  rw [List.mem_map] at hp
  obtain ⟨c, _, rfl⟩ := hp
  exact cr_sm_session_manager_iter_locks_run lock_rank_adm_ok _ _ _ _

end LockOrder
section Deadlock

theorem thread_step_inv (ts : List thread_t) (t t1 : thread_t)
    (h : lock_run lock_rank_adm t.held t.todo = some []) (hs : thread_step ts t = some t1) :
    lock_run lock_rank_adm t1.held t1.todo = some [] := by
  unfold thread_step at hs
  cases htodo : t.todo with
  | nil => rw [htodo] at hs; simp at hs
  | cons op rest =>
    rw [htodo] at hs h
    cases op with
    | pthread_mutex_lock m =>
      simp only at hs
      split at hs
      · simp at hs
      · simp only [Option.some.injEq] at hs
        subst hs
        simp only [lock_run] at h
        split at h
        · exact h
        · simp at h
    | pthread_mutex_unlock m =>
      simp only [Option.some.injEq] at hs
      subst hs
      simp only [lock_run] at h
      split at h
      · exact h
      · simp at h

theorem sys_step_inv (ts ts1 : List thread_t) (i : Nat) (hinv : sys_inv ts)
    (hs : sys_step ts i = some ts1) : sys_inv ts1 := by
  unfold sys_step at hs
  cases hi : ts[i]? with
  | none => rw [hi] at hs; simp at hs
  | some t =>
    rw [hi] at hs
    simp only [Option.map_eq_some'] at hs
    obtain ⟨t1, ht1, rfl⟩ := hs
    intro u hu
    rcases List.mem_or_eq_of_mem_set hu with hu | rfl
    · exact hinv u hu
    · exact thread_step_inv ts t u (hinv t (List.mem_iff_getElem?.mpr ⟨i, hi⟩)) ht1

theorem sys_reach_inv (ts0 ts : List thread_t) (h0 : sys_inv ts0) (hr : sys_reach ts0 ts) :
    sys_inv ts := by
  induction hr with
  | start => exact h0
  | step ts ts1 i _ hs ih => exact sys_step_inv ts ts1 i ih hs

theorem lock_rank_le (m : lock_t) : lock_rank m ≤ 2 := by
  cases m <;> simp [lock_rank]

theorem thread_step_of_stuck (ts : List thread_t) (t : thread_t) (ht : t ∈ ts)
    (hno : ∀ i, sys_step ts i = none) : thread_step ts t = none := by
  obtain ⟨i, hi⟩ := List.mem_iff_getElem?.mp ht
  have h := hno i
  unfold sys_step at h
  rw [hi] at h
  simpa using h

theorem sys_blocked_false (ts : List thread_t) (hinv : sys_inv ts)
    (hno : ∀ i, sys_step ts i = none) :
    ∀ k, ∀ t ∈ ts, ∀ m rest, t.todo = lock_op_t.pthread_mutex_lock m :: rest →
      3 ≤ lock_rank m + k → False := by
  intro k
  induction k with
  | zero =>
    intro t _ m rest _ hk
    have := lock_rank_le m
    omega
  | succ k ih =>
    intro t ht m rest htodo hk
    have hstuck := thread_step_of_stuck ts t ht hno
    unfold thread_step at hstuck
    rw [htodo] at hstuck
    simp only at hstuck
    split at hstuck
    · rename_i hm
      unfold locks_held at hm
      rw [List.mem_flatten] at hm
      obtain ⟨l, hl, hml⟩ := hm
      rw [List.mem_map] at hl
      obtain ⟨s, hs, rfl⟩ := hl
      have hsinv := hinv s hs
      have hsstuck := thread_step_of_stuck ts s hs hno
      unfold thread_step at hsstuck
      cases hst : s.todo with
      | nil =>
        rw [hst] at hsinv
        simp only [lock_run, Option.some.injEq] at hsinv
        rw [hsinv] at hml
        simp at hml
      | cons op r =>
        rw [hst] at hsinv hsstuck
        cases op with
        | pthread_mutex_unlock m1 => simp at hsstuck
        | pthread_mutex_lock m1 =>
          simp only [lock_run] at hsinv
          split at hsinv
          · rename_i hadm
            unfold lock_rank_adm at hadm
            rw [List.all_eq_true] at hadm
            have hlt := hadm m hml
            simp only [decide_eq_true_eq] at hlt
            exact ih s hs m1 r hst (by omega)
          · simp at hsinv
    · simp at hstuck

/-- Threads that can each finish in the levelled order are not deadlocked. -/
theorem sys_inv_not_deadlocked (ts : List thread_t) (hinv : sys_inv ts) : ¬ sys_deadlocked ts := by
  rintro ⟨⟨t, ht, htodo⟩, hno⟩
  have hstuck := thread_step_of_stuck ts t ht hno
  cases hst : t.todo with
  | nil => exact htodo hst
  | cons op r =>
    cases op with
    | pthread_mutex_unlock m =>
      unfold thread_step at hstuck
      rw [hst] at hstuck
      simp at hstuck
    | pthread_mutex_lock m =>
      exact sys_blocked_false ts hinv hno 3 t ht m r hst (by omega)

theorem session_threads_inv (sessions : List (List iter_call_t)) :
    sys_inv (sessions.map session_thread) := by
  intro t ht
  rw [List.mem_map] at ht
  obtain ⟨calls, _, rfl⟩ := ht
  exact session_thread_run calls

end Deadlock
section LockClaims

/-- C36 (lock order, with every mutex operation succeeding). The mutex
operations of each request handler, of the handling of any frame in any
state, of the session cleanup and of any iteration of a session loop run
through in the order of the claim: a `room_mutex` is taken only with nothing
held or with `p_rooms_mutex` alone held, `p_rooms_mutex` and `p_users_mutex`
are taken only while no `room_mutex` is held, only held mutexes are
released, and nothing is held at the end. `cr_rooms_join` on an existing room
is the nested case: `p_rooms_mutex`, then the `room_mutex`, released in the
reverse order; the opposite nesting is not admitted by the order. No
configuration reached by interleaving the mutex operations of any number of
sessions, each running any iterations, is deadlocked. -/
theorem C36_lock_order :
    (∀ srv p_buffer, lock_run lock_order_adm [] (cr_users_register_locks srv p_buffer) = some []) ∧
    lock_run lock_order_adm [] cr_users_login_locks = some [] ∧
    (∀ srv p_buffer p_user,
      lock_run lock_order_adm [] (cr_users_admin_locks srv p_buffer p_user) = some []) ∧
    (∀ env sess send_message,
      lock_run lock_order_adm [] (cr_users_logout_locks env sess send_message) = some []) ∧
    (∀ srv p_buffer p_user,
      lock_run lock_order_adm [] (cr_users_remove_user_locks srv p_buffer p_user) = some []) ∧
    (∀ srv p_user, lock_run lock_order_adm [] (cr_chats_chat_locks srv p_user) = some []) ∧
    (∀ srv p_user, lock_run lock_order_adm [] (cr_chats_leave_locks srv p_user) = some []) ∧
    lock_run lock_order_adm [] cr_rooms_list_locks = some [] ∧
    (∀ srv p_buffer, lock_run lock_order_adm [] (cr_rooms_join_locks srv p_buffer) = some []) ∧
    (∀ srv p_user p_buffer,
      lock_run lock_order_adm [] (cr_rooms_create_locks srv p_user p_buffer) = some []) ∧
    (∀ srv p_user, lock_run lock_order_adm [] (cr_rooms_delete_locks srv p_user) = some []) ∧
    (∀ env srv sess p_buffer,
      lock_run lock_order_adm [] (cr_sm_handle_locks env srv sess p_buffer) = some []) ∧
    (∀ env srv sess,
      lock_run lock_order_adm [] (cr_sm_session_clean_locks env srv sess) = some []) ∧
    (∀ env srv sess rd,
      lock_run lock_order_adm [] (cr_sm_session_manager_iter_locks env srv sess rd) = some []) ∧
    (∀ srv p_buffer p_room,
      h_table_return_entry srv.rooms.p_rooms_table (req_p_room_name p_buffer) = some p_room →
      cr_rooms_join_locks srv p_buffer =
        [lock_op_t.pthread_mutex_lock lock_t.rooms_mutex,
         lock_op_t.pthread_mutex_lock (lock_t.room_mutex p_room),
         lock_op_t.pthread_mutex_unlock (lock_t.room_mutex p_room),
         lock_op_t.pthread_mutex_unlock lock_t.rooms_mutex]) ∧
    cr_sm_handle_locks env_ok step_room.srv step_alice_in.sess join_lobby =
      [lock_op_t.pthread_mutex_lock lock_t.rooms_mutex,
       lock_op_t.pthread_mutex_lock (lock_t.room_mutex 0),
       lock_op_t.pthread_mutex_unlock (lock_t.room_mutex 0),
       lock_op_t.pthread_mutex_unlock lock_t.rooms_mutex] ∧
    (∀ p, lock_order_adm [lock_t.room_mutex p] lock_t.rooms_mutex = false ∧
      lock_order_adm [lock_t.room_mutex p] lock_t.users_mutex = false ∧
      lock_order_adm [lock_t.users_mutex] (lock_t.room_mutex p) = false) ∧
    (∀ (sessions : List (List iter_call_t)) (ts : List thread_t),
      sys_reach (sessions.map session_thread) ts → ¬ sys_deadlocked ts) := by
  have hadm := lock_order_adm_ok
  refine ⟨cr_users_register_locks_run hadm, lock_run_users_pair hadm,
    cr_users_admin_locks_run hadm, cr_users_logout_locks_run hadm,
    cr_users_remove_user_locks_run hadm, cr_chats_chat_locks_run hadm,
    cr_chats_leave_locks_run hadm, lock_run_rooms_pair hadm, cr_rooms_join_locks_run hadm,
    cr_rooms_create_locks_run hadm, cr_rooms_delete_locks_run hadm,
    cr_sm_handle_locks_run hadm, cr_sm_session_clean_locks_run hadm,
    cr_sm_session_manager_iter_locks_run hadm, ?_, by decide, fun _ => ⟨rfl, rfl, rfl⟩, ?_⟩
  · intro srv p_buffer p_room h
    unfold cr_rooms_join_locks cr_rooms_join_helper_locks
    rw [h]
    rfl
  · intro sessions ts hr
    exact sys_inv_not_deadlocked ts (sys_reach_inv _ ts (session_threads_inv sessions) hr)

end LockClaims

section CllSort

open Cll

theorem cll_nodes_cons (mem : List (Option node_t)) (x : Nat × Option Nat)
    (xs : List (Nat × Option Nat)) (nxt : Nat) :
    cll_nodes mem (x :: xs) nxt ↔
      node_get mem x.1 = some (node_t.mk x.2 (some ((xs.map (fun y => y.1)).headD nxt))) ∧
        cll_nodes mem xs nxt := Iff.rfl

theorem cll_nodes_nil (mem : List (Option node_t)) (nxt : Nat) : cll_nodes mem [] nxt := trivial

theorem cll_nodes_append (mem : List (Option node_t)) (xs ys : List (Nat × Option Nat))
    (nxt : Nat) :
    cll_nodes mem (xs ++ ys) nxt ↔
      cll_nodes mem xs ((ys.map (fun y => y.1)).headD nxt) ∧ cll_nodes mem ys nxt := by
  unfold cll_nodes
  rw [List.map_append, List.map_append]
  exact cll_seg_append mem nxt _ _ _ _ (by simp)

theorem cll_nodes_congr (mem mem2 : List (Option node_t)) (nodes : List (Nat × Option Nat))
    (nxt : Nat) (h : cll_nodes mem nodes nxt)
    (hm : ∀ a ∈ nodes.map (fun x => x.1), node_get mem2 a = node_get mem a) :
    cll_nodes mem2 nodes nxt :=
  cll_seg_congr mem mem2 nxt _ _ h hm

/-- A chain ends wherever its last node is made to point. -/
theorem cll_nodes_relink (mem : List (Option node_t)) (xs : List (Nat × Option Nat))
    (z : Nat × Option Nat) (nxt nxt2 : Nat) (h : cll_nodes mem (xs ++ [z]) nxt)
    (hnd : ((xs ++ [z]).map (fun x => x.1)).Nodup) :
    cll_nodes (mem.set z.1 (some (node_t.mk z.2 (some nxt2)))) (xs ++ [z]) nxt2 := by
  have hz : node_get mem z.1 = some (node_t.mk z.2 (some nxt)) :=
    ((cll_nodes_cons mem z [] nxt).mp ((cll_nodes_append mem xs [z] nxt).mp h).2).1
  have hlt := node_get_lt mem z.1 _ hz
  rw [cll_nodes_append]
  constructor
  · refine cll_nodes_congr mem _ xs _ ((cll_nodes_append mem xs [z] nxt).mp h).1 ?_
    intro a ha
    rw [node_get_set mem z.1 a _ hlt, if_neg]
    intro e
    rw [List.map_append, List.nodup_append] at hnd
    exact hnd.2.2 ha (by rw [e]; simp)
  · rw [cll_nodes_cons]
    refine ⟨?_, trivial⟩
    rw [node_get_set mem z.1 z.1 _ hlt, if_pos rfl]
    rfl

theorem cll_nodes_mem_get (mem : List (Option node_t)) (nxt : Nat) :
    ∀ (nodes : List (Nat × Option Nat)), cll_nodes mem nodes nxt →
      ∀ x ∈ nodes, ∃ nx, node_get mem x.1 = some (node_t.mk x.2 nx)
  | [], _, x, hx => absurd hx (List.not_mem_nil x)
  | y :: ys, h, x, hx => by
    rcases List.mem_cons.mp hx with e | e
    · rw [e]
      exact ⟨_, h.1⟩
    · exact cll_nodes_mem_get mem nxt ys h.2 x e

theorem node_char_key (bytes : Nat → Option Int) (mem : List (Option node_t))
    (x : Nat × Option Nat) (nx : Option Nat) (hg : node_get mem x.1 = some (node_t.mk x.2 nx))
    (hr : ∃ p c, x.2 = some p ∧ bytes p = some c) :
    node_char bytes mem (some x.1) = some (cll_key bytes x.2) := by
  obtain ⟨p, c, hp, hc⟩ := hr
  unfold node_char cll_key
  simp only [hg, hp, hc, Option.some_bind, Option.getD_some]

end CllSort
section CllSortMerge

open Cll

theorem cll_nodes_concat (acc : List (Nat × Option Nat)) (hne : acc ≠ []) :
    ∃ init z, acc = init ++ [z] := by
  obtain ⟨init, z, h⟩ := (List.eq_nil_or_concat acc).resolve_left hne
  exact ⟨init, z, by rw [h, List.concat_eq_append]⟩

theorem cll_merge_first_inv (size1 size2 : Int) (mem0 : List (Option node_t))
    (all : List (Nat × Option Nat)) (p_temp2 : Option Nat) (v : merge_t)
    (acc : List (Nat × Option Nat)) (h : Nat × Option Nat) (t r2 : List (Nat × Option Nat))
    (hinv : cll_merge_inv size1 size2 mem0 all p_temp2 v acc (h :: t) r2)
    (hnd : (all.map (fun x => x.1)).Nodup) (hs1 : size1 ≤ 2147483647) :
    ∃ v1, cll_merge_first v = ret_t.done v1 ∧
      cll_merge_inv size1 size2 mem0 all p_temp2 v1 (acc ++ [h]) t r2 := by
  obtain ⟨⟨n0, hacc⟩, ⟨n1, hr1⟩, ⟨n2, hr2⟩, hperm, hp1, hhead, hne, hp3, hp4, hc1, hc2, hframe,
    hlen⟩ := hinv
  have hnd2 : ((acc ++ h :: t ++ r2).map (fun x => x.1)).Nodup :=
    (hperm.map _).nodup_iff.mpr hnd
  obtain ⟨init, z, rfl⟩ := cll_nodes_concat acc hne
  have hz : node_get v.mem z.1 = some (node_t.mk z.2 (some n0)) :=
    ((cll_nodes_cons v.mem z [] n0).mp ((cll_nodes_append v.mem init [z] n0).mp hacc).2).1
  have hh : node_get v.mem h.1 =
      some (node_t.mk h.2 (some ((t.map (fun y => y.1)).headD n1))) := hr1.1
  have hlt := node_get_lt v.mem z.1 _ hz
  have hndacc : ((init ++ [z]).map (fun x => x.1)).Nodup := by
    have h2 := hnd2
    rw [List.map_append, List.map_append] at h2
    exact (List.nodup_append.mp (List.nodup_append.mp h2).1).1
  simp only [List.map_append, List.map_cons, List.map_nil, List.append_assoc] at hnd2
  have hnd3 := List.nodup_append.mp hnd2
  have hnd4 := List.nodup_append.mp hnd3.2.1
  have hzh : h.1 ≠ z.1 := by
    intro e
    exact hnd4.2.2 (List.mem_singleton_self z.1) (by rw [← e]; simp)
  have hzt : ∀ a ∈ t.map (fun x => x.1), a ≠ z.1 := by
    intro a ha e
    exact hnd4.2.2 (List.mem_singleton_self z.1) (by rw [← e]; simp [ha])
  have hzr : ∀ a ∈ r2.map (fun x => x.1), a ≠ z.1 := by
    intro a ha e
    exact hnd4.2.2 (List.mem_singleton_self z.1) (by rw [← e]; simp [ha])
  have hset : set_next v.mem z.1 (some h.1) =
      some (v.mem.set z.1 (some (node_t.mk z.2 (some h.1)))) := set_next_eq v.mem z.1 _ _ hz
  have hget : ∀ a, a ≠ z.1 →
      node_get (v.mem.set z.1 (some (node_t.mk z.2 (some h.1)))) a = node_get v.mem a := by
    intro a ha
    rw [node_get_set v.mem z.1 a _ hlt, if_neg ha]
  have hincr : int_incr v.counter1 = some (v.counter1 + 1) := by
    unfold int_incr
    rw [if_pos]
    simp only [List.length_cons] at hc1
    omega
  have hp1z : v.p_temp1 = some z.1 := by rw [hp1]; simp
  refine ⟨{ v with mem := v.mem.set z.1 (some (node_t.mk z.2 (some h.1))), p_temp1 := some h.1,
                   p_temp3 := some ((t.map (fun y => y.1)).headD n1),
                   counter1 := v.counter1 + 1 }, ?_, ?_⟩
  · unfold cll_merge_first
    rw [hp1z, hp3 h t rfl]
    simp only [hset, hget h.1 hzh, hh, hincr]
  · refine ⟨⟨(t.map (fun y => y.1)).headD n1, ?_⟩, ⟨n1, ?_⟩, ⟨n2, ?_⟩, ?_, ?_, ?_, ?_, ?_, ?_, ?_,
      ?_, ?_, ?_⟩
    · rw [cll_nodes_append]
      constructor
      · exact cll_nodes_relink v.mem init z n0 h.1 hacc hndacc
      · rw [cll_nodes_cons]
        refine ⟨?_, trivial⟩
        show node_get (v.mem.set z.1 _) h.1 = _
        rw [hget h.1 hzh]
        exact hh
    · exact cll_nodes_congr v.mem _ t n1 hr1.2 (fun a ha => hget a (hzt a ha))
    · exact cll_nodes_congr v.mem _ r2 n2 hr2 (fun a ha => hget a (hzr a ha))
    · simpa using hperm
    · simp
    · rw [← hhead]
      cases init <;> rfl
    · simp
    · intro h2 t2 e
      rw [e]
      rfl
    · exact hp4
    · show v.counter1 + 1 + (t.length : Int) = size1
      simp only [List.length_cons] at hc1
      omega
    · exact hc2
    · intro a ha
      show node_get (v.mem.set z.1 _) a = _
      rw [hget a, hframe a ha]
      intro e
      apply ha
      rw [e]
      have hzmem : z ∈ (init ++ [z]) ++ h :: t ++ r2 := by simp
      exact List.mem_map_of_mem _ (hperm.subset hzmem)
    · show (v.mem.set z.1 _).length = _
      rw [List.length_set]
      exact hlen

theorem cll_merge_second_inv (size1 size2 : Int) (mem0 : List (Option node_t))
    (all : List (Nat × Option Nat)) (p_temp2 : Option Nat) (v : merge_t)
    (acc r1 : List (Nat × Option Nat)) (h : Nat × Option Nat) (t : List (Nat × Option Nat))
    (hinv : cll_merge_inv size1 size2 mem0 all p_temp2 v acc r1 (h :: t))
    (hnd : (all.map (fun x => x.1)).Nodup) (hs2 : size2 ≤ 2147483647) :
    ∃ v1, cll_merge_second v = ret_t.done v1 ∧
      cll_merge_inv size1 size2 mem0 all p_temp2 v1 (acc ++ [h]) r1 t := by
  obtain ⟨⟨n0, hacc⟩, ⟨n1, hr1⟩, ⟨n2, hr2⟩, hperm, hp1, hhead, hne, hp3, hp4, hc1, hc2, hframe,
    hlen⟩ := hinv
  have hperm2 : (acc ++ [h] ++ r1 ++ t).Perm all := by
    refine List.Perm.trans ?_ hperm
    simp only [List.append_assoc, List.singleton_append]
    exact List.Perm.append_left acc List.perm_middle.symm
  have hnd2 : ((acc ++ [h] ++ r1 ++ t).map (fun x => x.1)).Nodup :=
    (hperm2.map _).nodup_iff.mpr hnd
  obtain ⟨init, z, rfl⟩ := cll_nodes_concat acc hne
  have hz : node_get v.mem z.1 = some (node_t.mk z.2 (some n0)) :=
    ((cll_nodes_cons v.mem z [] n0).mp ((cll_nodes_append v.mem init [z] n0).mp hacc).2).1
  have hh : node_get v.mem h.1 =
      some (node_t.mk h.2 (some ((t.map (fun y => y.1)).headD n2))) := hr2.1
  have hlt := node_get_lt v.mem z.1 _ hz
  have hndacc : ((init ++ [z]).map (fun x => x.1)).Nodup := by
    have h2 := hnd2
    rw [List.map_append, List.map_append, List.map_append] at h2
    exact (List.nodup_append.mp (List.nodup_append.mp (List.nodup_append.mp h2).1).1).1
  simp only [List.map_append, List.map_cons, List.map_nil, List.append_assoc] at hnd2
  have hnd3 := List.nodup_append.mp hnd2
  have hnd4 := List.nodup_append.mp hnd3.2.1
  have hzh : h.1 ≠ z.1 := by
    intro e
    exact hnd4.2.2 (List.mem_singleton_self z.1) (by rw [← e]; simp)
  have hzt : ∀ a ∈ t.map (fun x => x.1), a ≠ z.1 := by
    intro a ha e
    exact hnd4.2.2 (List.mem_singleton_self z.1) (by rw [← e]; simp [ha])
  have hzr : ∀ a ∈ r1.map (fun x => x.1), a ≠ z.1 := by
    intro a ha e
    exact hnd4.2.2 (List.mem_singleton_self z.1) (by rw [← e]; simp [ha])
  have hset : set_next v.mem z.1 (some h.1) =
      some (v.mem.set z.1 (some (node_t.mk z.2 (some h.1)))) := set_next_eq v.mem z.1 _ _ hz
  have hget : ∀ a, a ≠ z.1 →
      node_get (v.mem.set z.1 (some (node_t.mk z.2 (some h.1)))) a = node_get v.mem a := by
    intro a ha
    rw [node_get_set v.mem z.1 a _ hlt, if_neg ha]
  have hincr : int_incr v.counter2 = some (v.counter2 + 1) := by
    unfold int_incr
    rw [if_pos]
    simp only [List.length_cons] at hc2
    omega
  have hp1z : v.p_temp1 = some z.1 := by rw [hp1]; simp
  refine ⟨{ v with mem := v.mem.set z.1 (some (node_t.mk z.2 (some h.1))), p_temp1 := some h.1,
                   p_temp4 := some ((t.map (fun y => y.1)).headD n2),
                   counter2 := v.counter2 + 1 }, ?_, ?_⟩
  · unfold cll_merge_second
    rw [hp1z, hp4 h t rfl]
    simp only [hset, hget h.1 hzh, hh, hincr]
  · refine ⟨⟨(t.map (fun y => y.1)).headD n2, ?_⟩, ⟨n1, ?_⟩, ⟨n2, ?_⟩, ?_, ?_, ?_, ?_, ?_, ?_, ?_,
      ?_, ?_, ?_⟩
    · rw [cll_nodes_append]
      constructor
      · exact cll_nodes_relink v.mem init z n0 h.1 hacc hndacc
      · rw [cll_nodes_cons]
        refine ⟨?_, trivial⟩
        show node_get (v.mem.set z.1 _) h.1 = _
        rw [hget h.1 hzh]
        exact hh
    · exact cll_nodes_congr v.mem _ r1 n1 hr1 (fun a ha => hget a (hzr a ha))
    · exact cll_nodes_congr v.mem _ t n2 hr2.2 (fun a ha => hget a (hzt a ha))
    · exact hperm2
    · simp
    · rw [← hhead]
      cases init <;> rfl
    · simp
    · exact hp3
    · intro h2 t2 e
      rw [e]
      rfl
    · exact hc1
    · show v.counter2 + 1 + (t.length : Int) = size2
      simp only [List.length_cons] at hc2
      omega
    · intro a ha
      show node_get (v.mem.set z.1 _) a = _
      rw [hget a, hframe a ha]
      intro e
      apply ha
      rw [e]
      have hzmem : z ∈ (init ++ [z]) ++ [h] ++ r1 ++ t := by simp
      exact List.mem_map_of_mem _ (hperm2.subset hzmem)
    · show (v.mem.set z.1 _).length = _
      rw [List.length_set]
      exact hlen

end CllSortMerge
section CllSortLoops

open Cll

theorem cll_merge_loop2_inv (size1 size2 : Int) (mem0 : List (Option node_t))
    (all : List (Nat × Option Nat)) (p_temp2 : Option Nat)
    (hnd : (all.map (fun x => x.1)).Nodup) (hs1 : size1 ≤ 2147483647) :
    ∀ (r1 : List (Nat × Option Nat)) (fuel : Nat) (v : merge_t)
      (acc r2 : List (Nat × Option Nat)),
      cll_merge_inv size1 size2 mem0 all p_temp2 v acc r1 r2 → r1.length < fuel →
      ∃ v1, cll_merge_loop2 size1 fuel v = ret_t.done v1 ∧
        cll_merge_inv size1 size2 mem0 all p_temp2 v1 (acc ++ r1) [] r2
  | [], 0, _, _, _, _, hf => absurd hf (Nat.not_lt_zero _)
  | [], fuel + 1, v, acc, r2, hinv, _ => by
    have hc1 := hinv.2.2.2.2.2.2.2.2.2.1
    refine ⟨v, ?_, ?_⟩
    · unfold cll_merge_loop2
      rw [if_neg]
      simp only [List.length_nil] at hc1
      intro hne
      exact hne (by omega)
    · rw [List.append_nil]
      exact hinv
  | _ :: _, 0, _, _, _, _, hf => absurd hf (Nat.not_lt_zero _)
  | h :: t, fuel + 1, v, acc, r2, hinv, hf => by
    have hc1 := hinv.2.2.2.2.2.2.2.2.2.1
    obtain ⟨v1, hstep, hinv1⟩ :=
      cll_merge_first_inv size1 size2 mem0 all p_temp2 v acc h t r2 hinv hnd hs1
    obtain ⟨v2, hloop, hinv2⟩ := cll_merge_loop2_inv size1 size2 mem0 all p_temp2 hnd hs1 t fuel
      v1 (acc ++ [h]) r2 hinv1 (by simpa using hf)
    refine ⟨v2, ?_, ?_⟩
    · unfold cll_merge_loop2
      rw [if_pos, hstep]
      · exact hloop
      · simp only [List.length_cons] at hc1
        push_cast at hc1
        omega
    · rw [List.append_assoc] at hinv2
      exact hinv2

theorem cll_merge_loop3_inv (size1 size2 : Int) (mem0 : List (Option node_t))
    (all : List (Nat × Option Nat)) (p_temp2 : Option Nat)
    (hnd : (all.map (fun x => x.1)).Nodup) (hs2 : size2 ≤ 2147483647) :
    ∀ (r2 : List (Nat × Option Nat)) (fuel : Nat) (v : merge_t)
      (acc : List (Nat × Option Nat)),
      cll_merge_inv size1 size2 mem0 all p_temp2 v acc [] r2 → r2.length < fuel →
      ∃ v1, cll_merge_loop3 size2 fuel v = ret_t.done v1 ∧
        cll_merge_inv size1 size2 mem0 all p_temp2 v1 (acc ++ r2) [] []
  | [], 0, _, _, _, hf => absurd hf (Nat.not_lt_zero _)
  | [], fuel + 1, v, acc, hinv, _ => by
    have hc2 := hinv.2.2.2.2.2.2.2.2.2.2.1
    refine ⟨v, ?_, ?_⟩
    · unfold cll_merge_loop3
      rw [if_neg]
      simp only [List.length_nil] at hc2
      intro hne
      exact hne (by omega)
    · rw [List.append_nil]
      exact hinv
  | _ :: _, 0, _, _, _, hf => absurd hf (Nat.not_lt_zero _)
  | h :: t, fuel + 1, v, acc, hinv, hf => by
    have hc2 := hinv.2.2.2.2.2.2.2.2.2.2.1
    obtain ⟨v1, hstep, hinv1⟩ :=
      cll_merge_second_inv size1 size2 mem0 all p_temp2 v acc [] h t hinv hnd hs2
    obtain ⟨v2, hloop, hinv2⟩ := cll_merge_loop3_inv size1 size2 mem0 all p_temp2 hnd hs2 t fuel
      v1 (acc ++ [h]) hinv1 (by simpa using hf)
    refine ⟨v2, ?_, ?_⟩
    · unfold cll_merge_loop3
      rw [if_pos, hstep]
      · exact hloop
      · simp only [List.length_cons] at hc2
        push_cast at hc2
        omega
    · rw [List.append_assoc] at hinv2
      exact hinv2

theorem cll_merge_sorted_first (bytes : Nat → Option Int) (acc : List (Nat × Option Nat))
    (h1 : Nat × Option Nat) (t1 : List (Nat × Option Nat)) (h2 : Nat × Option Nat)
    (t2 : List (Nat × Option Nat)) (hs : cll_merge_sorted bytes acc (h1 :: t1) (h2 :: t2))
    (hlt : cll_key bytes h1.2 < cll_key bytes h2.2) :
    cll_merge_sorted bytes (acc ++ [h1]) t1 (h2 :: t2) := by
  obtain ⟨hacc, hr1, hr2, hle⟩ := hs
  unfold cll_sorted at hacc hr1 hr2
  rw [List.pairwise_cons] at hr1 hr2
  refine ⟨?_, hr1.2, List.pairwise_cons.mpr hr2, ?_⟩
  · unfold cll_sorted
    rw [List.pairwise_append]
    refine ⟨hacc, List.pairwise_singleton _ _, ?_⟩
    intro a ha b hb
    rw [List.mem_singleton] at hb
    rw [hb]
    exact hle a ha h1 (by simp)
  · intro a ha b hb
    rcases List.mem_append.mp ha with ha | ha
    · apply hle a ha b
      rcases List.mem_append.mp hb with hb | hb
      · simp [hb]
      · exact List.mem_append_right _ hb
    · rw [List.mem_singleton] at ha
      rw [ha]
      rcases List.mem_append.mp hb with hb | hb
      · exact hr1.1 b hb
      · rcases List.mem_cons.mp hb with hb | hb
        · rw [hb]
          omega
        · have := hr2.1 b hb
          omega

theorem cll_merge_sorted_second (bytes : Nat → Option Int) (acc : List (Nat × Option Nat))
    (h1 : Nat × Option Nat) (t1 : List (Nat × Option Nat)) (h2 : Nat × Option Nat)
    (t2 : List (Nat × Option Nat)) (hs : cll_merge_sorted bytes acc (h1 :: t1) (h2 :: t2))
    (hlt : ¬ cll_key bytes h1.2 < cll_key bytes h2.2) :
    cll_merge_sorted bytes (acc ++ [h2]) (h1 :: t1) t2 := by
  obtain ⟨hacc, hr1, hr2, hle⟩ := hs
  unfold cll_sorted at hacc hr1 hr2
  rw [List.pairwise_cons] at hr1 hr2
  refine ⟨?_, List.pairwise_cons.mpr hr1, hr2.2, ?_⟩
  · unfold cll_sorted
    rw [List.pairwise_append]
    refine ⟨hacc, List.pairwise_singleton _ _, ?_⟩
    intro a ha b hb
    rw [List.mem_singleton] at hb
    rw [hb]
    exact hle a ha h2 (by simp)
  · intro a ha b hb
    rcases List.mem_append.mp ha with ha | ha
    · apply hle a ha b
      rcases List.mem_append.mp hb with hb | hb
      · exact List.mem_append_left _ hb
      · simp [hb]
    · rw [List.mem_singleton] at ha
      rw [ha]
      rcases List.mem_append.mp hb with hb | hb
      · rcases List.mem_cons.mp hb with hb | hb
        · rw [hb]
          omega
        · have := hr1.1 b hb
          omega
      · exact hr2.1 b hb

theorem cll_merge_loop1_inv (bytes : Nat → Option Int) (size1 size2 : Int)
    (mem0 : List (Option node_t)) (all : List (Nat × Option Nat)) (p_temp2 : Option Nat)
    (hnd : (all.map (fun x => x.1)).Nodup) (hs1 : size1 ≤ 2147483647)
    (hs2 : size2 ≤ 2147483647) (hrd : cll_readable bytes all) :
    ∀ (n fuel : Nat) (v : merge_t) (acc r1 r2 : List (Nat × Option Nat)),
      r1.length + r2.length = n → n < fuel →
      cll_merge_inv size1 size2 mem0 all p_temp2 v acc r1 r2 →
      cll_merge_sorted bytes acc r1 r2 →
      ∃ v1 acc1 r1a r2a, cll_merge_loop1 bytes size1 size2 fuel v = ret_t.done v1 ∧
        cll_merge_inv size1 size2 mem0 all p_temp2 v1 acc1 r1a r2a ∧
        cll_merge_sorted bytes acc1 r1a r2a ∧ (r1a = [] ∨ r2a = []) ∧
        r1a.length + r2a.length ≤ n := by
  intro n
  induction n with
  | zero =>
    intro fuel v acc r1 r2 hn hf hinv hs
    have h1 : r1 = [] := List.length_eq_zero.mp (by omega)
    have h2 : r2 = [] := List.length_eq_zero.mp (by omega)
    subst h1 h2
    have hc1 := hinv.2.2.2.2.2.2.2.2.2.1
    cases fuel with
    | zero => omega
    | succ fuel =>
      refine ⟨v, acc, [], [], ?_, hinv, hs, Or.inl rfl, by simp⟩
      unfold cll_merge_loop1
      rw [if_neg]
      simp only [List.length_nil] at hc1
      intro hne
      exact hne.1 (by omega)
  | succ n ih =>
    intro fuel v acc r1 r2 hn hf hinv hs
    have hc1 := hinv.2.2.2.2.2.2.2.2.2.1
    have hc2 := hinv.2.2.2.2.2.2.2.2.2.2.1
    cases fuel with
    | zero => omega
    | succ fuel =>
      cases r1 with
      | nil =>
        refine ⟨v, acc, [], r2, ?_, hinv, hs, Or.inl rfl, by omega⟩
        unfold cll_merge_loop1
        rw [if_neg]
        simp only [List.length_nil] at hc1
        intro hne
        exact hne.1 (by omega)
      | cons h1 t1 =>
        cases r2 with
        | nil =>
          refine ⟨v, acc, h1 :: t1, [], ?_, hinv, hs, Or.inr rfl, by omega⟩
          unfold cll_merge_loop1
          rw [if_neg]
          simp only [List.length_nil] at hc2
          intro hne
          exact hne.2 (by omega)
        | cons h2 t2 =>
          obtain ⟨_, ⟨n1, hr1⟩, ⟨n2, hr2⟩, hperm, _, _, _, hp3, hp4, _⟩ := id hinv
          have hm1 : h1 ∈ all := hperm.subset (by simp)
          have hm2 : h2 ∈ all := hperm.subset (by simp)
          have hk1 := node_char_key bytes v.mem h1 _ hr1.1 (hrd h1 hm1)
          have hk2 := node_char_key bytes v.mem h2 _ hr2.1 (hrd h2 hm2)
          have hcond : v.counter1 ≠ size1 ∧ v.counter2 ≠ size2 := by
            simp only [List.length_cons] at hc1 hc2
            push_cast at hc1 hc2
            constructor <;> omega
          simp only [List.length_cons] at hn
          by_cases hlt : cll_key bytes h1.2 < cll_key bytes h2.2
          · obtain ⟨v1, hstep, hinv1⟩ := cll_merge_first_inv size1 size2 mem0 all p_temp2 v acc
              h1 t1 (h2 :: t2) hinv hnd hs1
            obtain ⟨v2, acc2, r1a, r2a, hloop, hinv2, hs2a, hor, hle⟩ :=
              ih fuel v1 (acc ++ [h1]) t1 (h2 :: t2) (by simp only [List.length_cons]; omega)
                (by omega) hinv1 (cll_merge_sorted_first bytes acc h1 t1 h2 t2 hs hlt)
            refine ⟨v2, acc2, r1a, r2a, ?_, hinv2, hs2a, hor, by omega⟩
            unfold cll_merge_loop1
            rw [if_pos hcond, hp3 h1 t1 rfl, hp4 h2 t2 rfl, hk1, hk2]
            simp only [if_pos hlt, hstep]
            exact hloop
          · obtain ⟨v1, hstep, hinv1⟩ := cll_merge_second_inv size1 size2 mem0 all p_temp2 v acc
              (h1 :: t1) h2 t2 hinv hnd hs2
            obtain ⟨v2, acc2, r1a, r2a, hloop, hinv2, hs2a, hor, hle⟩ :=
              ih fuel v1 (acc ++ [h2]) (h1 :: t1) t2 (by simp only [List.length_cons]; omega)
                (by omega) hinv1 (cll_merge_sorted_second bytes acc h1 t1 h2 t2 hs hlt)
            refine ⟨v2, acc2, r1a, r2a, ?_, hinv2, hs2a, hor, by omega⟩
            unfold cll_merge_loop1
            rw [if_pos hcond, hp3 h1 t1 rfl, hp4 h2 t2 rfl, hk1, hk2]
            simp only [if_neg hlt, hstep]
            exact hloop

end CllSortLoops
section CllSortMergeSpec

open Cll

theorem cll_merge_helper_spec (bytes : Nat → Option Int) (size1 size2 : Int)
    (mem0 : List (Option node_t)) (all : List (Nat × Option Nat)) (p_temp2 : Option Nat)
    (hnd : (all.map (fun x => x.1)).Nodup) (hs1 : size1 ≤ 2147483647)
    (hs2 : size2 ≤ 2147483647) (hrd : cll_readable bytes all)
    (fuel : Nat) (v : merge_t) (acc r1 r2 : List (Nat × Option Nat))
    (hf : r1.length + r2.length < fuel)
    (hinv : cll_merge_inv size1 size2 mem0 all p_temp2 v acc r1 r2)
    (hs : cll_merge_sorted bytes acc r1 r2) :
    ∃ mem1 nodes, cll_merge_helper bytes fuel v p_temp2 size1 size2 = some (mem1, p_temp2) ∧
      nodes.head?.map (fun x => x.1) = p_temp2 ∧ nodes ≠ [] ∧ nodes.Perm all ∧
      cll_sorted bytes nodes ∧ cll_circ mem1 nodes ∧
      (∀ a, a ∉ all.map (fun x => x.1) → node_get mem1 a = node_get mem0 a) ∧
      mem1.length = mem0.length := by
  obtain ⟨v1, acc1, r1a, r2a, hl1, hinv1, hs1a, hor, hle⟩ :=
    cll_merge_loop1_inv bytes size1 size2 mem0 all p_temp2 hnd hs1 hs2 hrd _ fuel v acc r1 r2 rfl
      hf hinv hs
  obtain ⟨v2, hl2, hinv2⟩ := cll_merge_loop2_inv size1 size2 mem0 all p_temp2 hnd hs1 r1a fuel v1
    acc1 r2a hinv1 (by omega)
  obtain ⟨v3, hl3, hinv3⟩ := cll_merge_loop3_inv size1 size2 mem0 all p_temp2 hnd hs2 r2a fuel v2
    (acc1 ++ r1a) hinv2 (by omega)
  obtain ⟨⟨n0, hacc⟩, _, _, hperm, hp1, hhead, hne, _, _, _, _, hframe, hlen⟩ := hinv3
  rw [List.append_nil, List.append_nil] at hperm
  have hsorted : cll_sorted bytes (acc1 ++ r1a ++ r2a) := by
    obtain ⟨ha, hb, hc, hd⟩ := hs1a
    unfold cll_sorted
    rcases hor with e | e
    · subst e
      rw [List.append_nil, List.pairwise_append]
      exact ⟨ha, hc, fun a haa b hbb => hd a haa b (by simpa using hbb)⟩
    · subst e
      rw [List.append_nil, List.pairwise_append]
      exact ⟨ha, hb, fun a haa b hbb => hd a haa b (by simpa using hbb)⟩
  obtain ⟨init, z, hz⟩ := cll_nodes_concat (acc1 ++ r1a ++ r2a) hne
  rw [hz] at hacc hperm hp1 hhead hsorted hne
  have hndz : ((init ++ [z]).map (fun x => x.1)).Nodup := (hperm.map _).nodup_iff.mpr hnd
  have hzg : node_get v3.mem z.1 = some (node_t.mk z.2 (some n0)) :=
    ((cll_nodes_cons v3.mem z [] n0).mp ((cll_nodes_append v3.mem init [z] n0).mp hacc).2).1
  have hlt := node_get_lt v3.mem z.1 _ hzg
  have hp1z : v3.p_temp1 = some z.1 := by rw [hp1]; simp
  obtain ⟨x0, hx0⟩ : ∃ x0, (init ++ [z]).head? = some x0 := by
    cases init <;> exact ⟨_, rfl⟩
  have hp2 : p_temp2 = some x0.1 := by rw [← hhead, hx0]; rfl
  have hhd : ((init ++ [z]).map (fun x => x.1)).headD 0 = x0.1 := by
    cases init with
    | nil =>
      simp only [List.nil_append, List.head?_cons, Option.some.injEq] at hx0
      rw [← hx0]
      rfl
    | cons b bs =>
      simp only [List.cons_append, List.head?_cons, Option.some.injEq] at hx0
      rw [← hx0]
      rfl
  refine ⟨v3.mem.set z.1 (some (node_t.mk z.2 (some x0.1))), init ++ [z], ?_, hhead, hne, hperm,
    hsorted, ?_, ?_, ?_⟩
  · unfold cll_merge_helper
    simp only [hl1, hl2, hl3, hp1z]
    rw [hp2, set_next_eq v3.mem z.1 _ _ hzg]
    rfl
  · unfold cll_circ
    rw [hhd]
    exact cll_nodes_relink v3.mem init z n0 x0.1 hacc hndz
  · intro a ha
    rw [node_get_set v3.mem z.1 a _ hlt, if_neg, hframe a ha]
    intro e
    apply ha
    rw [e]
    exact List.mem_map_of_mem _ (hperm.subset (by simp))
  · rw [List.length_set]
    exact hlen

/-- `cll_merge` on two sorted circular lists that share no node: the result
is one sorted circular list of the same nodes; the rest of the heap is left
as it is. -/
theorem cll_merge_spec (bytes : Nat → Option Int) (mem : List (Option node_t))
    (x : Nat × Option Nat) (xt : List (Nat × Option Nat)) (y : Nat × Option Nat)
    (yt : List (Nat × Option Nat)) (fuel : Nat)
    (hx : cll_circ mem (x :: xt)) (hy : cll_circ mem (y :: yt))
    (hnd : ((x :: xt ++ y :: yt).map (fun z => z.1)).Nodup)
    (hrd : cll_readable bytes (x :: xt ++ y :: yt))
    (hsx : cll_sorted bytes (x :: xt)) (hsy : cll_sorted bytes (y :: yt))
    (hlx : ((x :: xt).length : Int) ≤ 2147483647) (hly : ((y :: yt).length : Int) ≤ 2147483647)
    (hf : xt.length + yt.length + 1 < fuel) :
    ∃ mem1 nodes, cll_merge bytes fuel mem (some x.1) (some y.1) ((x :: xt).length : Int)
        ((y :: yt).length : Int) = some (mem1, nodes.head?.map (fun z => z.1)) ∧
      nodes ≠ [] ∧ nodes.Perm (x :: xt ++ y :: yt) ∧ cll_sorted bytes nodes ∧
      cll_circ mem1 nodes ∧
      (∀ a, a ∉ (x :: xt ++ y :: yt).map (fun z => z.1) → node_get mem1 a = node_get mem a) ∧
      mem1.length = mem.length := by
  have hxg : node_get mem x.1 =
      some (node_t.mk x.2 (some ((xt.map (fun z => z.1)).headD x.1))) := hx.1
  have hyg : node_get mem y.1 =
      some (node_t.mk y.2 (some ((yt.map (fun z => z.1)).headD y.1))) := hy.1
  have hkx := node_char_key bytes mem x _ hxg (hrd x (by simp))
  have hky := node_char_key bytes mem y _ hyg (hrd y (by simp))
  have hxt : cll_nodes mem xt x.1 := hx.2
  have hyt : cll_nodes mem yt y.1 := hy.2
  unfold cll_sorted at hsx hsy
  by_cases hlt : cll_key bytes x.2 < cll_key bytes y.2
  · have hinv : cll_merge_inv ((x :: xt).length : Int) ((y :: yt).length : Int) mem
        (x :: xt ++ y :: yt) (some x.1)
        { mem := mem, p_temp1 := some x.1,
          p_temp3 := some ((xt.map (fun z => z.1)).headD x.1), p_temp4 := some y.1,
          counter1 := 1, counter2 := 0 } [x] xt (y :: yt) := by
      refine ⟨⟨_, ⟨hxg, trivial⟩⟩, ⟨_, hxt⟩, ⟨_, hy⟩, ?_, rfl, rfl, by simp, ?_, ?_, ?_, ?_,
        fun _ _ => rfl, rfl⟩
      · simp
      · intro h t e
        rw [e]
        rfl
      · intro h t e
        simp only [List.cons.injEq] at e
        rw [e.1]
      · simp only [List.length_cons]
        push_cast
        omega
      · simp
    have hs : cll_merge_sorted bytes [x] xt (y :: yt) := by
      refine ⟨List.pairwise_singleton _ _, (List.pairwise_cons.mp hsx).2, hsy, ?_⟩
      intro a ha b hb
      rw [List.mem_singleton] at ha
      rw [ha]
      rcases List.mem_append.mp hb with hb | hb
      · exact (List.pairwise_cons.mp hsx).1 b hb
      · rcases List.mem_cons.mp hb with hb | hb
        · rw [hb]
          omega
        · have := (List.pairwise_cons.mp hsy).1 b hb
          omega
    obtain ⟨mem1, nodes, he, hhead, hne, hperm, hsorted, hcirc, hframe, hlen⟩ :=
      cll_merge_helper_spec bytes _ _ mem _ (some x.1) hnd hlx hly hrd fuel _ [x] xt (y :: yt)
        (by simp only [List.length_cons]; omega) hinv hs
    refine ⟨mem1, nodes, ?_, hne, hperm, hsorted, hcirc, hframe, hlen⟩
    unfold cll_merge
    rw [hkx, hky]
    simp only [if_pos hlt, hxg, hhead]
    exact he
  · have hinv : cll_merge_inv ((x :: xt).length : Int) ((y :: yt).length : Int) mem
        (x :: xt ++ y :: yt) (some y.1)
        { mem := mem, p_temp1 := some y.1, p_temp3 := some x.1,
          p_temp4 := some ((yt.map (fun z => z.1)).headD y.1),
          counter1 := 0, counter2 := 1 } [y] (x :: xt) yt := by
      refine ⟨⟨_, ⟨hyg, trivial⟩⟩, ⟨_, hx⟩, ⟨_, hyt⟩, ?_, rfl, rfl, by simp, ?_, ?_, ?_, ?_,
        fun _ _ => rfl, rfl⟩
      · simp only [List.singleton_append, List.cons_append]
        exact List.perm_middle.symm
      · intro h t e
        simp only [List.cons.injEq] at e
        rw [e.1]
      · intro h t e
        rw [e]
        rfl
      · simp
      · simp only [List.length_cons]
        push_cast
        omega
    have hs : cll_merge_sorted bytes [y] (x :: xt) yt := by
      refine ⟨List.pairwise_singleton _ _, hsx, (List.pairwise_cons.mp hsy).2, ?_⟩
      intro a ha b hb
      rw [List.mem_singleton] at ha
      rw [ha]
      rcases List.mem_append.mp hb with hb | hb
      · rcases List.mem_cons.mp hb with hb | hb
        · rw [hb]
          omega
        · have := (List.pairwise_cons.mp hsx).1 b hb
          omega
      · exact (List.pairwise_cons.mp hsy).1 b hb
    obtain ⟨mem1, nodes, he, hhead, hne, hperm, hsorted, hcirc, hframe, hlen⟩ :=
      cll_merge_helper_spec bytes _ _ mem _ (some y.1) hnd hlx hly hrd fuel _ [y] (x :: xt) yt
        (by simp only [List.length_cons]; omega) hinv hs
    refine ⟨mem1, nodes, ?_, hne, hperm, hsorted, hcirc, hframe, hlen⟩
    unfold cll_merge
    rw [hkx, hky]
    simp only [if_neg hlt, hyg, hhead]
    exact he

end CllSortMergeSpec
section CllSortSplit

open Cll

theorem cll_nodes_headD (xs : List (Nat × Option Nat)) (z : Nat × Option Nat) (a b : Nat) :
    ((xs ++ [z]).map (fun x => x.1)).headD a = ((xs ++ [z]).map (fun x => x.1)).headD b := by
  cases xs <;> rfl

/-- The counting loop of `cll_mergesort` from a node of the list: the nodes
from there to the one that points back to `p_node` are added to `size`. -/
theorem cll_mergesort_size_nodes (mem : List (Option node_t)) (p : Nat) :
    ∀ (post : List (Nat × Option Nat)) (cur : Nat × Option Nat) (size : Int) (fuel : Nat),
      cll_nodes mem (cur :: post) p → p ∉ post.map (fun x => x.1) → post.length < fuel →
      size + post.length ≤ 2147483647 →
      cll_mergesort_size mem p fuel size (some cur.1) = loop_t.done (size + post.length)
  | _, _, _, 0, _, _, hf, _ => absurd hf (Nat.not_lt_zero _)
  | [], cur, size, fuel + 1, h, _, _, _ => by
    have hg : node_get mem cur.1 = some (node_t.mk cur.2 (some p)) := h.1
    unfold cll_mergesort_size
    simp only [hg, ne_eq, not_true_eq_false, if_false, List.length_nil, Nat.cast_zero, add_zero]
  | c2 :: post, cur, size, fuel + 1, h, hp, hf, hs => by
    have hg : node_get mem cur.1 = some (node_t.mk cur.2 (some c2.1)) := h.1
    have hne : c2.1 ≠ p := by
      intro e
      apply hp
      rw [← e]
      simp
    have hne2 : ¬ (some c2.1 : Option Nat) = some p := by
      intro e
      exact hne (Option.some.inj e)
    simp only [List.length_cons] at hs hf
    push_cast at hs
    have hincr : int_incr size = some (size + 1) := by
      unfold int_incr
      rw [if_pos (by omega)]
    have ih := cll_mergesort_size_nodes mem p post c2 (size + 1) fuel h.2
      (fun hm => hp (List.mem_cons_of_mem _ hm)) (by omega) (by omega)
    unfold cll_mergesort_size
    simp only [hg, ne_eq, hne2, not_false_eq_true, if_true, hincr, ih, List.length_cons]
    push_cast
    congr 1
    omega

/-- The `for` loop of `cll_mergesort` walks over as many nodes as it has
iterations. -/
theorem cll_mergesort_walk_nodes (mem : List (Option node_t)) (z : Nat × Option Nat)
    (nxt : Nat) :
    ∀ (xs : List (Nat × Option Nat)), cll_nodes mem (xs ++ [z]) nxt →
      cll_mergesort_walk mem xs.length (some (((xs ++ [z]).map (fun x => x.1)).headD 0)) =
        loop_t.done (some z.1)
  | [], _ => rfl
  | a :: as, h => by
    have hg : node_get mem a.1 =
        some (node_t.mk a.2 (some (((as ++ [z]).map (fun x => x.1)).headD nxt))) := h.1
    have ih := cll_mergesort_walk_nodes mem z nxt as h.2
    show cll_mergesort_walk mem (as.length + 1) (some a.1) = _
    unfold cll_mergesort_walk
    simp only [hg]
    rw [cll_nodes_headD as z nxt 0]
    exact ih

/-- The loop of `cll_mergesort` that looks for the node pointing back to
`p_node` ends at the last node of the chain. -/
theorem cll_mergesort_last_nodes (mem : List (Option node_t)) (p : Nat) (z : Nat × Option Nat) :
    ∀ (xs : List (Nat × Option Nat)) (fuel : Nat),
      cll_nodes mem (xs ++ [z]) p → p ∉ (xs ++ [z]).map (fun x => x.1) → xs.length < fuel →
      cll_mergesort_last mem p fuel (some (((xs ++ [z]).map (fun x => x.1)).headD 0)) =
        loop_t.done z.1
  | _, 0, _, _, hf => absurd hf (Nat.not_lt_zero _)
  | [], fuel + 1, h, _, _ => by
    have hg : node_get mem z.1 = some (node_t.mk z.2 (some p)) := h.1
    show cll_mergesort_last mem p (fuel + 1) (some z.1) = _
    unfold cll_mergesort_last
    simp only [hg, ne_eq, not_true_eq_false, if_false]
  | a :: as, fuel + 1, h, hp, hf => by
    have hg : node_get mem a.1 =
        some (node_t.mk a.2 (some (((as ++ [z]).map (fun x => x.1)).headD p))) := h.1
    have hp2 : p ∉ (as ++ [z]).map (fun x => x.1) := by
      intro hm
      apply hp
      simp only [List.cons_append, List.map_cons]
      exact List.mem_cons_of_mem _ hm
    have hne : ¬ (some (((as ++ [z]).map (fun x => x.1)).headD p) : Option Nat) = some p := by
      intro e
      apply hp2
      have e2 := Option.some.inj e
      rw [← e2]
      cases as <;> simp
    have ih := cll_mergesort_last_nodes mem p z as fuel h.2 hp2 (by simpa using hf)
    show cll_mergesort_last mem p (fuel + 1) (some a.1) = _
    unfold cll_mergesort_last
    simp only [hg, ne_eq, hne, not_false_eq_true, if_true]
    rw [cll_nodes_headD as z p 0]
    exact ih

end CllSortSplit
section CllSortSpec

open Cll

theorem cll_nodes_nodup_left (xs ys : List (Nat × Option Nat))
    (h : ((xs ++ ys).map (fun x => x.1)).Nodup) : (xs.map (fun x => x.1)).Nodup := by
  rw [List.map_append] at h
  exact (List.nodup_append.mp h).1

theorem cll_nodes_nodup_right (xs ys : List (Nat × Option Nat))
    (h : ((xs ++ ys).map (fun x => x.1)).Nodup) : (ys.map (fun x => x.1)).Nodup := by
  rw [List.map_append] at h
  exact (List.nodup_append.mp h).2.1

theorem cll_nodes_disjoint (xs ys : List (Nat × Option Nat))
    (h : ((xs ++ ys).map (fun x => x.1)).Nodup) (a : Nat) (hx : a ∈ xs.map (fun x => x.1))
    (hy : a ∈ ys.map (fun x => x.1)) : False := by
  rw [List.map_append] at h
  exact (List.nodup_append.mp h).2.2 hx hy

/-- `cll_mergesort` on a circular list of distinct nodes with readable data:
it returns the first node of a sorted circular list of the same nodes and
leaves the rest of the heap as it is. -/
theorem cll_mergesort_spec (bytes : Nat → Option Int) :
    ∀ (n : Nat) (nodes : List (Nat × Option Nat)) (mem : List (Option node_t)) (fuel : Nat),
      nodes.length = n → nodes ≠ [] → n < fuel → (n : Int) ≤ 2147483647 →
      cll_circ mem nodes → (nodes.map (fun x => x.1)).Nodup → cll_readable bytes nodes →
      ∃ mem1 nodes1, cll_mergesort bytes fuel mem (nodes.head?.map (fun x => x.1)) =
          some (mem1, nodes1.head?.map (fun x => x.1)) ∧
        nodes1 ≠ [] ∧ nodes1.Perm nodes ∧ cll_sorted bytes nodes1 ∧ cll_circ mem1 nodes1 ∧
        (∀ a, a ∉ nodes.map (fun x => x.1) → node_get mem1 a = node_get mem a) ∧
        mem1.length = mem.length := by
  intro n
  induction n using Nat.strong_induction_on with
  | _ n ih =>
    intro nodes mem fuel hlen hne hf hmax hcirc hnd hrd
    cases nodes with
    | nil => exact absurd rfl hne
    | cons x rest =>
      cases fuel with
      | zero => omega
      | succ fuel =>
        simp only [List.length_cons] at hlen
        have hxrest : x.1 ∉ rest.map (fun z => z.1) := by
          simp only [List.map_cons] at hnd
          exact (List.nodup_cons.mp hnd).1
        have hsize := cll_mergesort_size_nodes mem x.1 rest x 1 fuel hcirc hxrest (by omega)
          (by omega)
        by_cases h1 : rest = []
        · subst h1
          refine ⟨mem, [x], ?_, by simp, List.Perm.refl _, List.pairwise_singleton _ _, hcirc,
            fun _ _ => rfl, rfl⟩
          show cll_mergesort bytes (fuel + 1) mem (some x.1) = some (mem, some x.1)
          unfold cll_mergesort
          simp only [hsize, List.length_nil, Nat.cast_zero, add_zero, gt_iff_lt, lt_self_iff_false,
            if_false]
        · have hr : 1 ≤ rest.length := by
            cases rest with
            | nil => exact absurd rfl h1
            | cons _ _ => simp
          obtain ⟨k, hk⟩ : ∃ k : Nat, ((1 + (rest.length : Int)) / 2 - 1).toNat = k := ⟨_, rfl⟩
          have hk1 : (1 + (rest.length : Int)) / 2 = (k : Int) + 1 := by omega
          have hk2 : k < rest.length := by omega
          have htake : (rest.take k).length = k := by
            rw [List.length_take]
            omega
          have hdrop : (rest.drop k).length = rest.length - k := List.length_drop _ _
          have hsplit : x :: rest = (x :: rest.take k) ++ rest.drop k := by
            rw [List.cons_append, List.take_append_drop]
          obtain ⟨xi, xz, hxs⟩ := cll_nodes_concat (x :: rest.take k) (by simp)
          have hysne : rest.drop k ≠ [] := by
            intro e
            rw [e] at hdrop
            simp only [List.length_nil] at hdrop
            omega
          obtain ⟨yi, yz, hys⟩ := cll_nodes_concat (rest.drop k) hysne
          obtain ⟨y, yt, hyc⟩ : ∃ y yt, rest.drop k = y :: yt := by
            cases hd : rest.drop k with
            | nil => exact absurd hd hysne
            | cons y yt => exact ⟨y, yt, rfl⟩
          have hxilen : xi.length = k := by
            have := congrArg List.length hxs
            simp only [List.length_cons, List.length_append, List.length_nil, htake] at this
            omega
          have hyilen : yi.length + 1 = rest.length - k := by
            have := congrArg List.length hys
            simp only [List.length_cons, List.length_append, List.length_nil, hdrop] at this
            omega
          -- the two halves in the heap
          have hc0 : cll_nodes mem ((x :: rest.take k) ++ rest.drop k) x.1 := by
            rw [← hsplit]
            exact hcirc
          have hnd0 : (((x :: rest.take k) ++ rest.drop k).map (fun z => z.1)).Nodup := by
            rw [← hsplit]
            exact hnd
          have hrd0 : cll_readable bytes ((x :: rest.take k) ++ rest.drop k) := by
            rw [← hsplit]
            exact hrd
          have hndx := cll_nodes_nodup_left _ _ hnd0
          have hndy := cll_nodes_nodup_right _ _ hnd0
          have hdisj := cll_nodes_disjoint _ _ hnd0
          obtain ⟨hcx, hcy⟩ := (cll_nodes_append mem _ _ x.1).mp hc0
          have hyhead : ((rest.drop k).map (fun z => z.1)).headD x.1 = y.1 := by
            rw [hyc]
            rfl
          rw [hyhead] at hcx
          have hxhead : ((xi ++ [xz]).map (fun z => z.1)).headD 0 = x.1 := by
            rw [← hxs]
            rfl
          have hyhead2 : ((yi ++ [yz]).map (fun z => z.1)).headD 0 = y.1 := by
            rw [← hys, hyc]
            rfl
          -- the walk to the end of the first half
          have hwalk : cll_mergesort_walk mem ((1 + (rest.length : Int)) / 2 - 1).toNat
              (some x.1) = loop_t.done (some xz.1) := by
            have hw := cll_mergesort_walk_nodes mem xz y.1 xi (by rw [← hxs]; exact hcx)
            rw [hxhead, hxilen] at hw
            rw [hk]
            exact hw
          have hxzg : node_get mem xz.1 = some (node_t.mk xz.2 (some y.1)) := by
            rw [hxs] at hcx
            exact ((cll_nodes_cons mem xz [] y.1).mp
              ((cll_nodes_append mem xi [xz] y.1).mp hcx).2).1
          have hxzlt := node_get_lt mem xz.1 _ hxzg
          have hset1 := set_next_eq mem xz.1 _ (some x.1) hxzg
          have hxzmem : xz.1 ∈ (x :: rest.take k).map (fun z => z.1) := by
            rw [hxs]
            simp
          -- the first half closed
          have hcx1 : cll_circ (mem.set xz.1 (some (node_t.mk xz.2 (some x.1))))
              (x :: rest.take k) := by
            unfold cll_circ
            rw [hxs, hxhead]
            rw [hxs] at hcx hndx
            exact cll_nodes_relink mem xi xz y.1 x.1 hcx hndx
          have hcy1 : cll_nodes (mem.set xz.1 (some (node_t.mk xz.2 (some x.1))))
              (rest.drop k) x.1 := by
            refine cll_nodes_congr mem _ _ _ hcy ?_
            intro a ha
            rw [node_get_set mem xz.1 a _ hxzlt, if_neg]
            intro e
            rw [e] at ha
            exact hdisj xz.1 hxzmem ha
          -- the walk to the end of the second half
          have hxy : x.1 ∉ (rest.drop k).map (fun z => z.1) := by
            intro hm
            exact hdisj x.1 (by simp) hm
          have hlast : cll_mergesort_last (mem.set xz.1 (some (node_t.mk xz.2 (some x.1)))) x.1
              fuel (some y.1) = loop_t.done yz.1 := by
            have hl := cll_mergesort_last_nodes _ x.1 yz yi fuel (by rw [← hys]; exact hcy1)
              (by rw [← hys]; exact hxy) (by omega)
            rw [hyhead2] at hl
            exact hl
          have hyzg : node_get (mem.set xz.1 (some (node_t.mk xz.2 (some x.1)))) yz.1 =
              some (node_t.mk yz.2 (some x.1)) := by
            rw [hys] at hcy1
            exact ((cll_nodes_cons _ yz [] x.1).mp
              ((cll_nodes_append _ yi [yz] x.1).mp hcy1).2).1
          have hyzlt := node_get_lt _ yz.1 _ hyzg
          have hset2 := set_next_eq _ yz.1 _ (some y.1) hyzg
          have hyzmem : yz.1 ∈ (rest.drop k).map (fun z => z.1) := by
            rw [hys]
            simp
          have hcy2 : cll_circ
              ((mem.set xz.1 (some (node_t.mk xz.2 (some x.1)))).set yz.1
                (some (node_t.mk yz.2 (some y.1)))) (rest.drop k) := by
            unfold cll_circ
            rw [hys, hyhead2]
            rw [hys] at hcy1 hndy
            exact cll_nodes_relink _ yi yz x.1 y.1 hcy1 hndy
          have hcx2 : cll_circ
              ((mem.set xz.1 (some (node_t.mk xz.2 (some x.1)))).set yz.1
                (some (node_t.mk yz.2 (some y.1)))) (x :: rest.take k) := by
            refine cll_nodes_congr _ _ _ _ hcx1 ?_
            intro a ha
            rw [node_get_set _ yz.1 a _ hyzlt, if_neg]
            intro e
            rw [e] at ha
            exact hdisj yz.1 ha hyzmem
          -- the recursive calls
          obtain ⟨mem3, xs1, he3, hne3, hperm3, hsorted3, hcirc3, hframe3, hlen3⟩ :=
            ih (x :: rest.take k).length (by simp only [List.length_cons, htake]; omega)
              (x :: rest.take k) _ fuel rfl (by simp)
              (by simp only [List.length_cons, htake]; omega)
              (by simp only [List.length_cons, htake]; push_cast; omega) hcx2 hndx
              (fun z hz => hrd0 z (List.mem_append_left _ hz))
          have hcy3 : cll_circ mem3 (rest.drop k) := by
            refine cll_nodes_congr _ _ _ _ hcy2 ?_
            intro a ha
            exact hframe3 a (fun hm => hdisj a hm ha)
          obtain ⟨mem4, ys1, he4, hne4, hperm4, hsorted4, hcirc4, hframe4, hlen4⟩ :=
            ih (rest.drop k).length (by rw [hdrop]; omega) (rest.drop k) mem3 fuel rfl hysne
              (by rw [hdrop]; omega) (by rw [hdrop]; omega) hcy3 hndy
              (fun z hz => hrd0 z (List.mem_append_right _ hz))
          have hmapx : ∀ a, a ∈ xs1.map (fun z => z.1) ↔
              a ∈ (x :: rest.take k).map (fun z => z.1) := fun a => (hperm3.map _).mem_iff
          have hmapy : ∀ a, a ∈ ys1.map (fun z => z.1) ↔
              a ∈ (rest.drop k).map (fun z => z.1) := fun a => (hperm4.map _).mem_iff
          have hcx4 : cll_circ mem4 xs1 := by
            refine cll_nodes_congr _ _ _ _ hcirc3 ?_
            intro a ha
            exact hframe4 a (fun hm => hdisj a ((hmapx a).mp ha) hm)
          -- the merge
          have hperm5 : (xs1 ++ ys1).Perm (x :: rest) := by
            rw [hsplit]
            exact hperm3.append hperm4
          obtain ⟨x1, xt1, hx1⟩ : ∃ x1 xt1, xs1 = x1 :: xt1 := by
            cases xs1 with
            | nil => exact absurd rfl hne3
            | cons a b => exact ⟨a, b, rfl⟩
          obtain ⟨y1, yt1, hy1⟩ : ∃ y1 yt1, ys1 = y1 :: yt1 := by
            cases ys1 with
            | nil => exact absurd rfl hne4
            | cons a b => exact ⟨a, b, rfl⟩
          have hlx : xs1.length = k + 1 := by
            rw [hperm3.length_eq]
            simp only [List.length_cons, htake]
          have hly : ys1.length = rest.length - k := by
            rw [hperm4.length_eq, hdrop]
          rw [hx1] at hlx hcx4 hsorted3 he3
          rw [hy1] at hly hcirc4 hsorted4 he4
          rw [hx1, hy1] at hperm5
          obtain ⟨mem5, nodes1, he5, hne5, hperm6, hsorted5, hcirc5, hframe5, hlen5⟩ :=
            cll_merge_spec bytes mem4 x1 xt1 y1 yt1 fuel hcx4 hcirc4
              ((hperm5.map _).nodup_iff.mpr hnd)
              (fun z hz => hrd z (hperm5.subset hz)) hsorted3 hsorted4
              (by rw [hlx]; push_cast; omega) (by rw [hly]; omega)
              (by simp only [List.length_cons] at hlx hly; omega)
          have hsz1 : ((x1 :: xt1).length : Int) = (1 + (rest.length : Int)) / 2 := by
            rw [hlx, hk1]
            push_cast
            rfl
          have hsz2 : ((y1 :: yt1).length : Int) =
              1 + (rest.length : Int) - (1 + (rest.length : Int)) / 2 := by
            rw [hly, hk1]
            omega
          rw [hsz1, hsz2] at he5
          refine ⟨mem5, nodes1, ?_, hne5, hperm6.trans hperm5, hsorted5, hcirc5, ?_, ?_⟩
          · show cll_mergesort bytes (fuel + 1) mem (some x.1) = _
            have hgt : (1 : Int) + (rest.length : Int) > 1 := by omega
            have he3b : cll_mergesort bytes fuel
                ((mem.set xz.1 (some (node_t.mk xz.2 (some x.1)))).set yz.1
                  (some (node_t.mk yz.2 (some y.1)))) (some x.1) =
                some (mem3, some x1.1) := he3
            have he4b : cll_mergesort bytes fuel mem3 (some y.1) = some (mem4, some y1.1) := by
              rw [hyc] at he4
              exact he4
            unfold cll_mergesort
            simp only [hsize, if_pos hgt, hwalk, hxzg, hset1, hlast, hset2, he3b, he4b]
            exact he5
          · intro a ha
            have hax : a ∉ (x :: rest.take k).map (fun z => z.1) := by
              intro hm
              apply ha
              rw [hsplit, List.map_append]
              exact List.mem_append_left _ hm
            have hay : a ∉ (rest.drop k).map (fun z => z.1) := by
              intro hm
              apply ha
              rw [hsplit, List.map_append]
              exact List.mem_append_right _ hm
            have ha5 : a ∉ (x1 :: xt1 ++ y1 :: yt1).map (fun z => z.1) := by
              intro hm
              exact ha ((hperm5.map _).mem_iff.mp hm)
            rw [hframe5 a ha5, hframe4 a hay, hframe3 a hax,
              node_get_set _ yz.1 a _ hyzlt, if_neg, node_get_set mem xz.1 a _ hxzlt, if_neg]
            · intro e
              rw [e] at hax
              exact hax hxzmem
            · intro e
              rw [e] at hay
              exact hay hyzmem
          · rw [hlen5, hlen4, hlen3, List.length_set, List.length_set]

end CllSortSpec
section CllSortClaims

/-- Reading a position of a circular chain through `p_head`; `p_tail` is not
used. -/
theorem cll_return_element_circ (st : Cll.state_t) (addrs : List Nat) (l : List (Option Nat))
    (hsize : st.cll.size = l.length) (hhead : st.cll.p_head = addrs.head?)
    (hseg : Cll.cll_seg st.mem addrs l (addrs.headD 0)) (i : Nat) (hi : i < l.length) :
    Cll.cll_return_element st (i : Int) = some (l.getD i none) := by
  have hlen := cll_seg_length _ _ _ _ hseg
  have hw := cll_insert_walk_seg _ _ _ _ hseg i 0 (by omega)
  cases addrs with
  | nil =>
    simp only [List.length_nil] at hlen
    omega
  | cons a0 rest =>
    have hg0 : (a0 :: rest).getD 0 0 = a0 := rfl
    rw [hg0, Nat.zero_add] at hw
    have hg := cll_seg_get _ _ _ _ hseg i (by omega)
    unfold Cll.cll_return_element Cll.cll_position_checker
    rw [if_neg (by omega), if_pos (by omega)]
    have hc : ¬ ((if 0 = (i : Int) then 0 else (i : Int) - 1) < 0 ∨
        (if 0 = (i : Int) then 0 else (i : Int) - 1) > st.cll.size) := by
      rw [hsize]
      split_ifs <;> omega
    rw [if_neg hc, if_neg (by decide)]
    simp only [hhead, List.head?_cons, Int.toNat_ofNat, cll_return_walk_eq, hw, hg,
      Option.map_some']

theorem cll_zip_fst : ∀ (addrs : List Nat) (l : List (Option Nat)), addrs.length = l.length →
    (addrs.zip l).map (fun x => x.1) = addrs
  | [], [], _ => rfl
  | a :: as, d :: ds, h => by
    simp only [List.zip_cons_cons, List.map_cons]
    rw [cll_zip_fst as ds (by simpa using h)]
  | [], _ :: _, h => by simp at h
  | _ :: _, [], h => by simp at h

theorem cll_zip_snd : ∀ (addrs : List Nat) (l : List (Option Nat)), addrs.length = l.length →
    (addrs.zip l).map (fun x => x.2) = l
  | [], [], _ => rfl
  | a :: as, d :: ds, h => by
    simp only [List.zip_cons_cons, List.map_cons]
    rw [cll_zip_snd as ds (by simpa using h)]
  | [], _ :: _, h => by simp at h
  | _ :: _, [], h => by simp at h

/-- C32: on a non-empty list that holds the elements `l` (no more than the
largest `int`), each a pointer to a byte that can be read, `cll_sort` returns
`SUCCESS` whenever the bound on the steps exceeds the number of elements;
afterwards the positions 0 to n - 1 read a permutation of `l` that is in
non-decreasing order of the first byte, compared as `char` as the code
does, and the size is unchanged. -/
theorem C32_cll_sort (bytes : Nat → Option Int) (st : Cll.state_t) (addrs : List Nat)
    (l : List (Option Nat)) (fuel : Nat) (h : Cll.cll_repr st addrs l) (hne : l ≠ [])
    (hrd : ∀ d ∈ l, ∃ p c, d = some p ∧ bytes p = some c)
    (hn : (l.length : Int) ≤ 2147483647) (hf : l.length < fuel) :
    ∃ (st1 : Cll.state_t) (l1 : List (Option Nat)), Cll.cll_sort bytes fuel st = some (SUCCESS, st1) ∧ l1.Perm l ∧
      l1.Pairwise (fun a b => Cll.cll_key bytes a ≤ Cll.cll_key bytes b) ∧
      (∀ i : Nat, i < l.length → Cll.cll_return_element st1 (i : Int) = some (l1.getD i none)) ∧
      Cll.cll_size st1 = Cll.cll_size st := by
  obtain ⟨hsize, hnd, hhead, _, hseg⟩ := h
  have hlen := cll_seg_length _ _ _ _ hseg
  have hfst := cll_zip_fst addrs l hlen
  have hsnd := cll_zip_snd addrs l hlen
  have hzne : addrs.zip l ≠ [] := by
    intro e
    rw [e] at hsnd
    exact hne hsnd.symm
  have hcirc : Cll.cll_circ st.mem (addrs.zip l) := by
    unfold Cll.cll_circ Cll.cll_nodes
    rw [hfst, hsnd]
    exact hseg
  have hrd2 : Cll.cll_readable bytes (addrs.zip l) := by
    intro x hx
    apply hrd
    rw [← hsnd]
    exact List.mem_map_of_mem _ hx
  obtain ⟨mem1, nodes1, he, hne1, hperm, hsorted, hcirc1, _, _⟩ :=
    cll_mergesort_spec bytes (addrs.zip l).length (addrs.zip l) st.mem fuel rfl hzne
      (by rw [List.length_zip, hlen, Nat.min_self]; exact hf)
      (by rw [List.length_zip, hlen, Nat.min_self]; exact hn) hcirc (by rw [hfst]; exact hnd)
      hrd2
  have hp : st.cll.p_head = (addrs.zip l).head?.map (fun x => x.1) := by
    rw [hhead, ← List.head?_map, hfst]
  have hl1 : (nodes1.map (fun x => x.2)).length = l.length := by
    rw [List.length_map, hperm.length_eq, List.length_zip, hlen, Nat.min_self]
  have hnone : nodes1.head?.map (fun x => x.1) ≠ none := by
    cases nodes1 with
    | nil => exact absurd rfl hne1
    | cons a b => simp
  refine ⟨{ mem := mem1, cll := { st.cll with p_head := nodes1.head?.map (fun x => x.1) } },
    nodes1.map (fun x => x.2), ?_, ?_, ?_, ?_, rfl⟩
  · unfold Cll.cll_sort
    rw [hp, he]
    simp only [if_neg hnone]
  · rw [← hsnd]
    exact hperm.map _
  · rw [List.pairwise_map]
    exact hsorted
  · intro i hi
    have hseg1 : Cll.cll_seg mem1 (nodes1.map (fun x => x.1)) (nodes1.map (fun x => x.2))
        ((nodes1.map (fun x => x.1)).headD 0) := hcirc1
    refine cll_return_element_circ
      { mem := mem1, cll := { st.cll with p_head := nodes1.head?.map (fun x => x.1) } }
      (nodes1.map (fun x => x.1)) (nodes1.map (fun x => x.2)) ?_ ?_ hseg1 i
      (by rw [hl1]; exact hi)
    · show st.cll.size = _
      rw [hsize, hl1]
    · show nodes1.head?.map (fun x => x.1) = _
      rw [List.head?_map]

/-- C32 on the list of the data pointers 1, 2 and 3 whose bytes are 2, 1
and 0: `cll_sort` succeeds within four steps. -/
theorem C32_witness :
    Cll.cll_repr cll_three [0, 1, 2] [some 1, some 2, some 3] ∧
    ∃ (st1 : Cll.state_t) (l1 : List (Option Nat)), Cll.cll_sort cll_three_bytes 4 cll_three = some (SUCCESS, st1) ∧
      l1.Perm [some 1, some 2, some 3] ∧
      l1.Pairwise (fun a b => Cll.cll_key cll_three_bytes a ≤ Cll.cll_key cll_three_bytes b) ∧
      (∀ i : Nat, i < 3 → Cll.cll_return_element st1 (i : Int) = some (l1.getD i none)) ∧
      Cll.cll_size st1 = Cll.cll_size cll_three :=
  ⟨by decide,
    C32_cll_sort cll_three_bytes cll_three [0, 1, 2] [some 1, some 2, some 3] 4 (by decide)
      (by decide)
      (by
        intro d hd
        simp only [List.mem_cons, List.mem_singleton, List.not_mem_nil, or_false] at hd
        rcases hd with e | e | e
        · exact ⟨1, 2, e, rfl⟩
        · exact ⟨2, 1, e, rfl⟩
        · exact ⟨3, 0, e, rfl⟩)
      (by decide) (by decide)⟩

end CllSortClaims

section SysView

theorem view_inv_perm (v : view_t) (L L2 C C2 : List Nat) (hL : L.Perm L2) (hC : C.Perm C2)
    (h : view_inv v L C) : view_inv v L2 C2 := by
  obtain ⟨h0, h1, h2, h3, h4, h5, h6, h7, h8, h9, h10, h11⟩ := h
  refine ⟨h0, h1, ?_, h3, ?_, hL.nodup_iff.mp h5, h6, h7, ?_, ?_, ?_, hC.nodup_iff.mp h11⟩
  · rw [h2, hL.length_eq]
  · intro p hp
    exact h4 p (hL.mem_iff.mpr hp)
  · intro p hp
    obtain ⟨a, b, c⟩ := h8 p (hC.mem_iff.mpr hp)
    exact ⟨hL.mem_iff.mp a, b, c⟩
  · intro r hr
    obtain ⟨a, b⟩ := h9 r hr
    refine ⟨a, fun p hp => ?_⟩
    obtain ⟨c, d⟩ := b p hp
    exact ⟨hC.mem_iff.mp c, d⟩
  · intro p hp hn
    exact h10 p hp (fun hc => hn (hC.mem_iff.mp hc))

theorem list_getD_set {α : Type} (l : List α) (p q : Nat) (a d : α) :
    (l.set p a).getD q d = if q = p ∧ p < l.length then a else l.getD q d := by
  rw [List.getD_eq_getElem?_getD, List.getD_eq_getElem?_getD, List.getElem?_set]
  by_cases h : p = q
  · subst h
    by_cases h2 : p < l.length
    · simp [h2]
    · have h3 : l[p]? = none := List.getElem?_eq_none (by omega)
      simp [h2, h3]
  · have h3 : ¬ q = p := fun e => h e.symm
    simp [h, h3]

theorem list_set_getD_self {α : Type} (l : List α) (p : Nat) (d : α) :
    l.set p (l.getD p d) = l := by
  apply List.ext_getElem?
  intro i
  rw [List.getElem?_set]
  by_cases h : p = i
  · subst h
    by_cases h2 : p < l.length
    · simp [h2, List.getD_eq_getElem?_getD, List.getElem?_eq_getElem h2]
    · have h3 : l[p]? = none := List.getElem?_eq_none (by omega)
      simp [h2, h3]
  · simp [h]

theorem list_countP_set (f : Nat → Bool) :
    ∀ (l : List Nat) (p : Nat) (a : Nat), p < l.length →
      (l.set p a).countP f + (if f (l.getD p 0) then 1 else 0) =
        l.countP f + (if f a then 1 else 0)
  | [], _, _, h => absurd h (Nat.not_lt_zero _)
  | x :: xs, 0, a, _ => by
    simp only [List.set_cons_zero, List.countP_cons, List.getD_cons_zero]
    omega
  | x :: xs, p + 1, a, h => by
    have ih := list_countP_set f xs p a (by simpa using h)
    simp only [List.set_cons_succ, List.countP_cons, List.getD_cons_succ]
    omega

theorem list_map_set {α β : Type} (f : α → β) (l : List α) (p : Nat) (a : α) :
    (l.set p a).map f = (l.map f).set p (f a) := by
  apply List.ext_getElem?
  intro i
  simp only [List.getElem?_map, List.getElem?_set, List.length_map]
  by_cases h : p = i
  · subst h
    by_cases h2 : p < l.length
    · simp [h2]
    · have h3 : l[p]? = none := List.getElem?_eq_none (by omega)
      simp [h2, h3]
  · simp [h]

theorem list_getD_map {α β : Type} (f : α → β) (l : List α) (p : Nat) (d : α) :
    (l.map f).getD p (f d) = f (l.getD p d) := by
  rw [List.getD_eq_getElem?_getD, List.getD_eq_getElem?_getD, List.getElem?_map]
  cases l[p]? <;> rfl

/-- The view of the state after a store through a `user_t` pointer. -/
theorem srv_view_user_put (srv : server_t) (p : Nat) (u : user_t) :
    srv_view (user_put srv p u) =
      { srv_view srv with status := (srv_view srv).status.set p u.login_status,
                          chat_room := (srv_view srv).chat_room.set p u.p_chat_room } := by
  unfold srv_view user_put
  simp only [list_map_set]

/-- The view of the state after a store through a `room_t` pointer. -/
theorem srv_view_room_put (srv : server_t) (p : Nat) (r : room_t) :
    srv_view (room_put srv p r) =
      { srv_view srv with members := (srv_view srv).members.set p r.p_users } := by
  unfold srv_view room_put
  simp only [list_map_set]

theorem srv_view_status (srv : server_t) (p : Nat) :
    (srv_view srv).status_of p = (user_at srv p).login_status :=
  list_getD_map (fun u : user_t => u.login_status) srv.user_mem p user_calloc

theorem srv_view_chat_room (srv : server_t) (p : Nat) :
    (srv_view srv).room_of p = (user_at srv p).p_chat_room :=
  list_getD_map (fun u : user_t => u.p_chat_room) srv.user_mem p user_calloc

theorem srv_view_members (srv : server_t) (r : Nat) :
    (srv_view srv).members_of r = (room_at srv r).p_users :=
  list_getD_map (fun x : room_t => x.p_users) srv.room_mem r room_calloc

end SysView
section SysUsers

theorem list_getD_append_one {α : Type} (l : List α) (q : Nat) (d : α) :
    (l ++ [d]).getD q d = l.getD q d := by
  rw [List.getD_eq_getElem?_getD, List.getD_eq_getElem?_getD]
  by_cases hq : q < l.length
  · rw [List.getElem?_append_left hq]
  · by_cases hq2 : q = l.length
    · subst hq2
      simp
    · have h1 : (l ++ [d])[q]? = none := List.getElem?_eq_none (by simp; omega)
      have h2 : l[q]? = none := List.getElem?_eq_none (by omega)
      rw [h1, h2]

/-- A login keeps the invariant: the user was not logged in and the count
was below `max_client`. -/
theorem view_inv_login (v v2 : view_t) (L C : List Nat) (p : Nat) (h : view_inv v L C)
    (hp : p < v.status.length) (hst : v.status_of p ≠ LOGGED_IN)
    (hlt : v.client_count < v.max_client)
    (e1 : v2.client_count = (v.client_count + 1) % 256) (e2 : v2.max_client = v.max_client)
    (e3 : v2.users_table = v.users_table) (e4 : v2.status = v.status.set p LOGGED_IN)
    (e5 : v2.chat_room = v.chat_room) (e6 : v2.rooms = v.rooms)
    (e7 : v2.members = v.members) : view_inv v2 (p :: L) C := by
  unfold view_inv rooms_ok view_t.status_of view_t.room_of view_t.members_of at h
  obtain ⟨h0, h1, h2, h3, h4, h5, h6, h7, h8, h9, h10, h11⟩ := h
  unfold view_t.status_of at hst
  have hpL : p ∉ L := fun hm => hst (h4 p hm).2
  have hc : (v.client_count + 1) % 256 = v.client_count + 1 := Nat.mod_eq_of_lt (by omega)
  unfold view_inv rooms_ok view_t.status_of view_t.room_of view_t.members_of
  rw [e1, e2, e3, e4, e5, e6, e7, hc, List.length_set]
  refine ⟨h0, ⟨h1.1, by omega⟩, by rw [List.length_cons, h2], ?_, ?_,
    List.nodup_cons.mpr ⟨hpL, h5⟩, h6, h7, ?_, h9, h10, h11⟩
  · have hs := list_countP_set (fun x => x == LOGGED_IN) v.status p LOGGED_IN hp
    have hf : ((fun x => x == LOGGED_IN) (v.status.getD p 0)) = false := by
      simpa using hst
    have hg : ((fun x => x == LOGGED_IN) LOGGED_IN) = true := rfl
    rw [hf, hg] at hs
    simp only [if_true, Bool.false_eq_true, if_false, add_zero] at hs
    rw [hs, h3]
  · intro q hq
    rw [list_getD_set]
    rcases List.mem_cons.mp hq with e | e
    · subst e
      exact ⟨hp, by rw [if_pos ⟨rfl, hp⟩]⟩
    · have hq2 := h4 q e
      refine ⟨hq2.1, ?_⟩
      rw [if_neg]
      · exact hq2.2
      · intro hh
        apply hpL
        rw [← hh.1]
        exact e
  · intro q hq
    obtain ⟨a, b, c⟩ := h8 q hq
    exact ⟨List.mem_cons_of_mem _ a, b, c⟩

/-- A logout keeps the invariant: the user is not chatting. -/
theorem view_inv_logout (v v2 : view_t) (L C : List Nat) (p : Nat)
    (h : view_inv v (p :: L) C) (hpc : p ∉ C)
    (e1 : v2.client_count = (v.client_count + 255) % 256) (e2 : v2.max_client = v.max_client)
    (e3 : v2.users_table = v.users_table) (e4 : v2.status = v.status.set p NOT_LOGGED_IN)
    (e5 : v2.chat_room = v.chat_room) (e6 : v2.rooms = v.rooms)
    (e7 : v2.members = v.members) : view_inv v2 L C := by
  unfold view_inv rooms_ok view_t.status_of view_t.room_of view_t.members_of at h
  obtain ⟨h0, h1, h2, h3, h4, h5, h6, h7, h8, h9, h10, h11⟩ := h
  have hp := (h4 p (List.mem_cons_self _ _)).1
  have hst := (h4 p (List.mem_cons_self _ _)).2
  have hpL : p ∉ L := (List.nodup_cons.mp h5).1
  simp only [List.length_cons] at h2
  have hc : (v.client_count + 255) % 256 = v.client_count - 1 := by omega
  unfold view_inv rooms_ok view_t.status_of view_t.room_of view_t.members_of
  rw [e1, e2, e3, e4, e5, e6, e7, hc, List.length_set]
  refine ⟨h0, ⟨h1.1, by omega⟩, by omega, ?_, ?_, (List.nodup_cons.mp h5).2, h6, h7, ?_, h9,
    h10, h11⟩
  · have hs := list_countP_set (fun x => x == LOGGED_IN) v.status p NOT_LOGGED_IN hp
    have hf : ((fun x => x == LOGGED_IN) (v.status.getD p 0)) = true := by
      simpa using hst
    have hg : ((fun x => x == LOGGED_IN) NOT_LOGGED_IN) = false := rfl
    rw [hf, hg] at hs
    simp only [if_true, Bool.false_eq_true, if_false, add_zero] at hs
    omega
  · intro q hq
    rw [list_getD_set]
    have hq2 := h4 q (List.mem_cons_of_mem _ hq)
    refine ⟨hq2.1, ?_⟩
    rw [if_neg]
    · exact hq2.2
    · intro hh
      apply hpL
      rw [← hh.1]
      exact hq
  · intro q hq
    obtain ⟨a, b, c⟩ := h8 q hq
    refine ⟨?_, b, c⟩
    rcases List.mem_cons.mp a with e | e
    · rw [e] at hq
      exact absurd hq hpc
    · exact e

/-- A new user that is not logged in and has no current room keeps the
invariant, whatever becomes of the user table as long as its entries point
to users. -/
theorem view_inv_new_user (v v2 : view_t) (L C : List Nat) (h : view_inv v L C)
    (ht : ∀ e ∈ h_table_list v2.users_table, e.p_data < v.status.length + 1)
    (e1 : v2.client_count = v.client_count) (e2 : v2.max_client = v.max_client)
    (e4 : v2.status = v.status ++ [NOT_LOGGED_IN])
    (e5 : v2.chat_room = v.chat_room ++ [c_zeros (MAX_ROOM_NAME_LENGTH + 1)])
    (e6 : v2.rooms = v.rooms) (e7 : v2.members = v.members) : view_inv v2 L C := by
  unfold view_inv rooms_ok view_t.status_of view_t.room_of view_t.members_of at h
  obtain ⟨h0, h1, h2, h3, h4, h5, h6, h7, h8, h9, h10, h11⟩ := h
  unfold view_inv rooms_ok view_t.status_of view_t.room_of view_t.members_of
  rw [e1, e2, e4, e5, e6, e7]
  simp only [list_getD_append_one]
  refine ⟨by simp [h0], h1, h2, ?_, ?_, h5, ?_, h7, h8, h9, ?_, h11⟩
  · rw [List.countP_append, h3]
    simp
  · intro q hq
    obtain ⟨a, b⟩ := h4 q hq
    refine ⟨by simp; omega, ?_⟩
    exact b
  · intro e he
    simpa using ht e he
  · intro q hq hn
    simp only [List.length_append, List.length_singleton] at hq
    by_cases hq3 : q < v.status.length
    · exact h10 q hq3 hn
    · rw [List.getD_eq_getElem?_getD, List.getElem?_eq_none (by omega)]
      rfl

/-- A change of the user table that keeps its entries pointing to users
keeps the invariant. -/
theorem view_inv_users_table (v v2 : view_t) (L C : List Nat)
    (h : view_inv v L C) (ht : ∀ e ∈ h_table_list v2.users_table, e.p_data < v.status.length)
    (e1 : v2.client_count = v.client_count) (e2 : v2.max_client = v.max_client)
    (e4 : v2.status = v.status) (e5 : v2.chat_room = v.chat_room)
    (e6 : v2.rooms = v.rooms) (e7 : v2.members = v.members) : view_inv v2 L C := by
  unfold view_inv rooms_ok view_t.status_of view_t.room_of view_t.members_of at h
  obtain ⟨h0, h1, h2, h3, h4, h5, h6, h7, h8, h9, h10, h11⟩ := h
  unfold view_inv rooms_ok view_t.status_of view_t.room_of view_t.members_of
  rw [e1, e2, e4, e5, e6, e7]
  exact ⟨h0, h1, h2, h3, h4, h5, ht, h7, h8, h9, h10, h11⟩

end SysUsers
section SysTable

/-- A lookup that succeeds returns the data of an entry in the slot of the
key. -/
theorem h_table_lookup_slot (t : h_table_t) (k : List Nat) (r : Nat)
    (h : h_table_return_entry t k = some r) :
    ∃ e ∈ h_table_slot t (h_table_index t k),
      c_strncmp_eq k e.p_key KEY_LENGTH = true ∧ e.p_data = r ∧
      h_table_index t k < t.pp_array.length := by
  rw [h_table_return_entry_eq_find] at h
  obtain ⟨e, he, hm, hd⟩ := h_table_find_some _ k r h
  refine ⟨e, he, hm, hd, ?_⟩
  by_contra hlt
  unfold h_table_slot at he
  rw [List.getD_eq_getElem?_getD, List.getElem?_eq_none (by omega)] at he
  simp at he

/-- A lookup that succeeds returns the data of an entry of the table. -/
theorem h_table_lookup_mem (t : h_table_t) (k : List Nat) (r : Nat)
    (h : h_table_return_entry t k = some r) :
    ∃ e ∈ h_table_list t, c_strncmp_eq k e.p_key KEY_LENGTH = true ∧ e.p_data = r := by
  obtain ⟨e, he, hm, hd, hlt⟩ := h_table_lookup_slot t k r h
  exact ⟨e, (mem_h_table_list t e).mpr ⟨_, hlt, he⟩, hm, hd⟩

/-- In a consistent table a lookup that succeeds for any key, zero-padded
or not, finds an entry whose key has the same slot. -/
theorem h_table_lookup_entry (t : h_table_t) (k : List Nat) (r : Nat) (hok : h_table_ok t)
    (h : h_table_return_entry t k = some r) :
    ∃ e ∈ h_table_list t, c_strncmp_eq k e.p_key KEY_LENGTH = true ∧ e.p_data = r ∧
      h_table_index t k = h_table_index t e.p_key := by
  obtain ⟨e, he, hm, hd, hlt⟩ := h_table_lookup_slot t k r h
  exact ⟨e, (mem_h_table_list t e).mpr ⟨_, hlt, he⟩, hm, hd, (hok.2.1 _ hlt e he).symm⟩

/-- In a consistent table the zero-padded keys with the characters of a key
that is found are found as well, with the same data. -/
theorem h_table_lookup_canonical (t : h_table_t) (k k2 : List Nat) (r : Nat)
    (hok : h_table_ok t) (h : h_table_return_entry t k = some r) (hk2 : key_canonical k2)
    (hch : key_chars k2 = key_chars k) : h_table_return_entry t k2 = some r := by
  obtain ⟨e, he, hm, hd⟩ := h_table_lookup_mem t k r h
  rw [h_table_lookup_iff t k2 r hok hk2]
  refine ⟨e, he, ?_, hd⟩
  rw [key_match_iff] at hm ⊢
  rw [hch]
  exact hm

theorem h_table_find_congr (l : List entry_t) (k k2 : List Nat)
    (hch : key_chars k = key_chars k2) : h_table_find l k = h_table_find l k2 := by
  induction l with
  | nil => rfl
  | cons e rest ih =>
    unfold h_table_find
    have hm : c_strncmp_eq k e.p_key KEY_LENGTH = c_strncmp_eq k2 e.p_key KEY_LENGTH := by
      rw [Bool.eq_iff_iff, key_match_iff, key_match_iff, hch]
    rw [hm, ih]

theorem h_table_remove_congr (l : List entry_t) (k k2 : List Nat)
    (hch : key_chars k = key_chars k2) : h_table_remove l k = h_table_remove l k2 := by
  induction l with
  | nil => rfl
  | cons e rest ih =>
    unfold h_table_remove
    have hm : c_strncmp_eq k e.p_key KEY_LENGTH = c_strncmp_eq k2 e.p_key KEY_LENGTH := by
      rw [Bool.eq_iff_iff, key_match_iff, key_match_iff, hch]
    rw [hm, ih]

/-- The removal of a key only depends on its slot and its characters. -/
theorem h_table_destroy_entry_congr (t : h_table_t) (k k2 : List Nat)
    (hidx : h_table_index t k = h_table_index t k2) (hch : key_chars k = key_chars k2) :
    h_table_destroy_entry t k = h_table_destroy_entry t k2 := by
  unfold h_table_destroy_entry
  simp only [hidx]
  cases t.pp_array.getD (h_table_index t k2) none with
  | none => rfl
  | some l =>
    simp only [h_table_find_congr l k k2 hch, h_table_remove_congr l k k2 hch]

/-- The removal of a key that is found, zero-padded or not, from a
consistent table: the data found is returned, the table stays consistent
with one entry less, and what is left are the entries with other
characters. -/
theorem h_table_destroy_entry_found_spec (t : h_table_t) (k : List Nat) (r : Nat)
    (hok : h_table_ok t) (hsz : t.size < 65536) (h : h_table_return_entry t k = some r) :
    (h_table_destroy_entry t k).1 = some r ∧ h_table_ok (h_table_destroy_entry t k).2 ∧
    (h_table_destroy_entry t k).2.capacity = t.capacity ∧
    (h_table_destroy_entry t k).2.size + 1 = t.size ∧
    ∀ x, x ∈ h_table_list (h_table_destroy_entry t k).2 ↔
      x ∈ h_table_list t ∧ c_strncmp_eq k x.p_key KEY_LENGTH = false := by
  obtain ⟨e, he, hm, hd, hidx⟩ := h_table_lookup_entry t k r hok h
  have hch : key_chars k = key_chars e.p_key := (key_match_iff _ _).mp hm
  have hcan := hok.2.2.2.1 e he
  obtain ⟨s1, s2, s3, _, s5⟩ := h_table_destroy_entry_spec t e.p_key hok hcan hsz
  have hp := (h_table_destroy_entry_present t k r h).1
  have hpos : 0 < t.size := by
    rw [hok.2.2.2.2]
    exact List.length_pos_of_mem he
  rw [h_table_destroy_entry_congr t k e.p_key hidx hch]
  refine ⟨?_, s2, s3, ?_, ?_⟩
  · rw [← h_table_destroy_entry_congr t k e.p_key hidx hch, hp]
  · rw [← h_table_destroy_entry_congr t k e.p_key hidx hch, hp]
    show (t.size + 65535) % 65536 + 1 = t.size
    omega
  · intro x
    rw [s5 x]
    have hm2 : c_strncmp_eq e.p_key x.p_key KEY_LENGTH = c_strncmp_eq k x.p_key KEY_LENGTH := by
      rw [Bool.eq_iff_iff, key_match_iff, key_match_iff, hch]
    rw [hm2]

/-- The lookups of zero-padded keys that are found survive the removal of a
key that is found with other data. -/
theorem h_table_lookup_destroy_other (t : h_table_t) (k k2 : List Nat) (r r2 : Nat)
    (hok : h_table_ok t) (hsz : t.size < 65536) (h : h_table_return_entry t k = some r)
    (hk2 : key_canonical k2) (h2 : h_table_return_entry t k2 = some r2) (hne : r2 ≠ r) :
    h_table_return_entry (h_table_destroy_entry t k).2 k2 = some r2 := by
  obtain ⟨_, s2, _, _, s5⟩ := h_table_destroy_entry_found_spec t k r hok hsz h
  obtain ⟨e, he, hm, hd⟩ := h_table_lookup_mem t k r h
  rw [h_table_lookup_iff _ k2 r2 s2 hk2]
  obtain ⟨e2, he2, hm2, hd2⟩ := (h_table_lookup_iff t k2 r2 hok hk2).mp h2
  refine ⟨e2, (s5 e2).mpr ⟨he2, ?_⟩, hm2, hd2⟩
  cases hc : c_strncmp_eq k e2.p_key KEY_LENGTH with
  | false => rfl
  | true =>
    exfalso
    have h3 : h_table_return_entry t k2 = some r := by
      refine h_table_lookup_canonical t k k2 r hok h hk2 ?_
      rw [(key_match_iff _ _).mp hm2, (key_match_iff _ _).mp hc]
    rw [h2] at h3
    exact hne (Option.some.inj h3)

end SysTable
section SysRooms

/-- An insertion into a consistent table of moderate capacity: the table
stays consistent, grows by the new entry exactly when `SUCCESS` is returned,
and every zero-padded key that was found is found as before. -/
theorem h_table_new_entry_keeps (rand : Nat → Nat → Nat) (t : h_table_t) (m : Nat)
    (k : List Nat) (hok : h_table_ok t) (hcap : t.capacity < 23170)
    (hsz : t.size ≤ t.capacity) (hk : key_canonical k) :
    h_table_ok (h_table_new_entry rand t m k).2 ∧
    (h_table_new_entry rand t m k).2.size ≤ (h_table_new_entry rand t m k).2.capacity ∧
    (h_table_new_entry rand t m k).2.capacity =
      (if 4 * t.size < 3 * t.capacity then t.capacity else next_prime rand t.capacity) ∧
    ((h_table_new_entry rand t m k).1 ≠ FAILURE →
      (h_table_new_entry rand t m k).2.size = t.size + 1) ∧
    ((h_table_new_entry rand t m k).1 = FAILURE →
      (h_table_new_entry rand t m k).2.size = t.size) ∧
    (∀ e ∈ h_table_list (h_table_new_entry rand t m k).2,
      e = { p_key := k, p_data := m } ∨ e ∈ h_table_list t) ∧
    (∀ k2 r, key_canonical k2 → h_table_return_entry t k2 = some r →
      h_table_return_entry (h_table_new_entry rand t m k).2 k2 = some r) := by
  obtain ⟨r1, r2, r3, r4, r5, _, _, r8⟩ := h_table_re_hash_spec rand t hok hcap hsz
  obtain ⟨n1, n2, n3, n4, n5⟩ := h_table_new_entry_spec rand t m k hok hk r1 r2 r4 r5 r8
  have hcapeq := h_table_re_hash_capacity rand t hok hcap hsz
  refine ⟨n1, n2, by rw [n3, hcapeq], ?_, ?_, ?_, ?_⟩
  · intro hne
    cases hl : h_table_return_entry t k with
    | none => rw [(n4 hl).2.1, r3]
    | some x =>
      have := (n5 (by rw [hl]; simp)).1
      exact absurd this hne
  · intro he
    cases hl : h_table_return_entry t k with
    | none =>
      have := (n4 hl).1
      rw [he] at this
      exact absurd this (by decide)
    | some x => rw [(n5 (by rw [hl]; simp)).2.1, r3]
  · intro e he
    cases hl : h_table_return_entry t k with
    | none => exact ((n4 hl).2.2 e).mp he
    | some x => exact Or.inr (((n5 (by rw [hl]; simp)).2.2 e).mp he)
  · intro k2 r hk2 hl2
    rw [h_table_lookup_iff _ k2 r n1 hk2]
    obtain ⟨e, he, hm, hd⟩ := (h_table_lookup_iff t k2 r hok hk2).mp hl2
    refine ⟨e, ?_, hm, hd⟩
    cases hl : h_table_return_entry t k with
    | none => exact ((n4 hl).2.2 e).mpr (Or.inr he)
    | some x => exact ((n5 (by rw [hl]; simp)).2.2 e).mpr he

theorem c_str_append_zeros (s : List Nat) (m : Nat) :
    c_str (c_str s ++ List.replicate m 0) = c_str s := by
  unfold c_str
  induction s with
  | nil =>
    cases m with
    | zero => rfl
    | succ m => simp [List.replicate_succ, List.takeWhile_cons]
  | cons a rest ih =>
    by_cases ha : a = 0
    · subst ha
      cases m with
      | zero => simp [List.takeWhile_cons]
      | succ m => simp [List.replicate_succ, List.takeWhile_cons]
    · have hb : (a != 0) = true := by simpa using ha
      simp only [List.takeWhile_cons, hb, if_true, List.cons_append]
      rw [ih]

/-- The current room that a JOIN stores in a user whose current room was
empty: zero-padded, with the characters of the name requested. -/
theorem c_strncpy_room (raw : List Nat) :
    key_canonical (c_strncpy (c_zeros (MAX_ROOM_NAME_LENGTH + 1)) raw (c_strlen raw)) ∧
    key_chars (c_strncpy (c_zeros (MAX_ROOM_NAME_LENGTH + 1)) raw (c_strlen raw)) =
      key_chars raw := by
  rw [c_strncpy_zeros]
  have hs := c_str_append_zeros raw (MAX_ROOM_NAME_LENGTH + 1 - c_strlen raw)
  constructor
  · apply key_canonical_of_zero_filled
    unfold c_zero_filled
    have hl : c_strlen (c_str raw ++ List.replicate (MAX_ROOM_NAME_LENGTH + 1 - c_strlen raw) 0) =
        (c_str raw).length := by
      unfold c_strlen at hs ⊢
      rw [hs]
    rw [hl, List.drop_left]
    simp
  · unfold key_chars
    rw [c_str_take, c_str_take, hs]

end SysRooms
section SysRoomSteps

/-- A JOIN keeps the invariant: the user is logged in and not chatting, and
the room requested is found. -/
theorem view_inv_join (v v2 : view_t) (L C : List Nat) (p r : Nat) (raw : List Nat)
    (h : view_inv v L C) (hpL : p ∈ L) (hpC : p ∉ C)
    (hl : h_table_return_entry v.rooms.p_rooms_table raw = some r)
    (e1 : v2.client_count = v.client_count) (e2 : v2.max_client = v.max_client)
    (e3 : v2.users_table = v.users_table) (e4 : v2.status = v.status)
    (e5 : v2.chat_room = v.chat_room.set p (c_strncpy (v.room_of p) raw (c_strlen raw)))
    (e6 : v2.rooms = v.rooms) (e7 : v2.members = v.members.set r (v.members_of r ++ [p])) :
    view_inv v2 L (p :: C) := by
  unfold view_inv rooms_ok at h
  obtain ⟨h0, h1, h2, h3, h4, h5, h6, h7, h8, h9, h10, h11⟩ := h
  have hp : p < v.status.length := (h4 p hpL).1
  have hz : v.room_of p = c_zeros (MAX_ROOM_NAME_LENGTH + 1) := h10 p hp hpC
  obtain ⟨hcan, hch⟩ := c_strncpy_room raw
  have hl2 := h_table_lookup_canonical v.rooms.p_rooms_table raw _ r h7.1 hl hcan hch
  obtain ⟨e0, he0, _, hd0⟩ := h_table_lookup_mem _ raw r hl
  have hr : r < v.members.length := by
    rw [← hd0]
    exact h7.2.2.2.2.2.2 e0 he0
  have hpr : p ∉ v.members_of r := fun hm => hpC ((h9 r hr).2 p hm).1
  rw [hz] at e5
  have hroom : ∀ q, v2.room_of q =
      if q = p then c_strncpy (c_zeros (MAX_ROOM_NAME_LENGTH + 1)) raw (c_strlen raw)
      else v.room_of q := by
    intro q
    unfold view_t.room_of
    rw [e5, list_getD_set]
    by_cases hq : q = p
    · rw [if_pos ⟨hq, by rw [h0]; exact hp⟩, if_pos hq]
    · rw [if_neg (fun hh => hq hh.1), if_neg hq]
  have hmem : ∀ r2, v2.members_of r2 =
      if r2 = r then v.members_of r ++ [p] else v.members_of r2 := by
    intro r2
    unfold view_t.members_of
    rw [e7, list_getD_set]
    by_cases hq : r2 = r
    · rw [if_pos ⟨hq, hr⟩, if_pos hq]
      rfl
    · rw [if_neg (fun hh => hq hh.1), if_neg hq]
  unfold view_inv rooms_ok
  have hst : v2.status_of = v.status_of := by
    funext q
    unfold view_t.status_of
    rw [e4]
  rw [hst, e1, e2, e3, e4, e6]
  refine ⟨by rw [e5, List.length_set]; exact h0, h1, h2, h3, h4, h5, h6, ?_, ?_, ?_, ?_,
    List.nodup_cons.mpr ⟨hpC, h11⟩⟩
  · refine ⟨h7.1, h7.2.1, h7.2.2.1, h7.2.2.2.1, h7.2.2.2.2.1, h7.2.2.2.2.2.1, ?_⟩
    intro e he
    rw [e7, List.length_set]
    exact h7.2.2.2.2.2.2 e he
  · intro q hq
    rw [hroom q]
    rcases List.mem_cons.mp hq with e | e
    · subst e
      rw [if_pos rfl]
      refine ⟨hpL, hcan, r, hl2, ?_⟩
      rw [hmem r, if_pos rfl]
      simp
    · have hqp : q ≠ p := fun hh => hpC (hh ▸ e)
      rw [if_neg hqp]
      obtain ⟨a, b, r2, c, d⟩ := h8 q e
      refine ⟨a, b, r2, c, ?_⟩
      rw [hmem r2]
      by_cases hr2 : r2 = r
      · rw [if_pos hr2]
        rw [hr2] at d
        exact List.mem_append_left _ d
      · rw [if_neg hr2]
        exact d
  · intro r2 hr2
    have hr2b : r2 < v.members.length := by
      rw [e7, List.length_set] at hr2
      exact hr2
    obtain ⟨a, b⟩ := h9 r2 hr2b
    rw [hmem r2]
    by_cases hrr : r2 = r
    · subst hrr
      rw [if_pos rfl]
      refine ⟨?_, ?_⟩
      · rw [List.nodup_append]
        refine ⟨a, List.nodup_singleton p, ?_⟩
        intro x hx hx2
        rw [List.mem_singleton] at hx2
        rw [hx2] at hx
        exact hpr hx
      · intro q hq
        rw [hroom q]
        rcases List.mem_append.mp hq with e | e
        · have hqC := (b q e).1
          have hqp : q ≠ p := fun hh => hpC (hh ▸ hqC)
          rw [if_neg hqp]
          exact ⟨List.mem_cons_of_mem _ hqC, (b q e).2⟩
        · rw [List.mem_singleton] at e
          subst e
          rw [if_pos rfl]
          exact ⟨List.mem_cons_self _ _, hl2⟩
    · rw [if_neg hrr]
      refine ⟨a, ?_⟩
      intro q hq
      have hqC := (b q hq).1
      have hqp : q ≠ p := fun hh => hpC (hh ▸ hqC)
      rw [hroom q, if_neg hqp]
      exact ⟨List.mem_cons_of_mem _ hqC, (b q hq).2⟩
  · intro q hq hn
    have hqp : q ≠ p := fun hh => hn (hh ▸ List.mem_cons_self _ _)
    rw [hroom q, if_neg hqp]
    exact h10 q hq (fun hc => hn (List.mem_cons_of_mem _ hc))

/-- A LEAVE keeps the invariant: the user is taken out of the room that the
current room name resolves to. -/
theorem view_inv_leave (v v2 : view_t) (L C : List Nat) (p r : Nat)
    (h : view_inv v L (p :: C))
    (hl : h_table_return_entry v.rooms.p_rooms_table (v.room_of p) = some r)
    (e1 : v2.client_count = v.client_count) (e2 : v2.max_client = v.max_client)
    (e3 : v2.users_table = v.users_table) (e4 : v2.status = v.status)
    (e5 : v2.chat_room = v.chat_room.set p (c_zeros (MAX_ROOM_NAME_LENGTH + 1)))
    (e6 : v2.rooms = v.rooms) (e7 : v2.members = v.members.set r ((v.members_of r).erase p)) :
    view_inv v2 L C := by
  unfold view_inv rooms_ok at h
  obtain ⟨h0, h1, h2, h3, h4, h5, h6, h7, h8, h9, h10, h11⟩ := h
  obtain ⟨hpL, _, r0, hl0, hpm⟩ := h8 p (List.mem_cons_self _ _)
  have hrr0 : r0 = r := by
    rw [hl] at hl0
    exact (Option.some.inj hl0).symm
  rw [hrr0] at hpm
  have hp : p < v.status.length := (h4 p hpL).1
  have hpC : p ∉ C := (List.nodup_cons.mp h11).1
  obtain ⟨e0, he0, _, hd0⟩ := h_table_lookup_mem _ _ r hl
  have hr : r < v.members.length := by
    rw [← hd0]
    exact h7.2.2.2.2.2.2 e0 he0
  have hroom : ∀ q, v2.room_of q =
      if q = p then c_zeros (MAX_ROOM_NAME_LENGTH + 1) else v.room_of q := by
    intro q
    unfold view_t.room_of
    rw [e5, list_getD_set]
    by_cases hq : q = p
    · rw [if_pos ⟨hq, by rw [h0]; exact hp⟩, if_pos hq]
    · rw [if_neg (fun hh => hq hh.1), if_neg hq]
  have hmem : ∀ r2, v2.members_of r2 =
      if r2 = r then (v.members_of r).erase p else v.members_of r2 := by
    intro r2
    unfold view_t.members_of
    rw [e7, list_getD_set]
    by_cases hq : r2 = r
    · rw [if_pos ⟨hq, hr⟩, if_pos hq]
      rfl
    · rw [if_neg (fun hh => hq hh.1), if_neg hq]
  unfold view_inv rooms_ok
  have hst : v2.status_of = v.status_of := by
    funext q
    unfold view_t.status_of
    rw [e4]
  rw [hst, e1, e2, e3, e4, e6]
  refine ⟨by rw [e5, List.length_set]; exact h0, h1, h2, h3, h4, h5, h6, ?_, ?_, ?_, ?_,
    (List.nodup_cons.mp h11).2⟩
  · refine ⟨h7.1, h7.2.1, h7.2.2.1, h7.2.2.2.1, h7.2.2.2.2.1, h7.2.2.2.2.2.1, ?_⟩
    intro e he
    rw [e7, List.length_set]
    exact h7.2.2.2.2.2.2 e he
  · intro q hq
    have hqp : q ≠ p := fun hh => hpC (hh ▸ hq)
    rw [hroom q, if_neg hqp]
    obtain ⟨a, b, r2, c, d⟩ := h8 q (List.mem_cons_of_mem _ hq)
    refine ⟨a, b, r2, c, ?_⟩
    rw [hmem r2]
    by_cases hr2 : r2 = r
    · rw [if_pos hr2]
      rw [hr2] at d
      exact (List.mem_erase_of_ne hqp).mpr d
    · rw [if_neg hr2]
      exact d
  · intro r2 hr2
    have hr2b : r2 < v.members.length := by
      rw [e7, List.length_set] at hr2
      exact hr2
    obtain ⟨a, b⟩ := h9 r2 hr2b
    rw [hmem r2]
    by_cases hrr : r2 = r
    · subst hrr
      rw [if_pos rfl]
      refine ⟨a.erase p, ?_⟩
      intro q hq
      have hq2 := (List.Nodup.mem_erase_iff a).mp hq
      have hqp : q ≠ p := hq2.1
      rw [hroom q, if_neg hqp]
      obtain ⟨c, d⟩ := b q hq2.2
      refine ⟨?_, d⟩
      rcases List.mem_cons.mp c with e | e
      · exact absurd e hqp
      · exact e
    · rw [if_neg hrr]
      refine ⟨a, ?_⟩
      intro q hq
      obtain ⟨c, d⟩ := b q hq
      have hqp : q ≠ p := by
        intro hh
        rw [hh, hl] at d
        exact hrr (Option.some.inj d).symm
      rw [hroom q, if_neg hqp]
      refine ⟨?_, d⟩
      rcases List.mem_cons.mp c with e | e
      · exact absurd e hqp
      · exact e
  · intro q hq hn
    rw [hroom q]
    by_cases hqp : q = p
    · rw [if_pos hqp]
    · rw [if_neg hqp]
      apply h10 q hq
      intro hc
      rcases List.mem_cons.mp hc with e | e
      · exact hqp e
      · exact hn e

end SysRoomSteps
section SysRoomTable

/-- A room CREATE that reaches the insertion keeps the invariant, whether
the insertion succeeds or not: `room_count` is below `max_rooms`, the key is
zero-padded and the new room has no members. -/
theorem view_inv_create (rand : Nat → Nat → Nat) (v v2 : view_t) (L C : List Nat)
    (k : List Nat) (h : view_inv v L C) (hk : key_canonical k)
    (hrc : v.rooms.room_count < v.rooms.max_rooms)
    (e1 : v2.client_count = v.client_count) (e2 : v2.max_client = v.max_client)
    (e3 : v2.users_table = v.users_table) (e4 : v2.status = v.status)
    (e5 : v2.chat_room = v.chat_room)
    (e6 : v2.rooms.p_rooms_table =
      (h_table_new_entry rand v.rooms.p_rooms_table v.members.length k).2)
    (e6m : v2.rooms.max_rooms = v.rooms.max_rooms)
    (e6c : v2.rooms.room_count =
      if (h_table_new_entry rand v.rooms.p_rooms_table v.members.length k).1 = FAILURE
      then v.rooms.room_count else (v.rooms.room_count + 1) % 256)
    (e7 : v2.members = v.members ++ [[]]) : view_inv v2 L C := by
  unfold view_inv rooms_ok at h
  obtain ⟨h0, h1, h2, h3, h4, h5, h6, h7, h8, h9, h10, h11⟩ := h
  obtain ⟨t1, t2, t3, t4, t5, t6, t7⟩ := h7
  obtain ⟨n1, n2, n3, n4, n5, n6, n7⟩ :=
    h_table_new_entry_keeps rand v.rooms.p_rooms_table v.members.length k t1 (by omega) t3 hk
  have hmem : ∀ r, v2.members_of r = v.members_of r := by
    intro r
    unfold view_t.members_of
    rw [e7]
    exact list_getD_append_one v.members r []
  have hroom : v2.room_of = v.room_of := by
    funext q
    unfold view_t.room_of
    rw [e5]
  have hst : v2.status_of = v.status_of := by
    funext q
    unfold view_t.status_of
    rw [e4]
  unfold view_inv rooms_ok
  rw [hst, hroom, e1, e2, e3, e4, e5, e6, e6m, e6c]
  refine ⟨h0, h1, h2, h3, h4, h5, h6, ⟨n1, ?_, n2, ?_, ?_, t6, ?_⟩, ?_, ?_, h10, h11⟩
  · rw [n3]
    split
    · exact t2
    · have := next_prime_lt_double rand v.rooms.p_rooms_table.capacity
      omega
  · by_cases hf : (h_table_new_entry rand v.rooms.p_rooms_table v.members.length k).1 = FAILURE
    · rw [if_pos hf, n5 hf]
      exact t4
    · rw [if_neg hf, n4 hf, Nat.mod_eq_of_lt (by omega)]
      omega
  · split
    · exact t5
    · rw [Nat.mod_eq_of_lt (by omega)]
      omega
  · intro e he
    rw [e7, List.length_append, List.length_singleton]
    rcases n6 e he with hh | hh
    · rw [hh]
      exact Nat.lt_succ_self _
    · exact Nat.lt_succ_of_lt (t7 e hh)
  · intro q hq
    obtain ⟨a, b, r, c, d⟩ := h8 q hq
    refine ⟨a, b, r, n7 _ r b c, ?_⟩
    rw [hmem r]
    exact d
  · intro r hr
    rw [e7, List.length_append, List.length_singleton] at hr
    rw [hmem r]
    by_cases hr2 : r < v.members.length
    · obtain ⟨a, b⟩ := h9 r hr2
      refine ⟨a, fun q hq => ?_⟩
      obtain ⟨c, d⟩ := b q hq
      obtain ⟨_, hcan, _⟩ := h8 q c
      exact ⟨c, n7 _ r hcan d⟩
    · have hnil : v.members_of r = [] := by
        unfold view_t.members_of
        rw [List.getD_eq_getElem?_getD, List.getElem?_eq_none (by omega)]
        rfl
      rw [hnil]
      exact ⟨List.nodup_nil, fun q hq => absurd hq (List.not_mem_nil q)⟩

/-- A room DELETE that reaches the removal keeps the invariant: the room
found has no members; `room_count` is decremented or, when the handler fails
after the removal, left as it is. -/
theorem view_inv_delete (v v2 : view_t) (L C : List Nat) (raw : List Nat) (r0 : Nat)
    (h : view_inv v L C)
    (hl : h_table_return_entry v.rooms.p_rooms_table raw = some r0)
    (hempty : v.members_of r0 = [])
    (e1 : v2.client_count = v.client_count) (e2 : v2.max_client = v.max_client)
    (e3 : v2.users_table = v.users_table) (e4 : v2.status = v.status)
    (e5 : v2.chat_room = v.chat_room)
    (e6 : v2.rooms.p_rooms_table = (h_table_destroy_entry v.rooms.p_rooms_table raw).2)
    (e6m : v2.rooms.max_rooms = v.rooms.max_rooms)
    (e6c : v2.rooms.room_count = (v.rooms.room_count + 255) % 256 ∨
      v2.rooms.room_count = v.rooms.room_count)
    (e7 : v2.members = v.members) : view_inv v2 L C := by
  unfold view_inv rooms_ok at h
  obtain ⟨h0, h1, h2, h3, h4, h5, h6, h7, h8, h9, h10, h11⟩ := h
  obtain ⟨t1, t2, t3, t4, t5, t6, t7⟩ := h7
  obtain ⟨d1, d2, d3, d4, d5⟩ :=
    h_table_destroy_entry_found_spec v.rooms.p_rooms_table raw r0 t1 (by omega) hl
  have hkeep : ∀ q r, q ∈ v.members_of r → key_canonical (v.room_of q) →
      h_table_return_entry v.rooms.p_rooms_table (v.room_of q) = some r →
      h_table_return_entry (h_table_destroy_entry v.rooms.p_rooms_table raw).2 (v.room_of q) =
        some r := by
    intro q r hq hcan hlq
    refine h_table_lookup_destroy_other _ raw _ r0 r t1 (by omega) hl hcan hlq ?_
    intro e
    rw [e, hempty] at hq
    exact absurd hq (List.not_mem_nil q)
  have hmem : v2.members_of = v.members_of := by
    funext r
    unfold view_t.members_of
    rw [e7]
  have hroom : v2.room_of = v.room_of := by
    funext q
    unfold view_t.room_of
    rw [e5]
  have hst : v2.status_of = v.status_of := by
    funext q
    unfold view_t.status_of
    rw [e4]
  unfold view_inv rooms_ok
  rw [hst, hroom, hmem, e1, e2, e3, e4, e5, e6, e6m, e7]
  refine ⟨h0, h1, h2, h3, h4, h5, h6, ⟨d2, by rw [d3]; exact t2, by rw [d3]; omega, ?_, ?_, t6,
    ?_⟩, ?_, ?_, h10, h11⟩
  · rcases e6c with e | e
    · rw [e]
      omega
    · rw [e]
      omega
  · rcases e6c with e | e
    · rw [e]
      omega
    · rw [e]
      exact t5
  · intro e he
    exact t7 e ((d5 e).mp he).1
  · intro q hq
    obtain ⟨a, b, r, c, d⟩ := h8 q hq
    exact ⟨a, b, r, hkeep q r d b c, d⟩
  · intro r hr
    obtain ⟨a, b⟩ := h9 r hr
    refine ⟨a, fun q hq => ?_⟩
    obtain ⟨c, d⟩ := b q hq
    obtain ⟨_, hcan, _⟩ := h8 q c
    exact ⟨c, hkeep q r hq hcan d⟩

/-- A state that the invariants read in the same way keeps the invariant. -/
theorem view_inv_same (v v2 : view_t) (L C : List Nat) (h : view_inv v L C)
    (e1 : v2.client_count = v.client_count) (e2 : v2.max_client = v.max_client)
    (e3 : v2.users_table = v.users_table) (e4 : v2.status = v.status)
    (e5 : v2.chat_room = v.chat_room) (e6 : v2.rooms = v.rooms)
    (e7 : v2.members = v.members) : view_inv v2 L C := by
  have : v2 = v := by
    cases v
    cases v2
    simp only at e1 e2 e3 e4 e5 e6 e7
    subst e1 e2 e3 e4 e5 e6 e7
    rfl
  rw [this]
  exact h

end SysRoomTable
section SysTableAny

theorem h_table_slot_subset (t : h_table_t) (i : Nat) (e : entry_t)
    (he : e ∈ (t.pp_array.getD i none).getD []) : e ∈ h_table_list t := by
  by_cases hi : i < t.pp_array.length
  · exact (mem_h_table_list t e).mpr ⟨i, hi, he⟩
  · rw [List.getD_eq_getElem?_getD, List.getElem?_eq_none (by omega)] at he
    simp at he

/-- The entries of a table after one slot is replaced. -/
theorem h_table_list_mem_set (t : h_table_t) (i n : Nat) (v : Option (List entry_t))
    (e : entry_t) (he : e ∈ h_table_list { t with pp_array := t.pp_array.set i v, size := n }) :
    e ∈ v.getD [] ∨ e ∈ h_table_list t := by
  by_cases hi : i < t.pp_array.length
  · obtain ⟨h1, h2⟩ := h_table_list_set t i n v hi
    rw [h1] at he
    rw [h2]
    simp only [List.mem_append] at he ⊢
    rcases he with (he | he) | he
    · exact Or.inr (Or.inl (Or.inl he))
    · exact Or.inl he
    · exact Or.inr (Or.inr he)
  · right
    have hs : t.pp_array.set i v = t.pp_array := List.set_eq_of_length_le (by omega)
    rw [hs] at he
    exact he

/-- Without any assumption on the table: `h_table_new_entry_add` adds at
most the new entry. -/
theorem h_table_new_entry_add_mem (t : h_table_t) (e0 e : entry_t)
    (he : e ∈ h_table_list (h_table_new_entry_add t e0).2) : e = e0 ∨ e ∈ h_table_list t := by
  rcases h_table_new_entry_add_cases t e0 with ⟨_, h⟩ | ⟨_, h⟩
  · rw [h] at he
    rcases h_table_list_mem_set t _ _ _ e he with h1 | h1
    · simp only [Option.getD_some, List.mem_append, List.mem_singleton] at h1
      rcases h1 with h1 | h1
      · exact Or.inr (h_table_slot_subset t _ e h1)
      · exact Or.inl h1
    · exact Or.inr h1
  · rw [h] at he
    exact Or.inr he

theorem h_table_list_to_table_mem (l : List entry_t) :
    ∀ (t : h_table_t) (e : entry_t), e ∈ h_table_list (h_table_list_to_table t l).2 →
      e ∈ l ∨ e ∈ h_table_list t := by
  induction l with
  | nil =>
    intro t e he
    exact Or.inr he
  | cons a rest ih =>
    intro t e he
    unfold h_table_list_to_table at he
    simp only at he
    split at he
    · rcases h_table_new_entry_add_mem t a e he with h1 | h1
      · exact Or.inl (by rw [h1]; exact List.mem_cons_self _ _)
      · exact Or.inr h1
    · rcases ih _ e he with h1 | h1
      · exact Or.inl (List.mem_cons_of_mem _ h1)
      · rcases h_table_new_entry_add_mem t a e h1 with h2 | h2
        · exact Or.inl (by rw [h2]; exact List.mem_cons_self _ _)
        · exact Or.inr h2

theorem h_table_list_all_none (s c : Nat) (a : List (Option (List entry_t))) :
    h_table_list { size := s, capacity := c, pp_array := a.map (fun _ => none) } = [] := by
  unfold h_table_list
  simp only [List.map_map]
  induction a with
  | nil => rfl
  | cons x rest ih =>
    simp only [List.map_cons, List.flatten_cons, Function.comp_apply, Option.getD_none,
      List.nil_append]
    exact ih

/-- Without any assumption on the table: `h_table_re_hash` adds no entry. -/
theorem h_table_re_hash_mem (rand : Nat → Nat → Nat) (t : h_table_t) (e : entry_t)
    (he : e ∈ h_table_list (h_table_re_hash rand t).2) : e ∈ h_table_list t := by
  unfold h_table_re_hash at he
  split at he
  · exact he
  · split at he
    · exact he
    · split at he
      · exact he
      · simp only at he
        split at he
        · rw [h_table_list_all_none] at he
          exact absurd he (List.not_mem_nil e)
        · split at he
          · rw [h_table_list_all_none] at he
            exact absurd he (List.not_mem_nil e)
          · rcases h_table_list_to_table_mem _ _ e he with h1 | h1
            · exact h1
            · rw [h_table_list_replicate] at h1
              exact absurd h1 (List.not_mem_nil e)

/-- Without any assumption on the table: `h_table_new_entry` adds at most
the new entry. -/
theorem h_table_new_entry_mem (rand : Nat → Nat → Nat) (t : h_table_t) (p : Nat)
    (k : List Nat) (e : entry_t) (he : e ∈ h_table_list (h_table_new_entry rand t p k).2) :
    e = { p_key := k, p_data := p } ∨ e ∈ h_table_list t := by
  unfold h_table_new_entry at he
  simp only at he
  split at he
  · exact Or.inr (h_table_re_hash_mem rand t e he)
  · rcases h_table_new_entry_add_mem _ _ e he with h1 | h1
    · exact Or.inl h1
    · exact Or.inr (h_table_re_hash_mem rand t e h1)

theorem h_table_remove_subset (l : List entry_t) (k : List Nat) (e : entry_t)
    (he : e ∈ h_table_remove l k) : e ∈ l :=
  (h_table_remove_sublist l k).subset he

/-- Without any assumption on the table: `h_table_destroy_entry` adds no
entry. -/
theorem h_table_destroy_entry_mem (t : h_table_t) (k : List Nat) (e : entry_t)
    (he : e ∈ h_table_list (h_table_destroy_entry t k).2) : e ∈ h_table_list t := by
  unfold h_table_destroy_entry at he
  simp only at he
  split at he
  · exact he
  · rename_i l hl
    split at he
    · exact he
    · rcases h_table_list_mem_set t _ _ _ e he with h1 | h1
      · have hsub : e ∈ h_table_remove l k := by
          split at h1
          · simp at h1
          · simpa using h1
        have h2 := h_table_remove_subset l k e hsub
        apply h_table_slot_subset t (h_table_index t k) e
        rw [hl]
        exact h2
      · exact h1

end SysTableAny
section SysUserSteps

theorem list_map_set_same {α β : Type} (f : α → β) (l : List α) (p : Nat) (a d : α)
    (h : f a = f (l.getD p d)) : (l.set p a).map f = l.map f := by
  have h2 := list_getD_map f l p d
  rw [list_map_set, h, ← h2]
  exact list_set_getD_self _ _ _

/-- A user the users table returns exists, when all entries of the table
point to users that exist. -/
theorem view_inv_user_lt (v : view_t) (L C : List Nat) (k : List Nat) (p : Nat)
    (h : view_inv v L C) (hl : h_table_return_entry v.users_table k = some p) :
    p < v.status.length := by
  obtain ⟨e, he, _, hd⟩ := h_table_lookup_mem _ _ _ hl
  have := h.2.2.2.2.2.2.1 e he
  omega

/-- `cr_users_register` keeps the invariant: the new user is logged out and
in no room. -/
theorem cr_users_register_inv (env : env_t) (srv : server_t) (p_ssl : Nat)
    (p_buffer : List Nat) (L C : List Nat) (h : view_inv (srv_view srv) L C) :
    view_inv (srv_view (cr_users_register env srv p_ssl p_buffer).srv) L C := by
  have hreg : ∀ name pass,
      view_inv (srv_view (cr_users_reg_helper env srv p_ssl name pass).srv) L C := by
    intro name pass
    have hsrv : ∀ x, view_inv (srv_view (cr_users_add_user_file
        (cr_users_add_user_table env srv name pass).2 x)) L C := by
      intro x
      apply view_inv_new_user (srv_view srv) _ L C h
      · intro e he
        have he2 : e ∈ h_table_list (h_table_new_entry env.rand srv.users.p_users_table
            srv.user_mem.length (cr_users_new_user name pass).p_username).2 := by
          unfold cr_users_add_user_table cr_users_add_user_file srv_view at he
          simp only [] at he
          split at he <;> exact he
        rcases h_table_new_entry_mem _ _ _ _ e he2 with h1 | h1
        · rw [h1]
          simp [srv_view]
        · have := h.2.2.2.2.2.2.1 e h1
          omega
      all_goals
        unfold cr_users_add_user_table cr_users_add_user_file srv_view
        simp only []
        split <;> simp [cr_users_new_user, user_calloc]
    unfold cr_users_reg_helper
    simp only []
    split
    · exact hsrv _
    · split <;> exact hsrv _
  unfold cr_users_register
  simp only []
  split
  · exact h
  · split
    · exact h
    · split
      · exact h
      · exact hreg _ _

/-- `cr_users_login` either leaves the shared state and the session as they
are, or logs a user in who was logged out. -/
theorem cr_users_login_inv (env : env_t) (srv : server_t) (sess : session_t)
    (p_buffer : List Nat) (L C : List Nat) (h : view_inv (srv_view srv) L C) :
    ((cr_users_login env srv sess p_buffer).sess = sess ∧
      (cr_users_login env srv sess p_buffer).srv = srv) ∨
    ∃ p, (cr_users_login env srv sess p_buffer).sess =
        { sess with pp_user := some p, logged_in := LOGGED_IN } ∧
      view_inv (srv_view (cr_users_login env srv sess p_buffer).srv) (p :: L) C := by
  have hh : ∀ name pass,
      ((cr_users_login_helper env srv sess name pass).sess = sess ∧
        (cr_users_login_helper env srv sess name pass).srv = srv) ∨
      ∃ p, (cr_users_login_helper env srv sess name pass).sess =
          { sess with pp_user := some p, logged_in := LOGGED_IN } ∧
        view_inv (srv_view (cr_users_login_helper env srv sess name pass).srv) (p :: L) C := by
    intro name pass
    unfold cr_users_login_helper
    simp only []
    by_cases hc : srv.users.client_count ≥ srv.users.max_client
    · rw [if_pos hc]
      exact Or.inl ⟨rfl, rfl⟩
    · rw [if_neg hc]
      cases hl : h_table_return_entry srv.users.p_users_table name with
      | none => exact Or.inl ⟨rfl, rfl⟩
      | some p =>
        simp only []
        by_cases hst : (user_at srv p).login_status = LOGGED_IN
        · rw [if_pos hst]
          exact Or.inl ⟨rfl, rfl⟩
        · rw [if_neg hst]
          split
          · exact Or.inl ⟨rfl, rfl⟩
          · split
            · exact Or.inl ⟨rfl, rfl⟩
            · refine Or.inr ⟨p, rfl, ?_⟩
              have hp : p < (srv_view srv).status.length := view_inv_user_lt _ L C name p h hl
              apply view_inv_login (srv_view srv) _ L C p h hp
              · rw [srv_view_status]
                exact hst
              · show srv.users.client_count < srv.users.max_client
                omega
              · rfl
              · rfl
              · rfl
              · show (srv.user_mem.set p _).map _ = _
                rw [list_map_set]
                rfl
              · show (srv.user_mem.set p _).map _ = _
                exact list_map_set_same _ _ _ _ user_calloc rfl
              · rfl
              · rfl
  unfold cr_users_login
  simp only []
  split
  · exact hh _ _
  · exact hh _ _

/-- A store to a user that keeps the login status and the current room
keeps the view. -/
theorem srv_view_user_put_same (srv : server_t) (p : Nat) (u : user_t)
    (h1 : u.login_status = (user_at srv p).login_status)
    (h2 : u.p_chat_room = (user_at srv p).p_chat_room) :
    srv_view (user_put srv p u) = srv_view srv := by
  unfold srv_view user_put
  simp only []
  rw [list_map_set_same (fun u : user_t => u.login_status) _ _ _ user_calloc h1,
    list_map_set_same (fun u : user_t => u.p_chat_room) _ _ _ user_calloc h2]

/-- `cr_users_admin` keeps the view. -/
theorem cr_users_admin_view (env : env_t) (srv : server_t) (p_ssl : Nat)
    (p_buffer : List Nat) (p_user a : Nat) :
    srv_view (cr_users_admin env srv p_ssl p_buffer p_user a).srv = srv_view srv := by
  have h2 : ∀ name, srv_view (cr_users_admin_helper_2 srv name a).2 = srv_view srv := by
    intro name
    unfold cr_users_admin_helper_2
    split
    · rfl
    · simp only []
      split
      · rfl
      · exact srv_view_user_put_same _ _ _ rfl rfl
  unfold cr_users_admin
  simp only []
  split
  · rfl
  · split
    · rfl
    · unfold cr_users_admin_helper_1
      simp only []
      split
      · exact h2 _
      · split <;> exact h2 _

/-- `cr_users_logout` either fails to send and changes nothing, or logs the
user out. -/
theorem cr_users_logout_inv (env : env_t) (srv : server_t) (sess : session_t)
    (p sm : Nat) (L C : List Nat) (h : view_inv (srv_view srv) (p :: L) C) (hpc : p ∉ C) :
    ((cr_users_logout env srv sess p sm).sess = sess ∧
      (cr_users_logout env srv sess p sm).srv = srv ∧
      (cr_users_logout env srv sess p sm).rc = CONNECTION_FAILURE) ∨
    ((cr_users_logout env srv sess p sm).sess = { sess with logged_in := NOT_LOGGED_IN } ∧
      (cr_users_logout env srv sess p sm).rc = SUCCESS ∧
      view_inv (srv_view (cr_users_logout env srv sess p sm).srv) L C) := by
  unfold cr_users_logout
  simp only []
  generalize ha : (if sm = SEND_IT then
    cr_msg_send_ack env sess.p_ssl_holder ACCOUNT_TYPE LOGOUT_STYPE else (SUCCESS, [])) = a
  have hrc : a.1 ≠ FAILURE := by
    rw [← ha]
    unfold cr_msg_send_ack
    split <;> try split
    all_goals simp
  by_cases hf : a.1 = FAILURE ∨ a.1 = CONNECTION_FAILURE
  · rw [if_pos hf]
    left
    refine ⟨rfl, rfl, ?_⟩
    rcases hf with hf | hf
    · exact absurd hf hrc
    · exact hf
  · rw [if_neg hf]
    right
    refine ⟨rfl, rfl, ?_⟩
    apply view_inv_logout (srv_view srv) _ L C p h hpc
    · rfl
    · rfl
    · rfl
    · show (srv.user_mem.set p _).map _ = _
      rw [list_map_set]
      rfl
    · show (srv.user_mem.set p _).map _ = _
      exact list_map_set_same _ _ _ _ user_calloc rfl
    · rfl
    · rfl

/-- `cr_users_remove_user` keeps the invariant: it only takes an entry out
of the users table. -/
theorem cr_users_remove_user_inv (env : env_t) (srv : server_t) (p_ssl : Nat)
    (p_buffer : List Nat) (p_user : Nat) (L C : List Nat)
    (h : view_inv (srv_view srv) L C) :
    view_inv (srv_view (cr_users_remove_user env srv p_ssl p_buffer p_user).srv) L C := by
  have ht : ∀ name, view_inv (srv_view (cr_users_remove_file
      (cr_users_remove_table env srv p_ssl name).srv name)) L C := by
    intro name
    have hx : ∀ (s : server_t), (s = srv ∨ s = { srv with users := { srv.users with
        p_users_table := (h_table_destroy_entry srv.users.p_users_table name).2 } }) →
        view_inv (srv_view (cr_users_remove_file s name)) L C := by
      intro s hs
      rcases hs with hs | hs
      · rw [hs]
        exact view_inv_same _ _ L C h rfl rfl rfl rfl rfl rfl rfl
      · rw [hs]
        apply view_inv_users_table (srv_view srv) _ L C h
        · intro e he
          exact h.2.2.2.2.2.2.1 e (h_table_destroy_entry_mem _ _ e he)
        all_goals rfl
    apply hx
    unfold cr_users_remove_table
    split
    · exact Or.inl rfl
    · split
      · exact Or.inl rfl
      · simp only []
        split
        · exact Or.inr rfl
        · exact Or.inr rfl
  unfold cr_users_remove_user
  simp only []
  split
  · exact h
  · split
    · exact h
    · split
      · exact ht _
      · split <;> exact ht _

end SysUserSteps
section SysRoomHandlers

/-- `cr_chats_chat` keeps the view: it writes to the log of the room only. -/
theorem cr_chats_chat_view (env : env_t) (srv : server_t) (p_user : Nat)
    (p_buffer : List Nat) :
    srv_view (cr_chats_chat env srv p_user p_buffer).srv = srv_view srv := by
  unfold cr_chats_chat
  simp only []
  split <;> rfl

/-- `cr_chats_leave` of a chatting user succeeds under the invariant: the
user leaves the room its current room resolves to. -/
theorem cr_chats_leave_inv (env : env_t) (srv : server_t) (sess : session_t)
    (p sm : Nat) (L C : List Nat) (h : view_inv (srv_view srv) L (p :: C)) :
    (cr_chats_leave env srv sess p sm).sess = { sess with chatting := NOT_CHATTING } ∧
    (cr_chats_leave env srv sess p sm).rc ≠ FAILURE ∧
    (sm = DONT_SEND → (cr_chats_leave env srv sess p sm).rc = SUCCESS) ∧
    view_inv (srv_view (cr_chats_leave env srv sess p sm).srv) L C := by
  obtain ⟨_, _, r, hl, hm⟩ := h.2.2.2.2.2.2.2.2.1 p (List.mem_cons_self _ _)
  have hr : r < srv.room_mem.length := by
    by_contra hge
    have h0 : (srv_view srv).members_of r = [] := by
      unfold view_t.members_of srv_view
      simp only []
      rw [List.getD_eq_getElem?_getD, List.getElem?_eq_none (by simpa using hge)]
      rfl
    rw [h0] at hm
    exact absurd hm (List.not_mem_nil p)
  have hl2 : h_table_return_entry srv.rooms.p_rooms_table (user_at srv p).p_chat_room =
      some r := by
    rw [← srv_view_chat_room]
    exact hl
  have hm2 : p ∈ (room_at srv r).p_users := by
    rw [← srv_view_members]
    exact hm
  rw [cr_chats_leave_eq env srv sess p sm r hl2 hr hm2]
  refine ⟨rfl, ?_, ?_, ?_⟩
  · show (if sm = SEND_IT then cr_msg_send_ack env sess.p_ssl_holder CHAT_TYPE LEAVE_STYPE
      else (SUCCESS, [])).1 ≠ FAILURE
    unfold cr_msg_send_ack
    split <;> try split
    all_goals simp
  · intro hsm
    show (if sm = SEND_IT then cr_msg_send_ack env sess.p_ssl_holder CHAT_TYPE LEAVE_STYPE
      else (SUCCESS, [])).1 = SUCCESS
    rw [if_neg (by rw [hsm]; decide)]
  · apply view_inv_leave (srv_view srv) _ L C p r h hl
    · rfl
    · rfl
    · rfl
    · show (srv.user_mem.set p _).map _ = _
      exact list_map_set_same _ _ _ _ user_calloc rfl
    · show (srv.user_mem.set p _).map _ = _
      rw [list_map_set]
      rfl
    · rfl
    · show (srv.room_mem.set r _).map _ = _
      rw [list_map_set, srv_view_members]
      rfl

/-- `cr_rooms_list` leaves the shared state as it is. -/
theorem cr_rooms_list_srv (env : env_t) (srv : server_t) (p_ssl : Nat) :
    (cr_rooms_list env srv p_ssl).srv = srv := by
  unfold cr_rooms_list
  split <;> rfl

/-- `cr_rooms_join` of a logged-in user who is in no room either changes
nothing or adds the user to the room the name resolves to. -/
theorem cr_rooms_join_inv (env : env_t) (srv : server_t) (sess : session_t)
    (p : Nat) (p_buffer : List Nat) (L C : List Nat) (h : view_inv (srv_view srv) L C)
    (hpL : p ∈ L) (hpC : p ∉ C) :
    ((cr_rooms_join env srv sess p p_buffer).sess = sess ∧
      (cr_rooms_join env srv sess p p_buffer).srv = srv) ∨
    ((cr_rooms_join env srv sess p p_buffer).sess = { sess with chatting := CHATTING } ∧
      (cr_rooms_join env srv sess p p_buffer).rc = SUCCESS ∧
      view_inv (srv_view (cr_rooms_join env srv sess p p_buffer).srv) L (p :: C)) := by
  unfold cr_rooms_join cr_rooms_join_helper
  cases hl : h_table_return_entry srv.rooms.p_rooms_table (req_p_room_name p_buffer) with
  | none => exact Or.inl ⟨rfl, rfl⟩
  | some r =>
    right
    refine ⟨rfl, rfl, ?_⟩
    apply view_inv_join (srv_view srv) _ L C p r (req_p_room_name p_buffer) h hpL hpC hl
    · rfl
    · rfl
    · rfl
    · show (srv.user_mem.set p _).map _ = _
      exact list_map_set_same _ _ _ _ user_calloc rfl
    · show (srv.user_mem.set p _).map _ = _
      rw [list_map_set, srv_view_chat_room]
      rfl
    · rfl
    · show (srv.room_mem.set r _).map _ = _
      rw [list_map_set, srv_view_members]
      rfl

/-- `cr_rooms_create` keeps the invariant: the new room has no members. -/
theorem cr_rooms_create_inv (env : env_t) (srv : server_t) (p_ssl p_user : Nat)
    (p_buffer : List Nat) (L C : List Nat) (h : view_inv (srv_view srv) L C) :
    view_inv (srv_view (cr_rooms_create env srv p_ssl p_user p_buffer).srv) L C := by
  have h2 : ∀ name, srv.rooms.room_count < srv.rooms.max_rooms →
      view_inv (srv_view (cr_rooms_create_helper_2 env srv p_ssl name).srv) L C := by
    intro name hlt
    unfold cr_rooms_create_helper_2
    simp only []
    by_cases hf : (h_table_new_entry env.rand srv.rooms.p_rooms_table srv.room_mem.length
        (c_strncpy room_calloc.p_room_name name (c_strlen name))).1 = FAILURE
    · rw [if_pos hf]
      apply view_inv_create env.rand (srv_view srv) _ L C
        (c_strncpy (c_zeros (MAX_ROOM_NAME_LENGTH + 1)) name (c_strlen name)) h
        (c_strncpy_room name).1 hlt
      · rfl
      · rfl
      · rfl
      · rfl
      · rfl
      · show _ = (h_table_new_entry env.rand srv.rooms.p_rooms_table
          (srv.room_mem.map (fun r => r.p_users)).length _).2
        rw [List.length_map]
        rfl
      · rfl
      · show srv.rooms.room_count = if (h_table_new_entry env.rand srv.rooms.p_rooms_table
          (srv.room_mem.map (fun r => r.p_users)).length _).1 = FAILURE then _ else _
        rw [List.length_map]
        exact (if_pos hf).symm
      · show (srv.room_mem ++ [_]).map _ = _
        rw [List.map_append]
        rfl
    · rw [if_neg hf]
      apply view_inv_create env.rand (srv_view srv) _ L C
        (c_strncpy (c_zeros (MAX_ROOM_NAME_LENGTH + 1)) name (c_strlen name)) h
        (c_strncpy_room name).1 hlt
      · rfl
      · rfl
      · rfl
      · rfl
      · rfl
      · show _ = (h_table_new_entry env.rand srv.rooms.p_rooms_table
          (srv.room_mem.map (fun r => r.p_users)).length _).2
        rw [List.length_map]
        rfl
      · rfl
      · show (srv.rooms.room_count + 1) % 256 =
          if (h_table_new_entry env.rand srv.rooms.p_rooms_table
            (srv.room_mem.map (fun r => r.p_users)).length _).1 = FAILURE then _ else _
        rw [List.length_map]
        exact (if_neg hf).symm
      · show (srv.room_mem ++ [_]).map _ = _
        rw [List.map_append]
        rfl
  unfold cr_rooms_create
  simp only []
  split
  · exact h
  · split
    · exact h
    · split
      · exact h
      · unfold cr_rooms_create_helper
        by_cases hc : srv.rooms.room_count ≥ srv.rooms.max_rooms
        · rw [if_pos hc]
          exact h
        · rw [if_neg hc]
          split
          · exact h
          · exact h2 _ (by omega)

/-- `cr_rooms_delete` keeps the invariant: only a room without members is
taken out of the table. -/
theorem cr_rooms_delete_inv (env : env_t) (srv : server_t) (p_ssl p_user : Nat)
    (p_buffer : List Nat) (L C : List Nat) (h : view_inv (srv_view srv) L C) :
    view_inv (srv_view (cr_rooms_delete env srv p_ssl p_user p_buffer).srv) L C := by
  unfold cr_rooms_delete
  split
  · exact h
  · unfold cr_rooms_delete_helper
    cases hl : h_table_return_entry srv.rooms.p_rooms_table (req_p_room_name p_buffer) with
    | none => exact h
    | some r0 =>
      simp only []
      by_cases hu : (room_at srv r0).p_users.length ≠ 0
      · rw [if_pos hu]
        exact h
      · rw [if_neg hu]
        have hempty : (srv_view srv).members_of r0 = [] := by
          rw [srv_view_members]
          exact List.length_eq_zero.mp (by omega)
        have hsame : view_inv (srv_view { srv with rooms := { srv.rooms with p_rooms_table :=
            (h_table_destroy_entry srv.rooms.p_rooms_table (req_p_room_name p_buffer)).2 } })
            L C := by
          apply view_inv_delete (srv_view srv) _ L C (req_p_room_name p_buffer) r0 h hl hempty
          · rfl
          · rfl
          · rfl
          · rfl
          · rfl
          · rfl
          · rfl
          · exact Or.inr rfl
          · rfl
        split
        · exact hsame
        · split
          · exact hsame
          · apply view_inv_delete (srv_view srv) _ L C (req_p_room_name p_buffer) r0 h hl
              hempty
            · rfl
            · rfl
            · rfl
            · rfl
            · rfl
            · rfl
            · rfl
            · exact Or.inl rfl
            · rfl

end SysRoomHandlers
section SysSession

/-- The invariant of a session in the CONNECTED state. -/
theorem sess_inv_connected (v : view_t) (s : session_t) (Lr Cr : List Nat)
    (hs : s.logged_in = NOT_LOGGED_IN) :
    sess_inv v s Lr Cr ↔
      s.chatting = NOT_CHATTING ∧ (∀ q ∈ Cr, q ∈ Lr) ∧ view_inv v Lr Cr := by
  unfold sess_inv sess_ok own_logged own_chat
  constructor
  · rintro ⟨⟨_, h2, h3, _⟩, hsub, hv⟩
    have hc : s.chatting = NOT_CHATTING := by
      rcases h2 with h2 | h2
      · exact h2
      · have := h3 h2
        rw [hs] at this
        exact absurd this (by decide)
    rw [if_neg (by rw [hs]; decide), if_neg (by rw [hc]; decide)] at hv
    exact ⟨hc, hsub, hv⟩
  · rintro ⟨hc, hsub, hv⟩
    rw [if_neg (by rw [hs]; decide), if_neg (by rw [hc]; decide)]
    refine ⟨⟨Or.inl hs, Or.inl hc, ?_, ?_⟩, hsub, hv⟩
    · intro h
      rw [hc] at h
      exact absurd h (by decide)
    · intro h
      rw [hs] at h
      exact absurd h (by decide)

/-- The invariant of a session in the LOGGED_IN state. -/
theorem sess_inv_logged (v : view_t) (s : session_t) (Lr Cr : List Nat) (p : Nat)
    (hs : s.logged_in = LOGGED_IN) (hc : s.chatting = NOT_CHATTING) (hp : s.pp_user = some p) :
    sess_inv v s Lr Cr ↔ (∀ q ∈ Cr, q ∈ Lr) ∧ view_inv v (p :: Lr) Cr := by
  unfold sess_inv sess_ok own_logged own_chat
  rw [if_pos hs, if_neg (by rw [hc]; decide), hp]
  constructor
  · rintro ⟨_, hsub, hv⟩
    exact ⟨hsub, hv⟩
  · rintro ⟨hsub, hv⟩
    refine ⟨⟨Or.inr hs, Or.inl hc, fun _ => hs, fun _ => by simp⟩, hsub, hv⟩

/-- The invariant of a session in the CHATTING state. -/
theorem sess_inv_chatting (v : view_t) (s : session_t) (Lr Cr : List Nat) (p : Nat)
    (hs : s.logged_in = LOGGED_IN) (hc : s.chatting = CHATTING) (hp : s.pp_user = some p) :
    sess_inv v s Lr Cr ↔ (∀ q ∈ Cr, q ∈ Lr) ∧ view_inv v (p :: Lr) (p :: Cr) := by
  unfold sess_inv sess_ok own_logged own_chat
  rw [if_pos hs, if_pos hc, hp]
  constructor
  · rintro ⟨_, hsub, hv⟩
    exact ⟨hsub, hv⟩
  · rintro ⟨hsub, hv⟩
    refine ⟨⟨Or.inr hs, Or.inr hc, fun _ => hs, fun _ => by simp⟩, hsub, hv⟩

/-- The invariant of a session from that of the shared state, for a session
in the LOGGED_IN state. -/
theorem sess_inv_logged_mk (v : view_t) (s : session_t) (Lr Cr : List Nat) (p : Nat)
    (hs : s.logged_in = LOGGED_IN) (hc : s.chatting = NOT_CHATTING) (hp : s.pp_user = some p)
    (hsub : ∀ q ∈ Cr, q ∈ Lr) (hv : view_inv v (p :: Lr) Cr) : sess_inv v s Lr Cr :=
  (sess_inv_logged v s Lr Cr p hs hc hp).mpr ⟨hsub, hv⟩

/-- The invariant of a session from that of the shared state, for a session
in the CHATTING state. -/
theorem sess_inv_chatting_mk (v : view_t) (s : session_t) (Lr Cr : List Nat) (p : Nat)
    (hs : s.logged_in = LOGGED_IN) (hc : s.chatting = CHATTING) (hp : s.pp_user = some p)
    (hsub : ∀ q ∈ Cr, q ∈ Lr) (hv : view_inv v (p :: Lr) (p :: Cr)) : sess_inv v s Lr Cr :=
  (sess_inv_chatting v s Lr Cr p hs hc hp).mpr ⟨hsub, hv⟩

/-- The invariant of a session from that of the shared state, for a session
in the CONNECTED state. -/
theorem sess_inv_connected_mk (v : view_t) (s : session_t) (Lr Cr : List Nat)
    (hs : s.logged_in = NOT_LOGGED_IN) (hc : s.chatting = NOT_CHATTING)
    (hsub : ∀ q ∈ Cr, q ∈ Lr) (hv : view_inv v Lr Cr) : sess_inv v s Lr Cr :=
  (sess_inv_connected v s Lr Cr hs).mpr ⟨hc, hsub, hv⟩

/-- The user of a logged-in session is the user of no other session. -/
theorem view_inv_not_other (v : view_t) (Lr C Cr : List Nat) (p : Nat)
    (hsub : ∀ q ∈ Cr, q ∈ Lr) (hv : view_inv v (p :: Lr) C) : p ∉ Cr := by
  intro hp
  have := hv.2.2.2.2.2.1
  exact (List.nodup_cons.mp this).1 (hsub p hp)

/-- The states of a session that satisfies `sess_ok`. -/
theorem sess_ok_cases (s : session_t) (h : sess_ok s) :
    (s.logged_in = NOT_LOGGED_IN ∧ s.chatting = NOT_CHATTING) ∨
    (∃ p, s.logged_in = LOGGED_IN ∧ s.chatting = NOT_CHATTING ∧ s.pp_user = some p) ∨
    (∃ p, s.logged_in = LOGGED_IN ∧ s.chatting = CHATTING ∧ s.pp_user = some p) := by
  obtain ⟨h1, h2, h3, h4⟩ := h
  rcases h1 with h1 | h1
  · left
    refine ⟨h1, ?_⟩
    rcases h2 with h2 | h2
    · exact h2
    · have := h3 h2
      rw [h1] at this
      exact absurd this (by decide)
  · right
    have hp := h4 h1
    obtain ⟨p, hp⟩ := Option.ne_none_iff_exists'.mp hp
    rcases h2 with h2 | h2
    · exact Or.inl ⟨p, h1, h2, hp⟩
    · exact Or.inr ⟨p, h1, h2, hp⟩

/-- The CONNECTED state handler keeps the invariant of its session. -/
theorem cr_sm_connected_state_inv (env : env_t) (srv : server_t) (sess : session_t)
    (p_buffer : List Nat) (Lr Cr : List Nat) (hs : sess.logged_in = NOT_LOGGED_IN)
    (h : sess_inv (srv_view srv) sess Lr Cr) :
    sess_inv (srv_view (cr_sm_connected_state env srv sess p_buffer).srv)
      (cr_sm_connected_state env srv sess p_buffer).sess Lr Cr := by
  obtain ⟨hc, hsub, hv⟩ := (sess_inv_connected _ _ _ _ hs).mp h
  unfold cr_sm_connected_state
  simp only []
  split
  · split
    · rcases cr_users_login_inv env srv sess p_buffer Lr Cr hv with ⟨h1, h2⟩ | ⟨p, h1, h2⟩
      · rw [h1, h2]
        exact h
      · rw [h1]
        exact sess_inv_logged_mk _ _ Lr Cr p rfl hc rfl hsub h2
    · split
      · exact (sess_inv_connected _ _ _ _ hs).mpr
          ⟨hc, hsub, cr_users_register_inv env srv _ p_buffer Lr Cr hv⟩
      · exact h
  · split
    · split
      · split <;> exact h
      · exact h
    · exact h

/-- The LOGGED_IN state handler keeps the invariant of its session. -/
theorem cr_sm_logged_state_inv (env : env_t) (srv : server_t) (sess : session_t)
    (p_buffer : List Nat) (Lr Cr : List Nat) (p : Nat)
    (hs : sess.logged_in = LOGGED_IN) (hc : sess.chatting = NOT_CHATTING)
    (hp : sess.pp_user = some p) (h : sess_inv (srv_view srv) sess Lr Cr) :
    sess_inv (srv_view (cr_sm_logged_state env srv sess p_buffer).srv)
      (cr_sm_logged_state env srv sess p_buffer).sess Lr Cr := by
  obtain ⟨hsub, hv⟩ := (sess_inv_logged _ _ _ _ p hs hc hp).mp h
  have hpc : p ∉ Cr := view_inv_not_other _ _ _ _ p hsub hv
  have hout : ∀ sm, sess_inv (srv_view (cr_users_logout env srv sess p sm).srv)
      (cr_users_logout env srv sess p sm).sess Lr Cr := by
    intro sm
    rcases cr_users_logout_inv env srv sess p sm Lr Cr hv hpc with
      ⟨h1, h2, _⟩ | ⟨h1, _, h3⟩
    · rw [h1, h2]
      exact h
    · rw [h1]
      exact sess_inv_connected_mk _ _ Lr Cr rfl hc hsub h3
  have hacc : ∀ st, sess_inv (srv_view (cr_sm_ls_account env srv sess p p_buffer st).srv)
      (cr_sm_ls_account env srv sess p p_buffer st).sess Lr Cr := by
    intro st
    unfold cr_sm_ls_account
    split
    · show sess_inv (srv_view (cr_users_admin env srv _ p_buffer p ADMIN).srv) sess Lr Cr
      rw [cr_users_admin_view]
      exact h
    · split
      · show sess_inv (srv_view (cr_users_admin env srv _ p_buffer p NOT_ADMIN).srv) sess Lr Cr
        rw [cr_users_admin_view]
        exact h
      · split
        · exact (sess_inv_logged _ _ _ _ p hs hc hp).mpr
            ⟨hsub, cr_users_remove_user_inv env srv _ p_buffer p _ _ hv⟩
        · split
          · exact hout _
          · exact h
  have hrooms : ∀ st, sess_inv (srv_view (cr_sm_ls_rooms env srv sess p p_buffer st).srv)
      (cr_sm_ls_rooms env srv sess p p_buffer st).sess Lr Cr := by
    intro st
    unfold cr_sm_ls_rooms
    split
    · show sess_inv (srv_view (cr_rooms_list env srv _).srv) sess Lr Cr
      rw [cr_rooms_list_srv]
      exact h
    · split
      · rcases cr_rooms_join_inv env srv sess p p_buffer (p :: Lr) Cr hv
          (List.mem_cons_self _ _) hpc with ⟨h1, h2⟩ | ⟨h1, _, h3⟩
        · rw [h1, h2]
          exact h
        · rw [h1]
          exact sess_inv_chatting_mk _ _ Lr Cr p hs rfl hp hsub h3
      · split
        · exact (sess_inv_logged _ _ _ _ p hs hc hp).mpr
            ⟨hsub, cr_rooms_create_inv env srv _ p p_buffer _ _ hv⟩
        · split
          · exact (sess_inv_logged _ _ _ _ p hs hc hp).mpr
              ⟨hsub, cr_rooms_delete_inv env srv _ p p_buffer _ _ hv⟩
          · exact h
  unfold cr_sm_logged_state
  rw [hp]
  simp only []
  split
  · split
    · exact hacc _
    · exact h
  · split
    · split
      · exact hrooms _
      · exact h
    · split
      · split
        · split
          · exact hout _
          · split <;> exact hout _
        · exact h
      · exact h

/-- The CHATTING state handler keeps the invariant of its session. -/
theorem cr_sm_chat_state_inv (env : env_t) (srv : server_t) (sess : session_t)
    (p_buffer : List Nat) (Lr Cr : List Nat) (p : Nat)
    (hs : sess.logged_in = LOGGED_IN) (hc : sess.chatting = CHATTING)
    (hp : sess.pp_user = some p) (h : sess_inv (srv_view srv) sess Lr Cr) :
    sess_inv (srv_view (cr_sm_chat_state env srv sess p_buffer).srv)
      (cr_sm_chat_state env srv sess p_buffer).sess Lr Cr := by
  obtain ⟨hsub, hv⟩ := (sess_inv_chatting _ _ _ _ p hs hc hp).mp h
  have hpc : p ∉ Cr := view_inv_not_other _ _ _ _ p hsub hv
  have hleave : ∀ sm, sess_inv (srv_view (cr_chats_leave env srv sess p sm).srv)
      (cr_chats_leave env srv sess p sm).sess Lr Cr := by
    intro sm
    obtain ⟨h1, _, _, h4⟩ := cr_chats_leave_inv env srv sess p sm (p :: Lr) Cr hv
    rw [h1]
    exact sess_inv_logged_mk _ _ Lr Cr p hs rfl hp hsub h4
  have hquit : sess_inv
      (srv_view (cr_users_logout env (cr_chats_leave env srv sess p DONT_SEND).srv
        (cr_chats_leave env srv sess p DONT_SEND).sess p DONT_SEND).srv)
      (cr_users_logout env (cr_chats_leave env srv sess p DONT_SEND).srv
        (cr_chats_leave env srv sess p DONT_SEND).sess p DONT_SEND).sess Lr Cr := by
    obtain ⟨h1, _, _, h4⟩ := cr_chats_leave_inv env srv sess p DONT_SEND (p :: Lr) Cr hv
    rcases cr_users_logout_inv env (cr_chats_leave env srv sess p DONT_SEND).srv
      (cr_chats_leave env srv sess p DONT_SEND).sess p DONT_SEND Lr Cr h4 hpc with
      ⟨h5, h6, _⟩ | ⟨h5, _, h7⟩
    · rw [h5, h6]
      exact hleave _
    · rw [h5, h1]
      exact sess_inv_connected_mk _ _ Lr Cr rfl rfl hsub h7
  unfold cr_sm_chat_state
  rw [hp]
  simp only []
  split
  · split
    · show sess_inv (srv_view (cr_chats_chat env srv p p_buffer).srv) sess Lr Cr
      rw [cr_chats_chat_view]
      exact h
    · split
      · exact hleave _
      · exact h
  · split
    · split
      · split
        · exact hleave _
        · split
          · exact hquit
          · split <;> exact hquit
      · exact h
    · exact h

/-- The handling of one frame keeps the invariant of the session. -/
theorem cr_sm_handle_inv (env : env_t) (srv : server_t) (sess : session_t)
    (p_buffer : List Nat) (Lr Cr : List Nat) (h : sess_inv (srv_view srv) sess Lr Cr) :
    sess_inv (srv_view (cr_sm_handle env srv sess p_buffer).srv)
      (cr_sm_handle env srv sess p_buffer).sess Lr Cr := by
  unfold cr_sm_handle
  rcases sess_ok_cases sess h.1 with ⟨h1, h2⟩ | ⟨p, h1, h2, h3⟩ | ⟨p, h1, h2, h3⟩
  · rw [if_pos h1]
    exact cr_sm_connected_state_inv env srv sess p_buffer Lr Cr h1 h
  · rw [if_neg (by rw [h1]; decide), if_pos h2]
    exact cr_sm_logged_state_inv env srv sess p_buffer Lr Cr p h1 h2 h3 h
  · rw [if_neg (by rw [h1]; decide), if_neg (by rw [h2]; decide)]
    exact cr_sm_chat_state_inv env srv sess p_buffer Lr Cr p h1 h2 h3 h

/-- The cleanup of a session that ends leaves the invariant of the other
sessions: the user has left its room and is logged out. -/
theorem cr_sm_session_clean_inv (env : env_t) (srv : server_t) (sess : session_t)
    (Lr Cr : List Nat) (h : sess_inv (srv_view srv) sess Lr Cr) :
    view_inv (srv_view (cr_sm_session_clean env srv sess).srv) Lr Cr := by
  have hlog : ∀ (s2 : server_t) (ss : session_t) (p : Nat), view_inv (srv_view s2) (p :: Lr) Cr →
      view_inv (srv_view (cr_users_logout env s2 ss p DONT_SEND).srv) Lr Cr := by
    intro s2 ss p hv
    have hpc : p ∉ Cr := view_inv_not_other _ _ _ _ p h.2.1 hv
    rcases cr_users_logout_inv env s2 ss p DONT_SEND Lr Cr hv hpc with
      ⟨_, _, h7⟩ | ⟨_, _, h7⟩
    · exfalso
      revert h7
      unfold cr_users_logout
      simp
    · exact h7
  rcases sess_ok_cases sess h.1 with ⟨h1, h2⟩ | ⟨p, h1, h2, h3⟩ | ⟨p, h1, h2, h3⟩
  · obtain ⟨_, _, hv⟩ := (sess_inv_connected _ _ _ _ h1).mp h
    have e : (cr_sm_session_clean env srv sess).srv = srv := by
      unfold cr_sm_session_clean
      simp [h1, h2]
    rw [e]
    exact hv
  · obtain ⟨hsub, hv⟩ := (sess_inv_logged _ _ _ _ p h1 h2 h3).mp h
    have e : (cr_sm_session_clean env srv sess).srv =
        (cr_users_logout env srv sess p DONT_SEND).srv := by
      unfold cr_sm_session_clean
      simp [h1, h2, h3]
    rw [e]
    exact hlog _ _ _ hv
  · obtain ⟨hsub, hv⟩ := (sess_inv_chatting _ _ _ _ p h1 h2 h3).mp h
    obtain ⟨h4, _, h5, h6⟩ := cr_chats_leave_inv env srv sess p DONT_SEND (p :: Lr) Cr hv
    have h5 := h5 rfl
    have e : (cr_sm_session_clean env srv sess).srv =
        (cr_users_logout env (cr_chats_leave env srv sess p DONT_SEND).srv
          (cr_chats_leave env srv sess p DONT_SEND).sess p DONT_SEND).srv := by
      unfold cr_sm_session_clean
      simp only [h2, h3, if_true]
      rw [if_neg (by rw [h5]; simp), if_pos (by rw [h4]; exact h1)]
      have h8 : (cr_chats_leave env srv sess p DONT_SEND).sess.pp_user = some p := by
        rw [h4]
        exact h3
      simp only [h8]
    rw [e]
    exact hlog _ _ _ h6

/-- One iteration of the loop of a session keeps the invariant of the
session while it runs and leaves that of the others when it ends. -/
theorem cr_sm_session_manager_iter_inv (env : env_t) (srv : server_t) (sess : session_t)
    (rd : read_t) (Lr Cr : List Nat) (h : sess_inv (srv_view srv) sess Lr Cr) :
    ((cr_sm_session_manager_iter env srv sess rd).running = true ∧
      sess_inv (srv_view (cr_sm_session_manager_iter env srv sess rd).srv)
        (cr_sm_session_manager_iter env srv sess rd).sess Lr Cr) ∨
    ((cr_sm_session_manager_iter env srv sess rd).running = false ∧
      view_inv (srv_view (cr_sm_session_manager_iter env srv sess rd).srv) Lr Cr) := by
  have hexit : ∀ s2 ss out, sess_inv (srv_view s2) ss Lr Cr →
      (cr_sm_exit env s2 ss out).running = false ∧
      view_inv (srv_view (cr_sm_exit env s2 ss out).srv) Lr Cr := by
    intro s2 ss out h2
    exact ⟨rfl, cr_sm_session_clean_inv env s2 ss Lr Cr h2⟩
  unfold cr_sm_session_manager_iter
  split
  · exact Or.inr (hexit _ _ _ h)
  · cases rd with
    | timeout => exact Or.inl ⟨rfl, h⟩
    | error => exact Or.inr (hexit _ _ [] h)
    | data bytes =>
      simp only []
      have hh := cr_sm_handle_inv env srv sess (recv_buffer bytes) Lr Cr h
      split
      · exact Or.inr (hexit _ _ [] h)
      · split
        · exact Or.inr (hexit (signal_handler _) _ _ hh)
        · split
          · exact Or.inr (hexit _ _ _ hh)
          · split
            · exact Or.inr (hexit _ _ _ hh)
            · exact Or.inl ⟨rfl, hh⟩

end SysSession
section SysSteps

theorem list_split_at {α : Type} :
    ∀ (l : List α) (i : Nat) (a : α), l[i]? = some a →
      ∃ l1 l2, l = l1 ++ a :: l2 ∧ (∀ b, l.set i b = l1 ++ b :: l2) ∧ l.eraseIdx i = l1 ++ l2
  | [], _, _, h => by simp at h
  | x :: xs, 0, a, h => by
    simp only [List.getElem?_cons_zero, Option.some.injEq] at h
    subst h
    exact ⟨[], xs, rfl, fun _ => rfl, rfl⟩
  | x :: xs, i + 1, a, h => by
    simp only [List.getElem?_cons_succ] at h
    obtain ⟨l1, l2, h1, h2, h3⟩ := list_split_at xs i a h
    refine ⟨x :: l1, l2, ?_, ?_, ?_⟩
    · rw [h1]
      rfl
    · intro b
      rw [List.set_cons_succ, h2 b]
      rfl
    · rw [List.eraseIdx_cons_succ, h3]
      rfl

theorem logged_users_append (l1 l2 : List session_t) :
    logged_users (l1 ++ l2) = logged_users l1 ++ logged_users l2 := by
  unfold logged_users
  induction l1 with
  | nil => rfl
  | cons a rest ih =>
    simp only [List.cons_append, List.flatMap_cons, ih, List.append_assoc]

theorem logged_users_cons (s : session_t) (l : List session_t) :
    logged_users (s :: l) = own_logged s ++ logged_users l := by
  unfold logged_users own_logged
  simp only [List.flatMap_cons]

theorem chat_users_append (l1 l2 : List session_t) :
    chat_users (l1 ++ l2) = chat_users l1 ++ chat_users l2 := by
  unfold chat_users
  induction l1 with
  | nil => rfl
  | cons a rest ih =>
    simp only [List.cons_append, List.flatMap_cons, ih, List.append_assoc]

theorem chat_users_cons (s : session_t) (l : List session_t) :
    chat_users (s :: l) = own_chat s ++ chat_users l := by
  unfold chat_users own_chat
  simp only [List.flatMap_cons]

/-- The user of a chatting session is the user of a logged-in session. -/
theorem chat_users_subset (l : List session_t) (h : ∀ s ∈ l, sess_ok s) :
    ∀ q ∈ chat_users l, q ∈ logged_users l := by
  induction l with
  | nil =>
    intro q hq
    exact absurd hq (List.not_mem_nil q)
  | cons a rest ih =>
    intro q hq
    rw [chat_users_cons, List.mem_append] at hq
    rw [logged_users_cons, List.mem_append]
    rcases hq with hq | hq
    · left
      unfold own_chat at hq
      unfold own_logged
      split at hq
      · rename_i hc
        rw [if_pos ((h a (List.mem_cons_self _ _)).2.2.1 hc)]
        exact hq
      · exact absurd hq (List.not_mem_nil q)
    · exact Or.inr (ih (fun s hs => h s (List.mem_cons_of_mem _ hs)) q hq)

/-- The invariant of the server, seen from one of its sessions. -/
theorem system_inv_split (srv : server_t) (l1 l2 : List session_t) (s : session_t) :
    system_inv { srv := srv, sessions := l1 ++ s :: l2 } ↔
      (∀ x ∈ l1 ++ l2, sess_ok x) ∧
      sess_inv (srv_view srv) s (logged_users (l1 ++ l2)) (chat_users (l1 ++ l2)) := by
  have hL : (logged_users (l1 ++ s :: l2)).Perm (own_logged s ++ logged_users (l1 ++ l2)) := by
    rw [logged_users_append, logged_users_cons, logged_users_append]
    exact List.perm_append_comm_assoc _ _ _
  have hC : (chat_users (l1 ++ s :: l2)).Perm (own_chat s ++ chat_users (l1 ++ l2)) := by
    rw [chat_users_append, chat_users_cons, chat_users_append]
    exact List.perm_append_comm_assoc _ _ _
  unfold system_inv sess_inv
  simp only []
  constructor
  · rintro ⟨h1, h2⟩
    have hr : ∀ x ∈ l1 ++ l2, sess_ok x := by
      intro x hx
      apply h1
      rcases List.mem_append.mp hx with hx | hx
      · exact List.mem_append_left _ hx
      · exact List.mem_append_right _ (List.mem_cons_of_mem _ hx)
    exact ⟨hr, h1 s (List.mem_append_right _ (List.mem_cons_self _ _)),
      chat_users_subset _ hr, view_inv_perm _ _ _ _ _ hL hC h2⟩
  · rintro ⟨h1, h2, _, h4⟩
    refine ⟨?_, view_inv_perm _ _ _ _ _ hL.symm hC.symm h4⟩
    intro x hx
    rcases List.mem_append.mp hx with hx | hx
    · exact h1 x (List.mem_append_left _ hx)
    · rcases List.mem_cons.mp hx with hx | hx
      · rw [hx]
        exact h2
      · exact h1 x (List.mem_append_right _ hx)

/-- The invariant of the server without the session that has ended. -/
theorem system_inv_rest (srv : server_t) (l : List session_t) (h1 : ∀ x ∈ l, sess_ok x)
    (h2 : view_inv (srv_view srv) (logged_users l) (chat_users l)) :
    system_inv { srv := srv, sessions := l } :=
  ⟨h1, h2⟩

theorem sess_ok_init (p_ssl_holder : Nat) : sess_ok (session_init p_ssl_holder) := by
  unfold sess_ok session_init
  simp

/-- Every event keeps the invariant of the server. -/
theorem system_step_inv (sys : system_t) (ev : event_t) (h : system_inv sys) :
    system_inv (system_step sys ev) := by
  cases ev with
  | accept p_ssl_holder =>
    unfold system_step
    simp only []
    have e : sys.sessions ++ [session_init p_ssl_holder] =
        sys.sessions ++ session_init p_ssl_holder :: [] := rfl
    rw [e, system_inv_split]
    rw [List.append_nil]
    refine ⟨h.1, ?_⟩
    exact sess_inv_connected_mk _ _ _ _ rfl rfl (chat_users_subset _ h.1) h.2
  | iter i env rd =>
    unfold system_step
    simp only []
    cases hs : sys.sessions[i]? with
    | none => exact h
    | some sess =>
      simp only []
      obtain ⟨l1, l2, e1, e2, e3⟩ := list_split_at sys.sessions i sess hs
      have h2 : system_inv { srv := sys.srv, sessions := l1 ++ sess :: l2 } := by
        rw [← e1]
        exact h
      obtain ⟨h3, h4⟩ := (system_inv_split _ _ _ _).mp h2
      rcases cr_sm_session_manager_iter_inv env sys.srv sess rd _ _ h4 with ⟨h5, h6⟩ | ⟨h5, h6⟩
      · rw [h5, if_pos rfl, e2]
        exact (system_inv_split _ _ _ _).mpr ⟨h3, h6⟩
      · rw [h5, if_neg (by decide), e3]
        exact system_inv_rest _ _ h3 h6

/-- Every sequence of events keeps the invariant of the server. -/
theorem system_run_inv (events : List event_t) :
    ∀ sys : system_t, system_inv sys → system_inv (system_run sys events) := by
  induction events with
  | nil =>
    intro sys h
    exact h
  | cons ev rest ih =>
    intro sys h
    exact ih _ (system_step_inv sys ev h)

/-- The invariant of the server, seen from any of its sessions. -/
theorem system_inv_mem (sys : system_t) (s : session_t) (h : system_inv sys)
    (hs : s ∈ sys.sessions) :
    ∃ Lr Cr, sess_inv (srv_view sys.srv) s Lr Cr ∧
      (logged_users sys.sessions).Perm (own_logged s ++ Lr) ∧
      (chat_users sys.sessions).Perm (own_chat s ++ Cr) := by
  obtain ⟨l1, l2, e⟩ := List.append_of_mem hs
  have h2 : system_inv { srv := sys.srv, sessions := l1 ++ s :: l2 } := by
    rw [← e]
    exact h
  refine ⟨_, _, ((system_inv_split _ _ _ _).mp h2).2, ?_, ?_⟩
  · rw [e, logged_users_append, logged_users_cons, logged_users_append]
    exact List.perm_append_comm_assoc _ _ _
  · rw [e, chat_users_append, chat_users_cons, chat_users_append]
    exact List.perm_append_comm_assoc _ _ _

/-- The sessions that are logged in are as many as their users. -/
theorem sessions_in_eq (l : List session_t) (h : ∀ s ∈ l, sess_ok s) :
    sessions_in l = (logged_users l).length := by
  induction l with
  | nil => rfl
  | cons a rest ih =>
    have ih2 := ih (fun s hs => h s (List.mem_cons_of_mem _ hs))
    rw [logged_users_cons, List.length_append, ← ih2]
    unfold sessions_in own_logged
    rw [List.countP_cons]
    rcases sess_ok_cases a (h a (List.mem_cons_self _ _)) with ⟨h1, _⟩ | ⟨p, h1, _, h3⟩ |
      ⟨p, h1, _, h3⟩
    · rw [if_neg (by rw [h1]; decide)]
      simp [h1]
    · rw [if_pos h1, h3]
      simp [h1]
      omega
    · rw [if_pos h1, h3]
      simp [h1]
      omega

end SysSteps
section SysStart

theorem next_prime_loop_odd (rand : Nat → Nat → Nat) :
    ∀ (fuel v d : Nat), v % 2 = 1 → next_prime_loop rand fuel v d % 2 = 1
  | 0, _, _, _ => rfl
  | fuel + 1, v, d, hv => by
    unfold next_prime_loop
    split
    · split
      · exact hv
      · exact next_prime_loop_odd rand fuel _ d (by omega)
    · rfl

/-- The value of `next_prime` is 2 or odd, so it is not zero when it is
stored in a `uint8_t`. -/
theorem next_prime_mod_pos (rand : Nat → Nat → Nat) (v : Nat) :
    0 < next_prime rand v % 256 := by
  unfold next_prime
  split
  · decide
  · split
    · decide
    · simp only []
      have h := next_prime_loop_odd rand
        ((if v % 2 = 0 then (v + 1) % 65536 else (v + 2) % 65536) * 2 % 65536 + 1)
        (if v % 2 = 0 then (v + 1) % 65536 else (v + 2) % 65536)
        ((if v % 2 = 0 then (v + 1) % 65536 else (v + 2) % 65536) * 2 % 65536)
        (by split <;> omega)
      omega

/-- The loop of `cr_users_from_buf` writes to the name and the password
only. -/
theorem cr_users_from_buf_loop_keeps :
    ∀ (cs : List Nat) (u : user_t) (b : Bool) (n : Nat) (u2 : user_t),
      cr_users_from_buf_loop cs u b n = some u2 →
      u2.login_status = u.login_status ∧ u2.p_chat_room = u.p_chat_room
  | [], u, _, _, u2, h => by
    unfold cr_users_from_buf_loop at h
    simp only [Option.some.injEq] at h
    rw [← h]
    exact ⟨rfl, rfl⟩
  | c :: rest, u, b, n, u2, h => by
    unfold cr_users_from_buf_loop at h
    split at h
    · exact absurd h (by simp)
    · split at h
      · have := cr_users_from_buf_loop_keeps rest _ b (n + 1) u2 h
        cases b
        · exact this
        · exact this
      · split at h
        · exact cr_users_from_buf_loop_keeps rest u true 0 u2 h
        · split at h
          · simp only [Option.some.injEq] at h
            rw [← h]
            exact ⟨rfl, rfl⟩
          · exact absurd h (by simp)

/-- `cr_users_add_file_user` adds at most one user, logged out and in no
room, and keeps everything but the user directory. -/
theorem cr_users_add_file_user_keeps (rand : Nat → Nat → Nat) (srv : server_t)
    (p_buffer : List Nat)
    (h1 : ∀ u ∈ srv.user_mem, u.login_status = NOT_LOGGED_IN ∧
      u.p_chat_room = c_zeros (MAX_ROOM_NAME_LENGTH + 1))
    (h2 : ∀ e ∈ h_table_list srv.users.p_users_table, e.p_data < srv.user_mem.length) :
    (∀ u ∈ (cr_users_add_file_user rand srv p_buffer).2.user_mem,
      u.login_status = NOT_LOGGED_IN ∧ u.p_chat_room = c_zeros (MAX_ROOM_NAME_LENGTH + 1)) ∧
    (∀ e ∈ h_table_list (cr_users_add_file_user rand srv p_buffer).2.users.p_users_table,
      e.p_data < (cr_users_add_file_user rand srv p_buffer).2.user_mem.length) ∧
    (cr_users_add_file_user rand srv p_buffer).2.users.client_count =
      srv.users.client_count ∧
    (cr_users_add_file_user rand srv p_buffer).2.users.max_client = srv.users.max_client ∧
    (cr_users_add_file_user rand srv p_buffer).2.rooms = srv.rooms ∧
    (cr_users_add_file_user rand srv p_buffer).2.room_mem = srv.room_mem := by
  unfold cr_users_add_file_user
  split
  · exact ⟨h1, h2, rfl, rfl, rfl, rfl⟩
  · cases hb : cr_users_from_buf user_calloc p_buffer with
    | none => exact ⟨h1, h2, rfl, rfl, rfl, rfl⟩
    | some u =>
      simp only []
      split
      · exact ⟨h1, h2, rfl, rfl, rfl, rfl⟩
      · have hu := cr_users_from_buf_loop_keeps _ _ _ _ u hb
        split
        all_goals
          refine ⟨?_, ?_, rfl, rfl, rfl, rfl⟩
          · intro x hx
            rcases List.mem_append.mp hx with hx | hx
            · exact h1 x hx
            · rw [List.mem_singleton.mp hx]
              exact ⟨hu.1, hu.2⟩
          · intro e he
            show e.p_data < (srv.user_mem ++ [_]).length
            rw [List.length_append]
            rcases h_table_new_entry_mem _ _ _ _ e he with h3 | h3
            · rw [h3]
              simp
            · have := h2 e h3
              omega

/-- The loop of `cr_users_start` loads users that are logged out and in no
room, and keeps everything but the user directory. -/
theorem cr_users_start_loop_keeps (rand : Nat → Nat → Nat) :
    ∀ (lines : List (List Nat)) (srv srv2 : server_t),
      (∀ u ∈ srv.user_mem, u.login_status = NOT_LOGGED_IN ∧
        u.p_chat_room = c_zeros (MAX_ROOM_NAME_LENGTH + 1)) →
      (∀ e ∈ h_table_list srv.users.p_users_table, e.p_data < srv.user_mem.length) →
      cr_users_start_loop rand srv lines = some srv2 →
      (∀ u ∈ srv2.user_mem, u.login_status = NOT_LOGGED_IN ∧
        u.p_chat_room = c_zeros (MAX_ROOM_NAME_LENGTH + 1)) ∧
      (∀ e ∈ h_table_list srv2.users.p_users_table, e.p_data < srv2.user_mem.length) ∧
      srv2.users.client_count = srv.users.client_count ∧
      srv2.users.max_client = srv.users.max_client ∧
      srv2.rooms = srv.rooms ∧ srv2.room_mem = srv.room_mem
  | [], srv, srv2, h1, h2, h => by
    unfold cr_users_start_loop at h
    simp only [Option.some.injEq] at h
    rw [← h]
    exact ⟨h1, h2, rfl, rfl, rfl, rfl⟩
  | line :: rest, srv, srv2, h1, h2, h => by
    unfold cr_users_start_loop at h
    simp only [] at h
    obtain ⟨k1, k2, k3, k4, k5, k6⟩ := cr_users_add_file_user_keeps rand srv line h1 h2
    split at h
    · simp only [Option.some.injEq] at h
      rw [← h]
      exact ⟨k1, k2, k3, k4, k5, k6⟩
    · split at h
      · exact absurd h (by simp)
      · obtain ⟨m1, m2, m3, m4, m5, m6⟩ := cr_users_start_loop_keeps rand rest _ srv2 k1 k2 h
        exact ⟨m1, m2, m3.trans k3, m4.trans k4, m5.trans k5, m6.trans k6⟩

/-- The invariant holds at startup, before a connection is accepted. -/
theorem cr_listener_init_inv (rand : Nat → Nat → Nat) (max_rooms max_client : Nat)
    (users_txt : List Nat) (srv0 : server_t)
    (h0 : cr_listener_init rand max_rooms max_client users_txt = some srv0)
    (hc : max_client ≤ 255) (hr : max_rooms ≤ 255) :
    system_inv { srv := srv0, sessions := [] } ∧ srv0.users.max_client = max_client := by
  unfold cr_listener_init cr_users_start at h0
  obtain ⟨m1, m2, m3, m4, m5, m6⟩ := cr_users_start_loop_keeps rand _ _ srv0
    (by intro u hu; exact absurd hu (List.not_mem_nil u))
    (by
      intro e he
      simp only [h_table_init, h_table_list_replicate] at he
      exact absurd he (List.not_mem_nil e)) h0
  simp only [] at m3 m4 m5 m6
  refine ⟨⟨by intro s hs; exact absurd hs (List.not_mem_nil s), ?_⟩, m4⟩
  have hst : ∀ x ∈ (srv_view srv0).status, x = NOT_LOGGED_IN := by
    intro x hx
    obtain ⟨u, hu, e⟩ := List.mem_map.mp hx
    rw [← e]
    exact (m1 u hu).1
  have hpos := next_prime_mod_pos rand max_rooms
  have hlt : next_prime rand max_rooms % 256 < 256 := Nat.mod_lt _ (by decide)
  refine ⟨?_, ⟨?_, ?_⟩, ?_, ?_, ?_, ?_, ?_, ?_, ?_, ?_, ?_, ?_⟩
  · show (srv0.user_mem.map _).length = (srv0.user_mem.map _).length
    rw [List.length_map, List.length_map]
  · show srv0.users.max_client ≤ 255
    omega
  · show srv0.users.client_count ≤ srv0.users.max_client
    omega
  · show srv0.users.client_count = 0
    exact m3
  · show _ = srv0.users.client_count
    rw [m3]
    apply List.countP_eq_zero.mpr
    intro x hx
    rw [hst x hx]
    decide
  · intro p hp
    exact absurd hp (List.not_mem_nil p)
  · exact List.nodup_nil
  · intro e he
    show e.p_data < (srv0.user_mem.map _).length
    rw [List.length_map]
    exact m2 e he
  · unfold rooms_ok
    show h_table_ok srv0.rooms.p_rooms_table ∧ srv0.rooms.p_rooms_table.capacity < 1024 ∧
      srv0.rooms.p_rooms_table.size ≤ srv0.rooms.p_rooms_table.capacity ∧
      srv0.rooms.p_rooms_table.size ≤ srv0.rooms.room_count ∧
      srv0.rooms.room_count ≤ srv0.rooms.max_rooms ∧ srv0.rooms.max_rooms ≤ 255 ∧
      ∀ e ∈ h_table_list srv0.rooms.p_rooms_table, e.p_data < (srv_view srv0).members.length
    rw [m5]
    simp only [h_table_init]
    refine ⟨h_table_ok_empty _ hpos, by omega, Nat.zero_le _, Nat.zero_le _, Nat.zero_le _,
      hr, ?_⟩
    intro e he
    rw [h_table_list_replicate] at he
    exact absurd he (List.not_mem_nil e)
  · intro p hp
    exact absurd hp (List.not_mem_nil p)
  · intro r hr2
    exfalso
    have : (srv_view srv0).members.length = 0 := by
      show (srv0.room_mem.map _).length = 0
      rw [m6]
      rfl
    have hr3 : r < (srv_view srv0).members.length := hr2
    omega
  · intro p hp _
    rw [srv_view_chat_room]
    have hp2 : p < srv0.user_mem.length := by
      have : (srv_view srv0).status.length = srv0.user_mem.length := List.length_map _ _
      have hp3 : p < (srv_view srv0).status.length := hp
      omega
    unfold user_at
    rw [List.getD_eq_getElem?_getD, List.getElem?_eq_getElem hp2]
    exact (m1 _ (List.getElem_mem hp2)).2
  · exact List.nodup_nil

end SysStart
section SysMaxClient

theorem cr_users_register_max (env : env_t) (srv : server_t) (p_ssl : Nat)
    (p_buffer : List Nat) :
    (cr_users_register env srv p_ssl p_buffer).srv.users.max_client =
      srv.users.max_client := by
  unfold cr_users_register cr_users_reg_helper cr_users_add_user_file cr_users_add_user_table
  simp only []
  repeat' (first | rfl | split)

theorem cr_users_login_max (env : env_t) (srv : server_t) (sess : session_t)
    (p_buffer : List Nat) :
    (cr_users_login env srv sess p_buffer).srv.users.max_client = srv.users.max_client := by
  unfold cr_users_login cr_users_login_helper
  simp only []
  repeat' (first | rfl | split)

theorem cr_users_admin_max (env : env_t) (srv : server_t) (p_ssl : Nat)
    (p_buffer : List Nat) (p_user a : Nat) :
    (cr_users_admin env srv p_ssl p_buffer p_user a).srv.users.max_client =
      srv.users.max_client := by
  unfold cr_users_admin cr_users_admin_helper_1 cr_users_admin_helper_2
  simp only []
  repeat' (first | rfl | split)

theorem cr_users_logout_max (env : env_t) (srv : server_t) (sess : session_t)
    (p sm : Nat) :
    (cr_users_logout env srv sess p sm).srv.users.max_client = srv.users.max_client := by
  unfold cr_users_logout
  simp only []
  repeat' (first | rfl | split)

theorem cr_users_remove_user_max (env : env_t) (srv : server_t) (p_ssl : Nat)
    (p_buffer : List Nat) (p_user : Nat) :
    (cr_users_remove_user env srv p_ssl p_buffer p_user).srv.users.max_client =
      srv.users.max_client := by
  unfold cr_users_remove_user cr_users_remove_file cr_users_remove_table
  simp only []
  repeat' (first | rfl | split)

theorem cr_chats_chat_max (env : env_t) (srv : server_t) (p_user : Nat)
    (p_buffer : List Nat) :
    (cr_chats_chat env srv p_user p_buffer).srv.users.max_client = srv.users.max_client := by
  unfold cr_chats_chat
  simp only []
  split <;> rfl

theorem cr_chats_leave_max (env : env_t) (srv : server_t) (sess : session_t) (p sm : Nat) :
    (cr_chats_leave env srv sess p sm).srv.users.max_client = srv.users.max_client := by
  unfold cr_chats_leave cr_chats_leave_helper
  simp only []
  repeat' (first | rfl | split)

theorem cr_rooms_join_max (env : env_t) (srv : server_t) (sess : session_t) (p : Nat)
    (p_buffer : List Nat) :
    (cr_rooms_join env srv sess p p_buffer).srv.users.max_client = srv.users.max_client := by
  unfold cr_rooms_join cr_rooms_join_helper
  split <;> rfl

theorem cr_rooms_create_max (env : env_t) (srv : server_t) (p_ssl p_user : Nat)
    (p_buffer : List Nat) :
    (cr_rooms_create env srv p_ssl p_user p_buffer).srv.users.max_client =
      srv.users.max_client := by
  unfold cr_rooms_create cr_rooms_create_helper cr_rooms_create_helper_2
    cr_rooms_create_name_to_file
  simp only []
  repeat' (first | rfl | split)

theorem cr_rooms_delete_max (env : env_t) (srv : server_t) (p_ssl p_user : Nat)
    (p_buffer : List Nat) :
    (cr_rooms_delete env srv p_ssl p_user p_buffer).srv.users.max_client =
      srv.users.max_client := by
  unfold cr_rooms_delete cr_rooms_delete_helper cr_rooms_delete_h_file
  simp only []
  repeat' (first | rfl | split)

theorem cr_sm_connected_state_max (env : env_t) (srv : server_t) (sess : session_t)
    (p_buffer : List Nat) :
    (cr_sm_connected_state env srv sess p_buffer).srv.users.max_client =
      srv.users.max_client := by
  unfold cr_sm_connected_state
  simp only []
  repeat' (first | rfl | exact cr_users_login_max _ _ _ _ |
    exact cr_users_register_max _ _ _ _ | split)

theorem cr_sm_ls_account_max (env : env_t) (srv : server_t) (sess : session_t) (p : Nat)
    (p_buffer : List Nat) (st : Nat) :
    (cr_sm_ls_account env srv sess p p_buffer st).srv.users.max_client =
      srv.users.max_client := by
  unfold cr_sm_ls_account
  split
  · exact cr_users_admin_max _ _ _ _ _ _
  · split
    · exact cr_users_admin_max _ _ _ _ _ _
    · split
      · exact cr_users_remove_user_max _ _ _ _ _
      · split
        · exact cr_users_logout_max _ _ _ _ _
        · rfl

theorem cr_sm_ls_rooms_max (env : env_t) (srv : server_t) (sess : session_t) (p : Nat)
    (p_buffer : List Nat) (st : Nat) :
    (cr_sm_ls_rooms env srv sess p p_buffer st).srv.users.max_client =
      srv.users.max_client := by
  unfold cr_sm_ls_rooms
  split
  · exact congrArg (fun s : server_t => s.users.max_client) (cr_rooms_list_srv _ _ _)
  · split
    · exact cr_rooms_join_max _ _ _ _ _
    · split
      · exact cr_rooms_create_max _ _ _ _ _
      · split
        · exact cr_rooms_delete_max _ _ _ _ _
        · rfl

theorem cr_sm_logged_state_max (env : env_t) (srv : server_t) (sess : session_t)
    (p_buffer : List Nat) :
    (cr_sm_logged_state env srv sess p_buffer).srv.users.max_client =
      srv.users.max_client := by
  unfold cr_sm_logged_state
  split
  · rfl
  · simp only []
    split
    · split
      · exact cr_sm_ls_account_max _ _ _ _ _ _
      · rfl
    · split
      · split
        · exact cr_sm_ls_rooms_max _ _ _ _ _ _
        · rfl
      · split
        · split
          · split
            · exact cr_users_logout_max _ _ _ _ _
            · split <;> exact cr_users_logout_max _ _ _ _ _
          · rfl
        · rfl

theorem cr_sm_chat_state_max (env : env_t) (srv : server_t) (sess : session_t)
    (p_buffer : List Nat) :
    (cr_sm_chat_state env srv sess p_buffer).srv.users.max_client =
      srv.users.max_client := by
  unfold cr_sm_chat_state
  split
  · rfl
  · simp only []
    split
    · split
      · exact cr_chats_chat_max _ _ _ _
      · split
        · exact cr_chats_leave_max _ _ _ _ _
        · rfl
    · split
      · split
        · split
          · exact cr_chats_leave_max _ _ _ _ _
          · split
            · exact (cr_users_logout_max _ _ _ _ _).trans (cr_chats_leave_max _ _ _ _ _)
            · split <;>
                exact (cr_users_logout_max _ _ _ _ _).trans (cr_chats_leave_max _ _ _ _ _)
        · rfl
      · rfl

theorem cr_sm_handle_max (env : env_t) (srv : server_t) (sess : session_t)
    (p_buffer : List Nat) :
    (cr_sm_handle env srv sess p_buffer).srv.users.max_client = srv.users.max_client := by
  unfold cr_sm_handle
  split
  · exact cr_sm_connected_state_max _ _ _ _
  · split
    · exact cr_sm_logged_state_max _ _ _ _
    · exact cr_sm_chat_state_max _ _ _ _

theorem cr_sm_session_clean_max (env : env_t) (srv : server_t) (sess : session_t) :
    (cr_sm_session_clean env srv sess).srv.users.max_client = srv.users.max_client := by
  have hl : ∀ l : sres_t, l.srv.users.max_client = srv.users.max_client →
      (if sess.chatting = CHATTING ∧ l.rc = FAILURE then l
        else if l.sess.logged_in = LOGGED_IN then
          match l.sess.pp_user with
          | none => { rc := FAILURE, srv := l.srv, sess := l.sess, out := l.out }
          | some p_user =>
            { cr_users_logout env l.srv l.sess p_user DONT_SEND with
              out := l.out ++ (cr_users_logout env l.srv l.sess p_user DONT_SEND).out }
        else { l with rc := SUCCESS }).srv.users.max_client = srv.users.max_client := by
    intro l h
    split
    · exact h
    · split
      · split
        · exact h
        · exact (cr_users_logout_max _ _ _ _ _).trans h
      · exact h
  unfold cr_sm_session_clean
  apply hl
  split
  · split
    · rfl
    · exact cr_chats_leave_max _ _ _ _ _
  · rfl

/-- No iteration of a session changes `max_client`. -/
theorem cr_sm_session_manager_iter_max (env : env_t) (srv : server_t) (sess : session_t)
    (rd : read_t) :
    (cr_sm_session_manager_iter env srv sess rd).srv.users.max_client =
      srv.users.max_client := by
  have hexit : ∀ s2 ss out, s2.users.max_client = srv.users.max_client →
      (cr_sm_exit env s2 ss out).srv.users.max_client = srv.users.max_client := by
    intro s2 ss out h
    exact (cr_sm_session_clean_max env s2 ss).trans h
  unfold cr_sm_session_manager_iter
  split
  · exact hexit _ _ _ rfl
  · cases rd with
    | timeout => rfl
    | error => exact hexit _ _ [] rfl
    | data bytes =>
      simp only []
      have hh := cr_sm_handle_max env srv sess (recv_buffer bytes)
      split
      · exact hexit _ _ [] rfl
      · split
        · exact hexit (signal_handler _) _ _ hh
        · split
          · exact hexit _ _ _ hh
          · split
            · exact hexit _ _ _ hh
            · exact hh

/-- No event changes `max_client`. -/
theorem system_step_max (sys : system_t) (ev : event_t) :
    (system_step sys ev).srv.users.max_client = sys.srv.users.max_client := by
  cases ev with
  | accept p => rfl
  | iter i env rd =>
    unfold system_step
    simp only []
    split
    · rfl
    · exact cr_sm_session_manager_iter_max _ _ _ _

/-- No sequence of events changes `max_client`. -/
theorem system_run_max (events : List event_t) :
    ∀ sys : system_t, (system_run sys events).srv.users.max_client = sys.srv.users.max_client := by
  induction events with
  | nil =>
    intro sys
    rfl
  | cons ev rest ih =>
    intro sys
    exact (ih _).trans (system_step_max sys ev)

end SysMaxClient
section SysFacts

theorem own_logged_length_le (s : session_t) : (own_logged s).length ≤ 1 := by
  unfold own_logged
  split
  · cases s.pp_user <;> simp
  · simp

/-- A room that has a member exists. -/
theorem srv_view_members_lt (srv : server_t) (r p : Nat)
    (h : p ∈ (srv_view srv).members_of r) : r < (srv_view srv).members.length := by
  by_contra hge
  have h0 : (srv_view srv).members_of r = [] := by
    unfold view_t.members_of
    rw [List.getD_eq_getElem?_getD, List.getElem?_eq_none (by omega)]
    rfl
  rw [h0] at h
  exact absurd h (List.not_mem_nil p)

/-- An event changes the number of logged-in sessions by at most one. -/
theorem system_step_logged (sys : system_t) (ev : event_t) :
    (logged_users (system_step sys ev).sessions).length ≤
      (logged_users sys.sessions).length + 1 ∧
    (logged_users sys.sessions).length ≤
      (logged_users (system_step sys ev).sessions).length + 1 := by
  cases ev with
  | accept p =>
    unfold system_step
    simp only []
    rw [logged_users_append]
    have : logged_users [session_init p] = [] := rfl
    rw [this, List.append_nil]
    omega
  | iter i env rd =>
    unfold system_step
    simp only []
    cases hs : sys.sessions[i]? with
    | none =>
      simp only []
      omega
    | some sess =>
      simp only []
      obtain ⟨l1, l2, e1, e2, e3⟩ := list_split_at sys.sessions i sess hs
      have k1 := own_logged_length_le sess
      have k2 := own_logged_length_le (cr_sm_session_manager_iter env sys.srv sess rd).sess
      split
      · rw [e2, e1]
        simp only [logged_users_append, logged_users_cons, List.length_append]
        omega
      · rw [e3, e1]
        simp only [logged_users_append, logged_users_cons, List.length_append]
        omega

/-- What the invariant says of the counter of logged-in clients. -/
theorem system_inv_counts (sys : system_t) (h : system_inv sys) :
    sys.srv.users.client_count = users_in sys.srv ∧
    users_in sys.srv = sessions_in sys.sessions ∧
    sys.srv.users.client_count ≤ sys.srv.users.max_client ∧
    (∀ ev : event_t,
      (system_step sys ev).srv.users.client_count ≤ sys.srv.users.client_count + 1 ∧
      sys.srv.users.client_count ≤ (system_step sys ev).srv.users.client_count + 1) ∧
    (∀ s ∈ sys.sessions, s.logged_in ≠ NOT_LOGGED_IN → 0 < sys.srv.users.client_count) := by
  obtain ⟨hs, hv⟩ := h
  have hcnt : sys.srv.users.client_count = (logged_users sys.sessions).length := hv.2.2.1
  have husers : users_in sys.srv = sys.srv.users.client_count := by
    have := hv.2.2.2.1
    unfold users_in
    show _ = (srv_view sys.srv).client_count
    rw [← this]
    show _ = (sys.srv.user_mem.map _).countP _
    rw [List.countP_map]
    rfl
  refine ⟨husers.symm, ?_, hv.2.1.2, ?_, ?_⟩
  · rw [husers, hcnt, sessions_in_eq _ hs]
  · intro ev
    have h2 := system_step_inv sys ev ⟨hs, hv⟩
    have hcnt2 : (system_step sys ev).srv.users.client_count =
        (logged_users (system_step sys ev).sessions).length := h2.2.2.2.1
    have := system_step_logged sys ev
    omega
  · intro s hmem hne
    obtain ⟨Lr, Cr, h3, h4, _⟩ := system_inv_mem sys s ⟨hs, hv⟩ hmem
    have hlen := h4.length_eq
    rw [List.length_append] at hlen
    have hown : (own_logged s).length = 1 := by
      rcases sess_ok_cases s h3.1 with ⟨h1, _⟩ | ⟨p, h1, _, h5⟩ | ⟨p, h1, _, h5⟩
      · exact absurd h1 hne
      · unfold own_logged
        rw [if_pos h1, h5]
        rfl
      · unfold own_logged
        rw [if_pos h1, h5]
        rfl
    omega

/-- What the invariant says of the rooms and their members. -/
theorem system_inv_rooms (sys : system_t) (h : system_inv sys) :
    (∀ r p, r < sys.srv.room_mem.length →
      (p ∈ (room_at sys.srv r).p_users ↔
        p ∈ chat_users sys.sessions ∧
        h_table_return_entry sys.srv.rooms.p_rooms_table (user_at sys.srv p).p_chat_room =
          some r)) ∧
    (∀ r, (room_at sys.srv r).p_users.Nodup) ∧
    (chat_users sys.sessions).Nodup ∧
    (∀ r1 r2 p, p ∈ (room_at sys.srv r1).p_users → p ∈ (room_at sys.srv r2).p_users →
      r1 = r2) ∧
    (∀ s ∈ sys.sessions, s.chatting = CHATTING →
      ∃ p r, s.pp_user = some p ∧ s.logged_in = LOGGED_IN ∧
        (user_at sys.srv p).login_status = LOGGED_IN ∧
        h_table_return_entry sys.srv.rooms.p_rooms_table (user_at sys.srv p).p_chat_room =
          some r ∧
        p ∈ (room_at sys.srv r).p_users) ∧
    (∀ s ∈ sys.sessions, s.logged_in = LOGGED_IN → s.chatting = NOT_CHATTING →
      ∃ p, s.pp_user = some p ∧ (user_at sys.srv p).login_status = LOGGED_IN ∧
        (user_at sys.srv p).p_chat_room = c_zeros (MAX_ROOM_NAME_LENGTH + 1) ∧
        ∀ r, p ∉ (room_at sys.srv r).p_users) := by
  have hv := h.2
  have h8 := hv.2.2.2.2.2.2.2.2.1
  have h9 := hv.2.2.2.2.2.2.2.2.2.1
  have h10 := hv.2.2.2.2.2.2.2.2.2.2.1
  have hlen : (srv_view sys.srv).members.length = sys.srv.room_mem.length :=
    List.length_map _ _
  have hmem : ∀ r p, p ∈ (room_at sys.srv r).p_users →
      p ∈ chat_users sys.sessions ∧
      h_table_return_entry sys.srv.rooms.p_rooms_table (user_at sys.srv p).p_chat_room =
        some r := by
    intro r p hp
    rw [← srv_view_members] at hp
    have hr := srv_view_members_lt _ _ _ hp
    have := (h9 r hr).2 p hp
    rw [srv_view_chat_room] at this
    exact this
  refine ⟨?_, ?_, hv.2.2.2.2.2.2.2.2.2.2.2, ?_, ?_, ?_⟩
  · intro r p _
    constructor
    · exact hmem r p
    · rintro ⟨hc, hl⟩
      obtain ⟨_, _, r2, hl2, hm2⟩ := h8 p hc
      rw [srv_view_chat_room] at hl2
      have e : some r = some r2 := hl.symm.trans hl2
      rw [Option.some.injEq] at e
      rw [e, ← srv_view_members]
      exact hm2
  · intro r
    rw [← srv_view_members]
    by_cases hr : r < (srv_view sys.srv).members.length
    · exact (h9 r hr).1
    · have h0 : (srv_view sys.srv).members_of r = [] := by
        unfold view_t.members_of
        rw [List.getD_eq_getElem?_getD, List.getElem?_eq_none (by omega)]
        rfl
      rw [h0]
      exact List.nodup_nil
  · intro r1 r2 p hp1 hp2
    have e : some r1 = some r2 := (hmem r1 p hp1).2.symm.trans (hmem r2 p hp2).2
    rw [Option.some.injEq] at e
    exact e
  · intro s hs hc
    obtain ⟨Lr, Cr, h3, _, _⟩ := system_inv_mem sys s h hs
    rcases sess_ok_cases s h3.1 with ⟨_, h2⟩ | ⟨p, _, h2, _⟩ | ⟨p, h1, h2, h5⟩
    · rw [h2] at hc
      exact absurd hc (by decide)
    · rw [h2] at hc
      exact absurd hc (by decide)
    · obtain ⟨_, hv2⟩ := (sess_inv_chatting _ _ _ _ p h1 h2 h5).mp h3
      have hst := (hv2.2.2.2.2.1 p (List.mem_cons_self _ _)).2
      obtain ⟨_, _, r, hl, hm⟩ := hv2.2.2.2.2.2.2.2.2.1 p (List.mem_cons_self _ _)
      rw [srv_view_status] at hst
      rw [srv_view_chat_room] at hl
      rw [srv_view_members] at hm
      exact ⟨p, r, h5, h1, hst, hl, hm⟩
  · intro s hs h1 h2
    obtain ⟨Lr, Cr, h3, _, _⟩ := system_inv_mem sys s h hs
    have hp := h3.1.2.2.2 h1
    obtain ⟨p, h5⟩ := Option.ne_none_iff_exists'.mp hp
    obtain ⟨hsub, hv2⟩ := (sess_inv_logged _ _ _ _ p h1 h2 h5).mp h3
    have hpc : p ∉ Cr := view_inv_not_other _ _ _ _ p hsub hv2
    have hst := hv2.2.2.2.2.1 p (List.mem_cons_self _ _)
    have hz := hv2.2.2.2.2.2.2.2.2.2.2.1 p hst.1 hpc
    rw [srv_view_status] at hst
    rw [srv_view_chat_room] at hz
    refine ⟨p, h5, hst.2, hz, ?_⟩
    intro r hm
    rw [← srv_view_members] at hm
    have hr := srv_view_members_lt _ _ _ hm
    exact hpc ((hv2.2.2.2.2.2.2.2.2.2.1 r hr).2 p hm).1

/-- The invariant holds in every state reached from startup, and
`max_client` stays the configured limit. -/
theorem system_reach_inv (rand : Nat → Nat → Nat) (max_rooms max_client : Nat)
    (users_txt : List Nat) (srv0 : server_t) (events : List event_t)
    (h0 : cr_listener_init rand max_rooms max_client users_txt = some srv0)
    (hc : max_client ≤ 255) (hr : max_rooms ≤ 255) :
    system_inv (system_run (system_start srv0) events) ∧
    (system_run (system_start srv0) events).srv.users.max_client = max_client := by
  obtain ⟨h1, h2⟩ := cr_listener_init_inv rand max_rooms max_client users_txt srv0 h0 hc hr
  exact ⟨system_run_inv events _ h1, (system_run_max events _).trans h2⟩

/-- The server `srv_0` is the result of startup with `max_rooms` = 5,
`max_client` = 3 and the users file `admin:secret`. -/
theorem srv_0_init : cr_listener_init env_ok.rand 5 3 users_txt_0 = some srv_0 := by
  decide

end SysFacts

section SysClaims

/-- C33: in every state reached from startup by a sequence of events of any
number of sessions (a connection is accepted, or a session runs one whole
iteration of its loop: the handling of a frame, or its end with the
cleanup), `client_count` is the number of users whose login status is IN,
which is the number of sessions in the LOGGED_IN or CHATTING state; it is at
most `max_client`, the configured limit; and it is never taken below zero:
every event changes it by at most one, without wrapping, and it is positive
whenever a session is logged in. -/
theorem C33_client_count (rand : Nat → Nat → Nat) (max_rooms max_client : Nat)
    (users_txt : List Nat) (srv0 : server_t) (events : List event_t)
    (h0 : cr_listener_init rand max_rooms max_client users_txt = some srv0)
    (hc : max_client ≤ 255) (hr : max_rooms ≤ 255) :
    (system_run (system_start srv0) events).srv.users.client_count =
      users_in (system_run (system_start srv0) events).srv ∧
    users_in (system_run (system_start srv0) events).srv =
      sessions_in (system_run (system_start srv0) events).sessions ∧
    (system_run (system_start srv0) events).srv.users.client_count ≤ max_client ∧
    (∀ ev : event_t,
      (system_step (system_run (system_start srv0) events) ev).srv.users.client_count ≤
        (system_run (system_start srv0) events).srv.users.client_count + 1 ∧
      (system_run (system_start srv0) events).srv.users.client_count ≤
        (system_step (system_run (system_start srv0) events) ev).srv.users.client_count + 1) ∧
    (∀ s ∈ (system_run (system_start srv0) events).sessions, s.logged_in ≠ NOT_LOGGED_IN →
      0 < (system_run (system_start srv0) events).srv.users.client_count) := by
  obtain ⟨h1, h2⟩ := system_reach_inv rand max_rooms max_client users_txt srv0 events h0 hc hr
  obtain ⟨k1, k2, k3, k4, k5⟩ := system_inv_counts _ h1
  rw [h2] at k3
  exact ⟨k1, k2, k3, k4, k5⟩

/-- C33 at the server started with `admin:secret`, after a login of `admin`
and the end of its session. -/
theorem C33_witness :
    cr_listener_init env_ok.rand 5 3 users_txt_0 = some srv_0 ∧
    (system_run (system_start srv_0) events_admin).srv.users.client_count =
      users_in (system_run (system_start srv_0) events_admin).srv ∧
    users_in (system_run (system_start srv_0) events_admin).srv =
      sessions_in (system_run (system_start srv_0) events_admin).sessions ∧
    (system_run (system_start srv_0) events_admin).srv.users.client_count ≤ 3 :=
  ⟨srv_0_init,
    (C33_client_count env_ok.rand 5 3 users_txt_0 srv_0 events_admin srv_0_init (by decide)
      (by decide)).1,
    (C33_client_count env_ok.rand 5 3 users_txt_0 srv_0 events_admin srv_0_init (by decide)
      (by decide)).2.1,
    (C33_client_count env_ok.rand 5 3 users_txt_0 srv_0 events_admin srv_0_init (by decide)
      (by decide)).2.2.1⟩

/-- C34: in every state reached from startup by a sequence of events (a
connection is accepted, or a session runs one whole iteration of its loop:
the handling of a frame, or its end with the cleanup), the members of every
room are exactly the users of the sessions in the CHATTING state whose
current room resolves to that room, each once: no membership holds a user
twice, no two chatting sessions have the same user, no user is a member of
two rooms, a chatting session has a logged-in user who is a member of the
room its current room resolves to, and the user of a session in the
LOGGED_IN state has an empty current room and is a member of no room. -/
theorem C34_room_membership (rand : Nat → Nat → Nat) (max_rooms max_client : Nat)
    (users_txt : List Nat) (srv0 : server_t) (events : List event_t)
    (h0 : cr_listener_init rand max_rooms max_client users_txt = some srv0)
    (hc : max_client ≤ 255) (hr : max_rooms ≤ 255) :
    (∀ r p, r < (system_run (system_start srv0) events).srv.room_mem.length →
      (p ∈ (room_at (system_run (system_start srv0) events).srv r).p_users ↔
        p ∈ chat_users (system_run (system_start srv0) events).sessions ∧
        h_table_return_entry (system_run (system_start srv0) events).srv.rooms.p_rooms_table
          (user_at (system_run (system_start srv0) events).srv p).p_chat_room = some r)) ∧
    (∀ r, (room_at (system_run (system_start srv0) events).srv r).p_users.Nodup) ∧
    (chat_users (system_run (system_start srv0) events).sessions).Nodup ∧
    (∀ r1 r2 p, p ∈ (room_at (system_run (system_start srv0) events).srv r1).p_users →
      p ∈ (room_at (system_run (system_start srv0) events).srv r2).p_users → r1 = r2) ∧
    (∀ s ∈ (system_run (system_start srv0) events).sessions, s.chatting = CHATTING →
      ∃ p r, s.pp_user = some p ∧ s.logged_in = LOGGED_IN ∧
        (user_at (system_run (system_start srv0) events).srv p).login_status = LOGGED_IN ∧
        h_table_return_entry (system_run (system_start srv0) events).srv.rooms.p_rooms_table
          (user_at (system_run (system_start srv0) events).srv p).p_chat_room = some r ∧
        p ∈ (room_at (system_run (system_start srv0) events).srv r).p_users) ∧
    (∀ s ∈ (system_run (system_start srv0) events).sessions, s.logged_in = LOGGED_IN →
      s.chatting = NOT_CHATTING →
      ∃ p, s.pp_user = some p ∧
        (user_at (system_run (system_start srv0) events).srv p).login_status = LOGGED_IN ∧
        (user_at (system_run (system_start srv0) events).srv p).p_chat_room =
          c_zeros (MAX_ROOM_NAME_LENGTH + 1) ∧
        ∀ r, p ∉ (room_at (system_run (system_start srv0) events).srv r).p_users) :=
  system_inv_rooms _
    (system_reach_inv rand max_rooms max_client users_txt srv0 events h0 hc hr).1

/-- C34 at the server started with `admin:secret`, after a login of `admin`
and the end of its session. -/
theorem C34_witness :
    cr_listener_init env_ok.rand 5 3 users_txt_0 = some srv_0 ∧
    (chat_users (system_run (system_start srv_0) events_admin).sessions).Nodup ∧
    (room_at (system_run (system_start srv_0) events_admin).srv 0).p_users.Nodup :=
  ⟨srv_0_init,
    (C34_room_membership env_ok.rand 5 3 users_txt_0 srv_0 events_admin srv_0_init (by decide)
      (by decide)).2.2.1,
    (C34_room_membership env_ok.rand 5 3 users_txt_0 srv_0 events_admin srv_0_init (by decide)
      (by decide)).2.1 0⟩

end SysClaims

section GrowthLimit

/-- For every capacity below 32767 `next_prime` finds a larger capacity,
at most 32771, the first prime above 32767. -/
theorem next_prime_gt_wide (rand : Nat → Nat → Nat) (c : Nat) (hc : c < 32767) :
    c < next_prime rand c ∧ next_prime rand c ≤ 32771 := by
  by_cases hsmall : c < 16385
  · have h1 := (next_prime_gt rand c (by omega)).1
    have h2 := next_prime_lt_double rand c
    omega
  · unfold next_prime
    rw [if_neg (by omega), if_neg (by omega)]
    obtain ⟨v, hv⟩ : ∃ v, v = (if c % 2 = 0 then (c + 1) % 65536 else (c + 2) % 65536) := ⟨_, rfl⟩
    simp only []
    rw [← hv]
    have hv1 : v = if c % 2 = 0 then c + 1 else c + 2 := by
      rw [hv]
      split
      · exact Nat.mod_eq_of_lt (by omega)
      · exact Nat.mod_eq_of_lt (by omega)
    have hvodd : v % 2 = 1 := by
      rw [hv1]
      split <;> omega
    have hvc : c < v := by
      rw [hv1]
      split <;> omega
    have hvle : v ≤ 32767 := by
      rw [hv1]
      split <;> omega
    have hdbl : v * 2 % 65536 = v * 2 := Nat.mod_eq_of_lt (by omega)
    rw [hdbl]
    have hq : Nat.Prime 32771 := by norm_num
    have := next_prime_loop_bound rand 32771 (v * 2) hq (by omega) (by omega) (v * 2 + 1) v
      (by omega) (by omega) (by omega)
    omega

/-- Growth check of a consistent table whose capacity is below 32767 and at
least its size: it succeeds, keeps every entry, leaves room for one more
entry, and the capacity grows, to at most 32771, when the load factor has
reached 0.75. -/
theorem h_table_re_hash_spec_wide (rand : Nat → Nat → Nat) (t : h_table_t) (hok : h_table_ok t)
    (hcap : t.capacity < 32767) (hsz : t.size ≤ t.capacity) :
    (h_table_re_hash rand t).1 = SUCCESS ∧ h_table_ok (h_table_re_hash rand t).2 ∧
    (h_table_re_hash rand t).2.size = t.size ∧
    (h_table_re_hash rand t).2.size + 1 ≤ (h_table_re_hash rand t).2.capacity ∧
    (h_table_re_hash rand t).2.capacity ≤ 32771 ∧
    ∀ x, x ∈ h_table_list (h_table_re_hash rand t).2 ↔ x ∈ h_table_list t := by
  have hok0 := hok
  obtain ⟨hs, hidx, hpw, hcan, hcount⟩ := hok
  have hc0 : ¬ t.capacity = 0 := by
    have := hs.2
    omega
  unfold h_table_re_hash
  rw [if_neg hc0, if_neg (by omega)]
  by_cases hload : 4 * t.size < 3 * t.capacity
  · rw [if_pos hload]
    refine ⟨rfl, hok0, rfl, ?_, ?_, fun x => Iff.rfl⟩
    · show t.size + 1 ≤ t.capacity
      omega
    · show t.capacity ≤ 32771
      omega
  · rw [if_neg hload]
    obtain ⟨hgt, hlt⟩ := next_prime_gt_wide rand t.capacity hcap
    have hnf : ¬ next_prime rand t.capacity = FAILURE := by
      have : FAILURE = 1 := rfl
      rw [this]
      omega
    simp only [if_neg hnf, if_neg (show ¬ next_prime rand t.capacity < t.capacity by omega)]
    have hemp := h_table_ok_empty (next_prime rand t.capacity) (by omega)
    have hl := h_table_list_replicate (next_prime rand t.capacity) 0 (next_prime rand t.capacity)
    obtain ⟨g1, g2, g3, g4, g5⟩ := h_table_list_to_table_spec (h_table_list t)
      { size := 0, capacity := next_prime rand t.capacity,
        pp_array := List.replicate (next_prime rand t.capacity) none } hemp hpw hcan
      (by intro e _ e0 he0; rw [hl] at he0; exact absurd he0 (by simp))
      (by show 0 + (h_table_list t).length < 65536; rw [← hcount]; omega)
    refine ⟨g1, g2, ?_, ?_, ?_, ?_⟩
    · rw [g4, ← hcount]
      simp
    · rw [g4, g3, ← hcount]
      show 0 + t.size + 1 ≤ next_prime rand t.capacity
      omega
    · rw [g3]
      exact hlt
    · intro x
      rw [g5, hl]
      simp

/-- A call of `h_table_new_entry` with an absent zero-padded key on a
consistent table whose capacity is below 32767, or whose load factor is
below 0.75: the entry is added and the capacity stays at most 32771. -/
theorem h_table_new_entry_wide (rand : Nat → Nat → Nat) (t : h_table_t) (p : Nat)
    (k : List Nat) (hok : h_table_ok t) (hsz : t.size ≤ t.capacity)
    (hmax : t.capacity ≤ 32771)
    (hgrow : t.capacity < 32767 ∨ 4 * t.size < 3 * t.capacity)
    (hk : key_canonical k) (hf : h_table_return_entry t k = none) :
    (h_table_new_entry rand t p k).1 = SUCCESS ∧
    h_table_ok (h_table_new_entry rand t p k).2 ∧
    (h_table_new_entry rand t p k).2.size ≤ (h_table_new_entry rand t p k).2.capacity ∧
    (h_table_new_entry rand t p k).2.capacity ≤ 32771 ∧
    (h_table_new_entry rand t p k).2.size = t.size + 1 ∧
    ∀ k2, key_canonical k2 →
      h_table_return_entry (h_table_new_entry rand t p k).2 k2 =
        if key_chars k = key_chars k2 then some p else h_table_return_entry t k2 := by
  have hre : (h_table_re_hash rand t).1 = SUCCESS ∧ h_table_ok (h_table_re_hash rand t).2 ∧
      (h_table_re_hash rand t).2.size = t.size ∧
      (h_table_re_hash rand t).2.size + 1 ≤ (h_table_re_hash rand t).2.capacity ∧
      (h_table_re_hash rand t).2.capacity ≤ 32771 ∧
      ∀ x, x ∈ h_table_list (h_table_re_hash rand t).2 ↔ x ∈ h_table_list t := by
    have hc := hok.1.2
    rcases hgrow with hcap | hload
    · exact h_table_re_hash_spec_wide rand t hok hcap hsz
    · rw [h_table_re_hash_no_growth rand t hc hload]
      exact ⟨rfl, hok, rfl, by show t.size + 1 ≤ t.capacity; omega, hmax, fun x => Iff.rfl⟩
  obtain ⟨g1, g2, g3, g4, g5, g8⟩ := hre
  obtain ⟨n1, n2, n3, n4, _⟩ := h_table_new_entry_spec rand t p k hok hk g1 g2 g4
    (by omega) g8
  obtain ⟨a1, a2, a3⟩ := n4 hf
  refine ⟨a1, n1, n2, by rw [n3]; exact g5, by rw [a2, g3], ?_⟩
  intro k2 hk2
  exact h_table_lookup_after_add t _ k k2 p hok n1 hk2 a3

end GrowthLimit
section RegisterAtLimit

/-- The state and reply of `cr_users_register` when the name is not found,
the validation passes, and the users table has a capacity of 32767 or more
at a load factor of 0.75 or more: the growth of the table fails after the
table has been emptied, the handler returns `FAILURE` without a reply, the
new record stays in the store and its line in `users.txt`. -/
theorem cr_users_register_wraps (env : env_t) (srv : server_t) (p_ssl : Nat)
    (p_buffer : List Nat)
    (h1 : 32767 ≤ srv.users.p_users_table.capacity)
    (h2 : srv.users.p_users_table.capacity < 65536)
    (hsz : srv.users.p_users_table.size ≤ srv.users.p_users_table.capacity)
    (hload : 3 * srv.users.p_users_table.capacity ≤ 4 * srv.users.p_users_table.size)
    (hf : h_table_return_entry srv.users.p_users_table (req_p_username p_buffer) = none)
    (hv : cr_users_chk_usr_and_pass (req_p_username p_buffer) (req_p_password p_buffer)
      srv.users.user_count = SUCCESS) :
    cr_users_register env srv p_ssl p_buffer =
      { rc := FAILURE,
        srv := { srv with
          user_mem := srv.user_mem ++
            [cr_users_new_user (req_p_username p_buffer) (req_p_password p_buffer)],
          users := { srv.users with
            p_users_table :=
              { size := 0, capacity := FAILURE,
                pp_array := srv.users.p_users_table.pp_array.map (fun _ => none) } },
          users_txt := srv.users_txt ++ [10] ++
            (c_str (req_p_username p_buffer) ++ [UTF_COLON] ++ c_str (req_p_password p_buffer)) },
        out := [] } := by
  have hlen : (c_str (req_p_username p_buffer) ++ [UTF_COLON] ++
      c_str (req_p_password p_buffer)).length ≤ 62 := by
    have h1 := c_strlen_req_p_username p_buffer
    have h2 := c_strlen_req_p_password p_buffer
    unfold c_strlen at h1 h2
    simp only [List.length_append, List.length_singleton]
    omega
  have hz : 0 ∉ c_str (req_p_username p_buffer) ++ [UTF_COLON] ++
      c_str (req_p_password p_buffer) := by
    simp only [List.mem_append, List.mem_singleton, not_or]
    exact ⟨⟨zero_not_mem_c_str _, by decide⟩, zero_not_mem_c_str _⟩
  have htake := List.take_of_length_le hlen
  have hstr := c_str_eq_self _ hz
  simp only [UTF_COLON, List.append_assoc, List.singleton_append] at htake hstr
  have hw := h_table_new_entry_wraps env.rand srv.users.p_users_table srv.user_mem.length
    (cr_users_new_user (req_p_username p_buffer) (req_p_password p_buffer)).p_username
    h1 h2 hsz hload
  unfold cr_users_register
  simp only [hf, ne_eq, not_true_eq_false, if_false, hv]
  unfold cr_users_reg_helper cr_users_add_user_table
  simp [hw, cr_users_add_user_file, htake, hstr]

/-- A REGISTER request with a valid new name, received in CONNECTED state by
a server whose users table has a capacity of 32767 or more at a load factor
of 0.75 or more: the handler returns `FAILURE` and writes no reply, the
directory finds no user any more, `users.txt` has gained the line all the
same, and the session manager sets the shutdown flag and ends the session. -/
theorem cr_sm_handle_register_wraps (env : env_t) (srv : server_t) (sess : session_t)
    (bytes : List Nat) (hstate : sess.logged_in = NOT_LOGGED_IN)
    (hchat : sess.chatting = NOT_CHATTING)
    (htype : c_byte (recv_buffer bytes) 0 = ACCOUNT_TYPE)
    (hsub : c_byte (recv_buffer bytes) 1 = REGISTER_STYPE)
    (hop : c_byte (recv_buffer bytes) 2 = REQUEST)
    (hlen : bytes.length ≠ 0) (hrun : srv.server_interrupt = CONTINUE)
    (h1 : 32767 ≤ srv.users.p_users_table.capacity)
    (h2 : srv.users.p_users_table.capacity < 65536)
    (hsz : srv.users.p_users_table.size ≤ srv.users.p_users_table.capacity)
    (hload : 3 * srv.users.p_users_table.capacity ≤ 4 * srv.users.p_users_table.size)
    (hf : h_table_return_entry srv.users.p_users_table (req_p_username (recv_buffer bytes)) =
      none)
    (hv : cr_users_chk_usr_and_pass (req_p_username (recv_buffer bytes))
      (req_p_password (recv_buffer bytes)) srv.users.user_count = SUCCESS) :
    (cr_sm_handle env srv sess (recv_buffer bytes)).rc = FAILURE ∧
    (cr_sm_handle env srv sess (recv_buffer bytes)).out = [] ∧
    (∀ k, h_table_return_entry
      (cr_sm_handle env srv sess (recv_buffer bytes)).srv.users.p_users_table k = none) ∧
    (cr_sm_handle env srv sess (recv_buffer bytes)).srv.users_txt =
      srv.users_txt ++ [10] ++ (c_str (req_p_username (recv_buffer bytes)) ++ [UTF_COLON] ++
        c_str (req_p_password (recv_buffer bytes))) ∧
    (cr_sm_session_manager_iter env srv sess (read_t.data bytes)).srv.server_interrupt = STOP ∧
    (cr_sm_session_manager_iter env srv sess (read_t.data bytes)).running = false ∧
    (cr_sm_session_manager_iter env srv sess (read_t.data bytes)).out = [] := by
  have hh : cr_sm_handle env srv sess (recv_buffer bytes) = _ :=
    (cr_sm_handle_register env srv sess (recv_buffer bytes) hstate htype hsub hop).trans
      (congrArg (fun r : res_t => r.with_sess sess)
        (cr_users_register_wraps env srv sess.p_ssl_holder (recv_buffer bytes) h1 h2 hsz hload
          hf hv))
  have hiter : cr_sm_session_manager_iter env srv sess (read_t.data bytes) =
      cr_sm_exit env (signal_handler (cr_sm_handle env srv sess (recv_buffer bytes)).srv)
        (cr_sm_handle env srv sess (recv_buffer bytes)).sess
        (cr_sm_handle env srv sess (recv_buffer bytes)).out := by
    unfold cr_sm_session_manager_iter
    rw [if_neg (by rw [hrun]; decide)]
    simp only []
    rw [if_neg hlen, if_pos (by rw [hh]; rfl)]
  have hclean : ∀ s2 : server_t, cr_sm_session_clean env s2 sess =
      { rc := SUCCESS, srv := s2, sess := sess, out := [] } := by
    intro s2
    unfold cr_sm_session_clean
    simp [hstate, hchat]
  rw [hiter, hh]
  refine ⟨rfl, rfl, ?_, rfl, ?_, rfl, ?_⟩
  · intro k
    exact h_table_return_entry_cleared _ _ _ _
  · unfold cr_sm_exit
    simp only [res_t.with_sess]
    rw [hclean]
    rfl
  · unfold cr_sm_exit
    simp only [res_t.with_sess]
    rw [hclean]
    rfl

/-- A REGISTER request with a valid new zero-padded name, received in
CONNECTED state by a server whose users table is consistent, with a capacity
below 32767 or a load factor below 0.75: the request is acknowledged and the
table holds one entry more, under the name, in at most 32771 slots. -/
theorem cr_sm_handle_register_wide (env : env_t) (srv : server_t) (sess : session_t)
    (p_buffer : List Nat) (hstate : sess.logged_in = NOT_LOGGED_IN)
    (htype : c_byte p_buffer 0 = ACCOUNT_TYPE) (hsub : c_byte p_buffer 1 = REGISTER_STYPE)
    (hop : c_byte p_buffer 2 = REQUEST) (hssl : env.ssl_ok sess.p_ssl_holder = true)
    (hok : h_table_ok srv.users.p_users_table)
    (hsz : srv.users.p_users_table.size ≤ srv.users.p_users_table.capacity)
    (hmax : srv.users.p_users_table.capacity ≤ 32771)
    (hgrow : srv.users.p_users_table.capacity < 32767 ∨
      4 * srv.users.p_users_table.size < 3 * srv.users.p_users_table.capacity)
    (hz : c_zero_filled (req_p_username p_buffer) = true)
    (hv : cr_users_chk_usr_and_pass (req_p_username p_buffer) (req_p_password p_buffer)
      srv.users.user_count = SUCCESS)
    (hf : h_table_return_entry srv.users.p_users_table (req_p_username p_buffer) = none) :
    (cr_sm_handle env srv sess p_buffer).out =
      [{ dest := sess.p_ssl_holder, data := [ACCOUNT_TYPE, REGISTER_STYPE, ACKNOWLEDGE] }] ∧
    (cr_sm_handle env srv sess p_buffer).srv.users.user_count = srv.users.user_count ∧
    (cr_sm_handle env srv sess p_buffer).srv.server_interrupt = srv.server_interrupt ∧
    (cr_sm_handle env srv sess p_buffer).srv.user_mem.length = srv.user_mem.length + 1 ∧
    h_table_ok (cr_sm_handle env srv sess p_buffer).srv.users.p_users_table ∧
    (cr_sm_handle env srv sess p_buffer).srv.users.p_users_table.size ≤
      (cr_sm_handle env srv sess p_buffer).srv.users.p_users_table.capacity ∧
    (cr_sm_handle env srv sess p_buffer).srv.users.p_users_table.capacity ≤ 32771 ∧
    (cr_sm_handle env srv sess p_buffer).srv.users.p_users_table.size =
      srv.users.p_users_table.size + 1 ∧
    ∀ k, key_canonical k →
      h_table_return_entry (cr_sm_handle env srv sess p_buffer).srv.users.p_users_table k =
        if key_chars (req_p_username p_buffer) = key_chars k then some srv.user_mem.length
        else h_table_return_entry srv.users.p_users_table k := by
  have hk := key_canonical_of_zero_filled _ hz
  have hkey : (cr_users_new_user (req_p_username p_buffer) (req_p_password p_buffer)).p_username =
      req_p_username p_buffer := new_user_key_eq p_buffer hz
  obtain ⟨a1, a2, a3, a4, a5, a6⟩ := h_table_new_entry_wide env.rand srv.users.p_users_table
    srv.user_mem.length (req_p_username p_buffer) hok hsz hmax hgrow hk hf
  have hreg := cr_users_register_ok env srv sess.p_ssl_holder p_buffer hssl hf hv
    (by rw [hkey]; exact a1)
  rw [hkey] at hreg
  rw [cr_sm_handle_register env srv sess p_buffer hstate htype hsub hop, hreg]
  refine ⟨rfl, rfl, rfl, ?_, a2, a3, a4, a5, a6⟩
  show (srv.user_mem ++ [_]).length = _
  rw [List.length_append]
  rfl

end RegisterAtLimit
section RegisterMany5

/-- The fields and the header of the frame REGISTER `uNNNNN`, as received. -/
theorem register_numbered_fields (i : Nat) :
    req_p_username (recv_buffer (register_numbered i)) =
      name_numbered i ++ List.replicate 25 0 ∧
    req_p_password (recv_buffer (register_numbered i)) =
      pass_hunter22 ++ List.replicate 23 0 ∧
    c_byte (recv_buffer (register_numbered i)) 0 = ACCOUNT_TYPE ∧
    c_byte (recv_buffer (register_numbered i)) 1 = REGISTER_STYPE ∧
    c_byte (recv_buffer (register_numbered i)) 2 = REQUEST ∧
    (register_numbered i).length ≠ 0 :=
  ⟨rfl, rfl, rfl, rfl, rfl, by
    have h : (register_numbered i).length = 65 := rfl
    rw [h]
    decide⟩

/-- A name `uNNNNN` with the password `hunter22` passes the validation while
`user_count` is 1; the name field is zero-padded and its key characters are
the name. -/
theorem name_numbered_valid (i : Nat) :
    cr_users_chk_usr_and_pass (name_numbered i ++ List.replicate 25 0)
      (pass_hunter22 ++ List.replicate 23 0) 1 = SUCCESS ∧
    c_zero_filled (name_numbered i ++ List.replicate 25 0) = true ∧
    c_zero_filled (pass_hunter22 ++ List.replicate 23 0) = true ∧
    key_chars (name_numbered i ++ List.replicate 25 0) = name_numbered i := by
  have hd : ∀ a, a < 10 → charset_allowed (48 + a) = true := by decide
  have h : ∀ a b c d e, a < 10 → b < 10 → c < 10 → d < 10 → e < 10 →
      cr_users_chk_usr_and_pass ([117, 48 + a, 48 + b, 48 + c, 48 + d, 48 + e] ++
        List.replicate 25 0) (pass_hunter22 ++ List.replicate 23 0) 1 = SUCCESS ∧
      c_zero_filled ([117, 48 + a, 48 + b, 48 + c, 48 + d, 48 + e] ++ List.replicate 25 0) =
        true ∧
      c_zero_filled (pass_hunter22 ++ List.replicate 23 0) = true ∧
      key_chars ([117, 48 + a, 48 + b, 48 + c, 48 + d, 48 + e] ++ List.replicate 25 0) =
        [117, 48 + a, 48 + b, 48 + c, 48 + d, 48 + e] := by
    intro a b c d e ha hb hc hd2 he
    have hz25 : List.replicate 25 0 = 0 :: List.replicate 24 0 := rfl
    have hs : c_str ([117, 48 + a, 48 + b, 48 + c, 48 + d, 48 + e] ++ List.replicate 25 0) =
        [117, 48 + a, 48 + b, 48 + c, 48 + d, 48 + e] := by
      rw [hz25]
      simp [c_str, List.takeWhile_cons]
    have hp : c_str (pass_hunter22 ++ List.replicate 23 0) = pass_hunter22 := by decide
    have hl : c_strlen ([117, 48 + a, 48 + b, 48 + c, 48 + d, 48 + e] ++
        List.replicate 25 0) = 6 := by
      unfold c_strlen
      rw [hs]
      rfl
    refine ⟨?_, ?_, by decide, ?_⟩
    · rw [cr_users_chk_usr_and_pass_eq _ _ _ (by rw [hl]; decide) (by decide), hs, hp]
      have h117 : charset_allowed 117 = true := by decide
      have hpa : pass_hunter22.all charset_allowed = true := by decide
      have hpl : ¬ pass_hunter22.length < 5 := by decide
      rw [if_neg (by simp), if_neg hpl]
      have hall : [117, 48 + a, 48 + b, 48 + c, 48 + d, 48 + e].all charset_allowed = true := by
        simp only [List.all_cons, List.all_nil, h117, hd a ha, hd b hb, hd c hc, hd d hd2,
          hd e he, Bool.and_self]
      rw [hall, hpa]
      rfl
    · unfold c_zero_filled
      rw [hl]
      simp
    · unfold key_chars
      simp [c_str, List.takeWhile_cons, KEY_LENGTH]
  exact h _ _ _ _ _ (Nat.mod_lt _ (by decide)) (Nat.mod_lt _ (by decide))
    (Nat.mod_lt _ (by decide)) (Nat.mod_lt _ (by decide)) (Nat.mod_lt _ (by decide))

/-- The names `uNNNNN` of different numbers below 100000 differ. -/
theorem name_numbered_inj (i j : Nat) (hi : i < 100000) (hj : j < 100000)
    (h : name_numbered i = name_numbered j) : i = j := by
  unfold name_numbered at h
  simp only [List.cons.injEq, and_true, true_and] at h
  omega

/-- A table that finds only `admin` and the names of the numbers 1 to `n`
does not find the name of the number `n + 1`. -/
theorem register_numbered_absent (t : h_table_t) (n : Nat) (hn : n + 1 < 100000)
    (h7 : ∀ k, key_canonical k → h_table_return_entry t k ≠ none →
      key_chars k = admin_text ∨ ∃ i, 1 ≤ i ∧ i ≤ n ∧ key_chars k = name_numbered i) :
    h_table_return_entry t (req_p_username (recv_buffer (register_numbered (n + 1)))) =
      none := by
  obtain ⟨f1, _⟩ := register_numbered_fields (n + 1)
  obtain ⟨_, v2, _, v3⟩ := name_numbered_valid (n + 1)
  by_contra hne
  rw [f1] at hne
  rcases h7 _ (key_canonical_of_zero_filled _ v2) hne with h | ⟨i, hi1, hi2, h⟩
  · rw [v3] at h
    exact absurd h (by unfold name_numbered admin_text; simp)
  · rw [v3] at h
    have := name_numbered_inj (n + 1) i hn (by omega) h
    omega

/-- The registrations of `uNNNNN` on `srv_0`, number after number: either
the first `n` are all acknowledged and leave a consistent users table of
`n + 1` entries in at most 32771 slots, or an earlier number `m` finds the
table, after `m` acknowledged registrations, with a capacity of 32767 or
more at a load factor of 0.75 or more. -/
theorem srv_numbered_inv (n : Nat) (hn : n < 99999) :
    (∃ m, m < n ∧
      (∀ i, i < m →
        (cr_sm_handle env_ok (srv_numbered i) (session_init 1)
          (recv_buffer (register_numbered (i + 1)))).out =
          [{ dest := 1, data := [ACCOUNT_TYPE, REGISTER_STYPE, ACKNOWLEDGE] }]) ∧
      (srv_numbered m).users.user_count = 1 ∧
      (srv_numbered m).server_interrupt = CONTINUE ∧
      (srv_numbered m).users.p_users_table.size ≤
        (srv_numbered m).users.p_users_table.capacity ∧
      (srv_numbered m).users.p_users_table.capacity ≤ 32771 ∧
      32767 ≤ (srv_numbered m).users.p_users_table.capacity ∧
      3 * (srv_numbered m).users.p_users_table.capacity ≤
        4 * (srv_numbered m).users.p_users_table.size ∧
      h_table_return_entry (srv_numbered m).users.p_users_table
        (req_p_username (recv_buffer (register_numbered (m + 1)))) = none) ∨
    ((∀ i, i < n →
        (cr_sm_handle env_ok (srv_numbered i) (session_init 1)
          (recv_buffer (register_numbered (i + 1)))).out =
          [{ dest := 1, data := [ACCOUNT_TYPE, REGISTER_STYPE, ACKNOWLEDGE] }]) ∧
      h_table_ok (srv_numbered n).users.p_users_table ∧
      (srv_numbered n).users.p_users_table.size ≤
        (srv_numbered n).users.p_users_table.capacity ∧
      (srv_numbered n).users.p_users_table.capacity ≤ 32771 ∧
      (srv_numbered n).users.p_users_table.size = n + 1 ∧
      (srv_numbered n).users.user_count = 1 ∧
      (srv_numbered n).server_interrupt = CONTINUE ∧
      (srv_numbered n).user_mem.length = n + 1 ∧
      ∀ k, key_canonical k →
        h_table_return_entry (srv_numbered n).users.p_users_table k ≠ none →
        key_chars k = admin_text ∨ ∃ i, 1 ≤ i ∧ i ≤ n ∧ key_chars k = name_numbered i) := by
  induction n with
  | zero =>
    right
    obtain ⟨i1, i2, i3, i4, i5, i6, i7⟩ := srv_registered_inv 0 (by omega)
    refine ⟨fun i hi => absurd hi (Nat.not_lt_zero i), i1, i2, ?_, i4, i5, by decide, i6, ?_⟩
    · have : (srv_registered 0).users.p_users_table.capacity ≤ 300 := i3
      exact le_trans this (by decide)
    · intro k hk hne
      rcases i7 k hk hne with h | ⟨i, h1, h2, _⟩
      · exact Or.inl h
      · omega
  | succ n ih =>
    rcases ih (by omega) with ⟨m, hm, hrest⟩ | ⟨j0, j1, j2, j3, j4, j5, j6, j7, j8⟩
    · exact Or.inl ⟨m, by omega, hrest⟩
    · have hf := register_numbered_absent (srv_numbered n).users.p_users_table n (by omega) j8
      by_cases hgrow : (srv_numbered n).users.p_users_table.capacity < 32767 ∨
          4 * (srv_numbered n).users.p_users_table.size <
            3 * (srv_numbered n).users.p_users_table.capacity
      · right
        obtain ⟨f1, f2, f3, f4, f5, _⟩ := register_numbered_fields (n + 1)
        obtain ⟨v1, v2, _, v3⟩ := name_numbered_valid (n + 1)
        obtain ⟨s1, s2, s3, s9, s4, s5, s6, s7, s8⟩ := cr_sm_handle_register_wide env_ok
          (srv_numbered n) (session_init 1) (recv_buffer (register_numbered (n + 1))) rfl f3 f4
          f5 rfl j1 j2 j3 hgrow (by rw [f1]; exact v2) (by rw [f1, f2, j5]; exact v1) hf
        have hstep : srv_numbered (n + 1) =
            (cr_sm_handle env_ok (srv_numbered n) (session_init 1)
              (recv_buffer (register_numbered (n + 1)))).srv := rfl
        rw [hstep]
        refine ⟨?_, s4, s5, s6, by rw [s7, j4], by rw [s2, j5], by rw [s3, j6],
          by rw [s9, j7], ?_⟩
        · intro i hi
          by_cases hin : i = n
          · rw [hin]
            exact s1
          · exact j0 i (by omega)
        · intro k hk hne
          rw [s8 k hk] at hne
          by_cases hkk : key_chars (req_p_username (recv_buffer (register_numbered (n + 1)))) =
              key_chars k
          · right
            refine ⟨n + 1, by omega, le_refl _, ?_⟩
            rw [← hkk, f1]
            exact v3
          · rw [if_neg hkk] at hne
            rcases j8 k hk hne with h | ⟨i, h1, h2, h3⟩
            · exact Or.inl h
            · exact Or.inr ⟨i, h1, by omega, h3⟩
      · left
        exact ⟨n, by omega, j0, j5, j6, j2, j3, by omega, by omega, hf⟩

end RegisterMany5
section GrowthClaims

/-- C3 fails when the users table cannot grow any more. For every server
whose users table has a capacity of 32767 or more at a load factor of 0.75
or more, a REGISTER request received in CONNECTED state with a name that is
not found and fields that pass the validation is not acknowledged: the
handler returns `FAILURE` and writes no reply, the directory finds no user
any more, `users.txt` has gained the line all the same, and the session
manager sets the shutdown flag. Such a server is reached from startup by
registrations alone: when a session sends REGISTER `u00001`, `u00002`, ...
with the password `hunter22` to `srv_0`, there is a number `m` below 32771
such that the first `m` registrations are acknowledged and the next one,
whose fields are zero-filled, whose name is not found and which passes the
validation, fails in this way. -/
theorem C3_register_fails_at_last_capacity :
    (∀ (env : env_t) (srv : server_t) (sess : session_t) (bytes : List Nat),
      sess.logged_in = NOT_LOGGED_IN → sess.chatting = NOT_CHATTING →
      c_byte (recv_buffer bytes) 0 = ACCOUNT_TYPE →
      c_byte (recv_buffer bytes) 1 = REGISTER_STYPE →
      c_byte (recv_buffer bytes) 2 = REQUEST →
      bytes.length ≠ 0 → srv.server_interrupt = CONTINUE →
      32767 ≤ srv.users.p_users_table.capacity →
      srv.users.p_users_table.capacity < 65536 →
      srv.users.p_users_table.size ≤ srv.users.p_users_table.capacity →
      3 * srv.users.p_users_table.capacity ≤ 4 * srv.users.p_users_table.size →
      h_table_return_entry srv.users.p_users_table (req_p_username (recv_buffer bytes)) =
        none →
      cr_users_chk_usr_and_pass (req_p_username (recv_buffer bytes))
        (req_p_password (recv_buffer bytes)) srv.users.user_count = SUCCESS →
      (cr_sm_handle env srv sess (recv_buffer bytes)).rc = FAILURE ∧
      (cr_sm_handle env srv sess (recv_buffer bytes)).out = [] ∧
      (∀ k, h_table_return_entry
        (cr_sm_handle env srv sess (recv_buffer bytes)).srv.users.p_users_table k = none) ∧
      (cr_sm_handle env srv sess (recv_buffer bytes)).srv.users_txt =
        srv.users_txt ++ [10] ++ (c_str (req_p_username (recv_buffer bytes)) ++ [UTF_COLON] ++
          c_str (req_p_password (recv_buffer bytes))) ∧
      (cr_sm_session_manager_iter env srv sess (read_t.data bytes)).srv.server_interrupt =
        STOP ∧
      (cr_sm_session_manager_iter env srv sess (read_t.data bytes)).running = false ∧
      (cr_sm_session_manager_iter env srv sess (read_t.data bytes)).out = []) ∧
    (∃ m, m < 32771 ∧
      (∀ i, i < m →
        (cr_sm_handle env_ok (srv_numbered i) (session_init 1)
          (recv_buffer (register_numbered (i + 1)))).out =
          [{ dest := 1, data := [ACCOUNT_TYPE, REGISTER_STYPE, ACKNOWLEDGE] }]) ∧
      c_zero_filled (req_p_username (recv_buffer (register_numbered (m + 1)))) = true ∧
      c_zero_filled (req_p_password (recv_buffer (register_numbered (m + 1)))) = true ∧
      h_table_return_entry (srv_numbered m).users.p_users_table
        (req_p_username (recv_buffer (register_numbered (m + 1)))) = none ∧
      cr_users_chk_usr_and_pass (req_p_username (recv_buffer (register_numbered (m + 1))))
        (req_p_password (recv_buffer (register_numbered (m + 1))))
        (srv_numbered m).users.user_count = SUCCESS ∧
      (cr_sm_handle env_ok (srv_numbered m) (session_init 1)
        (recv_buffer (register_numbered (m + 1)))).rc = FAILURE ∧
      (cr_sm_handle env_ok (srv_numbered m) (session_init 1)
        (recv_buffer (register_numbered (m + 1)))).out = [] ∧
      (∀ k, h_table_return_entry
        (cr_sm_handle env_ok (srv_numbered m) (session_init 1)
          (recv_buffer (register_numbered (m + 1)))).srv.users.p_users_table k = none) ∧
      (cr_sm_session_manager_iter env_ok (srv_numbered m) (session_init 1)
        (read_t.data (register_numbered (m + 1)))).srv.server_interrupt = STOP ∧
      (cr_sm_session_manager_iter env_ok (srv_numbered m) (session_init 1)
        (read_t.data (register_numbered (m + 1)))).out = []) := by
  refine ⟨?_, ?_⟩
  · intro env srv sess bytes hstate hchat htype hsub hop hlen hrun h1 h2 hsz hload hf hv
    exact cr_sm_handle_register_wraps env srv sess bytes hstate hchat htype hsub hop hlen hrun
      h1 h2 hsz hload hf hv
  · rcases srv_numbered_inv 32771 (by decide) with
      ⟨m, hm, k0, k1, k2, k3, k4, k5, k6, k7⟩ | ⟨_, _, j2, j3, j4, _⟩
    · obtain ⟨f1, f2, f3, f4, f5, f6⟩ := register_numbered_fields (m + 1)
      obtain ⟨v1, v2, v3, _⟩ := name_numbered_valid (m + 1)
      have hv : cr_users_chk_usr_and_pass
          (req_p_username (recv_buffer (register_numbered (m + 1))))
          (req_p_password (recv_buffer (register_numbered (m + 1))))
          (srv_numbered m).users.user_count = SUCCESS := by
        rw [f1, f2, k1]
        exact v1
      obtain ⟨w1, w2, w3, _, w5, _, w7⟩ := cr_sm_handle_register_wraps env_ok (srv_numbered m)
        (session_init 1) (register_numbered (m + 1)) rfl rfl f3 f4 f5 f6 k2 k5 (by omega) k3
        k6 k7 hv
      exact ⟨m, hm, k0, by rw [f1]; exact v2, by rw [f2]; exact v3, k7, hv, w1, w2, w3, w5, w7⟩
    · omega

/-- C5 fails at a LOGIN that carries the registered name with another byte
after its terminator: on `srv_0` the REGISTER of `alice` with the password
`hunter22`, both fields zero-filled, is acknowledged and `client_count` is
below `max_client`; the LOGIN whose name field holds `alice`, the terminator
and one more letter, so the same user name, with the same password, handled
next by a session in CONNECTED state, is rejected with USER_DOES_NOT_EXIST,
the session stays in CONNECTED state and `alice` stays logged out. -/
theorem C5_login_after_register_rejected :
    c_zero_filled (req_p_username register_alice) = true ∧
    c_zero_filled (req_p_password register_alice) = true ∧
    (cr_sm_handle env_ok srv_0 (session_init 1) register_alice).out =
      [{ dest := 1, data := [ACCOUNT_TYPE, REGISTER_STYPE, ACKNOWLEDGE] }] ∧
    (cr_sm_handle env_ok srv_0 (session_init 1) register_alice).srv.users.client_count <
      (cr_sm_handle env_ok srv_0 (session_init 1) register_alice).srv.users.max_client ∧
    c_str (req_p_username login_alice_padded) = c_str (req_p_username register_alice) ∧
    c_str (req_p_password login_alice_padded) = c_str (req_p_password register_alice) ∧
    (cr_sm_handle env_ok (cr_sm_handle env_ok srv_0 (session_init 1) register_alice).srv
      (session_init 2) login_alice_padded).rc = SUCCESS ∧
    (cr_sm_handle env_ok (cr_sm_handle env_ok srv_0 (session_init 1) register_alice).srv
      (session_init 2) login_alice_padded).out =
      [{ dest := 2, data := [ACCOUNT_TYPE, LOGIN_STYPE, REJECT, USER_DOES_NOT_EXIST] }] ∧
    (cr_sm_handle env_ok (cr_sm_handle env_ok srv_0 (session_init 1) register_alice).srv
      (session_init 2) login_alice_padded).sess.logged_in = NOT_LOGGED_IN ∧
    (user_at (cr_sm_handle env_ok (cr_sm_handle env_ok srv_0 (session_init 1)
      register_alice).srv (session_init 2) login_alice_padded).srv 1).p_username.take 5 =
      name_alice ∧
    (user_at (cr_sm_handle env_ok (cr_sm_handle env_ok srv_0 (session_init 1)
      register_alice).srv (session_init 2) login_alice_padded).srv 1).login_status =
      NOT_LOGGED_IN := by
  decide

end GrowthClaims

end ChatRoom
